import Mathlib

/-!
# HISE scripting front-end: lexer, pre-pass and recursive-descent parser

A shallow embedding of `hi_scripting/scripting/engine/JavascriptEngineParser.cpp`
(`TokenIterator`, `ExpressionTreeBuilder`, `preprocessCode`, `evaluate`/`execute`).

Conventions of the embedding:

* a character pointer into the null-terminated program text is the list of the
  characters that remain; reading at the end of the text gives the character 0;
* code that throws returns `Res.error` with the message (the file/line/column
  prefix that `CodeLocation::throwError` adds is left out);
* recursive descent is driven by a fuel counter, every call of a parsing
  function costs one unit, and `Res.outOfFuel` is the answer of a run that needs
  more; results that are not `outOfFuel` are stable under more fuel
  (`fuel_mono` below);
* objects reached through pointers in the C++ code (namespaces, inline-function
  objects, callbacks, API classes) are referred to by their position in the
  table that owns them;
* the `CodeLocation` stored in every AST node is left out of the nodes.
-/

namespace Hise

/-! ## Values, tokens and syntax trees -/

/-- The `juce::Identifier` of the engine; `Identifier::null` is the empty name. -/
abbrev Identifier := String

/-- The null identifier `Identifier::null`. -/
def Identifier.null : Identifier := ""

/-- The characters `Identifier::isValidIdentifier` (JUCE library) accepts. -/
def identifierChars : List Char :=
  "abcdefghijklmnopqrstuvwxyzABCDEFGHIJKLMNOPQRSTUVWXYZ0123456789_-:#@$%".toList

/-- `Identifier::isValidIdentifier` (JUCE library): not empty and made of
`identifierChars` only. -/
def Identifier.isValidIdentifier (s : String) : Bool :=
  !s.data.isEmpty && s.data.all (fun c => identifierChars.contains c)

/-- The token kinds `TokenTypes::*` used by the lexer and the parser. The macro
tables `JUCE_JS_KEYWORDS` / `JUCE_JS_OPERATORS` that spell them are not part of
the translated file; see `Host`. -/
inductive TokenType where
  | identifier | literal | eof
  | var | if_ | else_ | do_ | null_ | while_ | for_ | break_ | continue_
  | undefined | function | return_ | true_ | false_ | new_ | typeof_
  | switch_ | case_ | default_ | register_var | in_ | inline_ | const_
  | global_ | local_ | include_ | rLock_ | wLock_ | extern_ | namespace_
  | semicolon | dot | comma | openParen | closeParen | openBrace | closeBrace
  | openBracket | closeBracket | colon | question
  | typeEquals | equals | assign | typeNotEquals | notEquals | logicalNot
  | plusEquals | plusplus | plus | minusEquals | minusminus | minus
  | times | divide | modulo | bitwiseXor | logicalAnd | bitwiseAnd
  | logicalOr | bitwiseOr | leftShiftEquals | lessThanOrEqual | leftShift
  | lessThan | rightShiftUnsigned | rightShiftEquals | rightShift
  | greaterThanOrEqual | greaterThan
deriving DecidableEq, Repr

/-- A `JavascriptNamespace*`: the root namespace (`hiseSpecialData` itself) or
the i-th entry of `hiseSpecialData->namespaces`. -/
inductive NsPtr where
  | root
  | named (i : Nat)
deriving DecidableEq, Repr

/-- An `InlineFunction::Object*`: the namespace owning the object and its
position in that namespace's `inlineFunctions` array. -/
structure InlineRef where
  ns : NsPtr
  index : Nat
deriving DecidableEq, Repr

mutual
/-- The dynamic value `juce::var`. A double keeps the text of its literal
(`CharacterFunctions::getDoubleValue` is not interpreted). -/
inductive Var where
  | void_
  | undefined
  | int (v : Int)
  | int64 (v : Int)
  | bool (b : Bool)
  | double (text : List Char)
  | string (s : String)
  | object (fo : FunctionObject)
/-- The `FunctionObject` built by `parseFunctionDefinition`. -/
inductive FunctionObject where
  | mk (name : Identifier) (parameters : List Identifier) (body : Statement)
      (functionCode : List Char) (commentDoc : String)
/-- Expression nodes created by the parser. -/
inductive Expression where
  | empty
  | LiteralValue (value : Var)
  | UnqualifiedName (name : Identifier)
  | IteratorName (id : Identifier)
  | ParameterReference (f : InlineRef) (index : Nat)
  | LocalReference (f : InlineRef) (id : Identifier)
  | InlineFunctionCall (f : InlineRef) (numArgs : Nat) (parameterExpressions : List Expression)
  | ExternalCFunctionCall (index : Int) (parameterExpressions : List Expression)
  | ApiConstant (value : Var)
  | ApiCall (apiClass : Int) (numArgs : Int) (functionIndex : Int) (argumentList : List Expression)
  | ConstReference (ns : NsPtr) (index : Int)
  | RegisterName (id : Identifier) (ns : NsPtr) (index : Int)
  | GlobalReference (id : Identifier)
  | CallbackParameterReference (callback : Identifier) (index : Nat)
  | CallbackLocalReference (callback : Identifier) (index : Nat)
  | DotOperator (parent : Expression) (child : Identifier)
  | FunctionCall (object : Expression) (arguments : List Expression)
  | NewOperator (object : Expression) (arguments : List Expression)
  | ArraySubscript (object : Expression) (index : Expression)
  | ObjectDeclaration (names : List Identifier) (initialisers : List Expression)
  | ArrayDeclaration (values : List Expression)
  | Assignment (target newValue : Expression)
  | SelfAssignment (target newValue : Expression)
  | PostAssignment (target newValue : Expression)
  | ConditionalOp (condition trueBranch falseBranch : Expression)
  | AdditionOp (a b : Expression)
  | SubtractionOp (a b : Expression)
  | MultiplyOp (a b : Expression)
  | DivideOp (a b : Expression)
  | ModuloOp (a b : Expression)
  | LeftShiftOp (a b : Expression)
  | RightShiftOp (a b : Expression)
  | RightShiftUnsignedOp (a b : Expression)
  | EqualsOp (a b : Expression)
  | NotEqualsOp (a b : Expression)
  | TypeEqualsOp (a b : Expression)
  | TypeNotEqualsOp (a b : Expression)
  | LessThanOp (a b : Expression)
  | LessThanOrEqualOp (a b : Expression)
  | GreaterThanOp (a b : Expression)
  | GreaterThanOrEqualOp (a b : Expression)
  | LogicalAndOp (a b : Expression)
  | LogicalOrOp (a b : Expression)
  | BitwiseAndOp (a b : Expression)
  | BitwiseOrOp (a b : Expression)
  | BitwiseXorOp (a b : Expression)
/-- Statement nodes created by the parser. `expression` is an `Expression`
used where a `Statement*` is expected (`Expression` derives from `Statement`);
`empty` is `new Statement (location)`. -/
inductive Statement where
  | empty
  | expression (e : Expression)
  | BlockStatement (statements : List Statement) (lockStatements : List Statement)
  | IfStatement (condition : Expression) (trueBranch falseBranch : Statement)
  | VarStatement (name : Identifier) (initialiser : Expression)
  | ConstVarStatement (name : Identifier) (initialiser : Expression) (ns : Option NsPtr)
  | RegisterVarStatement (name : Identifier) (varRegister : NsPtr) (initialiser : Expression)
  | GlobalVarStatement (name : Identifier) (initialiser : Expression)
  | LocalVarStatement (ifo : Option InlineRef) (name : Identifier) (initialiser : Expression)
  | CallbackLocalStatement (callback : Identifier) (name : Identifier) (initialiser : Expression)
  | ReturnStatement (returnValue : Expression)
  | BreakStatement
  | ContinueStatement
  | LoopStatement (isDoLoop isIterator : Bool) (initialiser iterator : Option Statement)
      (condition : Expression) (body : Option Statement) (currentIterator : Option Expression)
  | CaseStatement (isNotDefault : Bool) (conditions : List Expression) (body : Option Statement)
  | SwitchStatement (condition : Expression) (cases : List Statement)
      (defaultCase : Option Statement)
  | LockStatement (isReadLock : Bool) (lockedObj : Expression)
end

/-- `var::toString()` as far as the parser uses it: the text of a string, the
decimal digits of an integer, the empty text for `var()`. The text of a double
is given as the text of its literal (`1.5` for the literal `1.5`); the
formatting of `String (double)` is not interpreted. -/
def Var.toString : Var → String
  | .void_ => ""
  | .undefined => "undefined"
  | .int v => ToString.toString v
  | .int64 v => ToString.toString v
  | .bool b => if b then "1" else "0"
  | .double t => String.mk t
  | .string s => s
  | .object _ => "Object"

/-- `var::isString()`. -/
def Var.isString : Var → Bool
  | .string _ => true
  | _ => false

/-! ## Results and the state monad of the embedding -/

/-- Outcome of running a piece of the engine: a value, a thrown error message,
or not enough fuel. -/
inductive Res (α : Type) where
  | ok (a : α)
  | error (msg : String)
  | outOfFuel

/-- A computation over a mutable state of type `σ`. -/
def StM (σ α : Type) := σ → Res (α × σ)

instance (σ : Type) : Monad (StM σ) where
  pure a := fun s => .ok (a, s)
  bind m f := fun s =>
    match m s with
    | .ok (a, s') => f a s'
    | .error e => .error e
    | .outOfFuel => .outOfFuel

/-- Read the state. -/
def StM.get {σ : Type} : StM σ σ := fun s => .ok (s, s)

/-- Change the state. -/
def StM.modify {σ : Type} (f : σ → σ) : StM σ Unit := fun s => .ok ((), f s)

/-- Throw an error message. -/
def StM.throw {σ α : Type} (msg : String) : StM σ α := fun _ => .error msg

/-- Stop for lack of fuel. -/
def StM.outOfFuel {σ α : Type} : StM σ α := fun _ => .outOfFuel

/-! ## Symbol tables (`HiseSpecialData`) -/

/-- A `juce::NamedValueSet`: an ordered list of named values. -/
abbrev NamedValueSet := List (Identifier × Var)

/-- Position of the first element equal to `x`, or -1 (`indexOf` of the JUCE
containers). -/
def indexOf {α : Type} [DecidableEq α] : List α → α → Int
  | [], _ => -1
  | y :: ys, x => if y = x then 0 else
      let r := indexOf ys x
      if r < 0 then -1 else r + 1

/-- `NamedValueSet::indexOf`. -/
def NamedValueSet.indexOf (s : NamedValueSet) (name : Identifier) : Int :=
  Hise.indexOf (s.map Prod.fst) name

/-- `NamedValueSet::contains`. -/
def NamedValueSet.contains (s : NamedValueSet) (name : Identifier) : Bool :=
  (s.map Prod.fst).contains name

/-- `NamedValueSet::set`: overwrite the value of an existing name, or append. -/
def NamedValueSet.set : NamedValueSet → Identifier → Var → NamedValueSet
  | [], name, v => [(name, v)]
  | (n, w) :: rest, name, v =>
      if n = name then (n, v) :: rest else (n, w) :: NamedValueSet.set rest name v

/-- A `DebugableObject::Location`. -/
structure Location where
  fileName : String
  charNumber : Nat

/-- An `InlineFunction::Object`. -/
structure InlineFunctionObject where
  name : Identifier
  parameterNames : List Identifier
  localProperties : NamedValueSet := []
  body : Option Statement := none
  commentDoc : String := ""
  location : Location := ⟨"", 0⟩

/-- Modelled from the spec: the `VarRegister` class ("fixed-slot typed array
keyed by Identifier → index", "maps each identifier to one slot"); its source is
not part of the translated file. The slots in use are listed in order. -/
structure VarRegister where
  registerStackIds : List Identifier := []
  registerStack : List Var := []

/-- Modelled from the spec: `VarRegister::addRegister` - a name that has a slot
keeps it (the value is overwritten), a new name takes the next free slot. -/
def VarRegister.addRegister (r : VarRegister) (name : Identifier) (v : Var) : VarRegister :=
  if r.registerStackIds.contains name then
    { r with registerStack := r.registerStack.set (r.registerStackIds.indexOf name) v }
  else
    { registerStackIds := r.registerStackIds ++ [name], registerStack := r.registerStack ++ [v] }

/-- Modelled from the spec: `VarRegister::getRegisterIndex` - the slot of a
name, or -1. -/
def VarRegister.getRegisterIndex (r : VarRegister) (name : Identifier) : Int :=
  Hise.indexOf r.registerStackIds name

/-- Modelled from the spec: `VarRegister::getNumUsedRegisters`. -/
def VarRegister.getNumUsedRegisters (r : VarRegister) : Nat :=
  r.registerStackIds.length

/-- A `JavascriptNamespace`. -/
structure JavascriptNamespace where
  id : Identifier
  constObjects : NamedValueSet := []
  varRegister : VarRegister := {}
  inlineFunctions : List InlineFunctionObject := []
  constLocations : List Location := []
  registerLocations : List Location := []

/-- An `ApiClass`: a host-registered opaque object, given by the answers of the
methods the parser calls. -/
structure ApiClass where
  getName : String
  getConstantIndex : Identifier → Int
  getConstantValue : Int → Var
  /-- The answer `(functionIndex, numArgs)` of `getIndexAndNumArgsForFunction` -/
  getIndexAndNumArgsForFunction : Identifier → Int × Int

/-- A host-registered `Callback`. -/
structure Callback where
  name : Identifier
  numArgs : Nat
  parameters : List Identifier
  parameterValues : List Var
  localProperties : NamedValueSet := []
  statements : Option Statement := none

/-- `Callback::getVarPointer`: the parameter slot named `id`, if any. -/
def Callback.getVarPointer (c : Callback) (id : Identifier) : Option Nat :=
  let i := Hise.indexOf (c.parameters.take c.numArgs) id
  if i < 0 then none else some i.toNat

/-- An `ExternalCFunction`. -/
structure ExternalCFunction where
  name : Identifier
  hasReturnType : Bool
  arguments : List Identifier
  comment : String
  code : List Char

/-- The number of arguments `ExternalCFunction::numArguments`. -/
def ExternalCFunction.numArguments (f : ExternalCFunction) : Nat := f.arguments.length

/-- An `ExternalFileData` entry of `includedFiles`. -/
structure ExternalFileData where
  f : String
  errorMessage : String := ""

/-- The symbol-table aggregate `HiseSpecialData`; it is itself the root
namespace. `rootProperties` stands for the properties of the root object
(variables made by `var` when a script ran before). -/
structure HiseSpecialData extends JavascriptNamespace where
  namespaces : List JavascriptNamespace := []
  apiIds : List Identifier := []
  apiClasses : List ApiClass := []
  globals : NamedValueSet := []
  externalCFunctions : List ExternalCFunction := []
  callbacks : List Callback := []
  includedFiles : List ExternalFileData := []
  rootProperties : NamedValueSet := []

/-- The engine's tables before anything is registered. -/
def HiseSpecialData.empty : HiseSpecialData := { id := Identifier.null }

/-- Dereference a `JavascriptNamespace*`. A pointer that was made from an entry
of `namespaces` always finds it; the default is never used by the parser. -/
def HiseSpecialData.ns (d : HiseSpecialData) : NsPtr → JavascriptNamespace
  | .root => d.toJavascriptNamespace
  | .named i => d.namespaces.getD i { id := Identifier.null }

/-- Write through a `JavascriptNamespace*`. -/
def HiseSpecialData.modifyNs (d : HiseSpecialData) (p : NsPtr)
    (f : JavascriptNamespace → JavascriptNamespace) : HiseSpecialData :=
  match p with
  | .root => { d with toJavascriptNamespace := f d.toJavascriptNamespace }
  | .named i => { d with namespaces := d.namespaces.modify f i }

/-- `HiseSpecialData::getNamespace`: the named namespace with this id, or null. -/
def HiseSpecialData.getNamespace (d : HiseSpecialData) (id : Identifier) : Option NsPtr :=
  let i := Hise.indexOf (d.namespaces.map (·.id)) id
  if i < 0 then none else some (.named i.toNat)

/-- `HiseSpecialData::getCallback`: the callback with this name, or null. -/
def HiseSpecialData.getCallback (d : HiseSpecialData) (id : Identifier) : Option Callback :=
  d.callbacks.find? (fun c => c.name = id)

/-- Write through a `Callback*` obtained from `getCallback`. -/
def HiseSpecialData.modifyCallback (d : HiseSpecialData) (id : Identifier)
    (f : Callback → Callback) : HiseSpecialData :=
  { d with callbacks :=
      d.callbacks.modify f (Hise.indexOf (d.callbacks.map (·.name)) id).toNat }

/-- `HiseSpecialData::getExternalCIndex`: position of the external C function
with this name, or -1. -/
def HiseSpecialData.getExternalCIndex (d : HiseSpecialData) (id : Identifier) : Int :=
  Hise.indexOf (d.externalCFunctions.map (·.name)) id

/-- The storage kinds of `HiseSpecialData::VariableStorageType`. -/
inductive VariableStorageType where
  | Undeclared | LocalScope | RootScope | Register | ConstVariables | Globals
deriving DecidableEq, Repr

/-- Modelled from the spec: the storage in which a name already lives, for the
uniqueness gate ("consults every table"); the function is not part of the
translated file. -/
def HiseSpecialData.getExistingVariableStorage (d : HiseSpecialData) (name : Identifier) :
    VariableStorageType :=
  if d.constObjects.contains name then .ConstVariables
  else if d.varRegister.getRegisterIndex name ≠ -1 then .Register
  else if d.rootProperties.contains name then .RootScope
  else if d.globals.contains name then .Globals
  else .Undeclared

/-- Modelled from the spec: `checkIfExistsInOtherStorage (kind, id, location)`,
"the single uniqueness gate. Fails if id is already present in any storage other
than kind"; the function is not part of the translated file. -/
def HiseSpecialData.checkIfExistsInOtherStorage {σ : Type} (d : HiseSpecialData)
    (thisType : VariableStorageType) (name : Identifier) : StM σ Unit :=
  let existing := d.getExistingVariableStorage name
  if existing = .Undeclared ∨ existing = thisType then pure ()
  else StM.throw ("Identifier " ++ name ++ " already exists in other storage")

/-! ## The host: token spellings and the include loader -/

/-- What the translated file takes from its surroundings: the spelling tables of
the macros `JUCE_JS_KEYWORDS` and `JUCE_JS_OPERATORS` (in the order of the
macro), and the file access used by `getFileContent`. -/
structure Host where
  keywords : List (List Char × TokenType)
  operators : List (List Char × TokenType)
  /-- The build flag of `getFileContent`. -/
  USE_BACKEND : Bool
  /-- `ProjectHandler::getFilePath` for a script name. -/
  getFilePath : String → String
  /-- `File::getFileName` of a path. -/
  getFileName : String → String
  /-- `File::loadFileAsString`, `none` when the file does not exist. -/
  loadFileAsString : String → Option (List Char)
  /-- `MainController::getExternalScriptFromCollection`. -/
  getExternalScriptFromCollection : String → List Char

/-! ## TokenIterator (the lexer) -/

/-- A `CodeLocation`: the program text, the file name and the cursor. -/
structure CodeLocation where
  program : List Char
  externalFile : String
  location : List Char

/-- The fields of `TokenIterator`. -/
structure TokenIterator where
  location : CodeLocation
  currentType : TokenType
  currentValue : Var
  lastComment : String
  p : List Char

/-- The character under a pointer (`*p`), 0 at the end of the text. -/
def peek (p : List Char) : Char := p.headD (Char.ofNat 0)

/-- `CharacterFunctions::isWhitespace`. -/
def isWhitespace (c : Char) : Bool :=
  c = ' ' || c = '\t' || c = '\n' || c = '\r' || c = Char.ofNat 11 || c = Char.ofNat 12

/-- `CharacterFunctions::isDigit`. -/
def isDigit (c : Char) : Bool := '0' ≤ c && c ≤ '9'

/-- `CharacterFunctions::isLetter`, for the ASCII letters. -/
def isLetter (c : Char) : Bool := ('a' ≤ c && c ≤ 'z') || ('A' ≤ c && c ≤ 'Z')

/-- `TokenIterator::isIdentifierStart`. -/
def isIdentifierStart (c : Char) : Bool := isLetter c || c = '_'

/-- `TokenIterator::isIdentifierBody`. -/
def isIdentifierBody (c : Char) : Bool := isLetter c || isDigit c || c = '_'

/-- `CharacterFunctions::getHexDigitValue`: the value of a hex digit, or -1. -/
def getHexDigitValue (c : Char) : Int :=
  if '0' ≤ c ∧ c ≤ '9' then (c.toNat : Int) - 48
  else if 'a' ≤ c ∧ c ≤ 'f' then (c.toNat : Int) - 87
  else if 'A' ≤ c ∧ c ≤ 'F' then (c.toNat : Int) - 55
  else -1

/-- `isPositiveAndBelow (v, limit)`. -/
def isPositiveAndBelow (v limit : Int) : Bool := 0 ≤ v && v < limit

/-- Arithmetic of `int64`: the result reduced to the signed 64-bit range. -/
def wrapInt64 (v : Int) : Int := (v + 2 ^ 63) % 2 ^ 64 - 2 ^ 63

/-- `String::trim`. -/
def trim (s : List Char) : List Char :=
  ((s.dropWhile isWhitespace).reverse.dropWhile isWhitespace).reverse

/-- `String::upToFirstOccurrenceOf (sub, false, false)`: the text before the
first occurrence of `sub`, the whole text if there is none. -/
def upToFirstOccurrenceOf (sub : List Char) : List Char → List Char
  | [] => []
  | c :: cs => if sub.isPrefixOf (c :: cs) then [] else c :: upToFirstOccurrenceOf sub cs

/-- `String::fromFirstOccurrenceOf (sub, false, false)`: the text after the
first occurrence of `sub`, empty if there is none. -/
def fromFirstOccurrenceOf (sub : List Char) : List Char → List Char
  | [] => []
  | c :: cs => if sub.isPrefixOf (c :: cs) then (c :: cs).drop sub.length
      else fromFirstOccurrenceOf sub cs

/-- `CharacterFunctions::find (p, "*/")`: the pointer moved to the first
occurrence of the text, or to the end. -/
def findSubstring (sub : List Char) : List Char → List Char
  | [] => []
  | c :: cs => if sub.isPrefixOf (c :: cs) then c :: cs else findSubstring sub cs

/-- `CharacterFunctions::find (p, c)`: the pointer moved to the first
occurrence of the character, or to the end. -/
def findChar (c : Char) (p : List Char) : List Char := p.dropWhile (fun d => d ≠ c)

/-- The loop of `TokenIterator::skipWhitespaceAndComments`; `fuel` bounds the
number of rounds. -/
def skipWhitespaceAndCommentsLoop : Nat → StM TokenIterator Unit
  | 0 => StM.outOfFuel
  | fuel + 1 => fun it =>
    let p := it.p.dropWhile isWhitespace
    if peek p = '/' then
      let c2 := peek (p.drop 1)
      if c2 = '/' then
        skipWhitespaceAndCommentsLoop fuel { it with p := findChar '\n' p }
      else if c2 = '*' then
        let lastComment := String.mk (trim (fromFirstOccurrenceOf "/**".toList
          (upToFirstOccurrenceOf "*/".toList p)))
        let q := findSubstring "*/".toList (p.drop 2)
        if q.isEmpty then .error "Unterminated '/*' comment"
        else skipWhitespaceAndCommentsLoop fuel
          { it with location := { it.location with location := p },
                    lastComment := lastComment, p := q.drop 2 }
      else .ok ((), { it with p := p })
    else .ok ((), { it with p := p })

/-- `TokenIterator::skipWhitespaceAndComments`. Every round but the last
consumes at least two characters, so the fuel given here is never used up. -/
def skipWhitespaceAndComments : StM TokenIterator Unit :=
  fun it => skipWhitespaceAndCommentsLoop (it.p.length + 1) it

/-- The character named by the escape `\c` of a quoted string. -/
def escapeChar (c : Char) : Char :=
  if c = 'a' then Char.ofNat 7 else if c = 'b' then Char.ofNat 8
  else if c = 'f' then Char.ofNat 12 else if c = 'n' then '\n'
  else if c = 'r' then '\r' else if c = 't' then '\t' else c

/-- The body of `JSON::parseQuotedString` (JUCE library) after the opening
quote: the characters up to the closing quote, with escapes decoded, and the
rest of the text. -/
def parseQuotedStringBody (quote : Char) : List Char → List Char → Except String (List Char × List Char)
  | [], _ => .error "Unexpected end-of-input in string constant"
  | '\\' :: 'u' :: a :: b :: c :: d :: rest, acc =>
      if getHexDigitValue a < 0 ∨ getHexDigitValue b < 0 ∨ getHexDigitValue c < 0
          ∨ getHexDigitValue d < 0 then
        .error "Syntax error in unicode escape sequence"
      else
        let v := ((getHexDigitValue a * 16 + getHexDigitValue b) * 16 + getHexDigitValue c) * 16
          + getHexDigitValue d
        if v = 0 then .error "Unexpected end-of-input in string constant"
        else parseQuotedStringBody quote rest (Char.ofNat v.toNat :: acc)
  | '\\' :: 'u' :: _, _ => .error "Syntax error in unicode escape sequence"
  | '\\' :: c :: rest, acc => parseQuotedStringBody quote rest (escapeChar c :: acc)
  | ['\\'], _ => .error "Unexpected end-of-input in string constant"
  | c :: rest, acc =>
      if c = quote then .ok (acc.reverse, rest)
      else parseQuotedStringBody quote rest (c :: acc)

/-- `TokenIterator::parseStringLiteral`. -/
def parseStringLiteral (quoteType : Char) : StM TokenIterator Bool := fun it =>
  if quoteType ≠ '"' ∧ quoteType ≠ '\'' then .ok (false, it)
  else
    match parseQuotedStringBody quoteType (it.p.drop 1) [] with
    | .error e => .error e
    | .ok (text, rest) => .ok (true, { it with currentValue := .string (String.mk text), p := rest })

/-- The loop of `parseHexLiteral`: `t` points at the digit read last. -/
def parseHexLiteralLoop : List Char → Int → Int × List Char
  | [], v => (v, [])
  | _ :: t, v =>
    let digit := getHexDigitValue (peek t)
    if digit < 0 then (v, t) else parseHexLiteralLoop t (wrapInt64 (v * 16 + digit))

/-- `TokenIterator::parseHexLiteral`. When the text starts with `0x` but no hex
digit follows, the answer is false and `p` is left on the `x`. -/
def parseHexLiteral : StM TokenIterator Bool := fun it =>
  if peek it.p ≠ '0' ∨ (peek (it.p.drop 1) ≠ 'x' ∧ peek (it.p.drop 1) ≠ 'X') then .ok (false, it)
  else
    let p := it.p.drop 1
    let t := p.drop 1
    let v := getHexDigitValue (peek t)
    if v < 0 then .ok (false, { it with p := p })
    else
      let r := parseHexLiteralLoop t v
      .ok (true, { it with currentValue := .int64 r.1, p := r.2 })

/-- `TokenIterator::parseFloatLiteral`. -/
def parseFloatLiteral : StM TokenIterator Bool := fun it =>
  let digits := it.p.takeWhile isDigit
  let t := it.p.dropWhile isDigit
  let hasPoint : Bool := peek t = '.'
  let fraction := if hasPoint then (t.drop 1).takeWhile isDigit else []
  let t := if hasPoint then (t.drop 1).dropWhile isDigit else t
  let numDigits := digits.length + fraction.length
  if numDigits = 0 then .ok (false, it)
  else
    let c := peek t
    let hasExponent : Bool := c = 'e' || c = 'E'
    let t1 := t.drop 1
    let t2 := if peek t1 = '+' ∨ peek t1 = '-' then t1.drop 1 else t1
    if hasExponent ∧ ¬ isDigit (peek t2) then .ok (false, it)
    else
      let t := if hasExponent then (t2.drop 1).dropWhile isDigit else t
      if ¬ (hasExponent ∨ hasPoint) then .ok (false, it)
      else .ok (true, { it with
        currentValue := .double (it.p.take (it.p.length - t.length)), p := t })

/-- The loop of `parseOctalLiteral`: `t` points at the digit read last. -/
def parseOctalLiteralLoop : List Char → Int → Except String (Int × List Char)
  | [], v => .ok (v, [])
  | _ :: t, v =>
    let digit : Int := (peek t).toNat - 48
    if isPositiveAndBelow digit 8 then parseOctalLiteralLoop t (wrapInt64 (v * 8 + digit))
    else if isPositiveAndBelow digit 10 then .error "Decimal digit in octal constant"
    else .ok (v, t)

/-- `TokenIterator::parseOctalLiteral`. -/
def parseOctalLiteral : StM TokenIterator Bool := fun it =>
  let v : Int := (peek it.p).toNat - 48
  if v ≠ 0 then .ok (false, it)
  else
    match parseOctalLiteralLoop it.p v with
    | .error e => .error e
    | .ok (v, t) => .ok (true, { it with currentValue := .int64 v, p := t })

/-- The loop of `parseDecimalLiteral`. -/
def parseDecimalLiteralLoop : List Char → Int → Int × List Char
  | [], v => (v, [])
  | c :: p, v =>
    let digit : Int := c.toNat - 48
    if isPositiveAndBelow digit 10 then parseDecimalLiteralLoop p (wrapInt64 (v * 10 + digit))
    else (v, c :: p)

/-- `TokenIterator::parseDecimalLiteral`. -/
def parseDecimalLiteral : StM TokenIterator Bool := fun it =>
  let r := parseDecimalLiteralLoop it.p 0
  .ok (true, { it with currentValue := .int64 r.1, p := r.2 })

/-- The operator scan of `matchNextToken` (`JUCE_JS_COMPARE_OPERATOR` for each
row of the table): the first row whose spelling starts the text. -/
def matchOperator : List (List Char × TokenType) → List Char → Option (TokenType × List Char)
  | [], _ => none
  | (str, name) :: rest, p =>
    if str.isPrefixOf p then some (name, p.drop str.length) else matchOperator rest p

/-- The end of `matchNextToken`: the operator table, then the error for a
character that starts no token, then end-of-file. -/
def matchOperatorOrEof (H : Host) : StM TokenIterator TokenType := fun it =>
  match matchOperator H.operators it.p with
  | some (name, p) => .ok (name, { it with p := p })
  | none =>
    if ¬ it.p.isEmpty then
      .error ("Unexpected character '" ++ String.mk [peek it.p] ++ "' in source")
    else .ok (.eof, it)

/-- `TokenIterator::matchNextToken`. -/
def matchNextToken (H : Host) : StM TokenIterator TokenType := fun it =>
  if isIdentifierStart (peek it.p) then
    let span := (it.p.take 1) ++ (it.p.drop 1).takeWhile isIdentifierBody
    let «end» := (it.p.drop 1).dropWhile isIdentifierBody
    match H.keywords.find? (fun k => k.1 = span) with
    | some k => .ok (k.2, { it with p := «end» })
    | none => .ok (.identifier, { it with currentValue := .string (String.mk span), p := «end» })
  else if isDigit (peek it.p) then
    (do
      if (← parseHexLiteral) then pure TokenType.literal
      else if (← parseFloatLiteral) then pure TokenType.literal
      else if (← parseOctalLiteral) then pure TokenType.literal
      else if (← parseDecimalLiteral) then pure TokenType.literal
      else StM.throw "Syntax error in numeric constant") it
  else
    (do
      if (← parseStringLiteral (peek it.p)) then pure TokenType.literal
      else if (← (if peek it.p = '.' then parseFloatLiteral else pure false)) then
        pure TokenType.literal
      else matchOperatorOrEof H) it

/-- `TokenIterator::skip`. -/
def TokenIterator.skip (H : Host) : StM TokenIterator Unit := do
  skipWhitespaceAndComments
  StM.modify (fun it => { it with location := { it.location with location := it.p } })
  let t ← matchNextToken H
  StM.modify (fun it => { it with currentType := t })

/-- The spelling of a token kind in error messages (`getTokenName`); the kinds
are named as in `TokenTypes`. -/
def getTokenName (t : TokenType) : String := reprStr t

/-- `TokenIterator::match`. -/
def TokenIterator.match_ (H : Host) (expected : TokenType) : StM TokenIterator Unit := do
  let it ← StM.get
  if it.currentType ≠ expected then
    StM.throw ("Found " ++ getTokenName it.currentType ++ " when expecting "
      ++ getTokenName expected)
  else TokenIterator.skip H

/-- `TokenIterator::matchIf`. -/
def TokenIterator.matchIf (H : Host) (expected : TokenType) : StM TokenIterator Bool := do
  let it ← StM.get
  if it.currentType = expected then
    TokenIterator.skip H
    pure true
  else pure false

/-- The constructor `TokenIterator (code, externalFile)`. -/
def TokenIterator.new (H : Host) (code : List Char) (externalFile : String) :
    Res TokenIterator :=
  match TokenIterator.skip H
      { location := ⟨code, externalFile, code⟩, currentType := .eof, currentValue := .void_,
        lastComment := "", p := code } with
  | .ok (_, it) => .ok it
  | .error e => .error e
  | .outOfFuel => .outOfFuel

/-! ## ExpressionTreeBuilder (the parser): state and token helpers -/

/-- The fields of `ExpressionTreeBuilder`, a `TokenIterator` with the parser's
own state; `hiseSpecialData` holds the tables the C++ field points to. -/
structure ExpressionTreeBuilder extends TokenIterator where
  hiseSpecialData : HiseSpecialData
  currentlyParsingInlineFunction : Bool := false
  currentlyParsedCallback : Identifier := Identifier.null
  currentNamespace : NsPtr := .root
  currentIterator : Identifier := Identifier.null

/-- A parsing action. -/
abbrev Parser := StM ExpressionTreeBuilder

/-- Run an action of the token iterator on the parser (its base class). -/
def liftIt {α : Type} (m : StM TokenIterator α) : Parser α := fun s =>
  match m s.toTokenIterator with
  | .ok (a, it) => .ok (a, { s with toTokenIterator := it })
  | .error e => .error e
  | .outOfFuel => .outOfFuel

/-- `skip ()` on the parser. -/
def skip (H : Host) : Parser Unit := liftIt (TokenIterator.skip H)

/-- `match (expected)` on the parser. -/
def match_ (H : Host) (expected : TokenType) : Parser Unit :=
  liftIt (TokenIterator.match_ H expected)

/-- `matchIf (expected)` on the parser. -/
def matchIf (H : Host) (expected : TokenType) : Parser Bool :=
  liftIt (TokenIterator.matchIf H expected)

/-- Change the tables `hiseSpecialData` points to. -/
def modifyData (f : HiseSpecialData → HiseSpecialData) : Parser Unit :=
  StM.modify (fun s => { s with hiseSpecialData := f s.hiseSpecialData })

/-- Change one inline-function object. -/
def HiseSpecialData.modifyInlineFunction (d : HiseSpecialData) (r : InlineRef)
    (f : InlineFunctionObject → InlineFunctionObject) : HiseSpecialData :=
  d.modifyNs r.ns (fun x => { x with inlineFunctions := x.inlineFunctions.modify f r.index })

/-- The message used where the C++ code would read through a null pointer. -/
def nullPointer : String := "access through a null pointer"

/-- `ExpressionTreeBuilder::parseIdentifier`. -/
def parseIdentifier (H : Host) : Parser Identifier := do
  let s ← StM.get
  let i : Identifier :=
    if s.currentType = .identifier then s.currentValue.toString else Identifier.null
  match_ H .identifier
  pure i

/-- `ExpressionTreeBuilder::matchEndOfStatement`. -/
def matchEndOfStatement (H : Host) (ex : Expression) : Parser Expression := do
  let s ← StM.get
  if s.currentType ≠ .eof then match_ H .semicolon
  pure ex

/-- `ExpressionTreeBuilder::matchCloseParen`. -/
def matchCloseParen (H : Host) (ex : Expression) : Parser Expression := do
  match_ H .closeParen
  pure ex

/-- `ExpressionTreeBuilder::getFileContent`: the canonical file name and the
text of an included file. -/
def getFileContent (H : Host) (d : HiseSpecialData) (fileNameInScript : String) :
    Except String (String × List Char) :=
  if H.USE_BACKEND then
    let fileName := "\x7bPROJECT_FOLDER\x7d" ++
      String.mk (fileNameInScript.data.filter (fun c => c ≠ '"' ∧ c ≠ '\''))
    let refFileName := H.getFilePath fileName
    match H.loadFileAsString refFileName with
    | none => .error ("File " ++ refFileName ++ " not found")
    | some fileContent =>
      if d.includedFiles.any (fun e => e.f = refFileName) then
        .error ("File " ++ H.getFileName refFileName ++ " was included multiple times")
      else .ok (refFileName, fileContent)
  else
    .ok (fileNameInScript, H.getExternalScriptFromCollection fileNameInScript)

/-- `getInlineFunction (id, ns)`: the first inline function named `id` in the
namespace (the root one for a null `ns`). -/
def getInlineFunction (d : HiseSpecialData) (id : Identifier) (ns : Option NsPtr) :
    Option InlineRef :=
  let p := ns.getD .root
  let i := Hise.indexOf ((d.ns p).inlineFunctions.map (·.name)) id
  if i < 0 then none else some ⟨p, i.toNat⟩

/-- `getRegisterIndex (id, ns)`. -/
def getRegisterIndex (d : HiseSpecialData) (id : Identifier) (ns : Option NsPtr) : Int :=
  (d.ns (ns.getD .root)).varRegister.getRegisterIndex id

/-- `getConstIndex (id, ns)`. -/
def getConstIndex (d : HiseSpecialData) (id : Identifier) (ns : Option NsPtr) : Int :=
  (d.ns (ns.getD .root)).constObjects.indexOf id

/-- `ExpressionTreeBuilder::parseConstExpression`. -/
def parseConstExpression (H : Host) (ns : Option NsPtr) : Parser Expression := do
  let constId ← parseIdentifier H
  let s ← StM.get
  let index := getConstIndex s.hiseSpecialData constId ns
  pure (.ConstReference (ns.getD .root) index)

/-- `ExpressionTreeBuilder::parseApiConstant`. -/
def parseApiConstant (apiClass : ApiClass) (constantName : Identifier) : Parser Expression :=
  pure (.ApiConstant (apiClass.getConstantValue (apiClass.getConstantIndex constantName)))

/-- `ExpressionTreeBuilder::parsePostIncDec<OpType>`. -/
def parsePostIncDec (op : Expression → Expression → Expression) (lhs : Expression) :
    Parser Expression :=
  pure (.PostAssignment lhs (op lhs (.LiteralValue (.int 1))))

/-- The parameter loop of `parseCallback`: `k` parameters remain, `i` is the
loop counter. -/
def parseCallbackParameters (H : Host) (name : Identifier) (numArgs : Nat) :
    Nat → Nat → Parser Unit
  | 0, _ => pure ()
  | k + 1, i => do
    let id ← parseIdentifier H
    modifyData (fun d => d.modifyCallback name (fun c =>
      { c with parameters := c.parameters.set i id,
               parameterValues := c.parameterValues.set i .undefined }))
    if i ≠ numArgs - 1 then match_ H .comma
    parseCallbackParameters H name numArgs k (i + 1)

/-- Run a parser of its own (the `ftb` of `parseExternalFile`) on the token
iterator `it`; it shares `hiseSpecialData` with the running parser. -/
def runNested {α : Type} (it : TokenIterator) (m : Parser α) : Parser α := fun s =>
  match m { toTokenIterator := it, hiseSpecialData := s.hiseSpecialData } with
  | .ok (a, s') => .ok (a, { s with hiseSpecialData := s'.hiseSpecialData })
  | .error e => .error e
  | .outOfFuel => .outOfFuel

/-- The `try` and `catch` of `parseExternalFile`: an error thrown in the block
`m` is noted at `includedFiles.getLast ()` and thrown again (the note is lost
with the tables, which an error does not return); with no included file that is
an access through a null pointer. -/
def catchInclude {α : Type} (m : Parser α) : Parser α := fun s =>
  match m s with
  | .ok r => .ok r
  | .error e =>
    if s.hiseSpecialData.includedFiles.isEmpty then .error nullPointer else .error e
  | .outOfFuel => .outOfFuel

/-- Lift a plain result into a parsing action. -/
def liftRes {α : Type} (r : Res α) : Parser α := fun s =>
  match r with
  | .ok a => .ok (a, s)
  | .error e => .error e
  | .outOfFuel => .outOfFuel

/-- Lift a result that can only fail by throwing. -/
def liftExcept {α : Type} (r : Except String α) : Parser α := fun s =>
  match r with
  | .ok a => .ok (a, s)
  | .error e => .error e

/-- The text between two positions of one program (`String (start, end)`). -/
def textBetween (start «end» : List Char) : List Char :=
  start.take (start.length - «end».length)

/-! ## ExpressionTreeBuilder: the recursive descent

Every function takes the fuel first; a loop of the C++ code is a function of
its own, named after the function that holds it. -/

mutual

/-- The loop of `parseStatementList`. -/
def parseStatementListLoop (H : Host) : Nat → List Statement → List Statement → Parser Statement
  | 0, _, _ => StM.outOfFuel
  | n + 1, statements, lockStatements => do
    let s ← StM.get
    if s.currentType ≠ .closeBrace ∧ s.currentType ≠ .eof then
      let st ← parseStatement H n
      match st with
      | .LockStatement _ _ => parseStatementListLoop H n statements (lockStatements ++ [st])
      | _ => parseStatementListLoop H n (statements ++ [st]) lockStatements
    else pure (.BlockStatement statements lockStatements)

/-- `ExpressionTreeBuilder::parseStatementList`. -/
def parseStatementList (H : Host) : Nat → Parser Statement
  | 0 => StM.outOfFuel
  | n + 1 => parseStatementListLoop H n [] []

/-- The parameter loop of `parseFunctionParamsAndBody`. -/
def parseFunctionParamsLoop (H : Host) : Nat → List Identifier → Parser (List Identifier)
  | 0, _ => StM.outOfFuel
  | n + 1, parameters => do
    let s ← StM.get
    if s.currentType ≠ .closeParen then
      match_ H .identifier
      if (← StM.get).currentType ≠ .closeParen then match_ H .comma
      parseFunctionParamsLoop H n (parameters ++ [s.currentValue.toString])
    else pure parameters

/-- `ExpressionTreeBuilder::parseFunctionParamsAndBody`: the parameters and the
body given to the function object. -/
def parseFunctionParamsAndBody (H : Host) : Nat → Parser (List Identifier × Statement)
  | 0 => StM.outOfFuel
  | n + 1 => do
    match_ H .openParen
    let parameters ← parseFunctionParamsLoop H n []
    match_ H .closeParen
    let body ← parseBlock H n
    pure (parameters, body)

/-- `ExpressionTreeBuilder::parseExpression`. -/
def parseExpression (H : Host) : Nat → Parser Expression
  | 0 => StM.outOfFuel
  | n + 1 => do
    let s ← StM.get
    let id : Identifier :=
      if Identifier.isValidIdentifier s.currentValue.toString then s.currentValue.toString
      else Identifier.null
    let lhs ← parseLogicOperator H n
    if (← matchIf H .in_) then
      let rhs ← parseExpression H n
      StM.modify (fun s => { s with currentIterator := id })
      pure rhs
    else if (← matchIf H .question) then parseTerneryOperator H n lhs
    else if (← matchIf H .assign) then
      let rhs ← parseExpression H n
      pure (.Assignment lhs rhs)
    else if (← matchIf H .plusEquals) then parseInPlaceOpExpression H n .AdditionOp lhs
    else if (← matchIf H .minusEquals) then parseInPlaceOpExpression H n .SubtractionOp lhs
    else if (← matchIf H .leftShiftEquals) then parseInPlaceOpExpression H n .LeftShiftOp lhs
    else if (← matchIf H .rightShiftEquals) then parseInPlaceOpExpression H n .RightShiftOp lhs
    else pure lhs

/-- `ExpressionTreeBuilder::parseInPlaceOpExpression<OpType>`. -/
def parseInPlaceOpExpression (H : Host) :
    Nat → (Expression → Expression → Expression) → Expression → Parser Expression
  | 0, _, _ => StM.outOfFuel
  | n + 1, op, lhs => do
    let rhs ← parseExpression H n
    pure (.SelfAssignment lhs (op lhs rhs))

/-- `ExpressionTreeBuilder::parseBlock`. -/
def parseBlock (H : Host) : Nat → Parser Statement
  | 0 => StM.outOfFuel
  | n + 1 => do
    match_ H .openBrace
    let b ← parseStatementList H n
    match_ H .closeBrace
    pure b

/-- `ExpressionTreeBuilder::parseStatement`. -/
def parseStatement (H : Host) : Nat → Parser Statement
  | 0 => StM.outOfFuel
  | n + 1 => do
    if (← matchIf H .include_) then parseExternalFile H n
    else if (← matchIf H .inline_) then parseInlineFunction H n (← StM.get).currentNamespace
    else if (← StM.get).currentType = .openBrace then parseBlock H n
    else if (← matchIf H .const_) then parseConstVar H n (← StM.get).currentNamespace
    else if (← matchIf H .var) then parseVar H n
    else if (← matchIf H .register_var) then parseRegisterVar H n (← StM.get).currentNamespace
    else if (← matchIf H .global_) then parseGlobalAssignment H n
    else if (← matchIf H .local_) then parseLocalAssignment H n
    else if (← matchIf H .namespace_) then parseNamespace H n
    else if (← matchIf H .if_) then parseIf H n
    else if (← matchIf H .while_) then parseDoOrWhileLoop H n false
    else if (← matchIf H .do_) then parseDoOrWhileLoop H n true
    else if (← matchIf H .for_) then parseForLoop H n
    else if (← matchIf H .return_) then parseReturn H n
    else if (← matchIf H .switch_) then parseSwitchBlock H n
    else if (← matchIf H .break_) then pure .BreakStatement
    else if (← matchIf H .continue_) then pure .ContinueStatement
    else if (← matchIf H .function) then parseFunction H n
    else if (← matchIf H .extern_) then parseExternalCFunction H n
    else if (← matchIf H .semicolon) then pure .empty
    else if (← matchIf H .plusplus) then
      pure (.expression (← parsePreIncDec H n .AdditionOp))
    else if (← matchIf H .minusminus) then
      pure (.expression (← parsePreIncDec H n .SubtractionOp))
    else if (← matchIf H .rLock_) then parseLockStatement H n true
    else if (← matchIf H .wLock_) then parseLockStatement H n false
    else
      let s ← StM.get
      if s.currentType = .openParen ∨ s.currentType = .openBracket then
        let e ← parseFactor H n none
        pure (.expression (← matchEndOfStatement H e))
      else if s.currentType = .identifier ∨ s.currentType = .literal
          ∨ s.currentType = .minus then
        let ex ← parseExpression H n
        pure (.expression (← matchEndOfStatement H ex))
      else
        StM.throw ("Found " ++ getTokenName s.currentType ++ " when expecting a statement")

/-- `ExpressionTreeBuilder::parseExternalFile`. -/
def parseExternalFile (H : Host) : Nat → Parser Statement
  | 0 => StM.outOfFuel
  | n + 1 => do
    match_ H .openParen
    let s ← StM.get
    let (refFileName, fileContent) ←
      liftExcept (getFileContent H s.hiseSpecialData s.currentValue.toString)
    if fileContent.isEmpty then
      match_ H .literal
      match_ H .closeParen
      match_ H .semicolon
      pure .empty
    else
      if H.USE_BACKEND then
        modifyData (fun d => { d with includedFiles := d.includedFiles ++ [{ f := refFileName }] })
      catchInclude (do
        let ftb ← liftRes (TokenIterator.new H fileContent refFileName)
        let b ← runNested ftb (parseStatementList H n)
        match_ H .literal
        match_ H .closeParen
        match_ H .semicolon
        pure b)

/-- `ExpressionTreeBuilder::parseIf`. -/
def parseIf (H : Host) : Nat → Parser Statement
  | 0 => StM.outOfFuel
  | n + 1 => do
    match_ H .openParen
    let condition ← parseExpression H n
    match_ H .closeParen
    let trueBranch ← parseStatement H n
    if (← matchIf H .else_) then
      let falseBranch ← parseStatement H n
      pure (.IfStatement condition trueBranch falseBranch)
    else pure (.IfStatement condition trueBranch .empty)

/-- `ExpressionTreeBuilder::parseReturn`. -/
def parseReturn (H : Host) : Nat → Parser Statement
  | 0 => StM.outOfFuel
  | n + 1 => do
    if (← matchIf H .semicolon) then pure (.ReturnStatement .empty)
    else
      let e ← parseExpression H n
      let _ ← matchIf H .semicolon
      pure (.ReturnStatement e)

/-- `ExpressionTreeBuilder::parseVar`. -/
def parseVar (H : Host) : Nat → Parser Statement
  | 0 => StM.outOfFuel
  | n + 1 => do
    let name ← parseIdentifier H
    (← StM.get).hiseSpecialData.checkIfExistsInOtherStorage .RootScope name
    let initialiser ← if (← matchIf H .assign) then parseExpression H n else pure .empty
    if (← matchIf H .comma) then
      let rest ← parseVar H n
      pure (.BlockStatement [.VarStatement name initialiser, rest] [])
    else
      match_ H .semicolon
      pure (.VarStatement name initialiser)

/-- `ExpressionTreeBuilder::parseConstVar`. -/
def parseConstVar (H : Host) : Nat → NsPtr → Parser Statement
  | 0, _ => StM.outOfFuel
  | n + 1, ns => do
    let _ ← matchIf H .var
    let name ← parseIdentifier H
    (← StM.get).hiseSpecialData.checkIfExistsInOtherStorage .ConstVariables name
    let initialiser ← if (← matchIf H .assign) then parseExpression H n else pure .empty
    if (← matchIf H .comma) then
      let rest ← parseVar H n
      pure (.BlockStatement [.ConstVarStatement name initialiser none, rest] [])
    else
      modifyData (fun d => d.modifyNs ns (fun x =>
        { x with constObjects := x.constObjects.set name (.string "uninitialised") }))
      pure (.ConstVarStatement name initialiser (some ns))

/-- `ExpressionTreeBuilder::parseRegisterVar` without a `preparser` (the main
parse). -/
def parseRegisterVar (H : Host) : Nat → NsPtr → Parser Statement
  | 0, _ => StM.outOfFuel
  | n + 1, ns => do
    let name ← parseIdentifier H
    (← StM.get).hiseSpecialData.checkIfExistsInOtherStorage .Register name
    let initialiser ← if (← matchIf H .assign) then parseExpression H n else pure .empty
    if (← matchIf H .comma) then
      let rest ← parseVar H n
      pure (.BlockStatement [.RegisterVarStatement name ns initialiser, rest] [])
    else
      match_ H .semicolon
      pure (.RegisterVarStatement name ns initialiser)

/-- `ExpressionTreeBuilder::parseLockStatement`. -/
def parseLockStatement (H : Host) : Nat → Bool → Parser Statement
  | 0, _ => StM.outOfFuel
  | n + 1, isReadLock => do
    match_ H .openParen
    let lockedObj ← parseFactor H n none
    match_ H .closeParen
    match_ H .semicolon
    pure (.LockStatement isReadLock lockedObj)

/-- `ExpressionTreeBuilder::parseGlobalAssignment`. -/
def parseGlobalAssignment (H : Host) : Nat → Parser Statement
  | 0 => StM.outOfFuel
  | n + 1 => do
    let name ← parseIdentifier H
    modifyData (fun d =>
      if d.globals.contains name then d else { d with globals := d.globals.set name .undefined })
    let initialiser ← if (← matchIf H .assign) then parseExpression H n else pure .empty
    if (← matchIf H .comma) then
      let rest ← parseVar H n
      pure (.BlockStatement [.GlobalVarStatement name initialiser, rest] [])
    else
      match_ H .semicolon
      pure (.GlobalVarStatement name initialiser)

/-- `ExpressionTreeBuilder::parseLocalAssignment`. -/
def parseLocalAssignment (H : Host) : Nat → Parser Statement
  | 0 => StM.outOfFuel
  | n + 1 => do
    let s ← StM.get
    if s.currentlyParsingInlineFunction then
      let fns := (s.hiseSpecialData.ns s.currentNamespace).inlineFunctions
      let ifo : Option InlineRef :=
        if fns.isEmpty then none else some ⟨s.currentNamespace, fns.length - 1⟩
      let name ← parseIdentifier H
      (← StM.get).hiseSpecialData.checkIfExistsInOtherStorage .LocalScope name
      match ifo with
      | none => StM.throw nullPointer
      | some f =>
        modifyData (fun d => d.modifyInlineFunction f (fun o =>
          { o with localProperties := o.localProperties.set name .undefined }))
        let initialiser ← if (← matchIf H .assign) then parseExpression H n else pure .empty
        if (← matchIf H .comma) then
          let rest ← parseVar H n
          pure (.BlockStatement [.LocalVarStatement ifo name initialiser, rest] [])
        else
          match_ H .semicolon
          pure (.LocalVarStatement ifo name initialiser)
    else if s.currentlyParsedCallback ≠ Identifier.null then
      let callback := s.currentlyParsedCallback
      let name ← parseIdentifier H
      (← StM.get).hiseSpecialData.checkIfExistsInOtherStorage .LocalScope name
      match s.hiseSpecialData.getCallback callback with
      | none => StM.throw nullPointer
      | some _ =>
        modifyData (fun d => d.modifyCallback callback (fun c =>
          { c with localProperties := c.localProperties.set name .void_ }))
        let initialiser ← if (← matchIf H .assign) then parseExpression H n else pure .empty
        if (← matchIf H .comma) then
          let rest ← parseVar H n
          pure (.BlockStatement [.CallbackLocalStatement callback name initialiser, rest] [])
        else
          match_ H .semicolon
          pure (.CallbackLocalStatement callback name initialiser)
    else StM.throw "Cannot define local variables outside of inline functions or callbacks."

/-- `ExpressionTreeBuilder::parseCallback`. -/
def parseCallback (H : Host) : Nat → Parser Statement
  | 0 => StM.outOfFuel
  | n + 1 => do
    let name ← parseIdentifier H
    match (← StM.get).hiseSpecialData.getCallback name with
    | none => StM.throw nullPointer
    | some c =>
      match_ H .openParen
      parseCallbackParameters H name c.numArgs c.numArgs 0
      match_ H .closeParen
      StM.modify (fun s => { s with currentlyParsedCallback := name })
      let b ← parseBlock H n
      StM.modify (fun s => { s with currentlyParsedCallback := Identifier.null })
      modifyData (fun d => d.modifyCallback name (fun c => { c with statements := some b }))
      pure .empty

/-- `ExpressionTreeBuilder::parseNamespace`. -/
def parseNamespace (H : Host) : Nat → Parser Statement
  | 0 => StM.outOfFuel
  | n + 1 => do
    let namespaceId ← parseIdentifier H
    match (← StM.get).hiseSpecialData.getNamespace namespaceId with
    | none => StM.throw "Error at parsing namespace"
    | some ns =>
      StM.modify (fun s => { s with currentNamespace := ns })
      let block ← parseBlock H n
      StM.modify (fun s => { s with currentNamespace := .root })
      pure block

/-- `ExpressionTreeBuilder::parseFunction`. -/
def parseFunction (H : Host) : Nat → Parser Statement
  | 0 => StM.outOfFuel
  | n + 1 => do
    let s ← StM.get
    if (s.hiseSpecialData.getCallback s.currentValue.toString).isSome then parseCallback H n
    else
      let (fn, name) ← parseFunctionDefinition H n
      if name = Identifier.null then
        StM.throw "Functions defined at statement-level must have a name"
      else pure (.expression (.Assignment (.UnqualifiedName name) (.LiteralValue fn)))

/-- The argument loop shared by `parseInlineFunctionCall`,
`parseExternalCFunctionCall`, `parseFunctionCall` and the array literal of
`parseFactor`: expressions separated by commas up to the token `close`. -/
def parseArgumentsLoop (H : Host) : Nat → TokenType → List Expression → Parser (List Expression)
  | 0, _, _ => StM.outOfFuel
  | n + 1, close, args => do
    if (← StM.get).currentType ≠ close then
      let e ← parseExpression H n
      if (← StM.get).currentType ≠ close then match_ H .comma
      parseArgumentsLoop H n close (args ++ [e])
    else pure args

/-- `ExpressionTreeBuilder::parseInlineFunctionCall`. -/
def parseInlineFunctionCall (H : Host) : Nat → InlineRef → Parser Expression
  | 0, _ => StM.outOfFuel
  | n + 1, obj => do
    let s ← StM.get
    match (s.hiseSpecialData.ns obj.ns).inlineFunctions.get? obj.index with
    | none => StM.throw nullPointer
    | some o =>
      let numArgs := o.parameterNames.length
      let _ ← parseIdentifier H
      match_ H .openParen
      let parameterExpressions ← parseArgumentsLoop H n .closeParen []
      if numArgs ≠ parameterExpressions.length then
        StM.throw ("Inline function call " ++ o.name ++ ": parameter amount mismatch: "
          ++ toString parameterExpressions.length ++ " (Expected: " ++ toString numArgs ++ ")")
      else matchCloseParen H (.InlineFunctionCall obj numArgs parameterExpressions)

/-- The loop of `parseInlineFunction` that skips the parameter list. -/
def parseInlineFunctionSkipLoop (H : Host) : Nat → Parser Unit
  | 0 => StM.outOfFuel
  | n + 1 => do
    if (← StM.get).currentType ≠ .closeParen then
      skip H
      parseInlineFunctionSkipLoop H n
    else pure ()

/-- `ExpressionTreeBuilder::parseInlineFunction` without a `preparser` (the
main parse). The search loop leaves `o` on the first object with the name, or
on the last object of the list when no name fits. -/
def parseInlineFunction (H : Host) : Nat → NsPtr → Parser Statement
  | 0, _ => StM.outOfFuel
  | n + 1, ns => do
    if (← StM.get).currentlyParsingInlineFunction then
      StM.throw "No nested inline functions allowed."
    else
      match_ H .function
      let name ← parseIdentifier H
      match_ H .openParen
      parseInlineFunctionSkipLoop H n
      match_ H .closeParen
      StM.modify (fun s => { s with currentlyParsingInlineFunction := true })
      let s ← StM.get
      let fns := (s.hiseSpecialData.ns ns).inlineFunctions
      let found := Hise.indexOf (fns.map (·.name)) name
      let o : Option Nat :=
        if 0 ≤ found then some found.toNat
        else if fns.isEmpty then none else some (fns.length - 1)
      match o with
      | some i =>
        modifyData (fun d => d.modifyInlineFunction ⟨ns, i⟩ (fun o =>
          { o with commentDoc := s.lastComment }))
        StM.modify (fun s => { s with lastComment := "" })
        let body ← parseBlock H n
        modifyData (fun d => d.modifyInlineFunction ⟨ns, i⟩ (fun o => { o with body := some body }))
        StM.modify (fun s => { s with currentlyParsingInlineFunction := false })
        let _ ← matchIf H .semicolon
        pure .empty
      | none => StM.throw "Error at inline function parsing"

/-- The argument loop of `parseExternalCFunction`. -/
def parseExternalCArgumentsLoop (H : Host) : Nat → List Identifier → Parser (List Identifier)
  | 0, _ => StM.outOfFuel
  | n + 1, arguments => do
    if (← StM.get).currentType ≠ .closeParen then
      match_ H .var
      let arg := (← StM.get).currentValue.toString
      match_ H .identifier
      if (← StM.get).currentType ≠ .closeParen then match_ H .comma
      parseExternalCArgumentsLoop H n (arguments ++ [arg])
    else pure arguments

/-- The loop of `parseExternalCFunction` that skips the body. -/
def parseExternalCBodyLoop (H : Host) : Nat → Int → Parser Unit
  | 0, _ => StM.outOfFuel
  | n + 1, braceLevel => do
    let s ← StM.get
    if 0 ≤ braceLevel ∧ s.currentType ≠ .eof then
      let b1 := if s.currentType = .openBrace then braceLevel + 1 else braceLevel
      let b2 := if s.currentType = .closeBrace then b1 - 1 else b1
      skip H
      parseExternalCBodyLoop H n b2
    else pure ()

/-- `ExpressionTreeBuilder::parseExternalCFunction`. -/
def parseExternalCFunction (H : Host) : Nat → Parser Statement
  | 0 => StM.outOfFuel
  | n + 1 => do
    match_ H .literal
    match_ H .openBrace
    let start := (← StM.get).location.location
    let hasReturnType := decide ((← parseIdentifier H) ≠ "void")
    let name ← parseIdentifier H
    let comment := (← StM.get).lastComment
    match_ H .openParen
    let arguments ← parseExternalCArgumentsLoop H n []
    match_ H .closeParen
    parseExternalCBodyLoop H n 0
    let «end» := (← StM.get).location.location
    let cCode := (textBetween start «end»).dropLast
    modifyData (fun d => { d with externalCFunctions := d.externalCFunctions ++
      [{ name := name, hasReturnType := hasReturnType, arguments := arguments,
         comment := comment, code := cCode }] })
    pure .empty

/-- `ExpressionTreeBuilder::parseExternalCFunctionCall`. -/
def parseExternalCFunctionCall (H : Host) : Nat → Parser Expression
  | 0 => StM.outOfFuel
  | n + 1 => do
    let name ← parseIdentifier H
    let s ← StM.get
    let index := s.hiseSpecialData.getExternalCIndex name
    match s.hiseSpecialData.externalCFunctions.get? index.toNat with
    | none => StM.throw nullPointer
    | some cFunc =>
      match_ H .openParen
      let parameterExpressions ← parseArgumentsLoop H n .closeParen []
      if parameterExpressions.length ≠ cFunc.numArguments then
        StM.throw ("External C function call " ++ name ++ ": parameter amount mismatch: "
          ++ toString parameterExpressions.length ++ " (Expected: "
          ++ toString cFunc.numArguments ++ ")")
      else matchCloseParen H (.ExternalCFunctionCall index parameterExpressions)

/-- The statement loop of `parseCaseStatement`. -/
def parseCaseStatementLoop (H : Host) : Nat → List Statement → Parser (List Statement)
  | 0, _ => StM.outOfFuel
  | n + 1, statements => do
    let s ← StM.get
    if s.currentType ≠ .case_ ∧ s.currentType ≠ .closeBrace ∧ s.currentType ≠ .default_ then
      let st ← parseStatement H n
      parseCaseStatementLoop H n (statements ++ [st])
    else pure statements

/-- `ExpressionTreeBuilder::parseCaseStatement`. -/
def parseCaseStatement (H : Host) : Nat → Parser Statement
  | 0 => StM.outOfFuel
  | n + 1 => do
    let isNotDefaultCase := decide ((← StM.get).currentType = .case_)
    skip H
    let conditions ← if isNotDefaultCase then (do pure [← parseExpression H n]) else pure []
    match_ H .colon
    let s ← StM.get
    if s.currentType = .openBrace then
      let body ← parseBlock H n
      pure (.CaseStatement isNotDefaultCase conditions (some body))
    else if s.currentType = .case_ ∨ s.currentType = .default_
        ∨ s.currentType = .closeBrace then
      pure (.CaseStatement isNotDefaultCase conditions none)
    else
      let statements ← parseCaseStatementLoop H n []
      pure (.CaseStatement isNotDefaultCase conditions (some (.BlockStatement statements [])))

/-- The loop of `parseSwitchBlock`. -/
def parseSwitchBlockLoop (H : Host) :
    Nat → List Expression → List Statement → Option Statement →
      Parser (List Statement × Option Statement)
  | 0, _, _, _ => StM.outOfFuel
  | n + 1, emptyCaseConditions, cases, defaultCase => do
    let s ← StM.get
    if s.currentType = .case_ ∨ s.currentType = .default_ then
      let caseStatement ← parseCaseStatement H n
      match caseStatement with
      | .CaseStatement isNotDefault conditions none =>
        let _ := isNotDefault
        parseSwitchBlockLoop H n (emptyCaseConditions ++ conditions) cases defaultCase
      | .CaseStatement isNotDefault conditions (some body) =>
        let c := Statement.CaseStatement isNotDefault (conditions ++ emptyCaseConditions)
          (some body)
        if isNotDefault then parseSwitchBlockLoop H n [] (cases ++ [c]) defaultCase
        else parseSwitchBlockLoop H n [] cases (some c)
      | _ => parseSwitchBlockLoop H n emptyCaseConditions cases defaultCase
    else pure (cases, defaultCase)

/-- `ExpressionTreeBuilder::parseSwitchBlock`. -/
def parseSwitchBlock (H : Host) : Nat → Parser Statement
  | 0 => StM.outOfFuel
  | n + 1 => do
    match_ H .openParen
    let condition ← parseExpression H n
    match_ H .closeParen
    match_ H .openBrace
    let (cases, defaultCase) ← parseSwitchBlockLoop H n [] [] none
    match_ H .closeBrace
    pure (.SwitchStatement condition cases defaultCase)

/-- `ExpressionTreeBuilder::parseForLoop`. -/
def parseForLoop (H : Host) : Nat → Parser Statement
  | 0 => StM.outOfFuel
  | n + 1 => do
    match_ H .openParen
    let isVarInitialiser ← matchIf H .var
    let iter ← parseExpression H n
    if !isVarInitialiser ∧ (← StM.get).currentType = .closeParen then
      match_ H .closeParen
      let body ← parseStatement H n
      pure (.LoopStatement false true none none (.LiteralValue (.bool true)) (some body)
        (some iter))
    else
      let initialiser ← matchEndOfStatement H iter
      let condition ←
        if (← matchIf H .semicolon) then pure (Expression.LiteralValue (.bool true))
        else (do
          let c ← parseExpression H n
          match_ H .semicolon
          pure c)
      let iterator ←
        if (← matchIf H .closeParen) then pure Statement.empty
        else (do
          let e ← parseExpression H n
          match_ H .closeParen
          pure (Statement.expression e))
      let body ← parseStatement H n
      pure (.LoopStatement false false (some (.expression initialiser)) (some iterator)
        condition (some body) none)

/-- `ExpressionTreeBuilder::parseDoOrWhileLoop`. -/
def parseDoOrWhileLoop (H : Host) : Nat → Bool → Parser Statement
  | 0, _ => StM.outOfFuel
  | n + 1, isDoLoop => do
    if isDoLoop then
      let body ← parseBlock H n
      match_ H .while_
      match_ H .openParen
      let condition ← parseExpression H n
      match_ H .closeParen
      pure (.LoopStatement true false (some .empty) (some .empty) condition (some body) none)
    else
      match_ H .openParen
      let condition ← parseExpression H n
      match_ H .closeParen
      let body ← parseStatement H n
      pure (.LoopStatement false false (some .empty) (some .empty) condition (some body) none)

/-- `ExpressionTreeBuilder::parseFunctionDefinition`: the function object as a
`var`, and the name written to `functionName`. -/
def parseFunctionDefinition (H : Host) : Nat → Parser (Var × Identifier)
  | 0 => StM.outOfFuel
  | n + 1 => do
    let s ← StM.get
    let functionStart := s.location.location
    let functionName ← if s.currentType = .identifier then parseIdentifier H
      else pure Identifier.null
    let (parameters, body) ← parseFunctionParamsAndBody H n
    let s ← StM.get
    let functionCode := textBetween functionStart s.location.location
    StM.modify (fun s => { s with lastComment := "" })
    pure (.object (.mk functionName parameters body functionCode s.lastComment), functionName)

/-- `ExpressionTreeBuilder::parseFunctionCall`; `isNew` tells a `NewOperator`
node from a `FunctionCall` node. -/
def parseFunctionCall (H : Host) : Nat → Bool → Expression → Parser Expression
  | 0, _, _ => StM.outOfFuel
  | n + 1, isNew, function => do
    match_ H .openParen
    let arguments ← parseArgumentsLoop H n .closeParen []
    matchCloseParen H (if isNew then .NewOperator function arguments
      else .FunctionCall function arguments)

/-- `ExpressionTreeBuilder::parseApiExpression`. -/
def parseApiExpression (H : Host) : Nat → Parser Expression
  | 0 => StM.outOfFuel
  | n + 1 => do
    let apiId ← parseIdentifier H
    let s ← StM.get
    let apiIndex := Hise.indexOf s.hiseSpecialData.apiIds apiId
    match s.hiseSpecialData.apiClasses.get? apiIndex.toNat with
    | none => StM.throw nullPointer
    | some apiClass =>
      match_ H .dot
      let memberName ← parseIdentifier H
      if apiClass.getConstantIndex memberName ≠ -1 then parseApiConstant apiClass memberName
      else parseApiCall H n apiIndex apiClass memberName

/-- The argument loop of `parseApiCall`. -/
def parseApiCallLoop (H : Host) :
    Nat → String → Int → List Expression → Parser (List Expression)
  | 0, _, _, _ => StM.outOfFuel
  | n + 1, prettyName, numArgs, argumentList => do
    if (← StM.get).currentType ≠ .closeParen then
      if (argumentList.length : Int) < numArgs then
        let e ← parseExpression H n
        if (← StM.get).currentType ≠ .closeParen then match_ H .comma
        parseApiCallLoop H n prettyName numArgs (argumentList ++ [e])
      else
        StM.throw ("Too many arguments in API call " ++ prettyName ++ "(). Expected: "
          ++ toString numArgs)
    else pure argumentList

/-- `ExpressionTreeBuilder::parseApiCall`. -/
def parseApiCall (H : Host) : Nat → Int → ApiClass → Identifier → Parser Expression
  | 0, _, _, _ => StM.outOfFuel
  | n + 1, apiIndex, apiClass, functionName => do
    let (functionIndex, numArgs) := apiClass.getIndexAndNumArgsForFunction functionName
    let prettyName := apiClass.getName ++ "." ++ functionName
    if functionIndex < 0 then StM.throw ("Function / constant not found: " ++ prettyName)
    else
      match_ H .openParen
      let argumentList ← parseApiCallLoop H n prettyName numArgs []
      if numArgs ≠ argumentList.length then
        StM.throw ("Call to " ++ prettyName ++ "(): argument number mismatch : "
          ++ toString argumentList.length ++ " (Expected : " ++ toString numArgs ++ ")")
      else matchCloseParen H (.ApiCall apiIndex numArgs functionIndex argumentList)

/-- `ExpressionTreeBuilder::parseSuffixes`. -/
def parseSuffixes (H : Host) : Nat → Expression → Parser Expression
  | 0, _ => StM.outOfFuel
  | n + 1, input => do
    if (← matchIf H .dot) then
      let child ← parseIdentifier H
      parseSuffixes H n (.DotOperator input child)
    else if (← StM.get).currentType = .openParen then
      let call ← parseFunctionCall H n false input
      parseSuffixes H n call
    else if (← matchIf H .openBracket) then
      let index ← parseExpression H n
      match_ H .closeBracket
      parseSuffixes H n (.ArraySubscript input index)
    else if (← matchIf H .plusplus) then parsePostIncDec .AdditionOp input
    else if (← matchIf H .minusminus) then parsePostIncDec .SubtractionOp input
    else pure input

/-- The property loop of the object literal in `parseFactor`. -/
def parseObjectDeclarationLoop (H : Host) :
    Nat → List Identifier → List Expression → Parser Expression
  | 0, _, _ => StM.outOfFuel
  | n + 1, names, initialisers => do
    let s ← StM.get
    if s.currentType ≠ .closeBrace then
      match_ H (if s.currentType = .literal ∧ s.currentValue.isString then .literal
        else .identifier)
      match_ H .colon
      let e ← parseExpression H n
      if (← StM.get).currentType ≠ .closeBrace then match_ H .comma
      parseObjectDeclarationLoop H n (names ++ [s.currentValue.toString]) (initialisers ++ [e])
    else pure (.ObjectDeclaration names initialisers)

/-- The loop of the `new` expression in `parseFactor` that reads `.name`s. -/
def parseNewLoop (H : Host) : Nat → Expression → Parser Expression
  | 0, _ => StM.outOfFuel
  | n + 1, name => do
    if (← matchIf H .dot) then
      let child ← parseIdentifier H
      parseNewLoop H n (.DotOperator name child)
    else pure name

/-- `ExpressionTreeBuilder::parseFactor`. -/
def parseFactor (H : Host) : Nat → Option NsPtr → Parser Expression
  | 0, _ => StM.outOfFuel
  | n + 1, ns => do
    let s ← StM.get
    if s.currentType = .identifier then
      let id : Identifier := s.currentValue.toString
      let d := s.hiseSpecialData
      let ns : Option NsPtr := if s.currentNamespace ≠ .root then some s.currentNamespace else ns
      let fns := (d.ns (ns.getD .root)).inlineFunctions
      if id = s.currentIterator then
        let i ← parseIdentifier H
        parseSuffixes H n (.IteratorName i)
      else if s.currentlyParsingInlineFunction ∧ fns.isEmpty then StM.throw nullPointer
      else if s.currentlyParsingInlineFunction
          ∧ 0 ≤ Hise.indexOf (fns.getLast?.elim [] (·.parameterNames)) id then
        let _ ← parseIdentifier H
        parseSuffixes H n (.ParameterReference ⟨ns.getD .root, fns.length - 1⟩
          (Hise.indexOf (fns.getLast?.elim [] (·.parameterNames)) id).toNat)
      else if s.currentlyParsingInlineFunction
          ∧ 0 ≤ NamedValueSet.indexOf (fns.getLast?.elim [] (·.localProperties)) id then
        let _ ← parseIdentifier H
        parseSuffixes H n (.LocalReference ⟨ns.getD .root, fns.length - 1⟩ id)
      else
        let namespaceForId : Option NsPtr := if ns = none then d.getNamespace id else none
        match namespaceForId with
        | some nsForId =>
          match_ H .identifier
          match_ H .dot
          parseFactor H n (some nsForId)
        | none =>
          let obj := getInlineFunction d id ns
          let registerIndex := getRegisterIndex d id ns
          let apiClassIndex := Hise.indexOf d.apiIds id
          let constIndex := getConstIndex d id ns
          let globalIndex := NamedValueSet.indexOf d.globals id
          let externalCIndex := d.getExternalCIndex id
          match obj with
          | some o =>
            let call ← parseInlineFunctionCall H n o
            parseSuffixes H n call
          | none =>
            if apiClassIndex ≠ -1 then
              let e ← parseApiExpression H n
              parseSuffixes H n e
            else if constIndex ≠ -1 then
              let e ← parseConstExpression H ns
              parseSuffixes H n e
            else if externalCIndex ≠ -1 then
              let e ← parseExternalCFunctionCall H n
              parseSuffixes H n e
            else if registerIndex ≠ -1 then
              let i ← parseIdentifier H
              parseSuffixes H n (.RegisterName i (ns.getD .root) registerIndex)
            else if globalIndex ≠ -1 then
              let i ← parseIdentifier H
              parseSuffixes H n (.GlobalReference i)
            else
              let cb : Option Callback :=
                if s.currentlyParsedCallback ≠ Identifier.null then
                  d.getCallback s.currentlyParsedCallback
                else none
              match cb.bind (fun c => c.getVarPointer id) with
              | some i =>
                let _ ← parseIdentifier H
                parseSuffixes H n (.CallbackParameterReference s.currentlyParsedCallback i)
              | none =>
                if (cb.elim false (fun c => c.localProperties.contains id)) then
                  let _ ← parseIdentifier H
                  parseSuffixes H n (.CallbackLocalReference s.currentlyParsedCallback
                    (cb.elim 0 (fun c => (c.localProperties.indexOf id).toNat)))
                else
                  let i ← parseIdentifier H
                  parseSuffixes H n (.UnqualifiedName i)
    else if (← matchIf H .openParen) then
      let e ← parseExpression H n
      let e ← matchCloseParen H e
      parseSuffixes H n e
    else if (← matchIf H .true_) then parseSuffixes H n (.LiteralValue (.int 1))
    else if (← matchIf H .false_) then parseSuffixes H n (.LiteralValue (.int 0))
    else if (← matchIf H .null_) then parseSuffixes H n (.LiteralValue .void_)
    else if (← matchIf H .undefined) then parseSuffixes H n .empty
    else if s.currentType = .literal then
      skip H
      parseSuffixes H n (.LiteralValue s.currentValue)
    else if (← matchIf H .openBrace) then
      let e ← parseObjectDeclarationLoop H n [] []
      match_ H .closeBrace
      parseSuffixes H n e
    else if (← matchIf H .openBracket) then
      let values ← parseArgumentsLoop H n .closeBracket []
      match_ H .closeBracket
      parseSuffixes H n (.ArrayDeclaration values)
    else if (← matchIf H .function) then
      let (fn, name) ← parseFunctionDefinition H n
      if name ≠ Identifier.null then StM.throw "Inline functions definitions cannot have a name"
      else pure (.LiteralValue fn)
    else if (← matchIf H .new_) then
      let i ← parseIdentifier H
      let name ← parseNewLoop H n (.UnqualifiedName i)
      parseFunctionCall H n true name
    else StM.throw ("Found " ++ getTokenName s.currentType ++ " when expecting an expression")

/-- `ExpressionTreeBuilder::parsePreIncDec<OpType>`. -/
def parsePreIncDec (H : Host) :
    Nat → (Expression → Expression → Expression) → Parser Expression
  | 0, _ => StM.outOfFuel
  | n + 1, op => do
    let e ← parseFactor H n none
    pure (.SelfAssignment e (op e (.LiteralValue (.int 1))))

/-- `ExpressionTreeBuilder::parseTypeof`. -/
def parseTypeof (H : Host) : Nat → Parser Expression
  | 0 => StM.outOfFuel
  | n + 1 => do
    let a ← parseUnary H n
    pure (.FunctionCall (.UnqualifiedName "typeof") [a])

/-- `ExpressionTreeBuilder::parseUnary`. -/
def parseUnary (H : Host) : Nat → Parser Expression
  | 0 => StM.outOfFuel
  | n + 1 => do
    if (← matchIf H .minus) then
      let b ← parseUnary H n
      pure (.SubtractionOp (.LiteralValue (.int 0)) b)
    else if (← matchIf H .logicalNot) then
      let b ← parseUnary H n
      pure (.EqualsOp (.LiteralValue (.int 0)) b)
    else if (← matchIf H .plusplus) then parsePreIncDec H n .AdditionOp
    else if (← matchIf H .minusminus) then parsePreIncDec H n .SubtractionOp
    else if (← matchIf H .typeof_) then parseTypeof H n
    else parseFactor H n none

/-- The loop of `parseMultiplyDivide`. -/
def parseMultiplyDivideLoop (H : Host) : Nat → Expression → Parser Expression
  | 0, _ => StM.outOfFuel
  | n + 1, a => do
    if (← matchIf H .times) then
      let b ← parseUnary H n
      parseMultiplyDivideLoop H n (.MultiplyOp a b)
    else if (← matchIf H .divide) then
      let b ← parseUnary H n
      parseMultiplyDivideLoop H n (.DivideOp a b)
    else if (← matchIf H .modulo) then
      let b ← parseUnary H n
      parseMultiplyDivideLoop H n (.ModuloOp a b)
    else pure a

/-- `ExpressionTreeBuilder::parseMultiplyDivide`. -/
def parseMultiplyDivide (H : Host) : Nat → Parser Expression
  | 0 => StM.outOfFuel
  | n + 1 => do
    let a ← parseUnary H n
    parseMultiplyDivideLoop H n a

/-- The loop of `parseAdditionSubtraction`. -/
def parseAdditionSubtractionLoop (H : Host) : Nat → Expression → Parser Expression
  | 0, _ => StM.outOfFuel
  | n + 1, a => do
    if (← matchIf H .plus) then
      let b ← parseMultiplyDivide H n
      parseAdditionSubtractionLoop H n (.AdditionOp a b)
    else if (← matchIf H .minus) then
      let b ← parseMultiplyDivide H n
      parseAdditionSubtractionLoop H n (.SubtractionOp a b)
    else pure a

/-- `ExpressionTreeBuilder::parseAdditionSubtraction`. -/
def parseAdditionSubtraction (H : Host) : Nat → Parser Expression
  | 0 => StM.outOfFuel
  | n + 1 => do
    let a ← parseMultiplyDivide H n
    parseAdditionSubtractionLoop H n a

/-- The loop of `parseShiftOperator`. -/
def parseShiftOperatorLoop (H : Host) : Nat → Expression → Parser Expression
  | 0, _ => StM.outOfFuel
  | n + 1, a => do
    if (← matchIf H .leftShift) then
      let b ← parseExpression H n
      parseShiftOperatorLoop H n (.LeftShiftOp a b)
    else if (← matchIf H .rightShift) then
      let b ← parseExpression H n
      parseShiftOperatorLoop H n (.RightShiftOp a b)
    else if (← matchIf H .rightShiftUnsigned) then
      let b ← parseExpression H n
      parseShiftOperatorLoop H n (.RightShiftUnsignedOp a b)
    else pure a

/-- `ExpressionTreeBuilder::parseShiftOperator`. -/
def parseShiftOperator (H : Host) : Nat → Parser Expression
  | 0 => StM.outOfFuel
  | n + 1 => do
    let a ← parseAdditionSubtraction H n
    parseShiftOperatorLoop H n a

/-- The loop of `parseComparator`. -/
def parseComparatorLoop (H : Host) : Nat → Expression → Parser Expression
  | 0, _ => StM.outOfFuel
  | n + 1, a => do
    if (← matchIf H .equals) then
      let b ← parseShiftOperator H n
      parseComparatorLoop H n (.EqualsOp a b)
    else if (← matchIf H .notEquals) then
      let b ← parseShiftOperator H n
      parseComparatorLoop H n (.NotEqualsOp a b)
    else if (← matchIf H .typeEquals) then
      let b ← parseShiftOperator H n
      parseComparatorLoop H n (.TypeEqualsOp a b)
    else if (← matchIf H .typeNotEquals) then
      let b ← parseShiftOperator H n
      parseComparatorLoop H n (.TypeNotEqualsOp a b)
    else if (← matchIf H .lessThan) then
      let b ← parseShiftOperator H n
      parseComparatorLoop H n (.LessThanOp a b)
    else if (← matchIf H .lessThanOrEqual) then
      let b ← parseShiftOperator H n
      parseComparatorLoop H n (.LessThanOrEqualOp a b)
    else if (← matchIf H .greaterThan) then
      let b ← parseShiftOperator H n
      parseComparatorLoop H n (.GreaterThanOp a b)
    else if (← matchIf H .greaterThanOrEqual) then
      let b ← parseShiftOperator H n
      parseComparatorLoop H n (.GreaterThanOrEqualOp a b)
    else pure a

/-- `ExpressionTreeBuilder::parseComparator`. -/
def parseComparator (H : Host) : Nat → Parser Expression
  | 0 => StM.outOfFuel
  | n + 1 => do
    let a ← parseShiftOperator H n
    parseComparatorLoop H n a

/-- The loop of `parseLogicOperator`. -/
def parseLogicOperatorLoop (H : Host) : Nat → Expression → Parser Expression
  | 0, _ => StM.outOfFuel
  | n + 1, a => do
    if (← matchIf H .logicalAnd) then
      let b ← parseComparator H n
      parseLogicOperatorLoop H n (.LogicalAndOp a b)
    else if (← matchIf H .logicalOr) then
      let b ← parseComparator H n
      parseLogicOperatorLoop H n (.LogicalOrOp a b)
    else if (← matchIf H .bitwiseAnd) then
      let b ← parseComparator H n
      parseLogicOperatorLoop H n (.BitwiseAndOp a b)
    else if (← matchIf H .bitwiseOr) then
      let b ← parseComparator H n
      parseLogicOperatorLoop H n (.BitwiseOrOp a b)
    else if (← matchIf H .bitwiseXor) then
      let b ← parseComparator H n
      parseLogicOperatorLoop H n (.BitwiseXorOp a b)
    else pure a

/-- `ExpressionTreeBuilder::parseLogicOperator`. -/
def parseLogicOperator (H : Host) : Nat → Parser Expression
  | 0 => StM.outOfFuel
  | n + 1 => do
    let a ← parseComparator H n
    parseLogicOperatorLoop H n a

/-- `ExpressionTreeBuilder::parseTerneryOperator`. -/
def parseTerneryOperator (H : Host) : Nat → Expression → Parser Expression
  | 0, _ => StM.outOfFuel
  | n + 1, condition => do
    let trueBranch ← parseExpression H n
    match_ H .colon
    let falseBranch ← parseExpression H n
    pure (.ConditionalOp condition trueBranch falseBranch)

end

/-! ## The pre-pass (`preprocessCode`) -/

/-- The local variables of `preprocessCode` together with the tables. -/
structure PreprocessState where
  it : TokenIterator
  hiseSpecialData : HiseSpecialData
  cns : NsPtr := .root
  ids : List Identifier := []
  braceLevel : Int := 0

/-- An action of the pre-pass. -/
abbrev Preprocessor := StM PreprocessState

/-- Run an action of the token iterator `it` of the pre-pass. -/
def liftPre {α : Type} (m : StM TokenIterator α) : Preprocessor α := fun s =>
  match m s.it with
  | .ok (a, it) => .ok (a, { s with it := it })
  | .error e => .error e
  | .outOfFuel => .outOfFuel

/-- Change the tables during the pre-pass. -/
def modifyPreData (f : HiseSpecialData → HiseSpecialData) : Preprocessor Unit :=
  StM.modify (fun s => { s with hiseSpecialData := f s.hiseSpecialData })

/-- The position `location.location - location.program.getCharPointer ()`. -/
def TokenIterator.charNumber (it : TokenIterator) : Nat :=
  it.location.program.length - it.location.location.length

/-- The loop `for ids: cns->constObjects.set (ids[i], undeclared)` followed by
`ids.clear ()`. -/
def flushIds : Preprocessor Unit :=
  StM.modify (fun s => { s with
    hiseSpecialData := s.hiseSpecialData.modifyNs s.cns (fun x =>
      { x with constObjects :=
          s.ids.foldl (fun c id => c.set id (.string "undeclared")) x.constObjects }),
    ids := [] })

/-- The argument loop of `parseInlineFunction` with a `preparser`. -/
def parseInlineFunctionArgumentsLoop (H : Host) :
    Nat → List Identifier → Preprocessor (List Identifier)
  | 0, _ => StM.outOfFuel
  | n + 1, inlineArguments => do
    let s ← StM.get
    if s.it.currentType ≠ .closeParen then
      liftPre (TokenIterator.match_ H .identifier)
      if (← StM.get).it.currentType ≠ .closeParen then liftPre (TokenIterator.match_ H .comma)
      parseInlineFunctionArgumentsLoop H n (inlineArguments ++ [s.it.currentValue.toString])
    else pure inlineArguments

/-- `ExpressionTreeBuilder::parseInlineFunction` with a `preparser` (the
pre-pass): registers the signature in the namespace `ns`. -/
def parseInlineFunctionPreparser (H : Host) (n : Nat) (ns : NsPtr) : Preprocessor Unit := do
  let s ← StM.get
  let charNumber := s.it.charNumber
  let fileName := s.it.location.externalFile
  liftPre (TokenIterator.match_ H .function)
  let name : Identifier := (← StM.get).it.currentValue.toString
  liftPre (TokenIterator.match_ H .identifier)
  liftPre (TokenIterator.match_ H .openParen)
  let inlineArguments ← parseInlineFunctionArgumentsLoop H n []
  liftPre (TokenIterator.match_ H .closeParen)
  modifyPreData (fun d => d.modifyNs ns (fun x => { x with inlineFunctions :=
    x.inlineFunctions ++ [{ name := name, parameterNames := inlineArguments,
                            location := ⟨fileName, charNumber⟩ }] }))
  let _ ← liftPre (TokenIterator.matchIf H .semicolon)
  pure ()

/-- `ExpressionTreeBuilder::parseRegisterVar` with a `preparser` (the
pre-pass): registers the name in the register file of the namespace `ns`. The
value handed to `addRegister` is `var::undefined` without a call: the address of
the function, which converts to the `bool` true. -/
def parseRegisterVarPreparser (ns : NsPtr) : Preprocessor Unit := do
  let s ← StM.get
  let name : Identifier := s.it.currentValue.toString
  modifyPreData (fun d => d.modifyNs ns (fun x => { x with
    varRegister := x.varRegister.addRegister name (.bool true),
    registerLocations := x.registerLocations ++
      [⟨s.it.location.externalFile, s.it.charNumber⟩] }))

/-- The loop of `preprocessCode` that skips an `extern` block. -/
def preprocessExternLoop (H : Host) : Nat → Preprocessor Unit
  | 0 => StM.outOfFuel
  | n + 1 => do
    let s ← StM.get
    if ¬ (s.it.currentType = .closeBrace ∧ s.braceLevel = 1) ∧ ¬ (s.it.currentType = .eof) then
      if s.it.currentType = .openBrace then
        StM.modify (fun s => { s with braceLevel := s.braceLevel + 1 })
      else if s.it.currentType = .closeBrace then
        StM.modify (fun s => { s with braceLevel := s.braceLevel - 1 })
      liftPre (TokenIterator.skip H)
      preprocessExternLoop H n
    else pure ()

/-- Lift a plain result into the pre-pass. -/
def liftPreRes {α : Type} (r : Res α) : Preprocessor α := fun s =>
  match r with
  | .ok a => .ok (a, s)
  | .error e => .error e
  | .outOfFuel => .outOfFuel

/-- Lift a result that can only fail by throwing into the pre-pass. -/
def liftPreExcept {α : Type} (r : Except String α) : Preprocessor α := fun s =>
  match r with
  | .ok a => .ok (a, s)
  | .error e => .error e

mutual

/-- The main loop of `preprocessCode`. -/
def preprocessCodeLoop (H : Host) : Nat → Preprocessor Unit
  | 0 => StM.outOfFuel
  | n + 1 => do
    let s ← StM.get
    if s.it.currentType ≠ .eof then
      if s.it.currentType = .namespace_ then
        if s.cns ≠ .root then StM.throw "Nesting of namespaces is not allowed"
        else
          flushIds
          liftPre (TokenIterator.match_ H .namespace_)
          let s ← StM.get
          let namespaceId : Identifier := s.it.currentValue.toString
          if (s.hiseSpecialData.getNamespace namespaceId).isNone then
            StM.modify (fun s => { s with
              cns := .named s.hiseSpecialData.namespaces.length,
              hiseSpecialData := { s.hiseSpecialData with
                namespaces := s.hiseSpecialData.namespaces ++ [{ id := namespaceId }] } })
            preprocessCodeLoop H n
          else StM.throw ("Duplicate namespace " ++ namespaceId)
      else
        if s.it.currentType = .extern_ then preprocessExternLoop H n
        let s ← StM.get
        if s.it.currentType = .include_ then
          liftPre (TokenIterator.match_ H .include_)
          liftPre (TokenIterator.match_ H .openParen)
          let s ← StM.get
          let (fileName, externalCode) ←
            liftPreExcept (getFileContent H s.hiseSpecialData s.it.currentValue.toString)
          let d ← liftPreRes (preprocessCode H n externalCode fileName s.hiseSpecialData)
          modifyPreData (fun _ => d)
          preprocessCodeLoop H n
        else if (← liftPre (TokenIterator.matchIf H .openBrace)) then
          StM.modify (fun s => { s with braceLevel := s.braceLevel + 1 })
          preprocessCodeLoop H n
        else if (← liftPre (TokenIterator.matchIf H .closeBrace)) then
          StM.modify (fun s => { s with braceLevel := s.braceLevel - 1 })
          let s ← StM.get
          if s.braceLevel = 0 ∧ s.cns ≠ .root then
            flushIds
            StM.modify (fun s => { s with cns := .root })
          preprocessCodeLoop H n
        else if (← liftPre (TokenIterator.matchIf H .inline_)) then
          parseInlineFunctionPreparser H n (← StM.get).cns
          preprocessCodeLoop H n
        else if (← liftPre (TokenIterator.matchIf H .register_var)) then
          parseRegisterVarPreparser (← StM.get).cns
          preprocessCodeLoop H n
        else if (← StM.get).it.currentType = .const_ then
          liftPre (TokenIterator.match_ H .const_)
          let _ ← liftPre (TokenIterator.matchIf H .var)
          let s ← StM.get
          let newId : Identifier := s.it.currentValue.toString
          if s.cns = .root ∧ s.braceLevel ≠ 0 then
            StM.throw "const var declaration must be on global level"
          else if newId = Identifier.null then
            StM.throw "Expected identifier for const var declaration"
          else if s.ids.contains newId then StM.throw "Duplicate const var declaration."
          else
            StM.modify (fun s => { s with ids := s.ids ++ [newId] })
            modifyPreData (fun d => d.modifyNs s.cns (fun x => { x with
              constLocations := x.constLocations ++
                [⟨s.it.location.externalFile, s.it.charNumber⟩] }))
            preprocessCodeLoop H n
        else
          liftPre (TokenIterator.skip H)
          preprocessCodeLoop H n
    else
      if s.cns ≠ .root then StM.throw "Parsing error (open namespace)"
      else flushIds

/-- `ExpressionTreeBuilder::preprocessCode`: the tables after the pre-pass over
`codeToPreprocess`. -/
def preprocessCode (H : Host) :
    Nat → List Char → String → HiseSpecialData → Res HiseSpecialData
  | 0, _, _, _ => .outOfFuel
  | n + 1, codeToPreprocess, externalFileName, d =>
    if codeToPreprocess.isEmpty then .ok d
    else
      match TokenIterator.new H codeToPreprocess externalFileName with
      | .error e => .error e
      | .outOfFuel => .outOfFuel
      | .ok it =>
        match preprocessCodeLoop H n { it := it, hiseSpecialData := d } with
        | .ok (_, s) => .ok s.hiseSpecialData
        | .error e => .error e
        | .outOfFuel => .outOfFuel

end

/-! ## Drivers -/

/-- The parser `ExpressionTreeBuilder tb (code, String ())` followed by
`tb.setupApiData (hiseSpecialData, codeToPreprocess)`: the pre-pass runs over
`codeToPreprocess` and the parser starts on `code` with the tables it left. -/
def ExpressionTreeBuilder.new (H : Host) (fuel : Nat) (d : HiseSpecialData) (code : List Char)
    (codeToPreprocess : List Char) : Res ExpressionTreeBuilder :=
  match TokenIterator.new H code "" with
  | .error e => .error e
  | .outOfFuel => .outOfFuel
  | .ok it =>
    match preprocessCode H fuel codeToPreprocess "" d with
    | .ok d' => .ok { toTokenIterator := it, hiseSpecialData := d' }
    | .error e => .error e
    | .outOfFuel => .outOfFuel

/-- The parsing part of `RootObject::evaluate`: the expression handed to the
evaluator, and the parser after it. -/
def evaluate (H : Host) (fuel : Nat) (d : HiseSpecialData) (code : List Char) :
    Res (Expression × ExpressionTreeBuilder) :=
  match ExpressionTreeBuilder.new H fuel d code code with
  | .ok tb => parseExpression H fuel tb
  | .error e => .error e
  | .outOfFuel => .outOfFuel

/-- The parsing part of `RootObject::execute`: the block handed to the
evaluator, and the parser after it. -/
def execute (H : Host) (fuel : Nat) (d : HiseSpecialData) (code : List Char)
    (allowConstDeclarations : Bool) : Res (Statement × ExpressionTreeBuilder) :=
  match ExpressionTreeBuilder.new H fuel d code (if allowConstDeclarations then code else []) with
  | .ok tb => parseStatementList H fuel tb
  | .error e => .error e
  | .outOfFuel => .outOfFuel

/-- Modelled from the spec: the spelling tables of the token kinds, from the
lists of reserved keywords and operators (sections 3 and 6); the macros
`JUCE_JS_KEYWORDS` and `JUCE_JS_OPERATORS` are not part of the translated file.
The words `static`, `this` and `void` of the keyword list have no token kind in
the parser and are left out. An operator that starts another one comes after
it, so that the longest spelling wins. -/
def specHost : Host where
  keywords := [
    ("var".toList, .var), ("if".toList, .if_), ("else".toList, .else_), ("do".toList, .do_),
    ("null".toList, .null_), ("while".toList, .while_), ("for".toList, .for_),
    ("break".toList, .break_), ("continue".toList, .continue_),
    ("undefined".toList, .undefined), ("function".toList, .function),
    ("return".toList, .return_), ("true".toList, .true_), ("false".toList, .false_),
    ("new".toList, .new_), ("typeof".toList, .typeof_), ("switch".toList, .switch_),
    ("case".toList, .case_), ("default".toList, .default_),
    ("register_var".toList, .register_var), ("in".toList, .in_),
    ("inline".toList, .inline_), ("const".toList, .const_), ("global".toList, .global_),
    ("local".toList, .local_), ("include".toList, .include_), ("rLock".toList, .rLock_),
    ("wLock".toList, .wLock_), ("extern".toList, .extern_),
    ("namespace".toList, .namespace_)]
  operators := [
    (";".toList, .semicolon), (".".toList, .dot), (",".toList, .comma),
    ("(".toList, .openParen), (")".toList, .closeParen), ("\x7b".toList, .openBrace),
    ("\x7d".toList, .closeBrace), ("[".toList, .openBracket), ("]".toList, .closeBracket),
    (":".toList, .colon), ("?".toList, .question),
    ("===".toList, .typeEquals), ("==".toList, .equals), ("=".toList, .assign),
    ("!==".toList, .typeNotEquals), ("!=".toList, .notEquals), ("!".toList, .logicalNot),
    ("+=".toList, .plusEquals), ("++".toList, .plusplus), ("+".toList, .plus),
    ("-=".toList, .minusEquals), ("--".toList, .minusminus), ("-".toList, .minus),
    ("*".toList, .times), ("/".toList, .divide), ("%".toList, .modulo),
    ("^".toList, .bitwiseXor), ("&&".toList, .logicalAnd), ("&".toList, .bitwiseAnd),
    ("||".toList, .logicalOr), ("|".toList, .bitwiseOr),
    ("<<=".toList, .leftShiftEquals), ("<=".toList, .lessThanOrEqual),
    ("<<".toList, .leftShift), ("<".toList, .lessThan),
    (">>>".toList, .rightShiftUnsigned), (">>=".toList, .rightShiftEquals),
    (">>".toList, .rightShift), (">=".toList, .greaterThanOrEqual),
    (">".toList, .greaterThan)]
  USE_BACKEND := true
  getFilePath := fun name => name
  getFileName := fun path => path
  loadFileAsString := fun _ => none
  getExternalScriptFromCollection := fun _ => []

/-! ## Definitions used by the statements -/

/-- The action `q` gives every answer of `p` other than `outOfFuel`. -/
structure StM.le {σ α : Type} (p q : StM σ α) : Prop where
  h : ∀ s r, p s = r → r ≠ .outOfFuel → q s = r

/-- One more unit of fuel keeps every finished answer of the parsing functions run
with `n` units. -/
structure MonoAt (H : Host) (n : Nat) : Prop where
  parseStatementListLoop : ∀ (a : List Statement) (b : List Statement), (parseStatementListLoop H n a b).le (parseStatementListLoop H (n + 1) a b)
  parseStatementList : (parseStatementList H n).le (parseStatementList H (n + 1))
  parseFunctionParamsLoop : ∀ (a : List Identifier), (parseFunctionParamsLoop H n a).le (parseFunctionParamsLoop H (n + 1) a)
  parseFunctionParamsAndBody : (parseFunctionParamsAndBody H n).le (parseFunctionParamsAndBody H (n + 1))
  parseExpression : (parseExpression H n).le (parseExpression H (n + 1))
  parseInPlaceOpExpression : ∀ (a : Expression → Expression → Expression) (b : Expression), (parseInPlaceOpExpression H n a b).le (parseInPlaceOpExpression H (n + 1) a b)
  parseBlock : (parseBlock H n).le (parseBlock H (n + 1))
  parseStatement : (parseStatement H n).le (parseStatement H (n + 1))
  parseExternalFile : (parseExternalFile H n).le (parseExternalFile H (n + 1))
  parseIf : (parseIf H n).le (parseIf H (n + 1))
  parseReturn : (parseReturn H n).le (parseReturn H (n + 1))
  parseVar : (parseVar H n).le (parseVar H (n + 1))
  parseConstVar : ∀ (a : NsPtr), (parseConstVar H n a).le (parseConstVar H (n + 1) a)
  parseRegisterVar : ∀ (a : NsPtr), (parseRegisterVar H n a).le (parseRegisterVar H (n + 1) a)
  parseLockStatement : ∀ (a : Bool), (parseLockStatement H n a).le (parseLockStatement H (n + 1) a)
  parseGlobalAssignment : (parseGlobalAssignment H n).le (parseGlobalAssignment H (n + 1))
  parseLocalAssignment : (parseLocalAssignment H n).le (parseLocalAssignment H (n + 1))
  parseCallback : (parseCallback H n).le (parseCallback H (n + 1))
  parseNamespace : (parseNamespace H n).le (parseNamespace H (n + 1))
  parseFunction : (parseFunction H n).le (parseFunction H (n + 1))
  parseArgumentsLoop : ∀ (a : TokenType) (b : List Expression), (parseArgumentsLoop H n a b).le (parseArgumentsLoop H (n + 1) a b)
  parseInlineFunctionCall : ∀ (a : InlineRef), (parseInlineFunctionCall H n a).le (parseInlineFunctionCall H (n + 1) a)
  parseInlineFunctionSkipLoop : (parseInlineFunctionSkipLoop H n).le (parseInlineFunctionSkipLoop H (n + 1))
  parseInlineFunction : ∀ (a : NsPtr), (parseInlineFunction H n a).le (parseInlineFunction H (n + 1) a)
  parseExternalCArgumentsLoop : ∀ (a : List Identifier), (parseExternalCArgumentsLoop H n a).le (parseExternalCArgumentsLoop H (n + 1) a)
  parseExternalCBodyLoop : ∀ (a : Int), (parseExternalCBodyLoop H n a).le (parseExternalCBodyLoop H (n + 1) a)
  parseExternalCFunction : (parseExternalCFunction H n).le (parseExternalCFunction H (n + 1))
  parseExternalCFunctionCall : (parseExternalCFunctionCall H n).le (parseExternalCFunctionCall H (n + 1))
  parseCaseStatementLoop : ∀ (a : List Statement), (parseCaseStatementLoop H n a).le (parseCaseStatementLoop H (n + 1) a)
  parseCaseStatement : (parseCaseStatement H n).le (parseCaseStatement H (n + 1))
  parseSwitchBlockLoop : ∀ (a : List Expression) (b : List Statement) (c : Option Statement), (parseSwitchBlockLoop H n a b c).le (parseSwitchBlockLoop H (n + 1) a b c)
  parseSwitchBlock : (parseSwitchBlock H n).le (parseSwitchBlock H (n + 1))
  parseForLoop : (parseForLoop H n).le (parseForLoop H (n + 1))
  parseDoOrWhileLoop : ∀ (a : Bool), (parseDoOrWhileLoop H n a).le (parseDoOrWhileLoop H (n + 1) a)
  parseFunctionDefinition : (parseFunctionDefinition H n).le (parseFunctionDefinition H (n + 1))
  parseFunctionCall : ∀ (a : Bool) (b : Expression), (parseFunctionCall H n a b).le (parseFunctionCall H (n + 1) a b)
  parseApiExpression : (parseApiExpression H n).le (parseApiExpression H (n + 1))
  parseApiCallLoop : ∀ (a : String) (b : Int) (c : List Expression), (parseApiCallLoop H n a b c).le (parseApiCallLoop H (n + 1) a b c)
  parseApiCall : ∀ (a : Int) (b : ApiClass) (c : Identifier), (parseApiCall H n a b c).le (parseApiCall H (n + 1) a b c)
  parseSuffixes : ∀ (a : Expression), (parseSuffixes H n a).le (parseSuffixes H (n + 1) a)
  parseObjectDeclarationLoop : ∀ (a : List Identifier) (b : List Expression), (parseObjectDeclarationLoop H n a b).le (parseObjectDeclarationLoop H (n + 1) a b)
  parseNewLoop : ∀ (a : Expression), (parseNewLoop H n a).le (parseNewLoop H (n + 1) a)
  parseFactor : ∀ (a : Option NsPtr), (parseFactor H n a).le (parseFactor H (n + 1) a)
  parsePreIncDec : ∀ (a : Expression → Expression → Expression), (parsePreIncDec H n a).le (parsePreIncDec H (n + 1) a)
  parseTypeof : (parseTypeof H n).le (parseTypeof H (n + 1))
  parseUnary : (parseUnary H n).le (parseUnary H (n + 1))
  parseMultiplyDivideLoop : ∀ (a : Expression), (parseMultiplyDivideLoop H n a).le (parseMultiplyDivideLoop H (n + 1) a)
  parseMultiplyDivide : (parseMultiplyDivide H n).le (parseMultiplyDivide H (n + 1))
  parseAdditionSubtractionLoop : ∀ (a : Expression), (parseAdditionSubtractionLoop H n a).le (parseAdditionSubtractionLoop H (n + 1) a)
  parseAdditionSubtraction : (parseAdditionSubtraction H n).le (parseAdditionSubtraction H (n + 1))
  parseShiftOperatorLoop : ∀ (a : Expression), (parseShiftOperatorLoop H n a).le (parseShiftOperatorLoop H (n + 1) a)
  parseShiftOperator : (parseShiftOperator H n).le (parseShiftOperator H (n + 1))
  parseComparatorLoop : ∀ (a : Expression), (parseComparatorLoop H n a).le (parseComparatorLoop H (n + 1) a)
  parseComparator : (parseComparator H n).le (parseComparator H (n + 1))
  parseLogicOperatorLoop : ∀ (a : Expression), (parseLogicOperatorLoop H n a).le (parseLogicOperatorLoop H (n + 1) a)
  parseLogicOperator : (parseLogicOperator H n).le (parseLogicOperator H (n + 1))
  parseTerneryOperator : ∀ (a : Expression), (parseTerneryOperator H n a).le (parseTerneryOperator H (n + 1) a)

/-- With enough fuel the parsing function `f`, started in state `s`, returns
`a` and leaves the parser in state `s'`. -/
def Parses {α : Type} (f : Nat → Parser α) (s : ExpressionTreeBuilder) (a : α)
    (s' : ExpressionTreeBuilder) : Prop :=
  ∃ n, f n s = .ok (a, s')

/-- A parser over the program text `program` whose current token, of kind `t`,
starts at the suffix `location` and ends before the suffix `p`; `v` is the
current value. -/
def mkState (d : HiseSpecialData) (program location p : String) (t : TokenType) (v : Var) :
    ExpressionTreeBuilder :=
  { location := ⟨program.toList, "", location.toList⟩, currentType := t, currentValue := v,
    lastComment := "", p := p.toList, hiseSpecialData := d }

/-- The tokens the main loop of `preprocessCode` acts on; it skips every
other token. -/
def prepassTokens : List TokenType :=
  [.eof, .namespace_, .extern_, .include_, .openBrace, .closeBrace, .inline_, .register_var,
    .const_]

/-! ### A program with two inline functions -/

/-- A token iterator over `program` whose current token, of kind `t`, starts at
offset `i` and ends at offset `j`. -/
def mkIterator (program : String) (i j : Nat) (t : TokenType) (v : Var) : TokenIterator :=
  { location := ⟨program.toList, "", program.toList.drop i⟩, currentType := t, currentValue := v,
    lastComment := "", p := program.toList.drop j }

/-- A parser on `mkIterator` with the tables `d`; `inl` tells whether it is
inside the body of an inline function. -/
def mkParser (d : HiseSpecialData) (inl : Bool) (program : String) (i j : Nat) (t : TokenType)
    (v : Var) : ExpressionTreeBuilder :=
  { toTokenIterator := mkIterator program i j t v, hiseSpecialData := d,
    currentlyParsingInlineFunction := inl }

/-- Two inline functions; the body of each returns its parameter. -/
def twoInlineFunctions : String :=
  "inline function f(a) { return a; } inline function g(b) { return b; }"

/-- The tables after the pre-pass over `twoInlineFunctions`, with the bodies
`bodyF` and `bodyG` stored for `f` and `g`. -/
def twoInlineTables (bodyF bodyG : Option Statement) : HiseSpecialData :=
  { HiseSpecialData.empty with
    inlineFunctions :=
      [{ name := "f", parameterNames := ["a"], location := ⟨"", 7⟩, body := bodyF },
       { name := "g", parameterNames := ["b"], location := ⟨"", 42⟩, body := bodyG }] }

/-- The tables of the pre-pass over `twoInlineFunctions` after the signature
of `f`. -/
def oneInlineTables : HiseSpecialData :=
  { HiseSpecialData.empty with
    inlineFunctions := [{ name := "f", parameterNames := ["a"], location := ⟨"", 7⟩ }] }

/-- The state of the pre-pass over `twoInlineFunctions` at the token from
offset `i` to offset `j`. -/
def mkPrepass (d : HiseSpecialData) (braceLevel : Int) (i j : Nat) (t : TokenType) (v : Var) :
    PreprocessState :=
  { it := mkIterator twoInlineFunctions i j t v, hiseSpecialData := d, braceLevel := braceLevel }

/-! ### Spellings of number literals -/

/-- The character of the digit `d` (below 16) of a number literal, a letter in
upper case when `upper`. -/
def digitChar (upper : Bool) (d : Nat) : Char :=
  if d < 10 then Char.ofNat (48 + d) else if upper then Char.ofNat (55 + d) else Char.ofNat (87 + d)

/-- The number written in base `b` by the digits `ds`, most significant first,
after the digits that gave `v`. -/
def digitsValue (b : Nat) (v : Nat) (ds : List Nat) : Nat := ds.foldl (fun v d => v * b + d) v

/-- The token iterator after a number literal with the value `n` that is the
whole text `cs`. -/
def literalToken (cs : List Char) (n : Nat) : TokenIterator :=
  { location := ⟨cs, "", cs⟩, currentType := .literal, currentValue := .int64 n,
    lastComment := "", p := [] }

/-- The parser of `mkState` inside a for-in loop: `it` is its current iterator. -/
def mkStateIn (it : Identifier) (d : HiseSpecialData) (program location p : String)
    (t : TokenType) (v : Var) : ExpressionTreeBuilder :=
  { mkState d program location p t v with currentIterator := it }

/-- A for-in loop over `ys` nested in a for-in loop over `xs`; the inner body
refers to the outer iterator `x`. -/
def nestedForIn : String := "for (x in xs) for (y in ys) x;"

/-- The name `parseExpression` remembers before it reads its left operand. -/
def expressionId (s : ExpressionTreeBuilder) : Identifier :=
  if Identifier.isValidIdentifier s.currentValue.toString then s.currentValue.toString
  else Identifier.null

/-! ### The operator tokens of the levels of the expression grammar -/

/-- The tokens the loop of `parseMultiplyDivide` consumes. -/
def multiplicativeTokens : List TokenType :=
  [.times, .divide, .modulo]

/-- The tokens the loop of `parseAdditionSubtraction` consumes. -/
def additiveTokens : List TokenType :=
  [.plus, .minus]

/-- The tokens the loop of `parseShiftOperator` consumes. -/
def shiftTokens : List TokenType :=
  [.leftShift, .rightShift, .rightShiftUnsigned]

/-- The tokens the loop of `parseComparator` consumes. -/
def comparisonTokens : List TokenType :=
  [.equals, .notEquals, .typeEquals, .typeNotEquals, .lessThan, .lessThanOrEqual, .greaterThan, .greaterThanOrEqual]

/-- The tokens the loop of `parseLogicOperator` consumes. -/
def logicTokens : List TokenType :=
  [.logicalAnd, .logicalOr, .bitwiseAnd, .bitwiseOr, .bitwiseXor]

/-- The tokens `parseExpression` acts on after its left operand. -/
def expressionTokens : List TokenType :=
  [.in_, .question, .assign, .plusEquals, .minusEquals, .leftShiftEquals, .rightShiftEquals]

/-- The tokens at which `parseSuffixes` wraps a suffix around a factor. -/
def suffixTokens : List TokenType :=
  [.dot, .openParen, .openBracket, .plusplus, .minusminus]

/-- The node the loop of `parseLogicOperator` builds at an operator token. -/
def logicNode : TokenType → Expression → Expression → Expression
  | .logicalAnd => .LogicalAndOp
  | .logicalOr => .LogicalOrOp
  | .bitwiseAnd => .BitwiseAndOp
  | .bitwiseOr => .BitwiseOrOp
  | .bitwiseXor => .BitwiseXorOp
  | _ => fun a _ => a

/-- The node the loop of `parseShiftOperator` builds at an operator token. -/
def shiftNode : TokenType → Expression → Expression → Expression
  | .leftShift => .LeftShiftOp
  | .rightShift => .RightShiftOp
  | .rightShiftUnsigned => .RightShiftUnsignedOp
  | _ => fun a _ => a

/-! ### C1: the lookup order of the specification -/

/-- The tables consulted for an identifier, in the order of the specification:
"inline-function catalog → API class table → const pool → external-C table →
register file → global property bag". -/
inductive FactorTable where
  | inlineFunctionCatalog | apiClassTable | constPool | externalCTable | registerFile
  | globalPropertyBag
deriving DecidableEq, Repr

/-- Whether a table of the root scope contains the identifier. -/
def FactorTable.containsId (d : HiseSpecialData) (id : Identifier) : FactorTable → Bool
  | .inlineFunctionCatalog => (d.inlineFunctions.map (·.name)).contains id
  | .apiClassTable => d.apiIds.contains id
  | .constPool => d.constObjects.contains id
  | .externalCTable => (d.externalCFunctions.map (·.name)).contains id
  | .registerFile => d.varRegister.registerStackIds.contains id
  | .globalPropertyBag => d.globals.contains id

/-- The fixed order of the lookup. -/
def resolutionOrder : List FactorTable :=
  [.inlineFunctionCatalog, .apiClassTable, .constPool, .externalCTable, .registerFile,
   .globalPropertyBag]

/-- "First hit wins": the first table in the order that contains the
identifier, if any. -/
def firstTable (d : HiseSpecialData) (id : Identifier) : Option FactorTable :=
  resolutionOrder.find? (fun t => t.containsId d id)

/-- The state of `parseFactor` at an identifier of the root scope that is not
the iterator, not read inside an inline function and not a namespace name. -/
structure AtRootIdentifier (s : ExpressionTreeBuilder) : Prop where
  identifier : s.currentType = .identifier
  root : s.currentNamespace = .root
  notIterator : s.currentValue.toString ≠ s.currentIterator
  notInline : s.currentlyParsingInlineFunction = false
  notNamespace : s.hiseSpecialData.getNamespace s.currentValue.toString = none

/-- The node under the suffixes (`.name`, call, subscript, postfix `++`/`--`)
that `parseSuffixes` wraps around a factor. -/
def Expression.suffixBase : Expression → Expression
  | .DotOperator parent _ => parent.suffixBase
  | .FunctionCall object _ => object.suffixBase
  | .ArraySubscript object _ => object.suffixBase
  | .PostAssignment target _ => target.suffixBase
  | e => e

/-- The table whose entries a node variant refers to. -/
def Expression.fromTable : Expression → Option FactorTable
  | .InlineFunctionCall _ _ _ => some .inlineFunctionCatalog
  | .ApiConstant _ => some .apiClassTable
  | .ApiCall _ _ _ _ => some .apiClassTable
  | .ConstReference _ _ => some .constPool
  | .ExternalCFunctionCall _ _ => some .externalCTable
  | .RegisterName _ _ _ => some .registerFile
  | .GlobalReference _ => some .globalPropertyBag
  | _ => none

/-- Tables in which the name `k` is both a constant and a register. -/
def constAndRegisterTables : HiseSpecialData :=
  { HiseSpecialData.empty with
    constObjects := [("k", .string "undeclared")],
    varRegister := { registerStackIds := ["k"], registerStack := [.bool true] } }

/-! ## Definitions used by the statements about statements and the pre-pass -/

/-- With enough fuel the parsing function `f`, started in state `s`, throws
`msg`. -/
def Fails {α : Type} (f : Nat → Parser α) (s : ExpressionTreeBuilder) (msg : String) : Prop :=
  ∃ n, f n s = .error msg

/-! ### C11: the case statements of a switch body -/

/-- The conditions held by a case statement. -/
def Statement.caseConditions : Statement → List Expression
  | .CaseStatement _ conditions _ => conditions
  | _ => []

/-- The body of a case statement, `none` for the null body of an empty case. -/
def Statement.caseBody : Statement → Option Statement
  | .CaseStatement _ _ body => body
  | _ => none

/-- The flag `isNotDefault` of a case statement. -/
def Statement.isNotDefaultCase : Statement → Bool
  | .CaseStatement isNotDefault _ _ => isNotDefault
  | _ => false

/-- A non-default case that has a body. -/
def Statement.isCaseWithBody (c : Statement) : Bool :=
  c.isNotDefaultCase && c.caseBody.isSome

/-- The case statements `cs` are read one after the other by
`parseCaseStatement`, each at a `case` or `default` token, up to a token that
starts no case. -/
inductive ParsesCases (H : Host) :
    ExpressionTreeBuilder → List Statement → ExpressionTreeBuilder → Prop
  | done {s : ExpressionTreeBuilder} :
      s.currentType ≠ .case_ → s.currentType ≠ .default_ → ParsesCases H s [] s
  | more {s t u : ExpressionTreeBuilder} {c : Statement} {cs : List Statement} :
      (s.currentType = .case_ ∨ s.currentType = .default_) →
      Parses (parseCaseStatement H) s c t → ParsesCases H t cs u →
      ParsesCases H s (c :: cs) u

/-- The local variables of the loop of `parseSwitchBlock`: the pending
conditions of empty cases, the cases and the default case. -/
abbrev SwitchAcc := List Expression × List Statement × Option Statement

/-- The body of the loop of `parseSwitchBlock` for the case statement `c`
that `parseCaseStatement` returned. -/
def stackCase (acc : SwitchAcc) (c : Statement) : SwitchAcc :=
  match c with
  | .CaseStatement _ conditions none => (acc.1 ++ conditions, acc.2.1, acc.2.2)
  | .CaseStatement isNotDefault conditions (some body) =>
    if isNotDefault then
      ([], acc.2.1 ++ [.CaseStatement isNotDefault (conditions ++ acc.1) (some body)], acc.2.2)
    else ([], acc.2.1, some (.CaseStatement isNotDefault (conditions ++ acc.1) (some body)))
  | _ => acc

/-- A switch body in which an empty case precedes a case with a body. -/
def stackedSwitch : String := "switch (x) { case 1: case 2: y; }"

/-- The parser over `stackedSwitch` at the token from offset `i` to offset `j`. -/
def switchState (i j : Nat) (t : TokenType) (v : Var) : ExpressionTreeBuilder :=
  mkParser HiseSpecialData.empty false stackedSwitch i j t v

/-! ### C12: a name that is already a constant -/

/-- Tables in which the pre-pass has registered the constant `v`, with the
global properties `globals`. -/
def constTables (globals : NamedValueSet) : HiseSpecialData :=
  { HiseSpecialData.empty with constObjects := [("v", .string "undeclared")], globals := globals }

/-! ### C13, C14, C20: states of the pre-pass -/

/-- The state of the pre-pass over `program` at the token from offset `i` to
offset `j`: the tables `d`, the open namespace `cns`, the constants `ids` read
since the last flush, and the brace depth. -/
def preState (program : String) (d : HiseSpecialData) (cns : NsPtr) (ids : List Identifier)
    (braceLevel : Int) (i j : Nat) (t : TokenType) (v : Var) : PreprocessState :=
  { it := mkIterator program i j t v, hiseSpecialData := d, cns := cns, ids := ids,
    braceLevel := braceLevel }

/-- Tables holding only constants of the root namespace and named namespaces. -/
def prepassTables (consts : NamedValueSet) (locations : List Location)
    (namespaces : List JavascriptNamespace) : HiseSpecialData :=
  { HiseSpecialData.empty with
    constObjects := consts, constLocations := locations, namespaces := namespaces }

/-- A namespace declared inside a block of the root namespace. -/
def namespaceInBlock : String := "{ namespace A { } }"

/-- A namespace declared inside another namespace. -/
def namespaceInNamespace : String := "namespace A { namespace B { } }"

/-- A constant declared in a nested block of a named namespace. -/
def constInNamespaceBlock : String := "namespace A { if (x) { const var k = 1; } }"

/-- A constant declared in a nested block of the root namespace. -/
def constInRootBlock : String := "if (x) { const var k = 1; }"

/-- A constant of the same name declared before and after a namespace block. -/
def constAroundNamespace : String := "const var a = 1; namespace N { } const var a = 2;"

/-! ### C15: include loaders -/

/-- The project-rooted loader (`USE_BACKEND`) of a project in which every script
file exists and holds `text`. -/
def projectHost (text : String) : Host :=
  { specHost with
    USE_BACKEND := true
    getFilePath := fun name => name
    getFileName := fun path => path
    loadFileAsString := fun _ => some text.toList }

/-- The embedded collection (no `USE_BACKEND`) in which every script is `text`. -/
def collectionHost (text : String) : Host :=
  { specHost with
    USE_BACKEND := false
    getExternalScriptFromCollection := fun _ => text.toList }

/-- The canonical name `refFileName` that `getFileContent` gives a script name
under `USE_BACKEND`. -/
def canonicalName (H : Host) (fileNameInScript : String) : String :=
  H.getFilePath ("\x7bPROJECT_FOLDER\x7d" ++
    String.mk (fileNameInScript.data.filter (fun c => c ≠ '"' ∧ c ≠ '\'')))

/-- A program that includes one file twice. -/
def includeTwice : String := "include(\"a.js\"); include(\"a.js\");"

/-- A program, or a file, that includes the file `a.js`. -/
def selfInclude : String := "include(\"a.js\");"

/-- A token iterator over the text `program` of the file `file`. -/
def fileIterator (file program : String) (i j : Nat) (t : TokenType) (v : Var) : TokenIterator :=
  { location := ⟨program.toList, file, program.toList.drop i⟩, currentType := t,
    currentValue := v, lastComment := "", p := program.toList.drop j }

/-- The parser of an included file: `fileIterator` with the tables `d`. -/
def fileParser (d : HiseSpecialData) (file program : String) (i j : Nat) (t : TokenType)
    (v : Var) : ExpressionTreeBuilder :=
  { toTokenIterator := fileIterator file program i j t v, hiseSpecialData := d }

/-- The state of the pre-pass over the text `program` of the file `file`. -/
def filePrepass (d : HiseSpecialData) (file program : String) (i j : Nat) (t : TokenType)
    (v : Var) : PreprocessState :=
  { it := fileIterator file program i j t v, hiseSpecialData := d }

/-- Tables that hold only included files. -/
def includeTables (files : List String) : HiseSpecialData :=
  { HiseSpecialData.empty with includedFiles := files.map (fun f => { f := f }) }

/-- The text of the included file of the examples. -/
def includedText : String := "x;"

/-- The text of the file `a.js` of `chainHost`: it includes `b.js`. -/
def includesB : String := "include(\"b.js\");"

/-- The project-rooted loader (`USE_BACKEND`) of a project whose file `a.js`
holds `includesB` and whose other script files hold `includedText`. -/
def chainHost : Host :=
  { specHost with
    USE_BACKEND := true
    getFilePath := fun name => name
    getFileName := fun path => path
    loadFileAsString := fun path =>
      if path = "\x7bPROJECT_FOLDER\x7da.js" then some includesB.toList
      else some includedText.toList }

/-- A program that includes `a.js`, which includes `b.js`, and then `b.js`. -/
def includeTransitively : String := "include(\"a.js\"); include(\"b.js\");"

/-- Every finished run of the pre-pass action `m` that starts with the set `F`
of included files ends with it. -/
structure KeepsIncluded (F : List ExternalFileData) {α : Type} (m : Preprocessor α) : Prop where
  h : ∀ s a s', s.hiseSpecialData.includedFiles = F → m s = .ok (a, s') →
    s'.hiseSpecialData.includedFiles = F

/-! ### C16, C17: the arguments of a call -/

/-- The argument expressions `es` are read one after the other by
`parseExpression`, separated by commas, from the token after `(` up to the
token `close`, which is not consumed. -/
inductive ParsesArguments (H : Host) (close : TokenType) :
    ExpressionTreeBuilder → List Expression → ExpressionTreeBuilder → Prop
  | done {s : ExpressionTreeBuilder} : s.currentType = close → ParsesArguments H close s [] s
  | last {s t : ExpressionTreeBuilder} {e : Expression} :
      s.currentType ≠ close → Parses (parseExpression H) s e t → t.currentType = close →
      ParsesArguments H close s [e] t
  | more {s t u v : ExpressionTreeBuilder} {e : Expression} {es : List Expression} :
      s.currentType ≠ close → Parses (parseExpression H) s e t → t.currentType ≠ close →
      t.currentType = .comma → skip H t = .ok ((), u) → ParsesArguments H close u es v →
      ParsesArguments H close s (e :: es) v

/-- A call of the inline function `f` with one argument. -/
def inlineCallOne : String := "f(1)"

/-- A call of the inline function `f` with two arguments. -/
def inlineCallTwo : String := "f(1, 2)"

/-- An API class `A` whose only method `f` has index 0 and takes one argument. -/
def apiA : ApiClass :=
  { getName := "A"
    getConstantIndex := fun _ => -1
    getConstantValue := fun _ => .undefined
    getIndexAndNumArgsForFunction := fun name => if name = "f" then (0, 1) else (-1, -1) }

/-- Tables in which the API class `A` is registered. -/
def apiTables : HiseSpecialData :=
  { HiseSpecialData.empty with apiIds := ["A"], apiClasses := [apiA] }

/-- A call of the method `f` of `A` with no argument. -/
def apiCallNone : String := "A.f()"

/-- A call of the method `f` of `A` with one argument. -/
def apiCallOne : String := "A.f(1)"

/-- A call of the method `f` of `A` with two arguments. -/
def apiCallTwo : String := "A.f(1, 2)"

/-! ### C18: the parameter list of a callback -/

/-- The names `ps`, separated by commas, are read from the token after `(` up
to the token `)`, which is left as the current one. -/
inductive ParameterList (H : Host) : TokenIterator → List Identifier → TokenIterator → Prop
  | nil {i : TokenIterator} : i.currentType = .closeParen → ParameterList H i [] i
  | single {i j : TokenIterator} :
      i.currentType = .identifier → TokenIterator.skip H i = .ok ((), j) →
      j.currentType = .closeParen → ParameterList H i [i.currentValue.toString] j
  | cons {i j k l : TokenIterator} {p : Identifier} {ps : List Identifier} :
      i.currentType = .identifier → TokenIterator.skip H i = .ok ((), j) →
      j.currentType = .comma → TokenIterator.skip H j = .ok ((), k) →
      ParameterList H k (p :: ps) l →
      ParameterList H i (i.currentValue.toString :: p :: ps) l

/-- The tables after the loop of `parseCallback` stored the names `ps` in the
parameter slots of the callback `name` from slot `i` on. -/
def storeParameters (name : Identifier) : HiseSpecialData → Nat → List Identifier →
    HiseSpecialData
  | d, _, [] => d
  | d, i, p :: ps =>
    storeParameters name
      (d.modifyCallback name (fun c =>
        { c with parameters := c.parameters.set i p,
                 parameterValues := c.parameterValues.set i .undefined }))
      (i + 1) ps

/-- Tables in which the host registered the callback `cb` with one parameter;
`parameters` is its parameter array and `body` its statements. -/
def callbackTables (parameters : List Identifier) (body : Option Statement) : HiseSpecialData :=
  { HiseSpecialData.empty with
    callbacks := [{ name := "cb", numArgs := 1, parameters := parameters,
                    parameterValues := [.undefined], statements := body }] }

/-- The parser of `mkParser` while the callback `cb` is parsed. -/
def callbackParser (cb : Identifier) (d : HiseSpecialData) (program : String) (i j : Nat)
    (t : TokenType) (v : Var) : ExpressionTreeBuilder :=
  { mkParser d false program i j t v with currentlyParsedCallback := cb }

/-- The definition of the callback `cb`. -/
def callbackDefinition : String := "function cb(a) { }"

/-- A definition of the callback `cb` whose body defines `cb` again. -/
def nestedCallback : String := "function cb(a) { function cb(b) { } }"

/-! ### C19: names qualified by a namespace -/

/-- The state of `parseFactor` at an identifier of the root scope that is not
the iterator and not read inside an inline function. -/
structure AtRootName (s : ExpressionTreeBuilder) : Prop where
  identifier : s.currentType = .identifier
  root : s.currentNamespace = .root
  notIterator : s.currentValue.toString ≠ s.currentIterator
  notInline : s.currentlyParsingInlineFunction = false

/-- Tables with the namespaces `A`, which holds the constant `k`, and `B`. -/
def namespaceTables : HiseSpecialData :=
  { HiseSpecialData.empty with
    namespaces := [{ id := "A", constObjects := [("k", .string "undeclared")],
                     constLocations := [⟨"", 0⟩] }, { id := "B" }] }

/-- A constant qualified by its namespace. -/
def qualifiedConst : String := "A.k"

/-- A name qualified by two names of namespaces. -/
def twoLevels : String := "A.B.k"

/-- A for-in loop over `xs` whose body refers to `A.k` while `k` is the
iterator of the loop. -/
def iteratorMember : String := "for (k in xs) A.k;"

/-- The tables `namespaceTables` with an inline function `f` of the root
namespace; the namespace `A` holds no inline function. -/
def inlineNamespaceTables : HiseSpecialData :=
  { namespaceTables with inlineFunctions := [{ name := "f", parameterNames := [] }] }

/-! ## Definitions for the lexer and declaration claims -/

/-! ### C29: the statements of a statement list -/

/-- Whether a statement is a `LockStatement`. -/
def Statement.isLockStatement : Statement → Bool
  | .LockStatement _ _ => true
  | _ => false

/-- The statements `sts` are read one after the other by `parseStatement`, up to
a token `}` or the end of file, which is left as the current token. -/
inductive ParsesStatements (H : Host) :
    ExpressionTreeBuilder → List Statement → ExpressionTreeBuilder → Prop
  | done {s : ExpressionTreeBuilder} :
      (s.currentType = .closeBrace ∨ s.currentType = .eof) → ParsesStatements H s [] s
  | more {s t u : ExpressionTreeBuilder} {st : Statement} {sts : List Statement} :
      s.currentType ≠ .closeBrace → s.currentType ≠ .eof →
      Parses (parseStatement H) s st t → ParsesStatements H t sts u →
      ParsesStatements H s (st :: sts) u

/-- A read lock followed by an expression statement. -/
def lockThenStatement : String := "rLock(x); y;"

/-! ### The shape of a number literal -/

/-- The mantissa of the number at the start of `p` holds a `.`: the leading
digits are followed by one. -/
def hasPoint (p : List Char) : Bool := peek (p.dropWhile isDigit) = '.'

/-- The text behind the mantissa of the number at the start of `p`: behind the
leading digits and, when a `.` follows them, behind the `.` and the digits
after it. -/
def afterMantissa (p : List Char) : List Char :=
  if hasPoint p then ((p.dropWhile isDigit).drop 1).dropWhile isDigit else p.dropWhile isDigit

/-- The text starts with the letter of an exponent, `e` or `E`. -/
def atExponentLetter (t : List Char) : Bool := peek t = 'e' || peek t = 'E'

/-- The text behind the letter and the optional sign of an exponent. -/
def exponentDigits (t : List Char) : List Char :=
  if peek (t.drop 1) = '+' ∨ peek (t.drop 1) = '-' then (t.drop 1).drop 1 else t.drop 1

/-- A well-formed exponent starts the text: `e` or `E`, an optional sign and at
least one digit. -/
def wellFormedExponent (t : List Char) : Bool :=
  atExponentLetter t && isDigit (peek (exponentDigits t))

/-- The number at the start of `p` is written as a double: its mantissa is
followed by a well-formed exponent, or it holds a `.` and is not followed by
`e` or `E`. -/
def isFloatLiteral (p : List Char) : Bool :=
  wellFormedExponent (afterMantissa p) || (hasPoint p && !atExponentLetter (afterMantissa p))

/-- The text behind the mantissa and the exponent, if there is one, of the
number at the start of `p`. -/
def afterFloat (p : List Char) : List Char :=
  if atExponentLetter (afterMantissa p) then (exponentDigits (afterMantissa p)).dropWhile isDigit
  else afterMantissa p

/-- The leading digits of `p` hold an 8 or a 9. -/
def hasDecimalDigit (p : List Char) : Bool := (p.takeWhile isDigit).any (fun c => c = '8' || c = '9')

/-! ### Tables and programs of the declaration claims -/

/-- The tables with the root namespace `root` and the named namespaces
`namespaces`, and nothing registered by the host. -/
def declTables (root : JavascriptNamespace) (namespaces : List JavascriptNamespace) :
    HiseSpecialData :=
  { toJavascriptNamespace := root, namespaces := namespaces }

/-- A token iterator as `mkIterator` whose last doc comment is `c`. -/
def commentIterator (c : String) (program : String) (i j : Nat) (t : TokenType) (v : Var) :
    TokenIterator :=
  { mkIterator program i j t v with lastComment := c }

/-- A state of the pre-pass as `preState` whose last doc comment is `c`. -/
def commentPreState (c : String) (program : String) (d : HiseSpecialData) (cns : NsPtr)
    (ids : List Identifier) (braceLevel : Int) (i j : Nat) (t : TokenType) (v : Var) :
    PreprocessState :=
  { it := commentIterator c program i j t v, hiseSpecialData := d, cns := cns, ids := ids,
    braceLevel := braceLevel }

/-- A parser as `mkParser` whose last doc comment is `c`. -/
def commentParser (c : String) (d : HiseSpecialData) (inl : Bool) (program : String) (i j : Nat)
    (t : TokenType) (v : Var) : ExpressionTreeBuilder :=
  { toTokenIterator := commentIterator c program i j t v, hiseSpecialData := d,
    currentlyParsingInlineFunction := inl }

/-- One register declared twice. -/
def registerTwice : String := "register_var a; register_var a;"

/-- An inline function declared behind an `extern` block inside a namespace. -/
def inlineAfterExtern : String :=
  "namespace A \x7b extern \"C\" \x7b int g() \x7b \x7d \x7d inline function f() \x7b \x7d \x7d"

/-- Two inline functions; the body of the first declares a local variable. -/
def localInFirst : String := "inline function f() { local v; } inline function g() { }"

/-- The first end-to-end scenario: a constant and a variable initialised with it. -/
def scenarioOne : String := "const var PI = 3.14; var x = PI;"

/-! ### Doc comments -/

/-- The text of a doc comment with the content `c`, followed by `rest`. -/
def docComment (c rest : List Char) : List Char :=
  "/**".toList ++ (c ++ ("*/".toList ++ rest))

/-- Two inline functions; the first has a doc comment and a doc comment in its
body, the second has none. -/
def docThenInline : String :=
  "/** doc */ inline function f(x) { /** inner */ } inline function g() { }"

/-- An action of the lexer that changes neither the last comment nor the
location. -/
def KeepsComment {α : Type} (m : StM TokenIterator α) : Prop :=
  ∀ it a it', m it = .ok (a, it') →
    it'.lastComment = it.lastComment ∧ it'.location = it.location

/-! ## Further definitions: `extern` blocks, integer literals, lexer progress,
the for-in iterator, declarator lists, template parameters -/

/-! ### Programs with an `extern` block -/

/-- A namespace whose `extern` block is followed by a constant. -/
def constAfterExtern : String :=
  "namespace A \x7b extern \"C\" \x7b int g() \x7b \x7d \x7d const var k = 1; \x7d"

/-- An `extern` block at brace depth 0, followed by a constant. -/
def externAtRoot : String :=
  "extern \"C\" \x7b int g() \x7b \x7d \x7d const var k = 1;"

/-! ### Integer literals -/

/-- The character is a hex digit: `getHexDigitValue` is not negative. -/
def isHexDigit (c : Char) : Bool := decide (0 ≤ getHexDigitValue c)

/-- The character is one of `0` to `7`. -/
def isOctalDigit (c : Char) : Bool := '0' ≤ c && c ≤ '7'

/-- The positional value in base `b` of the digits `ds`, most significant
first (the reading of a literal in words, to compare the lexer with). -/
def positionalValue (b : Int) (ds : List Char) : Int :=
  ds.foldl (fun v c => v * b + getHexDigitValue c) 0

/-- The text starts a hex literal: `0x` or `0X` and a hex digit. -/
def startsHexLiteral (p : List Char) : Bool :=
  peek p = '0' && (peek (p.drop 1) = 'x' || peek (p.drop 1) = 'X') &&
    isHexDigit (peek (p.drop 2))

/-- A token iterator whose cursor stands at the start of the text `p`, before
the first token is read. -/
def lexerAt (p : String) : TokenIterator :=
  { location := ⟨p.toList, "", p.toList⟩, currentType := .eof, currentValue := .void_,
    lastComment := "", p := p.toList }

/-! ### Comments -/

/-- The comment loop at `p` meets whitespace and line comments only, and stops
at `q`. -/
inductive LineComments : List Char → List Char → Prop
  | stop (p : List Char) :
      (peek (p.dropWhile isWhitespace) ≠ '/' ∨
        (peek ((p.dropWhile isWhitespace).drop 1) ≠ '/' ∧
          peek ((p.dropWhile isWhitespace).drop 1) ≠ '*')) →
      LineComments p (p.dropWhile isWhitespace)
  | line (p q : List Char) :
      peek (p.dropWhile isWhitespace) = '/' →
      peek ((p.dropWhile isWhitespace).drop 1) = '/' →
      LineComments (findChar '\n' (p.dropWhile isWhitespace)) q →
      LineComments p q

/-- The text holds whitespace and comments only: whitespace characters, line
comments (`//` up to the end of the line or of the text) and block comments
(`/*` up to the first `*/` behind it). -/
inductive WhitespaceAndComments : List Char → Prop
  | nil : WhitespaceAndComments []
  | space {c : Char} {p : List Char} : isWhitespace c = true → WhitespaceAndComments p →
      WhitespaceAndComments (c :: p)
  | lineEnd {body : List Char} : '\n' ∉ body → WhitespaceAndComments ('/' :: '/' :: body)
  | line {body rest : List Char} : '\n' ∉ body → WhitespaceAndComments rest →
      WhitespaceAndComments ('/' :: '/' :: (body ++ '\n' :: rest))
  | block {body rest : List Char} : ¬ "*/".toList <:+: body → WhitespaceAndComments rest →
      WhitespaceAndComments ('/' :: '*' :: (body ++ '*' :: '/' :: rest))

/-- A doc comment and a plain block comment before an inline function. -/
def docThenNote : String := "/** doc */ /* note */ inline function f() \x7b\x7d"

/-! ### Declarator lists -/

/-- The initialiser of a declarator read from `b`: `= e` for an expression `e`,
or nothing, which leaves the empty expression. -/
inductive ParsesInitialiser (H : Host) :
    ExpressionTreeBuilder → Expression → ExpressionTreeBuilder → Prop
  | assign {b c d : ExpressionTreeBuilder} {e : Expression} :
      b.currentType = .assign → skip H b = .ok ((), c) → Parses (parseExpression H) c e d →
      ParsesInitialiser H b e d
  | absent {b : ExpressionTreeBuilder} :
      b.currentType ≠ .assign → ParsesInitialiser H b .empty b

/-- The declarators `name [= e], ..., name [= e];` read from `s` as plain
variables: every name passes the check against the storage kind `RootScope` and
gives a `VarStatement`; a comma nests the remaining declarators in a block. -/
inductive VarDeclarators (H : Host) :
    ExpressionTreeBuilder → Statement → ExpressionTreeBuilder → Prop
  | last {s a b c t : ExpressionTreeBuilder} {init : Expression} :
      s.currentType = .identifier → skip H s = .ok ((), a) →
      a.hiseSpecialData.checkIfExistsInOtherStorage .RootScope s.currentValue.toString a =
        .ok ((), b) →
      ParsesInitialiser H b init c → c.currentType = .semicolon → skip H c = .ok ((), t) →
      VarDeclarators H s (.VarStatement s.currentValue.toString init) t
  | more {s a b c d t : ExpressionTreeBuilder} {init : Expression} {rest : Statement} :
      s.currentType = .identifier → skip H s = .ok ((), a) →
      a.hiseSpecialData.checkIfExistsInOtherStorage .RootScope s.currentValue.toString a =
        .ok ((), b) →
      ParsesInitialiser H b init c → c.currentType = .comma → skip H c = .ok ((), d) →
      VarDeclarators H d rest t →
      VarDeclarators H s (.BlockStatement [.VarStatement s.currentValue.toString init, rest] []) t

/-- A constant and a second declarator behind a comma. -/
def constList : String := "const var a = 1, b = 2;"

/-- A register and a second declarator behind a comma. -/
def registerList : String := "register_var a, b;"

/-- A global variable and a second declarator behind a comma. -/
def globalList : String := "global a, b;"

/-- A local variable and a second declarator behind a comma. -/
def localList : String := "local a, b;"

/-! ### `TemplateParameter::ListOps::merge` (snex_jit_Functions.cpp) -/

/-- A `TemplateParameter`. The struct is declared in a header that is not among
the translated files: `κ` is the type of its kind `t`, `ι` the type of its
`argumentId`, and `other` holds the remaining fields (`type`, `constant`, ...),
which `merge` copies as they are. -/
structure TemplateParameter (κ ι ρ : Type) where
  t : κ
  argumentId : ι
  other : ρ

/-- A `juce::Result`: success, or a failure with its message. -/
inductive Result where
  | ok
  | fail (errorMessage : String)
deriving DecidableEq, Repr

/-- What `merge` uses of the header of `TemplateParameter`: the three kinds it
names, `TemplateParameter::isResolved`, and the text of an `argumentId`
(`NamespacedIdentifier::toString`). -/
structure TemplateParameter.Header (κ ι ρ : Type) where
  TypeTemplateArgument : κ
  Type_ : κ
  ConstantInteger : κ
  isResolved : TemplateParameter κ ι ρ → Bool
  toString : ι → String

/-- The loop `for (int i = 0; i < numArgs; i++)` of `merge`: `i` is the index of
the first of the arguments still to read, the last argument of the function is
`instanceParameters`. -/
def TemplateParameter.ListOps.mergeLoop {κ ι ρ : Type} [DecidableEq κ]
    (K : TemplateParameter.Header κ ι ρ) (parameters : List (TemplateParameter κ ι ρ)) :
    Nat → List (TemplateParameter κ ι ρ) → List (TemplateParameter κ ι ρ) →
      List (TemplateParameter κ ι ρ)
  | _, [], instanceParameters => instanceParameters
  | i, a :: arguments, instanceParameters =>
    if h : i < parameters.length then
      mergeLoop K parameters (i + 1) arguments
        (instanceParameters ++ [{ parameters[i] with argumentId := a.argumentId }])
    else
      mergeLoop K parameters (i + 1) arguments
        (instanceParameters ++
          [{ a with t := if a.t = K.TypeTemplateArgument then K.Type_ else K.ConstantInteger }])

/-- `TemplateParameter::ListOps::merge (arguments, parameters, r)`: the list
returned and the value of the reference `r` at the return. The assertions on the
two lists (`jassert`) are checks of a debug build and change no result. -/
def TemplateParameter.ListOps.merge {κ ι ρ : Type} [DecidableEq κ]
    (K : TemplateParameter.Header κ ι ρ) (arguments parameters : List (TemplateParameter κ ι ρ))
    (r : Result) : List (TemplateParameter κ ι ρ) × Result :=
  if arguments.isEmpty ∧ parameters.isEmpty then (parameters, r)
  else
    let numArgs := arguments.length
    let numDefinedParameters := parameters.length
    if numDefinedParameters > numArgs then ([], .fail "Too many template parameters")
    else
      let instanceParameters := mergeLoop K parameters 0 arguments []
      (instanceParameters,
        instanceParameters.foldl (fun r p =>
          if ¬ K.isResolved p then
            .fail ("Missing template specialisation for " ++ K.toString p.argumentId)
          else r) r)

/-- A header for examples: the kinds are numbered 0 (`TypeTemplateArgument`),
1 (`Type`), 2 (`ConstantInteger`) and 3 (an integer template argument), the
remaining field is a number, and a parameter is resolved when that number is
not 0. -/
def exampleHeader : TemplateParameter.Header Nat String Nat where
  TypeTemplateArgument := 0
  Type_ := 1
  ConstantInteger := 2
  isResolved := fun p => decide (p.other ≠ 0)
  toString := fun i => i

/-! ### Switch bodies -/

/-- A switch body with two defaults that have a body, followed by an empty
case and an empty default. -/
def trailingSwitch : String := "switch (x) { default: y; default: z; case 1: default: }"

/-- The parser over `trailingSwitch` at the token from offset `i` to offset `j`. -/
def trailingState (i j : Nat) (t : TokenType) (v : Var) : ExpressionTreeBuilder :=
  mkParser HiseSpecialData.empty false trailingSwitch i j t v

/-! ### Names in the block of a namespace -/

/-- The state of `parseFactor` at an identifier in the block of a named
namespace: the identifier is not the iterator and, in the body of an inline
function, neither a parameter nor a local variable of the inline function
registered last in the namespace. -/
structure AtNamespaceName (s : ExpressionTreeBuilder) : Prop where
  identifier : s.currentType = .identifier
  named : s.currentNamespace ≠ .root
  notIterator : s.currentValue.toString ≠ s.currentIterator
  notLocal : s.currentlyParsingInlineFunction = false ∨
    ((s.hiseSpecialData.ns s.currentNamespace).inlineFunctions.isEmpty = false ∧
      Hise.indexOf ((s.hiseSpecialData.ns s.currentNamespace).inlineFunctions.getLast?.elim []
        (·.parameterNames)) s.currentValue.toString < 0 ∧
      NamedValueSet.indexOf
        ((s.hiseSpecialData.ns s.currentNamespace).inlineFunctions.getLast?.elim []
          (·.localProperties)) s.currentValue.toString < 0)

/-- Tables in which the root namespace and the namespace `A` hold a constant,
a register and an inline function each, under different names, and `B` is a
second namespace that holds the constant `m`. -/
def scopedTables : HiseSpecialData :=
  { HiseSpecialData.empty with
    constObjects := [("rc", .string "undeclared")],
    varRegister := { registerStackIds := ["rr"], registerStack := [.bool true] },
    inlineFunctions := [{ name := "rf", parameterNames := [] }],
    namespaces := [
      { id := "A", constObjects := [("k", .string "undeclared")],
        varRegister := { registerStackIds := ["r"], registerStack := [.bool true] },
        inlineFunctions := [{ name := "f", parameterNames := [] }] },
      { id := "B", constObjects := [("m", .string "undeclared")] }] }

/-- The parser over `program` in the block of the namespace `ns`, at the token
from offset `i` to offset `j`. -/
def namespaceParser (ns : NsPtr) (d : HiseSpecialData) (program : String) (i j : Nat)
    (t : TokenType) (v : Var) : ExpressionTreeBuilder :=
  { mkParser d false program i j t v with currentNamespace := ns }

/-! ### The frame of `currentIterator` -/

/-- The parser state `s'` is reached from `s` by steps that stay at the token
and keep `currentIterator` (`keep`), that read one token (`token`), or that
are at the token `in`, read it and what follows it, and then write
`currentIterator` (`inExpression`). -/
inductive IteratorFrame (H : Host) : ExpressionTreeBuilder → ExpressionTreeBuilder → Prop
  | keep {s s' : ExpressionTreeBuilder} : s'.p = s.p → s'.currentType = s.currentType →
      s'.currentIterator = s.currentIterator → IteratorFrame H s s'
  | token {s s' : ExpressionTreeBuilder} : skip H s = .ok ((), s') → IteratorFrame H s s'
  | inExpression {s t u : ExpressionTreeBuilder} (id : Identifier) : s.currentType = .in_ →
      skip H s = .ok ((), t) → IteratorFrame H t u →
      IteratorFrame H s { u with currentIterator := id }
  | trans {s t u : ExpressionTreeBuilder} : IteratorFrame H s t → IteratorFrame H t u →
      IteratorFrame H s u

/-- Every finished run of the parsing action `m` is an `IteratorFrame`. -/
structure Frame (H : Host) {α : Type} (m : Parser α) : Prop where
  h : ∀ s a s', m s = .ok (a, s') → IteratorFrame H s s'

/-- Every finished run of a parsing function with `n` units of fuel is an
`IteratorFrame`. -/
structure FrameAt (H : Host) (n : Nat) : Prop where
  parseStatementListLoop : ∀ (a : List Statement) (b : List Statement), Frame H (parseStatementListLoop H n a b)
  parseStatementList : Frame H (parseStatementList H n)
  parseFunctionParamsLoop : ∀ (a : List Identifier), Frame H (parseFunctionParamsLoop H n a)
  parseFunctionParamsAndBody : Frame H (parseFunctionParamsAndBody H n)
  parseExpression : Frame H (parseExpression H n)
  parseInPlaceOpExpression : ∀ (a : Expression → Expression → Expression) (b : Expression), Frame H (parseInPlaceOpExpression H n a b)
  parseBlock : Frame H (parseBlock H n)
  parseStatement : Frame H (parseStatement H n)
  parseExternalFile : Frame H (parseExternalFile H n)
  parseIf : Frame H (parseIf H n)
  parseReturn : Frame H (parseReturn H n)
  parseVar : Frame H (parseVar H n)
  parseConstVar : ∀ (a : NsPtr), Frame H (parseConstVar H n a)
  parseRegisterVar : ∀ (a : NsPtr), Frame H (parseRegisterVar H n a)
  parseLockStatement : ∀ (a : Bool), Frame H (parseLockStatement H n a)
  parseGlobalAssignment : Frame H (parseGlobalAssignment H n)
  parseLocalAssignment : Frame H (parseLocalAssignment H n)
  parseCallback : Frame H (parseCallback H n)
  parseNamespace : Frame H (parseNamespace H n)
  parseFunction : Frame H (parseFunction H n)
  parseArgumentsLoop : ∀ (a : TokenType) (b : List Expression), Frame H (parseArgumentsLoop H n a b)
  parseInlineFunctionCall : ∀ (a : InlineRef), Frame H (parseInlineFunctionCall H n a)
  parseInlineFunctionSkipLoop : Frame H (parseInlineFunctionSkipLoop H n)
  parseInlineFunction : ∀ (a : NsPtr), Frame H (parseInlineFunction H n a)
  parseExternalCArgumentsLoop : ∀ (a : List Identifier), Frame H (parseExternalCArgumentsLoop H n a)
  parseExternalCBodyLoop : ∀ (a : Int), Frame H (parseExternalCBodyLoop H n a)
  parseExternalCFunction : Frame H (parseExternalCFunction H n)
  parseExternalCFunctionCall : Frame H (parseExternalCFunctionCall H n)
  parseCaseStatementLoop : ∀ (a : List Statement), Frame H (parseCaseStatementLoop H n a)
  parseCaseStatement : Frame H (parseCaseStatement H n)
  parseSwitchBlockLoop : ∀ (a : List Expression) (b : List Statement) (c : Option Statement), Frame H (parseSwitchBlockLoop H n a b c)
  parseSwitchBlock : Frame H (parseSwitchBlock H n)
  parseForLoop : Frame H (parseForLoop H n)
  parseDoOrWhileLoop : ∀ (a : Bool), Frame H (parseDoOrWhileLoop H n a)
  parseFunctionDefinition : Frame H (parseFunctionDefinition H n)
  parseFunctionCall : ∀ (a : Bool) (b : Expression), Frame H (parseFunctionCall H n a b)
  parseApiExpression : Frame H (parseApiExpression H n)
  parseApiCallLoop : ∀ (a : String) (b : Int) (c : List Expression), Frame H (parseApiCallLoop H n a b c)
  parseApiCall : ∀ (a : Int) (b : ApiClass) (c : Identifier), Frame H (parseApiCall H n a b c)
  parseSuffixes : ∀ (a : Expression), Frame H (parseSuffixes H n a)
  parseObjectDeclarationLoop : ∀ (a : List Identifier) (b : List Expression), Frame H (parseObjectDeclarationLoop H n a b)
  parseNewLoop : ∀ (a : Expression), Frame H (parseNewLoop H n a)
  parseFactor : ∀ (a : Option NsPtr), Frame H (parseFactor H n a)
  parsePreIncDec : ∀ (a : Expression → Expression → Expression), Frame H (parsePreIncDec H n a)
  parseTypeof : Frame H (parseTypeof H n)
  parseUnary : Frame H (parseUnary H n)
  parseMultiplyDivideLoop : ∀ (a : Expression), Frame H (parseMultiplyDivideLoop H n a)
  parseMultiplyDivide : Frame H (parseMultiplyDivide H n)
  parseAdditionSubtractionLoop : ∀ (a : Expression), Frame H (parseAdditionSubtractionLoop H n a)
  parseAdditionSubtraction : Frame H (parseAdditionSubtraction H n)
  parseShiftOperatorLoop : ∀ (a : Expression), Frame H (parseShiftOperatorLoop H n a)
  parseShiftOperator : Frame H (parseShiftOperator H n)
  parseComparatorLoop : ∀ (a : Expression), Frame H (parseComparatorLoop H n a)
  parseComparator : Frame H (parseComparator H n)
  parseLogicOperatorLoop : ∀ (a : Expression), Frame H (parseLogicOperatorLoop H n a)
  parseLogicOperator : Frame H (parseLogicOperator H n)
  parseTerneryOperator : ∀ (a : Expression), Frame H (parseTerneryOperator H n a)

/-- The token iterator `u` is reached by reading tokens from the input `p`: the
first token is read by an iterator whose input is `p`, each later token by an
iterator whose input is where the token before it ended. -/
inductive Reads (H : Host) : List Char → TokenIterator → Prop
  | first {p : List Char} {t u : TokenIterator} : t.p = p →
      TokenIterator.skip H t = .ok ((), u) → Reads H p u
  | next {p : List Char} {t v u : TokenIterator} : Reads H p t → v.p = t.p →
      TokenIterator.skip H v = .ok ((), u) → Reads H p u

/-- The parser is not at a token `in` and reads none from its input. -/
def NoInAhead (H : Host) (s : ExpressionTreeBuilder) : Prop :=
  s.currentType ≠ .in_ ∧ ∀ u, Reads H s.p u → u.currentType ≠ .in_

/-- A for-in loop over `xs` followed by a statement that refers to its
iterator `x`. -/
def forInThenName : String := "for (x in xs) y; x;"

/-! ## Fuel: a finished run is stable under more fuel -/

theorem StM.le_refl {σ α : Type} (p : StM σ α) : p.le p := ⟨fun _ _ h _ => h⟩

theorem StM.le_trans {σ α : Type} {p q r : StM σ α} (h1 : p.le q) (h2 : q.le r) : p.le r :=
  ⟨fun s x h hx => h2.h s x (h1.h s x h hx) hx⟩

theorem StM.outOfFuel_le {σ α : Type} (p : StM σ α) : (StM.outOfFuel : StM σ α).le p :=
  ⟨fun _ _ h hr => absurd h.symm hr⟩

theorem StM.bind_le {σ α β : Type} {p p' : StM σ α} {f f' : α → StM σ β}
    (hp : p.le p') (hf : ∀ a, (f a).le (f' a)) : (p >>= f).le (p' >>= f') := by
  constructor
  intro s r h hr
  simp only [bind] at h ⊢
  cases hps : p s with
  | ok x =>
    obtain ⟨a, s'⟩ := x
    rw [hps] at h
    rw [hp.h s _ hps (by simp)]
    exact (hf a).h s' r h hr
  | error e =>
    rw [hps] at h
    rw [hp.h s _ hps (by simp)]
    exact h
  | outOfFuel =>
    rw [hps] at h
    exact absurd h.symm hr

theorem StM.ite_le {σ α : Type} {c : Prop} [Decidable c] {p p' q q' : StM σ α}
    (h1 : p.le p') (h2 : q.le q') : (if c then p else q).le (if c then p' else q') := by
  by_cases hc : c
  · simpa [hc] using h1
  · simpa [hc] using h2

theorem runNested_le {α : Type} (it : TokenIterator) {p q : Parser α} (h : p.le q) :
    (runNested it p).le (runNested it q) := by
  constructor
  intro s r hr hne
  unfold runNested at hr ⊢
  cases hp : p { toTokenIterator := it, hiseSpecialData := s.hiseSpecialData } with
  | ok x =>
    rw [hp] at hr
    rw [h.h _ _ hp (by simp)]
    exact hr
  | error e =>
    rw [hp] at hr
    rw [h.h _ _ hp (by simp)]
    exact hr
  | outOfFuel =>
    rw [hp] at hr
    exact absurd hr.symm hne

theorem catchInclude_le {α : Type} {p q : Parser α} (h : p.le q) :
    (catchInclude p).le (catchInclude q) := by
  constructor
  intro s r hr hne
  unfold catchInclude at hr ⊢
  cases hp : p s with
  | ok x =>
    rw [hp] at hr
    rw [h.h _ _ hp (by simp)]
    exact hr
  | error e =>
    rw [hp] at hr
    rw [h.h _ _ hp (by simp)]
    exact hr
  | outOfFuel =>
    rw [hp] at hr
    exact absurd hr.symm hne

theorem monoAt_zero (H : Host) : MonoAt H 0 := by
  constructor <;> intros <;> exact StM.outOfFuel_le _

set_option maxHeartbeats 4000000 in
theorem monoAt_succ (H : Host) (n : Nat) (ih : MonoAt H n) : MonoAt H (n + 1) := by
  constructor <;> intros <;>
  (first
    | rw [parseStatementListLoop, parseStatementListLoop]
    | rw [parseStatementList, parseStatementList]
    | rw [parseFunctionParamsLoop, parseFunctionParamsLoop]
    | rw [parseFunctionParamsAndBody, parseFunctionParamsAndBody]
    | rw [parseExpression, parseExpression]
    | rw [parseInPlaceOpExpression, parseInPlaceOpExpression]
    | rw [parseBlock, parseBlock]
    | rw [parseStatement, parseStatement]
    | rw [parseExternalFile, parseExternalFile]
    | rw [parseIf, parseIf]
    | rw [parseReturn, parseReturn]
    | rw [parseVar, parseVar]
    | rw [parseConstVar, parseConstVar]
    | rw [parseRegisterVar, parseRegisterVar]
    | rw [parseLockStatement, parseLockStatement]
    | rw [parseGlobalAssignment, parseGlobalAssignment]
    | rw [parseLocalAssignment, parseLocalAssignment]
    | rw [parseCallback, parseCallback]
    | rw [parseNamespace, parseNamespace]
    | rw [parseFunction, parseFunction]
    | rw [parseArgumentsLoop, parseArgumentsLoop]
    | rw [parseInlineFunctionCall, parseInlineFunctionCall]
    | rw [parseInlineFunctionSkipLoop, parseInlineFunctionSkipLoop]
    | rw [parseInlineFunction, parseInlineFunction]
    | rw [parseExternalCArgumentsLoop, parseExternalCArgumentsLoop]
    | rw [parseExternalCBodyLoop, parseExternalCBodyLoop]
    | rw [parseExternalCFunction, parseExternalCFunction]
    | rw [parseExternalCFunctionCall, parseExternalCFunctionCall]
    | rw [parseCaseStatementLoop, parseCaseStatementLoop]
    | rw [parseCaseStatement, parseCaseStatement]
    | rw [parseSwitchBlockLoop, parseSwitchBlockLoop]
    | rw [parseSwitchBlock, parseSwitchBlock]
    | rw [parseForLoop, parseForLoop]
    | rw [parseDoOrWhileLoop, parseDoOrWhileLoop]
    | rw [parseFunctionDefinition, parseFunctionDefinition]
    | rw [parseFunctionCall, parseFunctionCall]
    | rw [parseApiExpression, parseApiExpression]
    | rw [parseApiCallLoop, parseApiCallLoop]
    | rw [parseApiCall, parseApiCall]
    | rw [parseSuffixes, parseSuffixes]
    | rw [parseObjectDeclarationLoop, parseObjectDeclarationLoop]
    | rw [parseNewLoop, parseNewLoop]
    | rw [parseFactor, parseFactor]
    | rw [parsePreIncDec, parsePreIncDec]
    | rw [parseTypeof, parseTypeof]
    | rw [parseUnary, parseUnary]
    | rw [parseMultiplyDivideLoop, parseMultiplyDivideLoop]
    | rw [parseMultiplyDivide, parseMultiplyDivide]
    | rw [parseAdditionSubtractionLoop, parseAdditionSubtractionLoop]
    | rw [parseAdditionSubtraction, parseAdditionSubtraction]
    | rw [parseShiftOperatorLoop, parseShiftOperatorLoop]
    | rw [parseShiftOperator, parseShiftOperator]
    | rw [parseComparatorLoop, parseComparatorLoop]
    | rw [parseComparator, parseComparator]
    | rw [parseLogicOperatorLoop, parseLogicOperatorLoop]
    | rw [parseLogicOperator, parseLogicOperator]
    | rw [parseTerneryOperator, parseTerneryOperator]
  ) <;>
  repeat' (first
    | (with_reducible exact StM.le_refl _)
    | (with_reducible exact ih.parseStatementListLoop _ _)
    | (with_reducible exact ih.parseStatementList)
    | (with_reducible exact ih.parseFunctionParamsLoop _)
    | (with_reducible exact ih.parseFunctionParamsAndBody)
    | (with_reducible exact ih.parseExpression)
    | (with_reducible exact ih.parseInPlaceOpExpression _ _)
    | (with_reducible exact ih.parseBlock)
    | (with_reducible exact ih.parseStatement)
    | (with_reducible exact ih.parseExternalFile)
    | (with_reducible exact ih.parseIf)
    | (with_reducible exact ih.parseReturn)
    | (with_reducible exact ih.parseVar)
    | (with_reducible exact ih.parseConstVar _)
    | (with_reducible exact ih.parseRegisterVar _)
    | (with_reducible exact ih.parseLockStatement _)
    | (with_reducible exact ih.parseGlobalAssignment)
    | (with_reducible exact ih.parseLocalAssignment)
    | (with_reducible exact ih.parseCallback)
    | (with_reducible exact ih.parseNamespace)
    | (with_reducible exact ih.parseFunction)
    | (with_reducible exact ih.parseArgumentsLoop _ _)
    | (with_reducible exact ih.parseInlineFunctionCall _)
    | (with_reducible exact ih.parseInlineFunctionSkipLoop)
    | (with_reducible exact ih.parseInlineFunction _)
    | (with_reducible exact ih.parseExternalCArgumentsLoop _)
    | (with_reducible exact ih.parseExternalCBodyLoop _)
    | (with_reducible exact ih.parseExternalCFunction)
    | (with_reducible exact ih.parseExternalCFunctionCall)
    | (with_reducible exact ih.parseCaseStatementLoop _)
    | (with_reducible exact ih.parseCaseStatement)
    | (with_reducible exact ih.parseSwitchBlockLoop _ _ _)
    | (with_reducible exact ih.parseSwitchBlock)
    | (with_reducible exact ih.parseForLoop)
    | (with_reducible exact ih.parseDoOrWhileLoop _)
    | (with_reducible exact ih.parseFunctionDefinition)
    | (with_reducible exact ih.parseFunctionCall _ _)
    | (with_reducible exact ih.parseApiExpression)
    | (with_reducible exact ih.parseApiCallLoop _ _ _)
    | (with_reducible exact ih.parseApiCall _ _ _)
    | (with_reducible exact ih.parseSuffixes _)
    | (with_reducible exact ih.parseObjectDeclarationLoop _ _)
    | (with_reducible exact ih.parseNewLoop _)
    | (with_reducible exact ih.parseFactor _)
    | (with_reducible exact ih.parsePreIncDec _)
    | (with_reducible exact ih.parseTypeof)
    | (with_reducible exact ih.parseUnary)
    | (with_reducible exact ih.parseMultiplyDivideLoop _)
    | (with_reducible exact ih.parseMultiplyDivide)
    | (with_reducible exact ih.parseAdditionSubtractionLoop _)
    | (with_reducible exact ih.parseAdditionSubtraction)
    | (with_reducible exact ih.parseShiftOperatorLoop _)
    | (with_reducible exact ih.parseShiftOperator)
    | (with_reducible exact ih.parseComparatorLoop _)
    | (with_reducible exact ih.parseComparator)
    | (with_reducible exact ih.parseLogicOperatorLoop _)
    | (with_reducible exact ih.parseLogicOperator)
    | (with_reducible exact ih.parseTerneryOperator _)
    | (with_reducible refine runNested_le _ ?_)
    | (with_reducible refine catchInclude_le ?_)
    | (with_reducible refine StM.bind_le ?_ ?_)
    | (with_reducible refine StM.ite_le ?_ ?_)
    | intro _
    | split
    | (dsimp only))

theorem monoAt (H : Host) (n : Nat) : MonoAt H n := by
  induction n with
  | zero => exact monoAt_zero H
  | succ n ih => exact monoAt_succ H n ih


theorem StM.le_of_succ {σ α : Type} {f : Nat → StM σ α} (h : ∀ k, (f k).le (f (k + 1)))
    {n m : Nat} (hnm : n ≤ m) : (f n).le (f m) := by
  induction hnm with
  | refl => exact StM.le_refl _
  | step _ ih => exact StM.le_trans ih (h _)

/-- A run that finished with `n` units of fuel gives the same answer with more. -/
theorem fuel_mono {α : Type} {f : Nat → Parser α} (hf : ∀ k, (f k).le (f (k + 1)))
    {n m : Nat} {s : ExpressionTreeBuilder} {r : α × ExpressionTreeBuilder}
    (h : f n s = .ok r) (hnm : n ≤ m) : f m s = .ok r :=
  (StM.le_of_succ hf hnm).h s _ h (by simp)

/-! ## Stepping lemmas -/

theorem StM.bind_apply {σ α β : Type} (m : StM σ α) (f : α → StM σ β) (s : σ) :
    (m >>= f) s = match m s with
      | .ok (a, s') => f a s'
      | .error e => .error e
      | .outOfFuel => .outOfFuel := rfl

theorem StM.pure_apply {σ α : Type} (a : α) (s : σ) : (pure a : StM σ α) s = .ok (a, s) := rfl

theorem StM.bind_ok {σ α β : Type} {m : StM σ α} {f : α → StM σ β} {s s' : σ} {a : α}
    (h : m s = .ok (a, s')) : (m >>= f) s = f a s' := by
  rw [StM.bind_apply, h]

theorem StM.get_apply {σ : Type} (s : σ) : (StM.get : StM σ σ) s = .ok (s, s) := rfl

theorem StM.modify_apply {σ : Type} (f : σ → σ) (s : σ) : StM.modify f s = .ok ((), f s) := rfl

theorem StM.bind_eq_ok {σ α β : Type} {m : StM σ α} {f : α → StM σ β} {s : σ} {r : β × σ} :
    (m >>= f) s = .ok r ↔ ∃ a s1, m s = .ok (a, s1) ∧ f a s1 = .ok r := by
  rw [StM.bind_apply]
  cases h : m s with
  | ok x =>
    obtain ⟨a, s1⟩ := x
    constructor
    · intro h'
      exact ⟨a, s1, rfl, h'⟩
    · rintro ⟨a', s1', h1, h2⟩
      simp only [Res.ok.injEq, Prod.mk.injEq] at h1
      obtain ⟨rfl, rfl⟩ := h1
      exact h2
  | error e => simp
  | outOfFuel => simp


theorem StM.throw_ne_ok {σ α : Type} {msg : String} {s : σ} {r : α × σ} :
    (StM.throw msg : StM σ α) s ≠ .ok r := by
  simp [StM.throw]


theorem matchIf_of_ne {H : Host} {t : TokenType} {s : ExpressionTreeBuilder}
    (h : s.currentType ≠ t) : matchIf H t s = .ok (false, s) := by
  simp [matchIf, liftIt, TokenIterator.matchIf, StM.bind_apply, StM.get_apply, h, StM.pure_apply]

theorem matchIf_of_eq {H : Host} {t : TokenType} {s s' : ExpressionTreeBuilder}
    (h : s.currentType = t) (hs : skip H s = .ok ((), s')) : matchIf H t s = .ok (true, s') := by
  simp only [skip, liftIt] at hs
  simp only [matchIf, liftIt, TokenIterator.matchIf, StM.bind_apply, StM.get_apply, h,
    StM.pure_apply, if_true]
  split at hs <;> simp_all

theorem match_of_eq {H : Host} {t : TokenType} {s : ExpressionTreeBuilder}
    (h : s.currentType = t) : match_ H t s = skip H s := by
  simp [match_, skip, liftIt, TokenIterator.match_, StM.bind_apply, StM.get_apply, h]

theorem match_of_ne {H : Host} {t : TokenType} {s : ExpressionTreeBuilder}
    (h : s.currentType ≠ t) : match_ H t s =
      .error ("Found " ++ getTokenName s.currentType ++ " when expecting " ++ getTokenName t) := by
  simp [match_, liftIt, TokenIterator.match_, StM.bind_apply, StM.get_apply, h, StM.throw]

theorem parseIdentifier_of_identifier {H : Host} {s s' : ExpressionTreeBuilder}
    (h : s.currentType = .identifier) (hs : skip H s = .ok ((), s')) :
    parseIdentifier H s = .ok (s.currentValue.toString, s') := by
  simp [parseIdentifier, StM.bind_apply, StM.get_apply, h, match_of_eq, hs, StM.pure_apply]

theorem parseSuffixes_none {H : Host} {n : Nat} {e : Expression} {s : ExpressionTreeBuilder}
    (h1 : s.currentType ≠ .dot) (h2 : s.currentType ≠ .openParen)
    (h3 : s.currentType ≠ .openBracket) (h4 : s.currentType ≠ .plusplus)
    (h5 : s.currentType ≠ .minusminus) : parseSuffixes H (n + 1) e s = .ok (e, s) := by
  rw [parseSuffixes]
  simp only [StM.bind_apply, matchIf_of_ne h1, matchIf_of_ne h3, matchIf_of_ne h4,
    matchIf_of_ne h5, StM.get_apply, h2, StM.pure_apply, Bool.false_eq_true, if_false]

theorem parseFactor_literal {H : Host} {n : Nat} {ns : Option NsPtr}
    {s s' : ExpressionTreeBuilder}
    (h : s.currentType = .literal) (hs : skip H s = .ok ((), s'))
    (h1 : s'.currentType ≠ .dot) (h2 : s'.currentType ≠ .openParen)
    (h3 : s'.currentType ≠ .openBracket) (h4 : s'.currentType ≠ .plusplus)
    (h5 : s'.currentType ≠ .minusminus) :
    parseFactor H (n + 2) ns s = .ok (.LiteralValue s.currentValue, s') := by
  rw [parseFactor]
  simp only [StM.bind_apply, StM.get_apply, h, matchIf_of_ne, ne_eq, reduceCtorEq,
    not_false_eq_true, if_false, Bool.false_eq_true, if_true, hs,
    parseSuffixes_none h1 h2 h3 h4 h5]

theorem parseUnary_of_parseFactor {H : Host} {n : Nat} {s : ExpressionTreeBuilder}
    (h1 : s.currentType ≠ .minus) (h2 : s.currentType ≠ .logicalNot)
    (h3 : s.currentType ≠ .plusplus) (h4 : s.currentType ≠ .minusminus)
    (h5 : s.currentType ≠ .typeof_) :
    parseUnary H (n + 1) s = parseFactor H n none s := by
  rw [parseUnary]
  simp only [StM.bind_apply, matchIf_of_ne h1, matchIf_of_ne h2, matchIf_of_ne h3,
    matchIf_of_ne h4, matchIf_of_ne h5, Bool.false_eq_true, if_false]

/-! ## The levels of the expression grammar, one step at a time -/

theorem parseMultiplyDivide_eq {H : Host} {n : Nat} {a : Expression}
    {s s1 : ExpressionTreeBuilder} (ha : parseUnary H n s = .ok (a, s1)) :
    parseMultiplyDivide H (n + 1) s = parseMultiplyDivideLoop H n a s1 := by
  rw [parseMultiplyDivide]
  simp only [StM.bind_apply, ha]

theorem parseMultiplyDivideLoop_stop' {H : Host} {n : Nat} {a : Expression} {s : ExpressionTreeBuilder}
    (h1 : s.currentType ≠ .times)
    (h2 : s.currentType ≠ .divide)
    (h3 : s.currentType ≠ .modulo) :
    parseMultiplyDivideLoop H (n + 1) a s = .ok (a, s) := by
  rw [parseMultiplyDivideLoop]
  simp only [StM.bind_apply, matchIf_of_ne h1, matchIf_of_ne h2, matchIf_of_ne h3,
    Bool.false_eq_true, if_false, StM.pure_apply]

/-- The loop of `parseMultiplyDivide` ends at a token it does not consume. -/
theorem parseMultiplyDivideLoop_stop {H : Host} {n : Nat} {a : Expression} {s : ExpressionTreeBuilder}
    (h : s.currentType ∉ multiplicativeTokens) : parseMultiplyDivideLoop H (n + 1) a s = .ok (a, s) :=
  parseMultiplyDivideLoop_stop' (fun e => h (by simp [multiplicativeTokens, e])) (fun e => h (by simp [multiplicativeTokens, e])) (fun e => h (by simp [multiplicativeTokens, e]))

theorem parseMultiplyDivideLoop_times {H : Host} {n : Nat} {a b : Expression}
    {s s' s2 : ExpressionTreeBuilder} (h : s.currentType = .times)
    (hs : skip H s = .ok ((), s')) (hb : parseUnary H n s' = .ok (b, s2)) :
    parseMultiplyDivideLoop H (n + 1) a s = parseMultiplyDivideLoop H n (.MultiplyOp a b) s2 := by
  rw [parseMultiplyDivideLoop]
  simp only [StM.bind_apply, matchIf_of_eq h hs, if_true, hb,
    Bool.false_eq_true, if_false]

theorem parseMultiplyDivideLoop_divide {H : Host} {n : Nat} {a b : Expression}
    {s s' s2 : ExpressionTreeBuilder} (h : s.currentType = .divide)
    (hs : skip H s = .ok ((), s')) (hb : parseUnary H n s' = .ok (b, s2)) :
    parseMultiplyDivideLoop H (n + 1) a s = parseMultiplyDivideLoop H n (.DivideOp a b) s2 := by
  rw [parseMultiplyDivideLoop]
  simp only [StM.bind_apply, matchIf_of_ne (show s.currentType ≠ .times by rw [h]; decide),
    matchIf_of_eq h hs, if_true, hb,
    Bool.false_eq_true, if_false]

theorem parseMultiplyDivideLoop_modulo {H : Host} {n : Nat} {a b : Expression}
    {s s' s2 : ExpressionTreeBuilder} (h : s.currentType = .modulo)
    (hs : skip H s = .ok ((), s')) (hb : parseUnary H n s' = .ok (b, s2)) :
    parseMultiplyDivideLoop H (n + 1) a s = parseMultiplyDivideLoop H n (.ModuloOp a b) s2 := by
  rw [parseMultiplyDivideLoop]
  simp only [StM.bind_apply, matchIf_of_ne (show s.currentType ≠ .times by rw [h]; decide), matchIf_of_ne (show s.currentType ≠ .divide by rw [h]; decide),
    matchIf_of_eq h hs, if_true, hb,
    Bool.false_eq_true, if_false]

theorem parseAdditionSubtraction_eq {H : Host} {n : Nat} {a : Expression}
    {s s1 : ExpressionTreeBuilder} (ha : parseMultiplyDivide H n s = .ok (a, s1)) :
    parseAdditionSubtraction H (n + 1) s = parseAdditionSubtractionLoop H n a s1 := by
  rw [parseAdditionSubtraction]
  simp only [StM.bind_apply, ha]

theorem parseAdditionSubtractionLoop_stop' {H : Host} {n : Nat} {a : Expression} {s : ExpressionTreeBuilder}
    (h1 : s.currentType ≠ .plus)
    (h2 : s.currentType ≠ .minus) :
    parseAdditionSubtractionLoop H (n + 1) a s = .ok (a, s) := by
  rw [parseAdditionSubtractionLoop]
  simp only [StM.bind_apply, matchIf_of_ne h1, matchIf_of_ne h2,
    Bool.false_eq_true, if_false, StM.pure_apply]

/-- The loop of `parseAdditionSubtraction` ends at a token it does not consume. -/
theorem parseAdditionSubtractionLoop_stop {H : Host} {n : Nat} {a : Expression} {s : ExpressionTreeBuilder}
    (h : s.currentType ∉ additiveTokens) : parseAdditionSubtractionLoop H (n + 1) a s = .ok (a, s) :=
  parseAdditionSubtractionLoop_stop' (fun e => h (by simp [additiveTokens, e])) (fun e => h (by simp [additiveTokens, e]))

theorem parseAdditionSubtractionLoop_plus {H : Host} {n : Nat} {a b : Expression}
    {s s' s2 : ExpressionTreeBuilder} (h : s.currentType = .plus)
    (hs : skip H s = .ok ((), s')) (hb : parseMultiplyDivide H n s' = .ok (b, s2)) :
    parseAdditionSubtractionLoop H (n + 1) a s = parseAdditionSubtractionLoop H n (.AdditionOp a b) s2 := by
  rw [parseAdditionSubtractionLoop]
  simp only [StM.bind_apply, matchIf_of_eq h hs, if_true, hb,
    Bool.false_eq_true, if_false]

theorem parseAdditionSubtractionLoop_minus {H : Host} {n : Nat} {a b : Expression}
    {s s' s2 : ExpressionTreeBuilder} (h : s.currentType = .minus)
    (hs : skip H s = .ok ((), s')) (hb : parseMultiplyDivide H n s' = .ok (b, s2)) :
    parseAdditionSubtractionLoop H (n + 1) a s = parseAdditionSubtractionLoop H n (.SubtractionOp a b) s2 := by
  rw [parseAdditionSubtractionLoop]
  simp only [StM.bind_apply, matchIf_of_ne (show s.currentType ≠ .plus by rw [h]; decide),
    matchIf_of_eq h hs, if_true, hb,
    Bool.false_eq_true, if_false]

theorem parseShiftOperator_eq {H : Host} {n : Nat} {a : Expression}
    {s s1 : ExpressionTreeBuilder} (ha : parseAdditionSubtraction H n s = .ok (a, s1)) :
    parseShiftOperator H (n + 1) s = parseShiftOperatorLoop H n a s1 := by
  rw [parseShiftOperator]
  simp only [StM.bind_apply, ha]

theorem parseShiftOperatorLoop_stop' {H : Host} {n : Nat} {a : Expression} {s : ExpressionTreeBuilder}
    (h1 : s.currentType ≠ .leftShift)
    (h2 : s.currentType ≠ .rightShift)
    (h3 : s.currentType ≠ .rightShiftUnsigned) :
    parseShiftOperatorLoop H (n + 1) a s = .ok (a, s) := by
  rw [parseShiftOperatorLoop]
  simp only [StM.bind_apply, matchIf_of_ne h1, matchIf_of_ne h2, matchIf_of_ne h3,
    Bool.false_eq_true, if_false, StM.pure_apply]

/-- The loop of `parseShiftOperator` ends at a token it does not consume. -/
theorem parseShiftOperatorLoop_stop {H : Host} {n : Nat} {a : Expression} {s : ExpressionTreeBuilder}
    (h : s.currentType ∉ shiftTokens) : parseShiftOperatorLoop H (n + 1) a s = .ok (a, s) :=
  parseShiftOperatorLoop_stop' (fun e => h (by simp [shiftTokens, e])) (fun e => h (by simp [shiftTokens, e])) (fun e => h (by simp [shiftTokens, e]))

theorem parseShiftOperatorLoop_leftShift {H : Host} {n : Nat} {a b : Expression}
    {s s' s2 : ExpressionTreeBuilder} (h : s.currentType = .leftShift)
    (hs : skip H s = .ok ((), s')) (hb : parseExpression H n s' = .ok (b, s2)) :
    parseShiftOperatorLoop H (n + 1) a s = parseShiftOperatorLoop H n (.LeftShiftOp a b) s2 := by
  rw [parseShiftOperatorLoop]
  simp only [StM.bind_apply, matchIf_of_eq h hs, if_true, hb,
    Bool.false_eq_true, if_false]

theorem parseShiftOperatorLoop_rightShift {H : Host} {n : Nat} {a b : Expression}
    {s s' s2 : ExpressionTreeBuilder} (h : s.currentType = .rightShift)
    (hs : skip H s = .ok ((), s')) (hb : parseExpression H n s' = .ok (b, s2)) :
    parseShiftOperatorLoop H (n + 1) a s = parseShiftOperatorLoop H n (.RightShiftOp a b) s2 := by
  rw [parseShiftOperatorLoop]
  simp only [StM.bind_apply, matchIf_of_ne (show s.currentType ≠ .leftShift by rw [h]; decide),
    matchIf_of_eq h hs, if_true, hb,
    Bool.false_eq_true, if_false]

theorem parseShiftOperatorLoop_rightShiftUnsigned {H : Host} {n : Nat} {a b : Expression}
    {s s' s2 : ExpressionTreeBuilder} (h : s.currentType = .rightShiftUnsigned)
    (hs : skip H s = .ok ((), s')) (hb : parseExpression H n s' = .ok (b, s2)) :
    parseShiftOperatorLoop H (n + 1) a s = parseShiftOperatorLoop H n (.RightShiftUnsignedOp a b) s2 := by
  rw [parseShiftOperatorLoop]
  simp only [StM.bind_apply, matchIf_of_ne (show s.currentType ≠ .leftShift by rw [h]; decide), matchIf_of_ne (show s.currentType ≠ .rightShift by rw [h]; decide),
    matchIf_of_eq h hs, if_true, hb,
    Bool.false_eq_true, if_false]

theorem parseComparator_eq {H : Host} {n : Nat} {a : Expression}
    {s s1 : ExpressionTreeBuilder} (ha : parseShiftOperator H n s = .ok (a, s1)) :
    parseComparator H (n + 1) s = parseComparatorLoop H n a s1 := by
  rw [parseComparator]
  simp only [StM.bind_apply, ha]

theorem parseComparatorLoop_stop' {H : Host} {n : Nat} {a : Expression} {s : ExpressionTreeBuilder}
    (h1 : s.currentType ≠ .equals)
    (h2 : s.currentType ≠ .notEquals)
    (h3 : s.currentType ≠ .typeEquals)
    (h4 : s.currentType ≠ .typeNotEquals)
    (h5 : s.currentType ≠ .lessThan)
    (h6 : s.currentType ≠ .lessThanOrEqual)
    (h7 : s.currentType ≠ .greaterThan)
    (h8 : s.currentType ≠ .greaterThanOrEqual) :
    parseComparatorLoop H (n + 1) a s = .ok (a, s) := by
  rw [parseComparatorLoop]
  simp only [StM.bind_apply, matchIf_of_ne h1, matchIf_of_ne h2, matchIf_of_ne h3, matchIf_of_ne h4, matchIf_of_ne h5, matchIf_of_ne h6, matchIf_of_ne h7, matchIf_of_ne h8,
    Bool.false_eq_true, if_false, StM.pure_apply]

/-- The loop of `parseComparator` ends at a token it does not consume. -/
theorem parseComparatorLoop_stop {H : Host} {n : Nat} {a : Expression} {s : ExpressionTreeBuilder}
    (h : s.currentType ∉ comparisonTokens) : parseComparatorLoop H (n + 1) a s = .ok (a, s) :=
  parseComparatorLoop_stop' (fun e => h (by simp [comparisonTokens, e])) (fun e => h (by simp [comparisonTokens, e])) (fun e => h (by simp [comparisonTokens, e])) (fun e => h (by simp [comparisonTokens, e])) (fun e => h (by simp [comparisonTokens, e])) (fun e => h (by simp [comparisonTokens, e])) (fun e => h (by simp [comparisonTokens, e])) (fun e => h (by simp [comparisonTokens, e]))

theorem parseComparatorLoop_equals {H : Host} {n : Nat} {a b : Expression}
    {s s' s2 : ExpressionTreeBuilder} (h : s.currentType = .equals)
    (hs : skip H s = .ok ((), s')) (hb : parseShiftOperator H n s' = .ok (b, s2)) :
    parseComparatorLoop H (n + 1) a s = parseComparatorLoop H n (.EqualsOp a b) s2 := by
  rw [parseComparatorLoop]
  simp only [StM.bind_apply, matchIf_of_eq h hs, if_true, hb,
    Bool.false_eq_true, if_false]

theorem parseComparatorLoop_notEquals {H : Host} {n : Nat} {a b : Expression}
    {s s' s2 : ExpressionTreeBuilder} (h : s.currentType = .notEquals)
    (hs : skip H s = .ok ((), s')) (hb : parseShiftOperator H n s' = .ok (b, s2)) :
    parseComparatorLoop H (n + 1) a s = parseComparatorLoop H n (.NotEqualsOp a b) s2 := by
  rw [parseComparatorLoop]
  simp only [StM.bind_apply, matchIf_of_ne (show s.currentType ≠ .equals by rw [h]; decide),
    matchIf_of_eq h hs, if_true, hb,
    Bool.false_eq_true, if_false]

theorem parseComparatorLoop_typeEquals {H : Host} {n : Nat} {a b : Expression}
    {s s' s2 : ExpressionTreeBuilder} (h : s.currentType = .typeEquals)
    (hs : skip H s = .ok ((), s')) (hb : parseShiftOperator H n s' = .ok (b, s2)) :
    parseComparatorLoop H (n + 1) a s = parseComparatorLoop H n (.TypeEqualsOp a b) s2 := by
  rw [parseComparatorLoop]
  simp only [StM.bind_apply, matchIf_of_ne (show s.currentType ≠ .equals by rw [h]; decide), matchIf_of_ne (show s.currentType ≠ .notEquals by rw [h]; decide),
    matchIf_of_eq h hs, if_true, hb,
    Bool.false_eq_true, if_false]

theorem parseComparatorLoop_typeNotEquals {H : Host} {n : Nat} {a b : Expression}
    {s s' s2 : ExpressionTreeBuilder} (h : s.currentType = .typeNotEquals)
    (hs : skip H s = .ok ((), s')) (hb : parseShiftOperator H n s' = .ok (b, s2)) :
    parseComparatorLoop H (n + 1) a s = parseComparatorLoop H n (.TypeNotEqualsOp a b) s2 := by
  rw [parseComparatorLoop]
  simp only [StM.bind_apply, matchIf_of_ne (show s.currentType ≠ .equals by rw [h]; decide), matchIf_of_ne (show s.currentType ≠ .notEquals by rw [h]; decide), matchIf_of_ne (show s.currentType ≠ .typeEquals by rw [h]; decide),
    matchIf_of_eq h hs, if_true, hb,
    Bool.false_eq_true, if_false]

theorem parseComparatorLoop_lessThan {H : Host} {n : Nat} {a b : Expression}
    {s s' s2 : ExpressionTreeBuilder} (h : s.currentType = .lessThan)
    (hs : skip H s = .ok ((), s')) (hb : parseShiftOperator H n s' = .ok (b, s2)) :
    parseComparatorLoop H (n + 1) a s = parseComparatorLoop H n (.LessThanOp a b) s2 := by
  rw [parseComparatorLoop]
  simp only [StM.bind_apply, matchIf_of_ne (show s.currentType ≠ .equals by rw [h]; decide), matchIf_of_ne (show s.currentType ≠ .notEquals by rw [h]; decide), matchIf_of_ne (show s.currentType ≠ .typeEquals by rw [h]; decide), matchIf_of_ne (show s.currentType ≠ .typeNotEquals by rw [h]; decide),
    matchIf_of_eq h hs, if_true, hb,
    Bool.false_eq_true, if_false]

theorem parseComparatorLoop_lessThanOrEqual {H : Host} {n : Nat} {a b : Expression}
    {s s' s2 : ExpressionTreeBuilder} (h : s.currentType = .lessThanOrEqual)
    (hs : skip H s = .ok ((), s')) (hb : parseShiftOperator H n s' = .ok (b, s2)) :
    parseComparatorLoop H (n + 1) a s = parseComparatorLoop H n (.LessThanOrEqualOp a b) s2 := by
  rw [parseComparatorLoop]
  simp only [StM.bind_apply, matchIf_of_ne (show s.currentType ≠ .equals by rw [h]; decide), matchIf_of_ne (show s.currentType ≠ .notEquals by rw [h]; decide), matchIf_of_ne (show s.currentType ≠ .typeEquals by rw [h]; decide), matchIf_of_ne (show s.currentType ≠ .typeNotEquals by rw [h]; decide), matchIf_of_ne (show s.currentType ≠ .lessThan by rw [h]; decide),
    matchIf_of_eq h hs, if_true, hb,
    Bool.false_eq_true, if_false]

theorem parseComparatorLoop_greaterThan {H : Host} {n : Nat} {a b : Expression}
    {s s' s2 : ExpressionTreeBuilder} (h : s.currentType = .greaterThan)
    (hs : skip H s = .ok ((), s')) (hb : parseShiftOperator H n s' = .ok (b, s2)) :
    parseComparatorLoop H (n + 1) a s = parseComparatorLoop H n (.GreaterThanOp a b) s2 := by
  rw [parseComparatorLoop]
  simp only [StM.bind_apply, matchIf_of_ne (show s.currentType ≠ .equals by rw [h]; decide), matchIf_of_ne (show s.currentType ≠ .notEquals by rw [h]; decide), matchIf_of_ne (show s.currentType ≠ .typeEquals by rw [h]; decide), matchIf_of_ne (show s.currentType ≠ .typeNotEquals by rw [h]; decide), matchIf_of_ne (show s.currentType ≠ .lessThan by rw [h]; decide), matchIf_of_ne (show s.currentType ≠ .lessThanOrEqual by rw [h]; decide),
    matchIf_of_eq h hs, if_true, hb,
    Bool.false_eq_true, if_false]

theorem parseComparatorLoop_greaterThanOrEqual {H : Host} {n : Nat} {a b : Expression}
    {s s' s2 : ExpressionTreeBuilder} (h : s.currentType = .greaterThanOrEqual)
    (hs : skip H s = .ok ((), s')) (hb : parseShiftOperator H n s' = .ok (b, s2)) :
    parseComparatorLoop H (n + 1) a s = parseComparatorLoop H n (.GreaterThanOrEqualOp a b) s2 := by
  rw [parseComparatorLoop]
  simp only [StM.bind_apply, matchIf_of_ne (show s.currentType ≠ .equals by rw [h]; decide), matchIf_of_ne (show s.currentType ≠ .notEquals by rw [h]; decide), matchIf_of_ne (show s.currentType ≠ .typeEquals by rw [h]; decide), matchIf_of_ne (show s.currentType ≠ .typeNotEquals by rw [h]; decide), matchIf_of_ne (show s.currentType ≠ .lessThan by rw [h]; decide), matchIf_of_ne (show s.currentType ≠ .lessThanOrEqual by rw [h]; decide), matchIf_of_ne (show s.currentType ≠ .greaterThan by rw [h]; decide),
    matchIf_of_eq h hs, if_true, hb,
    Bool.false_eq_true, if_false]

theorem parseLogicOperator_eq {H : Host} {n : Nat} {a : Expression}
    {s s1 : ExpressionTreeBuilder} (ha : parseComparator H n s = .ok (a, s1)) :
    parseLogicOperator H (n + 1) s = parseLogicOperatorLoop H n a s1 := by
  rw [parseLogicOperator]
  simp only [StM.bind_apply, ha]

theorem parseLogicOperatorLoop_stop' {H : Host} {n : Nat} {a : Expression} {s : ExpressionTreeBuilder}
    (h1 : s.currentType ≠ .logicalAnd)
    (h2 : s.currentType ≠ .logicalOr)
    (h3 : s.currentType ≠ .bitwiseAnd)
    (h4 : s.currentType ≠ .bitwiseOr)
    (h5 : s.currentType ≠ .bitwiseXor) :
    parseLogicOperatorLoop H (n + 1) a s = .ok (a, s) := by
  rw [parseLogicOperatorLoop]
  simp only [StM.bind_apply, matchIf_of_ne h1, matchIf_of_ne h2, matchIf_of_ne h3, matchIf_of_ne h4, matchIf_of_ne h5,
    Bool.false_eq_true, if_false, StM.pure_apply]

/-- The loop of `parseLogicOperator` ends at a token it does not consume. -/
theorem parseLogicOperatorLoop_stop {H : Host} {n : Nat} {a : Expression} {s : ExpressionTreeBuilder}
    (h : s.currentType ∉ logicTokens) : parseLogicOperatorLoop H (n + 1) a s = .ok (a, s) :=
  parseLogicOperatorLoop_stop' (fun e => h (by simp [logicTokens, e])) (fun e => h (by simp [logicTokens, e])) (fun e => h (by simp [logicTokens, e])) (fun e => h (by simp [logicTokens, e])) (fun e => h (by simp [logicTokens, e]))

theorem parseLogicOperatorLoop_logicalAnd {H : Host} {n : Nat} {a b : Expression}
    {s s' s2 : ExpressionTreeBuilder} (h : s.currentType = .logicalAnd)
    (hs : skip H s = .ok ((), s')) (hb : parseComparator H n s' = .ok (b, s2)) :
    parseLogicOperatorLoop H (n + 1) a s = parseLogicOperatorLoop H n (.LogicalAndOp a b) s2 := by
  rw [parseLogicOperatorLoop]
  simp only [StM.bind_apply, matchIf_of_eq h hs, if_true, hb,
    Bool.false_eq_true, if_false]

theorem parseLogicOperatorLoop_logicalOr {H : Host} {n : Nat} {a b : Expression}
    {s s' s2 : ExpressionTreeBuilder} (h : s.currentType = .logicalOr)
    (hs : skip H s = .ok ((), s')) (hb : parseComparator H n s' = .ok (b, s2)) :
    parseLogicOperatorLoop H (n + 1) a s = parseLogicOperatorLoop H n (.LogicalOrOp a b) s2 := by
  rw [parseLogicOperatorLoop]
  simp only [StM.bind_apply, matchIf_of_ne (show s.currentType ≠ .logicalAnd by rw [h]; decide),
    matchIf_of_eq h hs, if_true, hb,
    Bool.false_eq_true, if_false]

theorem parseLogicOperatorLoop_bitwiseAnd {H : Host} {n : Nat} {a b : Expression}
    {s s' s2 : ExpressionTreeBuilder} (h : s.currentType = .bitwiseAnd)
    (hs : skip H s = .ok ((), s')) (hb : parseComparator H n s' = .ok (b, s2)) :
    parseLogicOperatorLoop H (n + 1) a s = parseLogicOperatorLoop H n (.BitwiseAndOp a b) s2 := by
  rw [parseLogicOperatorLoop]
  simp only [StM.bind_apply, matchIf_of_ne (show s.currentType ≠ .logicalAnd by rw [h]; decide), matchIf_of_ne (show s.currentType ≠ .logicalOr by rw [h]; decide),
    matchIf_of_eq h hs, if_true, hb,
    Bool.false_eq_true, if_false]

theorem parseLogicOperatorLoop_bitwiseOr {H : Host} {n : Nat} {a b : Expression}
    {s s' s2 : ExpressionTreeBuilder} (h : s.currentType = .bitwiseOr)
    (hs : skip H s = .ok ((), s')) (hb : parseComparator H n s' = .ok (b, s2)) :
    parseLogicOperatorLoop H (n + 1) a s = parseLogicOperatorLoop H n (.BitwiseOrOp a b) s2 := by
  rw [parseLogicOperatorLoop]
  simp only [StM.bind_apply, matchIf_of_ne (show s.currentType ≠ .logicalAnd by rw [h]; decide), matchIf_of_ne (show s.currentType ≠ .logicalOr by rw [h]; decide), matchIf_of_ne (show s.currentType ≠ .bitwiseAnd by rw [h]; decide),
    matchIf_of_eq h hs, if_true, hb,
    Bool.false_eq_true, if_false]

theorem parseLogicOperatorLoop_bitwiseXor {H : Host} {n : Nat} {a b : Expression}
    {s s' s2 : ExpressionTreeBuilder} (h : s.currentType = .bitwiseXor)
    (hs : skip H s = .ok ((), s')) (hb : parseComparator H n s' = .ok (b, s2)) :
    parseLogicOperatorLoop H (n + 1) a s = parseLogicOperatorLoop H n (.BitwiseXorOp a b) s2 := by
  rw [parseLogicOperatorLoop]
  simp only [StM.bind_apply, matchIf_of_ne (show s.currentType ≠ .logicalAnd by rw [h]; decide), matchIf_of_ne (show s.currentType ≠ .logicalOr by rw [h]; decide), matchIf_of_ne (show s.currentType ≠ .bitwiseAnd by rw [h]; decide), matchIf_of_ne (show s.currentType ≠ .bitwiseOr by rw [h]; decide),
    matchIf_of_eq h hs, if_true, hb,
    Bool.false_eq_true, if_false]

/-! ## Runs with enough fuel -/

theorem Parses.mono {α : Type} {f : Nat → Parser α} (hf : ∀ k, (f k).le (f (k + 1)))
    {s s' : ExpressionTreeBuilder} {a : α} {n m : Nat} (h : f n s = .ok (a, s'))
    (hnm : n ≤ m) : f m s = .ok (a, s') :=
  fuel_mono hf h hnm

theorem Parses.fuel {α : Type} {f : Nat → Parser α} (hf : ∀ k, (f k).le (f (k + 1)))
    {s s' : ExpressionTreeBuilder} {a : α} (h : Parses f s a s') :
    ∃ n, ∀ m, n ≤ m → f m s = .ok (a, s') := by
  obtain ⟨n, hn⟩ := h
  exact ⟨n, fun m hm => fuel_mono hf hn hm⟩

theorem parseUnary_fuel {H : Host} {s s' : ExpressionTreeBuilder} {a : Expression}
    (h : Parses (parseUnary H) s a s') : ∃ n, ∀ m, n ≤ m → parseUnary H m s = .ok (a, s') :=
  h.fuel (fun k => (monoAt H k).parseUnary)

/-- The answer of a run with enough fuel is unique. -/
theorem Parses.unique {α : Type} {f : Nat → Parser α} (hf : ∀ k, (f k).le (f (k + 1)))
    {s s1 s2 : ExpressionTreeBuilder} {a b : α} (h1 : Parses f s a s1) (h2 : Parses f s b s2) :
    a = b ∧ s1 = s2 := by
  obtain ⟨n1, h1⟩ := h1
  obtain ⟨n2, h2⟩ := h2
  have e1 := fuel_mono hf h1 (Nat.le_max_left n1 n2)
  have e2 := fuel_mono hf h2 (Nat.le_max_right n1 n2)
  rw [e1] at e2
  simpa using e2

/-- Composition: when, after `f` returned `a`, the function `l` goes on as `g`,
runs of `f` and `g` make a run of `l`. -/
theorem Parses.step {α β : Type} {f : Nat → Parser α} {g l : Nat → Parser β}
    {s s1 s2 s3 : ExpressionTreeBuilder} {a : α} {r : β}
    (mf : ∀ k, (f k).le (f (k + 1))) (mg : ∀ k, (g k).le (g (k + 1)))
    (hstep : ∀ n, f n s1 = .ok (a, s2) → l (n + 1) s = g n s2)
    (hf : Parses f s1 a s2) (hg : Parses g s2 r s3) : Parses l s r s3 := by
  obtain ⟨nf, hf⟩ := hf
  obtain ⟨ng, hg⟩ := hg
  refine ⟨max nf ng + 1, ?_⟩
  rw [hstep _ (fuel_mono mf hf (Nat.le_max_left nf ng))]
  exact fuel_mono mg hg (Nat.le_max_right nf ng)


/-- `parseMultiplyDivide` reads an operand and enters its loop. -/
theorem parses_parseMultiplyDivide {H : Host} {s s1 s2 : ExpressionTreeBuilder} {a r : Expression}
    (ha : Parses (parseUnary H) s a s1)
    (hl : Parses (fun n => parseMultiplyDivideLoop H n a) s1 r s2) : Parses (parseMultiplyDivide H) s r s2 :=
  Parses.step (fun k => (monoAt H k).parseUnary) (fun k => (monoAt H k).parseMultiplyDivideLoop a)
    (fun _ h => parseMultiplyDivide_eq h) ha hl

/-- The loop of `parseMultiplyDivide` returns its operand at a token it does not consume. -/
theorem parses_parseMultiplyDivideLoop_stop {H : Host} {s : ExpressionTreeBuilder} {a : Expression}
    (h : s.currentType ∉ multiplicativeTokens) : Parses (fun n => parseMultiplyDivideLoop H n a) s a s :=
  ⟨1, parseMultiplyDivideLoop_stop h⟩

theorem parses_parseMultiplyDivideLoop_times {H : Host} {s s' s2 s3 : ExpressionTreeBuilder}
    {a b r : Expression} (h : s.currentType = .times) (hs : skip H s = .ok ((), s'))
    (hb : Parses (parseUnary H) s' b s2)
    (hl : Parses (fun n => parseMultiplyDivideLoop H n (.MultiplyOp a b)) s2 r s3) :
    Parses (fun n => parseMultiplyDivideLoop H n a) s r s3 :=
  Parses.step (fun k => (monoAt H k).parseUnary) (fun k => (monoAt H k).parseMultiplyDivideLoop (.MultiplyOp a b))
    (fun _ hb' => parseMultiplyDivideLoop_times h hs hb') hb hl

theorem parses_parseMultiplyDivideLoop_divide {H : Host} {s s' s2 s3 : ExpressionTreeBuilder}
    {a b r : Expression} (h : s.currentType = .divide) (hs : skip H s = .ok ((), s'))
    (hb : Parses (parseUnary H) s' b s2)
    (hl : Parses (fun n => parseMultiplyDivideLoop H n (.DivideOp a b)) s2 r s3) :
    Parses (fun n => parseMultiplyDivideLoop H n a) s r s3 :=
  Parses.step (fun k => (monoAt H k).parseUnary) (fun k => (monoAt H k).parseMultiplyDivideLoop (.DivideOp a b))
    (fun _ hb' => parseMultiplyDivideLoop_divide h hs hb') hb hl

theorem parses_parseMultiplyDivideLoop_modulo {H : Host} {s s' s2 s3 : ExpressionTreeBuilder}
    {a b r : Expression} (h : s.currentType = .modulo) (hs : skip H s = .ok ((), s'))
    (hb : Parses (parseUnary H) s' b s2)
    (hl : Parses (fun n => parseMultiplyDivideLoop H n (.ModuloOp a b)) s2 r s3) :
    Parses (fun n => parseMultiplyDivideLoop H n a) s r s3 :=
  Parses.step (fun k => (monoAt H k).parseUnary) (fun k => (monoAt H k).parseMultiplyDivideLoop (.ModuloOp a b))
    (fun _ hb' => parseMultiplyDivideLoop_modulo h hs hb') hb hl

/-- `parseAdditionSubtraction` reads an operand and enters its loop. -/
theorem parses_parseAdditionSubtraction {H : Host} {s s1 s2 : ExpressionTreeBuilder} {a r : Expression}
    (ha : Parses (parseMultiplyDivide H) s a s1)
    (hl : Parses (fun n => parseAdditionSubtractionLoop H n a) s1 r s2) : Parses (parseAdditionSubtraction H) s r s2 :=
  Parses.step (fun k => (monoAt H k).parseMultiplyDivide) (fun k => (monoAt H k).parseAdditionSubtractionLoop a)
    (fun _ h => parseAdditionSubtraction_eq h) ha hl

/-- The loop of `parseAdditionSubtraction` returns its operand at a token it does not consume. -/
theorem parses_parseAdditionSubtractionLoop_stop {H : Host} {s : ExpressionTreeBuilder} {a : Expression}
    (h : s.currentType ∉ additiveTokens) : Parses (fun n => parseAdditionSubtractionLoop H n a) s a s :=
  ⟨1, parseAdditionSubtractionLoop_stop h⟩

theorem parses_parseAdditionSubtractionLoop_plus {H : Host} {s s' s2 s3 : ExpressionTreeBuilder}
    {a b r : Expression} (h : s.currentType = .plus) (hs : skip H s = .ok ((), s'))
    (hb : Parses (parseMultiplyDivide H) s' b s2)
    (hl : Parses (fun n => parseAdditionSubtractionLoop H n (.AdditionOp a b)) s2 r s3) :
    Parses (fun n => parseAdditionSubtractionLoop H n a) s r s3 :=
  Parses.step (fun k => (monoAt H k).parseMultiplyDivide) (fun k => (monoAt H k).parseAdditionSubtractionLoop (.AdditionOp a b))
    (fun _ hb' => parseAdditionSubtractionLoop_plus h hs hb') hb hl

theorem parses_parseAdditionSubtractionLoop_minus {H : Host} {s s' s2 s3 : ExpressionTreeBuilder}
    {a b r : Expression} (h : s.currentType = .minus) (hs : skip H s = .ok ((), s'))
    (hb : Parses (parseMultiplyDivide H) s' b s2)
    (hl : Parses (fun n => parseAdditionSubtractionLoop H n (.SubtractionOp a b)) s2 r s3) :
    Parses (fun n => parseAdditionSubtractionLoop H n a) s r s3 :=
  Parses.step (fun k => (monoAt H k).parseMultiplyDivide) (fun k => (monoAt H k).parseAdditionSubtractionLoop (.SubtractionOp a b))
    (fun _ hb' => parseAdditionSubtractionLoop_minus h hs hb') hb hl

/-- `parseShiftOperator` reads an operand and enters its loop. -/
theorem parses_parseShiftOperator {H : Host} {s s1 s2 : ExpressionTreeBuilder} {a r : Expression}
    (ha : Parses (parseAdditionSubtraction H) s a s1)
    (hl : Parses (fun n => parseShiftOperatorLoop H n a) s1 r s2) : Parses (parseShiftOperator H) s r s2 :=
  Parses.step (fun k => (monoAt H k).parseAdditionSubtraction) (fun k => (monoAt H k).parseShiftOperatorLoop a)
    (fun _ h => parseShiftOperator_eq h) ha hl

/-- The loop of `parseShiftOperator` returns its operand at a token it does not consume. -/
theorem parses_parseShiftOperatorLoop_stop {H : Host} {s : ExpressionTreeBuilder} {a : Expression}
    (h : s.currentType ∉ shiftTokens) : Parses (fun n => parseShiftOperatorLoop H n a) s a s :=
  ⟨1, parseShiftOperatorLoop_stop h⟩

theorem parses_parseShiftOperatorLoop_leftShift {H : Host} {s s' s2 s3 : ExpressionTreeBuilder}
    {a b r : Expression} (h : s.currentType = .leftShift) (hs : skip H s = .ok ((), s'))
    (hb : Parses (parseExpression H) s' b s2)
    (hl : Parses (fun n => parseShiftOperatorLoop H n (.LeftShiftOp a b)) s2 r s3) :
    Parses (fun n => parseShiftOperatorLoop H n a) s r s3 :=
  Parses.step (fun k => (monoAt H k).parseExpression) (fun k => (monoAt H k).parseShiftOperatorLoop (.LeftShiftOp a b))
    (fun _ hb' => parseShiftOperatorLoop_leftShift h hs hb') hb hl

theorem parses_parseShiftOperatorLoop_rightShift {H : Host} {s s' s2 s3 : ExpressionTreeBuilder}
    {a b r : Expression} (h : s.currentType = .rightShift) (hs : skip H s = .ok ((), s'))
    (hb : Parses (parseExpression H) s' b s2)
    (hl : Parses (fun n => parseShiftOperatorLoop H n (.RightShiftOp a b)) s2 r s3) :
    Parses (fun n => parseShiftOperatorLoop H n a) s r s3 :=
  Parses.step (fun k => (monoAt H k).parseExpression) (fun k => (monoAt H k).parseShiftOperatorLoop (.RightShiftOp a b))
    (fun _ hb' => parseShiftOperatorLoop_rightShift h hs hb') hb hl

theorem parses_parseShiftOperatorLoop_rightShiftUnsigned {H : Host} {s s' s2 s3 : ExpressionTreeBuilder}
    {a b r : Expression} (h : s.currentType = .rightShiftUnsigned) (hs : skip H s = .ok ((), s'))
    (hb : Parses (parseExpression H) s' b s2)
    (hl : Parses (fun n => parseShiftOperatorLoop H n (.RightShiftUnsignedOp a b)) s2 r s3) :
    Parses (fun n => parseShiftOperatorLoop H n a) s r s3 :=
  Parses.step (fun k => (monoAt H k).parseExpression) (fun k => (monoAt H k).parseShiftOperatorLoop (.RightShiftUnsignedOp a b))
    (fun _ hb' => parseShiftOperatorLoop_rightShiftUnsigned h hs hb') hb hl

/-- `parseComparator` reads an operand and enters its loop. -/
theorem parses_parseComparator {H : Host} {s s1 s2 : ExpressionTreeBuilder} {a r : Expression}
    (ha : Parses (parseShiftOperator H) s a s1)
    (hl : Parses (fun n => parseComparatorLoop H n a) s1 r s2) : Parses (parseComparator H) s r s2 :=
  Parses.step (fun k => (monoAt H k).parseShiftOperator) (fun k => (monoAt H k).parseComparatorLoop a)
    (fun _ h => parseComparator_eq h) ha hl

/-- The loop of `parseComparator` returns its operand at a token it does not consume. -/
theorem parses_parseComparatorLoop_stop {H : Host} {s : ExpressionTreeBuilder} {a : Expression}
    (h : s.currentType ∉ comparisonTokens) : Parses (fun n => parseComparatorLoop H n a) s a s :=
  ⟨1, parseComparatorLoop_stop h⟩

theorem parses_parseComparatorLoop_equals {H : Host} {s s' s2 s3 : ExpressionTreeBuilder}
    {a b r : Expression} (h : s.currentType = .equals) (hs : skip H s = .ok ((), s'))
    (hb : Parses (parseShiftOperator H) s' b s2)
    (hl : Parses (fun n => parseComparatorLoop H n (.EqualsOp a b)) s2 r s3) :
    Parses (fun n => parseComparatorLoop H n a) s r s3 :=
  Parses.step (fun k => (monoAt H k).parseShiftOperator) (fun k => (monoAt H k).parseComparatorLoop (.EqualsOp a b))
    (fun _ hb' => parseComparatorLoop_equals h hs hb') hb hl

theorem parses_parseComparatorLoop_notEquals {H : Host} {s s' s2 s3 : ExpressionTreeBuilder}
    {a b r : Expression} (h : s.currentType = .notEquals) (hs : skip H s = .ok ((), s'))
    (hb : Parses (parseShiftOperator H) s' b s2)
    (hl : Parses (fun n => parseComparatorLoop H n (.NotEqualsOp a b)) s2 r s3) :
    Parses (fun n => parseComparatorLoop H n a) s r s3 :=
  Parses.step (fun k => (monoAt H k).parseShiftOperator) (fun k => (monoAt H k).parseComparatorLoop (.NotEqualsOp a b))
    (fun _ hb' => parseComparatorLoop_notEquals h hs hb') hb hl

theorem parses_parseComparatorLoop_typeEquals {H : Host} {s s' s2 s3 : ExpressionTreeBuilder}
    {a b r : Expression} (h : s.currentType = .typeEquals) (hs : skip H s = .ok ((), s'))
    (hb : Parses (parseShiftOperator H) s' b s2)
    (hl : Parses (fun n => parseComparatorLoop H n (.TypeEqualsOp a b)) s2 r s3) :
    Parses (fun n => parseComparatorLoop H n a) s r s3 :=
  Parses.step (fun k => (monoAt H k).parseShiftOperator) (fun k => (monoAt H k).parseComparatorLoop (.TypeEqualsOp a b))
    (fun _ hb' => parseComparatorLoop_typeEquals h hs hb') hb hl

theorem parses_parseComparatorLoop_typeNotEquals {H : Host} {s s' s2 s3 : ExpressionTreeBuilder}
    {a b r : Expression} (h : s.currentType = .typeNotEquals) (hs : skip H s = .ok ((), s'))
    (hb : Parses (parseShiftOperator H) s' b s2)
    (hl : Parses (fun n => parseComparatorLoop H n (.TypeNotEqualsOp a b)) s2 r s3) :
    Parses (fun n => parseComparatorLoop H n a) s r s3 :=
  Parses.step (fun k => (monoAt H k).parseShiftOperator) (fun k => (monoAt H k).parseComparatorLoop (.TypeNotEqualsOp a b))
    (fun _ hb' => parseComparatorLoop_typeNotEquals h hs hb') hb hl

theorem parses_parseComparatorLoop_lessThan {H : Host} {s s' s2 s3 : ExpressionTreeBuilder}
    {a b r : Expression} (h : s.currentType = .lessThan) (hs : skip H s = .ok ((), s'))
    (hb : Parses (parseShiftOperator H) s' b s2)
    (hl : Parses (fun n => parseComparatorLoop H n (.LessThanOp a b)) s2 r s3) :
    Parses (fun n => parseComparatorLoop H n a) s r s3 :=
  Parses.step (fun k => (monoAt H k).parseShiftOperator) (fun k => (monoAt H k).parseComparatorLoop (.LessThanOp a b))
    (fun _ hb' => parseComparatorLoop_lessThan h hs hb') hb hl

theorem parses_parseComparatorLoop_lessThanOrEqual {H : Host} {s s' s2 s3 : ExpressionTreeBuilder}
    {a b r : Expression} (h : s.currentType = .lessThanOrEqual) (hs : skip H s = .ok ((), s'))
    (hb : Parses (parseShiftOperator H) s' b s2)
    (hl : Parses (fun n => parseComparatorLoop H n (.LessThanOrEqualOp a b)) s2 r s3) :
    Parses (fun n => parseComparatorLoop H n a) s r s3 :=
  Parses.step (fun k => (monoAt H k).parseShiftOperator) (fun k => (monoAt H k).parseComparatorLoop (.LessThanOrEqualOp a b))
    (fun _ hb' => parseComparatorLoop_lessThanOrEqual h hs hb') hb hl

theorem parses_parseComparatorLoop_greaterThan {H : Host} {s s' s2 s3 : ExpressionTreeBuilder}
    {a b r : Expression} (h : s.currentType = .greaterThan) (hs : skip H s = .ok ((), s'))
    (hb : Parses (parseShiftOperator H) s' b s2)
    (hl : Parses (fun n => parseComparatorLoop H n (.GreaterThanOp a b)) s2 r s3) :
    Parses (fun n => parseComparatorLoop H n a) s r s3 :=
  Parses.step (fun k => (monoAt H k).parseShiftOperator) (fun k => (monoAt H k).parseComparatorLoop (.GreaterThanOp a b))
    (fun _ hb' => parseComparatorLoop_greaterThan h hs hb') hb hl

theorem parses_parseComparatorLoop_greaterThanOrEqual {H : Host} {s s' s2 s3 : ExpressionTreeBuilder}
    {a b r : Expression} (h : s.currentType = .greaterThanOrEqual) (hs : skip H s = .ok ((), s'))
    (hb : Parses (parseShiftOperator H) s' b s2)
    (hl : Parses (fun n => parseComparatorLoop H n (.GreaterThanOrEqualOp a b)) s2 r s3) :
    Parses (fun n => parseComparatorLoop H n a) s r s3 :=
  Parses.step (fun k => (monoAt H k).parseShiftOperator) (fun k => (monoAt H k).parseComparatorLoop (.GreaterThanOrEqualOp a b))
    (fun _ hb' => parseComparatorLoop_greaterThanOrEqual h hs hb') hb hl

/-- `parseLogicOperator` reads an operand and enters its loop. -/
theorem parses_parseLogicOperator {H : Host} {s s1 s2 : ExpressionTreeBuilder} {a r : Expression}
    (ha : Parses (parseComparator H) s a s1)
    (hl : Parses (fun n => parseLogicOperatorLoop H n a) s1 r s2) : Parses (parseLogicOperator H) s r s2 :=
  Parses.step (fun k => (monoAt H k).parseComparator) (fun k => (monoAt H k).parseLogicOperatorLoop a)
    (fun _ h => parseLogicOperator_eq h) ha hl

/-- The loop of `parseLogicOperator` returns its operand at a token it does not consume. -/
theorem parses_parseLogicOperatorLoop_stop {H : Host} {s : ExpressionTreeBuilder} {a : Expression}
    (h : s.currentType ∉ logicTokens) : Parses (fun n => parseLogicOperatorLoop H n a) s a s :=
  ⟨1, parseLogicOperatorLoop_stop h⟩

theorem parses_parseLogicOperatorLoop_logicalAnd {H : Host} {s s' s2 s3 : ExpressionTreeBuilder}
    {a b r : Expression} (h : s.currentType = .logicalAnd) (hs : skip H s = .ok ((), s'))
    (hb : Parses (parseComparator H) s' b s2)
    (hl : Parses (fun n => parseLogicOperatorLoop H n (.LogicalAndOp a b)) s2 r s3) :
    Parses (fun n => parseLogicOperatorLoop H n a) s r s3 :=
  Parses.step (fun k => (monoAt H k).parseComparator) (fun k => (monoAt H k).parseLogicOperatorLoop (.LogicalAndOp a b))
    (fun _ hb' => parseLogicOperatorLoop_logicalAnd h hs hb') hb hl

theorem parses_parseLogicOperatorLoop_logicalOr {H : Host} {s s' s2 s3 : ExpressionTreeBuilder}
    {a b r : Expression} (h : s.currentType = .logicalOr) (hs : skip H s = .ok ((), s'))
    (hb : Parses (parseComparator H) s' b s2)
    (hl : Parses (fun n => parseLogicOperatorLoop H n (.LogicalOrOp a b)) s2 r s3) :
    Parses (fun n => parseLogicOperatorLoop H n a) s r s3 :=
  Parses.step (fun k => (monoAt H k).parseComparator) (fun k => (monoAt H k).parseLogicOperatorLoop (.LogicalOrOp a b))
    (fun _ hb' => parseLogicOperatorLoop_logicalOr h hs hb') hb hl

theorem parses_parseLogicOperatorLoop_bitwiseAnd {H : Host} {s s' s2 s3 : ExpressionTreeBuilder}
    {a b r : Expression} (h : s.currentType = .bitwiseAnd) (hs : skip H s = .ok ((), s'))
    (hb : Parses (parseComparator H) s' b s2)
    (hl : Parses (fun n => parseLogicOperatorLoop H n (.BitwiseAndOp a b)) s2 r s3) :
    Parses (fun n => parseLogicOperatorLoop H n a) s r s3 :=
  Parses.step (fun k => (monoAt H k).parseComparator) (fun k => (monoAt H k).parseLogicOperatorLoop (.BitwiseAndOp a b))
    (fun _ hb' => parseLogicOperatorLoop_bitwiseAnd h hs hb') hb hl

theorem parses_parseLogicOperatorLoop_bitwiseOr {H : Host} {s s' s2 s3 : ExpressionTreeBuilder}
    {a b r : Expression} (h : s.currentType = .bitwiseOr) (hs : skip H s = .ok ((), s'))
    (hb : Parses (parseComparator H) s' b s2)
    (hl : Parses (fun n => parseLogicOperatorLoop H n (.BitwiseOrOp a b)) s2 r s3) :
    Parses (fun n => parseLogicOperatorLoop H n a) s r s3 :=
  Parses.step (fun k => (monoAt H k).parseComparator) (fun k => (monoAt H k).parseLogicOperatorLoop (.BitwiseOrOp a b))
    (fun _ hb' => parseLogicOperatorLoop_bitwiseOr h hs hb') hb hl

theorem parses_parseLogicOperatorLoop_bitwiseXor {H : Host} {s s' s2 s3 : ExpressionTreeBuilder}
    {a b r : Expression} (h : s.currentType = .bitwiseXor) (hs : skip H s = .ok ((), s'))
    (hb : Parses (parseComparator H) s' b s2)
    (hl : Parses (fun n => parseLogicOperatorLoop H n (.BitwiseXorOp a b)) s2 r s3) :
    Parses (fun n => parseLogicOperatorLoop H n a) s r s3 :=
  Parses.step (fun k => (monoAt H k).parseComparator) (fun k => (monoAt H k).parseLogicOperatorLoop (.BitwiseXorOp a b))
    (fun _ hb' => parseLogicOperatorLoop_bitwiseXor h hs hb') hb hl

theorem parseUnary_literal {H : Host} {s s' : ExpressionTreeBuilder}
    (h : s.currentType = .literal) (hs : skip H s = .ok ((), s'))
    (h1 : s'.currentType ≠ .dot) (h2 : s'.currentType ≠ .openParen)
    (h3 : s'.currentType ≠ .openBracket) (h4 : s'.currentType ≠ .plusplus)
    (h5 : s'.currentType ≠ .minusminus) :
    Parses (parseUnary H) s (.LiteralValue s.currentValue) s' := by
  refine ⟨3, ?_⟩
  rw [parseUnary_of_parseFactor (by simp [h]) (by simp [h]) (by simp [h]) (by simp [h])
    (by simp [h]), parseFactor_literal h hs h1 h2 h3 h4 h5]

/-! ## Unary operators and `parseExpression` -/

/-- Two runs with enough fuel share a fuel. -/
theorem Parses.two {α β : Type} {f : Nat → Parser α} {g : Nat → Parser β}
    (mf : ∀ k, (f k).le (f (k + 1))) (mg : ∀ k, (g k).le (g (k + 1)))
    {s1 s2 s3 s4 : ExpressionTreeBuilder} {a : α} {b : β}
    (hf : Parses f s1 a s2) (hg : Parses g s3 b s4) :
    ∃ n, f n s1 = .ok (a, s2) ∧ g n s3 = .ok (b, s4) := by
  obtain ⟨nf, hf⟩ := hf
  obtain ⟨ng, hg⟩ := hg
  exact ⟨max nf ng, fuel_mono mf hf (Nat.le_max_left nf ng),
    fuel_mono mg hg (Nat.le_max_right nf ng)⟩

theorem parseUnary_minus {H : Host} {n : Nat} {s s' : ExpressionTreeBuilder}
    (h : s.currentType = .minus) (hs : skip H s = .ok ((), s')) :
    parseUnary H (n + 1) s =
      (parseUnary H n >>= fun b => pure (.SubtractionOp (.LiteralValue (.int 0)) b)) s' := by
  rw [parseUnary]
  simp only [StM.bind_apply, matchIf_of_eq h hs, if_true]

theorem parseUnary_logicalNot {H : Host} {n : Nat} {s s' : ExpressionTreeBuilder}
    (h : s.currentType = .logicalNot) (hs : skip H s = .ok ((), s')) :
    parseUnary H (n + 1) s =
      (parseUnary H n >>= fun b => pure (.EqualsOp (.LiteralValue (.int 0)) b)) s' := by
  rw [parseUnary]
  simp only [StM.bind_apply, matchIf_of_ne (show s.currentType ≠ .minus by rw [h]; decide),
    matchIf_of_eq h hs, if_true, Bool.false_eq_true, if_false]

theorem parses_parseUnary_minus {H : Host} {s s' s1 : ExpressionTreeBuilder} {a : Expression}
    (h : s.currentType = .minus) (hs : skip H s = .ok ((), s'))
    (ha : Parses (parseUnary H) s' a s1) :
    Parses (parseUnary H) s (.SubtractionOp (.LiteralValue (.int 0)) a) s1 := by
  obtain ⟨n, ha⟩ := ha
  exact ⟨n + 1, by rw [parseUnary_minus h hs, StM.bind_ok ha, StM.pure_apply]⟩

theorem parses_parseUnary_logicalNot {H : Host} {s s' s1 : ExpressionTreeBuilder}
    {a : Expression} (h : s.currentType = .logicalNot) (hs : skip H s = .ok ((), s'))
    (ha : Parses (parseUnary H) s' a s1) :
    Parses (parseUnary H) s (.EqualsOp (.LiteralValue (.int 0)) a) s1 := by
  obtain ⟨n, ha⟩ := ha
  exact ⟨n + 1, by rw [parseUnary_logicalNot h hs, StM.bind_ok ha, StM.pure_apply]⟩

/-- Whatever `parseUnary` returns at a `-` is a subtraction from the literal 0. -/
theorem parseUnary_minus_eq_ok {H : Host} {n : Nat} {s s' s1 : ExpressionTreeBuilder}
    {r : Expression} (h : s.currentType = .minus) (hs : skip H s = .ok ((), s'))
    (hr : parseUnary H n s = .ok (r, s1)) :
    ∃ b, Parses (parseUnary H) s' b s1 ∧ r = .SubtractionOp (.LiteralValue (.int 0)) b := by
  cases n with
  | zero => rw [parseUnary] at hr; cases hr
  | succ n =>
    rw [parseUnary_minus h hs, StM.bind_eq_ok] at hr
    obtain ⟨b, s2, hb, hp⟩ := hr
    simp only [StM.pure_apply, Res.ok.injEq, Prod.mk.injEq] at hp
    obtain ⟨rfl, rfl⟩ := hp
    exact ⟨b, ⟨n, hb⟩, rfl⟩

/-- Whatever `parseUnary` returns at a `!` is a comparison with the literal 0. -/
theorem parseUnary_logicalNot_eq_ok {H : Host} {n : Nat} {s s' s1 : ExpressionTreeBuilder}
    {r : Expression} (h : s.currentType = .logicalNot) (hs : skip H s = .ok ((), s'))
    (hr : parseUnary H n s = .ok (r, s1)) :
    ∃ b, Parses (parseUnary H) s' b s1 ∧ r = .EqualsOp (.LiteralValue (.int 0)) b := by
  cases n with
  | zero => rw [parseUnary] at hr; cases hr
  | succ n =>
    rw [parseUnary_logicalNot h hs, StM.bind_eq_ok] at hr
    obtain ⟨b, s2, hb, hp⟩ := hr
    simp only [StM.pure_apply, Res.ok.injEq, Prod.mk.injEq] at hp
    obtain ⟨rfl, rfl⟩ := hp
    exact ⟨b, ⟨n, hb⟩, rfl⟩

/-! ### Operands passing through the levels -/

theorem parses_parseMultiplyDivide_of_unary {H : Host} {s s1 : ExpressionTreeBuilder}
    {a : Expression} (ha : Parses (parseUnary H) s a s1)
    (h : s1.currentType ∉ multiplicativeTokens) : Parses (parseMultiplyDivide H) s a s1 :=
  parses_parseMultiplyDivide ha (parses_parseMultiplyDivideLoop_stop h)

theorem parses_parseAdditionSubtraction_of_unary {H : Host} {s s1 : ExpressionTreeBuilder}
    {a : Expression} (ha : Parses (parseUnary H) s a s1)
    (h : s1.currentType ∉ multiplicativeTokens ++ additiveTokens) :
    Parses (parseAdditionSubtraction H) s a s1 :=
  parses_parseAdditionSubtraction
    (parses_parseMultiplyDivide_of_unary ha (fun e => h (List.mem_append_left _ e)))
    (parses_parseAdditionSubtractionLoop_stop (fun e => h (List.mem_append_right _ e)))

theorem parses_parseShiftOperator_of_additive {H : Host} {s s1 : ExpressionTreeBuilder}
    {a : Expression} (ha : Parses (parseAdditionSubtraction H) s a s1)
    (h : s1.currentType ∉ shiftTokens) : Parses (parseShiftOperator H) s a s1 :=
  parses_parseShiftOperator ha (parses_parseShiftOperatorLoop_stop h)

theorem parses_parseComparator_of_additive {H : Host} {s s1 : ExpressionTreeBuilder}
    {a : Expression} (ha : Parses (parseAdditionSubtraction H) s a s1)
    (h : s1.currentType ∉ shiftTokens ++ comparisonTokens) :
    Parses (parseComparator H) s a s1 :=
  parses_parseComparator
    (parses_parseShiftOperator_of_additive ha (fun e => h (List.mem_append_left _ e)))
    (parses_parseComparatorLoop_stop (fun e => h (List.mem_append_right _ e)))

theorem parses_parseComparator_of_unary {H : Host} {s s1 : ExpressionTreeBuilder}
    {a : Expression} (ha : Parses (parseUnary H) s a s1)
    (h : s1.currentType ∉
      (multiplicativeTokens ++ additiveTokens) ++ (shiftTokens ++ comparisonTokens)) :
    Parses (parseComparator H) s a s1 :=
  parses_parseComparator_of_additive
    (parses_parseAdditionSubtraction_of_unary ha (fun e => h (List.mem_append_left _ e)))
    (fun e => h (List.mem_append_right _ e))

theorem parses_parseLogicOperator_of_comparator {H : Host} {s s1 : ExpressionTreeBuilder}
    {a : Expression} (ha : Parses (parseComparator H) s a s1)
    (h : s1.currentType ∉ logicTokens) : Parses (parseLogicOperator H) s a s1 :=
  parses_parseLogicOperator ha (parses_parseLogicOperatorLoop_stop h)

/-! ### `parseExpression` after its left operand -/

theorem parseExpression_stop {H : Host} {n : Nat} {s s1 : ExpressionTreeBuilder}
    {lhs : Expression} (hl : parseLogicOperator H n s = .ok (lhs, s1))
    (h : s1.currentType ∉ expressionTokens) : parseExpression H (n + 1) s = .ok (lhs, s1) := by
  have h1 : s1.currentType ≠ .in_ := fun e => h (by simp [expressionTokens, e])
  have h2 : s1.currentType ≠ .question := fun e => h (by simp [expressionTokens, e])
  have h3 : s1.currentType ≠ .assign := fun e => h (by simp [expressionTokens, e])
  have h4 : s1.currentType ≠ .plusEquals := fun e => h (by simp [expressionTokens, e])
  have h5 : s1.currentType ≠ .minusEquals := fun e => h (by simp [expressionTokens, e])
  have h6 : s1.currentType ≠ .leftShiftEquals := fun e => h (by simp [expressionTokens, e])
  have h7 : s1.currentType ≠ .rightShiftEquals := fun e => h (by simp [expressionTokens, e])
  rw [parseExpression]
  simp only [StM.bind_apply, StM.get_apply, hl, matchIf_of_ne h1, matchIf_of_ne h2,
    matchIf_of_ne h3, matchIf_of_ne h4, matchIf_of_ne h5, matchIf_of_ne h6, matchIf_of_ne h7,
    Bool.false_eq_true, if_false, StM.pure_apply]

theorem parses_parseExpression_stop {H : Host} {s s1 : ExpressionTreeBuilder}
    {lhs : Expression} (hl : Parses (parseLogicOperator H) s lhs s1)
    (h : s1.currentType ∉ expressionTokens) : Parses (parseExpression H) s lhs s1 := by
  obtain ⟨n, hl⟩ := hl
  exact ⟨n + 1, parseExpression_stop hl h⟩

theorem parses_parseExpression_assign {H : Host} {s s1 s1' s2 : ExpressionTreeBuilder}
    {lhs rhs : Expression} (hl : Parses (parseLogicOperator H) s lhs s1)
    (h : s1.currentType = .assign) (hs : skip H s1 = .ok ((), s1'))
    (hr : Parses (parseExpression H) s1' rhs s2) :
    Parses (parseExpression H) s (.Assignment lhs rhs) s2 := by
  obtain ⟨n, hl, hr⟩ := Parses.two (fun k => (monoAt H k).parseLogicOperator)
    (fun k => (monoAt H k).parseExpression) hl hr
  refine ⟨n + 1, ?_⟩
  rw [parseExpression]
  simp only [StM.bind_apply, StM.get_apply, hl,
    matchIf_of_ne (show s1.currentType ≠ .in_ by rw [h]; decide),
    matchIf_of_ne (show s1.currentType ≠ .question by rw [h]; decide),
    matchIf_of_eq h hs, hr, Bool.false_eq_true, if_false, if_true, StM.pure_apply]

theorem parseInPlaceOpExpression_ok {H : Host} {n : Nat}
    {op : Expression → Expression → Expression} {lhs rhs : Expression}
    {s s1 : ExpressionTreeBuilder} (hr : parseExpression H n s = .ok (rhs, s1)) :
    parseInPlaceOpExpression H (n + 1) op lhs s = .ok (.SelfAssignment lhs (op lhs rhs), s1) := by
  rw [parseInPlaceOpExpression]
  simp only [StM.bind_apply, hr, StM.pure_apply]

theorem parses_parseExpression_plusEquals {H : Host} {s s1 s1' s2 : ExpressionTreeBuilder}
    {lhs rhs : Expression} (hl : Parses (parseLogicOperator H) s lhs s1)
    (h : s1.currentType = .plusEquals) (hs : skip H s1 = .ok ((), s1'))
    (hr : Parses (parseExpression H) s1' rhs s2) :
    Parses (parseExpression H) s (.SelfAssignment lhs (.AdditionOp lhs rhs)) s2 := by
  obtain ⟨n, hl, hr⟩ := Parses.two (fun k => (monoAt H k).parseLogicOperator)
    (fun k => (monoAt H k).parseExpression) hl hr
  refine ⟨n + 2, ?_⟩
  rw [parseExpression]
  simp only [StM.bind_apply, StM.get_apply,
    fuel_mono (fun k => (monoAt H k).parseLogicOperator) hl (Nat.le_succ n),
    matchIf_of_ne (show s1.currentType ≠ .in_ by rw [h]; decide),
    matchIf_of_ne (show s1.currentType ≠ .question by rw [h]; decide),
    matchIf_of_ne (show s1.currentType ≠ .assign by rw [h]; decide),
    matchIf_of_eq h hs, parseInPlaceOpExpression_ok hr, Bool.false_eq_true, if_false, if_true]

theorem parses_parseExpression_minusEquals {H : Host} {s s1 s1' s2 : ExpressionTreeBuilder}
    {lhs rhs : Expression} (hl : Parses (parseLogicOperator H) s lhs s1)
    (h : s1.currentType = .minusEquals) (hs : skip H s1 = .ok ((), s1'))
    (hr : Parses (parseExpression H) s1' rhs s2) :
    Parses (parseExpression H) s (.SelfAssignment lhs (.SubtractionOp lhs rhs)) s2 := by
  obtain ⟨n, hl, hr⟩ := Parses.two (fun k => (monoAt H k).parseLogicOperator)
    (fun k => (monoAt H k).parseExpression) hl hr
  refine ⟨n + 2, ?_⟩
  rw [parseExpression]
  simp only [StM.bind_apply, StM.get_apply,
    fuel_mono (fun k => (monoAt H k).parseLogicOperator) hl (Nat.le_succ n),
    matchIf_of_ne (show s1.currentType ≠ .in_ by rw [h]; decide),
    matchIf_of_ne (show s1.currentType ≠ .question by rw [h]; decide),
    matchIf_of_ne (show s1.currentType ≠ .assign by rw [h]; decide),
    matchIf_of_ne (show s1.currentType ≠ .plusEquals by rw [h]; decide),
    matchIf_of_eq h hs, parseInPlaceOpExpression_ok hr, Bool.false_eq_true, if_false, if_true]

theorem parses_parseExpression_leftShiftEquals {H : Host}
    {s s1 s1' s2 : ExpressionTreeBuilder}
    {lhs rhs : Expression} (hl : Parses (parseLogicOperator H) s lhs s1)
    (h : s1.currentType = .leftShiftEquals) (hs : skip H s1 = .ok ((), s1'))
    (hr : Parses (parseExpression H) s1' rhs s2) :
    Parses (parseExpression H) s (.SelfAssignment lhs (.LeftShiftOp lhs rhs)) s2 := by
  obtain ⟨n, hl, hr⟩ := Parses.two (fun k => (monoAt H k).parseLogicOperator)
    (fun k => (monoAt H k).parseExpression) hl hr
  refine ⟨n + 2, ?_⟩
  rw [parseExpression]
  simp only [StM.bind_apply, StM.get_apply,
    fuel_mono (fun k => (monoAt H k).parseLogicOperator) hl (Nat.le_succ n),
    matchIf_of_ne (show s1.currentType ≠ .in_ by rw [h]; decide),
    matchIf_of_ne (show s1.currentType ≠ .question by rw [h]; decide),
    matchIf_of_ne (show s1.currentType ≠ .assign by rw [h]; decide),
    matchIf_of_ne (show s1.currentType ≠ .plusEquals by rw [h]; decide),
    matchIf_of_ne (show s1.currentType ≠ .minusEquals by rw [h]; decide),
    matchIf_of_eq h hs, parseInPlaceOpExpression_ok hr, Bool.false_eq_true, if_false, if_true]

theorem parses_parseExpression_rightShiftEquals {H : Host}
    {s s1 s1' s2 : ExpressionTreeBuilder}
    {lhs rhs : Expression} (hl : Parses (parseLogicOperator H) s lhs s1)
    (h : s1.currentType = .rightShiftEquals) (hs : skip H s1 = .ok ((), s1'))
    (hr : Parses (parseExpression H) s1' rhs s2) :
    Parses (parseExpression H) s (.SelfAssignment lhs (.RightShiftOp lhs rhs)) s2 := by
  obtain ⟨n, hl, hr⟩ := Parses.two (fun k => (monoAt H k).parseLogicOperator)
    (fun k => (monoAt H k).parseExpression) hl hr
  refine ⟨n + 2, ?_⟩
  rw [parseExpression]
  simp only [StM.bind_apply, StM.get_apply,
    fuel_mono (fun k => (monoAt H k).parseLogicOperator) hl (Nat.le_succ n),
    matchIf_of_ne (show s1.currentType ≠ .in_ by rw [h]; decide),
    matchIf_of_ne (show s1.currentType ≠ .question by rw [h]; decide),
    matchIf_of_ne (show s1.currentType ≠ .assign by rw [h]; decide),
    matchIf_of_ne (show s1.currentType ≠ .plusEquals by rw [h]; decide),
    matchIf_of_ne (show s1.currentType ≠ .minusEquals by rw [h]; decide),
    matchIf_of_ne (show s1.currentType ≠ .leftShiftEquals by rw [h]; decide),
    matchIf_of_eq h hs, parseInPlaceOpExpression_ok hr, Bool.false_eq_true, if_false, if_true]

/-- At `in`, `parseExpression` returns its right operand and stores the name it
remembered as the current iterator. -/
theorem parses_parseExpression_in {H : Host} {s a b c : ExpressionTreeBuilder}
    {lhs rhs : Expression} (hl : Parses (parseLogicOperator H) s lhs a)
    (h : a.currentType = .in_) (hs : skip H a = .ok ((), b))
    (hr : Parses (parseExpression H) b rhs c) :
    Parses (parseExpression H) s rhs { c with currentIterator := expressionId s } := by
  obtain ⟨n, hl, hr⟩ := Parses.two (fun k => (monoAt H k).parseLogicOperator)
    (fun k => (monoAt H k).parseExpression) hl hr
  refine ⟨n + 1, ?_⟩
  rw [parseExpression]
  simp only [StM.bind_apply, StM.get_apply, hl, matchIf_of_eq h hs, hr, if_true,
    StM.modify_apply, StM.pure_apply, expressionId]

theorem parses_parseLogicOperator_of_unary {H : Host} {s s1 : ExpressionTreeBuilder}
    {a : Expression} (ha : Parses (parseUnary H) s a s1)
    (h : s1.currentType ∉
      ((multiplicativeTokens ++ additiveTokens) ++ (shiftTokens ++ comparisonTokens)) ++
        logicTokens) :
    Parses (parseLogicOperator H) s a s1 :=
  parses_parseLogicOperator_of_comparator
    (parses_parseComparator_of_unary ha (fun e => h (List.mem_append_left _ e)))
    (fun e => h (List.mem_append_right _ e))

theorem parses_parseExpression_of_unary {H : Host} {s t : ExpressionTreeBuilder}
    {a : Expression} (ha : Parses (parseUnary H) s a t)
    (h : t.currentType ∉
      (((multiplicativeTokens ++ additiveTokens) ++ (shiftTokens ++ comparisonTokens)) ++
        logicTokens) ++ expressionTokens) :
    Parses (parseExpression H) s a t :=
  parses_parseExpression_stop
    (parses_parseLogicOperator_of_unary ha (fun e => h (List.mem_append_left _ e)))
    (fun e => h (List.mem_append_right _ e))

/-! ## `parseFactor` at an identifier of the root scope -/

theorem indexOf_neg_iff {α : Type} [DecidableEq α] (l : List α) (x : α) :
    Hise.indexOf l x < 0 ↔ x ∉ l := by
  induction l with
  | nil => simp [Hise.indexOf]
  | cons y ys ih =>
    unfold Hise.indexOf
    by_cases h : y = x
    · simp [h]
    · have h' : ¬ x = y := fun e => h e.symm
      by_cases hr : Hise.indexOf ys x < 0
      · simp [h, h', hr, ih.mp hr]
      · have : x ∈ ys := by
          by_contra hx
          exact hr (ih.mpr hx)
        simp only [h, if_false, hr, List.mem_cons, h', this, or_true, not_true_eq_false,
          iff_false, not_lt]
        omega

theorem indexOf_nonneg_or {α : Type} [DecidableEq α] (l : List α) (x : α) :
    Hise.indexOf l x = -1 ∨ 0 ≤ Hise.indexOf l x := by
  induction l with
  | nil => simp [Hise.indexOf]
  | cons y ys ih =>
    unfold Hise.indexOf
    by_cases h : y = x
    · simp [h]
    · rcases ih with ih | ih
      · simp [h, ih]
      · have : ¬ Hise.indexOf ys x < 0 := by omega
        simp only [h, if_false, this]
        right; omega

theorem indexOf_eq_neg_one_iff {α : Type} [DecidableEq α] (l : List α) (x : α) :
    Hise.indexOf l x = -1 ↔ x ∉ l := by
  rw [← indexOf_neg_iff]
  rcases indexOf_nonneg_or l x with h | h <;> omega

theorem skip_fields {H : Host} {s s' : ExpressionTreeBuilder} (h : skip H s = .ok ((), s')) :
    s'.hiseSpecialData = s.hiseSpecialData ∧
    s'.currentlyParsingInlineFunction = s.currentlyParsingInlineFunction ∧
    s'.currentlyParsedCallback = s.currentlyParsedCallback ∧
    s'.currentNamespace = s.currentNamespace ∧
    s'.currentIterator = s.currentIterator := by
  simp only [skip, liftIt] at h
  split at h <;> simp at h
  subst h
  simp

theorem parseFactor_root_inline {H : Host} {n : Nat} {s : ExpressionTreeBuilder}
    (h : AtRootIdentifier s) {o : InlineRef}
    (ho : getInlineFunction s.hiseSpecialData s.currentValue.toString none = some o) :
    parseFactor H (n + 1) none s =
      (parseInlineFunctionCall H n o >>= fun call => parseSuffixes H n call) s := by
  rw [parseFactor]
  simp only [StM.bind_apply, StM.get_apply, h.identifier, if_true, h.root, ne_eq,
    not_true_eq_false, if_false, h.notIterator, h.notInline, Bool.false_eq_true, false_and,
    h.notNamespace, Option.getD_none, ho]

theorem parseFactor_root_api {H : Host} {n : Nat} {s : ExpressionTreeBuilder}
    (h : AtRootIdentifier s)
    (ho : getInlineFunction s.hiseSpecialData s.currentValue.toString none = none)
    (h1 : Hise.indexOf s.hiseSpecialData.apiIds s.currentValue.toString ≠ -1) :
    parseFactor H (n + 1) none s =
      (parseApiExpression H n >>= fun e => parseSuffixes H n e) s := by
  rw [parseFactor]
  simp only [StM.bind_apply, StM.get_apply, h.identifier, if_true, h.root, ne_eq,
    not_true_eq_false, if_false, h.notIterator, h.notInline, Bool.false_eq_true, false_and,
    h.notNamespace, Option.getD_none, ho, h1, not_false_eq_true]

theorem parseFactor_root_const_bind {H : Host} {n : Nat} {s : ExpressionTreeBuilder}
    (h : AtRootIdentifier s)
    (ho : getInlineFunction s.hiseSpecialData s.currentValue.toString none = none)
    (h1 : Hise.indexOf s.hiseSpecialData.apiIds s.currentValue.toString = -1)
    (h2 : getConstIndex s.hiseSpecialData s.currentValue.toString none ≠ -1) :
    parseFactor H (n + 1) none s =
      (parseConstExpression H none >>= fun e => parseSuffixes H n e) s := by
  rw [parseFactor]
  simp only [StM.bind_apply, StM.get_apply, h.identifier, if_true, h.root, ne_eq,
    not_true_eq_false, if_false, h.notIterator, h.notInline, Bool.false_eq_true, false_and,
    h.notNamespace, Option.getD_none, ho, h1, h2, not_false_eq_true]

theorem parseConstExpression_of_identifier {H : Host} {ns : Option NsPtr}
    {s s1 : ExpressionTreeBuilder} (hid : s.currentType = .identifier)
    (hs : skip H s = .ok ((), s1)) :
    parseConstExpression H ns s = .ok (.ConstReference (ns.getD .root)
      (getConstIndex s.hiseSpecialData s.currentValue.toString ns), s1) := by
  simp only [parseConstExpression, StM.bind_apply, parseIdentifier_of_identifier hid hs,
    StM.get_apply, StM.pure_apply, (skip_fields hs).1]

theorem parseFactor_root_const {H : Host} {n : Nat} {s s1 : ExpressionTreeBuilder}
    (h : AtRootIdentifier s)
    (ho : getInlineFunction s.hiseSpecialData s.currentValue.toString none = none)
    (h1 : Hise.indexOf s.hiseSpecialData.apiIds s.currentValue.toString = -1)
    (h2 : getConstIndex s.hiseSpecialData s.currentValue.toString none ≠ -1)
    (hs : skip H s = .ok ((), s1)) :
    parseFactor H (n + 1) none s =
      parseSuffixes H n (.ConstReference .root
        (getConstIndex s.hiseSpecialData s.currentValue.toString none)) s1 := by
  rw [parseFactor_root_const_bind h ho h1 h2,
    StM.bind_ok (parseConstExpression_of_identifier h.identifier hs)]
  rfl

theorem parseFactor_root_externalC {H : Host} {n : Nat} {s : ExpressionTreeBuilder}
    (h : AtRootIdentifier s)
    (ho : getInlineFunction s.hiseSpecialData s.currentValue.toString none = none)
    (h1 : Hise.indexOf s.hiseSpecialData.apiIds s.currentValue.toString = -1)
    (h2 : getConstIndex s.hiseSpecialData s.currentValue.toString none = -1)
    (h3 : s.hiseSpecialData.getExternalCIndex s.currentValue.toString ≠ -1) :
    parseFactor H (n + 1) none s =
      (parseExternalCFunctionCall H n >>= fun e => parseSuffixes H n e) s := by
  rw [parseFactor]
  simp only [StM.bind_apply, StM.get_apply, h.identifier, if_true, h.root, ne_eq,
    not_true_eq_false, if_false, h.notIterator, h.notInline, Bool.false_eq_true, false_and,
    h.notNamespace, Option.getD_none, ho, h1, h2, h3, not_false_eq_true]

theorem parseFactor_root_register_bind {H : Host} {n : Nat} {s : ExpressionTreeBuilder}
    (h : AtRootIdentifier s)
    (ho : getInlineFunction s.hiseSpecialData s.currentValue.toString none = none)
    (h1 : Hise.indexOf s.hiseSpecialData.apiIds s.currentValue.toString = -1)
    (h2 : getConstIndex s.hiseSpecialData s.currentValue.toString none = -1)
    (h3 : s.hiseSpecialData.getExternalCIndex s.currentValue.toString = -1)
    (h4 : getRegisterIndex s.hiseSpecialData s.currentValue.toString none ≠ -1) :
    parseFactor H (n + 1) none s =
      (parseIdentifier H >>= fun i => parseSuffixes H n (.RegisterName i .root
        (getRegisterIndex s.hiseSpecialData s.currentValue.toString none))) s := by
  rw [parseFactor]
  simp only [StM.bind_apply, StM.get_apply, h.identifier, if_true, h.root, ne_eq,
    not_true_eq_false, if_false, h.notIterator, h.notInline, Bool.false_eq_true, false_and,
    h.notNamespace, Option.getD_none, ho, h1, h2, h3, h4, not_false_eq_true]

theorem parseFactor_root_register {H : Host} {n : Nat} {s s1 : ExpressionTreeBuilder}
    (h : AtRootIdentifier s)
    (ho : getInlineFunction s.hiseSpecialData s.currentValue.toString none = none)
    (h1 : Hise.indexOf s.hiseSpecialData.apiIds s.currentValue.toString = -1)
    (h2 : getConstIndex s.hiseSpecialData s.currentValue.toString none = -1)
    (h3 : s.hiseSpecialData.getExternalCIndex s.currentValue.toString = -1)
    (h4 : getRegisterIndex s.hiseSpecialData s.currentValue.toString none ≠ -1)
    (hs : skip H s = .ok ((), s1)) :
    parseFactor H (n + 1) none s = parseSuffixes H n (.RegisterName s.currentValue.toString .root
        (getRegisterIndex s.hiseSpecialData s.currentValue.toString none)) s1 := by
  rw [parseFactor_root_register_bind h ho h1 h2 h3 h4,
    StM.bind_ok (parseIdentifier_of_identifier h.identifier hs)]

theorem parseFactor_root_global_bind {H : Host} {n : Nat} {s : ExpressionTreeBuilder}
    (h : AtRootIdentifier s)
    (ho : getInlineFunction s.hiseSpecialData s.currentValue.toString none = none)
    (h1 : Hise.indexOf s.hiseSpecialData.apiIds s.currentValue.toString = -1)
    (h2 : getConstIndex s.hiseSpecialData s.currentValue.toString none = -1)
    (h3 : s.hiseSpecialData.getExternalCIndex s.currentValue.toString = -1)
    (h4 : getRegisterIndex s.hiseSpecialData s.currentValue.toString none = -1)
    (h5 : NamedValueSet.indexOf s.hiseSpecialData.globals s.currentValue.toString ≠ -1) :
    parseFactor H (n + 1) none s =
      (parseIdentifier H >>= fun i => parseSuffixes H n (.GlobalReference i)) s := by
  rw [parseFactor]
  simp only [StM.bind_apply, StM.get_apply, h.identifier, if_true, h.root, ne_eq,
    not_true_eq_false, if_false, h.notIterator, h.notInline, Bool.false_eq_true, false_and,
    h.notNamespace, Option.getD_none, ho, h1, h2, h3, h4, not_false_eq_true, h5]

theorem parseFactor_root_global {H : Host} {n : Nat} {s s1 : ExpressionTreeBuilder}
    (h : AtRootIdentifier s)
    (ho : getInlineFunction s.hiseSpecialData s.currentValue.toString none = none)
    (h1 : Hise.indexOf s.hiseSpecialData.apiIds s.currentValue.toString = -1)
    (h2 : getConstIndex s.hiseSpecialData s.currentValue.toString none = -1)
    (h3 : s.hiseSpecialData.getExternalCIndex s.currentValue.toString = -1)
    (h4 : getRegisterIndex s.hiseSpecialData s.currentValue.toString none = -1)
    (h5 : NamedValueSet.indexOf s.hiseSpecialData.globals s.currentValue.toString ≠ -1)
    (hs : skip H s = .ok ((), s1)) :
    parseFactor H (n + 1) none s = parseSuffixes H n (.GlobalReference s.currentValue.toString) s1 := by
  rw [parseFactor_root_global_bind h ho h1 h2 h3 h4 h5,
    StM.bind_ok (parseIdentifier_of_identifier h.identifier hs)]

theorem parseFactor_root_unqualified_bind {H : Host} {n : Nat} {s : ExpressionTreeBuilder}
    (h : AtRootIdentifier s)
    (ho : getInlineFunction s.hiseSpecialData s.currentValue.toString none = none)
    (h1 : Hise.indexOf s.hiseSpecialData.apiIds s.currentValue.toString = -1)
    (h2 : getConstIndex s.hiseSpecialData s.currentValue.toString none = -1)
    (h3 : s.hiseSpecialData.getExternalCIndex s.currentValue.toString = -1)
    (h4 : getRegisterIndex s.hiseSpecialData s.currentValue.toString none = -1)
    (h5 : NamedValueSet.indexOf s.hiseSpecialData.globals s.currentValue.toString = -1)
    (hcb : s.currentlyParsedCallback = Identifier.null) :
    parseFactor H (n + 1) none s =
      (parseIdentifier H >>= fun i => parseSuffixes H n (.UnqualifiedName i)) s := by
  rw [parseFactor]
  simp only [StM.bind_apply, StM.get_apply, h.identifier, if_true, h.root, ne_eq,
    not_true_eq_false, if_false, h.notIterator, h.notInline, Bool.false_eq_true, false_and,
    h.notNamespace, Option.getD_none, ho, h1, h2, h3, h4, not_false_eq_true, h5, hcb,
    Option.elim_none]
  rfl

theorem parseFactor_root_unqualified {H : Host} {n : Nat} {s s1 : ExpressionTreeBuilder}
    (h : AtRootIdentifier s)
    (ho : getInlineFunction s.hiseSpecialData s.currentValue.toString none = none)
    (h1 : Hise.indexOf s.hiseSpecialData.apiIds s.currentValue.toString = -1)
    (h2 : getConstIndex s.hiseSpecialData s.currentValue.toString none = -1)
    (h3 : s.hiseSpecialData.getExternalCIndex s.currentValue.toString = -1)
    (h4 : getRegisterIndex s.hiseSpecialData s.currentValue.toString none = -1)
    (h5 : NamedValueSet.indexOf s.hiseSpecialData.globals s.currentValue.toString = -1)
    (hcb : s.currentlyParsedCallback = Identifier.null)
    (hs : skip H s = .ok ((), s1)) :
    parseFactor H (n + 1) none s = parseSuffixes H n (.UnqualifiedName s.currentValue.toString) s1 := by
  rw [parseFactor_root_unqualified_bind h ho h1 h2 h3 h4 h5 hcb,
    StM.bind_ok (parseIdentifier_of_identifier h.identifier hs)]

theorem parseSuffixes_stop {H : Host} {n : Nat} {e : Expression} {s : ExpressionTreeBuilder}
    (h : s.currentType ∉ suffixTokens) : parseSuffixes H (n + 1) e s = .ok (e, s) :=
  parseSuffixes_none (fun e => h (by simp [suffixTokens, e])) (fun e => h (by simp [suffixTokens, e]))
    (fun e => h (by simp [suffixTokens, e])) (fun e => h (by simp [suffixTokens, e]))
    (fun e => h (by simp [suffixTokens, e]))

theorem parseUnary_identifier {H : Host} {n : Nat} {s : ExpressionTreeBuilder}
    (h : s.currentType = .identifier) : parseUnary H (n + 1) s = parseFactor H n none s :=
  parseUnary_of_parseFactor (by rw [h]; decide) (by rw [h]; decide) (by rw [h]; decide)
    (by rw [h]; decide) (by rw [h]; decide)

/-- With no table registered, a plain name of the root scope that is not the
iterator is read as an `UnqualifiedName`. -/
theorem parses_parseUnary_unqualified {H : Host} {s s1 : ExpressionTreeBuilder}
    (hd : s.hiseSpecialData = HiseSpecialData.empty) (h : s.currentType = .identifier)
    (hns : s.currentNamespace = .root) (hit : s.currentValue.toString ≠ s.currentIterator)
    (hin : s.currentlyParsingInlineFunction = false)
    (hcb : s.currentlyParsedCallback = Identifier.null)
    (hs : skip H s = .ok ((), s1)) (hsuf : s1.currentType ∉ suffixTokens) :
    Parses (parseUnary H) s (.UnqualifiedName s.currentValue.toString) s1 := by
  refine ⟨3, ?_⟩
  rw [parseUnary_identifier h,
    parseFactor_root_unqualified ⟨h, hns, hit, hin, by rw [hd]; rfl⟩ (by rw [hd]; rfl)
      (by rw [hd]; rfl) (by rw [hd]; rfl) (by rw [hd]; rfl) (by rw [hd]; rfl) (by rw [hd]; rfl)
      hcb hs, parseSuffixes_stop hsuf]

/-- A name equal to the current iterator is read as an `IteratorName`, before
any table is consulted. -/
theorem parseFactor_iterator {H : Host} {n : Nat} {ns : Option NsPtr}
    {s s1 : ExpressionTreeBuilder} (h : s.currentType = .identifier)
    (hit : s.currentValue.toString = s.currentIterator) (hs : skip H s = .ok ((), s1)) :
    parseFactor H (n + 1) ns s = parseSuffixes H n (.IteratorName s.currentValue.toString) s1 := by
  rw [parseFactor]
  simp only [StM.bind_apply, StM.get_apply, h, if_true, hit,
    parseIdentifier_of_identifier h hs]

theorem parses_parseUnary_iterator {H : Host} {s s1 : ExpressionTreeBuilder}
    (h : s.currentType = .identifier) (hit : s.currentValue.toString = s.currentIterator)
    (hs : skip H s = .ok ((), s1)) (hsuf : s1.currentType ∉ suffixTokens) :
    Parses (parseUnary H) s (.IteratorName s.currentValue.toString) s1 := by
  refine ⟨3, ?_⟩
  rw [parseUnary_identifier h, parseFactor_iterator h hit hs, parseSuffixes_stop hsuf]

/-! ## No expression starts at the end of the input -/

theorem parseFactor_eof {H : Host} {n : Nat} {ns : Option NsPtr} {s : ExpressionTreeBuilder}
    {r : Expression × ExpressionTreeBuilder} (h : s.currentType = .eof) :
    parseFactor H n ns s ≠ .ok r := by
  cases n with
  | zero => rw [parseFactor]; simp [StM.outOfFuel]
  | succ n =>
    rw [parseFactor]
    simp only [StM.bind_apply, StM.get_apply, h, reduceCtorEq, if_false,
      matchIf_of_ne (show s.currentType ≠ .openParen by rw [h]; decide),
      matchIf_of_ne (show s.currentType ≠ .true_ by rw [h]; decide),
      matchIf_of_ne (show s.currentType ≠ .false_ by rw [h]; decide),
      matchIf_of_ne (show s.currentType ≠ .null_ by rw [h]; decide),
      matchIf_of_ne (show s.currentType ≠ .undefined by rw [h]; decide),
      matchIf_of_ne (show s.currentType ≠ .openBrace by rw [h]; decide),
      matchIf_of_ne (show s.currentType ≠ .openBracket by rw [h]; decide),
      matchIf_of_ne (show s.currentType ≠ .function by rw [h]; decide),
      matchIf_of_ne (show s.currentType ≠ .new_ by rw [h]; decide),
      Bool.false_eq_true]
    exact StM.throw_ne_ok

theorem parseUnary_eof {H : Host} {n : Nat} {s : ExpressionTreeBuilder}
    {r : Expression × ExpressionTreeBuilder} (h : s.currentType = .eof) :
    parseUnary H n s ≠ .ok r := by
  cases n with
  | zero => rw [parseUnary]; simp [StM.outOfFuel]
  | succ n =>
    rw [parseUnary_of_parseFactor (by rw [h]; decide) (by rw [h]; decide) (by rw [h]; decide)
      (by rw [h]; decide) (by rw [h]; decide)]
    exact parseFactor_eof h

theorem parseMultiplyDivide_eof {H : Host} {n : Nat} {s : ExpressionTreeBuilder}
    {r : Expression × ExpressionTreeBuilder} (h : s.currentType = .eof) :
    parseMultiplyDivide H n s ≠ .ok r := by
  cases n with
  | zero => rw [parseMultiplyDivide]; simp [StM.outOfFuel]
  | succ n =>
    rw [parseMultiplyDivide]
    intro hr
    obtain ⟨a, s1, ha, _⟩ := StM.bind_eq_ok.mp hr
    exact parseUnary_eof h ha

theorem parseAdditionSubtraction_eof {H : Host} {n : Nat} {s : ExpressionTreeBuilder}
    {r : Expression × ExpressionTreeBuilder} (h : s.currentType = .eof) :
    parseAdditionSubtraction H n s ≠ .ok r := by
  cases n with
  | zero => rw [parseAdditionSubtraction]; simp [StM.outOfFuel]
  | succ n =>
    rw [parseAdditionSubtraction]
    intro hr
    obtain ⟨a, s1, ha, _⟩ := StM.bind_eq_ok.mp hr
    exact parseMultiplyDivide_eof h ha

theorem parseShiftOperator_eof {H : Host} {n : Nat} {s : ExpressionTreeBuilder}
    {r : Expression × ExpressionTreeBuilder} (h : s.currentType = .eof) :
    parseShiftOperator H n s ≠ .ok r := by
  cases n with
  | zero => rw [parseShiftOperator]; simp [StM.outOfFuel]
  | succ n =>
    rw [parseShiftOperator]
    intro hr
    obtain ⟨a, s1, ha, _⟩ := StM.bind_eq_ok.mp hr
    exact parseAdditionSubtraction_eof h ha

theorem parseComparator_eof {H : Host} {n : Nat} {s : ExpressionTreeBuilder}
    {r : Expression × ExpressionTreeBuilder} (h : s.currentType = .eof) :
    parseComparator H n s ≠ .ok r := by
  cases n with
  | zero => rw [parseComparator]; simp [StM.outOfFuel]
  | succ n =>
    rw [parseComparator]
    intro hr
    obtain ⟨a, s1, ha, _⟩ := StM.bind_eq_ok.mp hr
    exact parseShiftOperator_eof h ha

theorem parseLogicOperator_eof {H : Host} {n : Nat} {s : ExpressionTreeBuilder}
    {r : Expression × ExpressionTreeBuilder} (h : s.currentType = .eof) :
    parseLogicOperator H n s ≠ .ok r := by
  cases n with
  | zero => rw [parseLogicOperator]; simp [StM.outOfFuel]
  | succ n =>
    rw [parseLogicOperator]
    intro hr
    obtain ⟨a, s1, ha, _⟩ := StM.bind_eq_ok.mp hr
    exact parseComparator_eof h ha

/-- At the end of the input `parseExpression` does not return. -/
theorem parseExpression_eof {H : Host} {n : Nat} {s : ExpressionTreeBuilder}
    {r : Expression × ExpressionTreeBuilder} (h : s.currentType = .eof) :
    parseExpression H n s ≠ .ok r := by
  cases n with
  | zero => rw [parseExpression]; simp [StM.outOfFuel]
  | succ n =>
    rw [parseExpression]
    intro hr
    obtain ⟨_, s0, h0, hr⟩ := StM.bind_eq_ok.mp hr
    simp only [StM.get_apply, Res.ok.injEq, Prod.mk.injEq] at h0
    obtain ⟨rfl, rfl⟩ := h0
    obtain ⟨a, s1, ha, _⟩ := StM.bind_eq_ok.mp hr
    exact parseLogicOperator_eof h ha

/-! ## `parseForLoop` -/

theorem matchIf_eq_ok {H : Host} {t : TokenType} {s s' : ExpressionTreeBuilder} {b : Bool}
    (h : matchIf H t s = .ok (b, s')) :
    (b = true ↔ s.currentType = t) ∧ (b = false → s' = s) ∧
      (b = true → skip H s = .ok ((), s')) := by
  by_cases c : s.currentType = t
  · cases hs : skip H s with
    | ok x =>
      obtain ⟨⟨⟩, s1⟩ := x
      rw [matchIf_of_eq c hs] at h
      simp only [Res.ok.injEq, Prod.mk.injEq] at h
      obtain ⟨rfl, rfl⟩ := h
      simp [c]
    | error e =>
      simp only [skip, liftIt] at hs
      simp only [matchIf, liftIt, TokenIterator.matchIf, StM.bind_apply, StM.get_apply, c,
        if_true] at h
      split at hs <;> simp_all
    | outOfFuel =>
      simp only [skip, liftIt] at hs
      simp only [matchIf, liftIt, TokenIterator.matchIf, StM.bind_apply, StM.get_apply, c,
        if_true] at h
      split at hs <;> simp_all
  · rw [matchIf_of_ne c] at h
    simp only [Res.ok.injEq, Prod.mk.injEq] at h
    obtain ⟨rfl, rfl⟩ := h
    simp [c]

theorem match_eq_ok {H : Host} {t : TokenType} {s s' : ExpressionTreeBuilder}
    (h : match_ H t s = .ok ((), s')) : s.currentType = t ∧ skip H s = .ok ((), s') := by
  by_cases c : s.currentType = t
  · exact ⟨c, by rw [← match_of_eq c]; exact h⟩
  · rw [match_of_ne c] at h
    cases h

/-- A for-in header followed by a statement. -/
theorem parses_parseForLoop_forIn {H : Host} {s a b c s4 : ExpressionTreeBuilder}
    {iter : Expression} {body : Statement}
    (hopen : s.currentType = .openParen) (hs : skip H s = .ok ((), a))
    (hvar : a.currentType ≠ .var) (hiter : Parses (parseExpression H) a iter b)
    (hclose : b.currentType = .closeParen) (hs3 : skip H b = .ok ((), c))
    (hbody : Parses (parseStatement H) c body s4) :
    Parses (parseForLoop H) s
      (.LoopStatement false true none none (.LiteralValue (.bool true)) (some body) (some iter))
      s4 := by
  obtain ⟨n, hiter, hbody⟩ := Parses.two (fun k => (monoAt H k).parseExpression)
    (fun k => (monoAt H k).parseStatement) hiter hbody
  refine ⟨n + 1, ?_⟩
  rw [parseForLoop]
  simp only [StM.bind_apply, match_of_eq hopen, hs, matchIf_of_ne hvar, hiter, StM.get_apply,
    hclose, Bool.not_false, and_self, if_true, match_of_eq hclose, hs3, hbody, StM.pure_apply]

/-- What `parseForLoop` returns, read off the tokens after `(` and after the
first expression. -/
theorem parseForLoop_eq_ok {H : Host} {n : Nat} {s s1 s2 s3 s' : ExpressionTreeBuilder}
    {isVar : Bool} {iter : Expression} {st : Statement}
    (hopen : match_ H .openParen s = .ok ((), s1))
    (hvar : matchIf H .var s1 = .ok (isVar, s2))
    (hiter : Parses (parseExpression H) s2 iter s3)
    (h : parseForLoop H n s = .ok (st, s')) :
    (isVar = false ∧ s3.currentType = .closeParen ∧
      ∃ body, st = .LoopStatement false true none none (.LiteralValue (.bool true)) (some body)
        (some iter)) ∨
    ((isVar = true ∨ s3.currentType ≠ .closeParen) ∧ s3.currentType = .semicolon ∧
      ∃ it cond body, st = .LoopStatement false false (some (.expression iter)) (some it) cond
        (some body) none) := by
  cases n with
  | zero => rw [parseForLoop] at h; cases h
  | succ n =>
    rw [parseForLoop] at h
    simp only [StM.bind_apply, hopen, hvar] at h
    cases hx : parseExpression H n s2 with
    | error e => rw [hx] at h; cases h
    | outOfFuel => rw [hx] at h; cases h
    | ok x =>
      obtain ⟨e, s3x⟩ := x
      obtain ⟨rfl, rfl⟩ := Parses.unique (fun k => (monoAt H k).parseExpression) ⟨n, hx⟩ hiter
      rw [hx] at h
      simp only [StM.get_apply] at h
      by_cases c : (!isVar) = true ∧ s3x.currentType = .closeParen
      · rw [if_pos c] at h
        left
        refine ⟨by simpa using c.1, c.2, ?_⟩
        obtain ⟨_, sa, _, h⟩ := StM.bind_eq_ok.mp h
        obtain ⟨body, sb, _, h⟩ := StM.bind_eq_ok.mp h
        simp only [StM.pure_apply, Res.ok.injEq, Prod.mk.injEq] at h
        exact ⟨body, h.1.symm⟩
      · rw [if_neg c] at h
        right
        obtain ⟨ini, sa, hini, h⟩ := StM.bind_eq_ok.mp h
        have hc : isVar = true ∨ s3x.currentType ≠ .closeParen := by
          by_cases v : isVar = true
          · exact Or.inl v
          · exact Or.inr (fun e => c ⟨by simpa using v, e⟩)
        unfold matchEndOfStatement at hini
        obtain ⟨_, s0, h0, hini⟩ := StM.bind_eq_ok.mp hini
        simp only [StM.get_apply, Res.ok.injEq, Prod.mk.injEq] at h0
        obtain ⟨rfl, rfl⟩ := h0
        by_cases ce : s3x.currentType = .eof
        · exfalso
          rw [if_neg (not_not.mpr ce)] at hini
          simp only [StM.bind_apply, StM.pure_apply, Res.ok.injEq, Prod.mk.injEq] at hini
          obtain ⟨rfl, rfl⟩ := hini
          rw [StM.bind_apply,
            matchIf_of_ne (show s3x.currentType ≠ .semicolon by rw [ce]; decide)] at h
          simp only [Bool.false_eq_true, if_false] at h
          obtain ⟨_, s5, h5, _⟩ := StM.bind_eq_ok.mp h
          obtain ⟨_, s6, h6, _⟩ := StM.bind_eq_ok.mp h5
          exact parseExpression_eof ce h6
        · rw [if_pos ce] at hini
          obtain ⟨_, s0', hm, hini⟩ := StM.bind_eq_ok.mp hini
          simp only [StM.pure_apply, Res.ok.injEq, Prod.mk.injEq] at hini
          obtain ⟨rfl, rfl⟩ := hini
          refine ⟨hc, (match_eq_ok hm).1, ?_⟩
          obtain ⟨b1, sb, _, h⟩ := StM.bind_eq_ok.mp h
          cases b1
          · simp only [Bool.false_eq_true, if_false] at h
            obtain ⟨cond, sc, _, h⟩ := StM.bind_eq_ok.mp h
            obtain ⟨b2, sd, _, h⟩ := StM.bind_eq_ok.mp h
            cases b2
            · simp only [Bool.false_eq_true, if_false] at h
              obtain ⟨it, se, _, h⟩ := StM.bind_eq_ok.mp h
              obtain ⟨body, sf, _, h⟩ := StM.bind_eq_ok.mp h
              simp only [StM.pure_apply, Res.ok.injEq, Prod.mk.injEq] at h
              exact ⟨it, cond, body, h.1.symm⟩
            · simp only [if_true] at h
              obtain ⟨it, se, _, h⟩ := StM.bind_eq_ok.mp h
              obtain ⟨body, sf, _, h⟩ := StM.bind_eq_ok.mp h
              simp only [StM.pure_apply, Res.ok.injEq, Prod.mk.injEq] at h
              exact ⟨it, cond, body, h.1.symm⟩
          · simp only [if_true] at h
            obtain ⟨cond, sc, _, h⟩ := StM.bind_eq_ok.mp h
            obtain ⟨b2, sd, _, h⟩ := StM.bind_eq_ok.mp h
            cases b2
            · simp only [Bool.false_eq_true, if_false] at h
              obtain ⟨it, se, _, h⟩ := StM.bind_eq_ok.mp h
              obtain ⟨body, sf, _, h⟩ := StM.bind_eq_ok.mp h
              simp only [StM.pure_apply, Res.ok.injEq, Prod.mk.injEq] at h
              exact ⟨it, cond, body, h.1.symm⟩
            · simp only [if_true] at h
              obtain ⟨it, se, _, h⟩ := StM.bind_eq_ok.mp h
              obtain ⟨body, sf, _, h⟩ := StM.bind_eq_ok.mp h
              simp only [StM.pure_apply, Res.ok.injEq, Prod.mk.injEq] at h
              exact ⟨it, cond, body, h.1.symm⟩

/-! ## Statements -/

theorem matchEndOfStatement_semicolon {H : Host} {e : Expression}
    {s s' : ExpressionTreeBuilder} (h : s.currentType = .semicolon)
    (hs : skip H s = .ok ((), s')) : matchEndOfStatement H e s = .ok (e, s') := by
  unfold matchEndOfStatement
  simp only [StM.bind_apply, StM.get_apply, h, ne_eq, reduceCtorEq, not_false_eq_true, if_true,
    match_of_eq h, hs, StM.pure_apply]

theorem matchEndOfStatement_eof {H : Host} {e : Expression} {s : ExpressionTreeBuilder}
    (h : s.currentType = .eof) : matchEndOfStatement H e s = .ok (e, s) := by
  unfold matchEndOfStatement
  simp only [StM.bind_apply, StM.get_apply, h, ne_eq, not_true_eq_false, if_false,
    StM.pure_apply]

/-- An expression statement that starts with a name and ends with `;`. -/
theorem parses_parseStatement_expression {H : Host} {s t s2 : ExpressionTreeBuilder}
    {ex : Expression} (h : s.currentType = .identifier)
    (hex : Parses (parseExpression H) s ex t) (hsemi : t.currentType = .semicolon)
    (hs1 : skip H t = .ok ((), s2)) : Parses (parseStatement H) s (.expression ex) s2 := by
  obtain ⟨n, hex⟩ := hex
  refine ⟨n + 1, ?_⟩
  rw [parseStatement]
  simp only [StM.bind_apply, StM.get_apply, h, matchIf_of_ne, ne_eq, reduceCtorEq,
    not_false_eq_true, if_false, Bool.false_eq_true, or_false, false_or, or_true, true_or,
    if_true, hex, matchEndOfStatement_semicolon hsemi hs1, StM.pure_apply]

/-- The statement `for ...`. -/
theorem parses_parseStatement_for {H : Host} {s t s2 : ExpressionTreeBuilder}
    {st : Statement} (h : s.currentType = .for_) (hs : skip H s = .ok ((), t))
    (hloop : Parses (parseForLoop H) t st s2) : Parses (parseStatement H) s st s2 := by
  obtain ⟨n, hloop⟩ := hloop
  refine ⟨n + 1, ?_⟩
  rw [parseStatement]
  simp only [StM.bind_apply, StM.get_apply, h, matchIf_of_ne, ne_eq, reduceCtorEq,
    not_false_eq_true, if_false, Bool.false_eq_true, matchIf_of_eq h hs, if_true, hloop]

/-! ## Number literals -/

theorem wrapInt64_eq {v : Int} (h0 : 0 ≤ v) (h1 : v < 2 ^ 63) : wrapInt64 v = v := by
  unfold wrapInt64
  omega

theorem getHexDigitValue_digitChar (up : Bool) (d : Nat) (h : d < 16) :
    getHexDigitValue (digitChar up d) = d := by
  interval_cases d <;> cases up <;> rfl

theorem digitChar_toNat (up : Bool) (d : Nat) (h : d < 10) :
    (digitChar up d).toNat = 48 + d := by
  interval_cases d <;> cases up <;> rfl

theorem isDigit_digitChar (up : Bool) (d : Nat) (h : d < 10) :
    isDigit (digitChar up d) = true := by
  interval_cases d <;> cases up <;> rfl

theorem digitsValue_cons (b v d : Nat) (ds : List Nat) :
    digitsValue b v (d :: ds) = digitsValue b (v * b + d) ds := rfl

theorem le_digitsValue (b : Nat) (hb : 0 < b) (ds : List Nat) :
    ∀ v, v ≤ digitsValue b v ds := by
  induction ds with
  | nil => intro v; exact le_refl v
  | cons d ds ih =>
    intro v
    rw [digitsValue_cons]
    exact le_trans (le_trans (Nat.le_mul_of_pos_right v hb) (Nat.le_add_right _ d)) (ih _)

theorem parseHexLiteralLoop_spell (ds : List (Nat × Bool)) :
    ∀ (c : Char) (v : Nat), (∀ d ∈ ds, d.1 < 16) →
      digitsValue 16 v (ds.map (·.1)) < 2 ^ 63 →
      parseHexLiteralLoop (c :: ds.map (fun d => digitChar d.2 d.1)) v =
        (((digitsValue 16 v (ds.map (·.1)) : Nat) : Int), []) := by
  induction ds with
  | nil => intro c v _ _; rfl
  | cons d ds ih =>
    intro c v hd hv
    have h16 : d.1 < 16 := hd d (List.mem_cons_self _ _)
    simp only [List.map_cons, digitsValue_cons] at hv ⊢
    have hle := le_digitsValue 16 (by decide) (ds.map (·.1)) (v * 16 + d.1)
    rw [parseHexLiteralLoop]
    simp only [peek, List.headD_cons, getHexDigitValue_digitChar d.2 d.1 h16]
    rw [if_neg (by omega), wrapInt64_eq (by positivity) (by omega)]
    have := ih (digitChar d.2 d.1) (v * 16 + d.1) (fun x hx => hd x (List.mem_cons_of_mem _ hx)) hv
    simpa using this

theorem parseDecimalLiteralLoop_spell (ds : List Nat) :
    ∀ (v : Nat), (∀ d ∈ ds, d < 10) → digitsValue 10 v ds < 2 ^ 63 →
      parseDecimalLiteralLoop (ds.map (digitChar false)) v = (((digitsValue 10 v ds : Nat) : Int), []) := by
  induction ds with
  | nil => intro v _ _; rfl
  | cons d ds ih =>
    intro v hd hv
    have h10 : d < 10 := hd d (List.mem_cons_self _ _)
    simp only [List.map_cons, digitsValue_cons] at hv ⊢
    have hle := le_digitsValue 10 (by decide) ds (v * 10 + d)
    rw [parseDecimalLiteralLoop]
    simp only [digitChar_toNat false d h10]
    have e : ((48 + d : Nat) : Int) - 48 = (d : Int) := by omega
    rw [e]
    have hp : isPositiveAndBelow (d : Int) 10 = true := by
      simp only [isPositiveAndBelow, Bool.and_eq_true, decide_eq_true_eq]
      omega
    rw [if_pos hp, wrapInt64_eq (by positivity) (by omega)]
    have := ih (v * 10 + d) (fun x hx => hd x (List.mem_cons_of_mem _ hx)) hv
    simpa using this

theorem parseOctalLiteralLoop_spell (ds : List Nat) :
    ∀ (c : Char) (v : Nat), (∀ d ∈ ds, d < 8) → digitsValue 8 v ds < 2 ^ 63 →
      parseOctalLiteralLoop (c :: ds.map (digitChar false)) v =
        .ok (((digitsValue 8 v ds : Nat) : Int), []) := by
  induction ds with
  | nil => intro c v _ _; rfl
  | cons d ds ih =>
    intro c v hd hv
    have h8 : d < 8 := hd d (List.mem_cons_self _ _)
    simp only [List.map_cons, digitsValue_cons] at hv ⊢
    have hle := le_digitsValue 8 (by decide) ds (v * 8 + d)
    rw [parseOctalLiteralLoop]
    simp only [peek, List.headD_cons, digitChar_toNat false d (by omega)]
    have e : ((48 + d : Nat) : Int) - 48 = (d : Int) := by omega
    rw [e]
    have hp : isPositiveAndBelow (d : Int) 8 = true := by
      simp only [isPositiveAndBelow, Bool.and_eq_true, decide_eq_true_eq]
      omega
    rw [if_pos hp, wrapInt64_eq (by positivity) (by omega)]
    have := ih (digitChar false d) (v * 8 + d) (fun x hx => hd x (List.mem_cons_of_mem _ hx)) hv
    simpa using this

theorem skipWhitespaceAndComments_of_start {c : Char} {rest : List Char} (it : TokenIterator)
    (hp : it.p = c :: rest) (hw : isWhitespace c = false) (hs : c ≠ '/') :
    skipWhitespaceAndComments it = .ok ((), it) := by
  unfold skipWhitespaceAndComments
  rw [skipWhitespaceAndCommentsLoop]
  simp only [hp, List.dropWhile_cons, hw, Bool.false_eq_true, if_false, peek, List.headD_cons, hs]
  cases it
  simp_all

theorem new_of_matchNextToken {H : Host} {c : Char} {rest : List Char} {n : Nat}
    (hw : isWhitespace c = false) (hs : c ≠ '/')
    (hm : ∀ it : TokenIterator, it.p = c :: rest →
      matchNextToken H it = .ok (.literal, { it with currentValue := .int64 n, p := [] })) :
    TokenIterator.new H (c :: rest) "" = .ok (literalToken (c :: rest) n) := by
  unfold TokenIterator.new TokenIterator.skip
  have h1 := skipWhitespaceAndComments_of_start
    ⟨⟨c :: rest, "", c :: rest⟩, .eof, .void_, "", c :: rest⟩ rfl hw hs
  simp only [StM.bind_apply, h1, StM.modify_apply]
  rw [hm _ rfl]
  rfl

theorem parseFloatLiteral_digits {it : TokenIterator} (h : ∀ c ∈ it.p, isDigit c = true)
    (hne : it.p ≠ []) : parseFloatLiteral it = .ok (false, it) := by
  unfold parseFloatLiteral
  have e1 : it.p.takeWhile isDigit = it.p := List.takeWhile_eq_self_iff.mpr h
  have e2 : it.p.dropWhile isDigit = [] := List.dropWhile_eq_nil_iff.mpr h
  have e3 : it.p.length ≠ 0 := fun e => hne (List.length_eq_zero.mp e)
  have e4 : (peek [] = '.') = False := by simp [peek]
  simp [e1, e2, e3, peek]

theorem digitChar_facts (d : Nat) (h : d < 10) :
    isWhitespace (digitChar false d) = false ∧ digitChar false d ≠ '/' ∧
    isIdentifierStart (digitChar false d) = false ∧ digitChar false d ≠ 'x' ∧
    digitChar false d ≠ 'X' ∧ (0 < d → digitChar false d ≠ '0') ∧ digitChar false 0 = '0' := by
  interval_cases d <;> decide

theorem isDigit_spell (ds : List Nat) (h : ∀ d ∈ ds, d < 10) :
    ∀ c ∈ ds.map (digitChar false), isDigit c = true := by
  intro c hc
  obtain ⟨d, hd, rfl⟩ := List.mem_map.mp hc
  exact isDigit_digitChar false d (h d hd)

theorem matchNextToken_decimal {H : Host} {it : TokenIterator} {d : Nat} {ds : List Nat}
    (hp : it.p = (d :: ds).map (digitChar false)) (h0 : 0 < d) (hd : ∀ x ∈ d :: ds, x < 10)
    (hv : digitsValue 10 0 (d :: ds) < 2 ^ 63) :
    matchNextToken H it = .ok (.literal,
      { it with currentValue := .int64 (digitsValue 10 0 (d :: ds) : Nat), p := [] }) := by
  have h10 : d < 10 := hd d (List.mem_cons_self _ _)
  have f := digitChar_facts d h10
  have hpeek : peek it.p = digitChar false d := by rw [hp]; rfl
  have hhex : parseHexLiteral it = .ok (false, it) := by
    unfold parseHexLiteral
    rw [if_pos (Or.inl (by rw [hpeek]; exact f.2.2.2.2.2.1 h0))]
  have hfloat : parseFloatLiteral it = .ok (false, it) :=
    parseFloatLiteral_digits (by rw [hp]; exact isDigit_spell _ hd) (by rw [hp]; simp)
  have hoct : parseOctalLiteral it = .ok (false, it) := by
    unfold parseOctalLiteral
    rw [hpeek, digitChar_toNat false d h10]
    rw [if_pos (by omega)]
  have hdec : parseDecimalLiteral it = .ok (true,
      { it with currentValue := .int64 (digitsValue 10 0 (d :: ds) : Nat), p := [] }) := by
    unfold parseDecimalLiteral
    have := parseDecimalLiteralLoop_spell (d :: ds) 0 hd hv
    rw [hp]
    simp only [Nat.cast_zero] at this
    rw [this]
  unfold matchNextToken
  rw [hpeek, f.2.2.1, isDigit_digitChar false d h10]
  simp only [Bool.false_eq_true, if_false, if_true, StM.bind_apply, hhex, hfloat, hoct, hdec,
    StM.pure_apply]

theorem matchNextToken_octal {H : Host} {it : TokenIterator} {ds : List Nat}
    (hp : it.p = '0' :: ds.map (digitChar false)) (hd : ∀ x ∈ ds, x < 8)
    (hv : digitsValue 8 0 ds < 2 ^ 63) :
    matchNextToken H it = .ok (.literal,
      { it with currentValue := .int64 (digitsValue 8 0 ds : Nat), p := [] }) := by
  have hd10 : ∀ x ∈ ds, x < 10 := fun x hx => Nat.lt_of_lt_of_le (hd x hx) (by decide)
  have hpeek : peek it.p = '0' := by rw [hp]; rfl
  have hx : peek (it.p.drop 1) ≠ 'x' ∧ peek (it.p.drop 1) ≠ 'X' := by
    rw [hp]
    cases ds with
    | nil => decide
    | cons d ds =>
      have f := digitChar_facts d (hd10 d (List.mem_cons_self _ _))
      exact ⟨f.2.2.2.1, f.2.2.2.2.1⟩
  have hhex : parseHexLiteral it = .ok (false, it) := by
    unfold parseHexLiteral
    rw [if_pos (Or.inr hx)]
  have hfloat : parseFloatLiteral it = .ok (false, it) := by
    refine parseFloatLiteral_digits ?_ (by rw [hp]; simp)
    rw [hp]
    intro c hc
    rcases List.mem_cons.mp hc with rfl | hc
    · decide
    · exact isDigit_spell _ hd10 c hc
  have hoct : parseOctalLiteral it = .ok (true,
      { it with currentValue := .int64 (digitsValue 8 0 ds : Nat), p := [] }) := by
    unfold parseOctalLiteral
    have := parseOctalLiteralLoop_spell ds '0' 0 hd hv
    simp only [Nat.cast_zero] at this
    rw [hpeek, hp]
    have e : (('0'.toNat : Nat) : Int) - 48 = 0 := by decide
    rw [e, if_neg (by simp), this]
  unfold matchNextToken
  rw [hpeek]
  simp only [show isIdentifierStart '0' = false by decide, show isDigit '0' = true by decide,
    Bool.false_eq_true, if_false, if_true, StM.bind_apply, hhex, hfloat, hoct, StM.pure_apply]

theorem matchNextToken_hex {H : Host} {it : TokenIterator} {x : Char} {d : Nat × Bool}
    {ds : List (Nat × Bool)}
    (hp : it.p = '0' :: x :: (d :: ds).map (fun d => digitChar d.2 d.1))
    (hx : x = 'x' ∨ x = 'X') (hd : ∀ y ∈ d :: ds, y.1 < 16)
    (hv : digitsValue 16 0 ((d :: ds).map (·.1)) < 2 ^ 63) :
    matchNextToken H it = .ok (.literal,
      { it with currentValue := .int64 (digitsValue 16 0 ((d :: ds).map (·.1)) : Nat),
                p := [] }) := by
  have h16 : d.1 < 16 := hd d (List.mem_cons_self _ _)
  have hpeek : peek it.p = '0' := by rw [hp]; rfl
  have hhex : parseHexLiteral it = .ok (true,
      { it with currentValue := .int64 (digitsValue 16 0 ((d :: ds).map (·.1)) : Nat),
                p := [] }) := by
    unfold parseHexLiteral
    have hc : ¬ (peek it.p ≠ '0' ∨ (peek (it.p.drop 1) ≠ 'x' ∧ peek (it.p.drop 1) ≠ 'X')) := by
      rw [hp]
      rcases hx with rfl | rfl <;> simp [peek]
    rw [if_neg hc]
    have hv' : digitsValue 16 d.1 (ds.map (·.1)) < 2 ^ 63 := by
      simpa [digitsValue_cons] using hv
    have := parseHexLiteralLoop_spell ds (digitChar d.2 d.1) d.1
      (fun y hy => hd y (List.mem_cons_of_mem _ hy)) hv'
    simp only [hp, List.drop_succ_cons, List.drop_zero, List.map_cons, peek, List.headD_cons,
      getHexDigitValue_digitChar d.2 d.1 h16, this, digitsValue_cons, Nat.zero_mul, Nat.zero_add]
    rw [if_neg (by omega)]
  unfold matchNextToken
  rw [hpeek]
  simp only [show isIdentifierStart '0' = false by decide, show isDigit '0' = true by decide,
    Bool.false_eq_true, if_false, if_true, StM.bind_apply, hhex, StM.pure_apply]

/-! ## Inline functions, blocks and `return` -/

theorem parses_parseStatement_inline {H : Host} {s t u : ExpressionTreeBuilder}
    {st : Statement} (h : s.currentType = .inline_) (hs : skip H s = .ok ((), t))
    (hf : Parses (fun n => parseInlineFunction H n t.currentNamespace) t st u) :
    Parses (parseStatement H) s st u := by
  obtain ⟨n, hf⟩ := hf
  refine ⟨n + 1, ?_⟩
  rw [parseStatement]
  simp only [StM.bind_apply, StM.get_apply, h, matchIf_of_ne, ne_eq, reduceCtorEq,
    not_false_eq_true, if_false, Bool.false_eq_true, matchIf_of_eq h hs, if_true, hf]

theorem parses_parseStatement_return {H : Host} {s t u : ExpressionTreeBuilder}
    {st : Statement} (h : s.currentType = .return_) (hs : skip H s = .ok ((), t))
    (hr : Parses (parseReturn H) t st u) : Parses (parseStatement H) s st u := by
  obtain ⟨n, hr⟩ := hr
  refine ⟨n + 1, ?_⟩
  rw [parseStatement]
  simp only [StM.bind_apply, StM.get_apply, h, matchIf_of_ne, ne_eq, reduceCtorEq,
    not_false_eq_true, if_false, Bool.false_eq_true, matchIf_of_eq h hs, if_true, hr]

/-- The statement `return e;`. -/
theorem parses_parseReturn {H : Host} {s t u : ExpressionTreeBuilder} {e : Expression}
    (h : s.currentType ≠ .semicolon) (he : Parses (parseExpression H) s e t)
    (hsemi : t.currentType = .semicolon) (hs : skip H t = .ok ((), u)) :
    Parses (parseReturn H) s (.ReturnStatement e) u := by
  obtain ⟨n, he⟩ := he
  refine ⟨n + 1, ?_⟩
  rw [parseReturn]
  simp only [StM.bind_apply, matchIf_of_ne h, Bool.false_eq_true, if_false, he,
    matchIf_of_eq hsemi hs, StM.pure_apply]

theorem parses_parseBlock {H : Host} {s t u v : ExpressionTreeBuilder} {b : Statement}
    (h : s.currentType = .openBrace) (hs : skip H s = .ok ((), t))
    (hb : Parses (parseStatementList H) t b u) (hc : u.currentType = .closeBrace)
    (hu : skip H u = .ok ((), v)) : Parses (parseBlock H) s b v := by
  obtain ⟨n, hb⟩ := hb
  refine ⟨n + 1, ?_⟩
  rw [parseBlock]
  simp only [StM.bind_apply, match_of_eq h, hs, hb, match_of_eq hc, hu, StM.pure_apply]

theorem parses_parseStatementList {H : Host} {s t : ExpressionTreeBuilder} {b : Statement}
    (h : Parses (fun n => parseStatementListLoop H n [] []) s b t) :
    Parses (parseStatementList H) s b t := by
  obtain ⟨n, h⟩ := h
  exact ⟨n + 1, by rw [parseStatementList]; exact h⟩

theorem parses_parseStatementListLoop_stop {H : Host} {s : ExpressionTreeBuilder}
    {sts locks : List Statement} (h : s.currentType = .closeBrace ∨ s.currentType = .eof) :
    Parses (fun n => parseStatementListLoop H n sts locks) s (.BlockStatement sts locks) s := by
  refine ⟨1, ?_⟩
  show parseStatementListLoop H 1 sts locks s = _
  rw [parseStatementListLoop]
  have c : ¬ (s.currentType ≠ .closeBrace ∧ s.currentType ≠ .eof) := by
    rcases h with h | h <;> simp [h]
  simp only [StM.bind_apply, StM.get_apply, if_neg c, StM.pure_apply]

/-- One statement of a statement list that is not a lock statement. -/
theorem parses_parseStatementListLoop_step {H : Host} {s t u : ExpressionTreeBuilder}
    {sts locks : List Statement} {st b : Statement}
    (h1 : s.currentType ≠ .closeBrace) (h2 : s.currentType ≠ .eof)
    (hst : Parses (parseStatement H) s st t) (hl : ∀ x y, st ≠ .LockStatement x y)
    (hrest : Parses (fun n => parseStatementListLoop H n (sts ++ [st]) locks) t b u) :
    Parses (fun n => parseStatementListLoop H n sts locks) s b u := by
  obtain ⟨n, hst, hrest⟩ := Parses.two (fun k => (monoAt H k).parseStatement)
    (fun k => (monoAt H k).parseStatementListLoop (sts ++ [st]) locks) hst hrest
  refine ⟨n + 1, ?_⟩
  show parseStatementListLoop H (n + 1) sts locks s = _
  rw [parseStatementListLoop]
  simp only [StM.bind_apply, StM.get_apply, if_pos (And.intro h1 h2), hst]
  cases st <;> first | exact hrest | exact absurd rfl (hl _ _)

theorem parses_parseInlineFunctionSkipLoop_stop {H : Host} {s : ExpressionTreeBuilder}
    (h : s.currentType = .closeParen) : Parses (parseInlineFunctionSkipLoop H) s () s := by
  refine ⟨1, ?_⟩
  rw [parseInlineFunctionSkipLoop]
  simp only [StM.bind_apply, StM.get_apply, h, ne_eq, not_true_eq_false, if_false,
    StM.pure_apply]

theorem parses_parseInlineFunctionSkipLoop_step {H : Host} {s t u : ExpressionTreeBuilder}
    (h : s.currentType ≠ .closeParen) (hs : skip H s = .ok ((), t))
    (hrest : Parses (parseInlineFunctionSkipLoop H) t () u) :
    Parses (parseInlineFunctionSkipLoop H) s () u := by
  obtain ⟨n, hrest⟩ := hrest
  refine ⟨n + 1, ?_⟩
  rw [parseInlineFunctionSkipLoop]
  simp only [StM.bind_apply, StM.get_apply, ne_eq, h, not_false_eq_true, if_true, hs, hrest]

/-- The main parse of `inline function name (...) block` when the pre-pass has
registered an object called `name` at position `i` of the namespace `ns`: the
block is read with `currentlyParsingInlineFunction` set and stored in that
object. -/
theorem parses_parseInlineFunction {H : Host} {ns : NsPtr}
    {s a b c d e f g : ExpressionTreeBuilder} {body : Statement} {i : Nat} {m : Bool}
    (hflag : s.currentlyParsingInlineFunction = false)
    (hfun : s.currentType = .function) (hs : skip H s = .ok ((), a))
    (hname : a.currentType = .identifier) (ha : skip H a = .ok ((), b))
    (hopen : b.currentType = .openParen) (hb : skip H b = .ok ((), c))
    (hskip : Parses (parseInlineFunctionSkipLoop H) c () d)
    (hclose : d.currentType = .closeParen) (hd : skip H d = .ok ((), e))
    (hfound : Hise.indexOf ((e.hiseSpecialData.ns ns).inlineFunctions.map (·.name))
      a.currentValue.toString = i)
    (hbody : Parses (parseBlock H)
      { e with
        currentlyParsingInlineFunction := true
        lastComment := ""
        hiseSpecialData := e.hiseSpecialData.modifyInlineFunction ⟨ns, i⟩
          (fun o => { o with commentDoc := e.lastComment }) } body f)
    (hsemi : matchIf H .semicolon
      { f with
        currentlyParsingInlineFunction := false
        hiseSpecialData := f.hiseSpecialData.modifyInlineFunction ⟨ns, i⟩
          (fun o => { o with body := some body }) } = .ok (m, g)) :
    Parses (fun n => parseInlineFunction H n ns) s .empty g := by
  obtain ⟨n, hskip, hbody⟩ := Parses.two (fun k => (monoAt H k).parseInlineFunctionSkipLoop)
    (fun k => (monoAt H k).parseBlock) hskip hbody
  refine ⟨n + 1, ?_⟩
  show parseInlineFunction H (n + 1) ns s = _
  rw [parseInlineFunction]
  simp only [StM.bind_apply, StM.get_apply, hflag, Bool.false_eq_true, if_false,
    match_of_eq hfun, hs, parseIdentifier_of_identifier hname ha, match_of_eq hopen, hb, hskip,
    match_of_eq hclose, hd, StM.modify_apply, hfound, Int.natCast_nonneg, if_true,
    Int.toNat_ofNat, modifyData, hbody, hsemi, StM.pure_apply]

/-- Inside an inline function a name that is a parameter of the object
registered last is read as a `ParameterReference` to that object. -/
theorem parseFactor_inline_parameter {H : Host} {n : Nat} {s t : ExpressionTreeBuilder}
    {g : InlineFunctionObject} (h : s.currentType = .identifier)
    (hroot : s.currentNamespace = .root)
    (hit : s.currentValue.toString ≠ s.currentIterator)
    (hflag : s.currentlyParsingInlineFunction = true)
    (hlast : (s.hiseSpecialData.ns .root).inlineFunctions.getLast? = some g)
    (hp : 0 ≤ Hise.indexOf g.parameterNames s.currentValue.toString)
    (hs : skip H s = .ok ((), t)) :
    parseFactor H (n + 1) none s =
      parseSuffixes H n (.ParameterReference
        ⟨.root, (s.hiseSpecialData.ns .root).inlineFunctions.length - 1⟩
        (Hise.indexOf g.parameterNames s.currentValue.toString).toNat) t := by
  have hne : (s.hiseSpecialData.ns .root).inlineFunctions.isEmpty = false := by
    cases hl : (s.hiseSpecialData.ns .root).inlineFunctions with
    | nil => rw [hl] at hlast; cases hlast
    | cons x xs => rfl
  rw [parseFactor]
  simp only [StM.bind_apply, StM.get_apply, h, if_true, hroot, ne_eq, not_true_eq_false,
    if_false, hit, hflag, hne, Bool.false_eq_true, and_false, Option.getD_none, hlast,
    Option.elim_some, hp, and_self, parseIdentifier_of_identifier h hs]

/-- Inside an inline function a name that is neither a parameter nor a local
of the object registered last, and that no table holds, is read as an
`UnqualifiedName`. -/
theorem parseFactor_inline_unqualified {H : Host} {n : Nat} {s t : ExpressionTreeBuilder}
    {g : InlineFunctionObject} (h : s.currentType = .identifier)
    (hroot : s.currentNamespace = .root)
    (hit : s.currentValue.toString ≠ s.currentIterator)
    (hflag : s.currentlyParsingInlineFunction = true)
    (hlast : (s.hiseSpecialData.ns .root).inlineFunctions.getLast? = some g)
    (hp : Hise.indexOf g.parameterNames s.currentValue.toString = -1)
    (hl : NamedValueSet.indexOf g.localProperties s.currentValue.toString = -1)
    (hns : s.hiseSpecialData.getNamespace s.currentValue.toString = none)
    (ho : getInlineFunction s.hiseSpecialData s.currentValue.toString none = none)
    (h1 : Hise.indexOf s.hiseSpecialData.apiIds s.currentValue.toString = -1)
    (h2 : getConstIndex s.hiseSpecialData s.currentValue.toString none = -1)
    (h3 : s.hiseSpecialData.getExternalCIndex s.currentValue.toString = -1)
    (h4 : getRegisterIndex s.hiseSpecialData s.currentValue.toString none = -1)
    (h5 : NamedValueSet.indexOf s.hiseSpecialData.globals s.currentValue.toString = -1)
    (hcb : s.currentlyParsedCallback = Identifier.null)
    (hs : skip H s = .ok ((), t)) :
    parseFactor H (n + 1) none s =
      parseSuffixes H n (.UnqualifiedName s.currentValue.toString) t := by
  have hne : (s.hiseSpecialData.ns .root).inlineFunctions.isEmpty = false := by
    cases hl : (s.hiseSpecialData.ns .root).inlineFunctions with
    | nil => rw [hl] at hlast; cases hlast
    | cons x xs => rfl
  rw [parseFactor]
  simp only [StM.bind_apply, StM.get_apply, h, if_true, hroot, ne_eq, not_true_eq_false,
    if_false, hit, hflag, hne, Bool.false_eq_true, and_false, Option.getD_none, hlast,
    Option.elim_some, hp, hl, Int.reduceNeg, Int.reduceLE, hns, ho, h1, h2, h3, h4,
    not_false_eq_true, h5, hcb, Option.elim_none]
  show (parseIdentifier H >>= fun i => parseSuffixes H n (.UnqualifiedName i)) s = _
  rw [StM.bind_ok (parseIdentifier_of_identifier h hs)]

/-! ## The pre-pass, one token at a time -/

theorem liftPre_matchIf_of_ne {H : Host} {t : TokenType} {s : PreprocessState}
    (h : s.it.currentType ≠ t) : liftPre (TokenIterator.matchIf H t) s = .ok (false, s) := by
  simp [liftPre, TokenIterator.matchIf, StM.bind_apply, StM.get_apply, h, StM.pure_apply]

theorem liftPre_matchIf_of_eq {H : Host} {t : TokenType} {s : PreprocessState}
    {it : TokenIterator} (h : s.it.currentType = t)
    (hs : TokenIterator.skip H s.it = .ok ((), it)) :
    liftPre (TokenIterator.matchIf H t) s = .ok (true, { s with it := it }) := by
  simp [liftPre, TokenIterator.matchIf, StM.bind_apply, StM.get_apply, h, hs, StM.pure_apply]

theorem liftPre_match_of_eq {H : Host} {t : TokenType} {s : PreprocessState}
    {it : TokenIterator} (h : s.it.currentType = t)
    (hs : TokenIterator.skip H s.it = .ok ((), it)) :
    liftPre (TokenIterator.match_ H t) s = .ok ((), { s with it := it }) := by
  simp [liftPre, TokenIterator.match_, StM.bind_apply, StM.get_apply, h, hs]

theorem liftPre_skip {H : Host} {s : PreprocessState} {it : TokenIterator}
    (hs : TokenIterator.skip H s.it = .ok ((), it)) :
    liftPre (TokenIterator.skip H) s = .ok ((), { s with it := it }) := by
  simp [liftPre, hs]

/-- The main loop of the pre-pass skips a token it does not act on. -/
theorem preprocessCodeLoop_skip {H : Host} {n : Nat} {s : PreprocessState} {i : TokenIterator}
    (h : s.it.currentType ∉ prepassTokens)
    (hs : TokenIterator.skip H s.it = .ok ((), i)) :
    preprocessCodeLoop H (n + 1) s = preprocessCodeLoop H n { s with it := i } := by
  have h1 : s.it.currentType ≠ .eof := fun e => h (by simp [prepassTokens, e])
  have h2 : s.it.currentType ≠ .namespace_ := fun e => h (by simp [prepassTokens, e])
  have h3 : s.it.currentType ≠ .extern_ := fun e => h (by simp [prepassTokens, e])
  have h4 : s.it.currentType ≠ .include_ := fun e => h (by simp [prepassTokens, e])
  have h5 : s.it.currentType ≠ .openBrace := fun e => h (by simp [prepassTokens, e])
  have h6 : s.it.currentType ≠ .closeBrace := fun e => h (by simp [prepassTokens, e])
  have h7 : s.it.currentType ≠ .inline_ := fun e => h (by simp [prepassTokens, e])
  have h8 : s.it.currentType ≠ .register_var := fun e => h (by simp [prepassTokens, e])
  have h9 : s.it.currentType ≠ .const_ := fun e => h (by simp [prepassTokens, e])
  rw [preprocessCodeLoop]
  simp only [StM.bind_apply, StM.get_apply, ne_eq, h1, not_false_eq_true, if_true, h2, if_false,
    h3, h4, StM.pure_apply, liftPre_matchIf_of_ne h5, liftPre_matchIf_of_ne h6,
    liftPre_matchIf_of_ne h7, liftPre_matchIf_of_ne h8, h9, Bool.false_eq_true, liftPre_skip hs]

theorem preprocessCodeLoop_openBrace {H : Host} {n : Nat} {s : PreprocessState}
    {i : TokenIterator} (h : s.it.currentType = .openBrace)
    (hs : TokenIterator.skip H s.it = .ok ((), i)) :
    preprocessCodeLoop H (n + 1) s =
      preprocessCodeLoop H n { s with it := i, braceLevel := s.braceLevel + 1 } := by
  rw [preprocessCodeLoop]
  simp only [StM.bind_apply, StM.get_apply, h, ne_eq, reduceCtorEq, not_false_eq_true, if_true,
    if_false, StM.pure_apply, liftPre_matchIf_of_eq h hs, StM.modify_apply]

theorem preprocessCodeLoop_closeBrace {H : Host} {n : Nat} {s : PreprocessState}
    {i : TokenIterator} (h : s.it.currentType = .closeBrace) (hc : s.cns = .root)
    (hs : TokenIterator.skip H s.it = .ok ((), i)) :
    preprocessCodeLoop H (n + 1) s =
      preprocessCodeLoop H n { s with it := i, braceLevel := s.braceLevel - 1 } := by
  rw [preprocessCodeLoop]
  simp only [StM.bind_apply, StM.get_apply, h, ne_eq, reduceCtorEq, not_false_eq_true, if_true,
    if_false, StM.pure_apply,
    liftPre_matchIf_of_ne (show s.it.currentType ≠ .openBrace by rw [h]; decide),
    liftPre_matchIf_of_eq h hs, StM.modify_apply, hc, not_true_eq_false, and_false,
    Bool.false_eq_true]

theorem preprocessCodeLoop_inline {H : Host} {n : Nat} {s t : PreprocessState}
    {i : TokenIterator} (h : s.it.currentType = .inline_)
    (hs : TokenIterator.skip H s.it = .ok ((), i))
    (hf : parseInlineFunctionPreparser H n s.cns { s with it := i } = .ok ((), t)) :
    preprocessCodeLoop H (n + 1) s = preprocessCodeLoop H n t := by
  rw [preprocessCodeLoop]
  simp only [StM.bind_apply, StM.get_apply, h, ne_eq, reduceCtorEq, not_false_eq_true, if_true,
    if_false, StM.pure_apply,
    liftPre_matchIf_of_ne (show s.it.currentType ≠ .openBrace by rw [h]; decide),
    liftPre_matchIf_of_ne (show s.it.currentType ≠ .closeBrace by rw [h]; decide),
    liftPre_matchIf_of_eq h hs, Bool.false_eq_true, hf]

theorem preprocessCodeLoop_eof {H : Host} {n : Nat} {s : PreprocessState}
    (h : s.it.currentType = .eof) (hc : s.cns = .root) :
    preprocessCodeLoop H (n + 1) s = flushIds s := by
  rw [preprocessCodeLoop]
  simp only [StM.bind_apply, StM.get_apply, h, ne_eq, not_true_eq_false, if_false, hc]

theorem TokenIterator.match_eq_skip {H : Host} {t : TokenType} {it : TokenIterator}
    (h : it.currentType = t) : TokenIterator.match_ H t it = TokenIterator.skip H it := by
  simp [TokenIterator.match_, StM.bind_apply, StM.get_apply, h]

/-- The pre-pass over `inline function name (x)`: the signature is added to
the inline functions of the namespace. -/
theorem parseInlineFunctionPreparser_one {H : Host} {n : Nat} {ns : NsPtr}
    {s : PreprocessState} {a b c d e f : TokenIterator} {m : Bool}
    (hfun : s.it.currentType = .function) (hs : TokenIterator.skip H s.it = .ok ((), a))
    (hname : a.currentType = .identifier) (ha : TokenIterator.skip H a = .ok ((), b))
    (hopen : b.currentType = .openParen) (hb : TokenIterator.skip H b = .ok ((), c))
    (harg : c.currentType = .identifier) (hc : TokenIterator.skip H c = .ok ((), d))
    (hclose : d.currentType = .closeParen) (hd : TokenIterator.skip H d = .ok ((), e))
    (hsemi : TokenIterator.matchIf H .semicolon e = .ok (m, f)) :
    parseInlineFunctionPreparser H (n + 2) ns s = .ok ((),
      { s with
        it := f
        hiseSpecialData := s.hiseSpecialData.modifyNs ns (fun x => { x with
          inlineFunctions := x.inlineFunctions ++
            [{ name := a.currentValue.toString, parameterNames := [c.currentValue.toString],
               location := ⟨s.it.location.externalFile, s.it.charNumber⟩ }] }) }) := by
  unfold parseInlineFunctionPreparser
  have hc' : c.currentType ≠ .closeParen := by rw [harg]; decide
  simp only [StM.bind_apply, StM.get_apply, liftPre, TokenIterator.match_eq_skip hfun, hs,
    TokenIterator.match_eq_skip hname, ha, TokenIterator.match_eq_skip hopen, hb]
  rw [parseInlineFunctionArgumentsLoop]
  simp only [StM.bind_apply, StM.get_apply, ne_eq, hc', not_false_eq_true, if_true, liftPre,
    TokenIterator.match_eq_skip harg, hc, hclose, not_true_eq_false, if_false, StM.pure_apply]
  rw [parseInlineFunctionArgumentsLoop]
  simp only [StM.bind_apply, StM.get_apply, ne_eq, hclose, not_true_eq_false, if_false,
    StM.pure_apply, List.nil_append, liftPre, TokenIterator.match_eq_skip hclose, hd,
    modifyPreData, StM.modify_apply, hsemi]

/-- The pre-pass is its main loop run on the first token of the text. -/
theorem preprocessCode_eq {H : Host} {n : Nat} {code : List Char} {file : String}
    {d : HiseSpecialData} {i : TokenIterator} {s : PreprocessState}
    (hne : code.isEmpty = false) (hnew : TokenIterator.new H code file = .ok i)
    (hloop : preprocessCodeLoop H n { it := i, hiseSpecialData := d } = .ok ((), s)) :
    preprocessCode H (n + 1) code file d = .ok s.hiseSpecialData := by
  rw [preprocessCode]
  simp only [hne, Bool.false_eq_true, if_false, hnew, hloop]

/-! ### The pre-pass over `twoInlineFunctions` -/

theorem twoInline_prepass_f (n : Nat) :
    parseInlineFunctionPreparser specHost (n + 2) .root
        (mkPrepass HiseSpecialData.empty 0 7 15 .function .void_) =
      .ok ((), mkPrepass oneInlineTables 0 21 22 .openBrace (.string "a")) :=
  parseInlineFunctionPreparser_one
    (a := (mkIterator twoInlineFunctions 16 17 .identifier (.string "f")))
    (b := (mkIterator twoInlineFunctions 17 18 .openParen (.string "f")))
    (c := (mkIterator twoInlineFunctions 18 19 .identifier (.string "a")))
    (d := (mkIterator twoInlineFunctions 19 20 .closeParen (.string "a")))
    (e := (mkIterator twoInlineFunctions 21 22 .openBrace (.string "a")))
    (m := false)
    rfl rfl rfl rfl rfl rfl rfl rfl rfl rfl rfl

theorem twoInline_prepass_g (n : Nat) :
    parseInlineFunctionPreparser specHost (n + 2) .root
        (mkPrepass oneInlineTables 0 42 50 .function (.string "a")) =
      .ok ((), mkPrepass (twoInlineTables none none) 0 56 57 .openBrace (.string "b")) :=
  parseInlineFunctionPreparser_one
    (a := (mkIterator twoInlineFunctions 51 52 .identifier (.string "g")))
    (b := (mkIterator twoInlineFunctions 52 53 .openParen (.string "g")))
    (c := (mkIterator twoInlineFunctions 53 54 .identifier (.string "b")))
    (d := (mkIterator twoInlineFunctions 54 55 .closeParen (.string "b")))
    (e := (mkIterator twoInlineFunctions 56 57 .openBrace (.string "b")))
    (m := false)
    rfl rfl rfl rfl rfl rfl rfl rfl rfl rfl rfl

/-- The pre-pass over `twoInlineFunctions` registers the signatures of `f`
and `g`. -/
theorem twoInline_prepass (n : Nat) :
    preprocessCode specHost (n + 14) twoInlineFunctions.toList "" HiseSpecialData.empty =
      .ok (twoInlineTables none none) := by
  have key : preprocessCodeLoop specHost (n + 13)
      (mkPrepass HiseSpecialData.empty 0 0 6 .inline_ .void_) =
      .ok ((), mkPrepass (twoInlineTables none none) 0 69 69 .eof (.string "b")) := by
    rw [preprocessCodeLoop_inline (H := specHost) (s := mkPrepass HiseSpecialData.empty 0 0 6 .inline_ .void_)
      rfl rfl (twoInline_prepass_f (n + 10))]
    rw [preprocessCodeLoop_openBrace (s := (mkPrepass oneInlineTables 0 21 22 .openBrace (.string "a")))
        (H := specHost) (i := (mkIterator twoInlineFunctions 23 29 .return_ (.string "a"))) rfl rfl]
    show preprocessCodeLoop specHost _ (mkPrepass oneInlineTables 1 23 29 .return_ (.string "a")) = _
    rw [preprocessCodeLoop_skip (s := (mkPrepass oneInlineTables 1 23 29 .return_ (.string "a")))
        (H := specHost) (i := (mkIterator twoInlineFunctions 30 31 .identifier (.string "a"))) (by decide) rfl]
    show preprocessCodeLoop specHost _ (mkPrepass oneInlineTables 1 30 31 .identifier (.string "a")) = _
    rw [preprocessCodeLoop_skip (s := (mkPrepass oneInlineTables 1 30 31 .identifier (.string "a")))
        (H := specHost) (i := (mkIterator twoInlineFunctions 31 32 .semicolon (.string "a"))) (by decide) rfl]
    show preprocessCodeLoop specHost _ (mkPrepass oneInlineTables 1 31 32 .semicolon (.string "a")) = _
    rw [preprocessCodeLoop_skip (s := (mkPrepass oneInlineTables 1 31 32 .semicolon (.string "a")))
        (H := specHost) (i := (mkIterator twoInlineFunctions 33 34 .closeBrace (.string "a"))) (by decide) rfl]
    show preprocessCodeLoop specHost _ (mkPrepass oneInlineTables 1 33 34 .closeBrace (.string "a")) = _
    rw [preprocessCodeLoop_closeBrace (s := (mkPrepass oneInlineTables 1 33 34 .closeBrace (.string "a")))
        (H := specHost) (i := (mkIterator twoInlineFunctions 35 41 .inline_ (.string "a"))) rfl rfl rfl]
    show preprocessCodeLoop specHost _ (mkPrepass oneInlineTables 0 35 41 .inline_ (.string "a")) = _
    rw [preprocessCodeLoop_inline (H := specHost) (s := (mkPrepass oneInlineTables 0 35 41 .inline_ (.string "a")))
      rfl rfl (twoInline_prepass_g (n + 4))]
    rw [preprocessCodeLoop_openBrace (s := (mkPrepass (twoInlineTables none none) 0 56 57 .openBrace (.string "b")))
        (H := specHost) (i := (mkIterator twoInlineFunctions 58 64 .return_ (.string "b"))) rfl rfl]
    show preprocessCodeLoop specHost _ (mkPrepass (twoInlineTables none none) 1 58 64 .return_ (.string "b")) = _
    rw [preprocessCodeLoop_skip (s := (mkPrepass (twoInlineTables none none) 1 58 64 .return_ (.string "b")))
        (H := specHost) (i := (mkIterator twoInlineFunctions 65 66 .identifier (.string "b"))) (by decide) rfl]
    show preprocessCodeLoop specHost _ (mkPrepass (twoInlineTables none none) 1 65 66 .identifier (.string "b")) = _
    rw [preprocessCodeLoop_skip (s := (mkPrepass (twoInlineTables none none) 1 65 66 .identifier (.string "b")))
        (H := specHost) (i := (mkIterator twoInlineFunctions 66 67 .semicolon (.string "b"))) (by decide) rfl]
    show preprocessCodeLoop specHost _ (mkPrepass (twoInlineTables none none) 1 66 67 .semicolon (.string "b")) = _
    rw [preprocessCodeLoop_skip (s := (mkPrepass (twoInlineTables none none) 1 66 67 .semicolon (.string "b")))
        (H := specHost) (i := (mkIterator twoInlineFunctions 68 69 .closeBrace (.string "b"))) (by decide) rfl]
    show preprocessCodeLoop specHost _ (mkPrepass (twoInlineTables none none) 1 68 69 .closeBrace (.string "b")) = _
    rw [preprocessCodeLoop_closeBrace (s := (mkPrepass (twoInlineTables none none) 1 68 69 .closeBrace (.string "b")))
        (H := specHost) (i := (mkIterator twoInlineFunctions 69 69 .eof (.string "b"))) rfl rfl rfl]
    show preprocessCodeLoop specHost _ (mkPrepass (twoInlineTables none none) 0 69 69 .eof (.string "b")) = _
    rw [preprocessCodeLoop_eof (H := specHost) (s := (mkPrepass (twoInlineTables none none) 0 69 69 .eof (.string "b"))) rfl rfl]
    rfl
  exact preprocessCode_eq (show twoInlineFunctions.toList.isEmpty = false from rfl)
    (show TokenIterator.new specHost twoInlineFunctions.toList "" =
      .ok (mkIterator twoInlineFunctions 0 6 .inline_ .void_) from rfl) key

/-! ## C1 -/

theorem matchCloseParen_eq_ok {H : Host} {e e' : Expression} {s s' : ExpressionTreeBuilder}
    (h : matchCloseParen H e s = .ok (e', s')) : e' = e := by
  unfold matchCloseParen at h
  obtain ⟨_, s1, _, h2⟩ := StM.bind_eq_ok.mp h
  simp [StM.pure_apply] at h2
  exact h2.1.symm

theorem parseFunctionCall_eq_ok {H : Host} {n : Nat} {e e' : Expression}
    {s s' : ExpressionTreeBuilder} (h : parseFunctionCall H n false e s = .ok (e', s')) :
    ∃ args, e' = .FunctionCall e args := by
  cases n with
  | zero => simp [parseFunctionCall, StM.outOfFuel] at h
  | succ n =>
    rw [parseFunctionCall] at h
    obtain ⟨_, s1, _, h2⟩ := StM.bind_eq_ok.mp h
    obtain ⟨args, s2, _, h3⟩ := StM.bind_eq_ok.mp h2
    exact ⟨args, by simpa using matchCloseParen_eq_ok h3⟩

theorem parseSuffixes_suffixBase {H : Host} (n : Nat) :
    ∀ {e e' : Expression} {s s' : ExpressionTreeBuilder},
      parseSuffixes H n e s = .ok (e', s') → e'.suffixBase = e.suffixBase := by
  induction n with
  | zero => intro e e' s s' h; simp [parseSuffixes, StM.outOfFuel] at h
  | succ n ih =>
    intro e e' s s' h
    rw [parseSuffixes] at h
    obtain ⟨b1, s1, hb1, h⟩ := StM.bind_eq_ok.mp h
    by_cases c1 : b1 = true
    · simp only [c1, if_true] at h
      obtain ⟨child, s2, _, h⟩ := StM.bind_eq_ok.mp h
      rw [ih h, Expression.suffixBase]
    simp only [c1, Bool.false_eq_true, if_false] at h
    obtain ⟨x, s2, hg, h⟩ := StM.bind_eq_ok.mp h
    by_cases c2 : x.currentType = .openParen
    · simp only [c2, if_true] at h
      obtain ⟨call, s3, hc, h⟩ := StM.bind_eq_ok.mp h
      obtain ⟨args, rfl⟩ := parseFunctionCall_eq_ok hc
      rw [ih h, Expression.suffixBase]
    simp only [c2, Bool.false_eq_true, if_false] at h
    obtain ⟨b3, s3, _, h⟩ := StM.bind_eq_ok.mp h
    by_cases c3 : b3 = true
    · simp only [c3, if_true] at h
      obtain ⟨index, s4, _, h⟩ := StM.bind_eq_ok.mp h
      obtain ⟨_, s5, _, h⟩ := StM.bind_eq_ok.mp h
      rw [ih h, Expression.suffixBase]
    simp only [c3, Bool.false_eq_true, if_false] at h
    obtain ⟨b4, s4, _, h⟩ := StM.bind_eq_ok.mp h
    by_cases c4 : b4 = true
    · simp only [c4, if_true, parsePostIncDec, StM.pure_apply, Res.ok.injEq, Prod.mk.injEq] at h
      rw [← h.1, Expression.suffixBase]
    simp only [c4, Bool.false_eq_true, if_false] at h
    obtain ⟨b5, s5, _, h⟩ := StM.bind_eq_ok.mp h
    by_cases c5 : b5 = true
    · simp only [c5, if_true, parsePostIncDec, StM.pure_apply, Res.ok.injEq, Prod.mk.injEq] at h
      rw [← h.1, Expression.suffixBase]
    simp only [c5, Bool.false_eq_true, if_false, StM.pure_apply, Res.ok.injEq, Prod.mk.injEq] at h
    rw [← h.1]

theorem parseInlineFunctionCall_eq_ok {H : Host} {n : Nat} {o : InlineRef} {e : Expression}
    {s s' : ExpressionTreeBuilder} (h : parseInlineFunctionCall H n o s = .ok (e, s')) :
    e.fromTable = some .inlineFunctionCatalog := by
  cases n with
  | zero => simp [parseInlineFunctionCall, StM.outOfFuel] at h
  | succ n =>
    rw [parseInlineFunctionCall] at h
    obtain ⟨x, s1, hx, h⟩ := StM.bind_eq_ok.mp h
    generalize (x.hiseSpecialData.ns o.ns).inlineFunctions.get? o.index = f at h
    cases f with
    | none => exact absurd h StM.throw_ne_ok
    | some f =>
      obtain ⟨_, s2, _, h⟩ := StM.bind_eq_ok.mp h
      obtain ⟨_, s3, _, h⟩ := StM.bind_eq_ok.mp h
      obtain ⟨args, s4, _, h⟩ := StM.bind_eq_ok.mp h
      by_cases c : f.parameterNames.length ≠ args.length
      · rw [if_pos c] at h
        exact absurd h StM.throw_ne_ok
      · rw [if_neg c] at h
        rw [matchCloseParen_eq_ok h]; rfl

theorem parseExternalCFunctionCall_eq_ok {H : Host} {n : Nat} {e : Expression}
    {s s' : ExpressionTreeBuilder} (h : parseExternalCFunctionCall H n s = .ok (e, s')) :
    e.fromTable = some .externalCTable := by
  cases n with
  | zero => simp [parseExternalCFunctionCall, StM.outOfFuel] at h
  | succ n =>
    rw [parseExternalCFunctionCall] at h
    obtain ⟨name, s1, _, h⟩ := StM.bind_eq_ok.mp h
    obtain ⟨x, s2, _, h⟩ := StM.bind_eq_ok.mp h
    generalize x.hiseSpecialData.externalCFunctions.get?
      (x.hiseSpecialData.getExternalCIndex name).toNat = f at h
    cases f with
    | none => exact absurd h StM.throw_ne_ok
    | some f =>
      obtain ⟨_, s3, _, h⟩ := StM.bind_eq_ok.mp h
      obtain ⟨args, s4, _, h⟩ := StM.bind_eq_ok.mp h
      by_cases c : args.length ≠ f.numArguments
      · rw [if_pos c] at h
        exact absurd h StM.throw_ne_ok
      · rw [if_neg c] at h
        rw [matchCloseParen_eq_ok h]; rfl

theorem parseApiCall_eq_ok {H : Host} {n : Nat} {i : Int} {c : ApiClass} {f : Identifier}
    {e : Expression} {s s' : ExpressionTreeBuilder}
    (h : parseApiCall H n i c f s = .ok (e, s')) : e.fromTable = some .apiClassTable := by
  cases n with
  | zero => simp [parseApiCall, StM.outOfFuel] at h
  | succ n =>
    rw [parseApiCall] at h
    generalize c.getIndexAndNumArgsForFunction f = p at h
    obtain ⟨functionIndex, numArgs⟩ := p
    simp only at h
    by_cases c1 : functionIndex < 0
    · rw [if_pos c1] at h
      exact absurd h StM.throw_ne_ok
    · rw [if_neg c1] at h
      obtain ⟨_, s3, _, h⟩ := StM.bind_eq_ok.mp h
      obtain ⟨args, s4, _, h⟩ := StM.bind_eq_ok.mp h
      by_cases c2 : numArgs ≠ (args.length : Int)
      · rw [if_pos c2] at h
        exact absurd h StM.throw_ne_ok
      · rw [if_neg c2] at h
        rw [matchCloseParen_eq_ok h]; rfl

theorem parseApiExpression_eq_ok {H : Host} {n : Nat} {e : Expression}
    {s s' : ExpressionTreeBuilder} (h : parseApiExpression H n s = .ok (e, s')) :
    e.fromTable = some .apiClassTable := by
  cases n with
  | zero => simp [parseApiExpression, StM.outOfFuel] at h
  | succ n =>
    rw [parseApiExpression] at h
    obtain ⟨apiId, s1, _, h⟩ := StM.bind_eq_ok.mp h
    obtain ⟨x, s2, _, h⟩ := StM.bind_eq_ok.mp h
    generalize x.hiseSpecialData.apiClasses.get?
      (Hise.indexOf x.hiseSpecialData.apiIds apiId).toNat = f at h
    cases f with
    | none => exact absurd h StM.throw_ne_ok
    | some f =>
      obtain ⟨_, s3, _, h⟩ := StM.bind_eq_ok.mp h
      obtain ⟨memberName, s4, _, h⟩ := StM.bind_eq_ok.mp h
      by_cases c : f.getConstantIndex memberName ≠ -1
      · rw [if_pos c] at h
        simp only [parseApiConstant, StM.pure_apply, Res.ok.injEq, Prod.mk.injEq] at h
        rw [← h.1]; rfl
      · rw [if_neg c] at h
        exact parseApiCall_eq_ok h

/-- The lookup of `firstTable` written as a chain of tests. -/
theorem firstTable_eq (d : HiseSpecialData) (id : Identifier) :
    firstTable d id =
      if FactorTable.containsId d id .inlineFunctionCatalog then some .inlineFunctionCatalog
      else if FactorTable.containsId d id .apiClassTable then some .apiClassTable
      else if FactorTable.containsId d id .constPool then some .constPool
      else if FactorTable.containsId d id .externalCTable then some .externalCTable
      else if FactorTable.containsId d id .registerFile then some .registerFile
      else if FactorTable.containsId d id .globalPropertyBag then some .globalPropertyBag
      else none := by
  simp only [firstTable, resolutionOrder, List.find?]
  cases FactorTable.containsId d id .inlineFunctionCatalog <;>
  cases FactorTable.containsId d id .apiClassTable <;>
  cases FactorTable.containsId d id .constPool <;>
  cases FactorTable.containsId d id .externalCTable <;>
  cases FactorTable.containsId d id .registerFile <;>
  cases FactorTable.containsId d id .globalPropertyBag <;> rfl

theorem contains_iff_indexOf {l : List Identifier} {id : Identifier} :
    (l.contains id = false → Hise.indexOf l id = -1) ∧
    (l.contains id = true → Hise.indexOf l id ≠ -1) := by
  constructor
  · intro h
    rw [indexOf_eq_neg_one_iff]
    simpa using h
  · intro h
    rw [Ne, indexOf_eq_neg_one_iff]
    simpa using h

theorem containsId_inline {d : HiseSpecialData} {id : Identifier} :
    (FactorTable.containsId d id .inlineFunctionCatalog = false →
      getInlineFunction d id none = none) ∧
    (FactorTable.containsId d id .inlineFunctionCatalog = true →
      ∃ o, getInlineFunction d id none = some o) := by
  simp only [FactorTable.containsId, getInlineFunction, Option.getD_none, HiseSpecialData.ns]
  constructor
  · intro h
    have := contains_iff_indexOf.1 h
    simp [this]
  · intro h
    have h1 := contains_iff_indexOf.2 h
    have h2 := indexOf_nonneg_or (d.inlineFunctions.map (·.name)) id
    have : ¬ Hise.indexOf (d.inlineFunctions.map (·.name)) id < 0 := by omega
    simp [this]

theorem parseIdentifier_eq_ok {H : Host} {s s1 : ExpressionTreeBuilder} {i : Identifier}
    (h : parseIdentifier H s = .ok (i, s1)) (hid : s.currentType = .identifier) :
    i = s.currentValue.toString ∧ skip H s = .ok ((), s1) := by
  unfold parseIdentifier at h
  simp only [StM.bind_apply, StM.get_apply, hid, if_true, match_of_eq] at h
  cases hs : skip H s with
  | ok x =>
    obtain ⟨u, s2⟩ := x
    rw [hs] at h
    simp only [StM.pure_apply, Res.ok.injEq, Prod.mk.injEq] at h
    exact ⟨h.1.symm, by rw [h.2]⟩
  | error e => rw [hs] at h; simp at h
  | outOfFuel => rw [hs] at h; simp at h

theorem parseConstExpression_eq_ok {H : Host} {ns : Option NsPtr} {e : Expression}
    {s s' : ExpressionTreeBuilder} (h : parseConstExpression H ns s = .ok (e, s')) :
    e.fromTable = some .constPool := by
  unfold parseConstExpression at h
  obtain ⟨_, s1, _, h⟩ := StM.bind_eq_ok.mp h
  obtain ⟨_, s2, _, h⟩ := StM.bind_eq_ok.mp h
  simp only [StM.pure_apply, Res.ok.injEq, Prod.mk.injEq] at h
  rw [← h.1]; rfl

/-- What the code's index tests say when the first table is known. -/
theorem firstTable_facts (d : HiseSpecialData) (id : Identifier) :
    (firstTable d id = some .inlineFunctionCatalog → ∃ o, getInlineFunction d id none = some o) ∧
    (firstTable d id = some .apiClassTable →
      getInlineFunction d id none = none ∧ Hise.indexOf d.apiIds id ≠ -1) ∧
    (firstTable d id = some .constPool →
      getInlineFunction d id none = none ∧ Hise.indexOf d.apiIds id = -1 ∧
      getConstIndex d id none ≠ -1) ∧
    (firstTable d id = some .externalCTable →
      getInlineFunction d id none = none ∧ Hise.indexOf d.apiIds id = -1 ∧
      getConstIndex d id none = -1 ∧ d.getExternalCIndex id ≠ -1) ∧
    (firstTable d id = some .registerFile →
      getInlineFunction d id none = none ∧ Hise.indexOf d.apiIds id = -1 ∧
      getConstIndex d id none = -1 ∧ d.getExternalCIndex id = -1 ∧
      getRegisterIndex d id none ≠ -1) ∧
    (firstTable d id = some .globalPropertyBag →
      getInlineFunction d id none = none ∧ Hise.indexOf d.apiIds id = -1 ∧
      getConstIndex d id none = -1 ∧ d.getExternalCIndex id = -1 ∧
      getRegisterIndex d id none = -1 ∧ NamedValueSet.indexOf d.globals id ≠ -1) ∧
    (firstTable d id = none →
      getInlineFunction d id none = none ∧ Hise.indexOf d.apiIds id = -1 ∧
      getConstIndex d id none = -1 ∧ d.getExternalCIndex id = -1 ∧
      getRegisterIndex d id none = -1 ∧ NamedValueSet.indexOf d.globals id = -1) := by
  have inl := @containsId_inline d id
  have api := @contains_iff_indexOf d.apiIds id
  have cst := @contains_iff_indexOf (d.constObjects.map Prod.fst) id
  have ext := @contains_iff_indexOf (d.externalCFunctions.map (·.name)) id
  have reg := @contains_iff_indexOf d.varRegister.registerStackIds id
  have glb := @contains_iff_indexOf (d.globals.map Prod.fst) id
  have e1 : getConstIndex d id none = Hise.indexOf (d.constObjects.map Prod.fst) id := rfl
  have e2 : d.getExternalCIndex id = Hise.indexOf (d.externalCFunctions.map (·.name)) id := rfl
  have e3 : getRegisterIndex d id none = Hise.indexOf d.varRegister.registerStackIds id := rfl
  have e4 : NamedValueSet.indexOf d.globals id = Hise.indexOf (d.globals.map Prod.fst) id := rfl
  rw [e1, e2, e3, e4, firstTable_eq]
  simp only [FactorTable.containsId, NamedValueSet.contains] at inl ⊢
  rcases Bool.eq_false_or_eq_true ((d.inlineFunctions.map (·.name)).contains id) with c1 | c1 <;>
  rcases Bool.eq_false_or_eq_true (d.apiIds.contains id) with c2 | c2 <;>
  rcases Bool.eq_false_or_eq_true ((d.constObjects.map Prod.fst).contains id) with c3 | c3 <;>
  rcases Bool.eq_false_or_eq_true ((d.externalCFunctions.map (·.name)).contains id)
    with c4 | c4 <;>
  rcases Bool.eq_false_or_eq_true (d.varRegister.registerStackIds.contains id) with c5 | c5 <;>
  rcases Bool.eq_false_or_eq_true ((d.globals.map Prod.fst).contains id) with c6 | c6 <;>
  simp only [c1, c2, c3, c4, c5, c6, if_true, if_false, Bool.false_eq_true, reduceCtorEq,
    Option.some.injEq, false_implies, true_implies, and_true, true_and, implies_true,
    inl.1, inl.2, api.1, api.2, cst.1, cst.2, ext.1, ext.2, reg.1, reg.2, glb.1, glb.2,
    ne_eq, not_false_eq_true, and_self]

theorem suffixBase_of_fromTable {e : Expression} {t : FactorTable}
    (h : e.fromTable = some t) : e.suffixBase = e := by
  cases e <;> first | rfl | (simp [Expression.fromTable] at h)

/-- C1: factor resolution order. For an identifier read by `parseFactor` at
root scope (not the for-in iterator, not inside an inline function, not a
namespace name) the run of `parseFactor` is the run of the branch of the first
table that contains the identifier, in the order inline-function catalog, API
class table, const pool, external-C table, register file, global property bag;
with no table containing it and outside a callback the node is
`UnqualifiedName`. Whenever `parseFactor` returns, the node under the suffixes
is of the variant of that first table. -/
theorem C1_factor_resolution_order (H : Host) (n : Nat) (s : ExpressionTreeBuilder)
    (h : AtRootIdentifier s) :
    (firstTable s.hiseSpecialData s.currentValue.toString = some .inlineFunctionCatalog →
      ∃ o, getInlineFunction s.hiseSpecialData s.currentValue.toString none = some o ∧
        parseFactor H (n + 1) none s =
          (parseInlineFunctionCall H n o >>= fun call => parseSuffixes H n call) s) ∧
    (firstTable s.hiseSpecialData s.currentValue.toString = some .apiClassTable →
      parseFactor H (n + 1) none s =
        (parseApiExpression H n >>= fun e => parseSuffixes H n e) s) ∧
    (firstTable s.hiseSpecialData s.currentValue.toString = some .constPool →
      ∀ s1, skip H s = .ok ((), s1) →
        parseFactor H (n + 1) none s =
          parseSuffixes H n (.ConstReference .root
            (getConstIndex s.hiseSpecialData s.currentValue.toString none)) s1) ∧
    (firstTable s.hiseSpecialData s.currentValue.toString = some .externalCTable →
      parseFactor H (n + 1) none s =
        (parseExternalCFunctionCall H n >>= fun e => parseSuffixes H n e) s) ∧
    (firstTable s.hiseSpecialData s.currentValue.toString = some .registerFile →
      ∀ s1, skip H s = .ok ((), s1) →
        parseFactor H (n + 1) none s =
          parseSuffixes H n (.RegisterName s.currentValue.toString .root
            (getRegisterIndex s.hiseSpecialData s.currentValue.toString none)) s1) ∧
    (firstTable s.hiseSpecialData s.currentValue.toString = some .globalPropertyBag →
      ∀ s1, skip H s = .ok ((), s1) →
        parseFactor H (n + 1) none s =
          parseSuffixes H n (.GlobalReference s.currentValue.toString) s1) ∧
    (firstTable s.hiseSpecialData s.currentValue.toString = none →
      s.currentlyParsedCallback = Identifier.null →
      ∀ s1, skip H s = .ok ((), s1) →
        parseFactor H (n + 1) none s =
          parseSuffixes H n (.UnqualifiedName s.currentValue.toString) s1) ∧
    (∀ e s', parseFactor H (n + 1) none s = .ok (e, s') →
      (∀ t, firstTable s.hiseSpecialData s.currentValue.toString = some t →
        e.suffixBase.fromTable = some t) ∧
      (firstTable s.hiseSpecialData s.currentValue.toString = none →
        s.currentlyParsedCallback = Identifier.null →
        e.suffixBase = .UnqualifiedName s.currentValue.toString)) := by
  obtain ⟨f1, f2, f3, f4, f5, f6, f7⟩ :=
    firstTable_facts s.hiseSpecialData s.currentValue.toString
  refine ⟨?_, ?_, ?_, ?_, ?_, ?_, ?_, ?_⟩
  · intro ht
    obtain ⟨o, ho⟩ := f1 ht
    exact ⟨o, ho, parseFactor_root_inline h ho⟩
  · intro ht
    obtain ⟨a0, a1⟩ := f2 ht
    exact parseFactor_root_api h a0 a1
  · intro ht s1 hs
    obtain ⟨a0, a1, a2⟩ := f3 ht
    exact parseFactor_root_const h a0 a1 a2 hs
  · intro ht
    obtain ⟨a0, a1, a2, a3⟩ := f4 ht
    exact parseFactor_root_externalC h a0 a1 a2 a3
  · intro ht s1 hs
    obtain ⟨a0, a1, a2, a3, a4⟩ := f5 ht
    exact parseFactor_root_register h a0 a1 a2 a3 a4 hs
  · intro ht s1 hs
    obtain ⟨a0, a1, a2, a3, a4, a5⟩ := f6 ht
    exact parseFactor_root_global h a0 a1 a2 a3 a4 a5 hs
  · intro ht hcb s1 hs
    obtain ⟨a0, a1, a2, a3, a4, a5⟩ := f7 ht
    exact parseFactor_root_unqualified h a0 a1 a2 a3 a4 a5 hcb hs
  · intro e s' he
    constructor
    · intro t ht
      cases t with
      | inlineFunctionCatalog =>
        obtain ⟨o, ho⟩ := f1 ht
        rw [parseFactor_root_inline h ho] at he
        obtain ⟨call, s2, hc, hsuf⟩ := StM.bind_eq_ok.mp he
        rw [parseSuffixes_suffixBase _ hsuf]
        have := parseInlineFunctionCall_eq_ok hc
        rw [suffixBase_of_fromTable this]; exact this
      | apiClassTable =>
        obtain ⟨a0, a1⟩ := f2 ht
        rw [parseFactor_root_api h a0 a1] at he
        obtain ⟨call, s2, hc, hsuf⟩ := StM.bind_eq_ok.mp he
        rw [parseSuffixes_suffixBase _ hsuf]
        have := parseApiExpression_eq_ok hc
        rw [suffixBase_of_fromTable this]; exact this
      | constPool =>
        obtain ⟨a0, a1, a2⟩ := f3 ht
        rw [parseFactor_root_const_bind h a0 a1 a2] at he
        obtain ⟨call, s2, hc, hsuf⟩ := StM.bind_eq_ok.mp he
        rw [parseSuffixes_suffixBase _ hsuf]
        have := parseConstExpression_eq_ok hc
        rw [suffixBase_of_fromTable this]; exact this
      | externalCTable =>
        obtain ⟨a0, a1, a2, a3⟩ := f4 ht
        rw [parseFactor_root_externalC h a0 a1 a2 a3] at he
        obtain ⟨call, s2, hc, hsuf⟩ := StM.bind_eq_ok.mp he
        rw [parseSuffixes_suffixBase _ hsuf]
        have := parseExternalCFunctionCall_eq_ok hc
        rw [suffixBase_of_fromTable this]; exact this
      | registerFile =>
        obtain ⟨a0, a1, a2, a3, a4⟩ := f5 ht
        rw [parseFactor_root_register_bind h a0 a1 a2 a3 a4] at he
        obtain ⟨i, s2, _, hsuf⟩ := StM.bind_eq_ok.mp he
        rw [parseSuffixes_suffixBase _ hsuf]
        simp [Expression.fromTable, Expression.suffixBase]
      | globalPropertyBag =>
        obtain ⟨a0, a1, a2, a3, a4, a5⟩ := f6 ht
        rw [parseFactor_root_global_bind h a0 a1 a2 a3 a4 a5] at he
        obtain ⟨i, s2, _, hsuf⟩ := StM.bind_eq_ok.mp he
        rw [parseSuffixes_suffixBase _ hsuf]
        simp [Expression.fromTable, Expression.suffixBase]
    · intro ht hcb
      obtain ⟨a0, a1, a2, a3, a4, a5⟩ := f7 ht
      rw [parseFactor_root_unqualified_bind h a0 a1 a2 a3 a4 a5 hcb] at he
      obtain ⟨i, s2, hi, hsuf⟩ := StM.bind_eq_ok.mp he
      rw [parseSuffixes_suffixBase _ hsuf, (parseIdentifier_eq_ok hi h.identifier).1]
      simp [Expression.suffixBase]

theorem constAndRegister_atRoot : AtRootIdentifier (mkState constAndRegisterTables "k" "k" "" .identifier (.string "k")) :=
  ⟨rfl, rfl, by decide, rfl, rfl⟩
theorem constAndRegister_firstTable : firstTable constAndRegisterTables "k" = some .constPool := by decide
theorem constAndRegister_skip : skip specHost (mkState constAndRegisterTables "k" "k" "" .identifier (.string "k")) = .ok ((), mkState constAndRegisterTables "k" "" "" .eof (.string "k")) := rfl

/-- Witness for C1: a name that is both a constant and a register yields the
`ConstReference`. -/
theorem C1_factor_resolution_order_witness :
    parseFactor specHost 2 none
        (mkState constAndRegisterTables "k" "k" "" .identifier (.string "k"))
      = .ok (.ConstReference .root 0,
          mkState constAndRegisterTables "k" "" "" .eof (.string "k")) := by
  have h := (C1_factor_resolution_order specHost 1
    (mkState constAndRegisterTables "k" "k" "" .identifier (.string "k")) constAndRegister_atRoot).2.2.1 constAndRegister_firstTable
    (mkState constAndRegisterTables "k" "" "" .eof (.string "k")) constAndRegister_skip
  rw [h]
  exact parseSuffixes_none (by decide) (by decide) (by decide) (by decide) (by decide)

/-! ## C2 -/

/-- C2, divergence: inside the body of an inline function `parseFactor` looks
a name up in the object registered last (`inlineFunctions.getLast ()`), not in
the function whose body is parsed. At an identifier of the root scope read
inside an inline function, with `g` the object registered last: a parameter of
`g` is read as a `ParameterReference` to `g`; and a name that is neither a
parameter nor a local of `g`, and that no table holds, is read as an
`UnqualifiedName` and never as a `ParameterReference`, also when it is a
parameter of the function whose body is parsed. -/
theorem C2_parameter_lookup_in_last_registered (H : Host) (s t : ExpressionTreeBuilder)
    (g : InlineFunctionObject) (h : s.currentType = .identifier)
    (hroot : s.currentNamespace = .root)
    (hit : s.currentValue.toString ≠ s.currentIterator)
    (hflag : s.currentlyParsingInlineFunction = true)
    (hlast : (s.hiseSpecialData.ns .root).inlineFunctions.getLast? = some g)
    (hs : skip H s = .ok ((), t)) (hsuf : t.currentType ∉ suffixTokens) :
    (0 ≤ Hise.indexOf g.parameterNames s.currentValue.toString →
      Parses (parseUnary H) s
        (.ParameterReference ⟨.root, (s.hiseSpecialData.ns .root).inlineFunctions.length - 1⟩
          (Hise.indexOf g.parameterNames s.currentValue.toString).toNat) t) ∧
    (Hise.indexOf g.parameterNames s.currentValue.toString = -1 →
      NamedValueSet.indexOf g.localProperties s.currentValue.toString = -1 →
      s.hiseSpecialData.getNamespace s.currentValue.toString = none →
      getInlineFunction s.hiseSpecialData s.currentValue.toString none = none →
      Hise.indexOf s.hiseSpecialData.apiIds s.currentValue.toString = -1 →
      getConstIndex s.hiseSpecialData s.currentValue.toString none = -1 →
      s.hiseSpecialData.getExternalCIndex s.currentValue.toString = -1 →
      getRegisterIndex s.hiseSpecialData s.currentValue.toString none = -1 →
      NamedValueSet.indexOf s.hiseSpecialData.globals s.currentValue.toString = -1 →
      s.currentlyParsedCallback = Identifier.null →
      Parses (parseUnary H) s (.UnqualifiedName s.currentValue.toString) t ∧
      ∀ r j u, ¬ Parses (parseUnary H) s (.ParameterReference r j) u) := by
  refine ⟨fun hp => ⟨3, ?_⟩, fun hp hl hns ho h1 h2 h3 h4 h5 hcb => ?_⟩
  · rw [parseUnary_identifier h, parseFactor_inline_parameter h hroot hit hflag hlast hp hs,
      parseSuffixes_stop hsuf]
  · have key : Parses (parseUnary H) s (.UnqualifiedName s.currentValue.toString) t :=
      ⟨3, by rw [parseUnary_identifier h, parseFactor_inline_unqualified h hroot hit hflag hlast
        hp hl hns ho h1 h2 h3 h4 h5 hcb hs, parseSuffixes_stop hsuf]⟩
    refine ⟨key, fun r j u hu => ?_⟩
    have e := (Parses.unique (fun k => (monoAt H k).parseUnary) key hu).1
    cases e

/-- Witness for C2: the pre-pass over `twoInlineFunctions` registers the
signatures of `f` and `g`, and the main parse of the declaration of `f`,
started with these tables, looks the name `a` of the body of `f` up in `g`: the
body stored for `f` is `return a` with `a` an `UnqualifiedName`. -/
theorem C2_parameter_lookup_in_last_registered_witness :
    (∀ n, preprocessCode specHost (n + 14) twoInlineFunctions.toList ""
      HiseSpecialData.empty = .ok (twoInlineTables none none)) ∧
    Parses (parseStatement specHost)
      (mkParser (twoInlineTables none none) false twoInlineFunctions 0 6 .inline_ .void_)
      .empty
      (mkParser
        (twoInlineTables (some (.BlockStatement [.ReturnStatement (.UnqualifiedName "a")] []))
          none)
        false twoInlineFunctions 35 41 .inline_ (.string "a")) := by
  refine ⟨twoInline_prepass, ?_⟩
  have href : Parses (parseUnary specHost)
      (mkParser (twoInlineTables none none) true twoInlineFunctions 30 31 .identifier
        (.string "a"))
      (.UnqualifiedName "a")
      (mkParser (twoInlineTables none none) true twoInlineFunctions 31 32 .semicolon
        (.string "a")) :=
    ((C2_parameter_lookup_in_last_registered specHost
      (mkParser (twoInlineTables none none) true twoInlineFunctions 30 31 .identifier
        (.string "a"))
      (mkParser (twoInlineTables none none) true twoInlineFunctions 31 32 .semicolon
        (.string "a"))
      { name := "g", parameterNames := ["b"], location := ⟨"", 42⟩ }
      rfl rfl (by decide) rfl rfl rfl (by decide)).2
      rfl rfl rfl rfl rfl rfl rfl rfl rfl rfl).1
  have hret : Parses (parseStatement specHost)
      (mkParser (twoInlineTables none none) true twoInlineFunctions 23 29 .return_ (.string "a"))
      (.ReturnStatement (.UnqualifiedName "a"))
      (mkParser (twoInlineTables none none) true twoInlineFunctions 33 34 .closeBrace
        (.string "a")) :=
    parses_parseStatement_return rfl rfl
      (parses_parseReturn (by decide) (parses_parseExpression_of_unary href (by decide)) rfl rfl)
  have hblock : Parses (parseBlock specHost)
      (mkParser (twoInlineTables none none) true twoInlineFunctions 21 22 .openBrace
        (.string "a"))
      (.BlockStatement [.ReturnStatement (.UnqualifiedName "a")] [])
      (mkParser (twoInlineTables none none) true twoInlineFunctions 35 41 .inline_
        (.string "a")) :=
    parses_parseBlock
      (t := mkParser (twoInlineTables none none) true twoInlineFunctions 23 29 .return_
        (.string "a"))
      rfl rfl
      (parses_parseStatementList
        (parses_parseStatementListLoop_step (by decide) (by decide) hret
          (fun x y e => by cases e)
          (parses_parseStatementListLoop_stop (Or.inl rfl))))
      rfl rfl
  exact parses_parseStatement_inline
    (t := mkParser (twoInlineTables none none) false twoInlineFunctions 7 15 .function .void_)
    rfl rfl
    (parses_parseInlineFunction
      (a := mkParser (twoInlineTables none none) false twoInlineFunctions 16 17 .identifier
        (.string "f"))
      (b := mkParser (twoInlineTables none none) false twoInlineFunctions 17 18 .openParen
        (.string "f"))
      (c := mkParser (twoInlineTables none none) false twoInlineFunctions 18 19 .identifier
        (.string "a"))
      (d := mkParser (twoInlineTables none none) false twoInlineFunctions 19 20 .closeParen
        (.string "a"))
      (e := mkParser (twoInlineTables none none) false twoInlineFunctions 21 22 .openBrace
        (.string "a"))
      (i := 0)
      rfl rfl rfl rfl rfl rfl rfl
      (parses_parseInlineFunctionSkipLoop_step (by decide) rfl
        (parses_parseInlineFunctionSkipLoop_stop rfl))
      rfl rfl rfl hblock rfl)

/-! ## C3 -/

/-- Counterexample to C3 (at n = -1): on the spelling `-1` the lexer of
`specHost` yields the operator token `minus` and stops before the `1`; and
with every table of operators the token it yields carries no integer value. -/
theorem C3_negative_literal_counterexample :
    TokenIterator.new specHost "-1".toList "" =
      .ok { location := ⟨"-1".toList, "", "-1".toList⟩, currentType := .minus,
            currentValue := .void_, lastComment := "", p := "1".toList } ∧
    ∀ (H : Host) (it : TokenIterator), TokenIterator.new H "-1".toList "" = .ok it →
      it.currentValue = .void_ := by
  refine ⟨rfl, fun H it h => ?_⟩
  unfold TokenIterator.new TokenIterator.skip at h
  have h1 := skipWhitespaceAndComments_of_start
    ⟨⟨"-1".toList, "", "-1".toList⟩, .eof, .void_, "", "-1".toList⟩ (show "-1".toList = '-' :: ['1'] from rfl)
    (by decide) (by decide)
  simp only [StM.bind_apply, h1, StM.modify_apply] at h
  unfold matchNextToken at h
  simp only [peek, String.toList, List.headD_cons, show isIdentifierStart '-' = false by decide,
    show isDigit '-' = false by decide, Bool.false_eq_true, if_false, StM.bind_apply,
    parseStringLiteral] at h
  rw [if_pos (by decide)] at h
  simp only [Bool.false_eq_true, if_false, StM.bind_apply, show ¬ ('-' = '.') by decide,
    StM.pure_apply, matchOperatorOrEof] at h
  cases hm : matchOperator H.operators ['-', '1'] with
  | none =>
    rw [hm] at h
    simp at h
  | some r =>
    rw [hm] at h
    simp only [Res.ok.injEq] at h
    rw [← h]

/-- C3, amended: number-literal round trip for the integers of `[0, 2^63)`. For
every such `n`, the lexer started on a decimal spelling of `n` (digits, the
first not 0), on a hex spelling (`0x` or `0X` and at least one hex digit, in
either case of the letters) or on an octal spelling (`0` and octal digits,
which includes the spelling `0`) yields a literal token with the 64-bit integer
value `n` and has consumed the whole spelling. -/
theorem C3_number_literal_round_trip (H : Host) (n : Nat) (hn : n < 2 ^ 63) :
    (∀ d ds, 0 < d → (∀ x ∈ d :: ds, x < 10) → digitsValue 10 0 (d :: ds) = n →
      TokenIterator.new H ((d :: ds).map (digitChar false)) "" =
        .ok (literalToken ((d :: ds).map (digitChar false)) n)) ∧
    (∀ (x : Char) (d : Nat × Bool) (ds : List (Nat × Bool)), (x = 'x' ∨ x = 'X') →
      (∀ y ∈ d :: ds, y.1 < 16) → digitsValue 16 0 ((d :: ds).map (·.1)) = n →
      TokenIterator.new H ('0' :: x :: (d :: ds).map (fun d => digitChar d.2 d.1)) "" =
        .ok (literalToken ('0' :: x :: (d :: ds).map (fun d => digitChar d.2 d.1)) n)) ∧
    (∀ ds, (∀ x ∈ ds, x < 8) → digitsValue 8 0 ds = n →
      TokenIterator.new H ('0' :: ds.map (digitChar false)) "" =
        .ok (literalToken ('0' :: ds.map (digitChar false)) n)) := by
  refine ⟨fun d ds h0 hd hv => ?_, fun x d ds hx hd hv => ?_, fun ds hd hv => ?_⟩
  · have f := digitChar_facts d (hd d (List.mem_cons_self _ _))
    subst hv
    exact new_of_matchNextToken f.1 f.2.1 (fun it hp => matchNextToken_decimal hp h0 hd hn)
  · subst hv
    exact new_of_matchNextToken (by decide) (by decide)
      (fun it hp => matchNextToken_hex hp hx hd hn)
  · subst hv
    exact new_of_matchNextToken (by decide) (by decide)
      (fun it hp => matchNextToken_octal hp hd hn)

/-- Witness for the amended C3: the hex spelling `0xFF` of 255. -/
theorem C3_number_literal_round_trip_witness :
    TokenIterator.new specHost "0xFF".toList "" = .ok (literalToken "0xFF".toList 255) :=
  (C3_number_literal_round_trip specHost 255 (by decide)).2.1 'x' (15, true) [(15, true)]
    (Or.inl rfl) (by decide) (by decide)

/-! ## C4 -/

theorem parses_parseShiftOperatorLoop_op {H : Host} {s s' s2 s3 : ExpressionTreeBuilder}
    {a b r : Expression} {t : TokenType} (ht : t ∈ shiftTokens) (h : s.currentType = t)
    (hs : skip H s = .ok ((), s')) (hb : Parses (parseExpression H) s' b s2)
    (hl : Parses (fun n => parseShiftOperatorLoop H n (shiftNode t a b)) s2 r s3) :
    Parses (fun n => parseShiftOperatorLoop H n a) s r s3 := by
  simp only [shiftTokens, List.mem_cons, List.mem_singleton, List.not_mem_nil, or_false] at ht
  rcases ht with rfl | rfl | rfl
  · exact parses_parseShiftOperatorLoop_leftShift h hs hb hl
  · exact parses_parseShiftOperatorLoop_rightShift h hs hb hl
  · exact parses_parseShiftOperatorLoop_rightShiftUnsigned h hs hb hl

/-- A shift whose right operand is the whole expression `e` that follows. -/
theorem parses_parseComparator_shift {H : Host} {s0 s1 s1' s3 : ExpressionTreeBuilder}
    {a e : Expression} {op : TokenType} (hop : op ∈ shiftTokens)
    (ha : Parses (parseUnary H) s0 a s1) (t1 : s1.currentType = op)
    (hs1 : skip H s1 = .ok ((), s1')) (he : Parses (parseExpression H) s1' e s3)
    (hend : s3.currentType ∉ shiftTokens ++ comparisonTokens) :
    Parses (parseComparator H) s0 (shiftNode op a e) s3 := by
  have hma : s1.currentType ∉ multiplicativeTokens ++ additiveTokens := by
    rw [t1]
    simp only [shiftTokens, List.mem_cons, List.mem_singleton, List.not_mem_nil, or_false] at hop
    rcases hop with rfl | rfl | rfl <;> decide
  exact parses_parseComparator
    (parses_parseShiftOperator (parses_parseAdditionSubtraction_of_unary ha hma)
      (parses_parseShiftOperatorLoop_op hop t1 hs1 he
        (parses_parseShiftOperatorLoop_stop (fun e => hend (List.mem_append_left _ e)))))
    (parses_parseComparatorLoop_stop (fun e => hend (List.mem_append_right _ e)))

theorem shiftNode_ne_lessThan {op : TokenType} (hop : op ∈ shiftTokens) (a b c : Expression) :
    shiftNode op a (.LessThanOp b c) ≠ .LessThanOp (shiftNode op a b) c := by
  simp only [shiftTokens, List.mem_cons, List.mem_singleton, List.not_mem_nil, or_false] at hop
  rcases hop with rfl | rfl | rfl <;> simp [shiftNode]

theorem shiftNode_ne_equals {op : TokenType} (hop : op ∈ shiftTokens) (a b c : Expression) :
    shiftNode op a (.EqualsOp b c) ≠ .EqualsOp (shiftNode op a b) c := by
  simp only [shiftTokens, List.mem_cons, List.mem_singleton, List.not_mem_nil, or_false] at hop
  rcases hop with rfl | rfl | rfl <;> simp [shiftNode]

/-- C4, divergence: the right operand of a shift operator is read by
`parseExpression`, not by `parseAdditionSubtraction`. For operands `a`, `b`, `c`
read by `parseUnary`, a shift operator `op` between `a` and `b`, and then the
end of the expression, `a op b < c` parses as `op a (b < c)` and not as
`(op a b) < c`, `a op b == c` parses as `op a (b == c)` and not as
`(op a b) == c`, while `a op b + c` parses as `op a (b + c)`. -/
theorem C4_shift_operand_is_whole_expression (H : Host)
    (s0 s1 s1' s2 s2' s3 : ExpressionTreeBuilder) (a b c : Expression) (op : TokenType)
    (hop : op ∈ shiftTokens)
    (ha : Parses (parseUnary H) s0 a s1) (t1 : s1.currentType = op)
    (hs1 : skip H s1 = .ok ((), s1'))
    (hb : Parses (parseUnary H) s1' b s2) (hs2 : skip H s2 = .ok ((), s2'))
    (hc : Parses (parseUnary H) s2' c s3)
    (hend : s3.currentType ∉
      (((multiplicativeTokens ++ additiveTokens) ++ (shiftTokens ++ comparisonTokens)) ++
        logicTokens) ++ expressionTokens) :
    (s2.currentType = .lessThan →
      Parses (parseComparator H) s0 (shiftNode op a (.LessThanOp b c)) s3 ∧
      ¬ Parses (parseComparator H) s0 (.LessThanOp (shiftNode op a b) c) s3) ∧
    (s2.currentType = .equals →
      Parses (parseComparator H) s0 (shiftNode op a (.EqualsOp b c)) s3 ∧
      ¬ Parses (parseComparator H) s0 (.EqualsOp (shiftNode op a b) c) s3) ∧
    (s2.currentType = .plus →
      Parses (parseComparator H) s0 (shiftNode op a (.AdditionOp b c)) s3) := by
  have e1 : s3.currentType ∉ (multiplicativeTokens ++ additiveTokens) ++
      (shiftTokens ++ comparisonTokens) := fun e =>
    hend (List.mem_append_left _ (List.mem_append_left _ e))
  have e2 : s3.currentType ∉ multiplicativeTokens ++ additiveTokens := fun e =>
    e1 (List.mem_append_left _ e)
  have e3 : s3.currentType ∉ shiftTokens ++ comparisonTokens := fun e =>
    e1 (List.mem_append_right _ e)
  have e4 : s3.currentType ∉ shiftTokens := fun e => e3 (List.mem_append_left _ e)
  have e5 : s3.currentType ∉ comparisonTokens := fun e => e3 (List.mem_append_right _ e)
  have e6 : s3.currentType ∉ logicTokens := fun e =>
    hend (List.mem_append_left _ (List.mem_append_right _ e))
  have e7 : s3.currentType ∉ expressionTokens := fun e => hend (List.mem_append_right _ e)
  have e8 : s3.currentType ∉ multiplicativeTokens := fun e => e2 (List.mem_append_left _ e)
  have e9 : s3.currentType ∉ additiveTokens := fun e => e2 (List.mem_append_right _ e)
  have hc' : Parses (parseShiftOperator H) s2' c s3 :=
    parses_parseShiftOperator_of_additive (parses_parseAdditionSubtraction_of_unary hc e2) e4
  have mono := fun k => (monoAt H k).parseComparator
  refine ⟨fun t2 => ?_, fun t2 => ?_, fun t2 => ?_⟩
  · have hb' : Parses (parseShiftOperator H) s1' b s2 :=
      parses_parseShiftOperator_of_additive
        (parses_parseAdditionSubtraction_of_unary hb (by rw [t2]; decide)) (by rw [t2]; decide)
    have he : Parses (parseExpression H) s1' (.LessThanOp b c) s3 :=
      parses_parseExpression_stop
        (parses_parseLogicOperator_of_comparator
          (parses_parseComparator hb'
            (parses_parseComparatorLoop_lessThan t2 hs2 hc' (parses_parseComparatorLoop_stop e5)))
          e6) e7
    have key := parses_parseComparator_shift (a := a) hop ha t1 hs1 he e3
    exact ⟨key, fun h => shiftNode_ne_lessThan hop a b c (Parses.unique mono key h).1⟩
  · have hb' : Parses (parseShiftOperator H) s1' b s2 :=
      parses_parseShiftOperator_of_additive
        (parses_parseAdditionSubtraction_of_unary hb (by rw [t2]; decide)) (by rw [t2]; decide)
    have he : Parses (parseExpression H) s1' (.EqualsOp b c) s3 :=
      parses_parseExpression_stop
        (parses_parseLogicOperator_of_comparator
          (parses_parseComparator hb'
            (parses_parseComparatorLoop_equals t2 hs2 hc' (parses_parseComparatorLoop_stop e5)))
          e6) e7
    have key := parses_parseComparator_shift (a := a) hop ha t1 hs1 he e3
    exact ⟨key, fun h => shiftNode_ne_equals hop a b c (Parses.unique mono key h).1⟩
  · have hbc : Parses (parseAdditionSubtraction H) s1' (.AdditionOp b c) s3 :=
      parses_parseAdditionSubtraction
        (parses_parseMultiplyDivide_of_unary hb (by rw [t2]; decide))
        (parses_parseAdditionSubtractionLoop_plus t2 hs2
          (parses_parseMultiplyDivide_of_unary hc e8) (parses_parseAdditionSubtractionLoop_stop e9))
    have he : Parses (parseExpression H) s1' (.AdditionOp b c) s3 :=
      parses_parseExpression_stop
        (parses_parseLogicOperator_of_comparator (parses_parseComparator_of_additive hbc e3) e6) e7
    exact parses_parseComparator_shift hop ha t1 hs1 he e3

/-- Witness for C4: `1 << 2 < 3` parses as `1 << (2 < 3)`. -/
theorem C4_shift_operand_is_whole_expression_witness :
    Parses (parseComparator specHost)
      (mkState HiseSpecialData.empty "1 << 2 < 3" "1 << 2 < 3" " << 2 < 3" .literal (.int64 1))
      (.LeftShiftOp (.LiteralValue (.int64 1))
        (.LessThanOp (.LiteralValue (.int64 2)) (.LiteralValue (.int64 3))))
      (mkState HiseSpecialData.empty "1 << 2 < 3" "" "" .eof (.int64 3)) ∧
    ¬ Parses (parseComparator specHost)
      (mkState HiseSpecialData.empty "1 << 2 < 3" "1 << 2 < 3" " << 2 < 3" .literal (.int64 1))
      (.LessThanOp (.LeftShiftOp (.LiteralValue (.int64 1)) (.LiteralValue (.int64 2)))
        (.LiteralValue (.int64 3)))
      (mkState HiseSpecialData.empty "1 << 2 < 3" "" "" .eof (.int64 3)) :=
  (C4_shift_operand_is_whole_expression specHost
    (mkState HiseSpecialData.empty "1 << 2 < 3" "1 << 2 < 3" " << 2 < 3" .literal (.int64 1))
    (mkState HiseSpecialData.empty "1 << 2 < 3" "<< 2 < 3" " 2 < 3" .leftShift (.int64 1))
    (mkState HiseSpecialData.empty "1 << 2 < 3" "2 < 3" " < 3" .literal (.int64 2))
    (mkState HiseSpecialData.empty "1 << 2 < 3" "< 3" " 3" .lessThan (.int64 2))
    (mkState HiseSpecialData.empty "1 << 2 < 3" "3" "" .literal (.int64 3))
    (mkState HiseSpecialData.empty "1 << 2 < 3" "" "" .eof (.int64 3))
    _ _ _ .leftShift (by decide)
    (parseUnary_literal rfl rfl (by decide) (by decide) (by decide) (by decide) (by decide))
    rfl rfl
    (parseUnary_literal rfl rfl (by decide) (by decide) (by decide) (by decide) (by decide))
    rfl
    (parseUnary_literal rfl rfl (by decide) (by decide) (by decide) (by decide) (by decide))
    (by decide)).1 rfl

/-! ## C5 -/

/-- C5: multiplicative operators bind tighter than additive ones, and both
levels are left-associative. For operands `a`, `b`, `c` read by `parseUnary`
(with `op1` between `a` and `b`, `op2` between `b` and `c`, and a token after
`c` that is no additive or multiplicative operator), `parseAdditionSubtraction`
returns `a + (b * c)` for `+`,`*`, `(a * b) + c` for `*`,`+`, and `(a - b) - c`
for `-`,`-`. -/
theorem C5_multiplicative_binds_tighter (H : Host)
    (s0 s1 s1' s2 s2' s3 : ExpressionTreeBuilder) (a b c : Expression)
    (ha : Parses (parseUnary H) s0 a s1) (hs1 : skip H s1 = .ok ((), s1'))
    (hb : Parses (parseUnary H) s1' b s2) (hs2 : skip H s2 = .ok ((), s2'))
    (hc : Parses (parseUnary H) s2' c s3)
    (hend : s3.currentType ∉
      [TokenType.times, TokenType.divide, TokenType.modulo, TokenType.plus, TokenType.minus]) :
    (s1.currentType = .plus → s2.currentType = .times →
      Parses (parseAdditionSubtraction H) s0 (.AdditionOp a (.MultiplyOp b c)) s3) ∧
    (s1.currentType = .times → s2.currentType = .plus →
      Parses (parseAdditionSubtraction H) s0 (.AdditionOp (.MultiplyOp a b) c) s3) ∧
    (s1.currentType = .minus → s2.currentType = .minus →
      Parses (parseAdditionSubtraction H) s0 (.SubtractionOp (.SubtractionOp a b) c) s3) := by
  have em : s3.currentType ∉ multiplicativeTokens := fun h =>
    hend (by simp only [multiplicativeTokens, List.mem_cons] at h ⊢; tauto)
  have ea : s3.currentType ∉ additiveTokens := fun h =>
    hend (by simp only [additiveTokens, List.mem_cons] at h ⊢; tauto)
  refine ⟨fun t1 t2 => ?_, fun t1 t2 => ?_, fun t1 t2 => ?_⟩
  · -- a + b * c
    exact parses_parseAdditionSubtraction
      (parses_parseMultiplyDivide ha (parses_parseMultiplyDivideLoop_stop (by rw [t1]; decide)))
      (parses_parseAdditionSubtractionLoop_plus t1 hs1
        (parses_parseMultiplyDivide hb
          (parses_parseMultiplyDivideLoop_times t2 hs2 hc (parses_parseMultiplyDivideLoop_stop em)))
        (parses_parseAdditionSubtractionLoop_stop ea))
  · -- a * b + c
    exact parses_parseAdditionSubtraction
      (parses_parseMultiplyDivide ha
        (parses_parseMultiplyDivideLoop_times t1 hs1 hb
          (parses_parseMultiplyDivideLoop_stop (by rw [t2]; decide))))
      (parses_parseAdditionSubtractionLoop_plus t2 hs2
        (parses_parseMultiplyDivide hc (parses_parseMultiplyDivideLoop_stop em))
        (parses_parseAdditionSubtractionLoop_stop ea))
  · -- a - b - c
    exact parses_parseAdditionSubtraction
      (parses_parseMultiplyDivide ha (parses_parseMultiplyDivideLoop_stop (by rw [t1]; decide)))
      (parses_parseAdditionSubtractionLoop_minus t1 hs1
        (parses_parseMultiplyDivide hb (parses_parseMultiplyDivideLoop_stop (by rw [t2]; decide)))
        (parses_parseAdditionSubtractionLoop_minus t2 hs2
          (parses_parseMultiplyDivide hc (parses_parseMultiplyDivideLoop_stop em))
          (parses_parseAdditionSubtractionLoop_stop ea)))

/-- Witness for C5: `1 + 2 * 3` parses as `1 + (2 * 3)`. -/
theorem C5_multiplicative_binds_tighter_witness :
    Parses (parseAdditionSubtraction specHost)
      (mkState HiseSpecialData.empty "1 + 2 * 3" "1 + 2 * 3" " + 2 * 3" .literal (.int64 1))
      (.AdditionOp (.LiteralValue (.int64 1))
        (.MultiplyOp (.LiteralValue (.int64 2)) (.LiteralValue (.int64 3))))
      (mkState HiseSpecialData.empty "1 + 2 * 3" "" "" .eof (.int64 3)) :=
  (C5_multiplicative_binds_tighter specHost
    (mkState HiseSpecialData.empty "1 + 2 * 3" "1 + 2 * 3" " + 2 * 3" .literal (.int64 1))
    (mkState HiseSpecialData.empty "1 + 2 * 3" "+ 2 * 3" " 2 * 3" .plus (.int64 1))
    (mkState HiseSpecialData.empty "1 + 2 * 3" "2 * 3" " * 3" .literal (.int64 2))
    (mkState HiseSpecialData.empty "1 + 2 * 3" "* 3" " 3" .times (.int64 2))
    (mkState HiseSpecialData.empty "1 + 2 * 3" "3" "" .literal (.int64 3))
    (mkState HiseSpecialData.empty "1 + 2 * 3" "" "" .eof (.int64 3))
    _ _ _
    (parseUnary_literal rfl rfl (by decide) (by decide) (by decide) (by decide) (by decide))
    rfl
    (parseUnary_literal rfl rfl (by decide) (by decide) (by decide) (by decide) (by decide))
    rfl
    (parseUnary_literal rfl rfl (by decide) (by decide) (by decide) (by decide) (by decide))
    (by decide)).1 rfl rfl

/-! ## C6 -/

theorem parses_parseLogicOperatorLoop_op {H : Host} {s s' s2 s3 : ExpressionTreeBuilder}
    {a b r : Expression} {t : TokenType} (ht : t ∈ logicTokens) (h : s.currentType = t)
    (hs : skip H s = .ok ((), s')) (hb : Parses (parseComparator H) s' b s2)
    (hl : Parses (fun n => parseLogicOperatorLoop H n (logicNode t a b)) s2 r s3) :
    Parses (fun n => parseLogicOperatorLoop H n a) s r s3 := by
  simp only [logicTokens, List.mem_cons, List.mem_singleton, List.not_mem_nil, or_false] at ht
  rcases ht with rfl | rfl | rfl | rfl | rfl
  · exact parses_parseLogicOperatorLoop_logicalAnd h hs hb hl
  · exact parses_parseLogicOperatorLoop_logicalOr h hs hb hl
  · exact parses_parseLogicOperatorLoop_bitwiseAnd h hs hb hl
  · exact parses_parseLogicOperatorLoop_bitwiseOr h hs hb hl
  · exact parses_parseLogicOperatorLoop_bitwiseXor h hs hb hl

/-- C6: the five operators `&&`, `||`, `&`, `|`, `^` form one left-associative
layer above comparison. For operands `a`, `b`, `c` read by `parseComparator`,
with any operator `op1` of the five between `a` and `b`, any operator `op2` of
the five between `b` and `c`, and then a token that is none of the five,
`parseLogicOperator` returns `op2 (op1 a b) c`; in particular `a && b || c`
gives `(a && b) || c` and `a || b && c` gives `(a || b) && c`. -/
theorem C6_logic_layer_left_associative (H : Host)
    (s0 s1 s1' s2 s2' s3 : ExpressionTreeBuilder) (a b c : Expression) (op1 op2 : TokenType)
    (h1 : op1 ∈ logicTokens) (h2 : op2 ∈ logicTokens)
    (ha : Parses (parseComparator H) s0 a s1) (t1 : s1.currentType = op1)
    (hs1 : skip H s1 = .ok ((), s1'))
    (hb : Parses (parseComparator H) s1' b s2) (t2 : s2.currentType = op2)
    (hs2 : skip H s2 = .ok ((), s2'))
    (hc : Parses (parseComparator H) s2' c s3) (hend : s3.currentType ∉ logicTokens) :
    Parses (parseLogicOperator H) s0 (logicNode op2 (logicNode op1 a b) c) s3 ∧
    (op1 = .logicalAnd → op2 = .logicalOr →
      Parses (parseLogicOperator H) s0 (.LogicalOrOp (.LogicalAndOp a b) c) s3) ∧
    (op1 = .logicalOr → op2 = .logicalAnd →
      Parses (parseLogicOperator H) s0 (.LogicalAndOp (.LogicalOrOp a b) c) s3) := by
  have key : Parses (parseLogicOperator H) s0 (logicNode op2 (logicNode op1 a b) c) s3 :=
    parses_parseLogicOperator ha
      (parses_parseLogicOperatorLoop_op h1 t1 hs1 hb
        (parses_parseLogicOperatorLoop_op h2 t2 hs2 hc (parses_parseLogicOperatorLoop_stop hend)))
  refine ⟨key, ?_, ?_⟩
  · rintro rfl rfl
    exact key
  · rintro rfl rfl
    exact key

/-- Witness for C6: `a && b || c` parses as `(a && b) || c`. -/
theorem C6_logic_layer_left_associative_witness :
    Parses (parseLogicOperator specHost)
      (mkState HiseSpecialData.empty "a && b || c" "a && b || c" " && b || c" .identifier
        (.string "a"))
      (.LogicalOrOp (.LogicalAndOp (.UnqualifiedName "a") (.UnqualifiedName "b"))
        (.UnqualifiedName "c"))
      (mkState HiseSpecialData.empty "a && b || c" "" "" .eof (.string "c")) :=
  (C6_logic_layer_left_associative specHost
    (mkState HiseSpecialData.empty "a && b || c" "a && b || c" " && b || c" .identifier
      (.string "a"))
    (mkState HiseSpecialData.empty "a && b || c" "&& b || c" " b || c" .logicalAnd (.string "a"))
    (mkState HiseSpecialData.empty "a && b || c" "b || c" " || c" .identifier (.string "b"))
    (mkState HiseSpecialData.empty "a && b || c" "|| c" " c" .logicalOr (.string "b"))
    (mkState HiseSpecialData.empty "a && b || c" "c" "" .identifier (.string "c"))
    (mkState HiseSpecialData.empty "a && b || c" "" "" .eof (.string "c"))
    (.UnqualifiedName "a") (.UnqualifiedName "b") (.UnqualifiedName "c") .logicalAnd .logicalOr
    (by decide) (by decide)
    (parses_parseComparator_of_unary
      (parses_parseUnary_unqualified rfl rfl rfl (by decide) rfl rfl rfl (by decide))
      (by decide))
    rfl rfl
    (parses_parseComparator_of_unary
      (parses_parseUnary_unqualified rfl rfl rfl (by decide) rfl rfl rfl (by decide))
      (by decide))
    rfl rfl
    (parses_parseComparator_of_unary
      (parses_parseUnary_unqualified rfl rfl rfl (by decide) rfl rfl rfl (by decide))
      (by decide))
    (by decide)).2.1 rfl rfl

/-! ## C7 -/

/-- C7: assignment is right-associative and has the lowest precedence. For
targets `a`, `b` read by `parseLogicOperator` and an expression `c` read by
`parseExpression`, `a = b = c` parses as `Assignment a (Assignment b c)`; and
when `e` is what `parseExpression` reads after the operator, `a += e`,
`a -= e`, `a <<= e`, `a >>= e` parse as `SelfAssignment a (op a e)` with `op`
the addition, subtraction, left shift and right shift. -/
theorem C7_assignment_right_associative (H : Host)
    (s0 s1 s1' s2 s2' s3 s4 : ExpressionTreeBuilder) (a b c e : Expression)
    (ha : Parses (parseLogicOperator H) s0 a s1) (hs1 : skip H s1 = .ok ((), s1'))
    (hb : Parses (parseLogicOperator H) s1' b s2) (hs2 : skip H s2 = .ok ((), s2'))
    (hc : Parses (parseExpression H) s2' c s3)
    (he : Parses (parseExpression H) s1' e s4) :
    (s1.currentType = .assign → s2.currentType = .assign →
      Parses (parseExpression H) s0 (.Assignment a (.Assignment b c)) s3) ∧
    (s1.currentType = .assign → Parses (parseExpression H) s0 (.Assignment a e) s4) ∧
    (s1.currentType = .plusEquals →
      Parses (parseExpression H) s0 (.SelfAssignment a (.AdditionOp a e)) s4) ∧
    (s1.currentType = .minusEquals →
      Parses (parseExpression H) s0 (.SelfAssignment a (.SubtractionOp a e)) s4) ∧
    (s1.currentType = .leftShiftEquals →
      Parses (parseExpression H) s0 (.SelfAssignment a (.LeftShiftOp a e)) s4) ∧
    (s1.currentType = .rightShiftEquals →
      Parses (parseExpression H) s0 (.SelfAssignment a (.RightShiftOp a e)) s4) :=
  ⟨fun t1 t2 => parses_parseExpression_assign ha t1 hs1
      (parses_parseExpression_assign hb t2 hs2 hc),
    fun t1 => parses_parseExpression_assign ha t1 hs1 he,
    fun t1 => parses_parseExpression_plusEquals ha t1 hs1 he,
    fun t1 => parses_parseExpression_minusEquals ha t1 hs1 he,
    fun t1 => parses_parseExpression_leftShiftEquals ha t1 hs1 he,
    fun t1 => parses_parseExpression_rightShiftEquals ha t1 hs1 he⟩

/-- Witness for C7: `a = b = c` parses as `a = (b = c)`. -/
theorem C7_assignment_right_associative_witness :
    Parses (parseExpression specHost)
      (mkState HiseSpecialData.empty "a = b = c" "a = b = c" " = b = c" .identifier (.string "a"))
      (.Assignment (.UnqualifiedName "a")
        (.Assignment (.UnqualifiedName "b") (.UnqualifiedName "c")))
      (mkState HiseSpecialData.empty "a = b = c" "" "" .eof (.string "c")) :=
  (C7_assignment_right_associative specHost
    (mkState HiseSpecialData.empty "a = b = c" "a = b = c" " = b = c" .identifier (.string "a"))
    (mkState HiseSpecialData.empty "a = b = c" "= b = c" " b = c" .assign (.string "a"))
    (mkState HiseSpecialData.empty "a = b = c" "b = c" " = c" .identifier (.string "b"))
    (mkState HiseSpecialData.empty "a = b = c" "= c" " c" .assign (.string "b"))
    (mkState HiseSpecialData.empty "a = b = c" "c" "" .identifier (.string "c"))
    (mkState HiseSpecialData.empty "a = b = c" "" "" .eof (.string "c"))
    (mkState HiseSpecialData.empty "a = b = c" "" "" .eof (.string "c"))
    (.UnqualifiedName "a") (.UnqualifiedName "b") (.UnqualifiedName "c")
    (.Assignment (.UnqualifiedName "b") (.UnqualifiedName "c"))
    (parses_parseLogicOperator_of_unary
      (parses_parseUnary_unqualified rfl rfl rfl (by decide) rfl rfl rfl (by decide))
      (by decide))
    rfl
    (parses_parseLogicOperator_of_unary
      (parses_parseUnary_unqualified rfl rfl rfl (by decide) rfl rfl rfl (by decide))
      (by decide))
    rfl
    (parses_parseExpression_of_unary
      (parses_parseUnary_unqualified rfl rfl rfl (by decide) rfl rfl rfl (by decide))
      (by decide))
    (parses_parseExpression_assign
      (parses_parseLogicOperator_of_unary
        (parses_parseUnary_unqualified rfl rfl rfl (by decide) rfl rfl rfl (by decide))
        (by decide))
      rfl rfl
      (parses_parseExpression_of_unary
        (parses_parseUnary_unqualified rfl rfl rfl (by decide) rfl rfl rfl (by decide))
        (by decide)))).1 rfl rfl

/-! ## C8 -/

/-- C8: unary minus binds tighter than every binary operator. For operands `a`
and `b` read by `parseUnary` (`a` after the leading `-`, `b` after the binary
operator, and then a token that is no additive or multiplicative operator),
`-a - b` parses as `(0 - a) - b` and `-a * b` as `(0 - a) * b`; at a `-` token
`parseUnary` returns `0 - a`, at a `!` token `(0 == a)`, and whatever it returns
at these tokens has this shape, with the integer literal 0 on the left. -/
theorem C8_unary_minus_binds_tighter (H : Host) (s0 s0' s1 s1' s2 : ExpressionTreeBuilder)
    (a b : Expression) (hs0 : skip H s0 = .ok ((), s0'))
    (ha : Parses (parseUnary H) s0' a s1) (hs1 : skip H s1 = .ok ((), s1'))
    (hb : Parses (parseUnary H) s1' b s2)
    (hend : s2.currentType ∉ multiplicativeTokens ++ additiveTokens) :
    (s0.currentType = .minus → s1.currentType = .minus →
      Parses (parseAdditionSubtraction H) s0
        (.SubtractionOp (.SubtractionOp (.LiteralValue (.int 0)) a) b) s2) ∧
    (s0.currentType = .minus → s1.currentType = .times →
      Parses (parseAdditionSubtraction H) s0
        (.MultiplyOp (.SubtractionOp (.LiteralValue (.int 0)) a) b) s2) ∧
    (s0.currentType = .minus →
      Parses (parseUnary H) s0 (.SubtractionOp (.LiteralValue (.int 0)) a) s1) ∧
    (s0.currentType = .logicalNot →
      Parses (parseUnary H) s0 (.EqualsOp (.LiteralValue (.int 0)) a) s1) ∧
    (s0.currentType = .minus → ∀ n r s, parseUnary H n s0 = .ok (r, s) →
      ∃ x, Parses (parseUnary H) s0' x s ∧ r = .SubtractionOp (.LiteralValue (.int 0)) x) ∧
    (s0.currentType = .logicalNot → ∀ n r s, parseUnary H n s0 = .ok (r, s) →
      ∃ x, Parses (parseUnary H) s0' x s ∧ r = .EqualsOp (.LiteralValue (.int 0)) x) := by
  have em : s2.currentType ∉ multiplicativeTokens := fun e => hend (List.mem_append_left _ e)
  have ea : s2.currentType ∉ additiveTokens := fun e => hend (List.mem_append_right _ e)
  refine ⟨fun t0 t1 => ?_, fun t0 t1 => ?_, fun t0 => parses_parseUnary_minus t0 hs0 ha,
    fun t0 => parses_parseUnary_logicalNot t0 hs0 ha,
    fun t0 n r s hr => parseUnary_minus_eq_ok t0 hs0 hr,
    fun t0 n r s hr => parseUnary_logicalNot_eq_ok t0 hs0 hr⟩
  · -- -a - b
    exact parses_parseAdditionSubtraction
      (parses_parseMultiplyDivide (parses_parseUnary_minus t0 hs0 ha)
        (parses_parseMultiplyDivideLoop_stop (by rw [t1]; decide)))
      (parses_parseAdditionSubtractionLoop_minus t1 hs1
        (parses_parseMultiplyDivide hb (parses_parseMultiplyDivideLoop_stop em))
        (parses_parseAdditionSubtractionLoop_stop ea))
  · -- -a * b
    exact parses_parseAdditionSubtraction
      (parses_parseMultiplyDivide (parses_parseUnary_minus t0 hs0 ha)
        (parses_parseMultiplyDivideLoop_times t1 hs1 hb (parses_parseMultiplyDivideLoop_stop em)))
      (parses_parseAdditionSubtractionLoop_stop ea)

/-- Witness for C8: `-1 - 2` parses as `(0 - 1) - 2`. -/
theorem C8_unary_minus_binds_tighter_witness :
    Parses (parseAdditionSubtraction specHost)
      (mkState HiseSpecialData.empty "-1 - 2" "-1 - 2" "1 - 2" .minus .void_)
      (.SubtractionOp (.SubtractionOp (.LiteralValue (.int 0)) (.LiteralValue (.int64 1)))
        (.LiteralValue (.int64 2)))
      (mkState HiseSpecialData.empty "-1 - 2" "" "" .eof (.int64 2)) :=
  (C8_unary_minus_binds_tighter specHost
    (mkState HiseSpecialData.empty "-1 - 2" "-1 - 2" "1 - 2" .minus .void_)
    (mkState HiseSpecialData.empty "-1 - 2" "1 - 2" " - 2" .literal (.int64 1))
    (mkState HiseSpecialData.empty "-1 - 2" "- 2" " 2" .minus (.int64 1))
    (mkState HiseSpecialData.empty "-1 - 2" "2" "" .literal (.int64 2))
    (mkState HiseSpecialData.empty "-1 - 2" "" "" .eof (.int64 2))
    _ _
    rfl
    (parseUnary_literal rfl rfl (by decide) (by decide) (by decide) (by decide) (by decide))
    rfl
    (parseUnary_literal rfl rfl (by decide) (by decide) (by decide) (by decide) (by decide))
    (by decide)).1 rfl rfl

/-! ## C9 -/

/-- C9: for-in detection. Let `s1` be the parser after the `(` of a loop
header, `isVar` the answer of `matchIf var` there, and `iter`, `s3` the first
expression and the parser after it. Whatever `parseForLoop` returns is a loop
that is a for-in loop exactly when no `var` follows the `(` and the first
expression is directly followed by `)`; a for-in loop holds `iter` as its
iterator source, and in the other loops a `;` follows the first expression.
Every header without `var` whose first expression is followed by `)` and a
statement is accepted as a for-in loop. When the first expression is `x in xs`,
`iter` is what was read for `xs` and the parser's current iterator becomes the
name at `x`. A header with `var` whose first expression is followed by `)` is
rejected, so `for (var x in xs)` is no for-in loop. -/
theorem C9_for_in_detection (H : Host) (s s1 s2 s3 : ExpressionTreeBuilder) (isVar : Bool)
    (iter : Expression) (hopen : match_ H .openParen s = .ok ((), s1))
    (hvar : matchIf H .var s1 = .ok (isVar, s2))
    (hiter : Parses (parseExpression H) s2 iter s3) :
    (∀ n st s', parseForLoop H n s = .ok (st, s') →
      ∃ isIterator init it cond body cur,
        st = .LoopStatement false isIterator init it cond body cur ∧
        (isIterator = true ↔ (s1.currentType ≠ .var ∧ s3.currentType = .closeParen)) ∧
        (isIterator = true → cur = some iter) ∧
        (isIterator = false → s3.currentType = .semicolon)) ∧
    (s1.currentType ≠ .var → s3.currentType = .closeParen → ∀ s3' body s4,
      skip H s3 = .ok ((), s3') → Parses (parseStatement H) s3' body s4 →
      Parses (parseForLoop H) s
        (.LoopStatement false true none none (.LiteralValue (.bool true)) (some body)
          (some iter)) s4) ∧
    (∀ lhs sa sa' xs sb, Parses (parseLogicOperator H) s2 lhs sa → sa.currentType = .in_ →
      skip H sa = .ok ((), sa') → Parses (parseExpression H) sa' xs sb →
      iter = xs ∧ s3 = { sb with currentIterator := expressionId s2 } ∧
      (Identifier.isValidIdentifier s2.currentValue.toString = true →
        s3.currentIterator = s2.currentValue.toString)) ∧
    (s1.currentType = .var → s3.currentType = .closeParen →
      ∀ n r, parseForLoop H n s ≠ .ok r) := by
  have hv := matchIf_eq_ok hvar
  have hop := match_eq_ok hopen
  refine ⟨?_, ?_, ?_, ?_⟩
  · intro n st s' h
    rcases parseForLoop_eq_ok hopen hvar hiter h with ⟨v, c, body, rfl⟩ | ⟨v, c, it, cond, body, rfl⟩
    · refine ⟨true, none, none, _, some body, some iter, rfl, ?_, fun _ => rfl, ?_⟩
      · simp only [true_iff]
        exact ⟨fun e => (by rw [hv.1.mpr e] at v; cases v), c⟩
      · intro e
        cases e
    · refine ⟨false, _, some it, cond, some body, none, rfl, ?_, ?_, fun _ => c⟩
      · simp only [Bool.false_eq_true, false_iff, not_and]
        intro nv
        rcases v with v | v
        · exact absurd (hv.1.mp v) nv
        · exact v
      · intro e
        cases e
  · intro nv c s3' body s4 hs3 hbody
    have hb : isVar = false := by
      cases isVar
      · rfl
      · exact absurd (hv.1.mp rfl) nv
    have e2 : s2 = s1 := hv.2.1 hb
    subst e2
    exact parses_parseForLoop_forIn hop.1 hop.2 nv hiter c hs3 hbody
  · intro lhs sa sa' xs sb hl hin hs hx
    obtain ⟨rfl, rfl⟩ := Parses.unique (fun k => (monoAt H k).parseExpression) hiter
      (parses_parseExpression_in hl hin hs hx)
    refine ⟨rfl, rfl, fun hval => ?_⟩
    simp only [expressionId, hval, if_true]
  · intro v c n r h
    obtain ⟨st, s'⟩ := r
    rcases parseForLoop_eq_ok hopen hvar hiter h with ⟨nv, _, _⟩ | ⟨_, semi, _⟩
    · rw [hv.1.mpr v] at nv
      cases nv
    · rw [c] at semi
      cases semi

/-- Witness for C9: the header of `for (x in xs) y;` gives a for-in loop over
`xs`, and the body is read with the current iterator `x`. -/
theorem C9_for_in_detection_witness :
    Parses (parseForLoop specHost)
      (mkState HiseSpecialData.empty "for (x in xs) y;" "(x in xs) y;" "x in xs) y;" .openParen
        .void_)
      (.LoopStatement false true none none (.LiteralValue (.bool true))
        (some (.expression (.UnqualifiedName "y"))) (some (.UnqualifiedName "xs")))
      { mkState HiseSpecialData.empty "for (x in xs) y;" "" "" .eof (.string "y") with
        currentIterator := "x" } :=
  (C9_for_in_detection specHost
    (mkState HiseSpecialData.empty "for (x in xs) y;" "(x in xs) y;" "x in xs) y;" .openParen
      .void_)
    (mkState HiseSpecialData.empty "for (x in xs) y;" "x in xs) y;" " in xs) y;" .identifier
      (.string "x"))
    (mkState HiseSpecialData.empty "for (x in xs) y;" "x in xs) y;" " in xs) y;" .identifier
      (.string "x"))
    { mkState HiseSpecialData.empty "for (x in xs) y;" ") y;" " y;" .closeParen (.string "xs") with
      currentIterator := "x" }
    false (.UnqualifiedName "xs") rfl rfl
    (parses_parseExpression_in
      (a := mkState HiseSpecialData.empty "for (x in xs) y;" "in xs) y;" " xs) y;" .in_
        (.string "x"))
      (parses_parseLogicOperator_of_unary
        (parses_parseUnary_unqualified rfl rfl rfl (by decide) rfl rfl rfl (by decide))
        (by decide))
      rfl rfl
      (parses_parseExpression_of_unary
        (s := mkState HiseSpecialData.empty "for (x in xs) y;" "xs) y;" ") y;" .identifier
          (.string "xs"))
        (parses_parseUnary_unqualified rfl rfl rfl (by decide) rfl rfl rfl (by decide))
        (by decide)))).2.1 (by decide) rfl
    { mkState HiseSpecialData.empty "for (x in xs) y;" "y;" ";" .identifier (.string "y") with
      currentIterator := "x" }
    (.expression (.UnqualifiedName "y"))
    { mkState HiseSpecialData.empty "for (x in xs) y;" "" "" .eof (.string "y") with
      currentIterator := "x" }
    rfl
    (parses_parseStatement_expression rfl
      (parses_parseExpression_of_unary
        (t := { mkState HiseSpecialData.empty "for (x in xs) y;" ";" "" .semicolon
          (.string "y") with currentIterator := "x" })
        (parses_parseUnary_unqualified rfl rfl rfl (by decide) rfl rfl rfl (by decide))
        (by decide))
      rfl rfl)

/-! ## C10 -/

/-- The inner loop of `nestedForIn`, read with the current iterator `x`: its
body refers to `x` when the current iterator is `y`. -/
theorem nestedForIn_inner :
    Parses (parseStatement specHost)
      (mkStateIn "x" HiseSpecialData.empty nestedForIn "for (y in ys) x;" " (y in ys) x;" .for_
        (.string "xs"))
      (.LoopStatement false true none none (.LiteralValue (.bool true))
        (some (.expression (.UnqualifiedName "x"))) (some (.UnqualifiedName "ys")))
      (mkStateIn "y" HiseSpecialData.empty nestedForIn "" "" .eof (.string "x")) :=
  parses_parseStatement_for
    (t := mkStateIn "x" HiseSpecialData.empty nestedForIn "(y in ys) x;" "y in ys) x;"
      .openParen (.string "xs")) rfl rfl
    (parses_parseForLoop_forIn
      (a := mkStateIn "x" HiseSpecialData.empty nestedForIn "y in ys) x;" " in ys) x;"
        .identifier (.string "y"))
      (b := mkStateIn "y" HiseSpecialData.empty nestedForIn ") x;" " x;" .closeParen
        (.string "ys"))
      (c := mkStateIn "y" HiseSpecialData.empty nestedForIn "x;" ";" .identifier (.string "x"))
      rfl rfl (by decide)
      (parses_parseExpression_in
        (a := mkStateIn "x" HiseSpecialData.empty nestedForIn "in ys) x;" " ys) x;" .in_
          (.string "y"))
        (b := mkStateIn "x" HiseSpecialData.empty nestedForIn "ys) x;" ") x;" .identifier
          (.string "ys"))
        (c := mkStateIn "x" HiseSpecialData.empty nestedForIn ") x;" " x;" .closeParen
          (.string "ys"))
        (parses_parseLogicOperator_of_unary
          (parses_parseUnary_unqualified rfl rfl rfl (by decide) rfl rfl rfl (by decide))
          (by decide))
        rfl rfl
        (parses_parseExpression_of_unary
          (parses_parseUnary_unqualified rfl rfl rfl (by decide) rfl rfl rfl (by decide))
          (by decide)))
      rfl rfl
      (parses_parseStatement_expression
        (t := mkStateIn "y" HiseSpecialData.empty nestedForIn ";" "" .semicolon (.string "x"))
        rfl
        (parses_parseExpression_of_unary
          (parses_parseUnary_unqualified rfl rfl rfl (by decide) rfl rfl rfl (by decide))
          (by decide))
        rfl rfl))

/-- The whole of `nestedForIn`. -/
theorem nestedForIn_parses :
    Parses (parseStatement specHost)
      (mkState HiseSpecialData.empty nestedForIn nestedForIn " (x in xs) for (y in ys) x;" .for_
        .void_)
      (.LoopStatement false true none none (.LiteralValue (.bool true))
        (some (.LoopStatement false true none none (.LiteralValue (.bool true))
          (some (.expression (.UnqualifiedName "x"))) (some (.UnqualifiedName "ys"))))
        (some (.UnqualifiedName "xs")))
      (mkStateIn "y" HiseSpecialData.empty nestedForIn "" "" .eof (.string "x")) :=
  parses_parseStatement_for
    (t := mkState HiseSpecialData.empty nestedForIn "(x in xs) for (y in ys) x;"
      "x in xs) for (y in ys) x;" .openParen .void_) rfl rfl
    (parses_parseForLoop_forIn
      (a := mkState HiseSpecialData.empty nestedForIn "x in xs) for (y in ys) x;"
        " in xs) for (y in ys) x;" .identifier (.string "x"))
      (b := mkStateIn "x" HiseSpecialData.empty nestedForIn ") for (y in ys) x;"
        " for (y in ys) x;" .closeParen (.string "xs"))
      rfl rfl (by decide)
      (parses_parseExpression_in
        (a := mkState HiseSpecialData.empty nestedForIn "in xs) for (y in ys) x;"
          " xs) for (y in ys) x;" .in_ (.string "x"))
        (b := mkState HiseSpecialData.empty nestedForIn "xs) for (y in ys) x;"
          ") for (y in ys) x;" .identifier (.string "xs"))
        (c := mkState HiseSpecialData.empty nestedForIn ") for (y in ys) x;"
          " for (y in ys) x;" .closeParen (.string "xs"))
        (parses_parseLogicOperator_of_unary
          (parses_parseUnary_unqualified rfl rfl rfl (by decide) rfl rfl rfl (by decide))
          (by decide))
        rfl rfl
        (parses_parseExpression_of_unary
          (parses_parseUnary_unqualified rfl rfl rfl (by decide) rfl rfl rfl (by decide))
          (by decide)))
      rfl rfl nestedForIn_inner)

/-- Counterexample to C10: the parser starts `nestedForIn`, that is
`for (x in xs) for (y in ys) x;`, at its first token, and in the loop it returns
the reference to the outer iterator `x` inside the nested loop is an
`UnqualifiedName`; no run returns it as an `IteratorName`. -/
theorem C10_nested_for_in_counterexample :
    TokenIterator.new specHost nestedForIn.toList "" =
      .ok (mkState HiseSpecialData.empty nestedForIn nestedForIn " (x in xs) for (y in ys) x;"
        .for_ .void_).toTokenIterator ∧
    Parses (parseStatement specHost)
      (mkState HiseSpecialData.empty nestedForIn nestedForIn " (x in xs) for (y in ys) x;" .for_
        .void_)
      (.LoopStatement false true none none (.LiteralValue (.bool true))
        (some (.LoopStatement false true none none (.LiteralValue (.bool true))
          (some (.expression (.UnqualifiedName "x"))) (some (.UnqualifiedName "ys"))))
        (some (.UnqualifiedName "xs")))
      (mkStateIn "y" HiseSpecialData.empty nestedForIn "" "" .eof (.string "x")) ∧
    ∀ s', ¬ Parses (parseStatement specHost)
      (mkState HiseSpecialData.empty nestedForIn nestedForIn " (x in xs) for (y in ys) x;" .for_
        .void_)
      (.LoopStatement false true none none (.LiteralValue (.bool true))
        (some (.LoopStatement false true none none (.LiteralValue (.bool true))
          (some (.expression (.IteratorName "x"))) (some (.UnqualifiedName "ys"))))
        (some (.UnqualifiedName "xs"))) s' := by
  refine ⟨rfl, nestedForIn_parses, fun s' h => ?_⟩
  have e := (Parses.unique (fun k => (monoAt specHost k).parseStatement) nestedForIn_parses h).1
  simp at e

/-- C10, amended: in `for (x in xs) body` the parse of `body` starts with `x`
as the parser's current iterator and the loop returned holds what was read for
`xs`; and at every identifier token equal to the parser's current iterator,
`parseFactor` builds an `IteratorName` before it consults any table, whatever
the tables, the namespace, the inline function or the callback being parsed. -/
theorem C10_iterator_name_resolution (H : Host)
    (s s1 sa sa' sb s3 : ExpressionTreeBuilder) (lhs xs : Expression)
    (hopen : s.currentType = .openParen) (hs : skip H s = .ok ((), s1))
    (hx : s1.currentType = .identifier)
    (hvalid : Identifier.isValidIdentifier s1.currentValue.toString = true)
    (hl : Parses (parseLogicOperator H) s1 lhs sa) (hin : sa.currentType = .in_)
    (hsa : skip H sa = .ok ((), sa')) (hxs : Parses (parseExpression H) sa' xs sb)
    (hclose : sb.currentType = .closeParen)
    (hsb : skip H { sb with currentIterator := s1.currentValue.toString } = .ok ((), s3)) :
    s3.currentIterator = s1.currentValue.toString ∧
    (∀ body s4, Parses (parseStatement H) s3 body s4 →
      Parses (parseForLoop H) s
        (.LoopStatement false true none none (.LiteralValue (.bool true)) (some body) (some xs))
        s4) ∧
    (∀ t t1 : ExpressionTreeBuilder, t.currentType = .identifier →
      t.currentValue.toString = t.currentIterator → skip H t = .ok ((), t1) →
      (∀ n ns, parseFactor H (n + 1) ns t =
        parseSuffixes H n (.IteratorName t.currentValue.toString) t1) ∧
      (t1.currentType ∉ suffixTokens →
        Parses (parseUnary H) t (.IteratorName t.currentValue.toString) t1)) := by
  have hid : expressionId s1 = s1.currentValue.toString := by
    simp only [expressionId, hvalid, if_true]
  refine ⟨?_, fun body s4 hbody => ?_, fun t t1 ht hit hst =>
    ⟨fun n ns => parseFactor_iterator ht hit hst,
      fun hsuf => parses_parseUnary_iterator ht hit hst hsuf⟩⟩
  · rw [(skip_fields hsb).2.2.2.2]
  · have hiter := parses_parseExpression_in hl hin hsa hxs
    rw [hid] at hiter
    exact parses_parseForLoop_forIn hopen hs (by rw [hx]; decide) hiter hclose hsb hbody

/-- Witness for the amended C10: in `for (x in xs) x;` the body's `x` is an
`IteratorName`. -/
theorem C10_iterator_name_resolution_witness :
    Parses (parseForLoop specHost)
      (mkState HiseSpecialData.empty "for (x in xs) x;" "(x in xs) x;" "x in xs) x;" .openParen
        .void_)
      (.LoopStatement false true none none (.LiteralValue (.bool true))
        (some (.expression (.IteratorName "x"))) (some (.UnqualifiedName "xs")))
      (mkStateIn "x" HiseSpecialData.empty "for (x in xs) x;" "" "" .eof (.string "x")) :=
  (C10_iterator_name_resolution specHost
    (mkState HiseSpecialData.empty "for (x in xs) x;" "(x in xs) x;" "x in xs) x;" .openParen
      .void_)
    (mkState HiseSpecialData.empty "for (x in xs) x;" "x in xs) x;" " in xs) x;" .identifier
      (.string "x"))
    (mkState HiseSpecialData.empty "for (x in xs) x;" "in xs) x;" " xs) x;" .in_ (.string "x"))
    (mkState HiseSpecialData.empty "for (x in xs) x;" "xs) x;" ") x;" .identifier (.string "xs"))
    (mkState HiseSpecialData.empty "for (x in xs) x;" ") x;" " x;" .closeParen (.string "xs"))
    (mkStateIn "x" HiseSpecialData.empty "for (x in xs) x;" "x;" ";" .identifier (.string "x"))
    (.UnqualifiedName "x") (.UnqualifiedName "xs")
    rfl rfl rfl (by decide)
    (parses_parseLogicOperator_of_unary
      (parses_parseUnary_unqualified rfl rfl rfl (by decide) rfl rfl rfl (by decide))
      (by decide))
    rfl rfl
    (parses_parseExpression_of_unary
      (parses_parseUnary_unqualified rfl rfl rfl (by decide) rfl rfl rfl (by decide))
      (by decide))
    rfl rfl).2.1
    (.expression (.IteratorName "x"))
    (mkStateIn "x" HiseSpecialData.empty "for (x in xs) x;" "" "" .eof (.string "x"))
    (parses_parseStatement_expression
      (t := mkStateIn "x" HiseSpecialData.empty "for (x in xs) x;" ";" "" .semicolon
        (.string "x"))
      rfl
      (parses_parseExpression_of_unary
        (parses_parseUnary_iterator rfl rfl rfl (by decide))
        (by decide))
      rfl rfl)

/-! ## Runs that throw -/

/-- A run that threw with `n` units of fuel throws the same message with more. -/
theorem fuel_mono_error {α : Type} {f : Nat → Parser α} (hf : ∀ k, (f k).le (f (k + 1)))
    {n m : Nat} {s : ExpressionTreeBuilder} {msg : String}
    (h : f n s = .error msg) (hnm : n ≤ m) : f m s = .error msg :=
  (StM.le_of_succ hf hnm).h s _ h (by simp)

/-- A parsing function does not both return and throw. -/
theorem Parses.not_fails {α : Type} {f : Nat → Parser α} (hf : ∀ k, (f k).le (f (k + 1)))
    {s t : ExpressionTreeBuilder} {a : α} {msg : String} (h : Parses f s a t) :
    ¬ Fails f s msg := by
  rintro ⟨m, hm⟩
  obtain ⟨n, hn⟩ := h
  have e1 := fuel_mono hf hn (Nat.le_max_left n m)
  have e2 := fuel_mono_error hf hm (Nat.le_max_right n m)
  rw [e1] at e2
  cases e2

/-- A parsing function that throws does not return. -/
theorem Fails.not_parses {α : Type} {f : Nat → Parser α} (hf : ∀ k, (f k).le (f (k + 1)))
    {s t : ExpressionTreeBuilder} {a : α} {msg : String} (h : Fails f s msg) :
    ¬ Parses f s a t :=
  fun hp => hp.not_fails hf h

/-- The message of a run that throws is unique. -/
theorem Fails.message_unique {α : Type} {f : Nat → Parser α} (hf : ∀ k, (f k).le (f (k + 1)))
    {s : ExpressionTreeBuilder} {m1 m2 : String} (h1 : Fails f s m1) (h2 : Fails f s m2) :
    m1 = m2 := by
  obtain ⟨n1, h1⟩ := h1
  obtain ⟨n2, h2⟩ := h2
  have e1 := fuel_mono_error hf h1 (Nat.le_max_left n1 n2)
  have e2 := fuel_mono_error hf h2 (Nat.le_max_right n1 n2)
  rw [e1] at e2
  simpa using e2

/-! ## The pre-pass at `namespace`, `const` and `}` -/

theorem StM.throw_apply {σ α : Type} (msg : String) (s : σ) :
    (StM.throw msg : StM σ α) s = .error msg := rfl

/-- A `namespace` keyword read while a named namespace is open is an error. -/
theorem preprocessCodeLoop_namespace_nested {H : Host} {n : Nat} {s : PreprocessState}
    (h : s.it.currentType = .namespace_) (hc : s.cns ≠ .root) :
    preprocessCodeLoop H (n + 1) s = .error "Nesting of namespaces is not allowed" := by
  rw [preprocessCodeLoop]
  simp only [StM.bind_apply, StM.get_apply, h, ne_eq, reduceCtorEq, not_false_eq_true, if_true,
    hc, StM.throw_apply]

/-- A `namespace` keyword read in the root namespace opens the namespace named
by the next token, at any brace depth. -/
theorem preprocessCodeLoop_namespace {H : Host} {n : Nat} {s f : PreprocessState}
    {i : TokenIterator} (h : s.it.currentType = .namespace_) (hc : s.cns = .root)
    (hf : flushIds s = .ok ((), f)) (hs : TokenIterator.skip H f.it = .ok ((), i))
    (hn : (f.hiseSpecialData.getNamespace i.currentValue.toString).isNone = true) :
    preprocessCodeLoop H (n + 1) s = preprocessCodeLoop H n
      { f with
        it := i
        cns := .named f.hiseSpecialData.namespaces.length
        hiseSpecialData := { f.hiseSpecialData with
          namespaces := f.hiseSpecialData.namespaces ++ [{ id := i.currentValue.toString }] } } := by
  have hft : f.it.currentType = .namespace_ := by
    simp only [flushIds, StM.modify_apply, Res.ok.injEq, Prod.mk.injEq, true_and] at hf
    rw [← hf]; exact h
  rw [preprocessCodeLoop]
  simp only [StM.bind_apply, StM.get_apply, h, ne_eq, reduceCtorEq, not_false_eq_true, if_true,
    hc, not_true_eq_false, if_false, hf, liftPre_match_of_eq hft hs, hn, StM.modify_apply]

/-- A `}` that does not close the open namespace. -/
theorem preprocessCodeLoop_closeBrace_inner {H : Host} {n : Nat} {s : PreprocessState}
    {i : TokenIterator} (h : s.it.currentType = .closeBrace) (hb : s.braceLevel - 1 ≠ 0)
    (hs : TokenIterator.skip H s.it = .ok ((), i)) :
    preprocessCodeLoop H (n + 1) s =
      preprocessCodeLoop H n { s with it := i, braceLevel := s.braceLevel - 1 } := by
  rw [preprocessCodeLoop]
  simp only [StM.bind_apply, StM.get_apply, h, ne_eq, reduceCtorEq, not_false_eq_true, if_true,
    if_false, StM.pure_apply,
    liftPre_matchIf_of_ne (show s.it.currentType ≠ .openBrace by rw [h]; decide),
    liftPre_matchIf_of_eq h hs, StM.modify_apply, hb, false_and, Bool.false_eq_true]

/-- A `}` that brings the brace depth back to 0 closes the open namespace. -/
theorem preprocessCodeLoop_closeBrace_leave {H : Host} {n : Nat} {s f : PreprocessState}
    {i : TokenIterator} (h : s.it.currentType = .closeBrace) (hb : s.braceLevel - 1 = 0)
    (hc : s.cns ≠ .root) (hs : TokenIterator.skip H s.it = .ok ((), i))
    (hf : flushIds { s with it := i, braceLevel := s.braceLevel - 1 } = .ok ((), f)) :
    preprocessCodeLoop H (n + 1) s = preprocessCodeLoop H n { f with cns := .root } := by
  rw [preprocessCodeLoop]
  simp only [StM.bind_apply, StM.get_apply, h, ne_eq, reduceCtorEq, not_false_eq_true, if_true,
    if_false, StM.pure_apply,
    liftPre_matchIf_of_ne (show s.it.currentType ≠ .openBrace by rw [h]; decide),
    liftPre_matchIf_of_eq h hs, StM.modify_apply, hc, and_self]
  rw [hb] at hf ⊢
  simp only [not_false_eq_true, and_self, if_true, StM.bind_apply, hf, StM.modify_apply]

/-- The pre-pass at `const` up to the test of the brace depth. -/
theorem preprocessCodeLoop_const_rejected {H : Host} {n : Nat} {s : PreprocessState}
    {a b : TokenIterator} {m : Bool} (h : s.it.currentType = .const_)
    (hs : TokenIterator.skip H s.it = .ok ((), a))
    (hv : TokenIterator.matchIf H .var a = .ok (m, b))
    (hg : s.cns = .root ∧ s.braceLevel ≠ 0) :
    preprocessCodeLoop H (n + 1) s = .error "const var declaration must be on global level" := by
  rw [preprocessCodeLoop]
  simp only [StM.bind_apply, StM.get_apply, h, ne_eq, reduceCtorEq, not_false_eq_true, if_true,
    if_false, StM.pure_apply,
    liftPre_matchIf_of_ne (show s.it.currentType ≠ .openBrace by rw [h]; decide),
    liftPre_matchIf_of_ne (show s.it.currentType ≠ .closeBrace by rw [h]; decide),
    liftPre_matchIf_of_ne (show s.it.currentType ≠ .inline_ by rw [h]; decide),
    liftPre_matchIf_of_ne (show s.it.currentType ≠ .register_var by rw [h]; decide),
    Bool.false_eq_true, liftPre_match_of_eq h hs]
  simp only [liftPre, hv, hg.1, hg.2, StM.throw_apply, and_self, not_false_eq_true, if_true]

/-- The pre-pass accepts a `const` that passes the three tests: its name is
added to `ids` and its location to the open namespace. -/
theorem preprocessCodeLoop_const {H : Host} {n : Nat} {s : PreprocessState}
    {a b : TokenIterator} {m : Bool} (h : s.it.currentType = .const_)
    (hs : TokenIterator.skip H s.it = .ok ((), a))
    (hv : TokenIterator.matchIf H .var a = .ok (m, b))
    (hg : ¬ (s.cns = .root ∧ s.braceLevel ≠ 0))
    (hnull : b.currentValue.toString ≠ Identifier.null)
    (hdup : s.ids.contains b.currentValue.toString = false) :
    preprocessCodeLoop H (n + 1) s = preprocessCodeLoop H n
      { s with
        it := b
        ids := s.ids ++ [b.currentValue.toString]
        hiseSpecialData := s.hiseSpecialData.modifyNs s.cns (fun x => { x with
          constLocations := x.constLocations ++ [⟨b.location.externalFile, b.charNumber⟩] }) } := by
  rw [preprocessCodeLoop]
  simp only [StM.bind_apply, StM.get_apply, h, ne_eq, reduceCtorEq, not_false_eq_true, if_true,
    if_false, StM.pure_apply,
    liftPre_matchIf_of_ne (show s.it.currentType ≠ .openBrace by rw [h]; decide),
    liftPre_matchIf_of_ne (show s.it.currentType ≠ .closeBrace by rw [h]; decide),
    liftPre_matchIf_of_ne (show s.it.currentType ≠ .inline_ by rw [h]; decide),
    liftPre_matchIf_of_ne (show s.it.currentType ≠ .register_var by rw [h]; decide),
    Bool.false_eq_true, liftPre_match_of_eq h hs]
  simp only [liftPre, hv, ne_eq, hg, if_false, hnull, hdup, Bool.false_eq_true, StM.modify_apply,
    modifyPreData, StM.bind_apply]

/-! ## Runs of the pre-pass -/

theorem preprocessCode_eq_error {H : Host} {n : Nat} {code : List Char} {file : String}
    {d : HiseSpecialData} {i : TokenIterator} {e : String}
    (hne : code.isEmpty = false) (hnew : TokenIterator.new H code file = .ok i)
    (hloop : preprocessCodeLoop H n { it := i, hiseSpecialData := d } = .error e) :
    preprocessCode H (n + 1) code file d = .error e := by
  rw [preprocessCode]
  simp only [hne, Bool.false_eq_true, if_false, hnew, hloop]

theorem namespaceInBlock_loop (n : Nat) :
    preprocessCodeLoop specHost (n + 7) (preState namespaceInBlock (prepassTables [] [] []) .root [] 0 0 1 .openBrace .void_) =
      .ok ((), (preState namespaceInBlock (prepassTables [] [] [{ id := "A", constObjects := [], constLocations := [] }]) .root [] 0 19 19 .eof (.string "A"))) := by
  rw [preprocessCodeLoop_openBrace (H := specHost) (s := (preState namespaceInBlock (prepassTables [] [] []) .root [] 0 0 1 .openBrace .void_))
      (i := (mkIterator namespaceInBlock 2 11 .namespace_ .void_)) rfl rfl]
  show preprocessCodeLoop specHost _ (preState namespaceInBlock (prepassTables [] [] []) .root [] 1 2 11 .namespace_ .void_) = _
  rw [preprocessCodeLoop_namespace (H := specHost) (s := (preState namespaceInBlock (prepassTables [] [] []) .root [] 1 2 11 .namespace_ .void_))
      (f := (preState namespaceInBlock (prepassTables [] [] []) .root [] 1 2 11 .namespace_ .void_))
      (i := (mkIterator namespaceInBlock 12 13 .identifier (.string "A"))) rfl rfl rfl rfl rfl]
  show preprocessCodeLoop specHost _ (preState namespaceInBlock (prepassTables [] [] [{ id := "A", constObjects := [], constLocations := [] }]) (.named 0) [] 1 12 13 .identifier (.string "A")) = _
  rw [preprocessCodeLoop_skip (H := specHost) (s := (preState namespaceInBlock (prepassTables [] [] [{ id := "A", constObjects := [], constLocations := [] }]) (.named 0) [] 1 12 13 .identifier (.string "A")))
      (i := (mkIterator namespaceInBlock 14 15 .openBrace (.string "A"))) (by decide) rfl]
  show preprocessCodeLoop specHost _ (preState namespaceInBlock (prepassTables [] [] [{ id := "A", constObjects := [], constLocations := [] }]) (.named 0) [] 1 14 15 .openBrace (.string "A")) = _
  rw [preprocessCodeLoop_openBrace (H := specHost) (s := (preState namespaceInBlock (prepassTables [] [] [{ id := "A", constObjects := [], constLocations := [] }]) (.named 0) [] 1 14 15 .openBrace (.string "A")))
      (i := (mkIterator namespaceInBlock 16 17 .closeBrace (.string "A"))) rfl rfl]
  show preprocessCodeLoop specHost _ (preState namespaceInBlock (prepassTables [] [] [{ id := "A", constObjects := [], constLocations := [] }]) (.named 0) [] 2 16 17 .closeBrace (.string "A")) = _
  rw [preprocessCodeLoop_closeBrace_inner (H := specHost) (s := (preState namespaceInBlock (prepassTables [] [] [{ id := "A", constObjects := [], constLocations := [] }]) (.named 0) [] 2 16 17 .closeBrace (.string "A")))
      (i := (mkIterator namespaceInBlock 18 19 .closeBrace (.string "A"))) rfl (by decide) rfl]
  show preprocessCodeLoop specHost _ (preState namespaceInBlock (prepassTables [] [] [{ id := "A", constObjects := [], constLocations := [] }]) (.named 0) [] 1 18 19 .closeBrace (.string "A")) = _
  rw [preprocessCodeLoop_closeBrace_leave (H := specHost) (s := (preState namespaceInBlock (prepassTables [] [] [{ id := "A", constObjects := [], constLocations := [] }]) (.named 0) [] 1 18 19 .closeBrace (.string "A")))
      (f := (preState namespaceInBlock (prepassTables [] [] [{ id := "A", constObjects := [], constLocations := [] }]) (.named 0) [] 0 19 19 .eof (.string "A")))
      (i := (mkIterator namespaceInBlock 19 19 .eof (.string "A"))) rfl (by decide) (by decide) rfl rfl]
  show preprocessCodeLoop specHost _ (preState namespaceInBlock (prepassTables [] [] [{ id := "A", constObjects := [], constLocations := [] }]) .root [] 0 19 19 .eof (.string "A")) = _
  rw [preprocessCodeLoop_eof (H := specHost) (s := (preState namespaceInBlock (prepassTables [] [] [{ id := "A", constObjects := [], constLocations := [] }]) .root [] 0 19 19 .eof (.string "A"))) rfl rfl]
  rfl

/-- A namespace inside a block of the root namespace passes the pre-pass. -/
theorem namespaceInBlock_prepass (n : Nat) :
    preprocessCode specHost (n + 8) namespaceInBlock.toList "" HiseSpecialData.empty =
      .ok (prepassTables [] [] [{ id := "A", constObjects := [], constLocations := [] }]) :=
  preprocessCode_eq (show namespaceInBlock.toList.isEmpty = false from rfl)
    (show TokenIterator.new specHost namespaceInBlock.toList "" = .ok (mkIterator namespaceInBlock 0 1 .openBrace .void_) from rfl)
    (namespaceInBlock_loop n)

theorem namespaceInNamespace_loop (n : Nat) :
    preprocessCodeLoop specHost (n + 4) (preState namespaceInNamespace (prepassTables [] [] []) .root [] 0 0 9 .namespace_ .void_) =
      .error "Nesting of namespaces is not allowed" := by
  rw [preprocessCodeLoop_namespace (H := specHost) (s := (preState namespaceInNamespace (prepassTables [] [] []) .root [] 0 0 9 .namespace_ .void_))
      (f := (preState namespaceInNamespace (prepassTables [] [] []) .root [] 0 0 9 .namespace_ .void_))
      (i := (mkIterator namespaceInNamespace 10 11 .identifier (.string "A"))) rfl rfl rfl rfl rfl]
  show preprocessCodeLoop specHost _ (preState namespaceInNamespace (prepassTables [] [] [{ id := "A", constObjects := [], constLocations := [] }]) (.named 0) [] 0 10 11 .identifier (.string "A")) = _
  rw [preprocessCodeLoop_skip (H := specHost) (s := (preState namespaceInNamespace (prepassTables [] [] [{ id := "A", constObjects := [], constLocations := [] }]) (.named 0) [] 0 10 11 .identifier (.string "A")))
      (i := (mkIterator namespaceInNamespace 12 13 .openBrace (.string "A"))) (by decide) rfl]
  show preprocessCodeLoop specHost _ (preState namespaceInNamespace (prepassTables [] [] [{ id := "A", constObjects := [], constLocations := [] }]) (.named 0) [] 0 12 13 .openBrace (.string "A")) = _
  rw [preprocessCodeLoop_openBrace (H := specHost) (s := (preState namespaceInNamespace (prepassTables [] [] [{ id := "A", constObjects := [], constLocations := [] }]) (.named 0) [] 0 12 13 .openBrace (.string "A")))
      (i := (mkIterator namespaceInNamespace 14 23 .namespace_ (.string "A"))) rfl rfl]
  show preprocessCodeLoop specHost _ (preState namespaceInNamespace (prepassTables [] [] [{ id := "A", constObjects := [], constLocations := [] }]) (.named 0) [] 1 14 23 .namespace_ (.string "A")) = _
  exact preprocessCodeLoop_namespace_nested (H := specHost) (s := (preState namespaceInNamespace (prepassTables [] [] [{ id := "A", constObjects := [], constLocations := [] }]) (.named 0) [] 1 14 23 .namespace_ (.string "A"))) rfl (by decide)

/-- A namespace inside a namespace stops the pre-pass. -/
theorem namespaceInNamespace_prepass (n : Nat) :
    preprocessCode specHost (n + 5) namespaceInNamespace.toList "" HiseSpecialData.empty =
      .error "Nesting of namespaces is not allowed" :=
  preprocessCode_eq_error (show namespaceInNamespace.toList.isEmpty = false from rfl)
    (show TokenIterator.new specHost namespaceInNamespace.toList "" = .ok (mkIterator namespaceInNamespace 0 9 .namespace_ .void_) from rfl)
    (namespaceInNamespace_loop n)

theorem constInNamespaceBlock_loop (n : Nat) :
    preprocessCodeLoop specHost (n + 16) (preState constInNamespaceBlock (prepassTables [] [] []) .root [] 0 0 9 .namespace_ .void_) =
      .ok ((), (preState constInNamespaceBlock (prepassTables [] [] [{ id := "A", constObjects := [("k", .string "undeclared")], constLocations := [⟨"", 33⟩] }]) .root [] 0 43 43 .eof (.int64 1))) := by
  rw [preprocessCodeLoop_namespace (H := specHost) (s := (preState constInNamespaceBlock (prepassTables [] [] []) .root [] 0 0 9 .namespace_ .void_))
      (f := (preState constInNamespaceBlock (prepassTables [] [] []) .root [] 0 0 9 .namespace_ .void_))
      (i := (mkIterator constInNamespaceBlock 10 11 .identifier (.string "A"))) rfl rfl rfl rfl rfl]
  show preprocessCodeLoop specHost _ (preState constInNamespaceBlock (prepassTables [] [] [{ id := "A", constObjects := [], constLocations := [] }]) (.named 0) [] 0 10 11 .identifier (.string "A")) = _
  rw [preprocessCodeLoop_skip (H := specHost) (s := (preState constInNamespaceBlock (prepassTables [] [] [{ id := "A", constObjects := [], constLocations := [] }]) (.named 0) [] 0 10 11 .identifier (.string "A")))
      (i := (mkIterator constInNamespaceBlock 12 13 .openBrace (.string "A"))) (by decide) rfl]
  show preprocessCodeLoop specHost _ (preState constInNamespaceBlock (prepassTables [] [] [{ id := "A", constObjects := [], constLocations := [] }]) (.named 0) [] 0 12 13 .openBrace (.string "A")) = _
  rw [preprocessCodeLoop_openBrace (H := specHost) (s := (preState constInNamespaceBlock (prepassTables [] [] [{ id := "A", constObjects := [], constLocations := [] }]) (.named 0) [] 0 12 13 .openBrace (.string "A")))
      (i := (mkIterator constInNamespaceBlock 14 16 .if_ (.string "A"))) rfl rfl]
  show preprocessCodeLoop specHost _ (preState constInNamespaceBlock (prepassTables [] [] [{ id := "A", constObjects := [], constLocations := [] }]) (.named 0) [] 1 14 16 .if_ (.string "A")) = _
  rw [preprocessCodeLoop_skip (H := specHost) (s := (preState constInNamespaceBlock (prepassTables [] [] [{ id := "A", constObjects := [], constLocations := [] }]) (.named 0) [] 1 14 16 .if_ (.string "A")))
      (i := (mkIterator constInNamespaceBlock 17 18 .openParen (.string "A"))) (by decide) rfl]
  show preprocessCodeLoop specHost _ (preState constInNamespaceBlock (prepassTables [] [] [{ id := "A", constObjects := [], constLocations := [] }]) (.named 0) [] 1 17 18 .openParen (.string "A")) = _
  rw [preprocessCodeLoop_skip (H := specHost) (s := (preState constInNamespaceBlock (prepassTables [] [] [{ id := "A", constObjects := [], constLocations := [] }]) (.named 0) [] 1 17 18 .openParen (.string "A")))
      (i := (mkIterator constInNamespaceBlock 18 19 .identifier (.string "x"))) (by decide) rfl]
  show preprocessCodeLoop specHost _ (preState constInNamespaceBlock (prepassTables [] [] [{ id := "A", constObjects := [], constLocations := [] }]) (.named 0) [] 1 18 19 .identifier (.string "x")) = _
  rw [preprocessCodeLoop_skip (H := specHost) (s := (preState constInNamespaceBlock (prepassTables [] [] [{ id := "A", constObjects := [], constLocations := [] }]) (.named 0) [] 1 18 19 .identifier (.string "x")))
      (i := (mkIterator constInNamespaceBlock 19 20 .closeParen (.string "x"))) (by decide) rfl]
  show preprocessCodeLoop specHost _ (preState constInNamespaceBlock (prepassTables [] [] [{ id := "A", constObjects := [], constLocations := [] }]) (.named 0) [] 1 19 20 .closeParen (.string "x")) = _
  rw [preprocessCodeLoop_skip (H := specHost) (s := (preState constInNamespaceBlock (prepassTables [] [] [{ id := "A", constObjects := [], constLocations := [] }]) (.named 0) [] 1 19 20 .closeParen (.string "x")))
      (i := (mkIterator constInNamespaceBlock 21 22 .openBrace (.string "x"))) (by decide) rfl]
  show preprocessCodeLoop specHost _ (preState constInNamespaceBlock (prepassTables [] [] [{ id := "A", constObjects := [], constLocations := [] }]) (.named 0) [] 1 21 22 .openBrace (.string "x")) = _
  rw [preprocessCodeLoop_openBrace (H := specHost) (s := (preState constInNamespaceBlock (prepassTables [] [] [{ id := "A", constObjects := [], constLocations := [] }]) (.named 0) [] 1 21 22 .openBrace (.string "x")))
      (i := (mkIterator constInNamespaceBlock 23 28 .const_ (.string "x"))) rfl rfl]
  show preprocessCodeLoop specHost _ (preState constInNamespaceBlock (prepassTables [] [] [{ id := "A", constObjects := [], constLocations := [] }]) (.named 0) [] 2 23 28 .const_ (.string "x")) = _
  rw [preprocessCodeLoop_const (H := specHost) (s := (preState constInNamespaceBlock (prepassTables [] [] [{ id := "A", constObjects := [], constLocations := [] }]) (.named 0) [] 2 23 28 .const_ (.string "x")))
      (a := (mkIterator constInNamespaceBlock 29 32 .var (.string "x")))
      (b := (mkIterator constInNamespaceBlock 33 34 .identifier (.string "k"))) (m := true) rfl rfl rfl (by decide) (by decide) rfl]
  show preprocessCodeLoop specHost _ (preState constInNamespaceBlock (prepassTables [] [] [{ id := "A", constObjects := [], constLocations := [⟨"", 33⟩] }]) (.named 0) ["k"] 2 33 34 .identifier (.string "k")) = _
  rw [preprocessCodeLoop_skip (H := specHost) (s := (preState constInNamespaceBlock (prepassTables [] [] [{ id := "A", constObjects := [], constLocations := [⟨"", 33⟩] }]) (.named 0) ["k"] 2 33 34 .identifier (.string "k")))
      (i := (mkIterator constInNamespaceBlock 35 36 .assign (.string "k"))) (by decide) rfl]
  show preprocessCodeLoop specHost _ (preState constInNamespaceBlock (prepassTables [] [] [{ id := "A", constObjects := [], constLocations := [⟨"", 33⟩] }]) (.named 0) ["k"] 2 35 36 .assign (.string "k")) = _
  rw [preprocessCodeLoop_skip (H := specHost) (s := (preState constInNamespaceBlock (prepassTables [] [] [{ id := "A", constObjects := [], constLocations := [⟨"", 33⟩] }]) (.named 0) ["k"] 2 35 36 .assign (.string "k")))
      (i := (mkIterator constInNamespaceBlock 37 38 .literal (.int64 1))) (by decide) rfl]
  show preprocessCodeLoop specHost _ (preState constInNamespaceBlock (prepassTables [] [] [{ id := "A", constObjects := [], constLocations := [⟨"", 33⟩] }]) (.named 0) ["k"] 2 37 38 .literal (.int64 1)) = _
  rw [preprocessCodeLoop_skip (H := specHost) (s := (preState constInNamespaceBlock (prepassTables [] [] [{ id := "A", constObjects := [], constLocations := [⟨"", 33⟩] }]) (.named 0) ["k"] 2 37 38 .literal (.int64 1)))
      (i := (mkIterator constInNamespaceBlock 38 39 .semicolon (.int64 1))) (by decide) rfl]
  show preprocessCodeLoop specHost _ (preState constInNamespaceBlock (prepassTables [] [] [{ id := "A", constObjects := [], constLocations := [⟨"", 33⟩] }]) (.named 0) ["k"] 2 38 39 .semicolon (.int64 1)) = _
  rw [preprocessCodeLoop_skip (H := specHost) (s := (preState constInNamespaceBlock (prepassTables [] [] [{ id := "A", constObjects := [], constLocations := [⟨"", 33⟩] }]) (.named 0) ["k"] 2 38 39 .semicolon (.int64 1)))
      (i := (mkIterator constInNamespaceBlock 40 41 .closeBrace (.int64 1))) (by decide) rfl]
  show preprocessCodeLoop specHost _ (preState constInNamespaceBlock (prepassTables [] [] [{ id := "A", constObjects := [], constLocations := [⟨"", 33⟩] }]) (.named 0) ["k"] 2 40 41 .closeBrace (.int64 1)) = _
  rw [preprocessCodeLoop_closeBrace_inner (H := specHost) (s := (preState constInNamespaceBlock (prepassTables [] [] [{ id := "A", constObjects := [], constLocations := [⟨"", 33⟩] }]) (.named 0) ["k"] 2 40 41 .closeBrace (.int64 1)))
      (i := (mkIterator constInNamespaceBlock 42 43 .closeBrace (.int64 1))) rfl (by decide) rfl]
  show preprocessCodeLoop specHost _ (preState constInNamespaceBlock (prepassTables [] [] [{ id := "A", constObjects := [], constLocations := [⟨"", 33⟩] }]) (.named 0) ["k"] 1 42 43 .closeBrace (.int64 1)) = _
  rw [preprocessCodeLoop_closeBrace_leave (H := specHost) (s := (preState constInNamespaceBlock (prepassTables [] [] [{ id := "A", constObjects := [], constLocations := [⟨"", 33⟩] }]) (.named 0) ["k"] 1 42 43 .closeBrace (.int64 1)))
      (f := (preState constInNamespaceBlock (prepassTables [] [] [{ id := "A", constObjects := [("k", .string "undeclared")], constLocations := [⟨"", 33⟩] }]) (.named 0) [] 0 43 43 .eof (.int64 1)))
      (i := (mkIterator constInNamespaceBlock 43 43 .eof (.int64 1))) rfl (by decide) (by decide) rfl rfl]
  show preprocessCodeLoop specHost _ (preState constInNamespaceBlock (prepassTables [] [] [{ id := "A", constObjects := [("k", .string "undeclared")], constLocations := [⟨"", 33⟩] }]) .root [] 0 43 43 .eof (.int64 1)) = _
  rw [preprocessCodeLoop_eof (H := specHost) (s := (preState constInNamespaceBlock (prepassTables [] [] [{ id := "A", constObjects := [("k", .string "undeclared")], constLocations := [⟨"", 33⟩] }]) .root [] 0 43 43 .eof (.int64 1))) rfl rfl]
  rfl

/-- A constant in a nested block of a named namespace passes the pre-pass. -/
theorem constInNamespaceBlock_prepass (n : Nat) :
    preprocessCode specHost (n + 17) constInNamespaceBlock.toList "" HiseSpecialData.empty =
      .ok (prepassTables [] [] [{ id := "A", constObjects := [("k", .string "undeclared")], constLocations := [⟨"", 33⟩] }]) :=
  preprocessCode_eq (show constInNamespaceBlock.toList.isEmpty = false from rfl)
    (show TokenIterator.new specHost constInNamespaceBlock.toList "" = .ok (mkIterator constInNamespaceBlock 0 9 .namespace_ .void_) from rfl)
    (constInNamespaceBlock_loop n)

theorem constInRootBlock_loop (n : Nat) :
    preprocessCodeLoop specHost (n + 6) (preState constInRootBlock (prepassTables [] [] []) .root [] 0 0 2 .if_ .void_) =
      .error "const var declaration must be on global level" := by
  rw [preprocessCodeLoop_skip (H := specHost) (s := (preState constInRootBlock (prepassTables [] [] []) .root [] 0 0 2 .if_ .void_))
      (i := (mkIterator constInRootBlock 3 4 .openParen .void_)) (by decide) rfl]
  show preprocessCodeLoop specHost _ (preState constInRootBlock (prepassTables [] [] []) .root [] 0 3 4 .openParen .void_) = _
  rw [preprocessCodeLoop_skip (H := specHost) (s := (preState constInRootBlock (prepassTables [] [] []) .root [] 0 3 4 .openParen .void_))
      (i := (mkIterator constInRootBlock 4 5 .identifier (.string "x"))) (by decide) rfl]
  show preprocessCodeLoop specHost _ (preState constInRootBlock (prepassTables [] [] []) .root [] 0 4 5 .identifier (.string "x")) = _
  rw [preprocessCodeLoop_skip (H := specHost) (s := (preState constInRootBlock (prepassTables [] [] []) .root [] 0 4 5 .identifier (.string "x")))
      (i := (mkIterator constInRootBlock 5 6 .closeParen (.string "x"))) (by decide) rfl]
  show preprocessCodeLoop specHost _ (preState constInRootBlock (prepassTables [] [] []) .root [] 0 5 6 .closeParen (.string "x")) = _
  rw [preprocessCodeLoop_skip (H := specHost) (s := (preState constInRootBlock (prepassTables [] [] []) .root [] 0 5 6 .closeParen (.string "x")))
      (i := (mkIterator constInRootBlock 7 8 .openBrace (.string "x"))) (by decide) rfl]
  show preprocessCodeLoop specHost _ (preState constInRootBlock (prepassTables [] [] []) .root [] 0 7 8 .openBrace (.string "x")) = _
  rw [preprocessCodeLoop_openBrace (H := specHost) (s := (preState constInRootBlock (prepassTables [] [] []) .root [] 0 7 8 .openBrace (.string "x")))
      (i := (mkIterator constInRootBlock 9 14 .const_ (.string "x"))) rfl rfl]
  show preprocessCodeLoop specHost _ (preState constInRootBlock (prepassTables [] [] []) .root [] 1 9 14 .const_ (.string "x")) = _
  exact preprocessCodeLoop_const_rejected (H := specHost) (s := (preState constInRootBlock (prepassTables [] [] []) .root [] 1 9 14 .const_ (.string "x")))
      (a := (mkIterator constInRootBlock 15 18 .var (.string "x")))
      (b := (mkIterator constInRootBlock 19 20 .identifier (.string "k"))) (m := true) rfl rfl rfl (by decide)

/-- A constant in a nested block of the root namespace stops the pre-pass. -/
theorem constInRootBlock_prepass (n : Nat) :
    preprocessCode specHost (n + 7) constInRootBlock.toList "" HiseSpecialData.empty =
      .error "const var declaration must be on global level" :=
  preprocessCode_eq_error (show constInRootBlock.toList.isEmpty = false from rfl)
    (show TokenIterator.new specHost constInRootBlock.toList "" = .ok (mkIterator constInRootBlock 0 2 .if_ .void_) from rfl)
    (constInRootBlock_loop n)

theorem constAroundNamespace_loop (n : Nat) :
    preprocessCodeLoop specHost (n + 15) (preState constAroundNamespace (prepassTables [] [] []) .root [] 0 0 5 .const_ .void_) =
      .ok ((), (preState constAroundNamespace (prepassTables [("a", .string "undeclared")] [⟨"", 10⟩, ⟨"", 43⟩] [{ id := "N", constObjects := [], constLocations := [] }]) .root [] 0 49 49 .eof (.int64 2))) := by
  rw [preprocessCodeLoop_const (H := specHost) (s := (preState constAroundNamespace (prepassTables [] [] []) .root [] 0 0 5 .const_ .void_))
      (a := (mkIterator constAroundNamespace 6 9 .var .void_))
      (b := (mkIterator constAroundNamespace 10 11 .identifier (.string "a"))) (m := true) rfl rfl rfl (by decide) (by decide) rfl]
  show preprocessCodeLoop specHost _ (preState constAroundNamespace (prepassTables [] [⟨"", 10⟩] []) .root ["a"] 0 10 11 .identifier (.string "a")) = _
  rw [preprocessCodeLoop_skip (H := specHost) (s := (preState constAroundNamespace (prepassTables [] [⟨"", 10⟩] []) .root ["a"] 0 10 11 .identifier (.string "a")))
      (i := (mkIterator constAroundNamespace 12 13 .assign (.string "a"))) (by decide) rfl]
  show preprocessCodeLoop specHost _ (preState constAroundNamespace (prepassTables [] [⟨"", 10⟩] []) .root ["a"] 0 12 13 .assign (.string "a")) = _
  rw [preprocessCodeLoop_skip (H := specHost) (s := (preState constAroundNamespace (prepassTables [] [⟨"", 10⟩] []) .root ["a"] 0 12 13 .assign (.string "a")))
      (i := (mkIterator constAroundNamespace 14 15 .literal (.int64 1))) (by decide) rfl]
  show preprocessCodeLoop specHost _ (preState constAroundNamespace (prepassTables [] [⟨"", 10⟩] []) .root ["a"] 0 14 15 .literal (.int64 1)) = _
  rw [preprocessCodeLoop_skip (H := specHost) (s := (preState constAroundNamespace (prepassTables [] [⟨"", 10⟩] []) .root ["a"] 0 14 15 .literal (.int64 1)))
      (i := (mkIterator constAroundNamespace 15 16 .semicolon (.int64 1))) (by decide) rfl]
  show preprocessCodeLoop specHost _ (preState constAroundNamespace (prepassTables [] [⟨"", 10⟩] []) .root ["a"] 0 15 16 .semicolon (.int64 1)) = _
  rw [preprocessCodeLoop_skip (H := specHost) (s := (preState constAroundNamespace (prepassTables [] [⟨"", 10⟩] []) .root ["a"] 0 15 16 .semicolon (.int64 1)))
      (i := (mkIterator constAroundNamespace 17 26 .namespace_ (.int64 1))) (by decide) rfl]
  show preprocessCodeLoop specHost _ (preState constAroundNamespace (prepassTables [] [⟨"", 10⟩] []) .root ["a"] 0 17 26 .namespace_ (.int64 1)) = _
  rw [preprocessCodeLoop_namespace (H := specHost) (s := (preState constAroundNamespace (prepassTables [] [⟨"", 10⟩] []) .root ["a"] 0 17 26 .namespace_ (.int64 1)))
      (f := (preState constAroundNamespace (prepassTables [("a", .string "undeclared")] [⟨"", 10⟩] []) .root [] 0 17 26 .namespace_ (.int64 1)))
      (i := (mkIterator constAroundNamespace 27 28 .identifier (.string "N"))) rfl rfl rfl rfl rfl]
  show preprocessCodeLoop specHost _ (preState constAroundNamespace (prepassTables [("a", .string "undeclared")] [⟨"", 10⟩] [{ id := "N", constObjects := [], constLocations := [] }]) (.named 0) [] 0 27 28 .identifier (.string "N")) = _
  rw [preprocessCodeLoop_skip (H := specHost) (s := (preState constAroundNamespace (prepassTables [("a", .string "undeclared")] [⟨"", 10⟩] [{ id := "N", constObjects := [], constLocations := [] }]) (.named 0) [] 0 27 28 .identifier (.string "N")))
      (i := (mkIterator constAroundNamespace 29 30 .openBrace (.string "N"))) (by decide) rfl]
  show preprocessCodeLoop specHost _ (preState constAroundNamespace (prepassTables [("a", .string "undeclared")] [⟨"", 10⟩] [{ id := "N", constObjects := [], constLocations := [] }]) (.named 0) [] 0 29 30 .openBrace (.string "N")) = _
  rw [preprocessCodeLoop_openBrace (H := specHost) (s := (preState constAroundNamespace (prepassTables [("a", .string "undeclared")] [⟨"", 10⟩] [{ id := "N", constObjects := [], constLocations := [] }]) (.named 0) [] 0 29 30 .openBrace (.string "N")))
      (i := (mkIterator constAroundNamespace 31 32 .closeBrace (.string "N"))) rfl rfl]
  show preprocessCodeLoop specHost _ (preState constAroundNamespace (prepassTables [("a", .string "undeclared")] [⟨"", 10⟩] [{ id := "N", constObjects := [], constLocations := [] }]) (.named 0) [] 1 31 32 .closeBrace (.string "N")) = _
  rw [preprocessCodeLoop_closeBrace_leave (H := specHost) (s := (preState constAroundNamespace (prepassTables [("a", .string "undeclared")] [⟨"", 10⟩] [{ id := "N", constObjects := [], constLocations := [] }]) (.named 0) [] 1 31 32 .closeBrace (.string "N")))
      (f := (preState constAroundNamespace (prepassTables [("a", .string "undeclared")] [⟨"", 10⟩] [{ id := "N", constObjects := [], constLocations := [] }]) (.named 0) [] 0 33 38 .const_ (.string "N")))
      (i := (mkIterator constAroundNamespace 33 38 .const_ (.string "N"))) rfl (by decide) (by decide) rfl rfl]
  show preprocessCodeLoop specHost _ (preState constAroundNamespace (prepassTables [("a", .string "undeclared")] [⟨"", 10⟩] [{ id := "N", constObjects := [], constLocations := [] }]) .root [] 0 33 38 .const_ (.string "N")) = _
  rw [preprocessCodeLoop_const (H := specHost) (s := (preState constAroundNamespace (prepassTables [("a", .string "undeclared")] [⟨"", 10⟩] [{ id := "N", constObjects := [], constLocations := [] }]) .root [] 0 33 38 .const_ (.string "N")))
      (a := (mkIterator constAroundNamespace 39 42 .var (.string "N")))
      (b := (mkIterator constAroundNamespace 43 44 .identifier (.string "a"))) (m := true) rfl rfl rfl (by decide) (by decide) rfl]
  show preprocessCodeLoop specHost _ (preState constAroundNamespace (prepassTables [("a", .string "undeclared")] [⟨"", 10⟩, ⟨"", 43⟩] [{ id := "N", constObjects := [], constLocations := [] }]) .root ["a"] 0 43 44 .identifier (.string "a")) = _
  rw [preprocessCodeLoop_skip (H := specHost) (s := (preState constAroundNamespace (prepassTables [("a", .string "undeclared")] [⟨"", 10⟩, ⟨"", 43⟩] [{ id := "N", constObjects := [], constLocations := [] }]) .root ["a"] 0 43 44 .identifier (.string "a")))
      (i := (mkIterator constAroundNamespace 45 46 .assign (.string "a"))) (by decide) rfl]
  show preprocessCodeLoop specHost _ (preState constAroundNamespace (prepassTables [("a", .string "undeclared")] [⟨"", 10⟩, ⟨"", 43⟩] [{ id := "N", constObjects := [], constLocations := [] }]) .root ["a"] 0 45 46 .assign (.string "a")) = _
  rw [preprocessCodeLoop_skip (H := specHost) (s := (preState constAroundNamespace (prepassTables [("a", .string "undeclared")] [⟨"", 10⟩, ⟨"", 43⟩] [{ id := "N", constObjects := [], constLocations := [] }]) .root ["a"] 0 45 46 .assign (.string "a")))
      (i := (mkIterator constAroundNamespace 47 48 .literal (.int64 2))) (by decide) rfl]
  show preprocessCodeLoop specHost _ (preState constAroundNamespace (prepassTables [("a", .string "undeclared")] [⟨"", 10⟩, ⟨"", 43⟩] [{ id := "N", constObjects := [], constLocations := [] }]) .root ["a"] 0 47 48 .literal (.int64 2)) = _
  rw [preprocessCodeLoop_skip (H := specHost) (s := (preState constAroundNamespace (prepassTables [("a", .string "undeclared")] [⟨"", 10⟩, ⟨"", 43⟩] [{ id := "N", constObjects := [], constLocations := [] }]) .root ["a"] 0 47 48 .literal (.int64 2)))
      (i := (mkIterator constAroundNamespace 48 49 .semicolon (.int64 2))) (by decide) rfl]
  show preprocessCodeLoop specHost _ (preState constAroundNamespace (prepassTables [("a", .string "undeclared")] [⟨"", 10⟩, ⟨"", 43⟩] [{ id := "N", constObjects := [], constLocations := [] }]) .root ["a"] 0 48 49 .semicolon (.int64 2)) = _
  rw [preprocessCodeLoop_skip (H := specHost) (s := (preState constAroundNamespace (prepassTables [("a", .string "undeclared")] [⟨"", 10⟩, ⟨"", 43⟩] [{ id := "N", constObjects := [], constLocations := [] }]) .root ["a"] 0 48 49 .semicolon (.int64 2)))
      (i := (mkIterator constAroundNamespace 49 49 .eof (.int64 2))) (by decide) rfl]
  show preprocessCodeLoop specHost _ (preState constAroundNamespace (prepassTables [("a", .string "undeclared")] [⟨"", 10⟩, ⟨"", 43⟩] [{ id := "N", constObjects := [], constLocations := [] }]) .root ["a"] 0 49 49 .eof (.int64 2)) = _
  rw [preprocessCodeLoop_eof (H := specHost) (s := (preState constAroundNamespace (prepassTables [("a", .string "undeclared")] [⟨"", 10⟩, ⟨"", 43⟩] [{ id := "N", constObjects := [], constLocations := [] }]) .root ["a"] 0 49 49 .eof (.int64 2))) rfl rfl]
  rfl

/-- The pre-pass over two constants of one name around a namespace block. -/
theorem constAroundNamespace_prepass (n : Nat) :
    preprocessCode specHost (n + 16) constAroundNamespace.toList "" HiseSpecialData.empty =
      .ok (prepassTables [("a", .string "undeclared")] [⟨"", 10⟩, ⟨"", 43⟩] [{ id := "N", constObjects := [], constLocations := [] }]) :=
  preprocessCode_eq (show constAroundNamespace.toList.isEmpty = false from rfl)
    (show TokenIterator.new specHost constAroundNamespace.toList "" = .ok (mkIterator constAroundNamespace 0 5 .const_ .void_) from rfl)
    (constAroundNamespace_loop n)

/-! ## Includes -/

/-- The pre-pass at `include (`: the included text is pre-passed with the
tables of the including text, then the loop goes on at the file name. -/
theorem preprocessCodeLoop_include {H : Host} {n : Nat} {s : PreprocessState}
    {a b : TokenIterator} {file : String} {code : List Char}
    (h : s.it.currentType = .include_) (hs : TokenIterator.skip H s.it = .ok ((), a))
    (ha : a.currentType = .openParen) (hb : TokenIterator.skip H a = .ok ((), b))
    (hfile : getFileContent H s.hiseSpecialData b.currentValue.toString = .ok (file, code)) :
    preprocessCodeLoop H (n + 1) s =
      match preprocessCode H n code file s.hiseSpecialData with
      | .ok d => preprocessCodeLoop H n { s with it := b, hiseSpecialData := d }
      | .error e => .error e
      | .outOfFuel => .outOfFuel := by
  rw [preprocessCodeLoop]
  simp only [StM.bind_apply, StM.get_apply, h, ne_eq, reduceCtorEq, not_false_eq_true, if_true,
    if_false, StM.pure_apply, liftPre_match_of_eq h hs]
  rw [liftPre_match_of_eq (s := { s with it := a }) ha hb]
  simp only [liftPreExcept, hfile, liftPreRes, modifyPreData]
  cases preprocessCode H n code file s.hiseSpecialData <;> simp [StM.modify_apply, StM.bind_apply]

theorem parses_parseStatement_include {H : Host} {s t u : ExpressionTreeBuilder}
    {st : Statement} (h : s.currentType = .include_) (hs : skip H s = .ok ((), t))
    (hx : Parses (parseExternalFile H) t st u) : Parses (parseStatement H) s st u := by
  obtain ⟨n, hx⟩ := hx
  refine ⟨n + 1, ?_⟩
  rw [parseStatement]
  simp only [StM.bind_apply, matchIf_of_eq h hs, if_true, hx]

theorem fails_parseStatement_include {H : Host} {s t : ExpressionTreeBuilder} {msg : String}
    (h : s.currentType = .include_) (hs : skip H s = .ok ((), t))
    (hx : Fails (parseExternalFile H) t msg) : Fails (parseStatement H) s msg := by
  obtain ⟨n, hx⟩ := hx
  refine ⟨n + 1, ?_⟩
  rw [parseStatement]
  simp only [StM.bind_apply, matchIf_of_eq h hs, if_true, hx]

/-- A statement list fails where one of its statements fails. -/
theorem fails_parseStatementListLoop_here {H : Host} {s : ExpressionTreeBuilder}
    {sts locks : List Statement} {msg : String}
    (h1 : s.currentType ≠ .closeBrace) (h2 : s.currentType ≠ .eof)
    (hst : Fails (parseStatement H) s msg) :
    Fails (fun n => parseStatementListLoop H n sts locks) s msg := by
  obtain ⟨n, hst⟩ := hst
  refine ⟨n + 1, ?_⟩
  show parseStatementListLoop H (n + 1) sts locks s = _
  rw [parseStatementListLoop]
  simp only [StM.bind_apply, StM.get_apply, if_pos (And.intro h1 h2), hst]

/-- A statement list fails when the list after its first statement fails. -/
theorem fails_parseStatementListLoop_step {H : Host} {s t : ExpressionTreeBuilder}
    {sts locks : List Statement} {st : Statement} {msg : String}
    (h1 : s.currentType ≠ .closeBrace) (h2 : s.currentType ≠ .eof)
    (hst : Parses (parseStatement H) s st t) (hl : ∀ x y, st ≠ .LockStatement x y)
    (hrest : Fails (fun n => parseStatementListLoop H n (sts ++ [st]) locks) t msg) :
    Fails (fun n => parseStatementListLoop H n sts locks) s msg := by
  obtain ⟨n1, hst⟩ := hst
  obtain ⟨n2, hrest⟩ := hrest
  have e1 := fuel_mono (fun k => (monoAt H k).parseStatement) hst (Nat.le_max_left n1 n2)
  have e2 := fuel_mono_error (fun k => (monoAt H k).parseStatementListLoop (sts ++ [st]) locks)
    hrest (Nat.le_max_right n1 n2)
  refine ⟨max n1 n2 + 1, ?_⟩
  show parseStatementListLoop H (max n1 n2 + 1) sts locks s = _
  rw [parseStatementListLoop]
  simp only [StM.bind_apply, StM.get_apply, if_pos (And.intro h1 h2), e1]
  cases st <;> first | exact e2 | exact absurd rfl (hl _ _)

theorem fails_parseStatementList {H : Host} {s : ExpressionTreeBuilder} {msg : String}
    (h : Fails (fun n => parseStatementListLoop H n [] []) s msg) :
    Fails (parseStatementList H) s msg := by
  obtain ⟨n, h⟩ := h
  exact ⟨n + 1, by rw [parseStatementList]; exact h⟩

/-- The `try` block of `parseExternalFile` returns what its body returns. -/
theorem catchInclude_of_ok {α : Type} {m : Parser α} {s : ExpressionTreeBuilder}
    {r : α × ExpressionTreeBuilder} (h : m s = .ok r) : catchInclude m s = .ok r := by
  unfold catchInclude
  rw [h]

/-- Under `USE_BACKEND` an `include` of an existing file that is in the set of
included files throws. -/
theorem parseExternalFile_included {H : Host} {n : Nat} {s t : ExpressionTreeBuilder}
    {x : List Char} (hb : H.USE_BACKEND = true) (h : s.currentType = .openParen)
    (hs : skip H s = .ok ((), t))
    (hload : H.loadFileAsString (canonicalName H t.currentValue.toString) = some x)
    (hin : t.hiseSpecialData.includedFiles.any
      (fun e => e.f = canonicalName H t.currentValue.toString) = true) :
    parseExternalFile H (n + 1) s = .error ("File " ++
      H.getFileName (canonicalName H t.currentValue.toString) ++
      " was included multiple times") := by
  have hfile : getFileContent H t.hiseSpecialData t.currentValue.toString = .error ("File " ++
      H.getFileName (canonicalName H t.currentValue.toString) ++
      " was included multiple times") := by
    unfold getFileContent
    simp only [hb, if_true]
    show (match H.loadFileAsString (canonicalName H t.currentValue.toString) with
      | none => _
      | some fileContent => _) = _
    rw [hload]
    show (if t.hiseSpecialData.includedFiles.any
      (fun e => e.f = canonicalName H t.currentValue.toString) = true then _ else _) = _
    rw [if_pos hin]
    rfl
  rw [parseExternalFile]
  simp only [StM.bind_apply, match_of_eq h, hs, StM.get_apply, liftExcept, hfile]

/-- Under `USE_BACKEND` the first `include` of a file with text: the file is put
into the set of included files, then its text is parsed. -/
theorem parses_parseExternalFile_project {H : Host} {s a c d u v : ExpressionTreeBuilder}
    {text : List Char} {i : TokenIterator} {b : Statement}
    (hb : H.USE_BACKEND = true) (h : s.currentType = .openParen)
    (hs : skip H s = .ok ((), a))
    (hload : H.loadFileAsString (canonicalName H a.currentValue.toString) = some text)
    (hnot : a.hiseSpecialData.includedFiles.any
      (fun e => e.f = canonicalName H a.currentValue.toString) = false)
    (hne : text.isEmpty = false)
    (hnew : TokenIterator.new H text (canonicalName H a.currentValue.toString) = .ok i)
    (hbody : Parses (parseStatementList H)
      { toTokenIterator := i
        hiseSpecialData := { a.hiseSpecialData with
          includedFiles := a.hiseSpecialData.includedFiles ++
            [{ f := canonicalName H a.currentValue.toString }] } } b v)
    (hlit : a.currentType = .literal)
    (ha : skip H { a with hiseSpecialData := v.hiseSpecialData } = .ok ((), c))
    (hclose : c.currentType = .closeParen) (hc : skip H c = .ok ((), d))
    (hsemi : d.currentType = .semicolon) (hd : skip H d = .ok ((), u)) :
    Parses (parseExternalFile H) s b u := by
  have hfile : getFileContent H a.hiseSpecialData a.currentValue.toString =
      .ok (canonicalName H a.currentValue.toString, text) := by
    unfold getFileContent
    simp only [hb, if_true]
    show (match H.loadFileAsString (canonicalName H a.currentValue.toString) with
      | none => _
      | some fileContent => _) = _
    rw [hload]
    show (if a.hiseSpecialData.includedFiles.any
      (fun e => e.f = canonicalName H a.currentValue.toString) = true then _ else _) = _
    rw [hnot]
    rfl
  obtain ⟨n, hbody⟩ := hbody
  refine ⟨n + 1, ?_⟩
  rw [parseExternalFile]
  simp only [StM.bind_apply, match_of_eq h, hs, StM.get_apply, liftExcept, hfile, hne,
    Bool.false_eq_true, if_false, hb, if_true, modifyData, StM.modify_apply]
  apply catchInclude_of_ok
  simp only [StM.bind_apply, liftRes, hnew, runNested, hbody]
  have hlit2 : ({ a with hiseSpecialData := v.hiseSpecialData } :
      ExpressionTreeBuilder).currentType = .literal := hlit
  simp only [match_of_eq hlit2, ha, match_of_eq hclose, hc, match_of_eq hsemi, hd,
    StM.pure_apply]

/-- Without `USE_BACKEND` an `include` of a script with text: its text is
parsed; the set of included files is not looked at. -/
theorem parses_parseExternalFile_collection {H : Host} {s a c d u v : ExpressionTreeBuilder}
    {i : TokenIterator} {b : Statement}
    (hb : H.USE_BACKEND = false) (h : s.currentType = .openParen)
    (hs : skip H s = .ok ((), a))
    (hne : (H.getExternalScriptFromCollection a.currentValue.toString).isEmpty = false)
    (hnew : TokenIterator.new H (H.getExternalScriptFromCollection a.currentValue.toString)
      a.currentValue.toString = .ok i)
    (hbody : Parses (parseStatementList H)
      { toTokenIterator := i, hiseSpecialData := a.hiseSpecialData } b v)
    (hlit : a.currentType = .literal)
    (ha : skip H { a with hiseSpecialData := v.hiseSpecialData } = .ok ((), c))
    (hclose : c.currentType = .closeParen) (hc : skip H c = .ok ((), d))
    (hsemi : d.currentType = .semicolon) (hd : skip H d = .ok ((), u)) :
    Parses (parseExternalFile H) s b u := by
  have hfile : getFileContent H a.hiseSpecialData a.currentValue.toString =
      .ok (a.currentValue.toString,
        H.getExternalScriptFromCollection a.currentValue.toString) := by
    unfold getFileContent
    simp only [hb, Bool.false_eq_true, if_false]
  obtain ⟨n, hbody⟩ := hbody
  refine ⟨n + 1, ?_⟩
  rw [parseExternalFile]
  simp only [StM.bind_apply, match_of_eq h, hs, StM.get_apply, liftExcept, hfile, hne,
    Bool.false_eq_true, if_false, hb, StM.pure_apply]
  apply catchInclude_of_ok
  simp only [StM.bind_apply, liftRes, hnew, runNested, hbody]
  have hlit2 : ({ a with hiseSpecialData := v.hiseSpecialData } :
      ExpressionTreeBuilder).currentType = .literal := hlit
  simp only [match_of_eq hlit2, ha, match_of_eq hclose, hc, match_of_eq hsemi, hd,
    StM.pure_apply]

/-- The driver returns what the statement list returns on the tables of the
pre-pass. -/
theorem execute_ok {H : Host} {k : Nat} {d e : HiseSpecialData} {code : List Char}
    {i : TokenIterator} {b : Statement} {u : ExpressionTreeBuilder}
    (hnew : TokenIterator.new H code "" = .ok i)
    (hpre : ∀ n, preprocessCode H (n + k) code "" d = .ok e)
    (hp : Parses (parseStatementList H) { toTokenIterator := i, hiseSpecialData := e } b u) :
    ∃ fuel, execute H fuel d code true = .ok (b, u) := by
  obtain ⟨n, hp⟩ := hp
  refine ⟨n + k, ?_⟩
  have hp2 := fuel_mono (fun j => (monoAt H j).parseStatementList) hp (Nat.le_add_right n k)
  simp only [execute, ExpressionTreeBuilder.new, if_true, hnew, hpre n, hp2]

/-- The driver throws what the statement list throws on the tables of the
pre-pass. -/
theorem execute_error {H : Host} {k : Nat} {d e : HiseSpecialData} {code : List Char}
    {i : TokenIterator} {msg : String}
    (hnew : TokenIterator.new H code "" = .ok i)
    (hpre : ∀ n, preprocessCode H (n + k) code "" d = .ok e)
    (hp : Fails (parseStatementList H) { toTokenIterator := i, hiseSpecialData := e } msg) :
    ∃ fuel, execute H fuel d code true = .error msg := by
  obtain ⟨n, hp⟩ := hp
  refine ⟨n + k, ?_⟩
  have hp2 := fuel_mono_error (fun j => (monoAt H j).parseStatementList) hp
    (Nat.le_add_right n k)
  simp only [execute, ExpressionTreeBuilder.new, if_true, hnew, hpre n, hp2]

/-- A plain name of the root scope that no table holds is read as an
`UnqualifiedName`. -/
theorem parses_parseUnary_unqualified_of {H : Host} {s s1 : ExpressionTreeBuilder}
    (h : AtRootIdentifier s)
    (ho : getInlineFunction s.hiseSpecialData s.currentValue.toString none = none)
    (h1 : Hise.indexOf s.hiseSpecialData.apiIds s.currentValue.toString = -1)
    (h2 : getConstIndex s.hiseSpecialData s.currentValue.toString none = -1)
    (h3 : s.hiseSpecialData.getExternalCIndex s.currentValue.toString = -1)
    (h4 : getRegisterIndex s.hiseSpecialData s.currentValue.toString none = -1)
    (h5 : NamedValueSet.indexOf s.hiseSpecialData.globals s.currentValue.toString = -1)
    (hcb : s.currentlyParsedCallback = Identifier.null)
    (hs : skip H s = .ok ((), s1)) (hsuf : s1.currentType ∉ suffixTokens) :
    Parses (parseUnary H) s (.UnqualifiedName s.currentValue.toString) s1 := by
  refine ⟨3, ?_⟩
  rw [parseUnary_identifier h.identifier, parseFactor_root_unqualified h ho h1 h2 h3 h4 h5 hcb hs,
    parseSuffixes_stop hsuf]

/-- The pre-pass at `include (` when the pre-pass of the included text returns. -/
theorem preprocessCodeLoop_include_ok {H : Host} {n : Nat} {s : PreprocessState}
    {a b : TokenIterator} {file : String} {code : List Char} {d : HiseSpecialData}
    (h : s.it.currentType = .include_) (hs : TokenIterator.skip H s.it = .ok ((), a))
    (ha : a.currentType = .openParen) (hb : TokenIterator.skip H a = .ok ((), b))
    (hfile : getFileContent H s.hiseSpecialData b.currentValue.toString = .ok (file, code))
    (hpre : preprocessCode H n code file s.hiseSpecialData = .ok d) :
    preprocessCodeLoop H (n + 1) s =
      preprocessCodeLoop H n { s with it := b, hiseSpecialData := d } := by
  rw [preprocessCodeLoop_include h hs ha hb hfile, hpre]

/-- The pre-pass at `include (` when the pre-pass of the included text runs out
of fuel. -/
theorem preprocessCodeLoop_include_outOfFuel {H : Host} {n : Nat} {s : PreprocessState}
    {a b : TokenIterator} {file : String} {code : List Char}
    (h : s.it.currentType = .include_) (hs : TokenIterator.skip H s.it = .ok ((), a))
    (ha : a.currentType = .openParen) (hb : TokenIterator.skip H a = .ok ((), b))
    (hfile : getFileContent H s.hiseSpecialData b.currentValue.toString = .ok (file, code))
    (hpre : preprocessCode H n code file s.hiseSpecialData = .outOfFuel) :
    preprocessCodeLoop H (n + 1) s = .outOfFuel := by
  rw [preprocessCodeLoop_include h hs ha hb hfile, hpre]

/-! ## Runs over programs with includes -/

/-- The pre-pass over the included text changes nothing. -/
theorem included_prepass_collection (m : Nat) (h : 4 ≤ m) :
    preprocessCode (collectionHost includedText) m includedText.toList "a.js" HiseSpecialData.empty = .ok HiseSpecialData.empty := by
  obtain ⟨n, rfl⟩ := Nat.exists_eq_add_of_le' h
  have key : preprocessCodeLoop (collectionHost includedText) (n + 3) (filePrepass HiseSpecialData.empty "a.js" includedText 0 1 .identifier (.string "x")) =
      .ok ((), (filePrepass HiseSpecialData.empty "a.js" includedText 2 2 .eof (.string "x"))) := by
    rw [preprocessCodeLoop_skip (H := (collectionHost includedText)) (s := (filePrepass HiseSpecialData.empty "a.js" includedText 0 1 .identifier (.string "x")))
      (i := (fileIterator "a.js" includedText 1 2 .semicolon (.string "x"))) (by decide) rfl]
    show preprocessCodeLoop (collectionHost includedText) _ (filePrepass HiseSpecialData.empty "a.js" includedText 1 2 .semicolon (.string "x")) = _
    rw [preprocessCodeLoop_skip (H := (collectionHost includedText)) (s := (filePrepass HiseSpecialData.empty "a.js" includedText 1 2 .semicolon (.string "x")))
      (i := (fileIterator "a.js" includedText 2 2 .eof (.string "x"))) (by decide) rfl]
    show preprocessCodeLoop (collectionHost includedText) _ (filePrepass HiseSpecialData.empty "a.js" includedText 2 2 .eof (.string "x")) = _
    rw [preprocessCodeLoop_eof (H := (collectionHost includedText)) (s := (filePrepass HiseSpecialData.empty "a.js" includedText 2 2 .eof (.string "x"))) rfl rfl]
    rfl
  exact preprocessCode_eq (show includedText.toList.isEmpty = false from rfl)
    (show TokenIterator.new (collectionHost includedText) includedText.toList "a.js" =
      .ok (fileIterator "a.js" includedText 0 1 .identifier (.string "x")) from rfl) key

/-- The pre-pass over `includeTwice` pre-passes the included text twice and
records no file. -/
theorem includeTwice_prepass_collection (n : Nat) :
    preprocessCode (collectionHost includedText) (n + 10) includeTwice.toList "" HiseSpecialData.empty = .ok HiseSpecialData.empty := by
  have key : preprocessCodeLoop (collectionHost includedText) (n + 9) (filePrepass HiseSpecialData.empty "" includeTwice 0 7 .include_ .void_) =
      .ok ((), (filePrepass HiseSpecialData.empty "" includeTwice 33 33 .eof (.string "a.js"))) := by
    rw [preprocessCodeLoop_include_ok (H := (collectionHost includedText)) (s := (filePrepass HiseSpecialData.empty "" includeTwice 0 7 .include_ .void_))
      (a := (fileIterator "" includeTwice 7 8 .openParen .void_))
      (b := (fileIterator "" includeTwice 8 14 .literal (.string "a.js"))) rfl rfl rfl rfl
      (show getFileContent (collectionHost includedText) HiseSpecialData.empty "a.js" = .ok ("a.js", includedText.toList) from rfl)
      (included_prepass_collection (n + 8) (by omega))]
    show preprocessCodeLoop (collectionHost includedText) _ (filePrepass HiseSpecialData.empty "" includeTwice 8 14 .literal (.string "a.js")) = _
    rw [preprocessCodeLoop_skip (H := (collectionHost includedText)) (s := (filePrepass HiseSpecialData.empty "" includeTwice 8 14 .literal (.string "a.js")))
      (i := (fileIterator "" includeTwice 14 15 .closeParen (.string "a.js"))) (by decide) rfl]
    show preprocessCodeLoop (collectionHost includedText) _ (filePrepass HiseSpecialData.empty "" includeTwice 14 15 .closeParen (.string "a.js")) = _
    rw [preprocessCodeLoop_skip (H := (collectionHost includedText)) (s := (filePrepass HiseSpecialData.empty "" includeTwice 14 15 .closeParen (.string "a.js")))
      (i := (fileIterator "" includeTwice 15 16 .semicolon (.string "a.js"))) (by decide) rfl]
    show preprocessCodeLoop (collectionHost includedText) _ (filePrepass HiseSpecialData.empty "" includeTwice 15 16 .semicolon (.string "a.js")) = _
    rw [preprocessCodeLoop_skip (H := (collectionHost includedText)) (s := (filePrepass HiseSpecialData.empty "" includeTwice 15 16 .semicolon (.string "a.js")))
      (i := (fileIterator "" includeTwice 17 24 .include_ (.string "a.js"))) (by decide) rfl]
    show preprocessCodeLoop (collectionHost includedText) _ (filePrepass HiseSpecialData.empty "" includeTwice 17 24 .include_ (.string "a.js")) = _
    rw [preprocessCodeLoop_include_ok (H := (collectionHost includedText)) (s := (filePrepass HiseSpecialData.empty "" includeTwice 17 24 .include_ (.string "a.js")))
      (a := (fileIterator "" includeTwice 24 25 .openParen (.string "a.js")))
      (b := (fileIterator "" includeTwice 25 31 .literal (.string "a.js"))) rfl rfl rfl rfl
      (show getFileContent (collectionHost includedText) HiseSpecialData.empty "a.js" = .ok ("a.js", includedText.toList) from rfl)
      (included_prepass_collection (n + 4) (by omega))]
    show preprocessCodeLoop (collectionHost includedText) _ (filePrepass HiseSpecialData.empty "" includeTwice 25 31 .literal (.string "a.js")) = _
    rw [preprocessCodeLoop_skip (H := (collectionHost includedText)) (s := (filePrepass HiseSpecialData.empty "" includeTwice 25 31 .literal (.string "a.js")))
      (i := (fileIterator "" includeTwice 31 32 .closeParen (.string "a.js"))) (by decide) rfl]
    show preprocessCodeLoop (collectionHost includedText) _ (filePrepass HiseSpecialData.empty "" includeTwice 31 32 .closeParen (.string "a.js")) = _
    rw [preprocessCodeLoop_skip (H := (collectionHost includedText)) (s := (filePrepass HiseSpecialData.empty "" includeTwice 31 32 .closeParen (.string "a.js")))
      (i := (fileIterator "" includeTwice 32 33 .semicolon (.string "a.js"))) (by decide) rfl]
    show preprocessCodeLoop (collectionHost includedText) _ (filePrepass HiseSpecialData.empty "" includeTwice 32 33 .semicolon (.string "a.js")) = _
    rw [preprocessCodeLoop_skip (H := (collectionHost includedText)) (s := (filePrepass HiseSpecialData.empty "" includeTwice 32 33 .semicolon (.string "a.js")))
      (i := (fileIterator "" includeTwice 33 33 .eof (.string "a.js"))) (by decide) rfl]
    show preprocessCodeLoop (collectionHost includedText) _ (filePrepass HiseSpecialData.empty "" includeTwice 33 33 .eof (.string "a.js")) = _
    rw [preprocessCodeLoop_eof (H := (collectionHost includedText)) (s := (filePrepass HiseSpecialData.empty "" includeTwice 33 33 .eof (.string "a.js"))) rfl rfl]
    rfl
  exact preprocessCode_eq (show includeTwice.toList.isEmpty = false from rfl)
    (show TokenIterator.new (collectionHost includedText) includeTwice.toList "" =
      .ok (fileIterator "" includeTwice 0 7 .include_ .void_) from rfl) key

/-- The statement list of the included text. -/
theorem included_parse_collection :
    Parses (parseStatementList (collectionHost includedText)) (fileParser HiseSpecialData.empty "a.js" includedText 0 1 .identifier (.string "x"))
      (.BlockStatement [.expression (.UnqualifiedName "x")] [])
      (fileParser HiseSpecialData.empty "a.js" includedText 2 2 .eof (.string "x")) :=
  parses_parseStatementList
    (parses_parseStatementListLoop_step (t := (fileParser HiseSpecialData.empty "a.js" includedText 2 2 .eof (.string "x")))
      (by decide) (by decide)
      (parses_parseStatement_expression (t := (fileParser HiseSpecialData.empty "a.js" includedText 1 2 .semicolon (.string "x"))) rfl
        (parses_parseExpression_of_unary
          (parses_parseUnary_unqualified_of ⟨rfl, rfl, by decide, rfl, rfl⟩ rfl rfl rfl rfl rfl rfl
            rfl rfl (by decide))
          (by decide))
        rfl rfl)
      (fun _ _ h => nomatch h)
      (parses_parseStatementListLoop_stop (Or.inr rfl)))

/-- With the embedded collection the driver accepts `includeTwice`: both
includes are parsed. -/
theorem includeTwice_collection_accepted :
    ∃ fuel, execute (collectionHost includedText) fuel HiseSpecialData.empty includeTwice.toList true =
      .ok (.BlockStatement
        [.BlockStatement [.expression (.UnqualifiedName "x")] [],
         .BlockStatement [.expression (.UnqualifiedName "x")] []] [],
        (fileParser HiseSpecialData.empty "" includeTwice 33 33 .eof (.string "a.js"))) := by
  have h1 : Parses (parseStatement (collectionHost includedText)) (fileParser HiseSpecialData.empty "" includeTwice 0 7 .include_ .void_)
      (.BlockStatement [.expression (.UnqualifiedName "x")] [])
      (fileParser HiseSpecialData.empty "" includeTwice 17 24 .include_ (.string "a.js")) :=
    parses_parseStatement_include (t := (fileParser HiseSpecialData.empty "" includeTwice 7 8 .openParen .void_)) rfl rfl
      (parses_parseExternalFile_collection (a := (fileParser HiseSpecialData.empty "" includeTwice 8 14 .literal (.string "a.js")))
        (c := (fileParser HiseSpecialData.empty "" includeTwice 14 15 .closeParen (.string "a.js")))
        (d := (fileParser HiseSpecialData.empty "" includeTwice 15 16 .semicolon (.string "a.js")))
        (v := (fileParser HiseSpecialData.empty "a.js" includedText 2 2 .eof (.string "x")))
        (i := (fileIterator "a.js" includedText 0 1 .identifier (.string "x")))
        rfl rfl rfl rfl rfl
        included_parse_collection rfl rfl rfl rfl rfl rfl)
  have h2 : Parses (parseStatement (collectionHost includedText)) (fileParser HiseSpecialData.empty "" includeTwice 17 24 .include_ (.string "a.js"))
      (.BlockStatement [.expression (.UnqualifiedName "x")] [])
      (fileParser HiseSpecialData.empty "" includeTwice 33 33 .eof (.string "a.js")) :=
    parses_parseStatement_include (t := (fileParser HiseSpecialData.empty "" includeTwice 24 25 .openParen (.string "a.js"))) rfl rfl
      (parses_parseExternalFile_collection (a := (fileParser HiseSpecialData.empty "" includeTwice 25 31 .literal (.string "a.js")))
        (c := (fileParser HiseSpecialData.empty "" includeTwice 31 32 .closeParen (.string "a.js")))
        (d := (fileParser HiseSpecialData.empty "" includeTwice 32 33 .semicolon (.string "a.js")))
        (v := (fileParser HiseSpecialData.empty "a.js" includedText 2 2 .eof (.string "x")))
        (i := (fileIterator "a.js" includedText 0 1 .identifier (.string "x")))
        rfl rfl rfl rfl rfl
        included_parse_collection rfl rfl rfl rfl rfl rfl)
  exact execute_ok (k := 10)
    (show TokenIterator.new (collectionHost includedText) includeTwice.toList "" = .ok (fileIterator "" includeTwice 0 7 .include_ .void_) from rfl)
    includeTwice_prepass_collection
    (parses_parseStatementList
      (parses_parseStatementListLoop_step (by decide) (by decide) h1 (fun _ _ h => nomatch h)
        (parses_parseStatementListLoop_step (by decide) (by decide) h2 (fun _ _ h => nomatch h)
          (parses_parseStatementListLoop_stop (Or.inr rfl)))))

/-- The pre-pass over the included text changes nothing. -/
theorem included_prepass_project (m : Nat) (h : 4 ≤ m) :
    preprocessCode (projectHost includedText) m includedText.toList "\x7bPROJECT_FOLDER\x7da.js" HiseSpecialData.empty = .ok HiseSpecialData.empty := by
  obtain ⟨n, rfl⟩ := Nat.exists_eq_add_of_le' h
  have key : preprocessCodeLoop (projectHost includedText) (n + 3) (filePrepass HiseSpecialData.empty "\x7bPROJECT_FOLDER\x7da.js" includedText 0 1 .identifier (.string "x")) =
      .ok ((), (filePrepass HiseSpecialData.empty "\x7bPROJECT_FOLDER\x7da.js" includedText 2 2 .eof (.string "x"))) := by
    rw [preprocessCodeLoop_skip (H := (projectHost includedText)) (s := (filePrepass HiseSpecialData.empty "\x7bPROJECT_FOLDER\x7da.js" includedText 0 1 .identifier (.string "x")))
      (i := (fileIterator "\x7bPROJECT_FOLDER\x7da.js" includedText 1 2 .semicolon (.string "x"))) (by decide) rfl]
    show preprocessCodeLoop (projectHost includedText) _ (filePrepass HiseSpecialData.empty "\x7bPROJECT_FOLDER\x7da.js" includedText 1 2 .semicolon (.string "x")) = _
    rw [preprocessCodeLoop_skip (H := (projectHost includedText)) (s := (filePrepass HiseSpecialData.empty "\x7bPROJECT_FOLDER\x7da.js" includedText 1 2 .semicolon (.string "x")))
      (i := (fileIterator "\x7bPROJECT_FOLDER\x7da.js" includedText 2 2 .eof (.string "x"))) (by decide) rfl]
    show preprocessCodeLoop (projectHost includedText) _ (filePrepass HiseSpecialData.empty "\x7bPROJECT_FOLDER\x7da.js" includedText 2 2 .eof (.string "x")) = _
    rw [preprocessCodeLoop_eof (H := (projectHost includedText)) (s := (filePrepass HiseSpecialData.empty "\x7bPROJECT_FOLDER\x7da.js" includedText 2 2 .eof (.string "x"))) rfl rfl]
    rfl
  exact preprocessCode_eq (show includedText.toList.isEmpty = false from rfl)
    (show TokenIterator.new (projectHost includedText) includedText.toList "\x7bPROJECT_FOLDER\x7da.js" =
      .ok (fileIterator "\x7bPROJECT_FOLDER\x7da.js" includedText 0 1 .identifier (.string "x")) from rfl) key

/-- The pre-pass over `includeTwice` pre-passes the included text twice and
records no file. -/
theorem includeTwice_prepass_project (n : Nat) :
    preprocessCode (projectHost includedText) (n + 10) includeTwice.toList "" HiseSpecialData.empty = .ok HiseSpecialData.empty := by
  have key : preprocessCodeLoop (projectHost includedText) (n + 9) (filePrepass HiseSpecialData.empty "" includeTwice 0 7 .include_ .void_) =
      .ok ((), (filePrepass HiseSpecialData.empty "" includeTwice 33 33 .eof (.string "a.js"))) := by
    rw [preprocessCodeLoop_include_ok (H := (projectHost includedText)) (s := (filePrepass HiseSpecialData.empty "" includeTwice 0 7 .include_ .void_))
      (a := (fileIterator "" includeTwice 7 8 .openParen .void_))
      (b := (fileIterator "" includeTwice 8 14 .literal (.string "a.js"))) rfl rfl rfl rfl
      (show getFileContent (projectHost includedText) HiseSpecialData.empty "a.js" = .ok ("\x7bPROJECT_FOLDER\x7da.js", includedText.toList) from rfl)
      (included_prepass_project (n + 8) (by omega))]
    show preprocessCodeLoop (projectHost includedText) _ (filePrepass HiseSpecialData.empty "" includeTwice 8 14 .literal (.string "a.js")) = _
    rw [preprocessCodeLoop_skip (H := (projectHost includedText)) (s := (filePrepass HiseSpecialData.empty "" includeTwice 8 14 .literal (.string "a.js")))
      (i := (fileIterator "" includeTwice 14 15 .closeParen (.string "a.js"))) (by decide) rfl]
    show preprocessCodeLoop (projectHost includedText) _ (filePrepass HiseSpecialData.empty "" includeTwice 14 15 .closeParen (.string "a.js")) = _
    rw [preprocessCodeLoop_skip (H := (projectHost includedText)) (s := (filePrepass HiseSpecialData.empty "" includeTwice 14 15 .closeParen (.string "a.js")))
      (i := (fileIterator "" includeTwice 15 16 .semicolon (.string "a.js"))) (by decide) rfl]
    show preprocessCodeLoop (projectHost includedText) _ (filePrepass HiseSpecialData.empty "" includeTwice 15 16 .semicolon (.string "a.js")) = _
    rw [preprocessCodeLoop_skip (H := (projectHost includedText)) (s := (filePrepass HiseSpecialData.empty "" includeTwice 15 16 .semicolon (.string "a.js")))
      (i := (fileIterator "" includeTwice 17 24 .include_ (.string "a.js"))) (by decide) rfl]
    show preprocessCodeLoop (projectHost includedText) _ (filePrepass HiseSpecialData.empty "" includeTwice 17 24 .include_ (.string "a.js")) = _
    rw [preprocessCodeLoop_include_ok (H := (projectHost includedText)) (s := (filePrepass HiseSpecialData.empty "" includeTwice 17 24 .include_ (.string "a.js")))
      (a := (fileIterator "" includeTwice 24 25 .openParen (.string "a.js")))
      (b := (fileIterator "" includeTwice 25 31 .literal (.string "a.js"))) rfl rfl rfl rfl
      (show getFileContent (projectHost includedText) HiseSpecialData.empty "a.js" = .ok ("\x7bPROJECT_FOLDER\x7da.js", includedText.toList) from rfl)
      (included_prepass_project (n + 4) (by omega))]
    show preprocessCodeLoop (projectHost includedText) _ (filePrepass HiseSpecialData.empty "" includeTwice 25 31 .literal (.string "a.js")) = _
    rw [preprocessCodeLoop_skip (H := (projectHost includedText)) (s := (filePrepass HiseSpecialData.empty "" includeTwice 25 31 .literal (.string "a.js")))
      (i := (fileIterator "" includeTwice 31 32 .closeParen (.string "a.js"))) (by decide) rfl]
    show preprocessCodeLoop (projectHost includedText) _ (filePrepass HiseSpecialData.empty "" includeTwice 31 32 .closeParen (.string "a.js")) = _
    rw [preprocessCodeLoop_skip (H := (projectHost includedText)) (s := (filePrepass HiseSpecialData.empty "" includeTwice 31 32 .closeParen (.string "a.js")))
      (i := (fileIterator "" includeTwice 32 33 .semicolon (.string "a.js"))) (by decide) rfl]
    show preprocessCodeLoop (projectHost includedText) _ (filePrepass HiseSpecialData.empty "" includeTwice 32 33 .semicolon (.string "a.js")) = _
    rw [preprocessCodeLoop_skip (H := (projectHost includedText)) (s := (filePrepass HiseSpecialData.empty "" includeTwice 32 33 .semicolon (.string "a.js")))
      (i := (fileIterator "" includeTwice 33 33 .eof (.string "a.js"))) (by decide) rfl]
    show preprocessCodeLoop (projectHost includedText) _ (filePrepass HiseSpecialData.empty "" includeTwice 33 33 .eof (.string "a.js")) = _
    rw [preprocessCodeLoop_eof (H := (projectHost includedText)) (s := (filePrepass HiseSpecialData.empty "" includeTwice 33 33 .eof (.string "a.js"))) rfl rfl]
    rfl
  exact preprocessCode_eq (show includeTwice.toList.isEmpty = false from rfl)
    (show TokenIterator.new (projectHost includedText) includeTwice.toList "" =
      .ok (fileIterator "" includeTwice 0 7 .include_ .void_) from rfl) key

/-- The statement list of the included text. -/
theorem included_parse_project :
    Parses (parseStatementList (projectHost includedText)) (fileParser (includeTables ["\x7bPROJECT_FOLDER\x7da.js"]) "\x7bPROJECT_FOLDER\x7da.js" includedText 0 1 .identifier (.string "x"))
      (.BlockStatement [.expression (.UnqualifiedName "x")] [])
      (fileParser (includeTables ["\x7bPROJECT_FOLDER\x7da.js"]) "\x7bPROJECT_FOLDER\x7da.js" includedText 2 2 .eof (.string "x")) :=
  parses_parseStatementList
    (parses_parseStatementListLoop_step (t := (fileParser (includeTables ["\x7bPROJECT_FOLDER\x7da.js"]) "\x7bPROJECT_FOLDER\x7da.js" includedText 2 2 .eof (.string "x")))
      (by decide) (by decide)
      (parses_parseStatement_expression (t := (fileParser (includeTables ["\x7bPROJECT_FOLDER\x7da.js"]) "\x7bPROJECT_FOLDER\x7da.js" includedText 1 2 .semicolon (.string "x"))) rfl
        (parses_parseExpression_of_unary
          (parses_parseUnary_unqualified_of ⟨rfl, rfl, by decide, rfl, rfl⟩ rfl rfl rfl rfl rfl rfl
            rfl rfl (by decide))
          (by decide))
        rfl rfl)
      (fun _ _ h => nomatch h)
      (parses_parseStatementListLoop_stop (Or.inr rfl)))

/-- With the project-rooted loader the driver rejects `includeTwice` at the
second include. -/
theorem includeTwice_project_rejected :
    ∃ fuel, execute (projectHost includedText) fuel HiseSpecialData.empty includeTwice.toList true =
      .error "File \x7bPROJECT_FOLDER\x7da.js was included multiple times" := by
  have h1 : Parses (parseStatement (projectHost includedText)) (fileParser HiseSpecialData.empty "" includeTwice 0 7 .include_ .void_)
      (.BlockStatement [.expression (.UnqualifiedName "x")] [])
      (fileParser (includeTables ["\x7bPROJECT_FOLDER\x7da.js"]) "" includeTwice 17 24 .include_ (.string "a.js")) :=
    parses_parseStatement_include (t := (fileParser HiseSpecialData.empty "" includeTwice 7 8 .openParen .void_)) rfl rfl
      (parses_parseExternalFile_project (a := (fileParser HiseSpecialData.empty "" includeTwice 8 14 .literal (.string "a.js")))
        (c := (fileParser (includeTables ["\x7bPROJECT_FOLDER\x7da.js"]) "" includeTwice 14 15 .closeParen (.string "a.js")))
        (d := (fileParser (includeTables ["\x7bPROJECT_FOLDER\x7da.js"]) "" includeTwice 15 16 .semicolon (.string "a.js")))
        (v := (fileParser (includeTables ["\x7bPROJECT_FOLDER\x7da.js"]) "\x7bPROJECT_FOLDER\x7da.js" includedText 2 2 .eof (.string "x")))
        (i := (fileIterator "\x7bPROJECT_FOLDER\x7da.js" includedText 0 1 .identifier (.string "x")))
        rfl rfl rfl rfl rfl rfl rfl
        included_parse_project rfl rfl rfl rfl rfl rfl)
  have h2 : Fails (parseStatement (projectHost includedText)) (fileParser (includeTables ["\x7bPROJECT_FOLDER\x7da.js"]) "" includeTwice 17 24 .include_ (.string "a.js"))
      "File \x7bPROJECT_FOLDER\x7da.js was included multiple times" :=
    fails_parseStatement_include (t := (fileParser (includeTables ["\x7bPROJECT_FOLDER\x7da.js"]) "" includeTwice 24 25 .openParen (.string "a.js"))) rfl rfl
      ⟨1, parseExternalFile_included (t := (fileParser (includeTables ["\x7bPROJECT_FOLDER\x7da.js"]) "" includeTwice 25 31 .literal (.string "a.js")))
        (x := includedText.toList) rfl rfl rfl rfl rfl⟩
  exact execute_error (k := 10)
    (show TokenIterator.new (projectHost includedText) includeTwice.toList "" = .ok (fileIterator "" includeTwice 0 7 .include_ .void_) from rfl)
    includeTwice_prepass_project
    (fails_parseStatementList
      (fails_parseStatementListLoop_step (by decide) (by decide) h1 (fun _ _ h => nomatch h)
        (fails_parseStatementListLoop_here (by decide) (by decide) h2)))

/-! ## A file that includes itself -/

theorem preprocessCode_eq_outOfFuel {H : Host} {n : Nat} {code : List Char} {file : String}
    {d : HiseSpecialData} {i : TokenIterator}
    (hne : code.isEmpty = false) (hnew : TokenIterator.new H code file = .ok i)
    (hloop : preprocessCodeLoop H n { it := i, hiseSpecialData := d } = .outOfFuel) :
    preprocessCode H (n + 1) code file d = .outOfFuel := by
  rw [preprocessCode]
  simp only [hne, Bool.false_eq_true, if_false, hnew, hloop]

/-- The pre-pass over a text that includes a file holding the same text does
not return, whatever the fuel: every pre-pass starts another one. -/
theorem selfInclude_prepass_outOfFuel (fuel : Nat) : ∀ file : String,
    preprocessCode (projectHost selfInclude) fuel selfInclude.toList file
      HiseSpecialData.empty = .outOfFuel := by
  induction fuel using Nat.strong_induction_on with
  | _ fuel ih =>
    intro file
    match fuel, ih with
    | 0, _ => rfl
    | 1, _ =>
      exact preprocessCode_eq_outOfFuel (show selfInclude.toList.isEmpty = false from rfl)
        (show TokenIterator.new (projectHost selfInclude) selfInclude.toList file =
          .ok (fileIterator file selfInclude 0 7 .include_ .void_) from rfl) rfl
    | m + 2, ih =>
      exact preprocessCode_eq_outOfFuel (show selfInclude.toList.isEmpty = false from rfl)
        (show TokenIterator.new (projectHost selfInclude) selfInclude.toList file =
          .ok (fileIterator file selfInclude 0 7 .include_ .void_) from rfl)
        (preprocessCodeLoop_include_outOfFuel (H := projectHost selfInclude)
          (s := filePrepass HiseSpecialData.empty file selfInclude 0 7 .include_ .void_)
          (a := fileIterator file selfInclude 7 8 .openParen .void_)
          (b := fileIterator file selfInclude 8 14 .literal (.string "a.js")) rfl rfl rfl rfl
          (show getFileContent (projectHost selfInclude) HiseSpecialData.empty "a.js" =
            .ok ("\x7bPROJECT_FOLDER\x7da.js", selfInclude.toList) from rfl)
          (ih m (by omega) _))

/-- The driver does not return on a program that includes a file holding the
program itself: the pre-pass runs out of every fuel, no error is thrown. -/
theorem selfInclude_execute_outOfFuel (fuel : Nat) :
    execute (projectHost selfInclude) fuel HiseSpecialData.empty selfInclude.toList true =
      .outOfFuel := by
  simp only [execute, ExpressionTreeBuilder.new, if_true,
    show TokenIterator.new (projectHost selfInclude) selfInclude.toList "" =
      .ok (fileIterator "" selfInclude 0 7 .include_ .void_) from rfl,
    selfInclude_prepass_outOfFuel fuel ""]

/-! ## The arguments of a call -/

theorem ParsesArguments.at_close {H : Host} {close : TokenType} {s t : ExpressionTreeBuilder}
    {es : List Expression} (h : ParsesArguments H close s es t) : t.currentType = close := by
  induction h with
  | done hc => exact hc
  | last _ _ hc => exact hc
  | more _ _ _ _ _ _ ih => exact ih

/-- The loop of `parseInlineFunctionCall` returns the arguments in the order of
the source. -/
theorem parses_parseArgumentsLoop {H : Host} {close : TokenType} {s t : ExpressionTreeBuilder}
    {es : List Expression} (h : ParsesArguments H close s es t) :
    ∀ acc, Parses (fun n => parseArgumentsLoop H n close acc) s (acc ++ es) t := by
  induction h with
  | done hc =>
    intro acc
    refine ⟨1, ?_⟩
    show parseArgumentsLoop H 1 close acc _ = _
    rw [parseArgumentsLoop]
    simp only [StM.bind_apply, StM.get_apply, hc, ne_eq, not_true_eq_false, if_false,
      StM.pure_apply, List.append_nil]
  | @last s t e hs he hc =>
    intro acc
    obtain ⟨n, he⟩ := he
    refine ⟨n + 2, ?_⟩
    show parseArgumentsLoop H (n + 2) close acc _ = _
    rw [parseArgumentsLoop]
    simp only [StM.bind_apply, StM.get_apply, ne_eq, hs, not_false_eq_true, if_true,
      fuel_mono (fun k => (monoAt H k).parseExpression) he (Nat.le_succ n), hc,
      not_true_eq_false, if_false, StM.pure_apply]
    rw [parseArgumentsLoop]
    simp only [StM.bind_apply, StM.get_apply, hc, ne_eq, not_true_eq_false, if_false,
      StM.pure_apply]
  | @more s t u v e es hs he hne hcomma hskip _ ih =>
    intro acc
    obtain ⟨m, hm⟩ := ih (acc ++ [e])
    obtain ⟨n, he⟩ := he
    refine ⟨max n m + 1, ?_⟩
    show parseArgumentsLoop H (max n m + 1) close acc _ = _
    rw [parseArgumentsLoop]
    simp only [StM.bind_apply, StM.get_apply, ne_eq, hs, not_false_eq_true, if_true,
      fuel_mono (fun k => (monoAt H k).parseExpression) he (Nat.le_max_left n m), hne,
      match_of_eq hcomma, hskip,
      fuel_mono (fun k => (monoAt H k).parseArgumentsLoop close (acc ++ [e])) hm
        (Nat.le_max_right n m)]
    simp only [List.append_assoc, List.singleton_append]

/-- The loop of `parseApiCall` returns the arguments when they are not more
than expected. -/
theorem parses_parseApiCallLoop {H : Host} {s t : ExpressionTreeBuilder}
    {es : List Expression} {p : String} {k : Nat}
    (h : ParsesArguments H .closeParen s es t) :
    ∀ acc : List Expression, acc.length + es.length ≤ k →
      Parses (fun n => parseApiCallLoop H n p k acc) s (acc ++ es) t := by
  induction h with
  | done hc =>
    intro acc _
    refine ⟨1, ?_⟩
    show parseApiCallLoop H 1 p k acc _ = _
    rw [parseApiCallLoop]
    simp only [StM.bind_apply, StM.get_apply, hc, ne_eq, not_true_eq_false, if_false,
      StM.pure_apply, List.append_nil]
  | @last s t e hs he hc =>
    intro acc hk
    have hlt : (acc.length : Int) < (k : Int) := by
      have : acc.length < k := hk
      exact_mod_cast this
    obtain ⟨n, he⟩ := he
    refine ⟨n + 2, ?_⟩
    show parseApiCallLoop H (n + 2) p k acc _ = _
    rw [parseApiCallLoop]
    simp only [StM.bind_apply, StM.get_apply, ne_eq, hs, not_false_eq_true, if_true, hlt,
      fuel_mono (fun k => (monoAt H k).parseExpression) he (Nat.le_succ n), hc,
      not_true_eq_false, if_false, StM.pure_apply]
    rw [parseApiCallLoop]
    simp only [StM.bind_apply, StM.get_apply, hc, ne_eq, not_true_eq_false, if_false,
      StM.pure_apply]
  | @more s t u v e es hs he hne hcomma hskip _ ih =>
    intro acc hk
    have hlt : (acc.length : Int) < (k : Int) := by
      have hk2 : acc.length + (es.length + 1) ≤ k := hk
      have : acc.length < k := by omega
      exact_mod_cast this
    obtain ⟨m, hm⟩ := ih (acc ++ [e]) (by
      have hk2 : acc.length + (es.length + 1) ≤ k := hk
      rw [List.length_append]
      show acc.length + 1 + es.length ≤ k
      omega)
    obtain ⟨n, he⟩ := he
    refine ⟨max n m + 1, ?_⟩
    show parseApiCallLoop H (max n m + 1) p k acc _ = _
    rw [parseApiCallLoop]
    simp only [StM.bind_apply, StM.get_apply, ne_eq, hs, not_false_eq_true, if_true, hlt,
      fuel_mono (fun k => (monoAt H k).parseExpression) he (Nat.le_max_left n m), hne,
      match_of_eq hcomma, hskip,
      fuel_mono (fun j => (monoAt H j).parseApiCallLoop p k (acc ++ [e])) hm
        (Nat.le_max_right n m)]
    simp only [List.append_assoc, List.singleton_append]

/-- The loop of `parseApiCall` throws at the first argument after the expected
ones, before it is read. -/
theorem fails_parseApiCallLoop {H : Host} {s t : ExpressionTreeBuilder}
    {es : List Expression} {p : String} {k : Nat}
    (h : ParsesArguments H .closeParen s es t) :
    ∀ acc : List Expression, acc.length ≤ k → k < acc.length + es.length →
      Fails (fun n => parseApiCallLoop H n p k acc) s
        ("Too many arguments in API call " ++ p ++ "(). Expected: " ++ toString (k : Int)) := by
  induction h with
  | done hc =>
    intro acc h1 h2
    simp only [List.length_nil, Nat.add_zero] at h2
    omega
  | @last s t e hs he hc =>
    intro acc h1 h2
    have hlt : ¬ (acc.length : Int) < (k : Int) := by
      have h3 : k < acc.length + 1 := h2
      have : ¬ acc.length < k := by omega
      exact_mod_cast this
    refine ⟨1, ?_⟩
    show parseApiCallLoop H 1 p k acc _ = _
    rw [parseApiCallLoop]
    simp only [StM.bind_apply, StM.get_apply, ne_eq, hs, not_false_eq_true, if_true, hlt,
      if_false, StM.throw_apply]
  | @more s t u v e es hs he hne hcomma hskip _ ih =>
    intro acc h1 h2
    by_cases hlt : acc.length < k
    · have hlt2 : (acc.length : Int) < (k : Int) := by exact_mod_cast hlt
      obtain ⟨m, hm⟩ := ih (acc ++ [e])
        (by rw [List.length_append]; show acc.length + 1 ≤ k; omega)
        (by
          have h3 : k < acc.length + (es.length + 1) := h2
          rw [List.length_append]
          show k < acc.length + 1 + es.length
          omega)
      obtain ⟨n, he⟩ := he
      refine ⟨max n m + 1, ?_⟩
      show parseApiCallLoop H (max n m + 1) p k acc _ = _
      rw [parseApiCallLoop]
      simp only [StM.bind_apply, StM.get_apply, ne_eq, hs, not_false_eq_true, if_true, hlt2,
        fuel_mono (fun k => (monoAt H k).parseExpression) he (Nat.le_max_left n m), hne,
        match_of_eq hcomma, hskip,
        fuel_mono_error (fun j => (monoAt H j).parseApiCallLoop p k (acc ++ [e])) hm
          (Nat.le_max_right n m)]
    · have hlt2 : ¬ (acc.length : Int) < (k : Int) := by exact_mod_cast hlt
      refine ⟨1, ?_⟩
      show parseApiCallLoop H 1 p k acc _ = _
      rw [parseApiCallLoop]
      simp only [StM.bind_apply, StM.get_apply, ne_eq, hs, not_false_eq_true, if_true, hlt2,
        if_false, StM.throw_apply]

/-- A call of an inline function, up to the comparison of the numbers of
arguments. -/
theorem parseInlineFunctionCall_of_arguments {H : Host} {n : Nat} {r : InlineRef}
    {o : InlineFunctionObject} {s a b c : ExpressionTreeBuilder} {es : List Expression}
    (ho : (s.hiseSpecialData.ns r.ns).inlineFunctions.get? r.index = some o)
    (h : s.currentType = .identifier) (hs : skip H s = .ok ((), a))
    (hopen : a.currentType = .openParen) (ha : skip H a = .ok ((), b))
    (hargs : parseArgumentsLoop H n .closeParen [] b = .ok (es, c)) :
    parseInlineFunctionCall H (n + 1) r s =
      if o.parameterNames.length ≠ es.length then
        .error ("Inline function call " ++ o.name ++ ": parameter amount mismatch: "
          ++ toString es.length ++ " (Expected: " ++ toString o.parameterNames.length ++ ")")
      else matchCloseParen H (.InlineFunctionCall r o.parameterNames.length es) c := by
  rw [parseInlineFunctionCall]
  simp only [StM.bind_apply, StM.get_apply, ho, parseIdentifier_of_identifier h hs,
    match_of_eq hopen, ha, hargs]
  by_cases hl : o.parameterNames.length = es.length
  · simp only [hl, ne_eq, not_true_eq_false, if_false]
  · simp only [hl, ne_eq, not_false_eq_true, if_true, StM.throw_apply]

theorem matchCloseParen_of_closeParen {H : Host} {e : Expression}
    {s t : ExpressionTreeBuilder} (h : s.currentType = .closeParen)
    (hs : skip H s = .ok ((), t)) : matchCloseParen H e s = .ok (e, t) := by
  simp only [matchCloseParen, StM.bind_apply, match_of_eq h, hs, StM.pure_apply]

/-- A call of an API method, up to the comparison of the numbers of
arguments. -/
theorem parseApiCall_of_arguments {H : Host} {n : Nat} {apiIndex functionIndex : Int}
    {k : Nat} {apiClass : ApiClass} {name : Identifier} {s b c : ExpressionTreeBuilder}
    {es : List Expression}
    (hreg : apiClass.getIndexAndNumArgsForFunction name = (functionIndex, (k : Int)))
    (hfi : 0 ≤ functionIndex) (hopen : s.currentType = .openParen)
    (hs : skip H s = .ok ((), b))
    (hargs : parseApiCallLoop H n (apiClass.getName ++ "." ++ name) k [] b = .ok (es, c)) :
    parseApiCall H (n + 1) apiIndex apiClass name s =
      if (k : Int) ≠ es.length then
        .error ("Call to " ++ (apiClass.getName ++ "." ++ name)
          ++ "(): argument number mismatch : " ++ toString es.length ++ " (Expected : "
          ++ toString (k : Int) ++ ")")
      else matchCloseParen H (.ApiCall apiIndex k functionIndex es) c := by
  rw [parseApiCall]
  simp only [hreg, not_lt.mpr hfi, if_false, StM.bind_apply, match_of_eq hopen, hs, hargs]
  by_cases hl : (k : Int) = es.length
  · simp only [hl, ne_eq, not_true_eq_false, if_false]
  · simp only [hl, ne_eq, not_false_eq_true, if_true, StM.throw_apply]

/-- A call of an API method with more arguments than expected. -/
theorem parseApiCall_too_many {H : Host} {n : Nat} {apiIndex f : Int}
    {k : Nat} {apiClass : ApiClass} {name : Identifier} {s b : ExpressionTreeBuilder}
    {msg : String}
    (hreg : apiClass.getIndexAndNumArgsForFunction name = (f, (k : Int)))
    (hfi : 0 ≤ f) (hopen : s.currentType = .openParen)
    (hs : skip H s = .ok ((), b))
    (hargs : parseApiCallLoop H n (apiClass.getName ++ "." ++ name) k [] b = .error msg) :
    parseApiCall H (n + 1) apiIndex apiClass name s = .error msg := by
  rw [parseApiCall]
  simp only [hreg, not_lt.mpr hfi, if_false, StM.bind_apply, match_of_eq hopen, hs, hargs]

/-- A name that is no method of the API class: the call throws before it reads
a token. -/
theorem parseApiCall_not_found {H : Host} {n : Nat} {apiIndex : Int} {apiClass : ApiClass}
    {name : Identifier} {s : ExpressionTreeBuilder}
    (h : (apiClass.getIndexAndNumArgsForFunction name).1 < 0) :
    parseApiCall H (n + 1) apiIndex apiClass name s =
      .error ("Function / constant not found: " ++ (apiClass.getName ++ "." ++ name)) := by
  rw [parseApiCall]
  simp only [h, if_true, StM.throw_apply]

/-! ## Callbacks -/

theorem find_modify_indexOf (f : Callback → Callback) (hf : ∀ x, (f x).name = x.name)
    (name : Identifier) : ∀ (cs : List Callback) (c : Callback),
    cs.find? (fun c => c.name = name) = some c →
    (cs.modify f (Hise.indexOf (cs.map (·.name)) name).toNat).find? (fun c => c.name = name) =
      some (f c) := by
  intro cs
  induction cs with
  | nil => intro c h; simp at h
  | cons x xs ih =>
    intro c h
    by_cases hx : x.name = name
    · have hc : x = c := by simpa [List.find?, hx] using h
      subst hc
      have h0 : Hise.indexOf ((x :: xs).map (·.name)) name = 0 := by
        simp [Hise.indexOf, hx]
      rw [h0]
      simp [List.find?, hf, hx]
    · have h2 : xs.find? (fun c => c.name = name) = some c := by
        simpa [List.find?, hx] using h
      have hmem : name ∈ xs.map (·.name) := by
        have := List.find?_some h2
        have hm := List.mem_of_find?_eq_some h2
        exact List.mem_map.mpr ⟨c, hm, by simpa using this⟩
      have hr : ¬ Hise.indexOf (xs.map (·.name)) name < 0 := fun e =>
        (indexOf_neg_iff _ _).mp e hmem
      have h1 : Hise.indexOf ((x :: xs).map (·.name)) name =
          Hise.indexOf (xs.map (·.name)) name + 1 := by
        simp [Hise.indexOf, hx, hr]
      have h3 : (Hise.indexOf (xs.map (·.name)) name + 1).toNat =
          (Hise.indexOf (xs.map (·.name)) name).toNat + 1 := by omega
      rw [h1, h3, List.modify_succ_cons]
      simp only [List.find?, hx, decide_False]
      exact ih c h2

/-- Writing through the pointer of a callback changes that callback. -/
theorem getCallback_modifyCallback {d : HiseSpecialData} {name : Identifier} {c : Callback}
    (f : Callback → Callback) (hf : ∀ x, (f x).name = x.name)
    (h : d.getCallback name = some c) :
    (d.modifyCallback name f).getCallback name = some (f c) :=
  find_modify_indexOf f hf name d.callbacks c h

theorem take_succ_set {α : Type} (p : α) : ∀ (l : List α) (i : Nat), i < l.length →
    (l.set i p).take (i + 1) = l.take i ++ [p] := by
  intro l
  induction l with
  | nil => intro i h; simp at h
  | cons x xs ih =>
    intro i h
    cases i with
    | zero => simp
    | succ i =>
      simp only [List.length_cons, Nat.add_lt_add_iff_right] at h
      simp [ih i h]

/-- The callback after its parameter slots were written. -/
theorem getCallback_storeParameters {name : Identifier} :
    ∀ (ps : List Identifier) (i : Nat) (d : HiseSpecialData) (c : Callback),
    d.getCallback name = some c → i + ps.length ≤ c.parameters.length →
    ∃ c', (storeParameters name d i ps).getCallback name = some c' ∧
      c'.numArgs = c.numArgs ∧ c'.statements = c.statements ∧
      c'.parameters = c.parameters.take i ++ ps ++ c.parameters.drop (i + ps.length) := by
  intro ps
  induction ps with
  | nil =>
    intro i d c h _
    exact ⟨c, h, rfl, rfl, by simp⟩
  | cons p ps ih =>
    intro i d c h hl
    have hl2 : i + (ps.length + 1) ≤ c.parameters.length := hl
    obtain ⟨c', h1, h2, h3, h4⟩ := ih (i + 1)
      (d.modifyCallback name (fun c =>
        { c with parameters := c.parameters.set i p,
                 parameterValues := c.parameterValues.set i .undefined }))
      { c with parameters := c.parameters.set i p,
               parameterValues := c.parameterValues.set i .undefined }
      (getCallback_modifyCallback _ (fun _ => rfl) h)
      (by simp only [List.length_set]; omega)
    refine ⟨c', h1, h2, h3, ?_⟩
    rw [h4]
    simp only [take_succ_set p c.parameters i (by omega), List.length_cons]
    rw [List.drop_set_of_lt p c.parameters (by omega : i < i + 1 + ps.length)]
    simp [List.append_assoc, Nat.add_assoc, Nat.add_comm 1]

theorem skip_of_iterator {H : Host} {s : ExpressionTreeBuilder} {j : TokenIterator}
    (h : TokenIterator.skip H s.toTokenIterator = .ok ((), j)) :
    skip H s = .ok ((), { s with toTokenIterator := j }) := by
  simp only [skip, liftIt, h]

theorem parseIdentifier_of_ne {H : Host} {s : ExpressionTreeBuilder}
    (h : s.currentType ≠ .identifier) :
    parseIdentifier H s = .error ("Found " ++ getTokenName s.currentType ++ " when expecting "
      ++ getTokenName .identifier) := by
  simp only [parseIdentifier, StM.bind_apply, StM.get_apply, match_of_ne h]

/-- The parameter loop of `parseCallback` followed by `match (closeParen)`: it
returns exactly when the list holds as many names as slots remain. -/
theorem parseCallbackParameters_list {H : Host} {name : Identifier} {n : Nat}
    {it l : TokenIterator} {ps : List Identifier} (h : ParameterList H it ps l) :
    ∀ (k i : Nat) (s : ExpressionTreeBuilder), s.toTokenIterator = it → i + k = n →
      (ps.length = k → ∀ l', TokenIterator.skip H l = .ok ((), l') →
        (parseCallbackParameters H name n k i >>= fun _ => match_ H .closeParen) s =
          .ok ((), { s with
            toTokenIterator := l'
            hiseSpecialData := storeParameters name s.hiseSpecialData i ps })) ∧
      (ps.length ≠ k → ∃ msg,
        (parseCallbackParameters H name n k i >>= fun _ => match_ H .closeParen) s =
          .error msg) := by
  induction h with
  | @nil it hc =>
    intro k i s hs hn
    have hct : s.currentType = .closeParen := by
      rw [show s.currentType = s.toTokenIterator.currentType from rfl, hs]; exact hc
    cases k with
    | zero =>
      refine ⟨fun _ l' hl => ?_, fun hne => absurd rfl hne⟩
      rw [← hs] at hl
      simp only [parseCallbackParameters, StM.bind_apply, StM.pure_apply, match_of_eq hct,
        skip_of_iterator hl, storeParameters]
    | succ k =>
      refine ⟨fun hl => by simp at hl, fun _ => ?_⟩
      simp only [parseCallbackParameters, StM.bind_apply,
        parseIdentifier_of_ne (show s.currentType ≠ .identifier by rw [hct]; decide)]
      exact ⟨_, rfl⟩
  | @single it j hid hskip hc =>
    intro k i s hs hn
    have hct : s.currentType = .identifier := by
      rw [show s.currentType = s.toTokenIterator.currentType from rfl, hs]; exact hid
    have hsk : skip H s = .ok ((), { s with toTokenIterator := j }) :=
      skip_of_iterator (by rw [hs]; exact hskip)
    match k with
    | 0 =>
      refine ⟨fun hl => by simp at hl, fun _ => ?_⟩
      simp only [parseCallbackParameters, StM.bind_apply, StM.pure_apply,
        match_of_ne (show s.currentType ≠ .closeParen by rw [hct]; decide)]
      exact ⟨_, rfl⟩
    | 1 =>
      refine ⟨fun _ l' hl => ?_, fun hne => absurd rfl hne⟩
      have hi : i = n - 1 := by omega
      have hv : s.currentValue = it.currentValue := by
        rw [show s.currentValue = s.toTokenIterator.currentValue from rfl, hs]
      simp only [parseCallbackParameters, StM.bind_apply, parseIdentifier_of_identifier hct hsk,
        modifyData, StM.modify_apply, hi, ne_eq, not_true_eq_false, if_false, StM.pure_apply]
      rw [match_of_eq (by exact hc)]
      rw [skip_of_iterator (by exact hl)]
      simp only [storeParameters, hv]
    | k + 2 =>
      refine ⟨fun hl => by simp at hl, fun _ => ?_⟩
      have hi : i ≠ n - 1 := by omega
      simp only [parseCallbackParameters, StM.bind_apply, parseIdentifier_of_identifier hct hsk,
        modifyData, StM.modify_apply, hi, ne_eq, not_false_eq_true, if_true]
      rw [match_of_ne (by show j.currentType ≠ .comma; rw [hc]; decide)]
      exact ⟨_, rfl⟩
  | @cons it j k0 l p ps hid hskip hcomma hskip2 hrest ih =>
    intro k i s hs hn
    have hct : s.currentType = .identifier := by
      rw [show s.currentType = s.toTokenIterator.currentType from rfl, hs]; exact hid
    have hsk : skip H s = .ok ((), { s with toTokenIterator := j }) :=
      skip_of_iterator (by rw [hs]; exact hskip)
    have hv : s.currentValue = it.currentValue := by
      rw [show s.currentValue = s.toTokenIterator.currentValue from rfl, hs]
    match k with
    | 0 =>
      refine ⟨fun hl => by simp at hl, fun _ => ?_⟩
      simp only [parseCallbackParameters, StM.bind_apply, StM.pure_apply,
        match_of_ne (show s.currentType ≠ .closeParen by rw [hct]; decide)]
      exact ⟨_, rfl⟩
    | 1 =>
      refine ⟨fun hl => by simp at hl, fun _ => ?_⟩
      have hi : i = n - 1 := by omega
      simp only [parseCallbackParameters, StM.bind_apply, parseIdentifier_of_identifier hct hsk,
        modifyData, StM.modify_apply, hi, ne_eq, not_true_eq_false, if_false, StM.pure_apply]
      rw [match_of_ne (by show j.currentType ≠ .closeParen; rw [hcomma]; decide)]
      exact ⟨_, rfl⟩
    | k + 2 =>
      have hi : i ≠ n - 1 := by omega
      have key : (parseCallbackParameters H name n (k + 2) i >>= fun _ => match_ H .closeParen) s =
          (parseCallbackParameters H name n (k + 1) (i + 1) >>= fun _ => match_ H .closeParen)
            { s with
              toTokenIterator := k0
              hiseSpecialData := s.hiseSpecialData.modifyCallback name (fun c =>
                { c with parameters := c.parameters.set i it.currentValue.toString,
                         parameterValues := c.parameterValues.set i .undefined }) } := by
        rw [parseCallbackParameters]
        simp only [StM.bind_apply, parseIdentifier_of_identifier hct hsk,
          modifyData, StM.modify_apply, hi, ne_eq, not_false_eq_true, if_true]
        rw [match_of_eq (by exact hcomma)]
        rw [skip_of_iterator (by exact hskip2)]
        simp only [hv]
      obtain ⟨h1, h2⟩ := ih (k + 1) (i + 1)
        { s with
          toTokenIterator := k0
          hiseSpecialData := s.hiseSpecialData.modifyCallback name (fun c =>
            { c with parameters := c.parameters.set i it.currentValue.toString,
                     parameterValues := c.parameterValues.set i .undefined }) } rfl (by omega)
      rw [key]
      refine ⟨fun hl l' hl' => ?_, fun hne => ?_⟩
      · rw [h1 (by simpa using hl) l' hl']
        simp only [storeParameters]
      · exact h2 (by simpa using hne)

/-- The definition of a callback, up to the body. -/
theorem parseCallback_of_parameters {H : Host} {n : Nat} {s a b : ExpressionTreeBuilder}
    {c : Callback}
    (h : s.currentType = .identifier) (hs : skip H s = .ok ((), a))
    (hcb : a.hiseSpecialData.getCallback s.currentValue.toString = some c)
    (hopen : a.currentType = .openParen) (ha : skip H a = .ok ((), b)) :
    parseCallback H (n + 1) s =
      ((parseCallbackParameters H s.currentValue.toString c.numArgs c.numArgs 0 >>=
          fun _ => match_ H .closeParen) >>= fun _ => do
        StM.modify (fun x => { x with currentlyParsedCallback := s.currentValue.toString })
        let body ← parseBlock H n
        StM.modify (fun x => { x with currentlyParsedCallback := Identifier.null })
        modifyData (fun d => d.modifyCallback s.currentValue.toString
          (fun c => { c with statements := some body }))
        pure Statement.empty) b := by
  rw [parseCallback]
  simp only [StM.bind_apply, parseIdentifier_of_identifier h hs, StM.get_apply, hcb,
    match_of_eq hopen, ha]
  cases parseCallbackParameters H s.currentValue.toString c.numArgs c.numArgs 0 b with
  | ok r => rfl
  | error e => rfl
  | outOfFuel => rfl

theorem parses_parseCallback {H : Host} {s a b v : ExpressionTreeBuilder}
    {l m : TokenIterator} {c : Callback} {p : List Identifier} {r : Statement}
    (h : s.currentType = .identifier) (hs : skip H s = .ok ((), a))
    (hcb : a.hiseSpecialData.getCallback s.currentValue.toString = some c)
    (hopen : a.currentType = .openParen) (ha : skip H a = .ok ((), b))
    (hps : ParameterList H b.toTokenIterator p l) (hlen : p.length = c.numArgs)
    (hl : TokenIterator.skip H l = .ok ((), m))
    (hbody : Parses (parseBlock H)
      { b with
        toTokenIterator := m
        hiseSpecialData := storeParameters s.currentValue.toString b.hiseSpecialData 0 p
        currentlyParsedCallback := s.currentValue.toString } r v) :
    Parses (parseCallback H) s .empty
      { v with
        currentlyParsedCallback := Identifier.null
        hiseSpecialData := v.hiseSpecialData.modifyCallback s.currentValue.toString
          (fun c => { c with statements := some r }) } := by
  obtain ⟨n, hbody⟩ := hbody
  refine ⟨n + 1, ?_⟩
  rw [parseCallback_of_parameters h hs hcb hopen ha, StM.bind_apply,
    ((parseCallbackParameters_list hps c.numArgs 0 b rfl (by omega)).1 hlen m hl)]
  simp only [StM.bind_apply, StM.modify_apply, hbody, modifyData, StM.pure_apply]

theorem fails_parseCallback {H : Host} {s a b : ExpressionTreeBuilder}
    {l : TokenIterator} {c : Callback} {ps : List Identifier}
    (h : s.currentType = .identifier) (hs : skip H s = .ok ((), a))
    (hcb : a.hiseSpecialData.getCallback s.currentValue.toString = some c)
    (hopen : a.currentType = .openParen) (ha : skip H a = .ok ((), b))
    (hps : ParameterList H b.toTokenIterator ps l) (hlen : ps.length ≠ c.numArgs) :
    ∃ msg, Fails (parseCallback H) s msg := by
  obtain ⟨msg, hm⟩ := (parseCallbackParameters_list (H := H) (n := c.numArgs) hps
    c.numArgs 0 b rfl (Nat.zero_add _)).2 hlen
  refine ⟨msg, 1, ?_⟩
  rw [parseCallback_of_parameters h hs hcb hopen ha, StM.bind_apply, hm]

theorem parseFunction_callback {H : Host} {n : Nat} {s : ExpressionTreeBuilder}
    (h : (s.hiseSpecialData.getCallback s.currentValue.toString).isSome = true) :
    parseFunction H (n + 1) s = parseCallback H n s := by
  rw [parseFunction]
  simp only [StM.bind_apply, StM.get_apply, h, if_true]

theorem parseStatement_function {H : Host} {n : Nat} {s t : ExpressionTreeBuilder}
    (h : s.currentType = .function) (hs : skip H s = .ok ((), t)) :
    parseStatement H (n + 1) s = parseFunction H n t := by
  rw [parseStatement]
  simp only [StM.bind_apply, StM.get_apply, h, matchIf_of_ne, ne_eq, reduceCtorEq,
    not_false_eq_true, if_false, Bool.false_eq_true, matchIf_of_eq h hs, if_true]

/-- The statement `function name ...` for the name of a callback is the
definition of the callback. -/
theorem parseStatement_callback {H : Host} {n : Nat} {s t : ExpressionTreeBuilder}
    (h : s.currentType = .function) (hs : skip H s = .ok ((), t))
    (hcb : (t.hiseSpecialData.getCallback t.currentValue.toString).isSome = true) :
    parseStatement H (n + 2) s = parseCallback H n t := by
  rw [parseStatement_function h hs, parseFunction_callback hcb]

/-! ## Names qualified by a namespace -/

/-- At the name of a registered namespace followed by `.`, `parseFactor` reads
both tokens and resolves the next factor in that namespace. -/
theorem parseFactor_namespace {H : Host} {n : Nat} {s t u : ExpressionTreeBuilder} {A : NsPtr}
    (h : AtRootName s)
    (hns : s.hiseSpecialData.getNamespace s.currentValue.toString = some A)
    (hs : skip H s = .ok ((), t)) (hdot : t.currentType = .dot)
    (ht : skip H t = .ok ((), u)) :
    parseFactor H (n + 1) none s = parseFactor H n (some A) u := by
  rw [parseFactor]
  simp only [StM.bind_apply, StM.get_apply, h.identifier, if_true, h.root, ne_eq,
    not_true_eq_false, if_false, h.notIterator, h.notInline, Bool.false_eq_true, false_and,
    hns, match_of_eq h.identifier, hs, match_of_eq hdot, ht]

theorem parseFactor_qualified_inline {H : Host} {n : Nat} {s : ExpressionTreeBuilder}
    {A : NsPtr} {o : InlineRef} (h : AtRootName s)
    (ho : getInlineFunction s.hiseSpecialData s.currentValue.toString (some A) = some o) :
    parseFactor H (n + 1) (some A) s =
      (parseInlineFunctionCall H n o >>= fun e => parseSuffixes H n e) s := by
  rw [parseFactor]
  simp only [StM.bind_apply, StM.get_apply, h.identifier, if_true, h.root, ne_eq,
    not_true_eq_false, if_false, h.notIterator, h.notInline, Bool.false_eq_true, false_and,
    reduceCtorEq, ho]

theorem parseFactor_qualified_const {H : Host} {n : Nat} {s v : ExpressionTreeBuilder}
    {A : NsPtr} (h : AtRootName s)
    (ho : getInlineFunction s.hiseSpecialData s.currentValue.toString (some A) = none)
    (h1 : Hise.indexOf s.hiseSpecialData.apiIds s.currentValue.toString = -1)
    (h2 : getConstIndex s.hiseSpecialData s.currentValue.toString (some A) ≠ -1)
    (hs : skip H s = .ok ((), v)) :
    parseFactor H (n + 1) (some A) s = parseSuffixes H n (.ConstReference A
      (getConstIndex s.hiseSpecialData s.currentValue.toString (some A))) v := by
  rw [parseFactor]
  simp only [StM.bind_apply, StM.get_apply, h.identifier, if_true, h.root, ne_eq,
    not_true_eq_false, if_false, h.notIterator, h.notInline, Bool.false_eq_true, false_and,
    reduceCtorEq, ho, h1, h2, not_false_eq_true,
    parseConstExpression_of_identifier h.identifier hs, Option.getD_some]

theorem parseFactor_qualified_register {H : Host} {n : Nat} {s v : ExpressionTreeBuilder}
    {A : NsPtr} (h : AtRootName s)
    (ho : getInlineFunction s.hiseSpecialData s.currentValue.toString (some A) = none)
    (h1 : Hise.indexOf s.hiseSpecialData.apiIds s.currentValue.toString = -1)
    (h2 : getConstIndex s.hiseSpecialData s.currentValue.toString (some A) = -1)
    (h3 : s.hiseSpecialData.getExternalCIndex s.currentValue.toString = -1)
    (h4 : getRegisterIndex s.hiseSpecialData s.currentValue.toString (some A) ≠ -1)
    (hs : skip H s = .ok ((), v)) :
    parseFactor H (n + 1) (some A) s = parseSuffixes H n (.RegisterName s.currentValue.toString A
      (getRegisterIndex s.hiseSpecialData s.currentValue.toString (some A))) v := by
  rw [parseFactor]
  simp only [StM.bind_apply, StM.get_apply, h.identifier, if_true, h.root, ne_eq,
    not_true_eq_false, if_false, h.notIterator, h.notInline, Bool.false_eq_true, false_and,
    reduceCtorEq, ho, h1, h2, h3, h4, not_false_eq_true,
    parseIdentifier_of_identifier h.identifier hs, Option.getD_some]

/-- In a namespace a name that no table holds is read as an `UnqualifiedName`,
whether or not it is the name of a namespace. -/
theorem parseFactor_qualified_unqualified {H : Host} {n : Nat} {s v : ExpressionTreeBuilder}
    {A : NsPtr} (h : AtRootName s)
    (ho : getInlineFunction s.hiseSpecialData s.currentValue.toString (some A) = none)
    (h1 : Hise.indexOf s.hiseSpecialData.apiIds s.currentValue.toString = -1)
    (h2 : getConstIndex s.hiseSpecialData s.currentValue.toString (some A) = -1)
    (h3 : s.hiseSpecialData.getExternalCIndex s.currentValue.toString = -1)
    (h4 : getRegisterIndex s.hiseSpecialData s.currentValue.toString (some A) = -1)
    (h5 : NamedValueSet.indexOf s.hiseSpecialData.globals s.currentValue.toString = -1)
    (hcb : s.currentlyParsedCallback = Identifier.null)
    (hs : skip H s = .ok ((), v)) :
    parseFactor H (n + 1) (some A) s =
      parseSuffixes H n (.UnqualifiedName s.currentValue.toString) v := by
  rw [parseFactor]
  simp only [StM.bind_apply, StM.get_apply, h.identifier, if_true, h.root, ne_eq,
    not_true_eq_false, if_false, h.notIterator, h.notInline, Bool.false_eq_true, false_and,
    reduceCtorEq, ho, h1, h2, h3, h4, h5, hcb, Option.elim_none]
  show (parseIdentifier H >>= fun i => parseSuffixes H n (.UnqualifiedName i)) s = _
  rw [StM.bind_ok (parseIdentifier_of_identifier h.identifier hs)]

/-- The suffix `.name`. -/
theorem parseSuffixes_dot {H : Host} {n : Nat} {e : Expression} {s t u : ExpressionTreeBuilder}
    (h : s.currentType = .dot) (hs : skip H s = .ok ((), t))
    (hid : t.currentType = .identifier) (ht : skip H t = .ok ((), u)) :
    parseSuffixes H (n + 1) e s = parseSuffixes H n (.DotOperator e t.currentValue.toString) u := by
  rw [parseSuffixes]
  simp only [StM.bind_apply, matchIf_of_eq h hs, if_true, parseIdentifier_of_identifier hid ht]

/-! ## The pre-pass and the set of included files -/

theorem modifyNs_includedFiles (d : HiseSpecialData) (p : NsPtr)
    (f : JavascriptNamespace → JavascriptNamespace) :
    (d.modifyNs p f).includedFiles = d.includedFiles := by
  cases p <;> rfl

theorem keepsIncluded_pure {F : List ExternalFileData} {α : Type} (a : α) :
    KeepsIncluded F (pure a : Preprocessor α) := by
  constructor
  intro s b s' hs h
  simp only [StM.pure_apply, Res.ok.injEq, Prod.mk.injEq] at h
  rw [← h.2]; exact hs

theorem keepsIncluded_get {F : List ExternalFileData} :
    KeepsIncluded F (StM.get : Preprocessor PreprocessState) := by
  constructor
  intro s b s' hs h
  simp only [StM.get_apply, Res.ok.injEq, Prod.mk.injEq] at h
  rw [← h.2]; exact hs

theorem keepsIncluded_throw {F : List ExternalFileData} {α : Type} (e : String) :
    KeepsIncluded F (StM.throw e : Preprocessor α) :=
  ⟨fun _ _ _ _ h => absurd h StM.throw_ne_ok⟩

theorem keepsIncluded_outOfFuel {F : List ExternalFileData} {α : Type} :
    KeepsIncluded F (StM.outOfFuel : Preprocessor α) := by
  constructor
  intro s b s' hs h
  simp [StM.outOfFuel] at h

theorem keepsIncluded_modify {F : List ExternalFileData} (f : PreprocessState → PreprocessState)
    (hf : ∀ s, (f s).hiseSpecialData.includedFiles = s.hiseSpecialData.includedFiles) :
    KeepsIncluded F (StM.modify f) := by
  constructor
  intro s b s' hs h
  simp only [StM.modify_apply, Res.ok.injEq, Prod.mk.injEq] at h
  rw [← h.2, hf]; exact hs

theorem keepsIncluded_modifyPreData {F : List ExternalFileData}
    (f : HiseSpecialData → HiseSpecialData) (hf : ∀ d, (f d).includedFiles = d.includedFiles) :
    KeepsIncluded F (modifyPreData f) :=
  keepsIncluded_modify _ (fun s => hf s.hiseSpecialData)

/-- Tables with the set `F` may replace the tables. -/
theorem keepsIncluded_replace {F : List ExternalFileData} {d : HiseSpecialData}
    (hd : d.includedFiles = F) : KeepsIncluded F (modifyPreData (fun _ => d)) := by
  constructor
  intro s b s' hs h
  simp only [modifyPreData, StM.modify_apply, Res.ok.injEq, Prod.mk.injEq] at h
  rw [← h.2]; exact hd

theorem keepsIncluded_bind {F : List ExternalFileData} {α β : Type} {m : Preprocessor α}
    {k : α → Preprocessor β} (hm : KeepsIncluded F m) (hk : ∀ a, KeepsIncluded F (k a)) :
    KeepsIncluded F (m >>= k) := by
  constructor
  intro s b s' hs h
  obtain ⟨a, t, h1, h2⟩ := StM.bind_eq_ok.mp h
  exact (hk a).h _ _ _ (hm.h _ _ _ hs h1) h2

theorem keepsIncluded_get_bind {F : List ExternalFileData} {β : Type}
    {k : PreprocessState → Preprocessor β}
    (hk : ∀ s, s.hiseSpecialData.includedFiles = F → KeepsIncluded F (k s)) :
    KeepsIncluded F (StM.get >>= k) := by
  constructor
  intro s b s' hs h
  rw [StM.bind_apply, StM.get_apply] at h
  exact (hk s hs).h _ _ _ hs h

theorem keepsIncluded_liftPreRes_bind {F : List ExternalFileData} {α β : Type} {r : Res α}
    {k : α → Preprocessor β} (hk : ∀ a, r = .ok a → KeepsIncluded F (k a)) :
    KeepsIncluded F (liftPreRes r >>= k) := by
  constructor
  intro s b s' hs h
  obtain ⟨a, t, h1, h2⟩ := StM.bind_eq_ok.mp h
  unfold liftPreRes at h1
  split at h1 <;> simp only [Res.ok.injEq, Prod.mk.injEq, reduceCtorEq] at h1
  next x =>
    obtain ⟨rfl, rfl⟩ := h1
    exact (hk x rfl).h _ _ _ hs h2

theorem keepsIncluded_ite {F : List ExternalFileData} {α : Type} {c : Prop} [Decidable c]
    {p q : Preprocessor α} (hp : KeepsIncluded F p) (hq : KeepsIncluded F q) :
    KeepsIncluded F (if c then p else q) := by
  by_cases hc : c
  · simpa [hc] using hp
  · simpa [hc] using hq

theorem keepsIncluded_liftPre {F : List ExternalFileData} {α : Type} (m : StM TokenIterator α) :
    KeepsIncluded F (liftPre m) := by
  constructor
  intro s b s' hs h
  unfold liftPre at h
  split at h <;> simp only [Res.ok.injEq, Prod.mk.injEq, reduceCtorEq] at h
  rw [← h.2]; exact hs

theorem keepsIncluded_liftPreExcept {F : List ExternalFileData} {α : Type}
    (r : Except String α) : KeepsIncluded F (liftPreExcept r) := by
  constructor
  intro s b s' hs h
  unfold liftPreExcept at h
  split at h <;> simp only [Res.ok.injEq, Prod.mk.injEq, reduceCtorEq] at h
  rw [← h.2]; exact hs

theorem keepsIncluded_flushIds {F : List ExternalFileData} : KeepsIncluded F flushIds :=
  keepsIncluded_modify _ (fun _ => modifyNs_includedFiles _ _ _)

theorem keepsIncluded_parseInlineFunctionArgumentsLoop {F : List ExternalFileData} (H : Host)
    (n : Nat) : ∀ a, KeepsIncluded F (parseInlineFunctionArgumentsLoop H n a) := by
  induction n with
  | zero => intro a; exact keepsIncluded_outOfFuel
  | succ n ih =>
    intro a
    rw [parseInlineFunctionArgumentsLoop]
    repeat' (first
      | (with_reducible exact keepsIncluded_pure _)
      | (with_reducible exact keepsIncluded_get)
      | (with_reducible exact keepsIncluded_throw _)
      | (with_reducible exact keepsIncluded_outOfFuel)
      | (with_reducible exact keepsIncluded_liftPre _)
      | (with_reducible exact keepsIncluded_liftPreExcept _)
      | (with_reducible exact keepsIncluded_flushIds)
      | (with_reducible exact ih _)
      | (with_reducible exact keepsIncluded_modify _ (fun _ => rfl))
      | (with_reducible exact keepsIncluded_modifyPreData _ (fun _ => rfl))
      | (with_reducible exact keepsIncluded_modifyPreData _ (fun _ => modifyNs_includedFiles _ _ _))
      | (with_reducible refine keepsIncluded_get_bind ?_)
      | (with_reducible refine keepsIncluded_liftPreRes_bind ?_)
      | (with_reducible refine keepsIncluded_bind ?_ ?_)
      | (with_reducible refine keepsIncluded_ite ?_ ?_)
      | intro _
      | split
      | (dsimp only))

theorem keepsIncluded_parseInlineFunctionPreparser {F : List ExternalFileData} (H : Host)
    (n : Nat) (ns : NsPtr) : KeepsIncluded F (parseInlineFunctionPreparser H n ns) := by
  unfold parseInlineFunctionPreparser
  repeat' (first
    | (with_reducible exact keepsIncluded_pure _)
    | (with_reducible exact keepsIncluded_get)
    | (with_reducible exact keepsIncluded_throw _)
    | (with_reducible exact keepsIncluded_outOfFuel)
    | (with_reducible exact keepsIncluded_liftPre _)
    | (with_reducible exact keepsIncluded_liftPreExcept _)
    | (with_reducible exact keepsIncluded_flushIds)
    | (with_reducible exact keepsIncluded_parseInlineFunctionArgumentsLoop H n _)
    | (with_reducible exact keepsIncluded_modify _ (fun _ => rfl))
    | (with_reducible exact keepsIncluded_modifyPreData _ (fun _ => rfl))
    | (with_reducible exact keepsIncluded_modifyPreData _ (fun _ => modifyNs_includedFiles _ _ _))
    | (with_reducible refine keepsIncluded_get_bind ?_)
    | (with_reducible refine keepsIncluded_liftPreRes_bind ?_)
    | (with_reducible refine keepsIncluded_bind ?_ ?_)
    | (with_reducible refine keepsIncluded_ite ?_ ?_)
    | intro _
    | split
    | (dsimp only))

theorem keepsIncluded_parseRegisterVarPreparser {F : List ExternalFileData} (ns : NsPtr) :
    KeepsIncluded F (parseRegisterVarPreparser ns) := by
  unfold parseRegisterVarPreparser
  repeat' (first
    | (with_reducible exact keepsIncluded_pure _)
    | (with_reducible exact keepsIncluded_get)
    | (with_reducible exact keepsIncluded_throw _)
    | (with_reducible exact keepsIncluded_outOfFuel)
    | (with_reducible exact keepsIncluded_liftPre _)
    | (with_reducible exact keepsIncluded_liftPreExcept _)
    | (with_reducible exact keepsIncluded_flushIds)
    | (with_reducible exact keepsIncluded_modify _ (fun _ => rfl))
    | (with_reducible exact keepsIncluded_modifyPreData _ (fun _ => rfl))
    | (with_reducible exact keepsIncluded_modifyPreData _ (fun _ => modifyNs_includedFiles _ _ _))
    | (with_reducible refine keepsIncluded_get_bind ?_)
    | (with_reducible refine keepsIncluded_liftPreRes_bind ?_)
    | (with_reducible refine keepsIncluded_bind ?_ ?_)
    | (with_reducible refine keepsIncluded_ite ?_ ?_)
    | intro _
    | split
    | (dsimp only))

theorem keepsIncluded_preprocessExternLoop {F : List ExternalFileData} (H : Host) (n : Nat) :
    KeepsIncluded F (preprocessExternLoop H n) := by
  induction n with
  | zero => exact keepsIncluded_outOfFuel
  | succ n ih =>
    rw [preprocessExternLoop]
    repeat' (first
      | (with_reducible exact keepsIncluded_pure _)
      | (with_reducible exact keepsIncluded_get)
      | (with_reducible exact keepsIncluded_throw _)
      | (with_reducible exact keepsIncluded_outOfFuel)
      | (with_reducible exact keepsIncluded_liftPre _)
      | (with_reducible exact keepsIncluded_liftPreExcept _)
      | (with_reducible exact keepsIncluded_flushIds)
      | (with_reducible exact ih)
      | (with_reducible exact keepsIncluded_modify _ (fun _ => rfl))
      | (with_reducible exact keepsIncluded_modifyPreData _ (fun _ => rfl))
      | (with_reducible exact keepsIncluded_modifyPreData _ (fun _ => modifyNs_includedFiles _ _ _))
      | (with_reducible refine keepsIncluded_get_bind ?_)
      | (with_reducible refine keepsIncluded_liftPreRes_bind ?_)
      | (with_reducible refine keepsIncluded_bind ?_ ?_)
      | (with_reducible refine keepsIncluded_ite ?_ ?_)
      | intro _
      | split
      | (dsimp only))

/-- The pre-pass leaves the set of included files as it finds it. -/
theorem prepass_keepsIncluded (H : Host) (n : Nat) :
    (∀ F, KeepsIncluded F (preprocessCodeLoop H n)) ∧
    (∀ code file d d', preprocessCode H n code file d = .ok d' →
      d'.includedFiles = d.includedFiles) := by
  induction n with
  | zero =>
    refine ⟨fun F => ?_, fun code file d d' h => ?_⟩
    · rw [preprocessCodeLoop]; exact keepsIncluded_outOfFuel
    · rw [preprocessCode] at h; cases h
  | succ n ih =>
    obtain ⟨ih1, ih2⟩ := ih
    refine ⟨fun F => ?_, fun code file d d' h => ?_⟩
    · rw [preprocessCodeLoop]
      repeat' (first
        | (with_reducible exact keepsIncluded_pure _)
        | (with_reducible exact keepsIncluded_get)
        | (with_reducible exact keepsIncluded_throw _)
        | (with_reducible exact keepsIncluded_outOfFuel)
        | (with_reducible exact keepsIncluded_liftPre _)
        | (with_reducible exact keepsIncluded_liftPreExcept _)
        | (with_reducible exact keepsIncluded_flushIds)
        | (with_reducible exact ih1 F)
        | (with_reducible exact keepsIncluded_preprocessExternLoop H n)
        | (with_reducible exact keepsIncluded_parseInlineFunctionPreparser H n _)
        | (with_reducible exact keepsIncluded_parseRegisterVarPreparser _)
        | (with_reducible exact keepsIncluded_replace ((ih2 _ _ _ _ (by assumption)).trans (by assumption)))
        | (with_reducible exact keepsIncluded_modify _ (fun _ => rfl))
        | (with_reducible exact keepsIncluded_modifyPreData _ (fun _ => rfl))
        | (with_reducible exact keepsIncluded_modifyPreData _ (fun _ => modifyNs_includedFiles _ _ _))
        | (with_reducible refine keepsIncluded_get_bind ?_)
        | (with_reducible refine keepsIncluded_liftPreRes_bind ?_)
        | (with_reducible refine keepsIncluded_bind ?_ ?_)
        | (with_reducible refine keepsIncluded_ite ?_ ?_)
        | intro _
        | split
        | (dsimp only))
    · rw [preprocessCode] at h
      split_ifs at h
      · cases h; rfl
      · split at h
        · cases h
        · cases h
        · split at h
          · next s hl =>
            cases h
            exact (ih1 _).h _ _ _ rfl hl
          · cases h
          · cases h

/-- Under `USE_BACKEND` the text of an existing file that is in the set of
included files is refused. -/
theorem getFileContent_included {H : Host} {d : HiseSpecialData} {name : String}
    {x : List Char} (hb : H.USE_BACKEND = true)
    (hload : H.loadFileAsString (canonicalName H name) = some x)
    (hin : d.includedFiles.any (fun e => e.f = canonicalName H name) = true) :
    getFileContent H d name = .error ("File " ++ H.getFileName (canonicalName H name) ++
      " was included multiple times") := by
  unfold getFileContent
  simp only [hb, if_true]
  show (match H.loadFileAsString (canonicalName H name) with
    | none => _
    | some fileContent => _) = _
  rw [hload]
  show (if d.includedFiles.any (fun e => e.f = canonicalName H name) = true then _ else _) = _
  rw [if_pos hin]
  rfl

/-- Under `USE_BACKEND` the text of an existing file that is not in the set of
included files is loaded. -/
theorem getFileContent_fresh {H : Host} {d : HiseSpecialData} {name : String}
    {x : List Char} (hb : H.USE_BACKEND = true)
    (hload : H.loadFileAsString (canonicalName H name) = some x)
    (hnot : d.includedFiles.any (fun e => e.f = canonicalName H name) = false) :
    getFileContent H d name = .ok (canonicalName H name, x) := by
  unfold getFileContent
  simp only [hb, if_true]
  show (match H.loadFileAsString (canonicalName H name) with
    | none => _
    | some fileContent => _) = _
  rw [hload]
  show (if d.includedFiles.any (fun e => e.f = canonicalName H name) = true then _ else _) = _
  rw [hnot]
  rfl

/-- The pre-pass at `include (` when the file is refused. -/
theorem preprocessCodeLoop_include_error {H : Host} {n : Nat} {s : PreprocessState}
    {a b : TokenIterator} {e : String}
    (h : s.it.currentType = .include_) (hs : TokenIterator.skip H s.it = .ok ((), a))
    (ha : a.currentType = .openParen) (hb : TokenIterator.skip H a = .ok ((), b))
    (hfile : getFileContent H s.hiseSpecialData b.currentValue.toString = .error e) :
    preprocessCodeLoop H (n + 1) s = .error e := by
  rw [preprocessCodeLoop]
  simp only [StM.bind_apply, StM.get_apply, h, ne_eq, reduceCtorEq, not_false_eq_true, if_true,
    if_false, StM.pure_apply, liftPre_match_of_eq h hs]
  rw [liftPre_match_of_eq (s := { s with it := a }) ha hb]
  simp only [liftPreExcept, hfile]

/-! ## A file included transitively -/

/-- The pre-pass over the text of `b.js` changes nothing. -/
theorem chain_prepass_b (m : Nat) (h : 4 ≤ m) :
    preprocessCode chainHost m includedText.toList "\x7bPROJECT_FOLDER\x7db.js" HiseSpecialData.empty = .ok HiseSpecialData.empty := by
  obtain ⟨n, rfl⟩ := Nat.exists_eq_add_of_le' h
  have key : preprocessCodeLoop chainHost (n + 3) (filePrepass HiseSpecialData.empty "\x7bPROJECT_FOLDER\x7db.js" includedText 0 1 .identifier (.string "x")) =
      .ok ((), (filePrepass HiseSpecialData.empty "\x7bPROJECT_FOLDER\x7db.js" includedText 2 2 .eof (.string "x"))) := by
    rw [preprocessCodeLoop_skip (H := chainHost) (s := (filePrepass HiseSpecialData.empty "\x7bPROJECT_FOLDER\x7db.js" includedText 0 1 .identifier (.string "x")))
      (i := (fileIterator "\x7bPROJECT_FOLDER\x7db.js" includedText 1 2 .semicolon (.string "x"))) (by decide) rfl]
    show preprocessCodeLoop chainHost _ (filePrepass HiseSpecialData.empty "\x7bPROJECT_FOLDER\x7db.js" includedText 1 2 .semicolon (.string "x")) = _
    rw [preprocessCodeLoop_skip (H := chainHost) (s := (filePrepass HiseSpecialData.empty "\x7bPROJECT_FOLDER\x7db.js" includedText 1 2 .semicolon (.string "x")))
      (i := (fileIterator "\x7bPROJECT_FOLDER\x7db.js" includedText 2 2 .eof (.string "x"))) (by decide) rfl]
    show preprocessCodeLoop chainHost _ (filePrepass HiseSpecialData.empty "\x7bPROJECT_FOLDER\x7db.js" includedText 2 2 .eof (.string "x")) = _
    rw [preprocessCodeLoop_eof (H := chainHost) (s := (filePrepass HiseSpecialData.empty "\x7bPROJECT_FOLDER\x7db.js" includedText 2 2 .eof (.string "x"))) rfl rfl]
    rfl
  exact preprocessCode_eq (show includedText.toList.isEmpty = false from rfl)
    (show TokenIterator.new chainHost includedText.toList "\x7bPROJECT_FOLDER\x7db.js" =
      .ok (fileIterator "\x7bPROJECT_FOLDER\x7db.js" includedText 0 1 .identifier (.string "x")) from rfl) key

/-- The pre-pass over the text of `a.js` pre-passes `b.js` and changes nothing. -/
theorem chain_prepass_a (m : Nat) (h : 10 ≤ m) :
    preprocessCode chainHost m includesB.toList "\x7bPROJECT_FOLDER\x7da.js" HiseSpecialData.empty = .ok HiseSpecialData.empty := by
  obtain ⟨n, rfl⟩ : ∃ n, m = n + 6 := ⟨m - 6, by omega⟩
  have key : preprocessCodeLoop chainHost (n + 5) (filePrepass HiseSpecialData.empty "\x7bPROJECT_FOLDER\x7da.js" includesB 0 7 .include_ .void_) =
      .ok ((), (filePrepass HiseSpecialData.empty "\x7bPROJECT_FOLDER\x7da.js" includesB 16 16 .eof (.string "b.js"))) := by
    rw [preprocessCodeLoop_include_ok (H := chainHost) (s := (filePrepass HiseSpecialData.empty "\x7bPROJECT_FOLDER\x7da.js" includesB 0 7 .include_ .void_))
      (a := (fileIterator "\x7bPROJECT_FOLDER\x7da.js" includesB 7 8 .openParen .void_))
      (b := (fileIterator "\x7bPROJECT_FOLDER\x7da.js" includesB 8 14 .literal (.string "b.js"))) rfl rfl rfl rfl
      (show getFileContent chainHost HiseSpecialData.empty "b.js" = .ok ("\x7bPROJECT_FOLDER\x7db.js", includedText.toList) from rfl)
      (chain_prepass_b (n + 4) (by omega))]
    show preprocessCodeLoop chainHost _ (filePrepass HiseSpecialData.empty "\x7bPROJECT_FOLDER\x7da.js" includesB 8 14 .literal (.string "b.js")) = _
    rw [preprocessCodeLoop_skip (H := chainHost) (s := (filePrepass HiseSpecialData.empty "\x7bPROJECT_FOLDER\x7da.js" includesB 8 14 .literal (.string "b.js")))
      (i := (fileIterator "\x7bPROJECT_FOLDER\x7da.js" includesB 14 15 .closeParen (.string "b.js"))) (by decide) rfl]
    show preprocessCodeLoop chainHost _ (filePrepass HiseSpecialData.empty "\x7bPROJECT_FOLDER\x7da.js" includesB 14 15 .closeParen (.string "b.js")) = _
    rw [preprocessCodeLoop_skip (H := chainHost) (s := (filePrepass HiseSpecialData.empty "\x7bPROJECT_FOLDER\x7da.js" includesB 14 15 .closeParen (.string "b.js")))
      (i := (fileIterator "\x7bPROJECT_FOLDER\x7da.js" includesB 15 16 .semicolon (.string "b.js"))) (by decide) rfl]
    show preprocessCodeLoop chainHost _ (filePrepass HiseSpecialData.empty "\x7bPROJECT_FOLDER\x7da.js" includesB 15 16 .semicolon (.string "b.js")) = _
    rw [preprocessCodeLoop_skip (H := chainHost) (s := (filePrepass HiseSpecialData.empty "\x7bPROJECT_FOLDER\x7da.js" includesB 15 16 .semicolon (.string "b.js")))
      (i := (fileIterator "\x7bPROJECT_FOLDER\x7da.js" includesB 16 16 .eof (.string "b.js"))) (by decide) rfl]
    show preprocessCodeLoop chainHost _ (filePrepass HiseSpecialData.empty "\x7bPROJECT_FOLDER\x7da.js" includesB 16 16 .eof (.string "b.js")) = _
    rw [preprocessCodeLoop_eof (H := chainHost) (s := (filePrepass HiseSpecialData.empty "\x7bPROJECT_FOLDER\x7da.js" includesB 16 16 .eof (.string "b.js"))) rfl rfl]
    rfl
  exact preprocessCode_eq (show includesB.toList.isEmpty = false from rfl)
    (show TokenIterator.new chainHost includesB.toList "\x7bPROJECT_FOLDER\x7da.js" =
      .ok (fileIterator "\x7bPROJECT_FOLDER\x7da.js" includesB 0 7 .include_ .void_) from rfl) key

/-- The pre-pass over `includeTransitively` pre-passes the included files and
records none. -/
theorem includeTransitively_prepass (n : Nat) :
    preprocessCode chainHost (n + 16) includeTransitively.toList "" HiseSpecialData.empty = .ok HiseSpecialData.empty := by
  have key : preprocessCodeLoop chainHost (n + 15) (filePrepass HiseSpecialData.empty "" includeTransitively 0 7 .include_ .void_) =
      .ok ((), (filePrepass HiseSpecialData.empty "" includeTransitively 33 33 .eof (.string "b.js"))) := by
    rw [preprocessCodeLoop_include_ok (H := chainHost) (s := (filePrepass HiseSpecialData.empty "" includeTransitively 0 7 .include_ .void_))
      (a := (fileIterator "" includeTransitively 7 8 .openParen .void_))
      (b := (fileIterator "" includeTransitively 8 14 .literal (.string "a.js"))) rfl rfl rfl rfl
      (show getFileContent chainHost HiseSpecialData.empty "a.js" = .ok ("\x7bPROJECT_FOLDER\x7da.js", includesB.toList) from rfl)
      (chain_prepass_a (n + 14) (by omega))]
    show preprocessCodeLoop chainHost _ (filePrepass HiseSpecialData.empty "" includeTransitively 8 14 .literal (.string "a.js")) = _
    rw [preprocessCodeLoop_skip (H := chainHost) (s := (filePrepass HiseSpecialData.empty "" includeTransitively 8 14 .literal (.string "a.js")))
      (i := (fileIterator "" includeTransitively 14 15 .closeParen (.string "a.js"))) (by decide) rfl]
    show preprocessCodeLoop chainHost _ (filePrepass HiseSpecialData.empty "" includeTransitively 14 15 .closeParen (.string "a.js")) = _
    rw [preprocessCodeLoop_skip (H := chainHost) (s := (filePrepass HiseSpecialData.empty "" includeTransitively 14 15 .closeParen (.string "a.js")))
      (i := (fileIterator "" includeTransitively 15 16 .semicolon (.string "a.js"))) (by decide) rfl]
    show preprocessCodeLoop chainHost _ (filePrepass HiseSpecialData.empty "" includeTransitively 15 16 .semicolon (.string "a.js")) = _
    rw [preprocessCodeLoop_skip (H := chainHost) (s := (filePrepass HiseSpecialData.empty "" includeTransitively 15 16 .semicolon (.string "a.js")))
      (i := (fileIterator "" includeTransitively 17 24 .include_ (.string "a.js"))) (by decide) rfl]
    show preprocessCodeLoop chainHost _ (filePrepass HiseSpecialData.empty "" includeTransitively 17 24 .include_ (.string "a.js")) = _
    rw [preprocessCodeLoop_include_ok (H := chainHost) (s := (filePrepass HiseSpecialData.empty "" includeTransitively 17 24 .include_ (.string "a.js")))
      (a := (fileIterator "" includeTransitively 24 25 .openParen (.string "a.js")))
      (b := (fileIterator "" includeTransitively 25 31 .literal (.string "b.js"))) rfl rfl rfl rfl
      (show getFileContent chainHost HiseSpecialData.empty "b.js" = .ok ("\x7bPROJECT_FOLDER\x7db.js", includedText.toList) from rfl)
      (chain_prepass_b (n + 10) (by omega))]
    show preprocessCodeLoop chainHost _ (filePrepass HiseSpecialData.empty "" includeTransitively 25 31 .literal (.string "b.js")) = _
    rw [preprocessCodeLoop_skip (H := chainHost) (s := (filePrepass HiseSpecialData.empty "" includeTransitively 25 31 .literal (.string "b.js")))
      (i := (fileIterator "" includeTransitively 31 32 .closeParen (.string "b.js"))) (by decide) rfl]
    show preprocessCodeLoop chainHost _ (filePrepass HiseSpecialData.empty "" includeTransitively 31 32 .closeParen (.string "b.js")) = _
    rw [preprocessCodeLoop_skip (H := chainHost) (s := (filePrepass HiseSpecialData.empty "" includeTransitively 31 32 .closeParen (.string "b.js")))
      (i := (fileIterator "" includeTransitively 32 33 .semicolon (.string "b.js"))) (by decide) rfl]
    show preprocessCodeLoop chainHost _ (filePrepass HiseSpecialData.empty "" includeTransitively 32 33 .semicolon (.string "b.js")) = _
    rw [preprocessCodeLoop_skip (H := chainHost) (s := (filePrepass HiseSpecialData.empty "" includeTransitively 32 33 .semicolon (.string "b.js")))
      (i := (fileIterator "" includeTransitively 33 33 .eof (.string "b.js"))) (by decide) rfl]
    show preprocessCodeLoop chainHost _ (filePrepass HiseSpecialData.empty "" includeTransitively 33 33 .eof (.string "b.js")) = _
    rw [preprocessCodeLoop_eof (H := chainHost) (s := (filePrepass HiseSpecialData.empty "" includeTransitively 33 33 .eof (.string "b.js"))) rfl rfl]
    rfl
  exact preprocessCode_eq (show includeTransitively.toList.isEmpty = false from rfl)
    (show TokenIterator.new chainHost includeTransitively.toList "" =
      .ok (fileIterator "" includeTransitively 0 7 .include_ .void_) from rfl) key

/-- The statement list of the text of `b.js`, included from `a.js`. -/
theorem chain_parse_b :
    Parses (parseStatementList chainHost) (fileParser (includeTables ["\x7bPROJECT_FOLDER\x7da.js", "\x7bPROJECT_FOLDER\x7db.js"]) "\x7bPROJECT_FOLDER\x7db.js" includedText 0 1 .identifier (.string "x"))
      (.BlockStatement [.expression (.UnqualifiedName "x")] [])
      (fileParser (includeTables ["\x7bPROJECT_FOLDER\x7da.js", "\x7bPROJECT_FOLDER\x7db.js"]) "\x7bPROJECT_FOLDER\x7db.js" includedText 2 2 .eof (.string "x")) :=
  parses_parseStatementList
    (parses_parseStatementListLoop_step (t := (fileParser (includeTables ["\x7bPROJECT_FOLDER\x7da.js", "\x7bPROJECT_FOLDER\x7db.js"]) "\x7bPROJECT_FOLDER\x7db.js" includedText 2 2 .eof (.string "x")))
      (by decide) (by decide)
      (parses_parseStatement_expression (t := (fileParser (includeTables ["\x7bPROJECT_FOLDER\x7da.js", "\x7bPROJECT_FOLDER\x7db.js"]) "\x7bPROJECT_FOLDER\x7db.js" includedText 1 2 .semicolon (.string "x"))) rfl
        (parses_parseExpression_of_unary
          (parses_parseUnary_unqualified_of ⟨rfl, rfl, by decide, rfl, rfl⟩ rfl rfl rfl rfl rfl rfl
            rfl rfl (by decide))
          (by decide))
        rfl rfl)
      (fun _ _ h => nomatch h)
      (parses_parseStatementListLoop_stop (Or.inr rfl)))

/-- The statement list of the text of `a.js`: its include puts `b.js` into the
set of included files. -/
theorem chain_parse_a :
    Parses (parseStatementList chainHost) (fileParser (includeTables ["\x7bPROJECT_FOLDER\x7da.js"]) "\x7bPROJECT_FOLDER\x7da.js" includesB 0 7 .include_ .void_)
      (.BlockStatement [.BlockStatement [.expression (.UnqualifiedName "x")] []] [])
      (fileParser (includeTables ["\x7bPROJECT_FOLDER\x7da.js", "\x7bPROJECT_FOLDER\x7db.js"]) "\x7bPROJECT_FOLDER\x7da.js" includesB 16 16 .eof (.string "b.js")) :=
  parses_parseStatementList
    (parses_parseStatementListLoop_step (t := (fileParser (includeTables ["\x7bPROJECT_FOLDER\x7da.js", "\x7bPROJECT_FOLDER\x7db.js"]) "\x7bPROJECT_FOLDER\x7da.js" includesB 16 16 .eof (.string "b.js")))
      (by decide) (by decide)
      (parses_parseStatement_include (t := (fileParser (includeTables ["\x7bPROJECT_FOLDER\x7da.js"]) "\x7bPROJECT_FOLDER\x7da.js" includesB 7 8 .openParen .void_)) rfl rfl
        (parses_parseExternalFile_project (a := (fileParser (includeTables ["\x7bPROJECT_FOLDER\x7da.js"]) "\x7bPROJECT_FOLDER\x7da.js" includesB 8 14 .literal (.string "b.js")))
          (c := (fileParser (includeTables ["\x7bPROJECT_FOLDER\x7da.js", "\x7bPROJECT_FOLDER\x7db.js"]) "\x7bPROJECT_FOLDER\x7da.js" includesB 14 15 .closeParen (.string "b.js")))
          (d := (fileParser (includeTables ["\x7bPROJECT_FOLDER\x7da.js", "\x7bPROJECT_FOLDER\x7db.js"]) "\x7bPROJECT_FOLDER\x7da.js" includesB 15 16 .semicolon (.string "b.js")))
          (v := (fileParser (includeTables ["\x7bPROJECT_FOLDER\x7da.js", "\x7bPROJECT_FOLDER\x7db.js"]) "\x7bPROJECT_FOLDER\x7db.js" includedText 2 2 .eof (.string "x")))
          (i := (fileIterator "\x7bPROJECT_FOLDER\x7db.js" includedText 0 1 .identifier (.string "x")))
          rfl rfl rfl rfl rfl rfl rfl
          chain_parse_b rfl rfl rfl rfl rfl rfl))
      (fun _ _ h => nomatch h)
      (parses_parseStatementListLoop_stop (Or.inr rfl)))

/-- With the project-rooted loader the driver rejects `includeTransitively` at
its second include: `b.js` was included from `a.js`. -/
theorem includeTransitively_rejected :
    ∃ fuel, execute chainHost fuel HiseSpecialData.empty includeTransitively.toList true =
      .error "File \x7bPROJECT_FOLDER\x7db.js was included multiple times" := by
  have h1 : Parses (parseStatement chainHost) (fileParser HiseSpecialData.empty "" includeTransitively 0 7 .include_ .void_)
      (.BlockStatement [.BlockStatement [.expression (.UnqualifiedName "x")] []] [])
      (fileParser (includeTables ["\x7bPROJECT_FOLDER\x7da.js", "\x7bPROJECT_FOLDER\x7db.js"]) "" includeTransitively 17 24 .include_ (.string "a.js")) :=
    parses_parseStatement_include (t := (fileParser HiseSpecialData.empty "" includeTransitively 7 8 .openParen .void_)) rfl rfl
      (parses_parseExternalFile_project (a := (fileParser HiseSpecialData.empty "" includeTransitively 8 14 .literal (.string "a.js")))
        (c := (fileParser (includeTables ["\x7bPROJECT_FOLDER\x7da.js", "\x7bPROJECT_FOLDER\x7db.js"]) "" includeTransitively 14 15 .closeParen (.string "a.js")))
        (d := (fileParser (includeTables ["\x7bPROJECT_FOLDER\x7da.js", "\x7bPROJECT_FOLDER\x7db.js"]) "" includeTransitively 15 16 .semicolon (.string "a.js")))
        (v := (fileParser (includeTables ["\x7bPROJECT_FOLDER\x7da.js", "\x7bPROJECT_FOLDER\x7db.js"]) "\x7bPROJECT_FOLDER\x7da.js" includesB 16 16 .eof (.string "b.js")))
        (i := (fileIterator "\x7bPROJECT_FOLDER\x7da.js" includesB 0 7 .include_ .void_))
        rfl rfl rfl rfl rfl rfl rfl
        chain_parse_a rfl rfl rfl rfl rfl rfl)
  have h2 : Fails (parseStatement chainHost) (fileParser (includeTables ["\x7bPROJECT_FOLDER\x7da.js", "\x7bPROJECT_FOLDER\x7db.js"]) "" includeTransitively 17 24 .include_ (.string "a.js"))
      "File \x7bPROJECT_FOLDER\x7db.js was included multiple times" :=
    fails_parseStatement_include (t := (fileParser (includeTables ["\x7bPROJECT_FOLDER\x7da.js", "\x7bPROJECT_FOLDER\x7db.js"]) "" includeTransitively 24 25 .openParen (.string "a.js"))) rfl rfl
      ⟨1, parseExternalFile_included (t := (fileParser (includeTables ["\x7bPROJECT_FOLDER\x7da.js", "\x7bPROJECT_FOLDER\x7db.js"]) "" includeTransitively 25 31 .literal (.string "b.js")))
        (x := includedText.toList) rfl rfl rfl rfl rfl⟩
  exact execute_error (k := 16)
    (show TokenIterator.new chainHost includeTransitively.toList "" = .ok (fileIterator "" includeTransitively 0 7 .include_ .void_) from rfl)
    includeTransitively_prepass
    (fails_parseStatementList
      (fails_parseStatementListLoop_step (by decide) (by decide) h1 (fun _ _ h => nomatch h)
        (fails_parseStatementListLoop_here (by decide) (by decide) h2)))

/-! ## C11 -/

theorem stackCase_none (acc : SwitchAcc) (b : Bool) (conds : List Expression) :
    stackCase acc (.CaseStatement b conds none) = (acc.1 ++ conds, acc.2.1, acc.2.2) := rfl

theorem stackCase_case (acc : SwitchAcc) (conds : List Expression) (body : Statement) :
    stackCase acc (.CaseStatement true conds (some body)) =
      ([], acc.2.1 ++ [.CaseStatement true (conds ++ acc.1) (some body)], acc.2.2) := rfl

theorem stackCase_default (acc : SwitchAcc) (conds : List Expression) (body : Statement) :
    stackCase acc (.CaseStatement false conds (some body)) =
      ([], acc.2.1, some (.CaseStatement false (conds ++ acc.1) (some body))) := rfl

/-- One round of the loop of `parseSwitchBlock`. -/
theorem parseSwitchBlockLoop_step {H : Host} {n : Nat} {s t : ExpressionTreeBuilder}
    {c : Statement} (acc : SwitchAcc)
    (h : s.currentType = .case_ ∨ s.currentType = .default_)
    (hc : parseCaseStatement H n s = .ok (c, t)) :
    parseSwitchBlockLoop H (n + 1) acc.1 acc.2.1 acc.2.2 s =
      parseSwitchBlockLoop H n (stackCase acc c).1 (stackCase acc c).2.1 (stackCase acc c).2.2
        t := by
  rw [parseSwitchBlockLoop]
  simp only [StM.bind_apply, StM.get_apply, if_pos h, hc]
  cases c with
  | CaseStatement b conds body =>
    cases body with
    | none => rfl
    | some body => cases b <;> rfl
  | _ => rfl

theorem parseSwitchBlockLoop_stop {H : Host} {n : Nat} {s : ExpressionTreeBuilder}
    (acc : SwitchAcc) (h1 : s.currentType ≠ .case_) (h2 : s.currentType ≠ .default_) :
    parseSwitchBlockLoop H (n + 1) acc.1 acc.2.1 acc.2.2 s = .ok ((acc.2.1, acc.2.2), s) := by
  rw [parseSwitchBlockLoop]
  simp only [StM.bind_apply, StM.get_apply, h1, h2, or_self, if_false, StM.pure_apply]

/-- The loop of `parseSwitchBlock` folds `stackCase` over the case statements
it reads. -/
theorem parses_parseSwitchBlockLoop {H : Host} {s t : ExpressionTreeBuilder}
    {cs : List Statement} (h : ParsesCases H s cs t) :
    ∀ acc : SwitchAcc, Parses (fun n => parseSwitchBlockLoop H n acc.1 acc.2.1 acc.2.2) s
      ((cs.foldl stackCase acc).2.1, (cs.foldl stackCase acc).2.2) t := by
  induction h with
  | done h1 h2 => exact fun acc => ⟨1, parseSwitchBlockLoop_stop acc h1 h2⟩
  | more hs hc _ ih =>
    intro acc
    exact Parses.step (fun k => (monoAt H k).parseCaseStatement)
      (fun k => (monoAt H k).parseSwitchBlockLoop _ _ _)
      (fun n hn => parseSwitchBlockLoop_step acc hs hn) hc (ih _)

/-! ### What the fold of `stackCase` returns -/

theorem foldl_stackCase_cases (cs : List Statement) :
    ∀ acc : SwitchAcc, ∃ l, (cs.foldl stackCase acc).2.1 = acc.2.1 ++ l ∧
      l.map Statement.caseBody = (cs.filter Statement.isCaseWithBody).map Statement.caseBody ∧
      ∀ c ∈ l, c.isNotDefaultCase = true := by
  induction cs with
  | nil => exact fun acc => ⟨[], by simp⟩
  | cons c cs ih =>
    intro acc
    obtain ⟨l, h1, h2, h3⟩ := ih (stackCase acc c)
    rw [List.foldl_cons]
    cases c with
    | CaseStatement b conds body =>
      cases body with
      | none =>
        refine ⟨l, by rw [h1]; rfl, ?_, h3⟩
        rw [h2]
        simp [Statement.isCaseWithBody, Statement.caseBody]
      | some body =>
        cases b with
        | true =>
          refine ⟨.CaseStatement true (conds ++ acc.1) (some body) :: l, ?_, ?_, ?_⟩
          · rw [h1, stackCase_case]
            simp
          · simp [h2, Statement.isCaseWithBody, Statement.caseBody, Statement.isNotDefaultCase]
          · intro x hx
            rcases List.mem_cons.mp hx with rfl | hx
            · rfl
            · exact h3 x hx
        | false =>
          refine ⟨l, by rw [h1]; rfl, ?_, h3⟩
          rw [h2]
          simp [Statement.isCaseWithBody, Statement.isNotDefaultCase]
    | _ =>
      refine ⟨l, by rw [h1]; rfl, ?_, h3⟩
      rw [h2]
      simp [Statement.isCaseWithBody, Statement.isNotDefaultCase]

theorem foldl_stackCase_empty (run : List Statement) (h : ∀ r ∈ run, r.caseBody = none) :
    ∀ acc : SwitchAcc, run.foldl stackCase acc =
      (acc.1 ++ run.flatMap Statement.caseConditions, acc.2.1, acc.2.2) := by
  induction run with
  | nil => exact fun acc => by simp
  | cons r run ih =>
    intro acc
    have hr : r.caseBody = none := h r (List.mem_cons_self _ _)
    rw [List.foldl_cons, ih (fun x hx => h x (List.mem_cons_of_mem _ hx))]
    cases r with
    | CaseStatement b conds body =>
      cases body with
      | none => simp [stackCase_none, Statement.caseConditions]
      | some body => cases hr
    | _ => simp [stackCase, Statement.caseConditions]

theorem foldl_stackCase_pending (pre : List Statement) (acc : SwitchAcc)
    (h : pre = [] ∨ ∃ p, pre.getLast? = some p ∧ p.caseBody.isSome = true) (h0 : acc.1 = []) :
    (pre.foldl stackCase acc).1 = [] := by
  rcases h with rfl | ⟨p, hp, hb⟩
  · exact h0
  · obtain ⟨ini, rfl⟩ : ∃ ini, pre = ini ++ [p] := by
      rcases List.eq_nil_or_concat pre with rfl | ⟨ini, x, rfl⟩
      · cases hp
      · rw [List.concat_eq_append] at hp ⊢
        have e : x = p := by simpa using hp
        exact ⟨ini, by rw [e]⟩
    rw [List.foldl_append, List.foldl_cons, List.foldl_nil]
    cases p with
    | CaseStatement b conds body =>
      cases body with
      | none => cases hb
      | some body => cases b <;> rfl
    | _ => cases hb

theorem foldl_stackCase_default (post : List Statement)
    (h : ∀ p ∈ post, p.isNotDefaultCase = true ∨ p.caseBody = none) :
    ∀ acc : SwitchAcc, (post.foldl stackCase acc).2.2 = acc.2.2 := by
  induction post with
  | nil => exact fun acc => rfl
  | cons p post ih =>
    intro acc
    rw [List.foldl_cons, ih (fun x hx => h x (List.mem_cons_of_mem _ hx))]
    have hp := h p (List.mem_cons_self _ _)
    cases p with
    | CaseStatement b conds body =>
      cases body with
      | none => rfl
      | some body =>
        cases b with
        | true => rfl
        | false => rcases hp with hp | hp <;> cases hp
    | _ => rfl

/-- The case built for a case statement with a body that follows a maximal run
of empty cases. -/
theorem foldl_stackCase_group (pre run post : List Statement) (nd : Bool)
    (conds : List Expression) (body : Statement)
    (hrun : ∀ r ∈ run, r.caseBody = none)
    (hpre : pre = [] ∨ ∃ p, pre.getLast? = some p ∧ p.caseBody.isSome = true) :
    (nd = true →
      ((pre ++ run ++ [Statement.CaseStatement nd conds (some body)] ++ post).foldl stackCase
          ([], [], none)).2.1.get? (pre.filter Statement.isCaseWithBody).length =
        some (.CaseStatement true (conds ++ run.flatMap Statement.caseConditions)
          (some body))) ∧
    (nd = false → (∀ p ∈ post, p.isNotDefaultCase = true ∨ p.caseBody = none) →
      ((pre ++ run ++ [Statement.CaseStatement nd conds (some body)] ++ post).foldl stackCase
          ([], [], none)).2.2 =
        some (.CaseStatement false (conds ++ run.flatMap Statement.caseConditions)
          (some body))) := by
  have hp := foldl_stackCase_pending pre ([], [], none) hpre rfl
  obtain ⟨l, hl, hlb, _⟩ := foldl_stackCase_cases pre ([], [], none)
  have hlen : l.length = (pre.filter Statement.isCaseWithBody).length := by
    have := congrArg List.length hlb
    simpa using this
  simp only [List.foldl_append, List.foldl_cons, List.foldl_nil,
    foldl_stackCase_empty run hrun, hp, List.nil_append]
  constructor
  · rintro rfl
    rw [stackCase_case]
    obtain ⟨l', hl', _⟩ := foldl_stackCase_cases post
      ([], (List.foldl stackCase ([], [], none) pre).2.1 ++
        [.CaseStatement true (conds ++ run.flatMap Statement.caseConditions) (some body)],
        (List.foldl stackCase ([], [], none) pre).2.2)
    rw [hl', hl, ← hlen]
    simp only [List.nil_append, List.append_assoc, List.singleton_append]
    rw [List.get?_eq_getElem?, List.getElem?_append_right (le_refl _)]
    simp
  · rintro rfl hpost
    rw [stackCase_default, foldl_stackCase_default post hpost]

theorem stackCase_subperm (acc : SwitchAcc) (c : Statement) :
    (((stackCase acc c).2.1 ++ (stackCase acc c).2.2.toList).flatMap Statement.caseConditions
        ++ (stackCase acc c).1).Subperm
      (((acc.2.1 ++ acc.2.2.toList).flatMap Statement.caseConditions ++ acc.1)
        ++ c.caseConditions) := by
  obtain ⟨pending, cases, dflt⟩ := acc
  cases c with
  | CaseStatement b conds body =>
    cases body with
    | none =>
      refine List.Perm.subperm ?_
      simp [stackCase_none, Statement.caseConditions]
    | some body =>
      cases b with
      | true =>
        rw [stackCase_case, ← Multiset.coe_le]
        simp only [List.flatMap_append, List.flatMap_cons, List.flatMap_nil, List.append_nil,
          Statement.caseConditions, ← Multiset.coe_add]
        refine le_of_eq ?_
        abel
      | false =>
        rw [stackCase_default, ← Multiset.coe_le]
        simp only [List.flatMap_append, List.flatMap_cons, List.flatMap_nil, List.append_nil,
          Statement.caseConditions, ← Multiset.coe_add, Option.toList_some]
        have e : ((List.flatMap cases Statement.caseConditions : List Expression) : Multiset Expression)
            + ((List.flatMap dflt.toList Statement.caseConditions : List Expression) :
              Multiset Expression) + (pending : Multiset Expression) + (conds : Multiset Expression)
            = ((List.flatMap cases Statement.caseConditions : List Expression) :
                Multiset Expression) + ((conds : Multiset Expression) + pending) +
              ((List.flatMap dflt.toList Statement.caseConditions : List Expression) :
                Multiset Expression) := by abel
        rw [e]
        exact Multiset.le_add_right _ _
  | _ =>
    refine List.Sublist.subperm ?_
    simp [stackCase, Statement.caseConditions]

/-- No condition is attached twice: the conditions of the cases and of the
default case, with the pending ones, are among the conditions read. -/
theorem foldl_stackCase_subperm (cs : List Statement) :
    ∀ acc : SwitchAcc,
      ((((cs.foldl stackCase acc).2.1 ++ (cs.foldl stackCase acc).2.2.toList).flatMap
          Statement.caseConditions) ++ (cs.foldl stackCase acc).1).Subperm
        (((acc.2.1 ++ acc.2.2.toList).flatMap Statement.caseConditions ++ acc.1)
          ++ cs.flatMap Statement.caseConditions) := by
  induction cs with
  | nil => exact fun acc => by simpa using List.Subperm.refl _
  | cons c cs ih =>
    intro acc
    rw [List.foldl_cons]
    refine (ih (stackCase acc c)).trans ?_
    rw [List.flatMap_cons, ← List.append_assoc]
    exact (List.subperm_append_right _).mpr (stackCase_subperm acc c)

/-! ### `parseCaseStatement` and `parseSwitchBlock` -/

theorem parses_parseCaseStatementLoop_stop {H : Host} {s : ExpressionTreeBuilder}
    {sts : List Statement}
    (h : s.currentType = .case_ ∨ s.currentType = .closeBrace ∨ s.currentType = .default_) :
    Parses (fun n => parseCaseStatementLoop H n sts) s sts s := by
  refine ⟨1, ?_⟩
  show parseCaseStatementLoop H 1 sts s = _
  rw [parseCaseStatementLoop]
  have c : ¬ (s.currentType ≠ .case_ ∧ s.currentType ≠ .closeBrace ∧
      s.currentType ≠ .default_) := by
    rcases h with h | h | h <;> simp [h]
  simp only [StM.bind_apply, StM.get_apply, if_neg c, StM.pure_apply]

theorem parses_parseCaseStatementLoop_step {H : Host} {s t u : ExpressionTreeBuilder}
    {sts r : List Statement} {st : Statement}
    (h : s.currentType ≠ .case_ ∧ s.currentType ≠ .closeBrace ∧ s.currentType ≠ .default_)
    (hst : Parses (parseStatement H) s st t)
    (hrest : Parses (fun n => parseCaseStatementLoop H n (sts ++ [st])) t r u) :
    Parses (fun n => parseCaseStatementLoop H n sts) s r u := by
  obtain ⟨n, hst, hrest⟩ := Parses.two (fun k => (monoAt H k).parseStatement)
    (fun k => (monoAt H k).parseCaseStatementLoop (sts ++ [st])) hst hrest
  refine ⟨n + 1, ?_⟩
  show parseCaseStatementLoop H (n + 1) sts s = _
  rw [parseCaseStatementLoop]
  simp only [StM.bind_apply, StM.get_apply, if_pos h, hst]
  exact hrest

/-- A `case e:` directly followed by the next label or by the end of the
switch body has no body. -/
theorem parses_parseCaseStatement_empty {H : Host} {s a b c : ExpressionTreeBuilder}
    {e : Expression} (h : s.currentType = .case_) (hs : skip H s = .ok ((), a))
    (he : Parses (parseExpression H) a e b) (hcolon : b.currentType = .colon)
    (hb : skip H b = .ok ((), c))
    (hc : c.currentType = .case_ ∨ c.currentType = .default_ ∨ c.currentType = .closeBrace) :
    Parses (parseCaseStatement H) s (.CaseStatement true [e] none) c := by
  obtain ⟨n, he⟩ := he
  refine ⟨n + 1, ?_⟩
  have hc1 : c.currentType ≠ .openBrace := by rcases hc with hc | hc | hc <;> rw [hc] <;> decide
  rw [parseCaseStatement]
  simp only [StM.bind_apply, StM.get_apply, h, decide_True, hs, if_true, he, StM.pure_apply,
    match_of_eq hcolon, hb, hc1, if_false, hc]

/-- A `case e:` followed by statements up to the next label or the end of the
switch body. -/
theorem parses_parseCaseStatement_statements {H : Host} {s a b c d : ExpressionTreeBuilder}
    {e : Expression} {sts : List Statement} (h : s.currentType = .case_)
    (hs : skip H s = .ok ((), a)) (he : Parses (parseExpression H) a e b)
    (hcolon : b.currentType = .colon) (hb : skip H b = .ok ((), c))
    (hc : c.currentType ∉ [TokenType.openBrace, .case_, .default_, .closeBrace])
    (hsts : Parses (fun n => parseCaseStatementLoop H n []) c sts d) :
    Parses (parseCaseStatement H) s (.CaseStatement true [e] (some (.BlockStatement sts []))) d := by
  obtain ⟨n, he, hsts⟩ := Parses.two (fun k => (monoAt H k).parseExpression)
    (fun k => (monoAt H k).parseCaseStatementLoop []) he hsts
  refine ⟨n + 1, ?_⟩
  have hc1 : c.currentType ≠ .openBrace := fun e => hc (by simp [e])
  have hc2 : c.currentType ≠ .case_ := fun e => hc (by simp [e])
  have hc3 : c.currentType ≠ .default_ := fun e => hc (by simp [e])
  have hc4 : c.currentType ≠ .closeBrace := fun e => hc (by simp [e])
  rw [parseCaseStatement]
  simp only [StM.bind_apply, StM.get_apply, h, decide_True, hs, if_true, he, StM.pure_apply,
    match_of_eq hcolon, hb, hc1, hc2, hc3, hc4, or_self, if_false, hsts]

theorem parses_parseSwitchBlock {H : Host} {s a b c d e f : ExpressionTreeBuilder}
    {cond : Expression} {cases : List Statement} {dflt : Option Statement}
    (hopen : s.currentType = .openParen) (hs : skip H s = .ok ((), a))
    (hcond : Parses (parseExpression H) a cond b) (hclose : b.currentType = .closeParen)
    (hb : skip H b = .ok ((), c)) (hbrace : c.currentType = .openBrace)
    (hc : skip H c = .ok ((), d))
    (hloop : Parses (fun n => parseSwitchBlockLoop H n [] [] none) d (cases, dflt) e)
    (hend : e.currentType = .closeBrace) (he : skip H e = .ok ((), f)) :
    Parses (parseSwitchBlock H) s (.SwitchStatement cond cases dflt) f := by
  obtain ⟨n, hcond, hloop⟩ := Parses.two (fun k => (monoAt H k).parseExpression)
    (fun k => (monoAt H k).parseSwitchBlockLoop [] [] none) hcond hloop
  refine ⟨n + 1, ?_⟩
  rw [parseSwitchBlock]
  simp only [StM.bind_apply, match_of_eq hopen, hs, hcond, match_of_eq hclose, hb,
    match_of_eq hbrace, hc, hloop, match_of_eq hend, he, StM.pure_apply]

/-- C11: switch fall-through stacking. Let `cs` be the case statements that
`parseCaseStatement` reads in a switch body; a case is empty when it has no
body (its `:` is directly followed by `case`, `default` or the closing brace).
`parseSwitchBlock` returns a switch whose case list holds the bodies of exactly
the non-default cases of `cs` that have a body, in source order, all marked as
non-default. A case with a body that follows a maximal run of empty cases
carries its own conditions followed by the conditions of the run: as the entry
of the case list at its rank when it is a non-default case, and as the default
case when it is the last default with a body. Without a default with a body
there is no default case. The pending conditions are cleared when they are
merged: the conditions of the cases and of the default case returned are,
counted with repetition, among the conditions read. -/
theorem C11_switch_fall_through_stacking (H : Host)
    (s a b c d e f : ExpressionTreeBuilder) (cond : Expression) (cs : List Statement)
    (hopen : s.currentType = .openParen) (hs : skip H s = .ok ((), a))
    (hcond : Parses (parseExpression H) a cond b) (hclose : b.currentType = .closeParen)
    (hb : skip H b = .ok ((), c)) (hbrace : c.currentType = .openBrace)
    (hc : skip H c = .ok ((), d)) (hcs : ParsesCases H d cs e)
    (hend : e.currentType = .closeBrace) (he : skip H e = .ok ((), f)) :
    ∃ cases dflt, Parses (parseSwitchBlock H) s (.SwitchStatement cond cases dflt) f ∧
      cases.map Statement.caseBody =
        (cs.filter Statement.isCaseWithBody).map Statement.caseBody ∧
      (∀ x ∈ cases, x.isNotDefaultCase = true) ∧
      (∀ (pre run : List Statement) (nd : Bool) (conds : List Expression) (body : Statement)
        (post : List Statement),
        cs = pre ++ run ++ [Statement.CaseStatement nd conds (some body)] ++ post →
        (∀ r ∈ run, r.caseBody = none) →
        (pre = [] ∨ ∃ p, pre.getLast? = some p ∧ p.caseBody.isSome = true) →
        (nd = true → cases.get? (pre.filter Statement.isCaseWithBody).length =
          some (.CaseStatement true (conds ++ run.flatMap Statement.caseConditions)
            (some body))) ∧
        (nd = false → (∀ p ∈ post, p.isNotDefaultCase = true ∨ p.caseBody = none) →
          dflt = some (.CaseStatement false (conds ++ run.flatMap Statement.caseConditions)
            (some body)))) ∧
      ((∀ x ∈ cs, x.isNotDefaultCase = true ∨ x.caseBody = none) → dflt = none) ∧
      ((cases ++ dflt.toList).flatMap Statement.caseConditions).Subperm
        (cs.flatMap Statement.caseConditions) := by
  refine ⟨(cs.foldl stackCase ([], [], none)).2.1, (cs.foldl stackCase ([], [], none)).2.2,
    parses_parseSwitchBlock hopen hs hcond hclose hb hbrace hc
      (parses_parseSwitchBlockLoop hcs ([], [], none)) hend he, ?_, ?_, ?_, ?_, ?_⟩
  · obtain ⟨l, h1, h2, _⟩ := foldl_stackCase_cases cs ([], [], none)
    rw [h1]
    exact h2
  · obtain ⟨l, h1, _, h3⟩ := foldl_stackCase_cases cs ([], [], none)
    rw [h1]
    exact h3
  · intro pre run nd conds body post hcs' hrun hpre
    rw [hcs']
    exact foldl_stackCase_group pre run post nd conds body hrun hpre
  · intro h
    exact foldl_stackCase_default cs h ([], [], none)
  · have h := foldl_stackCase_subperm cs ([], [], none)
    simp only [List.nil_append, Option.toList_none, List.flatMap_nil, List.append_nil] at h
    exact (List.Sublist.subperm (List.sublist_append_left _ _)).trans h

/-- Witness for C11: in `switch (x) { case 1: case 2: y; }` the condition of
the empty case `1` is stacked on the case `2`. -/
theorem C11_switch_fall_through_stacking_witness :
    Parses (parseSwitchBlock specHost) (switchState 7 8 .openParen .void_)
      (.SwitchStatement (.UnqualifiedName "x")
        [.CaseStatement true [.LiteralValue (.int64 2), .LiteralValue (.int64 1)]
          (some (.BlockStatement [.expression (.UnqualifiedName "y")] []))]
        none)
      (switchState 33 33 .eof (.string "y")) := by
  have hx : Parses (parseExpression specHost) (switchState 8 9 .identifier (.string "x"))
      (.UnqualifiedName "x") (switchState 9 10 .closeParen (.string "x")) :=
    parses_parseExpression_of_unary
      (parses_parseUnary_unqualified rfl rfl rfl (by decide) rfl rfl rfl (by decide))
      (by decide)
  have h1 : Parses (parseCaseStatement specHost) (switchState 13 17 .case_ (.string "x"))
      (.CaseStatement true [.LiteralValue (.int64 1)] none)
      (switchState 21 25 .case_ (.int64 1)) :=
    parses_parseCaseStatement_empty
      (a := switchState 18 19 .literal (.int64 1)) (b := switchState 19 20 .colon (.int64 1))
      rfl rfl
      (parses_parseExpression_of_unary
        (parseUnary_literal rfl rfl (by decide) (by decide) (by decide) (by decide) (by decide))
        (by decide))
      rfl rfl (Or.inl rfl)
  have hy : Parses (parseStatement specHost) (switchState 29 30 .identifier (.string "y"))
      (.expression (.UnqualifiedName "y")) (switchState 32 33 .closeBrace (.string "y")) :=
    parses_parseStatement_expression
      (t := switchState 30 31 .semicolon (.string "y")) rfl
      (parses_parseExpression_of_unary
        (parses_parseUnary_unqualified rfl rfl rfl (by decide) rfl rfl rfl (by decide))
        (by decide))
      rfl rfl
  have h2 : Parses (parseCaseStatement specHost) (switchState 21 25 .case_ (.int64 1))
      (.CaseStatement true [.LiteralValue (.int64 2)]
        (some (.BlockStatement [.expression (.UnqualifiedName "y")] [])))
      (switchState 32 33 .closeBrace (.string "y")) :=
    parses_parseCaseStatement_statements
      (a := switchState 26 27 .literal (.int64 2)) (b := switchState 27 28 .colon (.int64 2))
      (c := switchState 29 30 .identifier (.string "y"))
      rfl rfl
      (parses_parseExpression_of_unary
        (parseUnary_literal rfl rfl (by decide) (by decide) (by decide) (by decide) (by decide))
        (by decide))
      rfl rfl (by decide)
      (parses_parseCaseStatementLoop_step (by decide) hy
        (parses_parseCaseStatementLoop_stop (Or.inr (Or.inl rfl))))
  obtain ⟨cases, dflt, hp, hA, _, hB, hD, _⟩ :=
    C11_switch_fall_through_stacking specHost (switchState 7 8 .openParen .void_)
      (switchState 8 9 .identifier (.string "x")) (switchState 9 10 .closeParen (.string "x"))
      (switchState 11 12 .openBrace (.string "x")) (switchState 13 17 .case_ (.string "x"))
      (switchState 32 33 .closeBrace (.string "y")) (switchState 33 33 .eof (.string "y"))
      (.UnqualifiedName "x")
      [.CaseStatement true [.LiteralValue (.int64 1)] none,
        .CaseStatement true [.LiteralValue (.int64 2)]
          (some (.BlockStatement [.expression (.UnqualifiedName "y")] []))]
      rfl rfl hx rfl rfl rfl rfl
      (ParsesCases.more (Or.inl rfl) h1
        (ParsesCases.more (Or.inl rfl) h2 (ParsesCases.done (by decide) (by decide))))
      rfl rfl
  have hd : dflt = none := hD (fun x hx => by
    simp only [List.mem_cons, List.mem_singleton, List.not_mem_nil, or_false] at hx
    rcases hx with rfl | rfl <;> exact Or.inl rfl)
  have h0 := (hB [] [.CaseStatement true [.LiteralValue (.int64 1)] none] true
    [.LiteralValue (.int64 2)] (.BlockStatement [.expression (.UnqualifiedName "y")] []) []
    rfl (fun r hr => by
      simp only [List.mem_singleton] at hr
      rw [hr]
      rfl) (Or.inl rfl)).1 rfl
  have hlen : cases.length = 1 := by
    have := congrArg List.length hA
    simpa [Statement.isCaseWithBody, Statement.isNotDefaultCase, Statement.caseBody] using this
  have hcases : cases = [.CaseStatement true [.LiteralValue (.int64 2), .LiteralValue (.int64 1)]
      (some (.BlockStatement [.expression (.UnqualifiedName "y")] []))] := by
    match cases, hlen, h0 with
    | [x], _, h0 =>
      simp only [List.filter_nil, List.length_nil, List.get?_cons_zero, Option.some.injEq] at h0
      rw [h0]
      rfl
  rw [hcases, hd] at hp
  exact hp

/-! ## C12 -/

/-- C12, divergence: `parseGlobalAssignment` does not call the uniqueness check
that `parseVar`, `parseConstVar`, `parseRegisterVar` and `parseLocalAssignment`
call. At a name followed by `;` it returns the `GlobalVarStatement` and adds the
name to the global properties whatever the tables hold, also when the name is
already a constant, a register or a property of the root object; it throws no
message. -/
theorem C12_global_declaration_is_not_checked (H : Host) (s t u : ExpressionTreeBuilder)
    (h : s.currentType = .identifier) (hs : skip H s = .ok ((), t))
    (hsemi : t.currentType = .semicolon)
    (ht : skip H { t with hiseSpecialData :=
      if t.hiseSpecialData.globals.contains s.currentValue.toString then t.hiseSpecialData
      else { t.hiseSpecialData with
        globals := t.hiseSpecialData.globals.set s.currentValue.toString .undefined } } =
      .ok ((), u)) :
    Parses (parseGlobalAssignment H) s (.GlobalVarStatement s.currentValue.toString .empty) u ∧
    ∀ msg, ¬ Fails (parseGlobalAssignment H) s msg := by
  have key : Parses (parseGlobalAssignment H) s
      (.GlobalVarStatement s.currentValue.toString .empty) u := by
    refine ⟨1, ?_⟩
    rw [parseGlobalAssignment]
    simp only [StM.bind_apply, parseIdentifier_of_identifier h hs, modifyData, StM.modify_apply,
      matchIf_of_ne (show ({ t with hiseSpecialData :=
        if t.hiseSpecialData.globals.contains s.currentValue.toString then t.hiseSpecialData
        else { t.hiseSpecialData with
          globals := t.hiseSpecialData.globals.set s.currentValue.toString .undefined } } :
        ExpressionTreeBuilder).currentType ≠ .assign by rw [hsemi]; decide),
      matchIf_of_ne (show ({ t with hiseSpecialData :=
        if t.hiseSpecialData.globals.contains s.currentValue.toString then t.hiseSpecialData
        else { t.hiseSpecialData with
          globals := t.hiseSpecialData.globals.set s.currentValue.toString .undefined } } :
        ExpressionTreeBuilder).currentType ≠ .comma by rw [hsemi]; decide),
      Bool.false_eq_true, if_false, StM.pure_apply,
      match_of_eq (show ({ t with hiseSpecialData :=
        if t.hiseSpecialData.globals.contains s.currentValue.toString then t.hiseSpecialData
        else { t.hiseSpecialData with
          globals := t.hiseSpecialData.globals.set s.currentValue.toString .undefined } } :
        ExpressionTreeBuilder).currentType = .semicolon from hsemi), ht]
  exact ⟨key, fun msg => key.not_fails (fun k => (monoAt H k).parseGlobalAssignment)⟩

/-- Witness for C12: with `v` registered as a constant, `global v;` is accepted
and `v` becomes a global property as well. -/
theorem C12_global_declaration_is_not_checked_witness :
    (constTables []).constObjects.contains "v" = true ∧
    Parses (parseGlobalAssignment specHost)
      (mkParser (constTables []) false "global v;" 7 8 .identifier (.string "v"))
      (.GlobalVarStatement "v" .empty)
      (mkParser (constTables [("v", .undefined)]) false "global v;" 9 9 .eof (.string "v")) :=
  ⟨by decide,
    (C12_global_declaration_is_not_checked specHost
      (mkParser (constTables []) false "global v;" 7 8 .identifier (.string "v"))
      (mkParser (constTables []) false "global v;" 8 9 .semicolon (.string "v"))
      (mkParser (constTables [("v", .undefined)]) false "global v;" 9 9 .eof (.string "v"))
      rfl rfl rfl rfl).1⟩

/-! ## C13 -/

/-- C13, counterexample: the pre-pass accepts `{ namespace A { } }`, a namespace
declared inside a braced block at root level, and registers the namespace `A`. -/
theorem C13_namespace_in_root_block_counterexample :
    preprocessCode specHost 8 namespaceInBlock.toList "" HiseSpecialData.empty =
      .ok (prepassTables [] [] [{ id := "A" }]) :=
  namespaceInBlock_prepass 0

/-- C13, amended: at a `namespace` keyword the pre-pass fails with "Nesting of
namespaces is not allowed" when a named namespace is open, at any brace depth.
When the root namespace is the open one the brace depth is not looked at: the
constants read so far are flushed and the namespace named by the next token is
opened (unless a namespace of that name exists already). -/
theorem C13_namespace_nesting (H : Host) (n : Nat) (s : PreprocessState)
    (h : s.it.currentType = .namespace_) :
    (s.cns ≠ .root →
      preprocessCodeLoop H (n + 1) s = .error "Nesting of namespaces is not allowed") ∧
    (s.cns = .root → ∀ i : TokenIterator, TokenIterator.skip H s.it = .ok ((), i) →
      ((s.hiseSpecialData.modifyNs .root (fun x => { x with
          constObjects := s.ids.foldl (fun c k => c.set k (.string "undeclared")) x.constObjects })).getNamespace
        i.currentValue.toString).isNone = true →
      preprocessCodeLoop H (n + 1) s = preprocessCodeLoop H n
        { it := i
          cns := .named s.hiseSpecialData.namespaces.length
          ids := []
          braceLevel := s.braceLevel
          hiseSpecialData :=
            { (s.hiseSpecialData.modifyNs .root (fun x => { x with
          constObjects := s.ids.foldl (fun c k => c.set k (.string "undeclared")) x.constObjects })) with
              namespaces := s.hiseSpecialData.namespaces ++ [{ id := i.currentValue.toString }] } }) := by
  refine ⟨fun hc => preprocessCodeLoop_namespace_nested h hc, fun hc i hs hn => ?_⟩
  have hf : flushIds s = .ok ((), { s with
      hiseSpecialData := s.hiseSpecialData.modifyNs .root (fun x => { x with
          constObjects := s.ids.foldl (fun c k => c.set k (.string "undeclared")) x.constObjects }),
      ids := [] }) := by
    simp only [flushIds, StM.modify_apply, hc]
  rw [preprocessCodeLoop_namespace h hc hf hs hn]
  rfl

/-- Witness for C13: the second `namespace` of `namespace A { namespace B { } }`
is read while `A` is open. -/
theorem C13_namespace_nesting_witness :
    (preState namespaceInNamespace (prepassTables [] [] [{ id := "A" }]) (.named 0) [] 1
        14 23 .namespace_ (.string "A")).it.currentType = .namespace_ ∧
    preprocessCodeLoop specHost 1
        (preState namespaceInNamespace (prepassTables [] [] [{ id := "A" }]) (.named 0) [] 1
          14 23 .namespace_ (.string "A")) =
      .error "Nesting of namespaces is not allowed" :=
  ⟨rfl, (C13_namespace_nesting specHost 0
    (preState namespaceInNamespace (prepassTables [] [] [{ id := "A" }]) (.named 0) [] 1
      14 23 .namespace_ (.string "A")) rfl).1 (by decide)⟩

/-! ## C14 -/

/-- C14, counterexample: the pre-pass accepts
`namespace A { if (x) { const var k = 1; } }`, a constant declared in a nested
block of a named namespace; `k` becomes a constant of `A`. -/
theorem C14_const_in_namespace_block_counterexample :
    preprocessCode specHost 17 constInNamespaceBlock.toList "" HiseSpecialData.empty =
      .ok (prepassTables [] []
        [{ id := "A", constObjects := [("k", .string "undeclared")],
           constLocations := [⟨"", 33⟩] }]) :=
  constInNamespaceBlock_prepass 0

/-- C14, amended: at a `const` (with or without `var` after it) the pre-pass
fails with "const var declaration must be on global level" when the root
namespace is the open one and the brace depth is not 0. In every other case -
depth 0 of the root namespace, or any depth while a named namespace is open -
the brace depth does not reject the declaration: a declaration whose name is not
null and was not read since the last flush is accepted, its name is added to
`ids` and its location to the open namespace. -/
theorem C14_const_scope_rule (H : Host) (n : Nat) (s : PreprocessState) (a b : TokenIterator)
    (m : Bool) (h : s.it.currentType = .const_)
    (hs : TokenIterator.skip H s.it = .ok ((), a))
    (hv : TokenIterator.matchIf H .var a = .ok (m, b)) :
    (s.cns = .root ∧ s.braceLevel ≠ 0 →
      preprocessCodeLoop H (n + 1) s =
        .error "const var declaration must be on global level") ∧
    (s.cns ≠ .root ∨ s.braceLevel = 0 →
      b.currentValue.toString ≠ Identifier.null →
      s.ids.contains b.currentValue.toString = false →
      preprocessCodeLoop H (n + 1) s = preprocessCodeLoop H n
        { s with
          it := b
          ids := s.ids ++ [b.currentValue.toString]
          hiseSpecialData := s.hiseSpecialData.modifyNs s.cns (fun x => { x with
            constLocations :=
              x.constLocations ++ [⟨b.location.externalFile, b.charNumber⟩] }) }) := by
  refine ⟨fun hg => preprocessCodeLoop_const_rejected h hs hv hg, fun hg hnull hdup => ?_⟩
  refine preprocessCodeLoop_const h hs hv ?_ hnull hdup
  rintro ⟨h1, h2⟩
  rcases hg with hg | hg
  · exact hg h1
  · exact h2 hg

/-- Witness for C14: the `const` of `if (x) { const var k = 1; }` is read at
depth 1 of the root namespace. -/
theorem C14_const_scope_rule_witness :
    (preState constInRootBlock (prepassTables [] [] []) .root [] 1 9 14 .const_
        (.string "x")).it.currentType = .const_ ∧
    TokenIterator.skip specHost
        (preState constInRootBlock (prepassTables [] [] []) .root [] 1 9 14 .const_
          (.string "x")).it =
      .ok ((), mkIterator constInRootBlock 15 18 .var (.string "x")) ∧
    TokenIterator.matchIf specHost .var (mkIterator constInRootBlock 15 18 .var (.string "x")) =
      .ok (true, mkIterator constInRootBlock 19 20 .identifier (.string "k")) ∧
    preprocessCodeLoop specHost 1
        (preState constInRootBlock (prepassTables [] [] []) .root [] 1 9 14 .const_
          (.string "x")) =
      .error "const var declaration must be on global level" :=
  ⟨rfl, rfl, rfl, (C14_const_scope_rule specHost 0
    (preState constInRootBlock (prepassTables [] [] []) .root [] 1 9 14 .const_ (.string "x"))
    (mkIterator constInRootBlock 15 18 .var (.string "x"))
    (mkIterator constInRootBlock 19 20 .identifier (.string "k")) true rfl rfl rfl).1
    (by decide)⟩

/-! ## C15 -/

/-- C15, counterexample: with the embedded collection as include loader the
driver accepts `include("a.js"); include("a.js");` and returns the blocks of
both includes; no file is recorded and no error is raised. -/
theorem C15_collection_loader_counterexample :
    ∃ fuel, execute (collectionHost includedText) fuel HiseSpecialData.empty
        includeTwice.toList true =
      .ok (.BlockStatement
        [.BlockStatement [.expression (.UnqualifiedName "x")] [],
         .BlockStatement [.expression (.UnqualifiedName "x")] []] [],
        fileParser HiseSpecialData.empty "" includeTwice 33 33 .eof (.string "a.js")) :=
  includeTwice_collection_accepted

/-- C15, amended: with the project-rooted loader (`USE_BACKEND`), at an
`include (` of an existing file the main parse fails with "File ... was included
multiple times" when the canonical name of the file is in the set of included
files; when it is not and the file has text, the name is added to the set and
the text is parsed by a nested parser that starts from the enlarged set, in the
`try` block of the include. The pre-pass makes the same test at its
`include (`: it fails with the same message when the file is in the set and
pre-passes the text of the file when it is not; but no pre-pass changes the
set. So the driver, started with an empty set,
passes the pre-pass of `include("a.js"); include("a.js");` and of
`include("a.js"); include("b.js");` with an `a.js` that includes `b.js`, and
fails in the main parse with the message for the file included a second
time. -/
theorem C15_include_exclusivity (H : Host) (n : Nat) (s t : ExpressionTreeBuilder)
    (text : List Char) (hb : H.USE_BACKEND = true) (h : s.currentType = .openParen)
    (hs : skip H s = .ok ((), t))
    (hload : H.loadFileAsString (canonicalName H t.currentValue.toString) = some text) :
    (t.hiseSpecialData.includedFiles.any
        (fun e => e.f = canonicalName H t.currentValue.toString) = true →
      parseExternalFile H (n + 1) s = .error ("File " ++
        H.getFileName (canonicalName H t.currentValue.toString) ++
        " was included multiple times")) ∧
    (t.hiseSpecialData.includedFiles.any
        (fun e => e.f = canonicalName H t.currentValue.toString) = false →
      text.isEmpty = false →
      parseExternalFile H (n + 1) s =
        catchInclude ((do
          let ftb ← liftRes (TokenIterator.new H text (canonicalName H t.currentValue.toString))
          let b ← runNested ftb (parseStatementList H n)
          match_ H .literal
          match_ H .closeParen
          match_ H .semicolon
          pure b) : Parser Statement)
          ({ t with hiseSpecialData := { t.hiseSpecialData with
              includedFiles := t.hiseSpecialData.includedFiles ++
                [({ f := canonicalName H t.currentValue.toString } : ExternalFileData)] } } :
            ExpressionTreeBuilder)) ∧
    (∀ (m : Nat) (p : PreprocessState) (a b : TokenIterator) (x : List Char),
      p.it.currentType = .include_ → TokenIterator.skip H p.it = .ok ((), a) →
      a.currentType = .openParen → TokenIterator.skip H a = .ok ((), b) →
      H.loadFileAsString (canonicalName H b.currentValue.toString) = some x →
      (p.hiseSpecialData.includedFiles.any
          (fun e => e.f = canonicalName H b.currentValue.toString) = true →
        preprocessCodeLoop H (m + 1) p = .error ("File " ++
          H.getFileName (canonicalName H b.currentValue.toString) ++
          " was included multiple times")) ∧
      (p.hiseSpecialData.includedFiles.any
          (fun e => e.f = canonicalName H b.currentValue.toString) = false →
        preprocessCodeLoop H (m + 1) p =
          match preprocessCode H m x (canonicalName H b.currentValue.toString)
            p.hiseSpecialData with
          | .ok d => preprocessCodeLoop H m { p with it := b, hiseSpecialData := d }
          | .error e => .error e
          | .outOfFuel => .outOfFuel)) ∧
    (∀ (m : Nat) (code : List Char) (file : String) (d d' : HiseSpecialData),
      preprocessCode H m code file d = .ok d' → d'.includedFiles = d.includedFiles) ∧
    ((∀ m, preprocessCode (projectHost includedText) (m + 10) includeTwice.toList ""
        HiseSpecialData.empty = .ok HiseSpecialData.empty) ∧
      ∃ fuel, execute (projectHost includedText) fuel HiseSpecialData.empty
          includeTwice.toList true =
        .error "File \x7bPROJECT_FOLDER\x7da.js was included multiple times") ∧
    ((∀ m, preprocessCode chainHost (m + 16) includeTransitively.toList ""
        HiseSpecialData.empty = .ok HiseSpecialData.empty) ∧
      ∃ fuel, execute chainHost fuel HiseSpecialData.empty includeTransitively.toList true =
        .error "File \x7bPROJECT_FOLDER\x7db.js was included multiple times") := by
  refine ⟨fun hin => parseExternalFile_included hb h hs hload hin, fun hnot hne => ?_,
    fun m p a b x hp hpa ha hab hx => ⟨fun hin => ?_, fun hnot => ?_⟩,
    fun m code file d d' hd => (prepass_keepsIncluded H m).2 code file d d' hd,
    ⟨includeTwice_prepass_project, includeTwice_project_rejected⟩,
    ⟨includeTransitively_prepass, includeTransitively_rejected⟩⟩
  · rw [parseExternalFile]
    simp only [StM.bind_apply, match_of_eq h, hs, StM.get_apply, liftExcept,
      getFileContent_fresh hb hload hnot, hne, Bool.false_eq_true, if_false, hb, if_true,
      modifyData, StM.modify_apply]
  · exact preprocessCodeLoop_include_error hp hpa ha hab (getFileContent_included hb hx hin)
  · exact preprocessCodeLoop_include hp hpa ha hab (getFileContent_fresh hb hx hnot)

/-- Witness for C15: the second `include` of `include("a.js"); include("a.js");`
is read when `a.js` is in the set of included files. -/
theorem C15_include_exclusivity_witness :
    (projectHost includedText).USE_BACKEND = true ∧
    (fileParser (includeTables ["\x7bPROJECT_FOLDER\x7da.js"]) "" includeTwice 24 25 .openParen
      (.string "a.js")).currentType = .openParen ∧
    skip (projectHost includedText)
        (fileParser (includeTables ["\x7bPROJECT_FOLDER\x7da.js"]) "" includeTwice 24 25
          .openParen (.string "a.js")) =
      .ok ((), fileParser (includeTables ["\x7bPROJECT_FOLDER\x7da.js"]) "" includeTwice 25 31
        .literal (.string "a.js")) ∧
    parseExternalFile (projectHost includedText) 1
        (fileParser (includeTables ["\x7bPROJECT_FOLDER\x7da.js"]) "" includeTwice 24 25
          .openParen (.string "a.js")) =
      .error "File \x7bPROJECT_FOLDER\x7da.js was included multiple times" :=
  ⟨rfl, rfl, rfl, (C15_include_exclusivity (projectHost includedText) 0
    (fileParser (includeTables ["\x7bPROJECT_FOLDER\x7da.js"]) "" includeTwice 24 25 .openParen
      (.string "a.js"))
    (fileParser (includeTables ["\x7bPROJECT_FOLDER\x7da.js"]) "" includeTwice 25 31 .literal
      (.string "a.js"))
    includedText.toList rfl rfl rfl rfl).1 rfl⟩

/-! ## C16 -/

/-- C16: a call `name (e1, ..., em)` of a registered inline function `o` with
well-formed argument expressions is parsed by `parseInlineFunctionCall` if and
only if `m` is the number of parameters of `o`; the call node then holds the
arguments in the order of the source. When the numbers differ the call fails
with "Inline function call name: parameter amount mismatch: m (Expected: n)". -/
theorem C16_inline_call_arity (H : Host) (obj : InlineRef) (o : InlineFunctionObject)
    (s a b c u : ExpressionTreeBuilder) (es : List Expression)
    (ho : (s.hiseSpecialData.ns obj.ns).inlineFunctions.get? obj.index = some o)
    (h : s.currentType = .identifier) (hs : skip H s = .ok ((), a))
    (hopen : a.currentType = .openParen) (ha : skip H a = .ok ((), b))
    (hargs : ParsesArguments H .closeParen b es c) (hc : skip H c = .ok ((), u)) :
    ((∃ e v, Parses (fun n => parseInlineFunctionCall H n obj) s e v) ↔
      es.length = o.parameterNames.length) ∧
    (es.length = o.parameterNames.length →
      Parses (fun n => parseInlineFunctionCall H n obj) s
        (.InlineFunctionCall obj o.parameterNames.length es) u) ∧
    (es.length ≠ o.parameterNames.length →
      Fails (fun n => parseInlineFunctionCall H n obj) s
        ("Inline function call " ++ o.name ++ ": parameter amount mismatch: "
          ++ toString es.length ++ " (Expected: " ++ toString o.parameterNames.length ++ ")")) := by
  obtain ⟨n, hn⟩ := parses_parseArgumentsLoop hargs []
  have hn2 : parseArgumentsLoop H n .closeParen [] b = .ok (es, c) := hn
  have key := parseInlineFunctionCall_of_arguments (r := obj) ho h hs hopen ha hn2
  have hok : es.length = o.parameterNames.length →
      Parses (fun n => parseInlineFunctionCall H n obj) s
        (.InlineFunctionCall obj o.parameterNames.length es) u := by
    intro hl
    refine ⟨n + 1, ?_⟩
    show parseInlineFunctionCall H (n + 1) obj s = _
    rw [key, if_neg (by simpa using hl.symm), matchCloseParen_of_closeParen hargs.at_close hc]
  have hfail : es.length ≠ o.parameterNames.length →
      Fails (fun n => parseInlineFunctionCall H n obj) s
        ("Inline function call " ++ o.name ++ ": parameter amount mismatch: "
          ++ toString es.length ++ " (Expected: " ++ toString o.parameterNames.length ++ ")") := by
    intro hl
    refine ⟨n + 1, ?_⟩
    show parseInlineFunctionCall H (n + 1) obj s = _
    rw [key, if_pos (fun e => hl e.symm)]
  refine ⟨⟨?_, fun hl => ⟨_, _, hok hl⟩⟩, hok, hfail⟩
  rintro ⟨e, v, hp⟩
  by_contra hl
  exact hp.not_fails (fun k => (monoAt H k).parseInlineFunctionCall obj) (hfail hl)

/-- Witness for C16: with `f (a)` registered, `f(1)` is a call with the argument
`1` and `f(1, 2)` fails. -/
theorem C16_inline_call_arity_witness :
    Parses (fun n => parseInlineFunctionCall specHost n ⟨.root, 0⟩)
      (mkParser oneInlineTables false inlineCallOne 0 1 .identifier (.string "f"))
      (.InlineFunctionCall ⟨.root, 0⟩ 1 [.LiteralValue (.int64 1)])
      (mkParser oneInlineTables false inlineCallOne 4 4 .eof (.int64 1)) ∧
    Fails (fun n => parseInlineFunctionCall specHost n ⟨.root, 0⟩)
      (mkParser oneInlineTables false inlineCallTwo 0 1 .identifier (.string "f"))
      "Inline function call f: parameter amount mismatch: 2 (Expected: 1)" :=
  ⟨(C16_inline_call_arity specHost ⟨.root, 0⟩
      { name := "f", parameterNames := ["a"], location := ⟨"", 7⟩ }
      (mkParser oneInlineTables false inlineCallOne 0 1 .identifier (.string "f"))
      (mkParser oneInlineTables false inlineCallOne 1 2 .openParen (.string "f"))
      (mkParser oneInlineTables false inlineCallOne 2 3 .literal (.int64 1))
      (mkParser oneInlineTables false inlineCallOne 3 4 .closeParen (.int64 1))
      (mkParser oneInlineTables false inlineCallOne 4 4 .eof (.int64 1))
      [.LiteralValue (.int64 1)] rfl rfl rfl rfl rfl
      (ParsesArguments.last (by decide)
        (parses_parseExpression_of_unary
          (parseUnary_literal rfl rfl (by decide) (by decide) (by decide) (by decide)
            (by decide))
          (by decide))
        rfl)
      rfl).2.1 rfl,
   (C16_inline_call_arity specHost ⟨.root, 0⟩
      { name := "f", parameterNames := ["a"], location := ⟨"", 7⟩ }
      (mkParser oneInlineTables false inlineCallTwo 0 1 .identifier (.string "f"))
      (mkParser oneInlineTables false inlineCallTwo 1 2 .openParen (.string "f"))
      (mkParser oneInlineTables false inlineCallTwo 2 3 .literal (.int64 1))
      (mkParser oneInlineTables false inlineCallTwo 6 7 .closeParen (.int64 2))
      (mkParser oneInlineTables false inlineCallTwo 7 7 .eof (.int64 2))
      [.LiteralValue (.int64 1), .LiteralValue (.int64 2)] rfl rfl rfl rfl rfl
      (ParsesArguments.more (t := mkParser oneInlineTables false inlineCallTwo 3 4 .comma
          (.int64 1))
        (u := mkParser oneInlineTables false inlineCallTwo 5 6 .literal (.int64 2))
        (by decide)
        (parses_parseExpression_of_unary
          (parseUnary_literal rfl rfl (by decide) (by decide) (by decide) (by decide)
            (by decide))
          (by decide))
        (by decide) rfl rfl
        (ParsesArguments.last (by decide)
          (parses_parseExpression_of_unary
            (parseUnary_literal rfl rfl (by decide) (by decide) (by decide) (by decide)
              (by decide))
            (by decide))
          rfl))
      rfl).2.2 (by decide)⟩

/-! ## C17 -/

/-- C17, counterexample: the call `A.f(1, 2)` of a method that takes one
argument fails with a message that states the expected count 1 and not the
actual count 2. -/
theorem C17_too_many_arguments_counterexample :
    Fails (fun n => parseApiCall specHost n 0 apiA "f")
      (mkParser apiTables false apiCallTwo 3 4 .openParen (.string "f"))
      "Too many arguments in API call A.f(). Expected: 1" := by
  have hargs : ParsesArguments specHost .closeParen
      (mkParser apiTables false apiCallTwo 4 5 .literal (.int64 1))
      [.LiteralValue (.int64 1), .LiteralValue (.int64 2)]
      (mkParser apiTables false apiCallTwo 8 9 .closeParen (.int64 2)) :=
    ParsesArguments.more (t := mkParser apiTables false apiCallTwo 5 6 .comma (.int64 1))
      (u := mkParser apiTables false apiCallTwo 7 8 .literal (.int64 2))
      (by decide)
      (parses_parseExpression_of_unary
        (parseUnary_literal rfl rfl (by decide) (by decide) (by decide) (by decide) (by decide))
        (by decide))
      (by decide) rfl rfl
      (ParsesArguments.last (by decide)
        (parses_parseExpression_of_unary
          (parseUnary_literal rfl rfl (by decide) (by decide) (by decide) (by decide)
            (by decide))
          (by decide))
        rfl)
  obtain ⟨n, hn⟩ := fails_parseApiCallLoop (p := "A.f") (k := 1) hargs [] (by decide)
    (by decide)
  exact ⟨n + 1, parseApiCall_too_many (k := 1) (f := 0) rfl (by decide) rfl rfl hn⟩

/-- C17, amended: a call `Class.method (e1, ..., em)` of a registered API method
that expects `k` arguments, with well-formed argument expressions, is parsed by
`parseApiCall` if and only if `m = k`. With `m < k` it fails with "Call to
Class.method(): argument number mismatch : m (Expected : k)". With `m > k` it
fails at the first argument after the expected ones with "Too many arguments in
API call Class.method(). Expected: k", which does not state `m`. A name that is
no method of the class fails with "Function / constant not found: Class.name"
before a token is read. -/
theorem C17_api_call_arity (H : Host) (apiIndex functionIndex : Int) (k : Nat)
    (apiClass : ApiClass) (name : Identifier) (s b c u : ExpressionTreeBuilder)
    (es : List Expression)
    (hreg : apiClass.getIndexAndNumArgsForFunction name = (functionIndex, (k : Int)))
    (hfi : 0 ≤ functionIndex) (hopen : s.currentType = .openParen)
    (hs : skip H s = .ok ((), b)) (hargs : ParsesArguments H .closeParen b es c)
    (hc : skip H c = .ok ((), u)) :
    ((∃ e v, Parses (fun n => parseApiCall H n apiIndex apiClass name) s e v) ↔
      es.length = k) ∧
    (es.length = k →
      Parses (fun n => parseApiCall H n apiIndex apiClass name) s
        (.ApiCall apiIndex k functionIndex es) u) ∧
    (es.length < k →
      Fails (fun n => parseApiCall H n apiIndex apiClass name) s
        ("Call to " ++ (apiClass.getName ++ "." ++ name) ++ "(): argument number mismatch : "
          ++ toString es.length ++ " (Expected : " ++ toString (k : Int) ++ ")")) ∧
    (k < es.length →
      Fails (fun n => parseApiCall H n apiIndex apiClass name) s
        ("Too many arguments in API call " ++ (apiClass.getName ++ "." ++ name)
          ++ "(). Expected: " ++ toString (k : Int))) ∧
    (∀ (n : Nat) (other : Identifier) (x : ExpressionTreeBuilder),
      (apiClass.getIndexAndNumArgsForFunction other).1 < 0 →
      parseApiCall H (n + 1) apiIndex apiClass other x =
        .error ("Function / constant not found: " ++ (apiClass.getName ++ "." ++ other))) := by
  have hok : es.length = k →
      Parses (fun n => parseApiCall H n apiIndex apiClass name) s
        (.ApiCall apiIndex k functionIndex es) u := by
    intro hl
    obtain ⟨n, hn⟩ := parses_parseApiCallLoop (p := apiClass.getName ++ "." ++ name)
      (k := k) hargs [] (by simp [hl])
    have hn2 : parseApiCallLoop H n (apiClass.getName ++ "." ++ name) k [] b = .ok (es, c) := hn
    refine ⟨n + 1, ?_⟩
    show parseApiCall H (n + 1) apiIndex apiClass name s = _
    rw [parseApiCall_of_arguments hreg hfi hopen hs hn2,
      if_neg (by simp [hl]), matchCloseParen_of_closeParen hargs.at_close hc]
  have hfew : es.length < k →
      Fails (fun n => parseApiCall H n apiIndex apiClass name) s
        ("Call to " ++ (apiClass.getName ++ "." ++ name) ++ "(): argument number mismatch : "
          ++ toString es.length ++ " (Expected : " ++ toString (k : Int) ++ ")") := by
    intro hl
    obtain ⟨n, hn⟩ := parses_parseApiCallLoop (p := apiClass.getName ++ "." ++ name)
      (k := k) hargs [] (by simp; omega)
    have hn2 : parseApiCallLoop H n (apiClass.getName ++ "." ++ name) k [] b = .ok (es, c) := hn
    refine ⟨n + 1, ?_⟩
    show parseApiCall H (n + 1) apiIndex apiClass name s = _
    rw [parseApiCall_of_arguments hreg hfi hopen hs hn2,
      if_pos (by
        intro e
        have : k = es.length := by exact_mod_cast e
        omega)]
  have hmany : k < es.length →
      Fails (fun n => parseApiCall H n apiIndex apiClass name) s
        ("Too many arguments in API call " ++ (apiClass.getName ++ "." ++ name)
          ++ "(). Expected: " ++ toString (k : Int)) := by
    intro hl
    obtain ⟨n, hn⟩ := fails_parseApiCallLoop (p := apiClass.getName ++ "." ++ name)
      (k := k) hargs [] (by simp) (by simpa using hl)
    exact ⟨n + 1, parseApiCall_too_many hreg hfi hopen hs hn⟩
  refine ⟨⟨?_, fun hl => ⟨_, _, hok hl⟩⟩, hok, hfew, hmany,
    fun n other x h => parseApiCall_not_found h⟩
  rintro ⟨e, v, hp⟩
  by_contra hl
  rcases Nat.lt_or_gt_of_ne hl with h1 | h1
  · exact hp.not_fails (fun j => (monoAt H j).parseApiCall apiIndex apiClass name) (hfew h1)
  · exact hp.not_fails (fun j => (monoAt H j).parseApiCall apiIndex apiClass name) (hmany h1)

/-- Witness for C17: with the method `f` of `A` taking one argument, `A.f(1)` is
a call and `A.f()` fails with both counts in the message. -/
theorem C17_api_call_arity_witness :
    Parses (fun n => parseApiCall specHost n 0 apiA "f")
      (mkParser apiTables false apiCallOne 3 4 .openParen (.string "f"))
      (.ApiCall 0 1 0 [.LiteralValue (.int64 1)])
      (mkParser apiTables false apiCallOne 6 6 .eof (.int64 1)) ∧
    Fails (fun n => parseApiCall specHost n 0 apiA "f")
      (mkParser apiTables false apiCallNone 3 4 .openParen (.string "f"))
      "Call to A.f(): argument number mismatch : 0 (Expected : 1)" :=
  ⟨(C17_api_call_arity specHost 0 0 1 apiA "f"
      (mkParser apiTables false apiCallOne 3 4 .openParen (.string "f"))
      (mkParser apiTables false apiCallOne 4 5 .literal (.int64 1))
      (mkParser apiTables false apiCallOne 5 6 .closeParen (.int64 1))
      (mkParser apiTables false apiCallOne 6 6 .eof (.int64 1))
      [.LiteralValue (.int64 1)] rfl (by decide) rfl rfl
      (ParsesArguments.last (by decide)
        (parses_parseExpression_of_unary
          (parseUnary_literal rfl rfl (by decide) (by decide) (by decide) (by decide)
            (by decide))
          (by decide))
        rfl)
      rfl).2.1 rfl,
   (C17_api_call_arity specHost 0 0 1 apiA "f"
      (mkParser apiTables false apiCallNone 3 4 .openParen (.string "f"))
      (mkParser apiTables false apiCallNone 4 5 .closeParen (.string "f"))
      (mkParser apiTables false apiCallNone 4 5 .closeParen (.string "f"))
      (mkParser apiTables false apiCallNone 5 5 .eof (.string "f"))
      [] rfl (by decide) rfl rfl (ParsesArguments.done rfl) rfl).2.2.1 (by decide)⟩

/-! ## C18 -/

/-- C18, counterexample: `function cb(a) { function cb(b) { } }` is parsed, and
afterwards the parameter array of the callback `cb` is `[b]`, the names of the
definition inside the body, not `[a]`. -/
theorem C18_nested_definition_counterexample :
    Parses (parseStatement specHost)
      (mkParser (callbackTables [Identifier.null] none) false nestedCallback 0 8 .function .void_)
      .empty
      (mkParser (callbackTables ["b"] (some (.BlockStatement [.empty] []))) false nestedCallback
        37 37 .eof (.string "b")) := by
  have inner : Parses (parseStatement specHost)
      (callbackParser "cb" (callbackTables ["a"] none) nestedCallback 17 25 .function
        (.string "a"))
      .empty
      (mkParser (callbackTables ["b"] (some (.BlockStatement [] []))) false nestedCallback
        36 37 .closeBrace (.string "b")) := by
    obtain ⟨n, hn⟩ := parses_parseCallback (H := specHost)
      (s := callbackParser "cb" (callbackTables ["a"] none) nestedCallback 26 28 .identifier
        (.string "cb"))
      (a := callbackParser "cb" (callbackTables ["a"] none) nestedCallback 28 29 .openParen
        (.string "cb"))
      (b := callbackParser "cb" (callbackTables ["a"] none) nestedCallback 29 30 .identifier
        (.string "b"))
      (v := callbackParser "cb" (callbackTables ["b"] none) nestedCallback 36 37 .closeBrace
        (.string "b"))
      (l := mkIterator nestedCallback 30 31 .closeParen (.string "b"))
      (m := mkIterator nestedCallback 32 33 .openBrace (.string "b"))
      (c := { name := "cb", numArgs := 1, parameters := ["a"], parameterValues := [.undefined] })
      (p := ["b"]) (r := .BlockStatement [] [])
      rfl rfl rfl rfl rfl
      (ParameterList.single (i := mkIterator nestedCallback 29 30 .identifier (.string "b"))
        (j := mkIterator nestedCallback 30 31 .closeParen (.string "b")) rfl rfl rfl) rfl rfl
      (parses_parseBlock
        (t := callbackParser "cb" (callbackTables ["b"] none) nestedCallback 34 35 .closeBrace
          (.string "b"))
        rfl rfl
        (parses_parseStatementList (parses_parseStatementListLoop_stop (Or.inl rfl)))
        rfl rfl)
    exact ⟨n + 2, (parseStatement_callback (H := specHost)
      (s := callbackParser "cb" (callbackTables ["a"] none) nestedCallback 17 25 .function
        (.string "a"))
      (t := callbackParser "cb" (callbackTables ["a"] none) nestedCallback 26 28 .identifier
        (.string "cb")) rfl rfl rfl).trans hn⟩
  obtain ⟨n, hn⟩ := parses_parseCallback (H := specHost)
    (s := mkParser (callbackTables [Identifier.null] none) false nestedCallback 9 11 .identifier
      (.string "cb"))
    (a := mkParser (callbackTables [Identifier.null] none) false nestedCallback 11 12 .openParen
      (.string "cb"))
    (b := mkParser (callbackTables [Identifier.null] none) false nestedCallback 12 13 .identifier
      (.string "a"))
    (v := mkParser (callbackTables ["b"] (some (.BlockStatement [] []))) false nestedCallback
      37 37 .eof (.string "b"))
    (l := mkIterator nestedCallback 13 14 .closeParen (.string "a"))
    (m := mkIterator nestedCallback 15 16 .openBrace (.string "a"))
    (c := { name := "cb", numArgs := 1, parameters := [Identifier.null],
            parameterValues := [.undefined] })
    (p := ["a"]) (r := .BlockStatement [.empty] [])
    rfl rfl rfl rfl rfl
    (ParameterList.single (i := mkIterator nestedCallback 12 13 .identifier (.string "a"))
      (j := mkIterator nestedCallback 13 14 .closeParen (.string "a")) rfl rfl rfl) rfl rfl
    (parses_parseBlock
      (t := callbackParser "cb" (callbackTables ["a"] none) nestedCallback 17 25 .function
        (.string "a"))
      (u := mkParser (callbackTables ["b"] (some (.BlockStatement [] []))) false nestedCallback
        36 37 .closeBrace (.string "b"))
      rfl rfl
      (parses_parseStatementList
        (parses_parseStatementListLoop_step (by decide) (by decide) inner
          (fun _ _ h => nomatch h)
          (parses_parseStatementListLoop_stop (Or.inl rfl))))
      rfl rfl)
  exact ⟨n + 2, (parseStatement_callback (H := specHost)
    (s := mkParser (callbackTables [Identifier.null] none) false nestedCallback 0 8 .function
      .void_)
    (t := mkParser (callbackTables [Identifier.null] none) false nestedCallback 9 11 .identifier
      (.string "cb")) rfl rfl rfl).trans hn⟩

/-- C18, amended: for a callback `c` that the host registered under the name
after `function`, the statement `function name (p1, ..., pm) body` is parsed
only if `m = c.numArgs`; with `m = c.numArgs` and a block `body` that parses, it
is parsed, the statement returned is the empty statement, the body is parsed
with the parameter array of the callback holding `[p1, ..., pm]` and with the
callback as the currently parsed one, and afterwards the currently parsed
callback is null and the callback the body left has `body` as its statements
(its parameter array is the one the body left). -/
theorem C18_callback_definition (H : Host) (s t a b : ExpressionTreeBuilder)
    (l : TokenIterator) (c : Callback) (ps : List Identifier)
    (hfun : s.currentType = .function) (hs : skip H s = .ok ((), t))
    (hid : t.currentType = .identifier)
    (hcb : t.hiseSpecialData.getCallback t.currentValue.toString = some c)
    (ht : skip H t = .ok ((), a)) (hopen : a.currentType = .openParen)
    (ha : skip H a = .ok ((), b)) (hps : ParameterList H b.toTokenIterator ps l) :
    ((∃ st v, Parses (parseStatement H) s st v) → ps.length = c.numArgs) ∧
    (ps.length = c.numArgs →
      ∀ (m : TokenIterator) (body : Statement) (v : ExpressionTreeBuilder),
      TokenIterator.skip H l = .ok ((), m) →
      Parses (parseBlock H)
        { b with
          toTokenIterator := m
          hiseSpecialData := storeParameters t.currentValue.toString b.hiseSpecialData 0 ps
          currentlyParsedCallback := t.currentValue.toString } body v →
      Parses (parseStatement H) s .empty
        { v with
          currentlyParsedCallback := Identifier.null
          hiseSpecialData := v.hiseSpecialData.modifyCallback t.currentValue.toString
            (fun c => { c with statements := some body }) } ∧
      (c.numArgs ≤ c.parameters.length →
        ∃ c', (storeParameters t.currentValue.toString b.hiseSpecialData 0 ps).getCallback
            t.currentValue.toString = some c' ∧
          c'.parameters.take c.numArgs = ps) ∧
      (∀ cv, v.hiseSpecialData.getCallback t.currentValue.toString = some cv →
        (v.hiseSpecialData.modifyCallback t.currentValue.toString
          (fun c => { c with statements := some body })).getCallback t.currentValue.toString =
          some { cv with statements := some body })) := by
  have hda : a.hiseSpecialData = t.hiseSpecialData := (skip_fields ht).1
  have hdb : b.hiseSpecialData = t.hiseSpecialData := (skip_fields ha).1.trans hda
  have hcba : a.hiseSpecialData.getCallback t.currentValue.toString = some c := by
    rw [hda]; exact hcb
  have hsome : (t.hiseSpecialData.getCallback t.currentValue.toString).isSome = true := by
    rw [hcb]; rfl
  refine ⟨?_, fun hlen m body v hl hbody => ⟨?_, fun hle => ?_, fun cv hcv => ?_⟩⟩
  · rintro ⟨st, v, hp⟩
    by_contra hlen
    obtain ⟨msg, n, hn⟩ := fails_parseCallback hid ht hcba hopen ha hps hlen
    exact hp.not_fails (fun k => (monoAt H k).parseStatement)
      ⟨n + 2, (parseStatement_callback hfun hs hsome).trans hn⟩
  · obtain ⟨n, hn⟩ := parses_parseCallback hid ht hcba hopen ha hps hlen hl hbody
    exact ⟨n + 2, (parseStatement_callback hfun hs hsome).trans hn⟩
  · obtain ⟨c', h1, _, _, h4⟩ := getCallback_storeParameters ps 0 b.hiseSpecialData c
      (by rw [hdb]; exact hcb) (by omega)
    refine ⟨c', h1, ?_⟩
    rw [h4, ← hlen]
    simp
  · exact getCallback_modifyCallback _ (fun _ => rfl) hcv

/-- Witness for C18: `function cb(a) { }` defines the callback `cb`. -/
theorem C18_callback_definition_witness :
    Parses (parseStatement specHost)
      (mkParser (callbackTables [Identifier.null] none) false callbackDefinition 0 8 .function
        .void_)
      .empty
      (mkParser (callbackTables ["a"] (some (.BlockStatement [] []))) false callbackDefinition
        18 18 .eof (.string "a")) :=
  ((C18_callback_definition specHost
    (mkParser (callbackTables [Identifier.null] none) false callbackDefinition 0 8 .function
      .void_)
    (mkParser (callbackTables [Identifier.null] none) false callbackDefinition 9 11 .identifier
      (.string "cb"))
    (mkParser (callbackTables [Identifier.null] none) false callbackDefinition 11 12 .openParen
      (.string "cb"))
    (mkParser (callbackTables [Identifier.null] none) false callbackDefinition 12 13 .identifier
      (.string "a"))
    (mkIterator callbackDefinition 13 14 .closeParen (.string "a"))
    { name := "cb", numArgs := 1, parameters := [Identifier.null],
      parameterValues := [.undefined] }
    ["a"] rfl rfl rfl rfl rfl rfl rfl
    (ParameterList.single (i := mkIterator callbackDefinition 12 13 .identifier (.string "a"))
      (j := mkIterator callbackDefinition 13 14 .closeParen (.string "a")) rfl rfl rfl)).2 rfl
    (mkIterator callbackDefinition 15 16 .openBrace (.string "a"))
    (.BlockStatement [] [])
    (callbackParser "cb" (callbackTables ["a"] none) callbackDefinition 18 18 .eof (.string "a"))
    rfl
    (parses_parseBlock
      (t := callbackParser "cb" (callbackTables ["a"] none) callbackDefinition 17 18 .closeBrace
        (.string "a"))
      rfl rfl
      (parses_parseStatementList (parses_parseStatementListLoop_stop (Or.inl rfl)))
      rfl rfl)).1

/-! ## C19 -/

/-- The body of `iteratorMember`: `A.k` read while `k` is the iterator. -/
theorem iteratorMember_body :
    Parses (parseStatement specHost)
      (mkStateIn "k" namespaceTables iteratorMember "A.k;" ".k;" .identifier (.string "A"))
      (.expression (.IteratorName "k"))
      (mkStateIn "k" namespaceTables iteratorMember "" "" .eof (.string "k")) :=
  parses_parseStatement_expression
    (t := mkStateIn "k" namespaceTables iteratorMember ";" "" .semicolon (.string "k")) rfl
    (parses_parseExpression_of_unary
      ⟨4, by
        show parseUnary specHost 4
          (mkStateIn "k" namespaceTables iteratorMember "A.k;" ".k;" .identifier (.string "A")) = _
        rw [parseUnary_identifier rfl,
          parseFactor_namespace (H := specHost)
            (s := mkStateIn "k" namespaceTables iteratorMember "A.k;" ".k;" .identifier
              (.string "A"))
            (t := mkStateIn "k" namespaceTables iteratorMember ".k;" "k;" .dot (.string "A"))
            (u := mkStateIn "k" namespaceTables iteratorMember "k;" ";" .identifier (.string "k"))
            (A := .named 0) ⟨rfl, rfl, by decide, rfl⟩ rfl rfl rfl rfl,
          parseFactor_iterator rfl rfl
            (show skip specHost (mkStateIn "k" namespaceTables iteratorMember "k;" ";"
                .identifier (.string "k")) =
              .ok ((), mkStateIn "k" namespaceTables iteratorMember ";" "" .semicolon
                (.string "k")) from rfl),
          parseSuffixes_stop (by decide)]
        rfl⟩
      (by decide))
    rfl rfl

/-- The whole of `iteratorMember`. -/
theorem iteratorMember_parses :
    Parses (parseStatement specHost)
      (mkState namespaceTables iteratorMember iteratorMember " (k in xs) A.k;" .for_ .void_)
      (.LoopStatement false true none none (.LiteralValue (.bool true))
        (some (.expression (.IteratorName "k"))) (some (.UnqualifiedName "xs")))
      (mkStateIn "k" namespaceTables iteratorMember "" "" .eof (.string "k")) :=
  parses_parseStatement_for
    (t := mkState namespaceTables iteratorMember "(k in xs) A.k;" "k in xs) A.k;" .openParen
      .void_) rfl rfl
    (parses_parseForLoop_forIn
      (a := mkState namespaceTables iteratorMember "k in xs) A.k;" " in xs) A.k;" .identifier
        (.string "k"))
      (b := mkStateIn "k" namespaceTables iteratorMember ") A.k;" " A.k;" .closeParen
        (.string "xs"))
      rfl rfl (by decide)
      (parses_parseExpression_in
        (a := mkState namespaceTables iteratorMember "in xs) A.k;" " xs) A.k;" .in_
          (.string "k"))
        (b := mkState namespaceTables iteratorMember "xs) A.k;" ") A.k;" .identifier
          (.string "xs"))
        (c := mkState namespaceTables iteratorMember ") A.k;" " A.k;" .closeParen (.string "xs"))
        (parses_parseLogicOperator_of_unary
          (parses_parseUnary_unqualified_of ⟨rfl, rfl, by decide, rfl, rfl⟩ rfl rfl rfl rfl rfl
            rfl rfl rfl (by decide))
          (by decide))
        rfl rfl
        (parses_parseExpression_of_unary
          (parses_parseUnary_unqualified_of ⟨rfl, rfl, by decide, rfl, rfl⟩ rfl rfl rfl rfl rfl
            rfl rfl rfl (by decide))
          (by decide)))
      rfl rfl iteratorMember_body)

/-- In the body of an inline function of the root namespace, the name of a
registered namespace followed by `.` is read as outside of it when it is no
parameter and no local variable of the function registered last. -/
theorem parseFactor_namespace_in_inline {H : Host} {n : Nat} {s t u : ExpressionTreeBuilder}
    {A : NsPtr} (hid : s.currentType = .identifier) (hroot : s.currentNamespace = .root)
    (hit : s.currentValue.toString ≠ s.currentIterator)
    (hfn : s.hiseSpecialData.inlineFunctions.isEmpty = false)
    (hpar : Hise.indexOf (s.hiseSpecialData.inlineFunctions.getLast?.elim []
      (·.parameterNames)) s.currentValue.toString < 0)
    (hloc : NamedValueSet.indexOf (s.hiseSpecialData.inlineFunctions.getLast?.elim []
      (·.localProperties)) s.currentValue.toString < 0)
    (hns : s.hiseSpecialData.getNamespace s.currentValue.toString = some A)
    (hs : skip H s = .ok ((), t)) (hdot : t.currentType = .dot)
    (ht : skip H t = .ok ((), u)) :
    parseFactor H (n + 1) none s = parseFactor H n (some A) u := by
  have e : s.hiseSpecialData.ns .root = s.hiseSpecialData.toJavascriptNamespace := rfl
  rw [parseFactor]
  simp only [StM.bind_apply, StM.get_apply, hid, if_true, hroot, ne_eq, not_true_eq_false,
    if_false, hit, Option.getD_none, e, hfn, Bool.false_eq_true, and_false, not_le.mpr hpar,
    not_le.mpr hloc, hns, match_of_eq hid, hs, match_of_eq hdot, ht]

/-- In the body of an inline function a name qualified by a namespace that
holds no inline function is looked up through a null pointer. -/
theorem parseFactor_qualified_in_inline_null {H : Host} {n : Nat} {u : ExpressionTreeBuilder}
    {A : NsPtr} (hid : u.currentType = .identifier) (hroot : u.currentNamespace = .root)
    (hit : u.currentValue.toString ≠ u.currentIterator)
    (hinl : u.currentlyParsingInlineFunction = true)
    (hA : (u.hiseSpecialData.ns A).inlineFunctions.isEmpty = true) :
    parseFactor H (n + 1) (some A) u = .error nullPointer := by
  rw [parseFactor]
  simp only [StM.bind_apply, StM.get_apply, hid, if_true, hroot, ne_eq, not_true_eq_false,
    if_false, hit, Option.getD_some, hinl, hA, and_self, StM.throw_apply]

/-- C19, counterexample: at root scope, with the namespace `A` registered and
`k` a constant of `A`, the `A.k` in the body of `for (k in xs) A.k;` is read as
the `IteratorName` `k`, not as a `ConstReference` into `A`: the test for the
for-in iterator comes before every table. And in the body of an inline function
of the root namespace, `A.k` is looked up in the inline function of `A`
registered last: when `A` holds none, the parser stops at a null pointer. -/
theorem C19_iterator_member_counterexample :
    TokenIterator.new specHost iteratorMember.toList "" =
      .ok (mkState namespaceTables iteratorMember iteratorMember " (k in xs) A.k;" .for_
        .void_).toTokenIterator ∧
    namespaceTables.getNamespace "A" = some (.named 0) ∧
    (namespaceTables.ns (.named 0)).constObjects.indexOf "k" = 0 ∧
    Parses (parseStatement specHost)
      (mkState namespaceTables iteratorMember iteratorMember " (k in xs) A.k;" .for_ .void_)
      (.LoopStatement false true none none (.LiteralValue (.bool true))
        (some (.expression (.IteratorName "k"))) (some (.UnqualifiedName "xs")))
      (mkStateIn "k" namespaceTables iteratorMember "" "" .eof (.string "k")) ∧
    (∀ s', ¬ Parses (parseStatement specHost)
      (mkState namespaceTables iteratorMember iteratorMember " (k in xs) A.k;" .for_ .void_)
      (.LoopStatement false true none none (.LiteralValue (.bool true))
        (some (.expression (.ConstReference (.named 0) 0))) (some (.UnqualifiedName "xs")))
      s') ∧
    (∀ n, parseFactor specHost (n + 2) none
        (mkParser inlineNamespaceTables true qualifiedConst 0 1 .identifier (.string "A")) =
      .error nullPointer) := by
  refine ⟨rfl, rfl, rfl, iteratorMember_parses, fun s' h => ?_, fun n => ?_⟩
  · have e := (Parses.unique (fun k => (monoAt specHost k).parseStatement)
      iteratorMember_parses h).1
    simp at e
  · rw [parseFactor_namespace_in_inline (H := specHost)
        (s := mkParser inlineNamespaceTables true qualifiedConst 0 1 .identifier (.string "A"))
        (t := mkParser inlineNamespaceTables true qualifiedConst 1 2 .dot (.string "A"))
        (u := mkParser inlineNamespaceTables true qualifiedConst 2 3 .identifier (.string "k"))
        (A := .named 0) rfl rfl (by decide) rfl (by decide) (by decide) rfl rfl rfl rfl,
      parseFactor_qualified_in_inline_null
        (u := mkParser inlineNamespaceTables true qualifiedConst 2 3 .identifier (.string "k"))
        (A := .named 0) rfl rfl (by decide) rfl rfl]

/-- C19, amended: at root scope and outside the body of an inline function, at
the name of a registered namespace `A` that is not the for-in iterator,
followed by `.` and an identifier `k` that is not the for-in iterator,
`parseFactor` consumes the name and the dot and resolves `k` with `A` as the
namespace: an inline function of `A` named `k` is called; otherwise (and `k` not
an API class) a constant `k` of `A` yields
`ConstReference (A, index of k in the constants of A)`; otherwise (and `k` not
an external C function) a register `k` of `A` yields a `RegisterName` of `A`.
Only one level is resolved: a `k` that no table holds is a plain name, whether
or not it is the name of a namespace, and a following `.name` is a dot suffix
on it. -/
theorem C19_namespace_qualification (H : Host) (s t u v : ExpressionTreeBuilder) (A : NsPtr)
    (h : AtRootName s)
    (hns : s.hiseSpecialData.getNamespace s.currentValue.toString = some A)
    (hs : skip H s = .ok ((), t)) (hdot : t.currentType = .dot)
    (ht : skip H t = .ok ((), u)) (hk : u.currentType = .identifier)
    (hit : u.currentValue.toString ≠ u.currentIterator) (hu : skip H u = .ok ((), v)) :
    (∀ n, parseFactor H (n + 2) none s = parseFactor H (n + 1) (some A) u) ∧
    (∀ o, getInlineFunction s.hiseSpecialData u.currentValue.toString (some A) = some o →
      o.ns = A ∧
      ∀ n, parseFactor H (n + 2) none s =
        (parseInlineFunctionCall H n o >>= fun e => parseSuffixes H n e) u) ∧
    (getInlineFunction s.hiseSpecialData u.currentValue.toString (some A) = none →
      Hise.indexOf s.hiseSpecialData.apiIds u.currentValue.toString = -1 →
      (s.hiseSpecialData.ns A).constObjects.indexOf u.currentValue.toString ≠ -1 →
      v.currentType ∉ suffixTokens →
      Parses (fun n => parseFactor H n none) s
        (.ConstReference A
          ((s.hiseSpecialData.ns A).constObjects.indexOf u.currentValue.toString)) v) ∧
    (getInlineFunction s.hiseSpecialData u.currentValue.toString (some A) = none →
      Hise.indexOf s.hiseSpecialData.apiIds u.currentValue.toString = -1 →
      (s.hiseSpecialData.ns A).constObjects.indexOf u.currentValue.toString = -1 →
      s.hiseSpecialData.getExternalCIndex u.currentValue.toString = -1 →
      (s.hiseSpecialData.ns A).varRegister.getRegisterIndex u.currentValue.toString ≠ -1 →
      v.currentType ∉ suffixTokens →
      Parses (fun n => parseFactor H n none) s
        (.RegisterName u.currentValue.toString A
          ((s.hiseSpecialData.ns A).varRegister.getRegisterIndex u.currentValue.toString)) v) ∧
    (getInlineFunction s.hiseSpecialData u.currentValue.toString (some A) = none →
      Hise.indexOf s.hiseSpecialData.apiIds u.currentValue.toString = -1 →
      (s.hiseSpecialData.ns A).constObjects.indexOf u.currentValue.toString = -1 →
      s.hiseSpecialData.getExternalCIndex u.currentValue.toString = -1 →
      (s.hiseSpecialData.ns A).varRegister.getRegisterIndex u.currentValue.toString = -1 →
      NamedValueSet.indexOf s.hiseSpecialData.globals u.currentValue.toString = -1 →
      s.currentlyParsedCallback = Identifier.null →
      ∀ w x : ExpressionTreeBuilder, v.currentType = .dot → skip H v = .ok ((), w) →
      w.currentType = .identifier → skip H w = .ok ((), x) →
      x.currentType ∉ suffixTokens →
      Parses (fun n => parseFactor H n none) s
        (.DotOperator (.UnqualifiedName u.currentValue.toString) w.currentValue.toString) x) := by
  have ft := skip_fields hs
  have fu := skip_fields ht
  have hd : u.hiseSpecialData = s.hiseSpecialData := fu.1.trans ft.1
  have hroot : AtRootName u :=
    ⟨hk, fu.2.2.2.1.trans (ft.2.2.2.1.trans h.root), hit,
      fu.2.1.trans (ft.2.1.trans h.notInline)⟩
  have hcbu : u.currentlyParsedCallback = s.currentlyParsedCallback :=
    fu.2.2.1.trans ft.2.2.1
  have step : ∀ n, parseFactor H (n + 2) none s = parseFactor H (n + 1) (some A) u :=
    fun n => parseFactor_namespace h hns hs hdot ht
  refine ⟨step, fun o ho => ⟨?_, fun n => ?_⟩, fun ho h1 h2 hv => ⟨3, ?_⟩,
    fun ho h1 h2 h3 h4 hv => ⟨3, ?_⟩, fun ho h1 h2 h3 h4 h5 hcb w x hvd hvs hw hws hx => ⟨4, ?_⟩⟩
  · simp only [getInlineFunction, Option.getD_some] at ho
    split at ho
    · cases ho
    · cases ho; rfl
  · rw [step n, parseFactor_qualified_inline hroot (by rw [hd]; exact ho)]
  · show parseFactor H 3 none s = _
    rw [step 1, parseFactor_qualified_const hroot (by rw [hd]; exact ho) (by rw [hd]; exact h1)
      (by rw [hd]; exact h2) hu, parseSuffixes_stop hv, hd]
    rfl
  · show parseFactor H 3 none s = _
    rw [step 1, parseFactor_qualified_register hroot (by rw [hd]; exact ho)
      (by rw [hd]; exact h1) (by rw [hd]; exact h2) (by rw [hd]; exact h3)
      (by rw [hd]; exact h4) hu, parseSuffixes_stop hv, hd]
    rfl
  · show parseFactor H 4 none s = _
    rw [step 2, parseFactor_qualified_unqualified hroot (by rw [hd]; exact ho)
      (by rw [hd]; exact h1) (by rw [hd]; exact h2) (by rw [hd]; exact h3)
      (by rw [hd]; exact h4) (by rw [hd]; exact h5) (hcbu.trans hcb) hu,
      parseSuffixes_dot hvd hvs hw hws, parseSuffixes_stop hx]

/-- Witness for C19: with the constant `k` of the namespace `A`, `A.k` is a
`ConstReference` into `A`; `A.B.k` is the dot suffix `k` on the plain name `B`,
although `B` is the name of a namespace. -/
theorem C19_namespace_qualification_witness :
    Parses (fun n => parseFactor specHost n none)
      (mkParser namespaceTables false qualifiedConst 0 1 .identifier (.string "A"))
      (.ConstReference (.named 0) 0)
      (mkParser namespaceTables false qualifiedConst 3 3 .eof (.string "k")) ∧
    namespaceTables.getNamespace "B" = some (.named 1) ∧
    Parses (fun n => parseFactor specHost n none)
      (mkParser namespaceTables false twoLevels 0 1 .identifier (.string "A"))
      (.DotOperator (.UnqualifiedName "B") "k")
      (mkParser namespaceTables false twoLevels 5 5 .eof (.string "k")) :=
  ⟨(C19_namespace_qualification specHost
      (mkParser namespaceTables false qualifiedConst 0 1 .identifier (.string "A"))
      (mkParser namespaceTables false qualifiedConst 1 2 .dot (.string "A"))
      (mkParser namespaceTables false qualifiedConst 2 3 .identifier (.string "k"))
      (mkParser namespaceTables false qualifiedConst 3 3 .eof (.string "k"))
      (.named 0) ⟨rfl, rfl, by decide, rfl⟩ rfl rfl rfl rfl rfl (by decide) rfl).2.2.1
      rfl rfl (by decide) (by decide),
    rfl,
    (C19_namespace_qualification specHost
      (mkParser namespaceTables false twoLevels 0 1 .identifier (.string "A"))
      (mkParser namespaceTables false twoLevels 1 2 .dot (.string "A"))
      (mkParser namespaceTables false twoLevels 2 3 .identifier (.string "B"))
      (mkParser namespaceTables false twoLevels 3 4 .dot (.string "B"))
      (.named 0) ⟨rfl, rfl, by decide, rfl⟩ rfl rfl rfl rfl rfl (by decide) rfl).2.2.2.2
      rfl rfl rfl rfl rfl rfl rfl
      (mkParser namespaceTables false twoLevels 4 5 .identifier (.string "k"))
      (mkParser namespaceTables false twoLevels 5 5 .eof (.string "k"))
      rfl rfl rfl rfl (by decide)⟩

/-! ## C20 -/

/-- C20, divergence: on `const var a = 1; namespace N { } const var a = 2;` the
pre-pass returns without error with one constant and two constant locations in
the root namespace: the list of names of the duplicate test is emptied at the
`namespace` keyword, so the second `a` adds a location and overwrites the
object. The `jassert` at the end of `preprocessCode` does not hold. -/
theorem C20_const_tables_differ_in_size :
    ∃ d : HiseSpecialData,
      preprocessCode specHost 16 constAroundNamespace.toList "" HiseSpecialData.empty = .ok d ∧
      d.constObjects.length = 1 ∧ d.constLocations.length = 2 :=
  ⟨_, constAroundNamespace_prepass 0, rfl, rfl⟩

/-! ## The lexer at names and numbers -/

theorem takeWhile_identifier {p : List Char} (h : isIdentifierStart (peek p) = true) :
    p.take 1 ++ (p.drop 1).takeWhile isIdentifierBody = p.takeWhile isIdentifierBody ∧
    (p.drop 1).dropWhile isIdentifierBody = p.dropWhile isIdentifierBody := by
  cases p with
  | nil => simp [peek, isIdentifierStart, isLetter] at h
  | cons c cs =>
    have hb : isIdentifierBody c = true := by
      simp only [peek, List.headD_cons, isIdentifierStart, Bool.or_eq_true] at h
      simp only [isIdentifierBody, Bool.or_eq_true]
      rcases h with h | h
      · exact Or.inl (Or.inl h)
      · exact Or.inr h
    simp [List.takeWhile, List.dropWhile, hb]

theorem isDigit_iff (c : Char) : isDigit c = true ↔ 48 ≤ c.toNat ∧ c.toNat ≤ 57 := by
  simp only [isDigit, Bool.and_eq_true, decide_eq_true_eq, Char.le_def]
  constructor
  · rintro ⟨h1, h2⟩
    exact ⟨h1, h2⟩
  · rintro ⟨h1, h2⟩
    exact ⟨h1, h2⟩

theorem toNat_eq_iff (c : Char) (n : Nat) (d : Char) (h : d.toNat = n) : c.toNat = n ↔ c = d := by
  constructor
  · intro e
    rw [← Char.ofNat_toNat c, ← Char.ofNat_toNat d, e, h]
  · rintro rfl
    exact h

/-- The octal test of a character: below 8, decimal digit, or no digit. -/
theorem octal_digit_cases (c : Char) :
    (isDigit c = false ∧ isPositiveAndBelow ((c.toNat : Int) - 48) 8 = false ∧
      isPositiveAndBelow ((c.toNat : Int) - 48) 10 = false) ∨
    (isDigit c = true ∧ (c = '8' ∨ c = '9') ∧ isPositiveAndBelow ((c.toNat : Int) - 48) 8 = false ∧
      isPositiveAndBelow ((c.toNat : Int) - 48) 10 = true) ∨
    (isDigit c = true ∧ c ≠ '8' ∧ c ≠ '9' ∧ isPositiveAndBelow ((c.toNat : Int) - 48) 8 = true) := by
  by_cases hd : isDigit c = true
  · have h := (isDigit_iff c).mp hd
    by_cases h8 : c.toNat = 56
    · right; left
      refine ⟨hd, Or.inl ((toNat_eq_iff c 56 '8' rfl).mp h8), ?_, ?_⟩ <;>
        simp [isPositiveAndBelow, h8]
    · by_cases h9 : c.toNat = 57
      · right; left
        refine ⟨hd, Or.inr ((toNat_eq_iff c 57 '9' rfl).mp h9), ?_, ?_⟩ <;>
          simp [isPositiveAndBelow, h9]
      · right; right
        refine ⟨hd, fun e => h8 ((toNat_eq_iff c 56 '8' rfl).mpr e),
          fun e => h9 ((toNat_eq_iff c 57 '9' rfl).mpr e), ?_⟩
        simp only [isPositiveAndBelow, Bool.and_eq_true, decide_eq_true_eq]
        omega
  · left
    have hd' : isDigit c = false := by simpa using hd
    have h : ¬ (48 ≤ c.toNat ∧ c.toNat ≤ 57) := fun e => hd ((isDigit_iff c).mpr e)
    refine ⟨hd', ?_, ?_⟩ <;>
    · simp only [isPositiveAndBelow, Bool.and_eq_false_iff, decide_eq_false_iff_not]
      omega

theorem dropWhile_isDigit_of_not {p : List Char} (h : isDigit (peek p) = false) :
    p.dropWhile isDigit = p ∧ p.takeWhile isDigit = [] := by
  cases p with
  | nil => simp
  | cons c cs =>
    simp only [peek, List.headD_cons] at h
    simp [List.dropWhile, List.takeWhile, h]

theorem length_dropWhile_le (f : Char → Bool) (p : List Char) :
    (p.dropWhile f).length ≤ p.length := by
  induction p with
  | nil => simp
  | cons c cs ih =>
    simp only [List.dropWhile]
    split
    · simp only [List.length_cons]; omega
    · exact le_refl _

theorem dropWhile_isDigit_of_digit {t : List Char} (h : isDigit (peek t) = true) :
    (t.drop 1).dropWhile isDigit = t.dropWhile isDigit := by
  cases t with
  | nil => simp
  | cons c cs =>
    simp only [peek, List.headD_cons] at h
    simp [List.dropWhile, h]

theorem parseFloatLiteral_cases (it : TokenIterator) (digits fraction t0 t1 t2 : List Char)
    (hasPt hasExp dig : Bool)
    (hdigits : it.p.takeWhile isDigit = digits) (ht0 : it.p.dropWhile isDigit = t0)
    (hpt : decide (peek t0 = '.') = hasPt)
    (hfr : (if hasPt then (t0.drop 1).takeWhile isDigit else []) = fraction)
    (ht1 : (if hasPt then (t0.drop 1).dropWhile isDigit else t0) = t1)
    (hexp : (decide (peek t1 = 'e') || decide (peek t1 = 'E')) = hasExp)
    (ht2 : (if peek (t1.drop 1) = '+' ∨ peek (t1.drop 1) = '-' then (t1.drop 1).drop 1
      else t1.drop 1) = t2)
    (hdig : isDigit (peek t2) = dig)
    (hnum : digits.length + fraction.length ≠ 0) :
    parseFloatLiteral it =
      if (hasExp && dig) || (hasPt && !hasExp) then
        .ok (true, { it with
          currentValue := .double (it.p.take (it.p.length -
            (if hasExp then t2.dropWhile isDigit else t1).length))
          p := if hasExp then t2.dropWhile isDigit else t1 })
      else .ok (false, it) := by
  unfold parseFloatLiteral
  have hdd : dig = true → t2.tail.dropWhile isDigit = t2.dropWhile isDigit := fun h => by
    rw [← List.drop_one]
    exact dropWhile_isDigit_of_digit (hdig.trans h)
  simp only [hdigits, ht0, hpt, hfr, ht1, hexp, ht2, hdig, hnum, if_false]
  cases hasPt <;> cases hasExp <;> cases dig <;> simp [hdd]

/-- The float reader at a digit, or at a `.` before a digit. -/
theorem parseFloatLiteral_eq (it : TokenIterator)
    (hd : isDigit (peek it.p) = true ∨
      (peek it.p = '.' ∧ isDigit (peek (it.p.drop 1)) = true)) :
    parseFloatLiteral it =
      if isFloatLiteral it.p then
        .ok (true, { it with
          currentValue := .double (it.p.take (it.p.length - (afterFloat it.p).length))
          p := afterFloat it.p })
      else .ok (false, it) := by
  have hnum : (it.p.takeWhile isDigit).length +
      (if decide (peek (it.p.dropWhile isDigit) = '.') = true then
        ((it.p.dropWhile isDigit).drop 1).takeWhile isDigit else []).length ≠ 0 := by
    rcases hd with hd | ⟨hp, hd⟩
    · cases hq : it.p with
      | nil => rw [hq] at hd; simp [peek, isDigit] at hd
      | cons c cs =>
        rw [hq] at hd
        simp only [peek, List.headD_cons] at hd
        simp [List.takeWhile, hd]
    · have hn : isDigit (peek it.p) = false := by rw [hp]; decide
      obtain ⟨e1, e2⟩ := dropWhile_isDigit_of_not hn
      rw [e1, e2, decide_eq_true hp, if_pos rfl]
      cases hq : it.p.drop 1 with
      | nil => rw [hq] at hd; simp [peek, isDigit] at hd
      | cons c cs =>
        rw [hq] at hd
        simp only [peek, List.headD_cons] at hd
        simp [List.takeWhile, hd]
  rw [parseFloatLiteral_cases it _ _ _ _ _ _ _ _ rfl rfl rfl rfl rfl rfl rfl rfl hnum]
  rfl


theorem decimal_digit_iff (c : Char) :
    isPositiveAndBelow ((c.toNat : Int) - 48) 10 = isDigit c := by
  rcases octal_digit_cases c with ⟨h1, _, h2⟩ | ⟨h1, _, _, h2⟩ | ⟨h1, _, _, h2⟩
  · rw [h1, h2]
  · rw [h1, h2]
  · rw [h1]
    simp only [isPositiveAndBelow, Bool.and_eq_true, decide_eq_true_eq] at h2 ⊢
    omega

theorem isIdentifierStart_of_isDigit {c : Char} (h : isDigit c = true) :
    isIdentifierStart c = false := by
  have hd := (isDigit_iff c).mp h
  have h1 : ¬ ('a' ≤ c) := fun e => by
    have : 97 ≤ c.toNat := e
    omega
  have h2 : ¬ ('A' ≤ c) := fun e => by
    have : 65 ≤ c.toNat := e
    omega
  have h3 : c ≠ '_' := fun e => by
    rw [e] at hd
    exact absurd hd.2 (by decide)
  simp [isIdentifierStart, isLetter, h1, h2, h3]

theorem parseOctalLiteralLoop_error (rest : List Char) :
    ∀ (c : Char) (v : Int), (rest.takeWhile isDigit).any (fun c => c = '8' || c = '9') = true →
      parseOctalLiteralLoop (c :: rest) v = .error "Decimal digit in octal constant" := by
  induction rest with
  | nil => intro c v h; simp at h
  | cons d ds ih =>
    intro c v h
    rw [parseOctalLiteralLoop]
    simp only [peek, List.headD_cons]
    rcases octal_digit_cases d with ⟨h1, _, _⟩ | ⟨_, _, h2, h3⟩ | ⟨h1, h8, h9, h2⟩
    · simp [List.takeWhile, h1] at h
    · simp only [h2, Bool.false_eq_true, if_false, h3, if_true]
    · simp only [h2, if_true]
      refine ih _ _ ?_
      simpa [List.takeWhile, h1, h8, h9] using h

theorem parseOctalLiteralLoop_ok (rest : List Char) :
    ∀ (c : Char) (v : Int), (rest.takeWhile isDigit).any (fun c => c = '8' || c = '9') = false →
      ∃ w, parseOctalLiteralLoop (c :: rest) v = .ok (w, rest.dropWhile isDigit) := by
  induction rest with
  | nil =>
    intro c v _
    exact ⟨v, by rw [parseOctalLiteralLoop]; rfl⟩
  | cons d ds ih =>
    intro c v h
    rw [parseOctalLiteralLoop]
    simp only [peek, List.headD_cons]
    rcases octal_digit_cases d with ⟨h1, h2, h3⟩ | ⟨h1, h89, _, _⟩ | ⟨h1, h8, h9, h2⟩
    · simp only [h2, Bool.false_eq_true, if_false, h3]
      exact ⟨v, by simp [List.dropWhile, h1]⟩
    · exfalso
      rw [List.takeWhile_cons, h1] at h
      rcases h89 with e | e <;> simp [e] at h
    · simp only [h2, if_true]
      obtain ⟨w, hw⟩ := ih d (wrapInt64 (v * 8 + ((d.toNat : Int) - 48)))
        (by simpa [List.takeWhile, h1, h8, h9] using h)
      exact ⟨w, by rw [hw]; simp [List.dropWhile, h1]⟩

theorem parseDecimalLiteralLoop_snd (p : List Char) :
    ∀ v : Int, (parseDecimalLiteralLoop p v).2 = p.dropWhile isDigit := by
  induction p with
  | nil => intro v; rfl
  | cons c cs ih =>
    intro v
    rw [parseDecimalLiteralLoop]
    simp only [decimal_digit_iff]
    by_cases h : isDigit c = true
    · simp only [h, if_true, List.dropWhile]
      exact ih _
    · have h' : isDigit c = false := by simpa using h
      simp [h', List.dropWhile]


theorem parseHexLiteral_of_no_prefix {it : TokenIterator}
    (hx : ¬ (peek it.p = '0' ∧ (peek (it.p.drop 1) = 'x' ∨ peek (it.p.drop 1) = 'X'))) :
    parseHexLiteral it = .ok (false, it) := by
  unfold parseHexLiteral
  rw [if_pos]
  by_contra hc
  exact hx (by
    simp only [not_or, not_and, ne_eq, not_not] at hc
    refine ⟨hc.1, ?_⟩
    by_contra hn
    simp only [not_or] at hn
    exact hn.2 (hc.2 hn.1))

/-- The lexer at a number written as a double. -/
theorem matchNextToken_float {H : Host} {it : TokenIterator} (hd : isDigit (peek it.p) = true)
    (hx : ¬ (peek it.p = '0' ∧ (peek (it.p.drop 1) = 'x' ∨ peek (it.p.drop 1) = 'X')))
    (hf : isFloatLiteral it.p = true) :
    matchNextToken H it = .ok (.literal, { it with
      currentValue := .double (it.p.take (it.p.length - (afterFloat it.p).length))
      p := afterFloat it.p }) := by
  unfold matchNextToken
  simp only [isIdentifierStart_of_isDigit hd, Bool.false_eq_true, if_false, hd, if_true,
    StM.bind_apply, parseHexLiteral_of_no_prefix hx, parseFloatLiteral_eq it (Or.inl hd), hf,
    StM.pure_apply]

/-- The lexer at a number not written as a double whose first digit is 0 and
whose digits hold an 8 or a 9. -/
theorem matchNextToken_octal_error {H : Host} {it : TokenIterator} (h0 : peek it.p = '0')
    (h89 : hasDecimalDigit it.p = true) (hf : isFloatLiteral it.p = false) :
    matchNextToken H it = .error "Decimal digit in octal constant" := by
  have hd : isDigit (peek it.p) = true := by rw [h0]; decide
  obtain ⟨c, rest, hp⟩ : ∃ c rest, it.p = c :: rest := by
    cases hq : it.p with
    | nil => rw [hq] at h0; simp [peek] at h0
    | cons c cs => exact ⟨c, cs, rfl⟩
  have hc : c = '0' := by rw [hp] at h0; simpa [peek] using h0
  have h89r : (rest.takeWhile isDigit).any (fun c => c = '8' || c = '9') = true := by
    rw [hasDecimalDigit, hp, hc, List.takeWhile_cons, if_pos (by decide)] at h89
    simpa using h89
  have hx : ¬ (peek it.p = '0' ∧ (peek (it.p.drop 1) = 'x' ∨ peek (it.p.drop 1) = 'X')) := by
    rintro ⟨_, hx⟩
    rw [hp] at hx
    cases rest with
    | nil => simp at h89r
    | cons d ds =>
      simp only [List.drop_succ_cons, List.drop_zero, peek, List.headD_cons] at hx
      have hdd : isDigit d = false := by rcases hx with e | e <;> rw [e] <;> decide
      simp [List.takeWhile, hdd] at h89r
  unfold matchNextToken
  simp only [isIdentifierStart_of_isDigit hd, Bool.false_eq_true, if_false, hd, if_true,
    StM.bind_apply, parseHexLiteral_of_no_prefix hx, parseFloatLiteral_eq it (Or.inl hd), hf,
    StM.pure_apply]
  unfold parseOctalLiteral
  simp only [h0]
  rw [hp, parseOctalLiteralLoop_error rest _ _ h89r]
  rfl

/-- The lexer at a number not written as a double whose first digit is 0 and
whose digits are below 8. -/
theorem matchNextToken_octal_ok {H : Host} {it : TokenIterator} (h0 : peek it.p = '0')
    (hx : ¬ (peek (it.p.drop 1) = 'x' ∨ peek (it.p.drop 1) = 'X'))
    (h89 : hasDecimalDigit it.p = false) (hf : isFloatLiteral it.p = false) :
    ∃ w, matchNextToken H it = .ok (.literal, { it with
      currentValue := .int64 w, p := it.p.dropWhile isDigit }) := by
  have hd : isDigit (peek it.p) = true := by rw [h0]; decide
  obtain ⟨c, rest, hp⟩ : ∃ c rest, it.p = c :: rest := by
    cases hq : it.p with
    | nil => rw [hq] at h0; simp [peek] at h0
    | cons c cs => exact ⟨c, cs, rfl⟩
  have hc : c = '0' := by rw [hp] at h0; simpa [peek] using h0
  have h89r : (rest.takeWhile isDigit).any (fun c => c = '8' || c = '9') = false := by
    rw [hasDecimalDigit, hp, hc, List.takeWhile_cons, if_pos (by decide)] at h89
    simpa using h89
  obtain ⟨w, hw⟩ := parseOctalLiteralLoop_ok rest '0' 0 h89r
  refine ⟨w, ?_⟩
  unfold matchNextToken
  simp only [isIdentifierStart_of_isDigit hd, Bool.false_eq_true, if_false, hd, if_true,
    StM.bind_apply, parseHexLiteral_of_no_prefix (fun e => hx e.2),
    parseFloatLiteral_eq it (Or.inl hd), hf, StM.pure_apply]
  unfold parseOctalLiteral
  simp only [h0]
  rw [hp, hc]
  rw [show parseOctalLiteralLoop ('0' :: rest) ((('0' : Char).toNat : Int) - 48) =
    parseOctalLiteralLoop ('0' :: rest) 0 from rfl, hw]
  simp [List.dropWhile, show isDigit '0' = true by decide]
  rfl

/-- The lexer at a number not written as a double whose first digit is not 0. -/
theorem matchNextToken_decimal_run {H : Host} {it : TokenIterator}
    (hd : isDigit (peek it.p) = true) (h0 : peek it.p ≠ '0') (hf : isFloatLiteral it.p = false) :
    matchNextToken H it = .ok (.literal, { it with
      currentValue := .int64 (parseDecimalLiteralLoop it.p 0).1, p := it.p.dropWhile isDigit }) := by
  have ho : parseOctalLiteral it = .ok (false, it) := by
    unfold parseOctalLiteral
    rw [if_pos]
    intro e
    apply h0
    have e2 : (peek it.p).toNat = 48 := by omega
    exact (toNat_eq_iff _ 48 '0' rfl).mp e2
  unfold matchNextToken
  simp only [isIdentifierStart_of_isDigit hd, Bool.false_eq_true, if_false, hd, if_true,
    StM.bind_apply, parseHexLiteral_of_no_prefix (fun e => h0 e.1),
    parseFloatLiteral_eq it (Or.inl hd), hf, StM.pure_apply, ho, parseDecimalLiteral,
    parseDecimalLiteralLoop_snd]

/-- The lexer at `0x` or `0X` without a hex digit behind it. -/
theorem matchNextToken_hex_prefix {H : Host} {it : TokenIterator} (h0 : peek it.p = '0')
    (hx : peek (it.p.drop 1) = 'x' ∨ peek (it.p.drop 1) = 'X')
    (hv : getHexDigitValue (peek (it.p.drop 2)) < 0) :
    matchNextToken H it = .ok (.literal, { it with currentValue := .int64 0, p := it.p.drop 1 }) := by
  have hd : isDigit (peek it.p) = true := by rw [h0]; decide
  have hnd : isDigit (peek (it.p.drop 1)) = false := by rcases hx with e | e <;> rw [e] <;> decide
  have hn0 : peek (it.p.drop 1) ≠ '0' := by rcases hx with e | e <;> rw [e] <;> decide
  have hnp : peek (it.p.drop 1) ≠ '.' := by rcases hx with e | e <;> rw [e] <;> decide
  have hh : parseHexLiteral it = .ok (false, { it with p := it.p.drop 1 }) := by
    unfold parseHexLiteral
    rw [if_neg (by
      intro e
      rcases e with e | e
      · exact e h0
      · rcases hx with a | a
        · exact e.1 a
        · exact e.2 a)]
    simp only [List.drop_drop]
    rw [if_pos hv]
  obtain ⟨e1, e2⟩ := dropWhile_isDigit_of_not hnd
  have hfl : parseFloatLiteral { it with p := it.p.drop 1 } =
      .ok (false, { it with p := it.p.drop 1 }) := by
    unfold parseFloatLiteral
    simp only [e1, e2, hnp, decide_False, Bool.false_eq_true, if_false, List.length_nil,
      Nat.add_zero, if_true]
  have ho : parseOctalLiteral { it with p := it.p.drop 1 } =
      .ok (false, { it with p := it.p.drop 1 }) := by
    unfold parseOctalLiteral
    rw [if_pos]
    intro e
    apply hn0
    have e2 : (peek (it.p.drop 1)).toNat = 48 := by
      have : ((peek (it.p.drop 1)).toNat : Int) - 48 = 0 := e
      omega
    exact (toNat_eq_iff _ 48 '0' rfl).mp e2
  have hdl : parseDecimalLiteralLoop (it.p.drop 1) 0 = (0, it.p.drop 1) := by
    cases hq : it.p.drop 1 with
    | nil => rfl
    | cons c cs =>
      rw [hq] at hnd
      simp only [peek, List.headD_cons] at hnd
      rw [parseDecimalLiteralLoop]
      simp only [decimal_digit_iff, hnd, Bool.false_eq_true, if_false]
  unfold matchNextToken
  simp only [isIdentifierStart_of_isDigit hd, Bool.false_eq_true, if_false, hd, if_true,
    StM.bind_apply, hh, hfl, StM.pure_apply, ho, parseDecimalLiteral, hdl]

/-- The lexer at a `.` before a digit. -/
theorem matchNextToken_point {H : Host} {it : TokenIterator} (hp : peek it.p = '.')
    (hd : isDigit (peek (it.p.drop 1)) = true) :
    matchNextToken H it =
      if isFloatLiteral it.p then
        .ok (.literal, { it with
          currentValue := .double (it.p.take (it.p.length - (afterFloat it.p).length))
          p := afterFloat it.p })
      else matchOperatorOrEof H it := by
  unfold matchNextToken
  simp only [hp, show isIdentifierStart '.' = false by decide, show isDigit '.' = false by decide,
    Bool.false_eq_true, if_false, StM.bind_apply, parseStringLiteral, if_true,
    parseFloatLiteral_eq it (Or.inr ⟨hp, hd⟩)]
  rw [if_pos (by decide)]
  simp only [Bool.false_eq_true, if_false, StM.bind_apply,
    parseFloatLiteral_eq it (Or.inr ⟨hp, hd⟩)]
  cases hf : isFloatLiteral it.p <;> simp [StM.pure_apply]

/-- A digit run with an 8 or a 9 behind a leading `0` leaves no room for a
hex prefix. -/
theorem no_hex_prefix_of_hasDecimalDigit {p : List Char} (h0 : peek p = '0')
    (h89 : hasDecimalDigit p = true) :
    ¬ (peek p = '0' ∧ (peek (p.drop 1) = 'x' ∨ peek (p.drop 1) = 'X')) := by
  rintro ⟨_, hx⟩
  cases p with
  | nil => simp [hasDecimalDigit] at h89
  | cons c rest =>
    have hc : c = '0' := by simpa [peek] using h0
    rw [hasDecimalDigit, hc, List.takeWhile_cons, if_pos (by decide)] at h89
    cases rest with
    | nil => simp at h89
    | cons d ds =>
      simp only [List.drop_succ_cons, List.drop_zero, peek, List.headD_cons] at hx
      have hdd : isDigit d = false := by rcases hx with e | e <;> rw [e] <;> decide
      simp [List.takeWhile, hdd] at h89

/-! ## Statement lists and lock statements -/

/-- One lock statement of a statement list. -/
theorem parses_parseStatementListLoop_lock {H : Host} {s t u : ExpressionTreeBuilder}
    {sts locks : List Statement} {x : Bool} {y : Expression} {b : Statement}
    (h1 : s.currentType ≠ .closeBrace) (h2 : s.currentType ≠ .eof)
    (hst : Parses (parseStatement H) s (.LockStatement x y) t)
    (hrest : Parses (fun n => parseStatementListLoop H n sts
      (locks ++ [.LockStatement x y])) t b u) :
    Parses (fun n => parseStatementListLoop H n sts locks) s b u := by
  obtain ⟨n, hst, hrest⟩ := Parses.two (fun k => (monoAt H k).parseStatement)
    (fun k => (monoAt H k).parseStatementListLoop sts (locks ++ [.LockStatement x y])) hst hrest
  refine ⟨n + 1, ?_⟩
  show parseStatementListLoop H (n + 1) sts locks s = _
  rw [parseStatementListLoop]
  simp only [StM.bind_apply, StM.get_apply, if_pos (And.intro h1 h2), hst]
  exact hrest

/-- The loop of `parseStatementList` sorts the statements into the two lists. -/
theorem parses_parseStatementListLoop_of_statements {H : Host}
    {s t : ExpressionTreeBuilder} {sts : List Statement} (h : ParsesStatements H s sts t) :
    ∀ a b : List Statement, Parses (fun n => parseStatementListLoop H n a b) s
      (.BlockStatement (a ++ sts.filter (fun x => !x.isLockStatement))
        (b ++ sts.filter (fun x => x.isLockStatement))) t := by
  induction h with
  | done hc =>
    intro a b
    simpa using (show Parses (fun n => parseStatementListLoop H n a b) _ (.BlockStatement a b) _
      from parses_parseStatementListLoop_stop hc)
  | @more s t u st sts h1 h2 hst _ ih =>
    intro a b
    cases hl : st.isLockStatement with
    | true =>
      obtain ⟨x, y, rfl⟩ : ∃ x y, st = .LockStatement x y := by
        cases st <;> simp [Statement.isLockStatement] at hl
        exact ⟨_, _, rfl⟩
      have := ih a (b ++ [.LockStatement x y])
      simp only [List.filter_cons, Statement.isLockStatement, Bool.not_true, Bool.false_eq_true,
        if_false, if_true]
      rw [List.append_assoc] at this
      exact parses_parseStatementListLoop_lock h1 h2 hst this
    | false =>
      have := ih (a ++ [st]) b
      simp only [List.filter_cons, hl, Bool.not_false, Bool.false_eq_true, if_false, if_true]
      rw [List.append_assoc] at this
      exact parses_parseStatementListLoop_step h1 h2 hst
        (fun x y e => by rw [e] at hl; simp [Statement.isLockStatement] at hl) this

theorem ParsesStatements.at_end {H : Host} {s t : ExpressionTreeBuilder}
    {sts : List Statement} (h : ParsesStatements H s sts t) :
    t.currentType = .closeBrace ∨ t.currentType = .eof := by
  induction h with
  | done hc => exact hc
  | more _ _ _ _ ih => exact ih

/-- The statement `rLock (factor);` or `wLock (factor);`. -/
theorem parses_parseLockStatement {H : Host} {s a b c u : ExpressionTreeBuilder}
    {x : Bool} {e : Expression}
    (h : s.currentType = .openParen) (hs : skip H s = .ok ((), a))
    (he : Parses (fun n => parseFactor H n none) a e b)
    (hclose : b.currentType = .closeParen) (hb : skip H b = .ok ((), c))
    (hsemi : c.currentType = .semicolon) (hc : skip H c = .ok ((), u)) :
    Parses (fun n => parseLockStatement H n x) s (.LockStatement x e) u := by
  obtain ⟨n, he⟩ := he
  refine ⟨n + 1, ?_⟩
  show parseLockStatement H (n + 1) x s = _
  rw [parseLockStatement]
  simp only [StM.bind_apply, match_of_eq h, hs, he, match_of_eq hclose, hb, match_of_eq hsemi, hc,
    StM.pure_apply]

theorem parses_parseStatement_rLock {H : Host} {s t u : ExpressionTreeBuilder}
    {st : Statement} (h : s.currentType = .rLock_) (hs : skip H s = .ok ((), t))
    (hl : Parses (fun n => parseLockStatement H n true) t st u) :
    Parses (parseStatement H) s st u := by
  obtain ⟨n, hl⟩ := hl
  refine ⟨n + 1, ?_⟩
  rw [parseStatement]
  simp only [StM.bind_apply, StM.get_apply, h, matchIf_of_ne, ne_eq, reduceCtorEq,
    not_false_eq_true, if_false, Bool.false_eq_true, matchIf_of_eq h hs, if_true]
  exact hl

/-! ## The pre-pass at registers, inline functions and `extern` -/

/-- The pre-pass at `register_var`: the name behind the keyword takes a slot of
the register file of the open namespace and its location is recorded. The name
itself is left to the next round of the loop. -/
theorem preprocessCodeLoop_register {H : Host} {n : Nat} {s : PreprocessState}
    {i : TokenIterator} (h : s.it.currentType = .register_var)
    (hs : TokenIterator.skip H s.it = .ok ((), i)) :
    preprocessCodeLoop H (n + 1) s =
      preprocessCodeLoop H n { s with
        it := i
        hiseSpecialData := s.hiseSpecialData.modifyNs s.cns (fun x => { x with
          varRegister := x.varRegister.addRegister i.currentValue.toString (.bool true),
          registerLocations := x.registerLocations ++
            [⟨i.location.externalFile, i.charNumber⟩] }) } := by
  rw [preprocessCodeLoop]
  simp only [StM.bind_apply, StM.get_apply, h, ne_eq, reduceCtorEq, not_false_eq_true, if_true,
    if_false, StM.pure_apply,
    liftPre_matchIf_of_ne (show s.it.currentType ≠ .openBrace by rw [h]; decide),
    liftPre_matchIf_of_ne (show s.it.currentType ≠ .closeBrace by rw [h]; decide),
    liftPre_matchIf_of_ne (show s.it.currentType ≠ .inline_ by rw [h]; decide),
    liftPre_matchIf_of_eq h hs, Bool.false_eq_true, parseRegisterVarPreparser, modifyPreData,
    StM.modify_apply]

theorem ParameterList.ends_at_close {H : Host} {it l : TokenIterator} {ps : List Identifier}
    (h : ParameterList H it ps l) : l.currentType = .closeParen := by
  induction h with
  | nil hc => exact hc
  | single _ _ hc => exact hc
  | cons _ _ _ _ _ ih => exact ih

/-- The argument loop of the pre-pass over a parameter list. -/
theorem parseInlineFunctionArgumentsLoop_list {H : Host} {it l : TokenIterator}
    {ps : List Identifier} (h : ParameterList H it ps l) :
    ∀ (n : Nat) (acc : List Identifier) (s : PreprocessState), s.it = it → ps.length + 1 ≤ n →
      parseInlineFunctionArgumentsLoop H n acc s = .ok (acc ++ ps, { s with it := l }) := by
  induction h with
  | @nil it hc =>
    intro n acc s hs hn
    obtain ⟨m, rfl⟩ : ∃ m, n = m + 1 := ⟨n - 1, by simp at hn; omega⟩
    subst hs
    rw [parseInlineFunctionArgumentsLoop]
    simp only [StM.bind_apply, StM.get_apply, hc, ne_eq, not_true_eq_false, if_false,
      StM.pure_apply, List.append_nil]
  | @single it j hid hskip hc =>
    intro n acc s hs hn
    obtain ⟨m, rfl⟩ : ∃ m, n = m + 2 := ⟨n - 2, by simp at hn; omega⟩
    subst hs
    rw [parseInlineFunctionArgumentsLoop]
    simp only [StM.bind_apply, StM.get_apply, hid, ne_eq, reduceCtorEq, not_false_eq_true,
      if_true, liftPre_match_of_eq hid hskip, hc, not_true_eq_false, if_false, StM.pure_apply]
    rw [parseInlineFunctionArgumentsLoop]
    simp only [StM.bind_apply, StM.get_apply, hc, ne_eq, not_true_eq_false, if_false,
      StM.pure_apply]
  | @cons it j k l p ps hid hskip hcomma hskip2 hrest ih =>
    intro n acc s hs hn
    obtain ⟨m, rfl⟩ : ∃ m, n = m + 1 := ⟨n - 1, by simp at hn; omega⟩
    subst hs
    rw [parseInlineFunctionArgumentsLoop]
    simp only [StM.bind_apply, StM.get_apply, hid, ne_eq, reduceCtorEq, not_false_eq_true,
      if_true, liftPre_match_of_eq hid hskip, hcomma,
      liftPre_match_of_eq (s := { s with it := j }) hcomma hskip2, StM.pure_apply]
    rw [ih m (acc ++ [s.it.currentValue.toString]) { s with it := k } rfl
      (by simp at hn ⊢; omega)]
    simp

/-- The pre-pass over the header `function name (p1, ..., pn)` of an inline
function: one object with the name and the parameter names is appended to the
inline functions of the namespace, and nothing else changes. -/
theorem parseInlineFunctionPreparser_of_parameters {H : Host} {n : Nat} {ns : NsPtr}
    {s : PreprocessState} {a b c d e f : TokenIterator} {ps : List Identifier} {m : Bool}
    (hfun : s.it.currentType = .function) (hs : TokenIterator.skip H s.it = .ok ((), a))
    (hname : a.currentType = .identifier) (ha : TokenIterator.skip H a = .ok ((), b))
    (hopen : b.currentType = .openParen) (hb : TokenIterator.skip H b = .ok ((), c))
    (hps : ParameterList H c ps d) (hd : TokenIterator.skip H d = .ok ((), e))
    (hsemi : TokenIterator.matchIf H .semicolon e = .ok (m, f)) (hn : ps.length + 1 ≤ n) :
    parseInlineFunctionPreparser H n ns s = .ok ((),
      { s with
        it := f
        hiseSpecialData := s.hiseSpecialData.modifyNs ns (fun x => { x with
          inlineFunctions := x.inlineFunctions ++
            [{ name := a.currentValue.toString, parameterNames := ps,
               location := ⟨s.it.location.externalFile, s.it.charNumber⟩ }] }) }) := by
  unfold parseInlineFunctionPreparser
  simp only [StM.bind_apply, StM.get_apply, liftPre_match_of_eq hfun hs,
    liftPre_match_of_eq (s := { s with it := a }) hname ha,
    liftPre_match_of_eq (s := { s with it := b }) hopen hb,
    parseInlineFunctionArgumentsLoop_list hps n [] { s with it := c } rfl hn,
    liftPre_match_of_eq (s := { s with it := d }) hps.ends_at_close hd, List.nil_append,
    modifyPreData, StM.modify_apply]
  simp only [liftPre, hsemi, StM.pure_apply]

theorem preprocessExternLoop_stop {H : Host} {n : Nat} {s : PreprocessState}
    (h : (s.it.currentType = .closeBrace ∧ s.braceLevel = 1) ∨ s.it.currentType = .eof) :
    preprocessExternLoop H (n + 1) s = .ok ((), s) := by
  rw [preprocessExternLoop]
  simp only [StM.bind_apply, StM.get_apply]
  rw [if_neg]
  · rfl
  · rintro ⟨h1, h2⟩
    rcases h with h | h
    · exact h1 h
    · exact h2 h

theorem preprocessExternLoop_openBrace {H : Host} {n : Nat} {s : PreprocessState}
    {i : TokenIterator} (h : s.it.currentType = .openBrace)
    (hs : TokenIterator.skip H s.it = .ok ((), i)) :
    preprocessExternLoop H (n + 1) s =
      preprocessExternLoop H n { s with it := i, braceLevel := s.braceLevel + 1 } := by
  rw [preprocessExternLoop]
  simp only [StM.bind_apply, StM.get_apply, h, reduceCtorEq, false_and, not_false_eq_true,
    and_self, if_true, StM.modify_apply, liftPre_skip (s := { s with braceLevel := s.braceLevel + 1 }) hs]

theorem preprocessExternLoop_closeBrace {H : Host} {n : Nat} {s : PreprocessState}
    {i : TokenIterator} (h : s.it.currentType = .closeBrace) (hb : s.braceLevel ≠ 1)
    (hs : TokenIterator.skip H s.it = .ok ((), i)) :
    preprocessExternLoop H (n + 1) s =
      preprocessExternLoop H n { s with it := i, braceLevel := s.braceLevel - 1 } := by
  rw [preprocessExternLoop]
  simp only [StM.bind_apply, StM.get_apply, h, reduceCtorEq, hb, and_false, not_false_eq_true,
    and_self, if_true, if_false, StM.modify_apply,
    liftPre_skip (s := { s with braceLevel := s.braceLevel - 1 }) hs]

theorem preprocessExternLoop_skip {H : Host} {n : Nat} {s : PreprocessState}
    {i : TokenIterator} (h1 : s.it.currentType ≠ .openBrace) (h2 : s.it.currentType ≠ .closeBrace)
    (h3 : s.it.currentType ≠ .eof) (hs : TokenIterator.skip H s.it = .ok ((), i)) :
    preprocessExternLoop H (n + 1) s = preprocessExternLoop H n { s with it := i } := by
  rw [preprocessExternLoop]
  simp only [StM.bind_apply, StM.get_apply, h1, h2, h3, false_and, not_false_eq_true, and_self,
    if_true, if_false, StM.pure_apply, liftPre_skip hs]

/-- The pre-pass at `extern` inside a named namespace: the loop that skips the
block stops at a `}` read at brace depth 1, which then closes the namespace. -/
theorem preprocessCodeLoop_extern_leave {H : Host} {n : Nat} {s t f : PreprocessState}
    {i : TokenIterator} (h : s.it.currentType = .extern_)
    (he : preprocessExternLoop H n s = .ok ((), t))
    (hc : t.it.currentType = .closeBrace) (hb : t.braceLevel - 1 = 0) (hns : t.cns ≠ .root)
    (hs : TokenIterator.skip H t.it = .ok ((), i))
    (hf : flushIds { t with it := i, braceLevel := t.braceLevel - 1 } = .ok ((), f)) :
    preprocessCodeLoop H (n + 1) s = preprocessCodeLoop H n { f with cns := .root } := by
  rw [preprocessCodeLoop]
  simp only [StM.bind_apply, StM.get_apply, h, ne_eq, reduceCtorEq, not_false_eq_true, if_true,
    if_false, he, hc, StM.pure_apply,
    liftPre_matchIf_of_ne (show t.it.currentType ≠ .openBrace by rw [hc]; decide),
    liftPre_matchIf_of_eq hc hs, StM.modify_apply, hns, and_self]
  rw [hb] at hf ⊢
  simp only [not_false_eq_true, and_self, if_true, StM.bind_apply, hf, StM.modify_apply]

/-- The pre-pass at `extern` in the root namespace: the loop that skips the
block stops at a `}` read at brace depth 1. -/
theorem preprocessCodeLoop_extern_root {H : Host} {n : Nat} {s t : PreprocessState}
    {i : TokenIterator} (h : s.it.currentType = .extern_)
    (he : preprocessExternLoop H n s = .ok ((), t))
    (hc : t.it.currentType = .closeBrace) (hns : t.cns = .root)
    (hs : TokenIterator.skip H t.it = .ok ((), i)) :
    preprocessCodeLoop H (n + 1) s =
      preprocessCodeLoop H n { t with it := i, braceLevel := t.braceLevel - 1 } := by
  rw [preprocessCodeLoop]
  simp only [StM.bind_apply, StM.get_apply, h, ne_eq, reduceCtorEq, not_false_eq_true, if_true,
    if_false, he, hc, StM.pure_apply,
    liftPre_matchIf_of_ne (show t.it.currentType ≠ .openBrace by rw [hc]; decide),
    liftPre_matchIf_of_eq hc hs, StM.modify_apply, hns, not_true_eq_false, and_false]

/-! ## Runs of the pre-pass over declarations -/

theorem registerTwice_loop (n : Nat) :
    preprocessCodeLoop specHost (n + 7) (preState registerTwice (declTables { id := Identifier.null } []) .root [] 0 0 12 .register_var .void_) =
      .ok ((), (preState registerTwice (declTables { id := Identifier.null, varRegister := { registerStackIds := ["a"], registerStack := [.bool true] }, registerLocations := [⟨"", 13⟩, ⟨"", 29⟩] } []) .root [] 0 31 31 .eof (.string "a"))) := by
  rw [preprocessCodeLoop_register (H := specHost) (s := (preState registerTwice (declTables { id := Identifier.null } []) .root [] 0 0 12 .register_var .void_))
      (i := (mkIterator registerTwice 13 14 .identifier (.string "a"))) rfl rfl]
  show preprocessCodeLoop specHost _ (preState registerTwice (declTables { id := Identifier.null, varRegister := { registerStackIds := ["a"], registerStack := [.bool true] }, registerLocations := [⟨"", 13⟩] } []) .root [] 0 13 14 .identifier (.string "a")) = _
  rw [preprocessCodeLoop_skip (H := specHost) (s := (preState registerTwice (declTables { id := Identifier.null, varRegister := { registerStackIds := ["a"], registerStack := [.bool true] }, registerLocations := [⟨"", 13⟩] } []) .root [] 0 13 14 .identifier (.string "a")))
      (i := (mkIterator registerTwice 14 15 .semicolon (.string "a"))) (by decide) rfl]
  show preprocessCodeLoop specHost _ (preState registerTwice (declTables { id := Identifier.null, varRegister := { registerStackIds := ["a"], registerStack := [.bool true] }, registerLocations := [⟨"", 13⟩] } []) .root [] 0 14 15 .semicolon (.string "a")) = _
  rw [preprocessCodeLoop_skip (H := specHost) (s := (preState registerTwice (declTables { id := Identifier.null, varRegister := { registerStackIds := ["a"], registerStack := [.bool true] }, registerLocations := [⟨"", 13⟩] } []) .root [] 0 14 15 .semicolon (.string "a")))
      (i := (mkIterator registerTwice 16 28 .register_var (.string "a"))) (by decide) rfl]
  show preprocessCodeLoop specHost _ (preState registerTwice (declTables { id := Identifier.null, varRegister := { registerStackIds := ["a"], registerStack := [.bool true] }, registerLocations := [⟨"", 13⟩] } []) .root [] 0 16 28 .register_var (.string "a")) = _
  rw [preprocessCodeLoop_register (H := specHost) (s := (preState registerTwice (declTables { id := Identifier.null, varRegister := { registerStackIds := ["a"], registerStack := [.bool true] }, registerLocations := [⟨"", 13⟩] } []) .root [] 0 16 28 .register_var (.string "a")))
      (i := (mkIterator registerTwice 29 30 .identifier (.string "a"))) rfl rfl]
  show preprocessCodeLoop specHost _ (preState registerTwice (declTables { id := Identifier.null, varRegister := { registerStackIds := ["a"], registerStack := [.bool true] }, registerLocations := [⟨"", 13⟩, ⟨"", 29⟩] } []) .root [] 0 29 30 .identifier (.string "a")) = _
  rw [preprocessCodeLoop_skip (H := specHost) (s := (preState registerTwice (declTables { id := Identifier.null, varRegister := { registerStackIds := ["a"], registerStack := [.bool true] }, registerLocations := [⟨"", 13⟩, ⟨"", 29⟩] } []) .root [] 0 29 30 .identifier (.string "a")))
      (i := (mkIterator registerTwice 30 31 .semicolon (.string "a"))) (by decide) rfl]
  show preprocessCodeLoop specHost _ (preState registerTwice (declTables { id := Identifier.null, varRegister := { registerStackIds := ["a"], registerStack := [.bool true] }, registerLocations := [⟨"", 13⟩, ⟨"", 29⟩] } []) .root [] 0 30 31 .semicolon (.string "a")) = _
  rw [preprocessCodeLoop_skip (H := specHost) (s := (preState registerTwice (declTables { id := Identifier.null, varRegister := { registerStackIds := ["a"], registerStack := [.bool true] }, registerLocations := [⟨"", 13⟩, ⟨"", 29⟩] } []) .root [] 0 30 31 .semicolon (.string "a")))
      (i := (mkIterator registerTwice 31 31 .eof (.string "a"))) (by decide) rfl]
  show preprocessCodeLoop specHost _ (preState registerTwice (declTables { id := Identifier.null, varRegister := { registerStackIds := ["a"], registerStack := [.bool true] }, registerLocations := [⟨"", 13⟩, ⟨"", 29⟩] } []) .root [] 0 31 31 .eof (.string "a")) = _
  rw [preprocessCodeLoop_eof (H := specHost) (s := (preState registerTwice (declTables { id := Identifier.null, varRegister := { registerStackIds := ["a"], registerStack := [.bool true] }, registerLocations := [⟨"", 13⟩, ⟨"", 29⟩] } []) .root [] 0 31 31 .eof (.string "a"))) rfl rfl]
  rfl

/-- The pre-pass over two declarations of one register. -/
theorem registerTwice_prepass (n : Nat) :
    preprocessCode specHost (n + 8) registerTwice.toList "" HiseSpecialData.empty =
      .ok (declTables { id := Identifier.null, varRegister := { registerStackIds := ["a"], registerStack := [.bool true] }, registerLocations := [⟨"", 13⟩, ⟨"", 29⟩] } []) :=
  preprocessCode_eq (show registerTwice.toList.isEmpty = false from rfl)
    (show TokenIterator.new specHost registerTwice.toList "" = .ok (mkIterator registerTwice 0 12 .register_var .void_) from rfl)
    (registerTwice_loop n)

theorem inlineAfterExtern_extern_0 (m : Nat) (h : 18 ≤ m) :
    preprocessExternLoop specHost m (preState inlineAfterExtern (declTables { id := Identifier.null } [{ id := "A" }]) (.named 0) [] 1 14 20 .extern_ (.string "A")) =
      .ok ((), (preState inlineAfterExtern (declTables { id := Identifier.null } [{ id := "A" }]) (.named 0) [] 1 65 66 .closeBrace (.string "f"))) := by
  obtain ⟨n, rfl⟩ := Nat.exists_eq_add_of_le' h
  rw [preprocessExternLoop_skip (H := specHost) (s := (preState inlineAfterExtern (declTables { id := Identifier.null } [{ id := "A" }]) (.named 0) [] 1 14 20 .extern_ (.string "A")))
      (i := (mkIterator inlineAfterExtern 21 24 .literal (.string "C"))) (by decide) (by decide) (by decide) rfl]
  show preprocessExternLoop specHost _ (preState inlineAfterExtern (declTables { id := Identifier.null } [{ id := "A" }]) (.named 0) [] 1 21 24 .literal (.string "C")) = _
  rw [preprocessExternLoop_skip (H := specHost) (s := (preState inlineAfterExtern (declTables { id := Identifier.null } [{ id := "A" }]) (.named 0) [] 1 21 24 .literal (.string "C")))
      (i := (mkIterator inlineAfterExtern 25 26 .openBrace (.string "C"))) (by decide) (by decide) (by decide) rfl]
  show preprocessExternLoop specHost _ (preState inlineAfterExtern (declTables { id := Identifier.null } [{ id := "A" }]) (.named 0) [] 1 25 26 .openBrace (.string "C")) = _
  rw [preprocessExternLoop_openBrace (H := specHost) (s := (preState inlineAfterExtern (declTables { id := Identifier.null } [{ id := "A" }]) (.named 0) [] 1 25 26 .openBrace (.string "C")))
      (i := (mkIterator inlineAfterExtern 27 30 .identifier (.string "int"))) rfl rfl]
  show preprocessExternLoop specHost _ (preState inlineAfterExtern (declTables { id := Identifier.null } [{ id := "A" }]) (.named 0) [] 2 27 30 .identifier (.string "int")) = _
  rw [preprocessExternLoop_skip (H := specHost) (s := (preState inlineAfterExtern (declTables { id := Identifier.null } [{ id := "A" }]) (.named 0) [] 2 27 30 .identifier (.string "int")))
      (i := (mkIterator inlineAfterExtern 31 32 .identifier (.string "g"))) (by decide) (by decide) (by decide) rfl]
  show preprocessExternLoop specHost _ (preState inlineAfterExtern (declTables { id := Identifier.null } [{ id := "A" }]) (.named 0) [] 2 31 32 .identifier (.string "g")) = _
  rw [preprocessExternLoop_skip (H := specHost) (s := (preState inlineAfterExtern (declTables { id := Identifier.null } [{ id := "A" }]) (.named 0) [] 2 31 32 .identifier (.string "g")))
      (i := (mkIterator inlineAfterExtern 32 33 .openParen (.string "g"))) (by decide) (by decide) (by decide) rfl]
  show preprocessExternLoop specHost _ (preState inlineAfterExtern (declTables { id := Identifier.null } [{ id := "A" }]) (.named 0) [] 2 32 33 .openParen (.string "g")) = _
  rw [preprocessExternLoop_skip (H := specHost) (s := (preState inlineAfterExtern (declTables { id := Identifier.null } [{ id := "A" }]) (.named 0) [] 2 32 33 .openParen (.string "g")))
      (i := (mkIterator inlineAfterExtern 33 34 .closeParen (.string "g"))) (by decide) (by decide) (by decide) rfl]
  show preprocessExternLoop specHost _ (preState inlineAfterExtern (declTables { id := Identifier.null } [{ id := "A" }]) (.named 0) [] 2 33 34 .closeParen (.string "g")) = _
  rw [preprocessExternLoop_skip (H := specHost) (s := (preState inlineAfterExtern (declTables { id := Identifier.null } [{ id := "A" }]) (.named 0) [] 2 33 34 .closeParen (.string "g")))
      (i := (mkIterator inlineAfterExtern 35 36 .openBrace (.string "g"))) (by decide) (by decide) (by decide) rfl]
  show preprocessExternLoop specHost _ (preState inlineAfterExtern (declTables { id := Identifier.null } [{ id := "A" }]) (.named 0) [] 2 35 36 .openBrace (.string "g")) = _
  rw [preprocessExternLoop_openBrace (H := specHost) (s := (preState inlineAfterExtern (declTables { id := Identifier.null } [{ id := "A" }]) (.named 0) [] 2 35 36 .openBrace (.string "g")))
      (i := (mkIterator inlineAfterExtern 37 38 .closeBrace (.string "g"))) rfl rfl]
  show preprocessExternLoop specHost _ (preState inlineAfterExtern (declTables { id := Identifier.null } [{ id := "A" }]) (.named 0) [] 3 37 38 .closeBrace (.string "g")) = _
  rw [preprocessExternLoop_closeBrace (H := specHost) (s := (preState inlineAfterExtern (declTables { id := Identifier.null } [{ id := "A" }]) (.named 0) [] 3 37 38 .closeBrace (.string "g")))
      (i := (mkIterator inlineAfterExtern 39 40 .closeBrace (.string "g"))) rfl (by decide) rfl]
  show preprocessExternLoop specHost _ (preState inlineAfterExtern (declTables { id := Identifier.null } [{ id := "A" }]) (.named 0) [] 2 39 40 .closeBrace (.string "g")) = _
  rw [preprocessExternLoop_closeBrace (H := specHost) (s := (preState inlineAfterExtern (declTables { id := Identifier.null } [{ id := "A" }]) (.named 0) [] 2 39 40 .closeBrace (.string "g")))
      (i := (mkIterator inlineAfterExtern 41 47 .inline_ (.string "g"))) rfl (by decide) rfl]
  show preprocessExternLoop specHost _ (preState inlineAfterExtern (declTables { id := Identifier.null } [{ id := "A" }]) (.named 0) [] 1 41 47 .inline_ (.string "g")) = _
  rw [preprocessExternLoop_skip (H := specHost) (s := (preState inlineAfterExtern (declTables { id := Identifier.null } [{ id := "A" }]) (.named 0) [] 1 41 47 .inline_ (.string "g")))
      (i := (mkIterator inlineAfterExtern 48 56 .function (.string "g"))) (by decide) (by decide) (by decide) rfl]
  show preprocessExternLoop specHost _ (preState inlineAfterExtern (declTables { id := Identifier.null } [{ id := "A" }]) (.named 0) [] 1 48 56 .function (.string "g")) = _
  rw [preprocessExternLoop_skip (H := specHost) (s := (preState inlineAfterExtern (declTables { id := Identifier.null } [{ id := "A" }]) (.named 0) [] 1 48 56 .function (.string "g")))
      (i := (mkIterator inlineAfterExtern 57 58 .identifier (.string "f"))) (by decide) (by decide) (by decide) rfl]
  show preprocessExternLoop specHost _ (preState inlineAfterExtern (declTables { id := Identifier.null } [{ id := "A" }]) (.named 0) [] 1 57 58 .identifier (.string "f")) = _
  rw [preprocessExternLoop_skip (H := specHost) (s := (preState inlineAfterExtern (declTables { id := Identifier.null } [{ id := "A" }]) (.named 0) [] 1 57 58 .identifier (.string "f")))
      (i := (mkIterator inlineAfterExtern 58 59 .openParen (.string "f"))) (by decide) (by decide) (by decide) rfl]
  show preprocessExternLoop specHost _ (preState inlineAfterExtern (declTables { id := Identifier.null } [{ id := "A" }]) (.named 0) [] 1 58 59 .openParen (.string "f")) = _
  rw [preprocessExternLoop_skip (H := specHost) (s := (preState inlineAfterExtern (declTables { id := Identifier.null } [{ id := "A" }]) (.named 0) [] 1 58 59 .openParen (.string "f")))
      (i := (mkIterator inlineAfterExtern 59 60 .closeParen (.string "f"))) (by decide) (by decide) (by decide) rfl]
  show preprocessExternLoop specHost _ (preState inlineAfterExtern (declTables { id := Identifier.null } [{ id := "A" }]) (.named 0) [] 1 59 60 .closeParen (.string "f")) = _
  rw [preprocessExternLoop_skip (H := specHost) (s := (preState inlineAfterExtern (declTables { id := Identifier.null } [{ id := "A" }]) (.named 0) [] 1 59 60 .closeParen (.string "f")))
      (i := (mkIterator inlineAfterExtern 61 62 .openBrace (.string "f"))) (by decide) (by decide) (by decide) rfl]
  show preprocessExternLoop specHost _ (preState inlineAfterExtern (declTables { id := Identifier.null } [{ id := "A" }]) (.named 0) [] 1 61 62 .openBrace (.string "f")) = _
  rw [preprocessExternLoop_openBrace (H := specHost) (s := (preState inlineAfterExtern (declTables { id := Identifier.null } [{ id := "A" }]) (.named 0) [] 1 61 62 .openBrace (.string "f")))
      (i := (mkIterator inlineAfterExtern 63 64 .closeBrace (.string "f"))) rfl rfl]
  show preprocessExternLoop specHost _ (preState inlineAfterExtern (declTables { id := Identifier.null } [{ id := "A" }]) (.named 0) [] 2 63 64 .closeBrace (.string "f")) = _
  rw [preprocessExternLoop_closeBrace (H := specHost) (s := (preState inlineAfterExtern (declTables { id := Identifier.null } [{ id := "A" }]) (.named 0) [] 2 63 64 .closeBrace (.string "f")))
      (i := (mkIterator inlineAfterExtern 65 66 .closeBrace (.string "f"))) rfl (by decide) rfl]
  show preprocessExternLoop specHost _ (preState inlineAfterExtern (declTables { id := Identifier.null } [{ id := "A" }]) (.named 0) [] 1 65 66 .closeBrace (.string "f")) = _
  exact preprocessExternLoop_stop (H := specHost) (s := (preState inlineAfterExtern (declTables { id := Identifier.null } [{ id := "A" }]) (.named 0) [] 1 65 66 .closeBrace (.string "f"))) (Or.inl ⟨rfl, rfl⟩)

theorem inlineAfterExtern_loop (n : Nat) :
    preprocessCodeLoop specHost (n + 23) (preState inlineAfterExtern (declTables { id := Identifier.null } []) .root [] 0 0 9 .namespace_ .void_) =
      .ok ((), (preState inlineAfterExtern (declTables { id := Identifier.null } [{ id := "A" }]) .root [] 0 66 66 .eof (.string "f"))) := by
  rw [preprocessCodeLoop_namespace (H := specHost) (s := (preState inlineAfterExtern (declTables { id := Identifier.null } []) .root [] 0 0 9 .namespace_ .void_))
      (f := (preState inlineAfterExtern (declTables { id := Identifier.null } []) .root [] 0 0 9 .namespace_ .void_))
      (i := (mkIterator inlineAfterExtern 10 11 .identifier (.string "A"))) rfl rfl rfl rfl rfl]
  show preprocessCodeLoop specHost _ (preState inlineAfterExtern (declTables { id := Identifier.null } [{ id := "A" }]) (.named 0) [] 0 10 11 .identifier (.string "A")) = _
  rw [preprocessCodeLoop_skip (H := specHost) (s := (preState inlineAfterExtern (declTables { id := Identifier.null } [{ id := "A" }]) (.named 0) [] 0 10 11 .identifier (.string "A")))
      (i := (mkIterator inlineAfterExtern 12 13 .openBrace (.string "A"))) (by decide) rfl]
  show preprocessCodeLoop specHost _ (preState inlineAfterExtern (declTables { id := Identifier.null } [{ id := "A" }]) (.named 0) [] 0 12 13 .openBrace (.string "A")) = _
  rw [preprocessCodeLoop_openBrace (H := specHost) (s := (preState inlineAfterExtern (declTables { id := Identifier.null } [{ id := "A" }]) (.named 0) [] 0 12 13 .openBrace (.string "A")))
      (i := (mkIterator inlineAfterExtern 14 20 .extern_ (.string "A"))) rfl rfl]
  show preprocessCodeLoop specHost _ (preState inlineAfterExtern (declTables { id := Identifier.null } [{ id := "A" }]) (.named 0) [] 1 14 20 .extern_ (.string "A")) = _
  rw [preprocessCodeLoop_extern_leave (H := specHost) (s := (preState inlineAfterExtern (declTables { id := Identifier.null } [{ id := "A" }]) (.named 0) [] 1 14 20 .extern_ (.string "A")))
      (t := (preState inlineAfterExtern (declTables { id := Identifier.null } [{ id := "A" }]) (.named 0) [] 1 65 66 .closeBrace (.string "f")))
      (f := (preState inlineAfterExtern (declTables { id := Identifier.null } [{ id := "A" }]) (.named 0) [] 0 66 66 .eof (.string "f")))
      (i := (mkIterator inlineAfterExtern 66 66 .eof (.string "f"))) rfl (inlineAfterExtern_extern_0 (n + 19) (by omega)) rfl (by decide) (by decide) rfl rfl]
  show preprocessCodeLoop specHost _ (preState inlineAfterExtern (declTables { id := Identifier.null } [{ id := "A" }]) .root [] 0 66 66 .eof (.string "f")) = _
  rw [preprocessCodeLoop_eof (H := specHost) (s := (preState inlineAfterExtern (declTables { id := Identifier.null } [{ id := "A" }]) .root [] 0 66 66 .eof (.string "f"))) rfl rfl]
  rfl

/-- The pre-pass over an inline function behind an `extern` block of a namespace. -/
theorem inlineAfterExtern_prepass (n : Nat) :
    preprocessCode specHost (n + 24) inlineAfterExtern.toList "" HiseSpecialData.empty =
      .ok (declTables { id := Identifier.null } [{ id := "A" }]) :=
  preprocessCode_eq (show inlineAfterExtern.toList.isEmpty = false from rfl)
    (show TokenIterator.new specHost inlineAfterExtern.toList "" = .ok (mkIterator inlineAfterExtern 0 9 .namespace_ .void_) from rfl)
    (inlineAfterExtern_loop n)

theorem localInFirst_inline_0 (n : Nat) :
    parseInlineFunctionPreparser specHost (n + 1) .root
        (preState localInFirst (declTables { id := Identifier.null } []) .root [] 0 7 15 .function .void_) =
      .ok ((), (preState localInFirst (declTables { id := Identifier.null, inlineFunctions := [{ name := "f", parameterNames := [], location := ⟨"", 7⟩ }] } []) .root [] 0 20 21 .openBrace (.string "f"))) :=
  parseInlineFunctionPreparser_of_parameters (H := specHost)
    (a := (mkIterator localInFirst 16 17 .identifier (.string "f")))
    (b := (mkIterator localInFirst 17 18 .openParen (.string "f")))
    (c := (mkIterator localInFirst 18 19 .closeParen (.string "f")))
    (d := (mkIterator localInFirst 18 19 .closeParen (.string "f")))
    (e := (mkIterator localInFirst 20 21 .openBrace (.string "f")))
    (f := (mkIterator localInFirst 20 21 .openBrace (.string "f"))) (m := false)
    rfl rfl rfl rfl rfl rfl
    (ParameterList.nil (H := specHost) (i := (mkIterator localInFirst 18 19 .closeParen (.string "f"))) rfl)
    rfl rfl (by simp)

theorem localInFirst_inline_1 (n : Nat) :
    parseInlineFunctionPreparser specHost (n + 1) .root
        (preState localInFirst (declTables { id := Identifier.null, inlineFunctions := [{ name := "f", parameterNames := [], location := ⟨"", 7⟩ }] } []) .root [] 0 40 48 .function (.string "v")) =
      .ok ((), (preState localInFirst (declTables { id := Identifier.null, inlineFunctions := [{ name := "f", parameterNames := [], location := ⟨"", 7⟩ }, { name := "g", parameterNames := [], location := ⟨"", 40⟩ }] } []) .root [] 0 53 54 .openBrace (.string "g"))) :=
  parseInlineFunctionPreparser_of_parameters (H := specHost)
    (a := (mkIterator localInFirst 49 50 .identifier (.string "g")))
    (b := (mkIterator localInFirst 50 51 .openParen (.string "g")))
    (c := (mkIterator localInFirst 51 52 .closeParen (.string "g")))
    (d := (mkIterator localInFirst 51 52 .closeParen (.string "g")))
    (e := (mkIterator localInFirst 53 54 .openBrace (.string "g")))
    (f := (mkIterator localInFirst 53 54 .openBrace (.string "g"))) (m := false)
    rfl rfl rfl rfl rfl rfl
    (ParameterList.nil (H := specHost) (i := (mkIterator localInFirst 51 52 .closeParen (.string "g"))) rfl)
    rfl rfl (by simp)

theorem localInFirst_loop (n : Nat) :
    preprocessCodeLoop specHost (n + 11) (preState localInFirst (declTables { id := Identifier.null } []) .root [] 0 0 6 .inline_ .void_) =
      .ok ((), (preState localInFirst (declTables { id := Identifier.null, inlineFunctions := [{ name := "f", parameterNames := [], location := ⟨"", 7⟩ }, { name := "g", parameterNames := [], location := ⟨"", 40⟩ }] } []) .root [] 0 56 56 .eof (.string "g"))) := by
  rw [preprocessCodeLoop_inline (H := specHost) (s := (preState localInFirst (declTables { id := Identifier.null } []) .root [] 0 0 6 .inline_ .void_))
      (t := (preState localInFirst (declTables { id := Identifier.null, inlineFunctions := [{ name := "f", parameterNames := [], location := ⟨"", 7⟩ }] } []) .root [] 0 20 21 .openBrace (.string "f")))
      (i := (mkIterator localInFirst 7 15 .function .void_)) rfl rfl (localInFirst_inline_0 (n + 9))]
  show preprocessCodeLoop specHost _ (preState localInFirst (declTables { id := Identifier.null, inlineFunctions := [{ name := "f", parameterNames := [], location := ⟨"", 7⟩ }] } []) .root [] 0 20 21 .openBrace (.string "f")) = _
  rw [preprocessCodeLoop_openBrace (H := specHost) (s := (preState localInFirst (declTables { id := Identifier.null, inlineFunctions := [{ name := "f", parameterNames := [], location := ⟨"", 7⟩ }] } []) .root [] 0 20 21 .openBrace (.string "f")))
      (i := (mkIterator localInFirst 22 27 .local_ (.string "f"))) rfl rfl]
  show preprocessCodeLoop specHost _ (preState localInFirst (declTables { id := Identifier.null, inlineFunctions := [{ name := "f", parameterNames := [], location := ⟨"", 7⟩ }] } []) .root [] 1 22 27 .local_ (.string "f")) = _
  rw [preprocessCodeLoop_skip (H := specHost) (s := (preState localInFirst (declTables { id := Identifier.null, inlineFunctions := [{ name := "f", parameterNames := [], location := ⟨"", 7⟩ }] } []) .root [] 1 22 27 .local_ (.string "f")))
      (i := (mkIterator localInFirst 28 29 .identifier (.string "v"))) (by decide) rfl]
  show preprocessCodeLoop specHost _ (preState localInFirst (declTables { id := Identifier.null, inlineFunctions := [{ name := "f", parameterNames := [], location := ⟨"", 7⟩ }] } []) .root [] 1 28 29 .identifier (.string "v")) = _
  rw [preprocessCodeLoop_skip (H := specHost) (s := (preState localInFirst (declTables { id := Identifier.null, inlineFunctions := [{ name := "f", parameterNames := [], location := ⟨"", 7⟩ }] } []) .root [] 1 28 29 .identifier (.string "v")))
      (i := (mkIterator localInFirst 29 30 .semicolon (.string "v"))) (by decide) rfl]
  show preprocessCodeLoop specHost _ (preState localInFirst (declTables { id := Identifier.null, inlineFunctions := [{ name := "f", parameterNames := [], location := ⟨"", 7⟩ }] } []) .root [] 1 29 30 .semicolon (.string "v")) = _
  rw [preprocessCodeLoop_skip (H := specHost) (s := (preState localInFirst (declTables { id := Identifier.null, inlineFunctions := [{ name := "f", parameterNames := [], location := ⟨"", 7⟩ }] } []) .root [] 1 29 30 .semicolon (.string "v")))
      (i := (mkIterator localInFirst 31 32 .closeBrace (.string "v"))) (by decide) rfl]
  show preprocessCodeLoop specHost _ (preState localInFirst (declTables { id := Identifier.null, inlineFunctions := [{ name := "f", parameterNames := [], location := ⟨"", 7⟩ }] } []) .root [] 1 31 32 .closeBrace (.string "v")) = _
  rw [preprocessCodeLoop_closeBrace (H := specHost) (s := (preState localInFirst (declTables { id := Identifier.null, inlineFunctions := [{ name := "f", parameterNames := [], location := ⟨"", 7⟩ }] } []) .root [] 1 31 32 .closeBrace (.string "v")))
      (i := (mkIterator localInFirst 33 39 .inline_ (.string "v"))) rfl rfl rfl]
  show preprocessCodeLoop specHost _ (preState localInFirst (declTables { id := Identifier.null, inlineFunctions := [{ name := "f", parameterNames := [], location := ⟨"", 7⟩ }] } []) .root [] 0 33 39 .inline_ (.string "v")) = _
  rw [preprocessCodeLoop_inline (H := specHost) (s := (preState localInFirst (declTables { id := Identifier.null, inlineFunctions := [{ name := "f", parameterNames := [], location := ⟨"", 7⟩ }] } []) .root [] 0 33 39 .inline_ (.string "v")))
      (t := (preState localInFirst (declTables { id := Identifier.null, inlineFunctions := [{ name := "f", parameterNames := [], location := ⟨"", 7⟩ }, { name := "g", parameterNames := [], location := ⟨"", 40⟩ }] } []) .root [] 0 53 54 .openBrace (.string "g")))
      (i := (mkIterator localInFirst 40 48 .function (.string "v"))) rfl rfl (localInFirst_inline_1 (n + 3))]
  show preprocessCodeLoop specHost _ (preState localInFirst (declTables { id := Identifier.null, inlineFunctions := [{ name := "f", parameterNames := [], location := ⟨"", 7⟩ }, { name := "g", parameterNames := [], location := ⟨"", 40⟩ }] } []) .root [] 0 53 54 .openBrace (.string "g")) = _
  rw [preprocessCodeLoop_openBrace (H := specHost) (s := (preState localInFirst (declTables { id := Identifier.null, inlineFunctions := [{ name := "f", parameterNames := [], location := ⟨"", 7⟩ }, { name := "g", parameterNames := [], location := ⟨"", 40⟩ }] } []) .root [] 0 53 54 .openBrace (.string "g")))
      (i := (mkIterator localInFirst 55 56 .closeBrace (.string "g"))) rfl rfl]
  show preprocessCodeLoop specHost _ (preState localInFirst (declTables { id := Identifier.null, inlineFunctions := [{ name := "f", parameterNames := [], location := ⟨"", 7⟩ }, { name := "g", parameterNames := [], location := ⟨"", 40⟩ }] } []) .root [] 1 55 56 .closeBrace (.string "g")) = _
  rw [preprocessCodeLoop_closeBrace (H := specHost) (s := (preState localInFirst (declTables { id := Identifier.null, inlineFunctions := [{ name := "f", parameterNames := [], location := ⟨"", 7⟩ }, { name := "g", parameterNames := [], location := ⟨"", 40⟩ }] } []) .root [] 1 55 56 .closeBrace (.string "g")))
      (i := (mkIterator localInFirst 56 56 .eof (.string "g"))) rfl rfl rfl]
  show preprocessCodeLoop specHost _ (preState localInFirst (declTables { id := Identifier.null, inlineFunctions := [{ name := "f", parameterNames := [], location := ⟨"", 7⟩ }, { name := "g", parameterNames := [], location := ⟨"", 40⟩ }] } []) .root [] 0 56 56 .eof (.string "g")) = _
  rw [preprocessCodeLoop_eof (H := specHost) (s := (preState localInFirst (declTables { id := Identifier.null, inlineFunctions := [{ name := "f", parameterNames := [], location := ⟨"", 7⟩ }, { name := "g", parameterNames := [], location := ⟨"", 40⟩ }] } []) .root [] 0 56 56 .eof (.string "g"))) rfl rfl]
  rfl

/-- The pre-pass over `localInFirst` registers `f` and `g`. -/
theorem localInFirst_prepass (n : Nat) :
    preprocessCode specHost (n + 12) localInFirst.toList "" HiseSpecialData.empty =
      .ok (declTables { id := Identifier.null, inlineFunctions := [{ name := "f", parameterNames := [], location := ⟨"", 7⟩ }, { name := "g", parameterNames := [], location := ⟨"", 40⟩ }] } []) :=
  preprocessCode_eq (show localInFirst.toList.isEmpty = false from rfl)
    (show TokenIterator.new specHost localInFirst.toList "" = .ok (mkIterator localInFirst 0 6 .inline_ .void_) from rfl)
    (localInFirst_loop n)

theorem docThenInline_inline_0 (n : Nat) :
    parseInlineFunctionPreparser specHost (n + 2) .root
        (commentPreState "doc" docThenInline (declTables { id := Identifier.null } []) .root [] 0 18 26 .function .void_) =
      .ok ((), (commentPreState "doc" docThenInline (declTables { id := Identifier.null, inlineFunctions := [{ name := "f", parameterNames := ["x"], location := ⟨"", 18⟩ }] } []) .root [] 0 32 33 .openBrace (.string "x"))) :=
  parseInlineFunctionPreparser_of_parameters (H := specHost)
    (a := (commentIterator "doc" docThenInline 27 28 .identifier (.string "f")))
    (b := (commentIterator "doc" docThenInline 28 29 .openParen (.string "f")))
    (c := (commentIterator "doc" docThenInline 29 30 .identifier (.string "x")))
    (d := (commentIterator "doc" docThenInline 30 31 .closeParen (.string "x")))
    (e := (commentIterator "doc" docThenInline 32 33 .openBrace (.string "x")))
    (f := (commentIterator "doc" docThenInline 32 33 .openBrace (.string "x"))) (m := false)
    rfl rfl rfl rfl rfl rfl
    (ParameterList.single (H := specHost) (i := (commentIterator "doc" docThenInline 29 30 .identifier (.string "x"))) (j := (commentIterator "doc" docThenInline 30 31 .closeParen (.string "x"))) rfl rfl rfl)
    rfl rfl (by simp)

theorem docThenInline_inline_1 (n : Nat) :
    parseInlineFunctionPreparser specHost (n + 1) .root
        (commentPreState "inner" docThenInline (declTables { id := Identifier.null, inlineFunctions := [{ name := "f", parameterNames := ["x"], location := ⟨"", 18⟩ }] } []) .root [] 0 56 64 .function (.string "x")) =
      .ok ((), (commentPreState "inner" docThenInline (declTables { id := Identifier.null, inlineFunctions := [{ name := "f", parameterNames := ["x"], location := ⟨"", 18⟩ }, { name := "g", parameterNames := [], location := ⟨"", 56⟩ }] } []) .root [] 0 69 70 .openBrace (.string "g"))) :=
  parseInlineFunctionPreparser_of_parameters (H := specHost)
    (a := (commentIterator "inner" docThenInline 65 66 .identifier (.string "g")))
    (b := (commentIterator "inner" docThenInline 66 67 .openParen (.string "g")))
    (c := (commentIterator "inner" docThenInline 67 68 .closeParen (.string "g")))
    (d := (commentIterator "inner" docThenInline 67 68 .closeParen (.string "g")))
    (e := (commentIterator "inner" docThenInline 69 70 .openBrace (.string "g")))
    (f := (commentIterator "inner" docThenInline 69 70 .openBrace (.string "g"))) (m := false)
    rfl rfl rfl rfl rfl rfl
    (ParameterList.nil (H := specHost) (i := (commentIterator "inner" docThenInline 67 68 .closeParen (.string "g"))) rfl)
    rfl rfl (by simp)

theorem docThenInline_loop (n : Nat) :
    preprocessCodeLoop specHost (n + 9) (commentPreState "doc" docThenInline (declTables { id := Identifier.null } []) .root [] 0 11 17 .inline_ .void_) =
      .ok ((), (commentPreState "inner" docThenInline (declTables { id := Identifier.null, inlineFunctions := [{ name := "f", parameterNames := ["x"], location := ⟨"", 18⟩ }, { name := "g", parameterNames := [], location := ⟨"", 56⟩ }] } []) .root [] 0 72 72 .eof (.string "g"))) := by
  rw [preprocessCodeLoop_inline (H := specHost) (s := (commentPreState "doc" docThenInline (declTables { id := Identifier.null } []) .root [] 0 11 17 .inline_ .void_))
      (t := (commentPreState "doc" docThenInline (declTables { id := Identifier.null, inlineFunctions := [{ name := "f", parameterNames := ["x"], location := ⟨"", 18⟩ }] } []) .root [] 0 32 33 .openBrace (.string "x")))
      (i := (commentIterator "doc" docThenInline 18 26 .function .void_)) rfl rfl (docThenInline_inline_0 (n + 6))]
  show preprocessCodeLoop specHost _ (commentPreState "doc" docThenInline (declTables { id := Identifier.null, inlineFunctions := [{ name := "f", parameterNames := ["x"], location := ⟨"", 18⟩ }] } []) .root [] 0 32 33 .openBrace (.string "x")) = _
  rw [preprocessCodeLoop_openBrace (H := specHost) (s := (commentPreState "doc" docThenInline (declTables { id := Identifier.null, inlineFunctions := [{ name := "f", parameterNames := ["x"], location := ⟨"", 18⟩ }] } []) .root [] 0 32 33 .openBrace (.string "x")))
      (i := (commentIterator "inner" docThenInline 47 48 .closeBrace (.string "x"))) rfl rfl]
  show preprocessCodeLoop specHost _ (commentPreState "inner" docThenInline (declTables { id := Identifier.null, inlineFunctions := [{ name := "f", parameterNames := ["x"], location := ⟨"", 18⟩ }] } []) .root [] 1 47 48 .closeBrace (.string "x")) = _
  rw [preprocessCodeLoop_closeBrace (H := specHost) (s := (commentPreState "inner" docThenInline (declTables { id := Identifier.null, inlineFunctions := [{ name := "f", parameterNames := ["x"], location := ⟨"", 18⟩ }] } []) .root [] 1 47 48 .closeBrace (.string "x")))
      (i := (commentIterator "inner" docThenInline 49 55 .inline_ (.string "x"))) rfl rfl rfl]
  show preprocessCodeLoop specHost _ (commentPreState "inner" docThenInline (declTables { id := Identifier.null, inlineFunctions := [{ name := "f", parameterNames := ["x"], location := ⟨"", 18⟩ }] } []) .root [] 0 49 55 .inline_ (.string "x")) = _
  rw [preprocessCodeLoop_inline (H := specHost) (s := (commentPreState "inner" docThenInline (declTables { id := Identifier.null, inlineFunctions := [{ name := "f", parameterNames := ["x"], location := ⟨"", 18⟩ }] } []) .root [] 0 49 55 .inline_ (.string "x")))
      (t := (commentPreState "inner" docThenInline (declTables { id := Identifier.null, inlineFunctions := [{ name := "f", parameterNames := ["x"], location := ⟨"", 18⟩ }, { name := "g", parameterNames := [], location := ⟨"", 56⟩ }] } []) .root [] 0 69 70 .openBrace (.string "g")))
      (i := (commentIterator "inner" docThenInline 56 64 .function (.string "x"))) rfl rfl (docThenInline_inline_1 (n + 4))]
  show preprocessCodeLoop specHost _ (commentPreState "inner" docThenInline (declTables { id := Identifier.null, inlineFunctions := [{ name := "f", parameterNames := ["x"], location := ⟨"", 18⟩ }, { name := "g", parameterNames := [], location := ⟨"", 56⟩ }] } []) .root [] 0 69 70 .openBrace (.string "g")) = _
  rw [preprocessCodeLoop_openBrace (H := specHost) (s := (commentPreState "inner" docThenInline (declTables { id := Identifier.null, inlineFunctions := [{ name := "f", parameterNames := ["x"], location := ⟨"", 18⟩ }, { name := "g", parameterNames := [], location := ⟨"", 56⟩ }] } []) .root [] 0 69 70 .openBrace (.string "g")))
      (i := (commentIterator "inner" docThenInline 71 72 .closeBrace (.string "g"))) rfl rfl]
  show preprocessCodeLoop specHost _ (commentPreState "inner" docThenInline (declTables { id := Identifier.null, inlineFunctions := [{ name := "f", parameterNames := ["x"], location := ⟨"", 18⟩ }, { name := "g", parameterNames := [], location := ⟨"", 56⟩ }] } []) .root [] 1 71 72 .closeBrace (.string "g")) = _
  rw [preprocessCodeLoop_closeBrace (H := specHost) (s := (commentPreState "inner" docThenInline (declTables { id := Identifier.null, inlineFunctions := [{ name := "f", parameterNames := ["x"], location := ⟨"", 18⟩ }, { name := "g", parameterNames := [], location := ⟨"", 56⟩ }] } []) .root [] 1 71 72 .closeBrace (.string "g")))
      (i := (commentIterator "inner" docThenInline 72 72 .eof (.string "g"))) rfl rfl rfl]
  show preprocessCodeLoop specHost _ (commentPreState "inner" docThenInline (declTables { id := Identifier.null, inlineFunctions := [{ name := "f", parameterNames := ["x"], location := ⟨"", 18⟩ }, { name := "g", parameterNames := [], location := ⟨"", 56⟩ }] } []) .root [] 0 72 72 .eof (.string "g")) = _
  rw [preprocessCodeLoop_eof (H := specHost) (s := (commentPreState "inner" docThenInline (declTables { id := Identifier.null, inlineFunctions := [{ name := "f", parameterNames := ["x"], location := ⟨"", 18⟩ }, { name := "g", parameterNames := [], location := ⟨"", 56⟩ }] } []) .root [] 0 72 72 .eof (.string "g"))) rfl rfl]
  rfl

/-- The pre-pass over `docThenInline` registers `f` and `g`. -/
theorem docThenInline_prepass (n : Nat) :
    preprocessCode specHost (n + 10) docThenInline.toList "" HiseSpecialData.empty =
      .ok (declTables { id := Identifier.null, inlineFunctions := [{ name := "f", parameterNames := ["x"], location := ⟨"", 18⟩ }, { name := "g", parameterNames := [], location := ⟨"", 56⟩ }] } []) :=
  preprocessCode_eq (show docThenInline.toList.isEmpty = false from rfl)
    (show TokenIterator.new specHost docThenInline.toList "" = .ok (commentIterator "doc" docThenInline 11 17 .inline_ .void_) from rfl)
    (docThenInline_loop n)

theorem scenarioOne_loop (n : Nat) :
    preprocessCodeLoop specHost (n + 11) (preState scenarioOne (declTables { id := Identifier.null } []) .root [] 0 0 5 .const_ .void_) =
      .ok ((), (preState scenarioOne (declTables { id := Identifier.null, constObjects := [("PI", .string "undeclared")], constLocations := [⟨"", 10⟩] } []) .root [] 0 32 32 .eof (.string "PI"))) := by
  rw [preprocessCodeLoop_const (H := specHost) (s := (preState scenarioOne (declTables { id := Identifier.null } []) .root [] 0 0 5 .const_ .void_))
      (a := (mkIterator scenarioOne 6 9 .var .void_))
      (b := (mkIterator scenarioOne 10 12 .identifier (.string "PI"))) (m := true) rfl rfl rfl (by decide) (by decide) rfl]
  show preprocessCodeLoop specHost _ (preState scenarioOne (declTables { id := Identifier.null, constLocations := [⟨"", 10⟩] } []) .root ["PI"] 0 10 12 .identifier (.string "PI")) = _
  rw [preprocessCodeLoop_skip (H := specHost) (s := (preState scenarioOne (declTables { id := Identifier.null, constLocations := [⟨"", 10⟩] } []) .root ["PI"] 0 10 12 .identifier (.string "PI")))
      (i := (mkIterator scenarioOne 13 14 .assign (.string "PI"))) (by decide) rfl]
  show preprocessCodeLoop specHost _ (preState scenarioOne (declTables { id := Identifier.null, constLocations := [⟨"", 10⟩] } []) .root ["PI"] 0 13 14 .assign (.string "PI")) = _
  rw [preprocessCodeLoop_skip (H := specHost) (s := (preState scenarioOne (declTables { id := Identifier.null, constLocations := [⟨"", 10⟩] } []) .root ["PI"] 0 13 14 .assign (.string "PI")))
      (i := (mkIterator scenarioOne 15 19 .literal (.double "3.14".toList))) (by decide) rfl]
  show preprocessCodeLoop specHost _ (preState scenarioOne (declTables { id := Identifier.null, constLocations := [⟨"", 10⟩] } []) .root ["PI"] 0 15 19 .literal (.double "3.14".toList)) = _
  rw [preprocessCodeLoop_skip (H := specHost) (s := (preState scenarioOne (declTables { id := Identifier.null, constLocations := [⟨"", 10⟩] } []) .root ["PI"] 0 15 19 .literal (.double "3.14".toList)))
      (i := (mkIterator scenarioOne 19 20 .semicolon (.double "3.14".toList))) (by decide) rfl]
  show preprocessCodeLoop specHost _ (preState scenarioOne (declTables { id := Identifier.null, constLocations := [⟨"", 10⟩] } []) .root ["PI"] 0 19 20 .semicolon (.double "3.14".toList)) = _
  rw [preprocessCodeLoop_skip (H := specHost) (s := (preState scenarioOne (declTables { id := Identifier.null, constLocations := [⟨"", 10⟩] } []) .root ["PI"] 0 19 20 .semicolon (.double "3.14".toList)))
      (i := (mkIterator scenarioOne 21 24 .var (.double "3.14".toList))) (by decide) rfl]
  show preprocessCodeLoop specHost _ (preState scenarioOne (declTables { id := Identifier.null, constLocations := [⟨"", 10⟩] } []) .root ["PI"] 0 21 24 .var (.double "3.14".toList)) = _
  rw [preprocessCodeLoop_skip (H := specHost) (s := (preState scenarioOne (declTables { id := Identifier.null, constLocations := [⟨"", 10⟩] } []) .root ["PI"] 0 21 24 .var (.double "3.14".toList)))
      (i := (mkIterator scenarioOne 25 26 .identifier (.string "x"))) (by decide) rfl]
  show preprocessCodeLoop specHost _ (preState scenarioOne (declTables { id := Identifier.null, constLocations := [⟨"", 10⟩] } []) .root ["PI"] 0 25 26 .identifier (.string "x")) = _
  rw [preprocessCodeLoop_skip (H := specHost) (s := (preState scenarioOne (declTables { id := Identifier.null, constLocations := [⟨"", 10⟩] } []) .root ["PI"] 0 25 26 .identifier (.string "x")))
      (i := (mkIterator scenarioOne 27 28 .assign (.string "x"))) (by decide) rfl]
  show preprocessCodeLoop specHost _ (preState scenarioOne (declTables { id := Identifier.null, constLocations := [⟨"", 10⟩] } []) .root ["PI"] 0 27 28 .assign (.string "x")) = _
  rw [preprocessCodeLoop_skip (H := specHost) (s := (preState scenarioOne (declTables { id := Identifier.null, constLocations := [⟨"", 10⟩] } []) .root ["PI"] 0 27 28 .assign (.string "x")))
      (i := (mkIterator scenarioOne 29 31 .identifier (.string "PI"))) (by decide) rfl]
  show preprocessCodeLoop specHost _ (preState scenarioOne (declTables { id := Identifier.null, constLocations := [⟨"", 10⟩] } []) .root ["PI"] 0 29 31 .identifier (.string "PI")) = _
  rw [preprocessCodeLoop_skip (H := specHost) (s := (preState scenarioOne (declTables { id := Identifier.null, constLocations := [⟨"", 10⟩] } []) .root ["PI"] 0 29 31 .identifier (.string "PI")))
      (i := (mkIterator scenarioOne 31 32 .semicolon (.string "PI"))) (by decide) rfl]
  show preprocessCodeLoop specHost _ (preState scenarioOne (declTables { id := Identifier.null, constLocations := [⟨"", 10⟩] } []) .root ["PI"] 0 31 32 .semicolon (.string "PI")) = _
  rw [preprocessCodeLoop_skip (H := specHost) (s := (preState scenarioOne (declTables { id := Identifier.null, constLocations := [⟨"", 10⟩] } []) .root ["PI"] 0 31 32 .semicolon (.string "PI")))
      (i := (mkIterator scenarioOne 32 32 .eof (.string "PI"))) (by decide) rfl]
  show preprocessCodeLoop specHost _ (preState scenarioOne (declTables { id := Identifier.null, constLocations := [⟨"", 10⟩] } []) .root ["PI"] 0 32 32 .eof (.string "PI")) = _
  rw [preprocessCodeLoop_eof (H := specHost) (s := (preState scenarioOne (declTables { id := Identifier.null, constLocations := [⟨"", 10⟩] } []) .root ["PI"] 0 32 32 .eof (.string "PI"))) rfl rfl]
  rfl

/-- The pre-pass over `scenarioOne` registers the constant `PI`. -/
theorem scenarioOne_prepass (n : Nat) :
    preprocessCode specHost (n + 12) scenarioOne.toList "" HiseSpecialData.empty =
      .ok (declTables { id := Identifier.null, constObjects := [("PI", .string "undeclared")], constLocations := [⟨"", 10⟩] } []) :=
  preprocessCode_eq (show scenarioOne.toList.isEmpty = false from rfl)
    (show TokenIterator.new specHost scenarioOne.toList "" = .ok (mkIterator scenarioOne 0 5 .const_ .void_) from rfl)
    (scenarioOne_loop n)

/-! ## Declaration statements -/

theorem checkIfExistsInOtherStorage_free {σ : Type} {d : HiseSpecialData}
    {k : VariableStorageType} {name : Identifier} {s : σ}
    (h : d.getExistingVariableStorage name = .Undeclared ∨ d.getExistingVariableStorage name = k) :
    d.checkIfExistsInOtherStorage k name s = .ok ((), s) := by
  unfold HiseSpecialData.checkIfExistsInOtherStorage
  simp only [h, if_true]
  rfl

theorem parseStatement_const {H : Host} {n : Nat} {s t : ExpressionTreeBuilder}
    (h : s.currentType = .const_) (hs : skip H s = .ok ((), t)) :
    parseStatement H (n + 1) s = parseConstVar H n t.currentNamespace t := by
  rw [parseStatement]
  simp only [StM.bind_apply, StM.get_apply, h, matchIf_of_ne, ne_eq, reduceCtorEq,
    not_false_eq_true, if_false, Bool.false_eq_true, matchIf_of_eq h hs, if_true]

theorem parseStatement_var {H : Host} {n : Nat} {s t : ExpressionTreeBuilder}
    (h : s.currentType = .var) (hs : skip H s = .ok ((), t)) :
    parseStatement H (n + 1) s = parseVar H n t := by
  rw [parseStatement]
  simp only [StM.bind_apply, StM.get_apply, h, matchIf_of_ne, ne_eq, reduceCtorEq,
    not_false_eq_true, if_false, Bool.false_eq_true, matchIf_of_eq h hs, if_true]

/-- The statement `;` is an empty statement. -/
theorem parses_parseStatement_semicolon {H : Host} {s t : ExpressionTreeBuilder}
    (h : s.currentType = .semicolon) (hs : skip H s = .ok ((), t)) :
    Parses (parseStatement H) s .empty t := by
  refine ⟨1, ?_⟩
  rw [parseStatement]
  simp only [StM.bind_apply, StM.get_apply, h, matchIf_of_ne, ne_eq, reduceCtorEq,
    not_false_eq_true, if_false, Bool.false_eq_true, matchIf_of_eq h hs, if_true, StM.pure_apply]

/-- The declaration `const var name = e` read by `parseConstVar`: the token
behind the initialiser is left as the current one. -/
theorem parses_parseConstVar {H : Host} {ns : NsPtr} {s a b c d : ExpressionTreeBuilder}
    {e : Expression}
    (hv : s.currentType = .var) (hs : skip H s = .ok ((), a))
    (hid : a.currentType = .identifier) (ha : skip H a = .ok ((), b))
    (hfree : b.hiseSpecialData.getExistingVariableStorage a.currentValue.toString = .Undeclared ∨
      b.hiseSpecialData.getExistingVariableStorage a.currentValue.toString = .ConstVariables)
    (hasg : b.currentType = .assign) (hb : skip H b = .ok ((), c))
    (he : Parses (parseExpression H) c e d) (hcomma : d.currentType ≠ .comma) :
    Parses (fun n => parseConstVar H n ns) s
      (.ConstVarStatement a.currentValue.toString e (some ns))
      { d with hiseSpecialData := d.hiseSpecialData.modifyNs ns (fun x =>
          { x with constObjects :=
              x.constObjects.set a.currentValue.toString (.string "uninitialised") }) } := by
  obtain ⟨n, he⟩ := he
  refine ⟨n + 1, ?_⟩
  show parseConstVar H (n + 1) ns s = _
  rw [parseConstVar]
  simp only [StM.bind_apply, StM.get_apply, matchIf_of_eq hv hs,
    parseIdentifier_of_identifier hid ha, checkIfExistsInOtherStorage_free hfree,
    matchIf_of_eq hasg hb, if_true, he, matchIf_of_ne hcomma, Bool.false_eq_true, if_false,
    modifyData, StM.modify_apply, StM.pure_apply]

/-- The declaration `name = e;` read by `parseVar`. -/
theorem parses_parseVar {H : Host} {s b c d u : ExpressionTreeBuilder} {e : Expression}
    (hid : s.currentType = .identifier) (hs : skip H s = .ok ((), b))
    (hfree : b.hiseSpecialData.getExistingVariableStorage s.currentValue.toString = .Undeclared ∨
      b.hiseSpecialData.getExistingVariableStorage s.currentValue.toString = .RootScope)
    (hasg : b.currentType = .assign) (hb : skip H b = .ok ((), c))
    (he : Parses (parseExpression H) c e d) (hsemi : d.currentType = .semicolon)
    (hd : skip H d = .ok ((), u)) :
    Parses (parseVar H) s (.VarStatement s.currentValue.toString e) u := by
  obtain ⟨n, he⟩ := he
  refine ⟨n + 1, ?_⟩
  rw [parseVar]
  simp only [StM.bind_apply, StM.get_apply,
    parseIdentifier_of_identifier hid hs, checkIfExistsInOtherStorage_free hfree,
    matchIf_of_eq hasg hb, if_true, he,
    matchIf_of_ne (show d.currentType ≠ .comma by rw [hsemi]; decide), Bool.false_eq_true,
    if_false, match_of_eq hsemi, hd, StM.pure_apply]


theorem parses_parseStatement_const {H : Host} {s t u : ExpressionTreeBuilder} {st : Statement}
    (h : s.currentType = .const_) (hs : skip H s = .ok ((), t))
    (hc : Parses (fun n => parseConstVar H n t.currentNamespace) t st u) :
    Parses (parseStatement H) s st u := by
  obtain ⟨n, hc⟩ := hc
  exact ⟨n + 1, by rw [parseStatement_const h hs]; exact hc⟩

theorem parses_parseStatement_var {H : Host} {s t u : ExpressionTreeBuilder} {st : Statement}
    (h : s.currentType = .var) (hs : skip H s = .ok ((), t))
    (hc : Parses (parseVar H) t st u) :
    Parses (parseStatement H) s st u := by
  obtain ⟨n, hc⟩ := hc
  exact ⟨n + 1, by rw [parseStatement_var h hs]; exact hc⟩

theorem parseStatement_local {H : Host} {n : Nat} {s t : ExpressionTreeBuilder}
    (h : s.currentType = .local_) (hs : skip H s = .ok ((), t)) :
    parseStatement H (n + 1) s = parseLocalAssignment H n t := by
  rw [parseStatement]
  simp only [StM.bind_apply, StM.get_apply, h, matchIf_of_ne, ne_eq, reduceCtorEq,
    not_false_eq_true, if_false, Bool.false_eq_true, matchIf_of_eq h hs, if_true]

/-- The statement `local name;` outside of inline functions and callbacks. -/
theorem parseLocalAssignment_outside {H : Host} {n : Nat} {s : ExpressionTreeBuilder}
    (hf : s.currentlyParsingInlineFunction = false)
    (hc : s.currentlyParsedCallback = Identifier.null) :
    parseLocalAssignment H (n + 1) s =
      .error "Cannot define local variables outside of inline functions or callbacks." := by
  rw [parseLocalAssignment]
  simp only [StM.bind_apply, StM.get_apply, hf, Bool.false_eq_true, if_false, hc, ne_eq,
    not_true_eq_false]
  rfl

/-- The statement `local name;` inside an inline function: the name goes to the
local properties of the inline function registered last in the namespace. -/
theorem parseLocalAssignment_inline {H : Host} {n : Nat} {s : ExpressionTreeBuilder}
    {b c : TokenIterator}
    (hf : s.currentlyParsingInlineFunction = true)
    (hne : (s.hiseSpecialData.ns s.currentNamespace).inlineFunctions ≠ [])
    (hid : s.currentType = .identifier)
    (ha : TokenIterator.skip H s.toTokenIterator = .ok ((), b))
    (hfree : s.hiseSpecialData.getExistingVariableStorage s.currentValue.toString = .Undeclared ∨
      s.hiseSpecialData.getExistingVariableStorage s.currentValue.toString = .LocalScope)
    (hsemi : b.currentType = .semicolon) (hb : TokenIterator.skip H b = .ok ((), c)) :
    parseLocalAssignment H (n + 1) s = .ok
      (.LocalVarStatement
        (some ⟨s.currentNamespace,
          (s.hiseSpecialData.ns s.currentNamespace).inlineFunctions.length - 1⟩)
        s.currentValue.toString .empty,
       { s with
         toTokenIterator := c
         hiseSpecialData := s.hiseSpecialData.modifyInlineFunction
           ⟨s.currentNamespace,
             (s.hiseSpecialData.ns s.currentNamespace).inlineFunctions.length - 1⟩
           (fun o => { o with
             localProperties := o.localProperties.set s.currentValue.toString .undefined }) }) := by
  have he : (s.hiseSpecialData.ns s.currentNamespace).inlineFunctions.isEmpty = false := by
    cases hq : (s.hiseSpecialData.ns s.currentNamespace).inlineFunctions with
    | nil => exact absurd hq hne
    | cons x xs => rfl
  rw [parseLocalAssignment]
  simp only [StM.bind_apply, StM.get_apply, hf, if_true, he, Bool.false_eq_true, if_false,
    parseIdentifier_of_identifier hid (skip_of_iterator ha),
    checkIfExistsInOtherStorage_free hfree, modifyData, StM.modify_apply,
    matchIf_of_ne (show ({ s with toTokenIterator := b, hiseSpecialData := _ } :
      ExpressionTreeBuilder).currentType ≠ .assign by
      show b.currentType ≠ .assign
      rw [hsemi]; decide),
    StM.pure_apply]
  simp only [matchIf, match_, liftIt, TokenIterator.matchIf, TokenIterator.match_, StM.bind_apply,
    StM.get_apply, hsemi, reduceCtorEq, if_false, StM.pure_apply, Bool.false_eq_true, ne_eq,
    not_true_eq_false, hb]


/-- The statement `local name;` inside an inline function of a namespace
without inline functions. -/
theorem parseLocalAssignment_inline_null {H : Host} {n : Nat} {s : ExpressionTreeBuilder}
    {b : TokenIterator}
    (hf : s.currentlyParsingInlineFunction = true)
    (hne : (s.hiseSpecialData.ns s.currentNamespace).inlineFunctions = [])
    (hid : s.currentType = .identifier)
    (ha : TokenIterator.skip H s.toTokenIterator = .ok ((), b))
    (hfree : s.hiseSpecialData.getExistingVariableStorage s.currentValue.toString = .Undeclared ∨
      s.hiseSpecialData.getExistingVariableStorage s.currentValue.toString = .LocalScope) :
    parseLocalAssignment H (n + 1) s = .error nullPointer := by
  rw [parseLocalAssignment]
  simp only [StM.bind_apply, StM.get_apply, hf, if_true, hne, List.isEmpty_nil,
    parseIdentifier_of_identifier hid (skip_of_iterator ha),
    checkIfExistsInOtherStorage_free hfree]
  rfl

/-- The statement `local name;` inside the body of a callback: the name goes to
the local properties of the callback. -/
theorem parseLocalAssignment_callback {H : Host} {n : Nat} {s : ExpressionTreeBuilder}
    {b c : TokenIterator} {cb : Callback}
    (hf : s.currentlyParsingInlineFunction = false)
    (hc : s.currentlyParsedCallback ≠ Identifier.null)
    (hcb : s.hiseSpecialData.getCallback s.currentlyParsedCallback = some cb)
    (hid : s.currentType = .identifier)
    (ha : TokenIterator.skip H s.toTokenIterator = .ok ((), b))
    (hfree : s.hiseSpecialData.getExistingVariableStorage s.currentValue.toString = .Undeclared ∨
      s.hiseSpecialData.getExistingVariableStorage s.currentValue.toString = .LocalScope)
    (hsemi : b.currentType = .semicolon) (hb : TokenIterator.skip H b = .ok ((), c)) :
    parseLocalAssignment H (n + 1) s = .ok
      (.CallbackLocalStatement s.currentlyParsedCallback s.currentValue.toString .empty,
       { s with
         toTokenIterator := c
         hiseSpecialData := s.hiseSpecialData.modifyCallback s.currentlyParsedCallback
           (fun o => { o with
             localProperties := o.localProperties.set s.currentValue.toString .void_ }) }) := by
  rw [parseLocalAssignment]
  simp only [StM.bind_apply, StM.get_apply, hf, Bool.false_eq_true, if_false, ne_eq, hc,
    not_false_eq_true, if_true,
    parseIdentifier_of_identifier hid (skip_of_iterator ha),
    checkIfExistsInOtherStorage_free hfree, hcb, modifyData, StM.modify_apply]
  simp only [matchIf, match_, liftIt, TokenIterator.matchIf, TokenIterator.match_, StM.bind_apply,
    StM.get_apply, hsemi, reduceCtorEq, if_false, StM.pure_apply, Bool.false_eq_true, ne_eq,
    not_true_eq_false, hb]

/-- The statement `local name;` inside the body of a callback that the tables
do not hold. -/
theorem parseLocalAssignment_callback_null {H : Host} {n : Nat} {s : ExpressionTreeBuilder}
    {b : TokenIterator}
    (hf : s.currentlyParsingInlineFunction = false)
    (hc : s.currentlyParsedCallback ≠ Identifier.null)
    (hcb : s.hiseSpecialData.getCallback s.currentlyParsedCallback = none)
    (hid : s.currentType = .identifier)
    (ha : TokenIterator.skip H s.toTokenIterator = .ok ((), b))
    (hfree : s.hiseSpecialData.getExistingVariableStorage s.currentValue.toString = .Undeclared ∨
      s.hiseSpecialData.getExistingVariableStorage s.currentValue.toString = .LocalScope) :
    parseLocalAssignment H (n + 1) s = .error nullPointer := by
  rw [parseLocalAssignment]
  simp only [StM.bind_apply, StM.get_apply, hf, Bool.false_eq_true, if_false, ne_eq, hc,
    not_false_eq_true, if_true,
    parseIdentifier_of_identifier hid (skip_of_iterator ha),
    checkIfExistsInOtherStorage_free hfree, hcb]
  rfl

/-! ## Comments -/

/-- The first `*/` of a text that has none before a given one. -/
theorem firstOccurrence_closing (rest : List Char) :
    ∀ xs : List Char, ¬ "*/".toList <:+: xs →
      upToFirstOccurrenceOf "*/".toList (xs ++ ("*/".toList ++ rest)) = xs ∧
      findSubstring "*/".toList (xs ++ ("*/".toList ++ rest)) = "*/".toList ++ rest := by
  intro xs
  induction xs with
  | nil =>
    intro _
    constructor <;>
      simp [upToFirstOccurrenceOf, findSubstring, String.toList, List.isPrefixOf]
  | cons x xs ih =>
    intro h
    have hxs : ¬ "*/".toList <:+: xs := fun e => h (List.infix_cons e)
    have hp : List.isPrefixOf "*/".toList (x :: (xs ++ ("*/".toList ++ rest))) = false := by
      rw [Bool.eq_false_iff]
      intro e
      have e' : x = '*' ∧ peek (xs ++ ("*/".toList ++ rest)) = '/' := by
        cases xs with
        | nil => simp [List.isPrefixOf, String.toList] at e
        | cons y ys =>
          simp only [String.toList, List.isPrefixOf, List.cons_append, Bool.and_eq_true,
            beq_iff_eq] at e
          exact ⟨e.1.symm, by simp [peek, ← e.2.1]⟩
      cases xs with
      | nil => simp [peek, String.toList] at e'
      | cons y ys =>
        apply h
        have hy : y = '/' := by simpa [peek] using e'.2
        rw [e'.1, hy]
        exact ⟨[], ys, rfl⟩
    obtain ⟨i1, i2⟩ := ih hxs
    constructor
    · show upToFirstOccurrenceOf "*/".toList (x :: (xs ++ ("*/".toList ++ rest))) = _
      rw [upToFirstOccurrenceOf, hp]
      simp only [Bool.false_eq_true, if_false, i1]
    · show findSubstring "*/".toList (x :: (xs ++ ("*/".toList ++ rest))) = _
      rw [findSubstring, hp]
      simp only [Bool.false_eq_true, if_false, i2]


theorem fromFirstOccurrenceOf_docStart (c : List Char) :
    fromFirstOccurrenceOf "/**".toList ("/**".toList ++ c) = c := by
  simp [fromFirstOccurrenceOf, String.toList, List.isPrefixOf]

theorem not_infix_docStart {c : List Char} (h : ¬ "*/".toList <:+: '*' :: c) :
    ¬ "*/".toList <:+: "/**".toList ++ c := by
  intro e
  have e1 : "*/".toList <:+: '/' :: '*' :: '*' :: c := e
  rcases List.infix_cons_iff.mp e1 with e2 | e2
  · simp [String.toList] at e2
  · rcases List.infix_cons_iff.mp e2 with e3 | e3
    · simp [String.toList] at e3
    · exact h e3

/-- A round of the comment loop at text that starts no comment. -/
theorem skipWhitespaceAndCommentsLoop_none {n : Nat} {it : TokenIterator}
    (h : peek (it.p.dropWhile isWhitespace) ≠ '/') :
    skipWhitespaceAndCommentsLoop (n + 1) it =
      .ok ((), { it with p := it.p.dropWhile isWhitespace }) := by
  rw [skipWhitespaceAndCommentsLoop]
  simp only [h, if_false]

/-- The lexer at a doc comment `/** c */` that is followed by no other
comment: the last comment is the trimmed text `c`. -/
theorem skipWhitespaceAndComments_docComment {it : TokenIterator} {c rest : List Char}
    (hp : it.p.dropWhile isWhitespace = docComment c rest)
    (hc : ¬ "*/".toList <:+: '*' :: c)
    (hr : peek (rest.dropWhile isWhitespace) ≠ '/') :
    skipWhitespaceAndComments it = .ok ((), { it with
      location := { it.location with location := docComment c rest }
      lastComment := String.mk (trim c)
      p := rest.dropWhile isWhitespace }) := by
  have hlen : ∃ m, it.p.length = m + 1 := by
    cases hq : it.p with
    | nil => rw [hq] at hp; simp [docComment, String.toList] at hp
    | cons x xs => exact ⟨xs.length, rfl⟩
  obtain ⟨m, hm⟩ := hlen
  have h1 := (firstOccurrence_closing rest ("/**".toList ++ c) (not_infix_docStart hc)).1
  have h2 := (firstOccurrence_closing rest ('*' :: c) hc).2
  have hd : docComment c rest = ("/**".toList ++ c) ++ ("*/".toList ++ rest) := by
    simp [docComment]
  have hdrop : (docComment c rest).drop 2 = ('*' :: c) ++ ("*/".toList ++ rest) := by
    simp [docComment, String.toList]
  unfold skipWhitespaceAndComments
  rw [hm, skipWhitespaceAndCommentsLoop]
  simp only [hp]
  rw [if_pos (by simp [docComment, String.toList, peek]),
    if_neg (by simp [docComment, String.toList, peek]),
    if_pos (by simp [docComment, String.toList, peek])]
  simp only [hdrop, h2]
  rw [hd, h1, fromFirstOccurrenceOf_docStart, ← hd]
  rw [if_neg (by simp [String.toList])]
  rw [skipWhitespaceAndCommentsLoop_none (by
    show peek ((("*/".toList ++ rest).drop 2).dropWhile isWhitespace) ≠ '/'
    simpa [String.toList] using hr)]
  simp [String.toList]


theorem KeepsComment.bind {α β : Type} {m : StM TokenIterator α} {f : α → StM TokenIterator β}
    (hm : KeepsComment m) (hf : ∀ a, KeepsComment (f a)) : KeepsComment (m >>= f) := by
  intro it b it' h
  rw [StM.bind_apply] at h
  cases hq : m it with
  | ok r =>
    obtain ⟨a, it1⟩ := r
    rw [hq] at h
    have h1 := hm it a it1 hq
    have h2 := hf a it1 b it' h
    exact ⟨h2.1.trans h1.1, h2.2.trans h1.2⟩
  | error e => rw [hq] at h; cases h
  | outOfFuel => rw [hq] at h; cases h

theorem KeepsComment.pure {α : Type} (a : α) : KeepsComment (pure a : StM TokenIterator α) := by
  intro it b it' h
  rw [StM.pure_apply] at h
  cases h
  exact ⟨rfl, rfl⟩

theorem KeepsComment.throw {α : Type} (msg : String) :
    KeepsComment (StM.throw msg : StM TokenIterator α) := by
  intro it b it' h
  cases h

theorem KeepsComment.ite {α : Type} {c : Prop} [Decidable c] {m n : StM TokenIterator α}
    (hm : KeepsComment m) (hn : KeepsComment n) : KeepsComment (if c then m else n) := by
  split
  · exact hm
  · exact hn

theorem keepsComment_parseHexLiteral : KeepsComment parseHexLiteral := by
  intro it a it' h
  unfold parseHexLiteral at h
  split at h
  · cases h; exact ⟨rfl, rfl⟩
  · simp only at h
    split at h <;> (cases h; exact ⟨rfl, rfl⟩)

theorem parseFloatLiteral_shape (it : TokenIterator) :
    parseFloatLiteral it = .ok (false, it) ∨
    ∃ v q, parseFloatLiteral it = .ok (true, { it with currentValue := v, p := q }) := by
  unfold parseFloatLiteral
  simp only []
  split_ifs <;> first | exact Or.inl rfl | exact Or.inr ⟨_, _, rfl⟩

theorem keepsComment_parseFloatLiteral : KeepsComment parseFloatLiteral := by
  intro it a it' h
  rcases parseFloatLiteral_shape it with e | ⟨v, q, e⟩
  · rw [e] at h; cases h; exact ⟨rfl, rfl⟩
  · rw [e] at h; cases h; exact ⟨rfl, rfl⟩

theorem keepsComment_parseOctalLiteral : KeepsComment parseOctalLiteral := by
  intro it a it' h
  unfold parseOctalLiteral at h
  simp only at h
  split at h
  · cases h; exact ⟨rfl, rfl⟩
  · split at h
    · cases h
    · cases h; exact ⟨rfl, rfl⟩

theorem keepsComment_parseDecimalLiteral : KeepsComment parseDecimalLiteral := by
  intro it a it' h
  unfold parseDecimalLiteral at h
  cases h
  exact ⟨rfl, rfl⟩

theorem keepsComment_parseStringLiteral (q : Char) : KeepsComment (parseStringLiteral q) := by
  intro it a it' h
  unfold parseStringLiteral at h
  split at h
  · cases h; exact ⟨rfl, rfl⟩
  · split at h
    · cases h
    · cases h; exact ⟨rfl, rfl⟩

theorem keepsComment_matchOperatorOrEof (H : Host) : KeepsComment (matchOperatorOrEof H) := by
  intro it a it' h
  unfold matchOperatorOrEof at h
  split at h
  · cases h; exact ⟨rfl, rfl⟩
  · split at h
    · cases h
    · cases h; exact ⟨rfl, rfl⟩

/-- The token reader changes neither the last comment nor the location. -/
theorem keepsComment_matchNextToken (H : Host) : KeepsComment (matchNextToken H) := by
  intro it t it' h
  unfold matchNextToken at h
  split at h
  · simp only at h
    split at h <;> (cases h; exact ⟨rfl, rfl⟩)
  · split at h
    · exact (KeepsComment.bind keepsComment_parseHexLiteral fun a =>
        KeepsComment.ite (KeepsComment.pure _)
          (KeepsComment.bind keepsComment_parseFloatLiteral fun a =>
            KeepsComment.ite (KeepsComment.pure _)
              (KeepsComment.bind keepsComment_parseOctalLiteral fun a =>
                KeepsComment.ite (KeepsComment.pure _)
                  (KeepsComment.bind keepsComment_parseDecimalLiteral fun a =>
                    KeepsComment.ite (KeepsComment.pure _) (KeepsComment.throw _))))) it t it' h
    · exact (KeepsComment.bind (keepsComment_parseStringLiteral _) fun a =>
        KeepsComment.ite (KeepsComment.pure _)
          (KeepsComment.bind
            (KeepsComment.ite keepsComment_parseFloatLiteral (KeepsComment.pure _)) fun a =>
            KeepsComment.ite (KeepsComment.pure _) (keepsComment_matchOperatorOrEof H))) it t it' h

/-- A token behind which no comment starts is read without a change of the
last comment. -/
theorem skip_lastComment {H : Host} {it it' : TokenIterator}
    (hc : peek (it.p.dropWhile isWhitespace) ≠ '/')
    (h : TokenIterator.skip H it = .ok ((), it')) : it'.lastComment = it.lastComment := by
  obtain ⟨m, hm⟩ : ∃ m, it.p.length + 1 = m + 1 := ⟨_, rfl⟩
  unfold TokenIterator.skip at h
  simp only [StM.bind_apply, skipWhitespaceAndComments, skipWhitespaceAndCommentsLoop_none hc,
    StM.modify_apply] at h
  cases hq : matchNextToken H
      { it with
        location := { it.location with location := it.p.dropWhile isWhitespace }
        p := it.p.dropWhile isWhitespace } with
  | ok r =>
    obtain ⟨t, it1⟩ := r
    rw [hq] at h
    cases h
    exact (keepsComment_matchNextToken H _ _ _ hq).1
  | error e => rw [hq] at h; cases h
  | outOfFuel => rw [hq] at h; cases h

/-! ## C21 -/

/-- C21, divergence: on `register_var a; register_var a;` the pre-pass returns
without error with two register locations and one used register in the root
namespace: the second declaration finds the slot of `a` in the register file
and takes no new one, while its location is appended. The `jassert` of the
pre-pass branch of `parseRegisterVar` does not hold after the second
declaration. -/
theorem C21_register_tables_differ_in_size :
    ∃ d : HiseSpecialData,
      preprocessCode specHost 8 registerTwice.toList "" HiseSpecialData.empty = .ok d ∧
      d.registerLocations.length = 2 ∧ d.varRegister.getNumUsedRegisters = 1 :=
  ⟨_, registerTwice_prepass 0, rfl, rfl⟩

/-! ## C22 -/

/-- C22, divergence: `const var a = 1; namespace N { } const var a = 2;` holds
two `const` declarations at root level and passes the pre-pass, and the constant
pool of the root namespace holds one constant afterwards: the names of the
duplicate test are forgotten at the `namespace` keyword, so the second `a` is
accepted and overwrites the first. -/
theorem C22_root_pool_count_differs :
    ∃ d : HiseSpecialData,
      preprocessCode specHost 16 constAroundNamespace.toList "" HiseSpecialData.empty = .ok d ∧
      d.constObjects = [("a", .string "undeclared")] ∧
      d.namespaces.map (fun x => x.constObjects) = [[]] :=
  ⟨_, constAroundNamespace_prepass 0, rfl, rfl⟩

/-! ## C23 -/

/-- C23, divergence: `inlineAfterExtern` declares the inline function `f` in the
namespace `A` behind an `extern` block, and passes the pre-pass with no inline
function registered, neither in the root namespace nor in `A`. The loop that
skips the `extern` block stops only at a `}` read at brace depth 1, which inside
a namespace is the `}` of the namespace, so the header of `f` is skipped with
the block. -/
theorem C23_inline_function_behind_extern_is_not_registered :
    ∃ d : HiseSpecialData,
      preprocessCode specHost 24 inlineAfterExtern.toList "" HiseSpecialData.empty = .ok d ∧
      d.inlineFunctions = [] ∧
      d.namespaces.map (fun x => (x.id, x.inlineFunctions)) = [("A", [])] :=
  ⟨_, inlineAfterExtern_prepass 0, rfl, rfl⟩

/-! ## C24 -/

/-- Counterexample to C24: `08.5` begins with `0` and its leading digits hold
an 8, and the lexer yields a double literal for the whole text instead of the
error. -/
theorem C24_leading_zero_double_counterexample :
    peek "08.5".toList = '0' ∧ hasDecimalDigit "08.5".toList = true ∧
    matchNextToken specHost (mkIterator "08.5" 0 0 .eof .void_) =
      .ok (.literal, mkIterator "08.5" 0 4 .eof (.double "08.5".toList)) :=
  ⟨rfl, by decide, rfl⟩

/-- C24, amended: at a number that begins with `0` and whose leading digits
hold an 8 or a 9, the lexer fails with 'Decimal digit in octal constant'
exactly when the number is not written as a double, that is when its mantissa
is not followed by a well-formed exponent and either holds no `.` or is
followed by `e` or `E`. The float reader runs before the octal reader: a
number written as a double (`08.5`, `09e1`) is a double literal that consumes
mantissa and exponent. -/
theorem C24_octal_digit_error (H : Host) (it : TokenIterator) (h0 : peek it.p = '0')
    (h89 : hasDecimalDigit it.p = true) :
    (matchNextToken H it = .error "Decimal digit in octal constant" ↔
      isFloatLiteral it.p = false) ∧
    (isFloatLiteral it.p = true →
      matchNextToken H it = .ok (.literal, { it with
        currentValue := .double (it.p.take (it.p.length - (afterFloat it.p).length))
        p := afterFloat it.p })) := by
  have hd : isDigit (peek it.p) = true := by rw [h0]; decide
  have hfl := fun hf => matchNextToken_float (H := H) hd (no_hex_prefix_of_hasDecimalDigit h0 h89) hf
  refine ⟨⟨fun he => ?_, fun hf => matchNextToken_octal_error h0 h89 hf⟩, hfl⟩
  cases hf : isFloatLiteral it.p with
  | false => rfl
  | true =>
    rw [hfl hf] at he
    cases he

/-- Witness for the amended C24: `0179` is no double and is rejected; `09e1`
is a double. -/
theorem C24_octal_digit_error_witness :
    matchNextToken specHost (mkIterator "0179" 0 0 .eof .void_) =
      .error "Decimal digit in octal constant" ∧
    matchNextToken specHost (mkIterator "09e1" 0 0 .eof .void_) =
      .ok (.literal, mkIterator "09e1" 0 4 .eof (.double "09e1".toList)) :=
  ⟨(C24_octal_digit_error specHost (mkIterator "0179" 0 0 .eof .void_) rfl (by decide)).1.mpr
    (by decide),
   (C24_octal_digit_error specHost (mkIterator "09e1" 0 0 .eof .void_) rfl (by decide)).2
    (by decide)⟩

/-! ## C25 -/

/-- Counterexample to C25: the numeric text of `1.5ex` holds a `.`, and the
lexer yields the integer literal 1 and stops before the `.`. -/
theorem C25_malformed_exponent_counterexample :
    isDigit (peek "1.5ex".toList) = true ∧ hasPoint "1.5ex".toList = true ∧
    matchNextToken specHost (mkIterator "1.5ex" 0 0 .eof .void_) =
      .ok (.literal, mkIterator "1.5ex" 0 1 .eof (.int64 1)) :=
  ⟨by decide, by decide, rfl⟩

/-- C25, amended: a number is written as a double when its mantissa (digits, an
optional `.` and digits) is followed by a well-formed exponent, or holds a `.`
and is not followed by `e` or `E`; that is, when it holds a `.` or a well-formed
exponent and its mantissa is not followed by a malformed one. At a digit that
starts no hex prefix the lexer yields a double literal exactly for these
numbers and consumes mantissa and exponent; for the others it yields an integer
literal that consumes the leading digits only, read as decimal when the first
digit is not 0 and as octal when it is (an error when the digits hold an 8 or a
9). At `0x` or `0X` without a hex digit behind it the lexer yields the integer
literal 0 and consumes the `0`. At a `.` before a digit it yields a double
literal for a number written as a double and goes on to the operator table
otherwise. -/
theorem C25_float_qualification (H : Host) (it : TokenIterator) :
    (isFloatLiteral it.p = true ↔
      (hasPoint it.p = true ∨ wellFormedExponent (afterMantissa it.p) = true) ∧
      ¬ (atExponentLetter (afterMantissa it.p) = true ∧
        wellFormedExponent (afterMantissa it.p) = false)) ∧
    (isDigit (peek it.p) = true →
      ¬ (peek it.p = '0' ∧ (peek (it.p.drop 1) = 'x' ∨ peek (it.p.drop 1) = 'X')) →
      (isFloatLiteral it.p = true →
        matchNextToken H it = .ok (.literal, { it with
          currentValue := .double (it.p.take (it.p.length - (afterFloat it.p).length))
          p := afterFloat it.p })) ∧
      (isFloatLiteral it.p = false → peek it.p ≠ '0' →
        matchNextToken H it = .ok (.literal, { it with
          currentValue := .int64 (parseDecimalLiteralLoop it.p 0).1
          p := it.p.dropWhile isDigit })) ∧
      (isFloatLiteral it.p = false → peek it.p = '0' → hasDecimalDigit it.p = false →
        ∃ w, matchNextToken H it = .ok (.literal, { it with
          currentValue := .int64 w, p := it.p.dropWhile isDigit })) ∧
      (isFloatLiteral it.p = false → peek it.p = '0' → hasDecimalDigit it.p = true →
        matchNextToken H it = .error "Decimal digit in octal constant")) ∧
    (peek it.p = '0' → (peek (it.p.drop 1) = 'x' ∨ peek (it.p.drop 1) = 'X') →
      getHexDigitValue (peek (it.p.drop 2)) < 0 →
      matchNextToken H it =
        .ok (.literal, { it with currentValue := .int64 0, p := it.p.drop 1 })) ∧
    (peek it.p = '.' → isDigit (peek (it.p.drop 1)) = true →
      (isFloatLiteral it.p = true →
        matchNextToken H it = .ok (.literal, { it with
          currentValue := .double (it.p.take (it.p.length - (afterFloat it.p).length))
          p := afterFloat it.p })) ∧
      (isFloatLiteral it.p = false → matchNextToken H it = matchOperatorOrEof H it)) := by
  refine ⟨?_, fun hd hx => ⟨fun hf => matchNextToken_float hd hx hf,
    fun hf h0 => matchNextToken_decimal_run hd h0 hf,
    fun hf h0 h89 => matchNextToken_octal_ok h0 (fun e => hx ⟨h0, e⟩) h89 hf,
    fun hf h0 h89 => matchNextToken_octal_error h0 h89 hf⟩,
    fun h0 hx hv => matchNextToken_hex_prefix h0 hx hv,
    fun hp hd => ⟨fun hf => ?_, fun hf => ?_⟩⟩
  · unfold isFloatLiteral wellFormedExponent
    cases hasPoint it.p <;> cases atExponentLetter (afterMantissa it.p) <;>
      cases isDigit (peek (exponentDigits (afterMantissa it.p))) <;> simp
  · rw [matchNextToken_point hp hd, hf]
    rfl
  · rw [matchNextToken_point hp hd, hf]
    rfl

/-- Witness for the amended C25: `2E-3` is a double literal, `1e;` is the
integer 1 before the identifier `e`, and `.5` is a double literal. -/
theorem C25_float_qualification_witness :
    matchNextToken specHost (mkIterator "2E-3" 0 0 .eof .void_) =
      .ok (.literal, mkIterator "2E-3" 0 4 .eof (.double "2E-3".toList)) ∧
    matchNextToken specHost (mkIterator "1e;" 0 0 .eof .void_) =
      .ok (.literal, mkIterator "1e;" 0 1 .eof (.int64 1)) ∧
    matchNextToken specHost (mkIterator ".5" 0 0 .eof .void_) =
      .ok (.literal, mkIterator ".5" 0 2 .eof (.double ".5".toList)) :=
  ⟨((C25_float_qualification specHost (mkIterator "2E-3" 0 0 .eof .void_)).2.1 (by decide)
      (by decide)).1 (by decide),
   ((C25_float_qualification specHost (mkIterator "1e;" 0 0 .eof .void_)).2.1 (by decide)
      (by decide)).2.1 (by decide) (by decide),
   ((C25_float_qualification specHost (mkIterator ".5" 0 0 .eof .void_)).2.2.2 rfl
      (by decide)).1 (by decide)⟩

/-! ## C26 -/

/-- C26: at a letter or `_` the lexer reads the maximal run of letters, digits
and `_`. When the run is the spelling of a keyword of the table, the token is
that keyword (the first row with this spelling); when it is the spelling of no
keyword, the token is `identifier` and its value is the whole run. In both cases
the cursor is left right after the run. -/
theorem C26_identifier_keyword_rule (H : Host) (it : TokenIterator)
    (h : isIdentifierStart (peek it.p) = true) :
    (∀ k, H.keywords.find? (fun k => k.1 = it.p.takeWhile isIdentifierBody) = some k →
      k.1 = it.p.takeWhile isIdentifierBody ∧
      matchNextToken H it = .ok (k.2, { it with p := it.p.dropWhile isIdentifierBody })) ∧
    ((∀ k ∈ H.keywords, k.1 ≠ it.p.takeWhile isIdentifierBody) →
      matchNextToken H it = .ok (.identifier,
        { it with
          currentValue := .string (String.mk (it.p.takeWhile isIdentifierBody))
          p := it.p.dropWhile isIdentifierBody })) := by
  obtain ⟨e1, e2⟩ := takeWhile_identifier h
  refine ⟨fun k hk => ⟨by simpa using List.find?_some hk, ?_⟩, fun hk => ?_⟩
  · unfold matchNextToken
    simp only [h, if_true, e1, e2, hk]
  · have hn : H.keywords.find? (fun k => k.1 = it.p.takeWhile isIdentifierBody) = none := by
      rw [List.find?_eq_none]
      intro k hm
      simpa using hk k hm
    unfold matchNextToken
    simp only [h, if_true, e1, e2, hn]

/-- Witness for C26: `variable` starts with the keyword `var` and is one
identifier; `var` itself is the keyword. -/
theorem C26_identifier_keyword_rule_witness :
    isIdentifierStart (peek (mkIterator "variable = 1" 0 0 .eof .void_).p) = true ∧
    matchNextToken specHost (mkIterator "variable = 1" 0 0 .eof .void_) =
      .ok (.identifier, mkIterator "variable = 1" 0 8 .eof (.string "variable")) ∧
    matchNextToken specHost (mkIterator "var x" 0 0 .eof .void_) =
      .ok (.var, mkIterator "var x" 0 3 .eof .void_) :=
  ⟨by decide, (C26_identifier_keyword_rule specHost (mkIterator "variable = 1" 0 0 .eof .void_)
    (by decide)).2 (by decide),
    ((C26_identifier_keyword_rule specHost (mkIterator "var x" 0 0 .eof .void_)
      (by decide)).1 ("var".toList, .var) (by decide)).2⟩

/-! ## C27 -/

/-- Counterexample to C27: in `docThenInline` the declaration of `g` has no doc
comment of its own, and the main parse stores `inner`, the doc comment read in
the body of `f`, as the comment of `g`. -/
theorem C27_body_comment_counterexample :
    (∀ n, preprocessCode specHost (n + 10) docThenInline.toList "" HiseSpecialData.empty =
      .ok (declTables { id := Identifier.null, inlineFunctions := [{ name := "f", parameterNames := ["x"], location := ⟨"", 18⟩ }, { name := "g", parameterNames := [], location := ⟨"", 56⟩ }] } [])) ∧
    TokenIterator.new specHost docThenInline.toList "" =
      .ok (commentIterator "doc" docThenInline 11 17 .inline_ .void_) ∧
    Parses (parseStatementList specHost)
      (commentParser "doc" (declTables { id := Identifier.null, inlineFunctions := [{ name := "f", parameterNames := ["x"], location := ⟨"", 18⟩ }, { name := "g", parameterNames := [], location := ⟨"", 56⟩ }] } []) false docThenInline 11 17 .inline_ .void_)
      (.BlockStatement [.empty, .empty] [])
      (commentParser "" (declTables { id := Identifier.null, inlineFunctions := [{ name := "f", parameterNames := ["x"], body := some (.BlockStatement [] []), commentDoc := "doc", location := ⟨"", 18⟩ }, { name := "g", parameterNames := [], body := some (.BlockStatement [] []), commentDoc := "inner", location := ⟨"", 56⟩ }] } []) false docThenInline 72 72 .eof (.string "g")) := by
  refine ⟨docThenInline_prepass, rfl, ?_⟩
  have hbodyF : Parses (parseBlock specHost)
      (commentParser "" (declTables { id := Identifier.null, inlineFunctions := [{ name := "f", parameterNames := ["x"], commentDoc := "doc", location := ⟨"", 18⟩ }, { name := "g", parameterNames := [], location := ⟨"", 56⟩ }] } []) true docThenInline 32 33 .openBrace (.string "x"))
      (.BlockStatement [] [])
      (commentParser "inner" (declTables { id := Identifier.null, inlineFunctions := [{ name := "f", parameterNames := ["x"], commentDoc := "doc", location := ⟨"", 18⟩ }, { name := "g", parameterNames := [], location := ⟨"", 56⟩ }] } []) true docThenInline 49 55 .inline_ (.string "x")) :=
    parses_parseBlock
      (t := (commentParser "inner" (declTables { id := Identifier.null, inlineFunctions := [{ name := "f", parameterNames := ["x"], commentDoc := "doc", location := ⟨"", 18⟩ }, { name := "g", parameterNames := [], location := ⟨"", 56⟩ }] } []) true docThenInline 47 48 .closeBrace (.string "x")))
      rfl rfl
      (parses_parseStatementList (parses_parseStatementListLoop_stop (Or.inl rfl)))
      rfl rfl
  have hF : Parses (parseStatement specHost)
      (commentParser "doc" (declTables { id := Identifier.null, inlineFunctions := [{ name := "f", parameterNames := ["x"], location := ⟨"", 18⟩ }, { name := "g", parameterNames := [], location := ⟨"", 56⟩ }] } []) false docThenInline 11 17 .inline_ .void_)
      .empty
      (commentParser "inner" (declTables { id := Identifier.null, inlineFunctions := [{ name := "f", parameterNames := ["x"], body := some (.BlockStatement [] []), commentDoc := "doc", location := ⟨"", 18⟩ }, { name := "g", parameterNames := [], location := ⟨"", 56⟩ }] } []) false docThenInline 49 55 .inline_ (.string "x")) :=
    parses_parseStatement_inline
      (t := (commentParser "doc" (declTables { id := Identifier.null, inlineFunctions := [{ name := "f", parameterNames := ["x"], location := ⟨"", 18⟩ }, { name := "g", parameterNames := [], location := ⟨"", 56⟩ }] } []) false docThenInline 18 26 .function .void_))
      rfl rfl
      (parses_parseInlineFunction
        (a := (commentParser "doc" (declTables { id := Identifier.null, inlineFunctions := [{ name := "f", parameterNames := ["x"], location := ⟨"", 18⟩ }, { name := "g", parameterNames := [], location := ⟨"", 56⟩ }] } []) false docThenInline 27 28 .identifier (.string "f")))
        (b := (commentParser "doc" (declTables { id := Identifier.null, inlineFunctions := [{ name := "f", parameterNames := ["x"], location := ⟨"", 18⟩ }, { name := "g", parameterNames := [], location := ⟨"", 56⟩ }] } []) false docThenInline 28 29 .openParen (.string "f")))
        (c := (commentParser "doc" (declTables { id := Identifier.null, inlineFunctions := [{ name := "f", parameterNames := ["x"], location := ⟨"", 18⟩ }, { name := "g", parameterNames := [], location := ⟨"", 56⟩ }] } []) false docThenInline 29 30 .identifier (.string "x")))
        (d := (commentParser "doc" (declTables { id := Identifier.null, inlineFunctions := [{ name := "f", parameterNames := ["x"], location := ⟨"", 18⟩ }, { name := "g", parameterNames := [], location := ⟨"", 56⟩ }] } []) false docThenInline 30 31 .closeParen (.string "x")))
        (e := (commentParser "doc" (declTables { id := Identifier.null, inlineFunctions := [{ name := "f", parameterNames := ["x"], location := ⟨"", 18⟩ }, { name := "g", parameterNames := [], location := ⟨"", 56⟩ }] } []) false docThenInline 32 33 .openBrace (.string "x")))
        (i := 0)
        rfl rfl rfl rfl rfl rfl rfl
        (parses_parseInlineFunctionSkipLoop_step (by decide) rfl
          (parses_parseInlineFunctionSkipLoop_stop rfl))
        rfl rfl rfl hbodyF rfl)
  have hbodyG : Parses (parseBlock specHost)
      (commentParser "" (declTables { id := Identifier.null, inlineFunctions := [{ name := "f", parameterNames := ["x"], body := some (.BlockStatement [] []), commentDoc := "doc", location := ⟨"", 18⟩ }, { name := "g", parameterNames := [], commentDoc := "inner", location := ⟨"", 56⟩ }] } []) true docThenInline 69 70 .openBrace (.string "g"))
      (.BlockStatement [] [])
      (commentParser "" (declTables { id := Identifier.null, inlineFunctions := [{ name := "f", parameterNames := ["x"], body := some (.BlockStatement [] []), commentDoc := "doc", location := ⟨"", 18⟩ }, { name := "g", parameterNames := [], commentDoc := "inner", location := ⟨"", 56⟩ }] } []) true docThenInline 72 72 .eof (.string "g")) :=
    parses_parseBlock
      (t := (commentParser "" (declTables { id := Identifier.null, inlineFunctions := [{ name := "f", parameterNames := ["x"], body := some (.BlockStatement [] []), commentDoc := "doc", location := ⟨"", 18⟩ }, { name := "g", parameterNames := [], commentDoc := "inner", location := ⟨"", 56⟩ }] } []) true docThenInline 71 72 .closeBrace (.string "g")))
      rfl rfl
      (parses_parseStatementList (parses_parseStatementListLoop_stop (Or.inl rfl)))
      rfl rfl
  have hG : Parses (parseStatement specHost)
      (commentParser "inner" (declTables { id := Identifier.null, inlineFunctions := [{ name := "f", parameterNames := ["x"], body := some (.BlockStatement [] []), commentDoc := "doc", location := ⟨"", 18⟩ }, { name := "g", parameterNames := [], location := ⟨"", 56⟩ }] } []) false docThenInline 49 55 .inline_ (.string "x"))
      .empty
      (commentParser "" (declTables { id := Identifier.null, inlineFunctions := [{ name := "f", parameterNames := ["x"], body := some (.BlockStatement [] []), commentDoc := "doc", location := ⟨"", 18⟩ }, { name := "g", parameterNames := [], body := some (.BlockStatement [] []), commentDoc := "inner", location := ⟨"", 56⟩ }] } []) false docThenInline 72 72 .eof (.string "g")) :=
    parses_parseStatement_inline
      (t := (commentParser "inner" (declTables { id := Identifier.null, inlineFunctions := [{ name := "f", parameterNames := ["x"], body := some (.BlockStatement [] []), commentDoc := "doc", location := ⟨"", 18⟩ }, { name := "g", parameterNames := [], location := ⟨"", 56⟩ }] } []) false docThenInline 56 64 .function (.string "x")))
      rfl rfl
      (parses_parseInlineFunction
        (a := (commentParser "inner" (declTables { id := Identifier.null, inlineFunctions := [{ name := "f", parameterNames := ["x"], body := some (.BlockStatement [] []), commentDoc := "doc", location := ⟨"", 18⟩ }, { name := "g", parameterNames := [], location := ⟨"", 56⟩ }] } []) false docThenInline 65 66 .identifier (.string "g")))
        (b := (commentParser "inner" (declTables { id := Identifier.null, inlineFunctions := [{ name := "f", parameterNames := ["x"], body := some (.BlockStatement [] []), commentDoc := "doc", location := ⟨"", 18⟩ }, { name := "g", parameterNames := [], location := ⟨"", 56⟩ }] } []) false docThenInline 66 67 .openParen (.string "g")))
        (c := (commentParser "inner" (declTables { id := Identifier.null, inlineFunctions := [{ name := "f", parameterNames := ["x"], body := some (.BlockStatement [] []), commentDoc := "doc", location := ⟨"", 18⟩ }, { name := "g", parameterNames := [], location := ⟨"", 56⟩ }] } []) false docThenInline 67 68 .closeParen (.string "g")))
        (d := (commentParser "inner" (declTables { id := Identifier.null, inlineFunctions := [{ name := "f", parameterNames := ["x"], body := some (.BlockStatement [] []), commentDoc := "doc", location := ⟨"", 18⟩ }, { name := "g", parameterNames := [], location := ⟨"", 56⟩ }] } []) false docThenInline 67 68 .closeParen (.string "g")))
        (e := (commentParser "inner" (declTables { id := Identifier.null, inlineFunctions := [{ name := "f", parameterNames := ["x"], body := some (.BlockStatement [] []), commentDoc := "doc", location := ⟨"", 18⟩ }, { name := "g", parameterNames := [], location := ⟨"", 56⟩ }] } []) false docThenInline 69 70 .openBrace (.string "g")))
        (i := 1)
        rfl rfl rfl rfl rfl rfl rfl
        (parses_parseInlineFunctionSkipLoop_stop rfl)
        rfl rfl rfl hbodyG rfl)
  exact parses_parseStatementList
    (parses_parseStatementListLoop_step (by decide) (by decide) hF (fun x y e => by cases e)
      (parses_parseStatementListLoop_step (by decide) (by decide) hG (fun x y e => by cases e)
        (parses_parseStatementListLoop_stop (Or.inr rfl))))

/-- C27, amended: the lexer at a doc comment `/** c */` whose text `c` does not
end the comment early (`*c` holds no `*/`) and that is followed by no other
comment sets its last comment to the trimmed `c`; a token before which no
comment starts is read without a change of the last comment; and the main parse
of `inline function f (...) block`, for an `f` that the pre-pass registered,
stores the last comment the lexer holds at the opening brace of the block as the
comment of `f` and parses the block with the last comment cleared. What the
lexer holds after the declaration is what the block left. -/
theorem C27_doc_comment_attachment (H : Host) :
    (∀ (it : TokenIterator) (c rest : List Char),
      it.p.dropWhile isWhitespace = docComment c rest → ¬ "*/".toList <:+: '*' :: c →
      peek (rest.dropWhile isWhitespace) ≠ '/' →
      skipWhitespaceAndComments it = .ok ((), { it with
        location := { it.location with location := docComment c rest }
        lastComment := String.mk (trim c)
        p := rest.dropWhile isWhitespace })) ∧
    (∀ it it' : TokenIterator, peek (it.p.dropWhile isWhitespace) ≠ '/' →
      TokenIterator.skip H it = .ok ((), it') → it'.lastComment = it.lastComment) ∧
    (∀ (ns : NsPtr) (s a b c d e f g : ExpressionTreeBuilder) (body : Statement) (i : Nat)
      (m : Bool),
      s.currentlyParsingInlineFunction = false →
      s.currentType = .function → skip H s = .ok ((), a) →
      a.currentType = .identifier → skip H a = .ok ((), b) →
      b.currentType = .openParen → skip H b = .ok ((), c) →
      Parses (parseInlineFunctionSkipLoop H) c () d →
      d.currentType = .closeParen → skip H d = .ok ((), e) →
      Hise.indexOf ((e.hiseSpecialData.ns ns).inlineFunctions.map (·.name))
        a.currentValue.toString = i →
      Parses (parseBlock H)
        { e with
          currentlyParsingInlineFunction := true
          lastComment := ""
          hiseSpecialData := e.hiseSpecialData.modifyInlineFunction ⟨ns, i⟩
            (fun o => { o with commentDoc := e.lastComment }) } body f →
      matchIf H .semicolon
        { f with
          currentlyParsingInlineFunction := false
          hiseSpecialData := f.hiseSpecialData.modifyInlineFunction ⟨ns, i⟩
            (fun o => { o with body := some body }) } = .ok (m, g) →
      Parses (fun n => parseInlineFunction H n ns) s .empty g) :=
  ⟨fun _ _ _ hp hc hr => skipWhitespaceAndComments_docComment hp hc hr,
   fun _ _ hc h => skip_lastComment hc h,
   fun _ _ _ _ _ _ _ _ _ _ _ _ hflag hfun hs hname ha hopen hb hskip hclose hd hfound hbody
      hsemi =>
    parses_parseInlineFunction hflag hfun hs hname ha hopen hb hskip hclose hd hfound hbody
      hsemi⟩

/-- Witness for the amended C27, on `docThenInline`: the lexer at the start of
the text sets the last comment to `doc`; the token `function` is read without a
change of it; and the main parse of the declaration of `f` stores `doc` as the
comment of `f` and leaves `inner`, the comment of the block, in the lexer. -/
theorem C27_doc_comment_attachment_witness :
    skipWhitespaceAndComments (mkIterator docThenInline 0 0 .eof .void_) =
      .ok ((), (commentIterator "doc" docThenInline 0 11 .eof .void_)) ∧
    (commentIterator "doc" docThenInline 18 26 .function .void_).lastComment =
      (commentIterator "doc" docThenInline 11 17 .inline_ .void_).lastComment ∧
    Parses (fun n => parseInlineFunction specHost n .root)
      (commentParser "doc" (declTables { id := Identifier.null, inlineFunctions := [{ name := "f", parameterNames := ["x"], location := ⟨"", 18⟩ }, { name := "g", parameterNames := [], location := ⟨"", 56⟩ }] } []) false docThenInline 18 26 .function .void_)
      .empty
      (commentParser "inner" (declTables { id := Identifier.null, inlineFunctions := [{ name := "f", parameterNames := ["x"], body := some (.BlockStatement [] []), commentDoc := "doc", location := ⟨"", 18⟩ }, { name := "g", parameterNames := [], location := ⟨"", 56⟩ }] } []) false docThenInline 49 55 .inline_ (.string "x")) := by
  have hbodyF : Parses (parseBlock specHost)
      (commentParser "" (declTables { id := Identifier.null, inlineFunctions := [{ name := "f", parameterNames := ["x"], commentDoc := "doc", location := ⟨"", 18⟩ }, { name := "g", parameterNames := [], location := ⟨"", 56⟩ }] } []) true docThenInline 32 33 .openBrace (.string "x"))
      (.BlockStatement [] [])
      (commentParser "inner" (declTables { id := Identifier.null, inlineFunctions := [{ name := "f", parameterNames := ["x"], commentDoc := "doc", location := ⟨"", 18⟩ }, { name := "g", parameterNames := [], location := ⟨"", 56⟩ }] } []) true docThenInline 49 55 .inline_ (.string "x")) :=
    parses_parseBlock
      (t := (commentParser "inner" (declTables { id := Identifier.null, inlineFunctions := [{ name := "f", parameterNames := ["x"], commentDoc := "doc", location := ⟨"", 18⟩ }, { name := "g", parameterNames := [], location := ⟨"", 56⟩ }] } []) true docThenInline 47 48 .closeBrace (.string "x")))
      rfl rfl
      (parses_parseStatementList (parses_parseStatementListLoop_stop (Or.inl rfl)))
      rfl rfl
  exact ⟨(C27_doc_comment_attachment specHost).1 (mkIterator docThenInline 0 0 .eof .void_)
      " doc ".toList (docThenInline.toList.drop 10) rfl (by decide) (by decide),
    (C27_doc_comment_attachment specHost).2.1
      (commentIterator "doc" docThenInline 11 17 .inline_ .void_)
      (commentIterator "doc" docThenInline 18 26 .function .void_) (by decide) rfl,
    (C27_doc_comment_attachment specHost).2.2 .root
      (commentParser "doc" (declTables { id := Identifier.null, inlineFunctions := [{ name := "f", parameterNames := ["x"], location := ⟨"", 18⟩ }, { name := "g", parameterNames := [], location := ⟨"", 56⟩ }] } []) false docThenInline 18 26 .function .void_)
      (commentParser "doc" (declTables { id := Identifier.null, inlineFunctions := [{ name := "f", parameterNames := ["x"], location := ⟨"", 18⟩ }, { name := "g", parameterNames := [], location := ⟨"", 56⟩ }] } []) false docThenInline 27 28 .identifier (.string "f"))
      (commentParser "doc" (declTables { id := Identifier.null, inlineFunctions := [{ name := "f", parameterNames := ["x"], location := ⟨"", 18⟩ }, { name := "g", parameterNames := [], location := ⟨"", 56⟩ }] } []) false docThenInline 28 29 .openParen (.string "f"))
      (commentParser "doc" (declTables { id := Identifier.null, inlineFunctions := [{ name := "f", parameterNames := ["x"], location := ⟨"", 18⟩ }, { name := "g", parameterNames := [], location := ⟨"", 56⟩ }] } []) false docThenInline 29 30 .identifier (.string "x"))
      (commentParser "doc" (declTables { id := Identifier.null, inlineFunctions := [{ name := "f", parameterNames := ["x"], location := ⟨"", 18⟩ }, { name := "g", parameterNames := [], location := ⟨"", 56⟩ }] } []) false docThenInline 30 31 .closeParen (.string "x"))
      (commentParser "doc" (declTables { id := Identifier.null, inlineFunctions := [{ name := "f", parameterNames := ["x"], location := ⟨"", 18⟩ }, { name := "g", parameterNames := [], location := ⟨"", 56⟩ }] } []) false docThenInline 32 33 .openBrace (.string "x"))
      (commentParser "inner" (declTables { id := Identifier.null, inlineFunctions := [{ name := "f", parameterNames := ["x"], commentDoc := "doc", location := ⟨"", 18⟩ }, { name := "g", parameterNames := [], location := ⟨"", 56⟩ }] } []) true docThenInline 49 55 .inline_ (.string "x"))
      (commentParser "inner" (declTables { id := Identifier.null, inlineFunctions := [{ name := "f", parameterNames := ["x"], body := some (.BlockStatement [] []), commentDoc := "doc", location := ⟨"", 18⟩ }, { name := "g", parameterNames := [], location := ⟨"", 56⟩ }] } []) false docThenInline 49 55 .inline_ (.string "x"))
      (.BlockStatement [] []) 0 false
      rfl rfl rfl rfl rfl rfl rfl
      (parses_parseInlineFunctionSkipLoop_step (by decide) rfl
        (parses_parseInlineFunctionSkipLoop_stop rfl))
      rfl rfl rfl hbodyF rfl⟩

/-! ## C28 -/

/-- C28, divergence: the pre-pass over `const var PI = 3.14; var x = PI;`
registers `PI` in the constant pool of the root namespace, and the statement
list read with these tables holds three statements: the `ConstVarStatement` for
`PI`, an empty statement, and the `VarStatement` for `x` whose initialiser is the
`ConstReference` to slot 0 of the root namespace. `parseConstVar` returns at the
`;` behind the initialiser without consuming it, so the `;` is read as a
statement of its own. -/
theorem C28_const_declaration_leaves_semicolon :
    (∀ n, preprocessCode specHost (n + 12) scenarioOne.toList "" HiseSpecialData.empty =
      .ok (declTables { id := Identifier.null, constObjects := [("PI", .string "undeclared")], constLocations := [⟨"", 10⟩] } [])) ∧
    Parses (parseStatementList specHost)
      (mkParser (declTables { id := Identifier.null, constObjects := [("PI", .string "undeclared")], constLocations := [⟨"", 10⟩] } []) false scenarioOne 0 5 .const_ .void_)
      (.BlockStatement
        [.ConstVarStatement "PI" (.LiteralValue (.double "3.14".toList)) (some .root), .empty,
          .VarStatement "x" (.ConstReference .root 0)] [])
      (mkParser (declTables { id := Identifier.null, constObjects := [("PI", .string "uninitialised")], constLocations := [⟨"", 10⟩] } []) false scenarioOne 32 32 .eof (.string "PI")) := by
  refine ⟨scenarioOne_prepass, ?_⟩
  have hconst : Parses (parseStatement specHost)
      (mkParser (declTables { id := Identifier.null, constObjects := [("PI", .string "undeclared")], constLocations := [⟨"", 10⟩] } []) false scenarioOne 0 5 .const_ .void_)
      (.ConstVarStatement "PI" (.LiteralValue (.double "3.14".toList)) (some .root))
      (mkParser (declTables { id := Identifier.null, constObjects := [("PI", .string "uninitialised")], constLocations := [⟨"", 10⟩] } []) false scenarioOne 19 20 .semicolon (.double "3.14".toList)) :=
    parses_parseStatement_const
      (t := (mkParser (declTables { id := Identifier.null, constObjects := [("PI", .string "undeclared")], constLocations := [⟨"", 10⟩] } []) false scenarioOne 6 9 .var .void_)) rfl rfl
      (parses_parseConstVar (H := specHost)
        (a := (mkParser (declTables { id := Identifier.null, constObjects := [("PI", .string "undeclared")], constLocations := [⟨"", 10⟩] } []) false scenarioOne 10 12 .identifier (.string "PI")))
        (b := (mkParser (declTables { id := Identifier.null, constObjects := [("PI", .string "undeclared")], constLocations := [⟨"", 10⟩] } []) false scenarioOne 13 14 .assign (.string "PI")))
        (c := (mkParser (declTables { id := Identifier.null, constObjects := [("PI", .string "undeclared")], constLocations := [⟨"", 10⟩] } []) false scenarioOne 15 19 .literal (.double "3.14".toList)))
        (d := (mkParser (declTables { id := Identifier.null, constObjects := [("PI", .string "undeclared")], constLocations := [⟨"", 10⟩] } []) false scenarioOne 19 20 .semicolon (.double "3.14".toList)))
        rfl rfl rfl rfl (Or.inr (by decide)) rfl rfl
        (parses_parseExpression_of_unary
          (parseUnary_literal rfl rfl (by decide) (by decide) (by decide) (by decide) (by decide))
          (by decide))
        (by decide))
  have hsemi : Parses (parseStatement specHost)
      (mkParser (declTables { id := Identifier.null, constObjects := [("PI", .string "uninitialised")], constLocations := [⟨"", 10⟩] } []) false scenarioOne 19 20 .semicolon (.double "3.14".toList)) .empty
      (mkParser (declTables { id := Identifier.null, constObjects := [("PI", .string "uninitialised")], constLocations := [⟨"", 10⟩] } []) false scenarioOne 21 24 .var (.double "3.14".toList)) :=
    parses_parseStatement_semicolon rfl rfl
  have href : Parses (parseUnary specHost)
      (mkParser (declTables { id := Identifier.null, constObjects := [("PI", .string "uninitialised")], constLocations := [⟨"", 10⟩] } []) false scenarioOne 29 31 .identifier (.string "PI")) (.ConstReference .root 0)
      (mkParser (declTables { id := Identifier.null, constObjects := [("PI", .string "uninitialised")], constLocations := [⟨"", 10⟩] } []) false scenarioOne 31 32 .semicolon (.string "PI")) :=
    ⟨3, by
      rw [parseUnary_identifier rfl, parseFactor_root_const (H := specHost)
        (s := (mkParser (declTables { id := Identifier.null, constObjects := [("PI", .string "uninitialised")], constLocations := [⟨"", 10⟩] } []) false scenarioOne 29 31 .identifier (.string "PI")))
        ⟨rfl, rfl, by decide, rfl, rfl⟩ rfl rfl (by decide)
        (show skip specHost _ = .ok ((),
          (mkParser (declTables { id := Identifier.null, constObjects := [("PI", .string "uninitialised")], constLocations := [⟨"", 10⟩] } []) false scenarioOne 31 32 .semicolon (.string "PI"))) from rfl),
        parseSuffixes_stop (by decide)]
      rfl⟩
  have hvar : Parses (parseStatement specHost)
      (mkParser (declTables { id := Identifier.null, constObjects := [("PI", .string "uninitialised")], constLocations := [⟨"", 10⟩] } []) false scenarioOne 21 24 .var (.double "3.14".toList)) (.VarStatement "x" (.ConstReference .root 0))
      (mkParser (declTables { id := Identifier.null, constObjects := [("PI", .string "uninitialised")], constLocations := [⟨"", 10⟩] } []) false scenarioOne 32 32 .eof (.string "PI")) :=
    parses_parseStatement_var
      (t := (mkParser (declTables { id := Identifier.null, constObjects := [("PI", .string "uninitialised")], constLocations := [⟨"", 10⟩] } []) false scenarioOne 25 26 .identifier (.string "x"))) rfl rfl
      (parses_parseVar (H := specHost)
        (b := (mkParser (declTables { id := Identifier.null, constObjects := [("PI", .string "uninitialised")], constLocations := [⟨"", 10⟩] } []) false scenarioOne 27 28 .assign (.string "x")))
        (c := (mkParser (declTables { id := Identifier.null, constObjects := [("PI", .string "uninitialised")], constLocations := [⟨"", 10⟩] } []) false scenarioOne 29 31 .identifier (.string "PI")))
        (d := (mkParser (declTables { id := Identifier.null, constObjects := [("PI", .string "uninitialised")], constLocations := [⟨"", 10⟩] } []) false scenarioOne 31 32 .semicolon (.string "PI")))
        rfl rfl (Or.inl (by decide)) rfl rfl
        (parses_parseExpression_of_unary href (by decide)) rfl rfl)
  exact parses_parseStatementList
    (parses_parseStatementListLoop_step (by decide) (by decide) hconst (fun x y e => by cases e)
      (parses_parseStatementListLoop_step (by decide) (by decide) hsemi (fun x y e => by cases e)
        (parses_parseStatementListLoop_step (by decide) (by decide) hvar
          (fun x y e => by cases e)
          (parses_parseStatementListLoop_stop (Or.inr rfl)))))

/-! ## C29 -/

/-- C29: `parseStatementList` reads statements until the current token is `}`
or the end of file, which it does not consume, and returns a block whose lock
list holds the lock statements and whose statement list holds the other
statements, each in the order of the source; the two lists together hold every
statement once. -/
theorem C29_lock_hoisting (H : Host) (s t : ExpressionTreeBuilder) (sts : List Statement)
    (h : ParsesStatements H s sts t) :
    Parses (parseStatementList H) s
      (.BlockStatement (sts.filter (fun x => !x.isLockStatement))
        (sts.filter (fun x => x.isLockStatement))) t ∧
    (t.currentType = .closeBrace ∨ t.currentType = .eof) ∧
    (sts.filter (fun x => !x.isLockStatement)).Sublist sts ∧
    (sts.filter (fun x => x.isLockStatement)).Sublist sts ∧
    (∀ x ∈ sts.filter (fun x => x.isLockStatement), ∃ r e, x = .LockStatement r e) ∧
    (∀ x ∈ sts.filter (fun x => !x.isLockStatement), ∀ r e, x ≠ .LockStatement r e) ∧
    (sts.filter (fun x => x.isLockStatement) ++
      sts.filter (fun x => !x.isLockStatement)).Perm sts := by
  refine ⟨parses_parseStatementList (by
      simpa using parses_parseStatementListLoop_of_statements h [] []),
    h.at_end, List.filter_sublist _, List.filter_sublist _, ?_, ?_,
    List.filter_append_perm _ _⟩
  · intro x hx
    have hl := (List.mem_filter.mp hx).2
    cases x <;> simp [Statement.isLockStatement] at hl
    exact ⟨_, _, rfl⟩
  · intro x hx r e he
    have hl := (List.mem_filter.mp hx).2
    rw [he] at hl
    simp [Statement.isLockStatement] at hl

/-- Witness for C29: in `rLock(x); y;` the lock statement goes to the lock list
and the expression statement to the statement list. -/
theorem C29_lock_hoisting_witness :
    Parses (parseStatementList specHost)
      (mkParser HiseSpecialData.empty false lockThenStatement 0 5 .rLock_ .void_)
      (.BlockStatement [.expression (.UnqualifiedName "y")]
        [.LockStatement true (.UnqualifiedName "x")])
      (mkParser HiseSpecialData.empty false lockThenStatement 12 12 .eof (.string "y")) :=
  (C29_lock_hoisting specHost
    (mkParser HiseSpecialData.empty false lockThenStatement 0 5 .rLock_ .void_)
    (mkParser HiseSpecialData.empty false lockThenStatement 12 12 .eof (.string "y"))
    [.LockStatement true (.UnqualifiedName "x"), .expression (.UnqualifiedName "y")]
    (ParsesStatements.more (by decide) (by decide)
      (parses_parseStatement_rLock
        (t := mkParser HiseSpecialData.empty false lockThenStatement 5 6 .openParen .void_)
        rfl rfl
        (parses_parseLockStatement
          (a := mkParser HiseSpecialData.empty false lockThenStatement 6 7 .identifier
            (.string "x"))
          (b := mkParser HiseSpecialData.empty false lockThenStatement 7 8 .closeParen
            (.string "x"))
          (c := mkParser HiseSpecialData.empty false lockThenStatement 8 9 .semicolon
            (.string "x"))
          (u := mkParser HiseSpecialData.empty false lockThenStatement 10 11 .identifier
            (.string "y"))
          rfl rfl
          ⟨2, by
            show parseFactor specHost 2 none _ = _
            rw [parseFactor_root_unqualified (H := specHost)
              (s := mkParser HiseSpecialData.empty false lockThenStatement 6 7 .identifier
                (.string "x"))
              ⟨rfl, rfl, by decide, rfl, rfl⟩ rfl rfl rfl rfl rfl rfl rfl
              (show skip specHost _ = .ok ((),
                mkParser HiseSpecialData.empty false lockThenStatement 7 8 .closeParen
                  (.string "x")) from rfl),
              parseSuffixes_stop (by decide)]
            rfl⟩
          rfl rfl rfl rfl))
      (ParsesStatements.more
        (t := mkParser HiseSpecialData.empty false lockThenStatement 12 12 .eof (.string "y"))
        (by decide) (by decide)
        (parses_parseStatement_expression
          (t := mkParser HiseSpecialData.empty false lockThenStatement 11 12 .semicolon
            (.string "y")) rfl
          (parses_parseExpression_of_unary
            (parses_parseUnary_unqualified rfl rfl rfl (by decide) rfl rfl rfl (by decide))
            (by decide))
          rfl rfl)
        (ParsesStatements.done (Or.inr rfl))))).1

/-! ## C30 -/

/-- C30, divergence: at a statement `local name;` whose name is free for a local
variable, the parser fails with 'Cannot define local variables outside of inline
functions or callbacks.' exactly when it is neither inside an inline function
nor inside a callback, and inside the body of a callback it stores the name in
the local properties of that callback. Inside an inline function it stores the
name in the local properties of the inline function registered last in the
current namespace (`inlineFunctions.getLast ()`), whichever function's body is
being parsed. -/
theorem C30_local_registered_in_last_function (H : Host) (s : ExpressionTreeBuilder)
    (a b c : TokenIterator)
    (hl : s.currentType = .local_) (hs : TokenIterator.skip H s.toTokenIterator = .ok ((), a))
    (hid : a.currentType = .identifier) (ha : TokenIterator.skip H a = .ok ((), b))
    (hsemi : b.currentType = .semicolon) (hb : TokenIterator.skip H b = .ok ((), c))
    (hfree : s.hiseSpecialData.getExistingVariableStorage a.currentValue.toString = .Undeclared ∨
      s.hiseSpecialData.getExistingVariableStorage a.currentValue.toString = .LocalScope) :
    (Fails (parseStatement H) s
        "Cannot define local variables outside of inline functions or callbacks." ↔
      s.currentlyParsingInlineFunction = false ∧ s.currentlyParsedCallback = Identifier.null) ∧
    (s.currentlyParsingInlineFunction = true →
      (s.hiseSpecialData.ns s.currentNamespace).inlineFunctions ≠ [] →
      Parses (parseStatement H) s
        (.LocalVarStatement
          (some ⟨s.currentNamespace,
            (s.hiseSpecialData.ns s.currentNamespace).inlineFunctions.length - 1⟩)
          a.currentValue.toString .empty)
        { s with
          toTokenIterator := c
          hiseSpecialData := s.hiseSpecialData.modifyInlineFunction
            ⟨s.currentNamespace,
              (s.hiseSpecialData.ns s.currentNamespace).inlineFunctions.length - 1⟩
            (fun o => { o with
              localProperties := o.localProperties.set a.currentValue.toString .undefined }) }) ∧
    (s.currentlyParsingInlineFunction = false →
      (s.hiseSpecialData.getCallback s.currentlyParsedCallback).isSome = true →
      s.currentlyParsedCallback ≠ Identifier.null →
      Parses (parseStatement H) s
        (.CallbackLocalStatement s.currentlyParsedCallback a.currentValue.toString .empty)
        { s with
          toTokenIterator := c
          hiseSpecialData := s.hiseSpecialData.modifyCallback s.currentlyParsedCallback
            (fun o => { o with
              localProperties := o.localProperties.set a.currentValue.toString .void_ }) }) := by
  have hst : ∀ n, parseStatement H (n + 1) s =
      parseLocalAssignment H n { s with toTokenIterator := a } :=
    fun n => parseStatement_local hl (skip_of_iterator hs)
  have hin : s.currentlyParsingInlineFunction = true →
      (s.hiseSpecialData.ns s.currentNamespace).inlineFunctions ≠ [] →
      Parses (parseStatement H) s
        (.LocalVarStatement
          (some ⟨s.currentNamespace,
            (s.hiseSpecialData.ns s.currentNamespace).inlineFunctions.length - 1⟩)
          a.currentValue.toString .empty)
        { s with
          toTokenIterator := c
          hiseSpecialData := s.hiseSpecialData.modifyInlineFunction
            ⟨s.currentNamespace,
              (s.hiseSpecialData.ns s.currentNamespace).inlineFunctions.length - 1⟩
            (fun o => { o with
              localProperties := o.localProperties.set a.currentValue.toString .undefined }) } :=
    fun hf hne => ⟨2, by
      rw [hst, parseLocalAssignment_inline (s := { s with toTokenIterator := a }) (b := b)
        (c := c) hf hne hid ha hfree hsemi hb]⟩
  have hcbk : s.currentlyParsingInlineFunction = false →
      (s.hiseSpecialData.getCallback s.currentlyParsedCallback).isSome = true →
      s.currentlyParsedCallback ≠ Identifier.null →
      Parses (parseStatement H) s
        (.CallbackLocalStatement s.currentlyParsedCallback a.currentValue.toString .empty)
        { s with
          toTokenIterator := c
          hiseSpecialData := s.hiseSpecialData.modifyCallback s.currentlyParsedCallback
            (fun o => { o with
              localProperties := o.localProperties.set a.currentValue.toString .void_ }) } :=
    fun hf hsome hc => by
      obtain ⟨cb, hcb⟩ := Option.isSome_iff_exists.mp hsome
      exact ⟨2, by
        rw [hst, parseLocalAssignment_callback (s := { s with toTokenIterator := a }) (b := b)
          (c := c) hf hc hcb hid ha hfree hsemi hb]⟩
  have mono := fun k => (monoAt H k).parseStatement
  refine ⟨⟨fun hfail => ?_, fun ⟨hf, hc⟩ => ⟨2, by
    rw [hst, parseLocalAssignment_outside (s := { s with toTokenIterator := a }) hf hc]⟩⟩,
    hin, hcbk⟩
  by_cases hf : s.currentlyParsingInlineFunction = true
  · exfalso
    by_cases hne : (s.hiseSpecialData.ns s.currentNamespace).inlineFunctions = []
    · have h2 : Fails (parseStatement H) s nullPointer := ⟨2, by
        rw [hst, parseLocalAssignment_inline_null (s := { s with toTokenIterator := a }) (b := b)
          hf hne hid ha hfree]⟩
      exact absurd (Fails.message_unique mono hfail h2) (by decide)
    · exact (hin hf hne).not_fails mono hfail
  · have hf' : s.currentlyParsingInlineFunction = false := by simpa using hf
    refine ⟨hf', ?_⟩
    by_contra hc
    cases hcb : s.hiseSpecialData.getCallback s.currentlyParsedCallback with
    | none =>
      have h2 : Fails (parseStatement H) s nullPointer := ⟨2, by
        rw [hst, parseLocalAssignment_callback_null (s := { s with toTokenIterator := a })
          (b := b) hf' hc hcb hid ha hfree]⟩
      exact absurd (Fails.message_unique mono hfail h2) (by decide)
    | some cb =>
      exact (hcbk hf' (by rw [hcb]; rfl) hc).not_fails mono hfail

/-- Witness for C30: the pre-pass over `localInFirst` registers `f` and `g`, and
the main parse of the declaration of `f`, started with these tables, stores the
local variable `v` of the body of `f` in the local properties of `g`; the
statement built for it is bound to `g`, and `f` has no local property. -/
theorem C30_local_registered_in_last_function_witness :
    (∀ n, preprocessCode specHost (n + 12) localInFirst.toList "" HiseSpecialData.empty =
      .ok (declTables { id := Identifier.null, inlineFunctions := [{ name := "f", parameterNames := [], location := ⟨"", 7⟩ }, { name := "g", parameterNames := [], location := ⟨"", 40⟩ }] } [])) ∧
    Parses (parseStatement specHost)
      (mkParser (declTables { id := Identifier.null, inlineFunctions := [{ name := "f", parameterNames := [], location := ⟨"", 7⟩ }, { name := "g", parameterNames := [], location := ⟨"", 40⟩ }] } []) false localInFirst 0 6 .inline_ .void_)
      .empty
      (mkParser (declTables { id := Identifier.null, inlineFunctions := [{ name := "f", parameterNames := [], body := some (.BlockStatement [.LocalVarStatement (some ⟨.root, 1⟩) "v" .empty] []), location := ⟨"", 7⟩ }, { name := "g", parameterNames := [], localProperties := [("v", .undefined)], location := ⟨"", 40⟩ }] } []) false localInFirst 33 39 .inline_ (.string "v")) := by
  refine ⟨localInFirst_prepass, ?_⟩
  have hlocal : Parses (parseStatement specHost)
      (mkParser (declTables { id := Identifier.null, inlineFunctions := [{ name := "f", parameterNames := [], location := ⟨"", 7⟩ }, { name := "g", parameterNames := [], location := ⟨"", 40⟩ }] } []) true localInFirst 22 27 .local_ (.string "f"))
      (.LocalVarStatement (some ⟨.root, 1⟩) "v" .empty)
      (mkParser (declTables { id := Identifier.null, inlineFunctions := [{ name := "f", parameterNames := [], location := ⟨"", 7⟩ }, { name := "g", parameterNames := [], localProperties := [("v", .undefined)], location := ⟨"", 40⟩ }] } []) true localInFirst 31 32 .closeBrace (.string "v")) :=
    (C30_local_registered_in_last_function specHost
      (mkParser (declTables { id := Identifier.null, inlineFunctions := [{ name := "f", parameterNames := [], location := ⟨"", 7⟩ }, { name := "g", parameterNames := [], location := ⟨"", 40⟩ }] } []) true localInFirst 22 27 .local_ (.string "f"))
      (mkIterator localInFirst 28 29 .identifier (.string "v"))
      (mkIterator localInFirst 29 30 .semicolon (.string "v"))
      (mkIterator localInFirst 31 32 .closeBrace (.string "v"))
      rfl rfl rfl rfl rfl rfl (Or.inl (by decide))).2.1 rfl (fun e => by cases e)
  have hblock : Parses (parseBlock specHost)
      (mkParser (declTables { id := Identifier.null, inlineFunctions := [{ name := "f", parameterNames := [], location := ⟨"", 7⟩ }, { name := "g", parameterNames := [], location := ⟨"", 40⟩ }] } []) true localInFirst 20 21 .openBrace (.string "f"))
      (.BlockStatement [.LocalVarStatement (some ⟨.root, 1⟩) "v" .empty] [])
      (mkParser (declTables { id := Identifier.null, inlineFunctions := [{ name := "f", parameterNames := [], location := ⟨"", 7⟩ }, { name := "g", parameterNames := [], localProperties := [("v", .undefined)], location := ⟨"", 40⟩ }] } []) true localInFirst 33 39 .inline_ (.string "v")) :=
    parses_parseBlock
      (t := (mkParser (declTables { id := Identifier.null, inlineFunctions := [{ name := "f", parameterNames := [], location := ⟨"", 7⟩ }, { name := "g", parameterNames := [], location := ⟨"", 40⟩ }] } []) true localInFirst 22 27 .local_ (.string "f")))
      rfl rfl
      (parses_parseStatementList
        (parses_parseStatementListLoop_step (by decide) (by decide) hlocal
          (fun x y e => by cases e)
          (parses_parseStatementListLoop_stop (Or.inl rfl))))
      rfl rfl
  exact parses_parseStatement_inline
    (t := (mkParser (declTables { id := Identifier.null, inlineFunctions := [{ name := "f", parameterNames := [], location := ⟨"", 7⟩ }, { name := "g", parameterNames := [], location := ⟨"", 40⟩ }] } []) false localInFirst 7 15 .function .void_))
    rfl rfl
    (parses_parseInlineFunction
      (a := (mkParser (declTables { id := Identifier.null, inlineFunctions := [{ name := "f", parameterNames := [], location := ⟨"", 7⟩ }, { name := "g", parameterNames := [], location := ⟨"", 40⟩ }] } []) false localInFirst 16 17 .identifier (.string "f")))
      (b := (mkParser (declTables { id := Identifier.null, inlineFunctions := [{ name := "f", parameterNames := [], location := ⟨"", 7⟩ }, { name := "g", parameterNames := [], location := ⟨"", 40⟩ }] } []) false localInFirst 17 18 .openParen (.string "f")))
      (c := (mkParser (declTables { id := Identifier.null, inlineFunctions := [{ name := "f", parameterNames := [], location := ⟨"", 7⟩ }, { name := "g", parameterNames := [], location := ⟨"", 40⟩ }] } []) false localInFirst 18 19 .closeParen (.string "f")))
      (d := (mkParser (declTables { id := Identifier.null, inlineFunctions := [{ name := "f", parameterNames := [], location := ⟨"", 7⟩ }, { name := "g", parameterNames := [], location := ⟨"", 40⟩ }] } []) false localInFirst 18 19 .closeParen (.string "f")))
      (e := (mkParser (declTables { id := Identifier.null, inlineFunctions := [{ name := "f", parameterNames := [], location := ⟨"", 7⟩ }, { name := "g", parameterNames := [], location := ⟨"", 40⟩ }] } []) false localInFirst 20 21 .openBrace (.string "f")))
      (i := 0)
      rfl rfl rfl rfl rfl rfl rfl
      (parses_parseInlineFunctionSkipLoop_stop rfl)
      rfl rfl rfl hblock rfl)

/-! ## Runs of the pre-pass over `extern` blocks -/

theorem constAfterExtern_extern_0 (m : Nat) (h : 17 ≤ m) :
    preprocessExternLoop specHost m (preState constAfterExtern (declTables { id := Identifier.null } [{ id := "A" }]) (.named 0) [] 1 14 20 .extern_ (.string "A")) =
      .ok ((), (preState constAfterExtern (declTables { id := Identifier.null } [{ id := "A" }]) (.named 0) [] 1 58 59 .closeBrace (.int64 1))) := by
  obtain ⟨n, rfl⟩ := Nat.exists_eq_add_of_le' h
  rw [preprocessExternLoop_skip (H := specHost) (s := (preState constAfterExtern (declTables { id := Identifier.null } [{ id := "A" }]) (.named 0) [] 1 14 20 .extern_ (.string "A")))
      (i := (mkIterator constAfterExtern 21 24 .literal (.string "C"))) (by decide) (by decide) (by decide) rfl]
  show preprocessExternLoop specHost _ (preState constAfterExtern (declTables { id := Identifier.null } [{ id := "A" }]) (.named 0) [] 1 21 24 .literal (.string "C")) = _
  rw [preprocessExternLoop_skip (H := specHost) (s := (preState constAfterExtern (declTables { id := Identifier.null } [{ id := "A" }]) (.named 0) [] 1 21 24 .literal (.string "C")))
      (i := (mkIterator constAfterExtern 25 26 .openBrace (.string "C"))) (by decide) (by decide) (by decide) rfl]
  show preprocessExternLoop specHost _ (preState constAfterExtern (declTables { id := Identifier.null } [{ id := "A" }]) (.named 0) [] 1 25 26 .openBrace (.string "C")) = _
  rw [preprocessExternLoop_openBrace (H := specHost) (s := (preState constAfterExtern (declTables { id := Identifier.null } [{ id := "A" }]) (.named 0) [] 1 25 26 .openBrace (.string "C")))
      (i := (mkIterator constAfterExtern 27 30 .identifier (.string "int"))) rfl rfl]
  show preprocessExternLoop specHost _ (preState constAfterExtern (declTables { id := Identifier.null } [{ id := "A" }]) (.named 0) [] 2 27 30 .identifier (.string "int")) = _
  rw [preprocessExternLoop_skip (H := specHost) (s := (preState constAfterExtern (declTables { id := Identifier.null } [{ id := "A" }]) (.named 0) [] 2 27 30 .identifier (.string "int")))
      (i := (mkIterator constAfterExtern 31 32 .identifier (.string "g"))) (by decide) (by decide) (by decide) rfl]
  show preprocessExternLoop specHost _ (preState constAfterExtern (declTables { id := Identifier.null } [{ id := "A" }]) (.named 0) [] 2 31 32 .identifier (.string "g")) = _
  rw [preprocessExternLoop_skip (H := specHost) (s := (preState constAfterExtern (declTables { id := Identifier.null } [{ id := "A" }]) (.named 0) [] 2 31 32 .identifier (.string "g")))
      (i := (mkIterator constAfterExtern 32 33 .openParen (.string "g"))) (by decide) (by decide) (by decide) rfl]
  show preprocessExternLoop specHost _ (preState constAfterExtern (declTables { id := Identifier.null } [{ id := "A" }]) (.named 0) [] 2 32 33 .openParen (.string "g")) = _
  rw [preprocessExternLoop_skip (H := specHost) (s := (preState constAfterExtern (declTables { id := Identifier.null } [{ id := "A" }]) (.named 0) [] 2 32 33 .openParen (.string "g")))
      (i := (mkIterator constAfterExtern 33 34 .closeParen (.string "g"))) (by decide) (by decide) (by decide) rfl]
  show preprocessExternLoop specHost _ (preState constAfterExtern (declTables { id := Identifier.null } [{ id := "A" }]) (.named 0) [] 2 33 34 .closeParen (.string "g")) = _
  rw [preprocessExternLoop_skip (H := specHost) (s := (preState constAfterExtern (declTables { id := Identifier.null } [{ id := "A" }]) (.named 0) [] 2 33 34 .closeParen (.string "g")))
      (i := (mkIterator constAfterExtern 35 36 .openBrace (.string "g"))) (by decide) (by decide) (by decide) rfl]
  show preprocessExternLoop specHost _ (preState constAfterExtern (declTables { id := Identifier.null } [{ id := "A" }]) (.named 0) [] 2 35 36 .openBrace (.string "g")) = _
  rw [preprocessExternLoop_openBrace (H := specHost) (s := (preState constAfterExtern (declTables { id := Identifier.null } [{ id := "A" }]) (.named 0) [] 2 35 36 .openBrace (.string "g")))
      (i := (mkIterator constAfterExtern 37 38 .closeBrace (.string "g"))) rfl rfl]
  show preprocessExternLoop specHost _ (preState constAfterExtern (declTables { id := Identifier.null } [{ id := "A" }]) (.named 0) [] 3 37 38 .closeBrace (.string "g")) = _
  rw [preprocessExternLoop_closeBrace (H := specHost) (s := (preState constAfterExtern (declTables { id := Identifier.null } [{ id := "A" }]) (.named 0) [] 3 37 38 .closeBrace (.string "g")))
      (i := (mkIterator constAfterExtern 39 40 .closeBrace (.string "g"))) rfl (by decide) rfl]
  show preprocessExternLoop specHost _ (preState constAfterExtern (declTables { id := Identifier.null } [{ id := "A" }]) (.named 0) [] 2 39 40 .closeBrace (.string "g")) = _
  rw [preprocessExternLoop_closeBrace (H := specHost) (s := (preState constAfterExtern (declTables { id := Identifier.null } [{ id := "A" }]) (.named 0) [] 2 39 40 .closeBrace (.string "g")))
      (i := (mkIterator constAfterExtern 41 46 .const_ (.string "g"))) rfl (by decide) rfl]
  show preprocessExternLoop specHost _ (preState constAfterExtern (declTables { id := Identifier.null } [{ id := "A" }]) (.named 0) [] 1 41 46 .const_ (.string "g")) = _
  rw [preprocessExternLoop_skip (H := specHost) (s := (preState constAfterExtern (declTables { id := Identifier.null } [{ id := "A" }]) (.named 0) [] 1 41 46 .const_ (.string "g")))
      (i := (mkIterator constAfterExtern 47 50 .var (.string "g"))) (by decide) (by decide) (by decide) rfl]
  show preprocessExternLoop specHost _ (preState constAfterExtern (declTables { id := Identifier.null } [{ id := "A" }]) (.named 0) [] 1 47 50 .var (.string "g")) = _
  rw [preprocessExternLoop_skip (H := specHost) (s := (preState constAfterExtern (declTables { id := Identifier.null } [{ id := "A" }]) (.named 0) [] 1 47 50 .var (.string "g")))
      (i := (mkIterator constAfterExtern 51 52 .identifier (.string "k"))) (by decide) (by decide) (by decide) rfl]
  show preprocessExternLoop specHost _ (preState constAfterExtern (declTables { id := Identifier.null } [{ id := "A" }]) (.named 0) [] 1 51 52 .identifier (.string "k")) = _
  rw [preprocessExternLoop_skip (H := specHost) (s := (preState constAfterExtern (declTables { id := Identifier.null } [{ id := "A" }]) (.named 0) [] 1 51 52 .identifier (.string "k")))
      (i := (mkIterator constAfterExtern 53 54 .assign (.string "k"))) (by decide) (by decide) (by decide) rfl]
  show preprocessExternLoop specHost _ (preState constAfterExtern (declTables { id := Identifier.null } [{ id := "A" }]) (.named 0) [] 1 53 54 .assign (.string "k")) = _
  rw [preprocessExternLoop_skip (H := specHost) (s := (preState constAfterExtern (declTables { id := Identifier.null } [{ id := "A" }]) (.named 0) [] 1 53 54 .assign (.string "k")))
      (i := (mkIterator constAfterExtern 55 56 .literal (.int64 1))) (by decide) (by decide) (by decide) rfl]
  show preprocessExternLoop specHost _ (preState constAfterExtern (declTables { id := Identifier.null } [{ id := "A" }]) (.named 0) [] 1 55 56 .literal (.int64 1)) = _
  rw [preprocessExternLoop_skip (H := specHost) (s := (preState constAfterExtern (declTables { id := Identifier.null } [{ id := "A" }]) (.named 0) [] 1 55 56 .literal (.int64 1)))
      (i := (mkIterator constAfterExtern 56 57 .semicolon (.int64 1))) (by decide) (by decide) (by decide) rfl]
  show preprocessExternLoop specHost _ (preState constAfterExtern (declTables { id := Identifier.null } [{ id := "A" }]) (.named 0) [] 1 56 57 .semicolon (.int64 1)) = _
  rw [preprocessExternLoop_skip (H := specHost) (s := (preState constAfterExtern (declTables { id := Identifier.null } [{ id := "A" }]) (.named 0) [] 1 56 57 .semicolon (.int64 1)))
      (i := (mkIterator constAfterExtern 58 59 .closeBrace (.int64 1))) (by decide) (by decide) (by decide) rfl]
  show preprocessExternLoop specHost _ (preState constAfterExtern (declTables { id := Identifier.null } [{ id := "A" }]) (.named 0) [] 1 58 59 .closeBrace (.int64 1)) = _
  exact preprocessExternLoop_stop (H := specHost) (s := (preState constAfterExtern (declTables { id := Identifier.null } [{ id := "A" }]) (.named 0) [] 1 58 59 .closeBrace (.int64 1))) (Or.inl ⟨rfl, rfl⟩)

theorem constAfterExtern_loop (n : Nat) :
    preprocessCodeLoop specHost (n + 22) (preState constAfterExtern (declTables { id := Identifier.null } []) .root [] 0 0 9 .namespace_ .void_) =
      .ok ((), (preState constAfterExtern (declTables { id := Identifier.null } [{ id := "A" }]) .root [] 0 59 59 .eof (.int64 1))) := by
  rw [preprocessCodeLoop_namespace (H := specHost) (s := (preState constAfterExtern (declTables { id := Identifier.null } []) .root [] 0 0 9 .namespace_ .void_))
      (f := (preState constAfterExtern (declTables { id := Identifier.null } []) .root [] 0 0 9 .namespace_ .void_))
      (i := (mkIterator constAfterExtern 10 11 .identifier (.string "A"))) rfl rfl rfl rfl rfl]
  show preprocessCodeLoop specHost _ (preState constAfterExtern (declTables { id := Identifier.null } [{ id := "A" }]) (.named 0) [] 0 10 11 .identifier (.string "A")) = _
  rw [preprocessCodeLoop_skip (H := specHost) (s := (preState constAfterExtern (declTables { id := Identifier.null } [{ id := "A" }]) (.named 0) [] 0 10 11 .identifier (.string "A")))
      (i := (mkIterator constAfterExtern 12 13 .openBrace (.string "A"))) (by decide) rfl]
  show preprocessCodeLoop specHost _ (preState constAfterExtern (declTables { id := Identifier.null } [{ id := "A" }]) (.named 0) [] 0 12 13 .openBrace (.string "A")) = _
  rw [preprocessCodeLoop_openBrace (H := specHost) (s := (preState constAfterExtern (declTables { id := Identifier.null } [{ id := "A" }]) (.named 0) [] 0 12 13 .openBrace (.string "A")))
      (i := (mkIterator constAfterExtern 14 20 .extern_ (.string "A"))) rfl rfl]
  show preprocessCodeLoop specHost _ (preState constAfterExtern (declTables { id := Identifier.null } [{ id := "A" }]) (.named 0) [] 1 14 20 .extern_ (.string "A")) = _
  rw [preprocessCodeLoop_extern_leave (H := specHost) (s := (preState constAfterExtern (declTables { id := Identifier.null } [{ id := "A" }]) (.named 0) [] 1 14 20 .extern_ (.string "A")))
      (t := (preState constAfterExtern (declTables { id := Identifier.null } [{ id := "A" }]) (.named 0) [] 1 58 59 .closeBrace (.int64 1)))
      (f := (preState constAfterExtern (declTables { id := Identifier.null } [{ id := "A" }]) (.named 0) [] 0 59 59 .eof (.int64 1)))
      (i := (mkIterator constAfterExtern 59 59 .eof (.int64 1))) rfl (constAfterExtern_extern_0 (n + 18) (by omega)) rfl (by decide) (by decide) rfl rfl]
  show preprocessCodeLoop specHost _ (preState constAfterExtern (declTables { id := Identifier.null } [{ id := "A" }]) .root [] 0 59 59 .eof (.int64 1)) = _
  rw [preprocessCodeLoop_eof (H := specHost) (s := (preState constAfterExtern (declTables { id := Identifier.null } [{ id := "A" }]) .root [] 0 59 59 .eof (.int64 1))) rfl rfl]
  rfl

/-- The pre-pass over a constant behind an `extern` block of a namespace. -/
theorem constAfterExtern_prepass (n : Nat) :
    preprocessCode specHost (n + 23) constAfterExtern.toList "" HiseSpecialData.empty =
      .ok (declTables { id := Identifier.null } [{ id := "A" }]) :=
  preprocessCode_eq (show constAfterExtern.toList.isEmpty = false from rfl)
    (show TokenIterator.new specHost constAfterExtern.toList "" = .ok (mkIterator constAfterExtern 0 9 .namespace_ .void_) from rfl)
    (constAfterExtern_loop n)

theorem docThenNote_inline_0 (n : Nat) :
    parseInlineFunctionPreparser specHost (n + 1) .root
        (preState docThenNote (declTables { id := Identifier.null } []) .root [] 0 29 37 .function .void_) =
      .ok ((), (preState docThenNote (declTables { id := Identifier.null, inlineFunctions := [{ name := "f", parameterNames := [], location := ⟨"", 29⟩ }] } []) .root [] 0 42 43 .openBrace (.string "f"))) :=
  parseInlineFunctionPreparser_of_parameters (H := specHost)
    (a := (mkIterator docThenNote 38 39 .identifier (.string "f")))
    (b := (mkIterator docThenNote 39 40 .openParen (.string "f")))
    (c := (mkIterator docThenNote 40 41 .closeParen (.string "f")))
    (d := (mkIterator docThenNote 40 41 .closeParen (.string "f")))
    (e := (mkIterator docThenNote 42 43 .openBrace (.string "f")))
    (f := (mkIterator docThenNote 42 43 .openBrace (.string "f"))) (m := false)
    rfl rfl rfl rfl rfl rfl
    (ParameterList.nil (H := specHost) (i := (mkIterator docThenNote 40 41 .closeParen (.string "f"))) rfl)
    rfl rfl (by simp)

theorem docThenNote_loop (n : Nat) :
    preprocessCodeLoop specHost (n + 5) (preState docThenNote (declTables { id := Identifier.null } []) .root [] 0 22 28 .inline_ .void_) =
      .ok ((), (preState docThenNote (declTables { id := Identifier.null, inlineFunctions := [{ name := "f", parameterNames := [], location := ⟨"", 29⟩ }] } []) .root [] 0 44 44 .eof (.string "f"))) := by
  rw [preprocessCodeLoop_inline (H := specHost) (s := (preState docThenNote (declTables { id := Identifier.null } []) .root [] 0 22 28 .inline_ .void_))
      (t := (preState docThenNote (declTables { id := Identifier.null, inlineFunctions := [{ name := "f", parameterNames := [], location := ⟨"", 29⟩ }] } []) .root [] 0 42 43 .openBrace (.string "f")))
      (i := (mkIterator docThenNote 29 37 .function .void_)) rfl rfl (docThenNote_inline_0 (n + 3))]
  show preprocessCodeLoop specHost _ (preState docThenNote (declTables { id := Identifier.null, inlineFunctions := [{ name := "f", parameterNames := [], location := ⟨"", 29⟩ }] } []) .root [] 0 42 43 .openBrace (.string "f")) = _
  rw [preprocessCodeLoop_openBrace (H := specHost) (s := (preState docThenNote (declTables { id := Identifier.null, inlineFunctions := [{ name := "f", parameterNames := [], location := ⟨"", 29⟩ }] } []) .root [] 0 42 43 .openBrace (.string "f")))
      (i := (mkIterator docThenNote 43 44 .closeBrace (.string "f"))) rfl rfl]
  show preprocessCodeLoop specHost _ (preState docThenNote (declTables { id := Identifier.null, inlineFunctions := [{ name := "f", parameterNames := [], location := ⟨"", 29⟩ }] } []) .root [] 1 43 44 .closeBrace (.string "f")) = _
  rw [preprocessCodeLoop_closeBrace (H := specHost) (s := (preState docThenNote (declTables { id := Identifier.null, inlineFunctions := [{ name := "f", parameterNames := [], location := ⟨"", 29⟩ }] } []) .root [] 1 43 44 .closeBrace (.string "f")))
      (i := (mkIterator docThenNote 44 44 .eof (.string "f"))) rfl rfl rfl]
  show preprocessCodeLoop specHost _ (preState docThenNote (declTables { id := Identifier.null, inlineFunctions := [{ name := "f", parameterNames := [], location := ⟨"", 29⟩ }] } []) .root [] 0 44 44 .eof (.string "f")) = _
  rw [preprocessCodeLoop_eof (H := specHost) (s := (preState docThenNote (declTables { id := Identifier.null, inlineFunctions := [{ name := "f", parameterNames := [], location := ⟨"", 29⟩ }] } []) .root [] 0 44 44 .eof (.string "f"))) rfl rfl]
  rfl

/-- The pre-pass over `docThenNote` registers `f`. -/
theorem docThenNote_prepass (n : Nat) :
    preprocessCode specHost (n + 6) docThenNote.toList "" HiseSpecialData.empty =
      .ok (declTables { id := Identifier.null, inlineFunctions := [{ name := "f", parameterNames := [], location := ⟨"", 29⟩ }] } []) :=
  preprocessCode_eq (show docThenNote.toList.isEmpty = false from rfl)
    (show TokenIterator.new specHost docThenNote.toList "" = .ok (mkIterator docThenNote 22 28 .inline_ .void_) from rfl)
    (docThenNote_loop n)

theorem externAtRoot_extern_0 (m : Nat) (h : 10 ≤ m) :
    preprocessExternLoop specHost m (preState externAtRoot (declTables { id := Identifier.null } []) .root [] 0 0 6 .extern_ .void_) =
      .ok ((), (preState externAtRoot (declTables { id := Identifier.null } []) .root [] 1 25 26 .closeBrace (.string "g"))) := by
  obtain ⟨n, rfl⟩ := Nat.exists_eq_add_of_le' h
  rw [preprocessExternLoop_skip (H := specHost) (s := (preState externAtRoot (declTables { id := Identifier.null } []) .root [] 0 0 6 .extern_ .void_))
      (i := (mkIterator externAtRoot 7 10 .literal (.string "C"))) (by decide) (by decide) (by decide) rfl]
  show preprocessExternLoop specHost _ (preState externAtRoot (declTables { id := Identifier.null } []) .root [] 0 7 10 .literal (.string "C")) = _
  rw [preprocessExternLoop_skip (H := specHost) (s := (preState externAtRoot (declTables { id := Identifier.null } []) .root [] 0 7 10 .literal (.string "C")))
      (i := (mkIterator externAtRoot 11 12 .openBrace (.string "C"))) (by decide) (by decide) (by decide) rfl]
  show preprocessExternLoop specHost _ (preState externAtRoot (declTables { id := Identifier.null } []) .root [] 0 11 12 .openBrace (.string "C")) = _
  rw [preprocessExternLoop_openBrace (H := specHost) (s := (preState externAtRoot (declTables { id := Identifier.null } []) .root [] 0 11 12 .openBrace (.string "C")))
      (i := (mkIterator externAtRoot 13 16 .identifier (.string "int"))) rfl rfl]
  show preprocessExternLoop specHost _ (preState externAtRoot (declTables { id := Identifier.null } []) .root [] 1 13 16 .identifier (.string "int")) = _
  rw [preprocessExternLoop_skip (H := specHost) (s := (preState externAtRoot (declTables { id := Identifier.null } []) .root [] 1 13 16 .identifier (.string "int")))
      (i := (mkIterator externAtRoot 17 18 .identifier (.string "g"))) (by decide) (by decide) (by decide) rfl]
  show preprocessExternLoop specHost _ (preState externAtRoot (declTables { id := Identifier.null } []) .root [] 1 17 18 .identifier (.string "g")) = _
  rw [preprocessExternLoop_skip (H := specHost) (s := (preState externAtRoot (declTables { id := Identifier.null } []) .root [] 1 17 18 .identifier (.string "g")))
      (i := (mkIterator externAtRoot 18 19 .openParen (.string "g"))) (by decide) (by decide) (by decide) rfl]
  show preprocessExternLoop specHost _ (preState externAtRoot (declTables { id := Identifier.null } []) .root [] 1 18 19 .openParen (.string "g")) = _
  rw [preprocessExternLoop_skip (H := specHost) (s := (preState externAtRoot (declTables { id := Identifier.null } []) .root [] 1 18 19 .openParen (.string "g")))
      (i := (mkIterator externAtRoot 19 20 .closeParen (.string "g"))) (by decide) (by decide) (by decide) rfl]
  show preprocessExternLoop specHost _ (preState externAtRoot (declTables { id := Identifier.null } []) .root [] 1 19 20 .closeParen (.string "g")) = _
  rw [preprocessExternLoop_skip (H := specHost) (s := (preState externAtRoot (declTables { id := Identifier.null } []) .root [] 1 19 20 .closeParen (.string "g")))
      (i := (mkIterator externAtRoot 21 22 .openBrace (.string "g"))) (by decide) (by decide) (by decide) rfl]
  show preprocessExternLoop specHost _ (preState externAtRoot (declTables { id := Identifier.null } []) .root [] 1 21 22 .openBrace (.string "g")) = _
  rw [preprocessExternLoop_openBrace (H := specHost) (s := (preState externAtRoot (declTables { id := Identifier.null } []) .root [] 1 21 22 .openBrace (.string "g")))
      (i := (mkIterator externAtRoot 23 24 .closeBrace (.string "g"))) rfl rfl]
  show preprocessExternLoop specHost _ (preState externAtRoot (declTables { id := Identifier.null } []) .root [] 2 23 24 .closeBrace (.string "g")) = _
  rw [preprocessExternLoop_closeBrace (H := specHost) (s := (preState externAtRoot (declTables { id := Identifier.null } []) .root [] 2 23 24 .closeBrace (.string "g")))
      (i := (mkIterator externAtRoot 25 26 .closeBrace (.string "g"))) rfl (by decide) rfl]
  show preprocessExternLoop specHost _ (preState externAtRoot (declTables { id := Identifier.null } []) .root [] 1 25 26 .closeBrace (.string "g")) = _
  exact preprocessExternLoop_stop (H := specHost) (s := (preState externAtRoot (declTables { id := Identifier.null } []) .root [] 1 25 26 .closeBrace (.string "g"))) (Or.inl ⟨rfl, rfl⟩)

theorem externAtRoot_loop (n : Nat) :
    preprocessCodeLoop specHost (n + 17) (preState externAtRoot (declTables { id := Identifier.null } []) .root [] 0 0 6 .extern_ .void_) =
      .ok ((), (preState externAtRoot (declTables { id := Identifier.null, constObjects := [("k", .string "undeclared")], constLocations := [⟨"", 37⟩] } []) .root [] 0 43 43 .eof (.int64 1))) := by
  rw [preprocessCodeLoop_extern_root (H := specHost) (s := (preState externAtRoot (declTables { id := Identifier.null } []) .root [] 0 0 6 .extern_ .void_))
      (t := (preState externAtRoot (declTables { id := Identifier.null } []) .root [] 1 25 26 .closeBrace (.string "g")))
      (i := (mkIterator externAtRoot 27 32 .const_ (.string "g"))) rfl (externAtRoot_extern_0 (n + 16) (by omega)) rfl rfl rfl]
  show preprocessCodeLoop specHost _ (preState externAtRoot (declTables { id := Identifier.null } []) .root [] 0 27 32 .const_ (.string "g")) = _
  rw [preprocessCodeLoop_const (H := specHost) (s := (preState externAtRoot (declTables { id := Identifier.null } []) .root [] 0 27 32 .const_ (.string "g")))
      (a := (mkIterator externAtRoot 33 36 .var (.string "g")))
      (b := (mkIterator externAtRoot 37 38 .identifier (.string "k"))) (m := true) rfl rfl rfl (by decide) (by decide) rfl]
  show preprocessCodeLoop specHost _ (preState externAtRoot (declTables { id := Identifier.null, constLocations := [⟨"", 37⟩] } []) .root ["k"] 0 37 38 .identifier (.string "k")) = _
  rw [preprocessCodeLoop_skip (H := specHost) (s := (preState externAtRoot (declTables { id := Identifier.null, constLocations := [⟨"", 37⟩] } []) .root ["k"] 0 37 38 .identifier (.string "k")))
      (i := (mkIterator externAtRoot 39 40 .assign (.string "k"))) (by decide) rfl]
  show preprocessCodeLoop specHost _ (preState externAtRoot (declTables { id := Identifier.null, constLocations := [⟨"", 37⟩] } []) .root ["k"] 0 39 40 .assign (.string "k")) = _
  rw [preprocessCodeLoop_skip (H := specHost) (s := (preState externAtRoot (declTables { id := Identifier.null, constLocations := [⟨"", 37⟩] } []) .root ["k"] 0 39 40 .assign (.string "k")))
      (i := (mkIterator externAtRoot 41 42 .literal (.int64 1))) (by decide) rfl]
  show preprocessCodeLoop specHost _ (preState externAtRoot (declTables { id := Identifier.null, constLocations := [⟨"", 37⟩] } []) .root ["k"] 0 41 42 .literal (.int64 1)) = _
  rw [preprocessCodeLoop_skip (H := specHost) (s := (preState externAtRoot (declTables { id := Identifier.null, constLocations := [⟨"", 37⟩] } []) .root ["k"] 0 41 42 .literal (.int64 1)))
      (i := (mkIterator externAtRoot 42 43 .semicolon (.int64 1))) (by decide) rfl]
  show preprocessCodeLoop specHost _ (preState externAtRoot (declTables { id := Identifier.null, constLocations := [⟨"", 37⟩] } []) .root ["k"] 0 42 43 .semicolon (.int64 1)) = _
  rw [preprocessCodeLoop_skip (H := specHost) (s := (preState externAtRoot (declTables { id := Identifier.null, constLocations := [⟨"", 37⟩] } []) .root ["k"] 0 42 43 .semicolon (.int64 1)))
      (i := (mkIterator externAtRoot 43 43 .eof (.int64 1))) (by decide) rfl]
  show preprocessCodeLoop specHost _ (preState externAtRoot (declTables { id := Identifier.null, constLocations := [⟨"", 37⟩] } []) .root ["k"] 0 43 43 .eof (.int64 1)) = _
  rw [preprocessCodeLoop_eof (H := specHost) (s := (preState externAtRoot (declTables { id := Identifier.null, constLocations := [⟨"", 37⟩] } []) .root ["k"] 0 43 43 .eof (.int64 1))) rfl rfl]
  rfl

/-- The pre-pass over a constant behind an `extern` block at brace depth 0. -/
theorem externAtRoot_prepass (n : Nat) :
    preprocessCode specHost (n + 18) externAtRoot.toList "" HiseSpecialData.empty =
      .ok (declTables { id := Identifier.null, constObjects := [("k", .string "undeclared")], constLocations := [⟨"", 37⟩] } []) :=
  preprocessCode_eq (show externAtRoot.toList.isEmpty = false from rfl)
    (show TokenIterator.new specHost externAtRoot.toList "" = .ok (mkIterator externAtRoot 0 6 .extern_ .void_) from rfl)
    (externAtRoot_loop n)

/-! ## C31 -/

/-- C31, divergence: `constAfterExtern` declares the constant `k` in the
namespace `A` behind an `extern` block, and passes the pre-pass with no constant
registered, neither in the root namespace nor in `A`: the loop that skips the
`extern` block stops only at a closing brace read at brace depth 1, which inside
a namespace is the closing brace of the namespace. The same block at brace
depth 0 (`externAtRoot`) is skipped alone and the constant behind it is
registered. -/
theorem C31_const_behind_extern_is_not_registered :
    (∃ d : HiseSpecialData,
      preprocessCode specHost 23 constAfterExtern.toList "" HiseSpecialData.empty = .ok d ∧
      d.constObjects = [] ∧ d.constLocations = [] ∧
      d.namespaces.map (fun x => (x.id, x.constObjects, x.constLocations)) = [("A", [], [])]) ∧
    (∃ d : HiseSpecialData,
      preprocessCode specHost 18 externAtRoot.toList "" HiseSpecialData.empty = .ok d ∧
      d.constObjects.map (fun x => x.1) = ["k"]) :=
  ⟨⟨_, constAfterExtern_prepass 0, rfl, rfl, rfl⟩, ⟨_, externAtRoot_prepass 0, rfl⟩⟩

/-! ## Integer literals of any length -/

theorem wrapInt64_congr {a b : Int} (h : a % 2 ^ 64 = b % 2 ^ 64) : wrapInt64 a = wrapInt64 b := by
  unfold wrapInt64
  omega

theorem wrapInt64_idem (a : Int) : wrapInt64 (wrapInt64 a) = wrapInt64 a := by
  unfold wrapInt64
  omega

theorem wrapInt64_emod (a : Int) : wrapInt64 a % 2 ^ 64 = a % 2 ^ 64 := by
  unfold wrapInt64
  omega

/-- One step of a literal loop: wrapping the value read so far changes nothing. -/
theorem wrapInt64_step (v b d : Int) : wrapInt64 (wrapInt64 v * b + d) = wrapInt64 (v * b + d) := by
  apply wrapInt64_congr
  rw [Int.add_emod, Int.mul_emod, wrapInt64_emod, ← Int.mul_emod, ← Int.add_emod]

theorem foldl_emod (b : Int) (g : Char → Int) (ds : List Char) : ∀ v w : Int,
    v % 2 ^ 64 = w % 2 ^ 64 →
    ds.foldl (fun v c => v * b + g c) v % 2 ^ 64 = ds.foldl (fun v c => v * b + g c) w % 2 ^ 64 := by
  induction ds with
  | nil => intro v w h; exact h
  | cons d ds ih =>
    intro v w h
    simp only [List.foldl_cons]
    apply ih
    rw [Int.add_emod, Int.mul_emod, h, ← Int.mul_emod, ← Int.add_emod]

/-- Wrapping after every digit gives the wrapped positional value. -/
theorem foldl_wrapInt64 (b : Int) (g : Char → Int) (ds : List Char) : ∀ v : Int,
    wrapInt64 v = v →
    ds.foldl (fun v c => wrapInt64 (v * b + g c)) v =
      wrapInt64 (ds.foldl (fun v c => v * b + g c) v) := by
  induction ds with
  | nil => intro v h; exact h.symm
  | cons d ds ih =>
    intro v _
    simp only [List.foldl_cons]
    rw [ih _ (wrapInt64_idem _)]
    exact wrapInt64_congr (foldl_emod b g ds _ _ (wrapInt64_emod _))

theorem parseHexLiteralLoop_fold (rest : List Char) (hr : getHexDigitValue (peek rest) < 0) :
    ∀ (ds : List Char) (c : Char) (v : Int), (∀ d ∈ ds, isHexDigit d = true) →
      parseHexLiteralLoop (c :: (ds ++ rest)) v =
        (ds.foldl (fun v c => wrapInt64 (v * 16 + getHexDigitValue c)) v, rest) := by
  intro ds
  induction ds with
  | nil =>
    intro c v _
    rw [parseHexLiteralLoop]
    simp only [List.nil_append, hr, if_true, List.foldl_nil]
  | cons d ds ih =>
    intro c v h
    rw [parseHexLiteralLoop]
    have hd : ¬ getHexDigitValue d < 0 := by
      have := h d (List.mem_cons_self _ _)
      simp only [isHexDigit, decide_eq_true_eq] at this
      omega
    simp only [List.cons_append, peek, List.headD_cons, hd, if_false, List.foldl_cons]
    exact ih d _ (fun x hx => h x (List.mem_cons_of_mem _ hx))

theorem isOctalDigit_iff (c : Char) :
    isOctalDigit c = true ↔ 48 ≤ c.toNat ∧ c.toNat ≤ 55 := by
  simp only [isOctalDigit, Bool.and_eq_true, decide_eq_true_eq, Char.le_def]
  constructor
  · rintro ⟨h1, h2⟩
    exact ⟨h1, h2⟩
  · rintro ⟨h1, h2⟩
    exact ⟨h1, h2⟩

theorem isDigit_of_isOctalDigit {c : Char} (h : isOctalDigit c = true) : isDigit c = true := by
  have := (isOctalDigit_iff c).mp h
  exact (isDigit_iff c).mpr ⟨this.1, by omega⟩

theorem getHexDigitValue_of_isDigit {c : Char} (h : isDigit c = true) :
    getHexDigitValue c = (c.toNat : Int) - 48 := by
  unfold getHexDigitValue
  rw [if_pos]
  simpa [isDigit] using h

theorem isPositiveAndBelow_of_isOctalDigit {c : Char} (h : isOctalDigit c = true) :
    isPositiveAndBelow ((c.toNat : Int) - 48) 8 = true := by
  have := (isOctalDigit_iff c).mp h
  simp only [isPositiveAndBelow, Bool.and_eq_true, decide_eq_true_eq]
  omega

theorem parseOctalLiteralLoop_fold (rest : List Char) (hr : isDigit (peek rest) = false) :
    ∀ (ds : List Char) (c : Char) (v : Int), (∀ d ∈ ds, isOctalDigit d = true) →
      parseOctalLiteralLoop (c :: (ds ++ rest)) v =
        .ok (ds.foldl (fun v c => wrapInt64 (v * 8 + getHexDigitValue c)) v, rest) := by
  intro ds
  induction ds with
  | nil =>
    intro c v _
    rw [parseOctalLiteralLoop]
    rcases octal_digit_cases (peek rest) with ⟨_, h2, h3⟩ | ⟨h1, _⟩ | ⟨h1, _⟩
    · simp only [List.nil_append, h2, h3, Bool.false_eq_true, if_false, List.foldl_nil]
    · rw [h1] at hr; cases hr
    · rw [h1] at hr; cases hr
  | cons d ds ih =>
    intro c v h
    rw [parseOctalLiteralLoop]
    have hd := h d (List.mem_cons_self _ _)
    simp only [List.cons_append, peek, List.headD_cons, isPositiveAndBelow_of_isOctalDigit hd,
      if_true, List.foldl_cons, getHexDigitValue_of_isDigit (isDigit_of_isOctalDigit hd)]
    exact ih d _ (fun x hx => h x (List.mem_cons_of_mem _ hx))

theorem parseDecimalLiteralLoop_fold (rest : List Char) (hr : isDigit (peek rest) = false) :
    ∀ (ds : List Char) (v : Int), (∀ d ∈ ds, isDigit d = true) →
      parseDecimalLiteralLoop (ds ++ rest) v =
        (ds.foldl (fun v c => wrapInt64 (v * 10 + getHexDigitValue c)) v, rest) := by
  intro ds
  induction ds with
  | nil =>
    intro v _
    cases rest with
    | nil => rfl
    | cons r rs =>
      rw [List.nil_append, parseDecimalLiteralLoop]
      simp only [peek, List.headD_cons] at hr
      simp only [decimal_digit_iff, hr, Bool.false_eq_true, if_false, List.foldl_nil]
  | cons d ds ih =>
    intro v h
    rw [List.cons_append, parseDecimalLiteralLoop]
    have hd := h d (List.mem_cons_self _ _)
    simp only [decimal_digit_iff, hd, if_true, List.foldl_cons, getHexDigitValue_of_isDigit hd]
    exact ih _ (fun x hx => h x (List.mem_cons_of_mem _ hx))

theorem dropWhile_isDigit_append {ds rest : List Char} (h : ∀ d ∈ ds, isDigit d = true)
    (hr : isDigit (peek rest) = false) : (ds ++ rest).dropWhile isDigit = rest := by
  induction ds with
  | nil => exact (dropWhile_isDigit_of_not hr).1
  | cons d ds ih =>
    rw [List.cons_append, List.dropWhile_cons, if_pos (h d (List.mem_cons_self _ _))]
    exact ih (fun x hx => h x (List.mem_cons_of_mem _ hx))

/-- A run of digits followed by neither a digit, a `.` nor a well-formed
exponent is not written as a double. -/
theorem isFloatLiteral_digits {ds rest : List Char} (h : ∀ d ∈ ds, isDigit d = true)
    (hr : isDigit (peek rest) = false) (hp : peek rest ≠ '.')
    (he : wellFormedExponent rest = false) : isFloatLiteral (ds ++ rest) = false := by
  have e := dropWhile_isDigit_append h hr
  have hpt : hasPoint (ds ++ rest) = false := by simp [hasPoint, e, hp]
  simp [isFloatLiteral, afterMantissa, hpt, e, he]

theorem wrapInt64_small {v : Int} (h0 : 0 ≤ v) (h1 : v < 16) : wrapInt64 v = v :=
  wrapInt64_eq h0 (lt_of_lt_of_le h1 (by norm_num))

theorem getHexDigitValue_lt (c : Char) : getHexDigitValue c < 16 := by
  unfold getHexDigitValue
  split_ifs with h1 h2 h3
  · have : c.toNat ≤ 57 := h1.2
    omega
  · have : c.toNat ≤ 102 := h2.2
    omega
  · have : c.toNat ≤ 70 := h3.2
    omega
  · omega

/-- The lexer at a hex literal. -/
theorem matchNextToken_hex_value (H : Host) (it : TokenIterator) (x : Char) (ds rest : List Char)
    (hx : x = 'x' ∨ x = 'X') (hne : ds ≠ []) (hds : ∀ d ∈ ds, isHexDigit d = true)
    (hr : isHexDigit (peek rest) = false) (hp : it.p = '0' :: x :: (ds ++ rest)) :
    matchNextToken H it = .ok (.literal, { it with
      currentValue := .int64 (wrapInt64 (positionalValue 16 ds)), p := rest }) := by
  obtain ⟨d, ds, rfl⟩ := List.exists_cons_of_ne_nil hne
  have hd : isDigit (peek it.p) = true := by rw [hp]; rfl
  have hd0 := hds d (List.mem_cons_self _ _)
  simp only [isHexDigit, decide_eq_true_eq] at hd0
  have hr' : getHexDigitValue (peek rest) < 0 := by
    simp only [isHexDigit, decide_eq_false_iff_not] at hr
    omega
  have hh : parseHexLiteral it = .ok (true, { it with
      currentValue := .int64 (wrapInt64 (positionalValue 16 (d :: ds))), p := rest }) := by
    unfold parseHexLiteral
    rw [hp]
    rw [if_neg (by
      simp only [peek, List.headD_cons, List.drop_succ_cons, List.drop_zero, ne_eq,
        not_true_eq_false, false_or, not_and_or, not_not]
      exact hx)]
    simp only [List.drop_succ_cons, List.drop_zero, List.cons_append, peek, List.headD_cons]
    rw [if_neg (by omega)]
    rw [parseHexLiteralLoop_fold rest hr' ds d _ (fun y hy => hds y (List.mem_cons_of_mem _ hy))]
    rw [foldl_wrapInt64 16 getHexDigitValue ds _ (wrapInt64_small hd0 (getHexDigitValue_lt d))]
    simp [positionalValue]
  unfold matchNextToken
  simp only [isIdentifierStart_of_isDigit hd, Bool.false_eq_true, if_false, hd, if_true,
    StM.bind_apply, hh, StM.pure_apply]

/-- The lexer at an octal literal. -/
theorem matchNextToken_octal_value (H : Host) (it : TokenIterator) (ds rest : List Char)
    (hds : ∀ d ∈ ds, isOctalDigit d = true) (hr : isDigit (peek rest) = false)
    (hpt : peek rest ≠ '.') (he : wellFormedExponent rest = false)
    (hx : startsHexLiteral it.p = false) (hp : it.p = '0' :: (ds ++ rest)) :
    matchNextToken H it = .ok (.literal, { it with
      currentValue := .int64 (wrapInt64 (positionalValue 8 ('0' :: ds))), p := rest }) := by
  have hd : isDigit (peek it.p) = true := by rw [hp]; rfl
  have h0 : peek it.p = '0' := by rw [hp]; rfl
  have hdig : ∀ d ∈ '0' :: ds, isDigit d = true := by
    intro d hd
    rcases List.mem_cons.mp hd with e | e
    · rw [e]; rfl
    · exact isDigit_of_isOctalDigit (hds d e)
  have hval : positionalValue 8 ('0' :: ds) =
      ds.foldl (fun v c => v * 8 + getHexDigitValue c) 0 := by
    simp [positionalValue, getHexDigitValue]
  by_cases hpre : peek (it.p.drop 1) = 'x' ∨ peek (it.p.drop 1) = 'X'
  · -- `0x` without a hex digit behind it
    have hnil : ds = [] := by
      cases ds with
      | nil => rfl
      | cons d ds =>
        exfalso
        have hd1 := hds d (List.mem_cons_self _ _)
        rw [hp] at hpre
        simp only [List.drop_succ_cons, List.drop_zero, List.cons_append, peek,
          List.headD_cons] at hpre
        rcases hpre with e | e <;> rw [e] at hd1 <;> exact absurd hd1 (by decide)
    subst hnil
    have hv : getHexDigitValue (peek (it.p.drop 2)) < 0 := by
      simp only [startsHexLiteral, h0, decide_True, Bool.true_and, Bool.and_eq_false_iff,
        Bool.or_eq_false_iff, decide_eq_false_iff_not, isHexDigit] at hx
      rcases hx with hx | hx
      · exact absurd hpre (by rw [not_or]; exact hx)
      · omega
    rw [ matchNextToken_hex_prefix h0 hpre hv, hval, hp]
    simp [wrapInt64]
  · have hfl : isFloatLiteral it.p = false := by
      rw [hp, ← List.cons_append]
      exact isFloatLiteral_digits hdig hr hpt he
    unfold matchNextToken
    simp only [isIdentifierStart_of_isDigit hd, Bool.false_eq_true, if_false, hd, if_true,
      StM.bind_apply, parseHexLiteral_of_no_prefix (fun e => hpre e.2),
      parseFloatLiteral_eq it (Or.inl hd), hfl, StM.pure_apply]
    unfold parseOctalLiteral
    simp only [h0]
    rw [hp, show ((('0' : Char).toNat : Int) - 48) = 0 from rfl, if_neg (by decide),
      parseOctalLiteralLoop_fold rest hr ds '0' 0 hds,
      foldl_wrapInt64 8 getHexDigitValue ds 0 rfl, hval]
    rfl

/-- The lexer at a decimal literal. -/
theorem matchNextToken_decimal_value (H : Host) (it : TokenIterator) (ds rest : List Char)
    (hne : ds ≠ []) (h0 : peek ds ≠ '0') (hds : ∀ d ∈ ds, isDigit d = true)
    (hr : isDigit (peek rest) = false) (hpt : peek rest ≠ '.')
    (he : wellFormedExponent rest = false) (hp : it.p = ds ++ rest) :
    matchNextToken H it = .ok (.literal, { it with
      currentValue := .int64 (wrapInt64 (positionalValue 10 ds)), p := rest }) := by
  obtain ⟨d, ds', rfl⟩ := List.exists_cons_of_ne_nil hne
  have hd : isDigit (peek it.p) = true := by
    rw [hp]
    exact hds d (List.mem_cons_self _ _)
  have h0' : peek it.p ≠ '0' := by rw [hp]; exact h0
  have hfl : isFloatLiteral it.p = false := by
    rw [hp]
    exact isFloatLiteral_digits hds hr hpt he
  rw [matchNextToken_decimal_run hd h0' hfl, hp, dropWhile_isDigit_append hds hr,
    parseDecimalLiteralLoop_fold rest hr _ 0 hds, foldl_wrapInt64 10 getHexDigitValue _ 0 rfl]
  rfl

/-- C32: for every hex literal `0x` + ds (ds a non-empty string of hex digits,
followed by no further hex digit), every octal literal `0` + ds (ds octal
digits, followed by neither a digit, a `.` nor an exponent, the text not being
a hex literal) and every decimal literal ds (first digit not 0, followed by
neither a digit, a `.` nor an exponent), the lexer yields an integer literal
whose value is the positional value of the digits in base 16, 8 or 10 reduced
to the signed 64-bit range, and leaves the cursor directly after the last
digit. -/
theorem C32_integer_literal_value (H : Host) (it : TokenIterator) (ds rest : List Char) :
    (∀ x : Char, (x = 'x' ∨ x = 'X') → ds ≠ [] → (∀ d ∈ ds, isHexDigit d = true) →
      isHexDigit (peek rest) = false → it.p = '0' :: x :: (ds ++ rest) →
      matchNextToken H it = .ok (.literal, { it with
        currentValue := .int64 (wrapInt64 (positionalValue 16 ds)), p := rest })) ∧
    ((∀ d ∈ ds, isOctalDigit d = true) → isDigit (peek rest) = false → peek rest ≠ '.' →
      wellFormedExponent rest = false → startsHexLiteral it.p = false →
      it.p = '0' :: (ds ++ rest) →
      matchNextToken H it = .ok (.literal, { it with
        currentValue := .int64 (wrapInt64 (positionalValue 8 ('0' :: ds))), p := rest })) ∧
    (ds ≠ [] → peek ds ≠ '0' → (∀ d ∈ ds, isDigit d = true) → isDigit (peek rest) = false →
      peek rest ≠ '.' → wellFormedExponent rest = false → it.p = ds ++ rest →
      matchNextToken H it = .ok (.literal, { it with
        currentValue := .int64 (wrapInt64 (positionalValue 10 ds)), p := rest })) :=
  ⟨fun x hx hne hds hr hp => matchNextToken_hex_value H it x ds rest hx hne hds hr hp,
   fun hds hr hpt he hx hp => matchNextToken_octal_value H it ds rest hds hr hpt he hx hp,
   fun hne h0 hds hr hpt he hp => matchNextToken_decimal_value H it ds rest hne h0 hds hr hpt he hp⟩

theorem C32_integer_literal_value_witness :
    matchNextToken specHost (lexerAt "0xFFFFFFFFFFFFFFFF;") = .ok (.literal,
      { lexerAt "0xFFFFFFFFFFFFFFFF;" with currentValue := .int64 (-1), p := ";".toList }) ∧
    matchNextToken specHost (lexerAt "017 ") = .ok (.literal,
      { lexerAt "017 " with currentValue := .int64 15, p := " ".toList }) ∧
    matchNextToken specHost (lexerAt "18446744073709551617+1") = .ok (.literal,
      { lexerAt "18446744073709551617+1" with currentValue := .int64 1, p := "+1".toList }) :=
  ⟨(C32_integer_literal_value specHost (lexerAt "0xFFFFFFFFFFFFFFFF;")
      "FFFFFFFFFFFFFFFF".toList ";".toList).1 'x' (Or.inl rfl) (fun e => by cases e)
      (by decide) rfl rfl,
   (C32_integer_literal_value specHost (lexerAt "017 ") "17".toList " ".toList).2.1
      (by decide) rfl (by decide) rfl rfl rfl,
   (C32_integer_literal_value specHost (lexerAt "18446744073709551617+1")
      "18446744073709551617".toList "+1".toList).2.2 (fun e => by cases e) (by decide)
      (by decide) rfl (by decide) rfl rfl⟩

/-! ## The messages of the lexer at literals -/

theorem parseQuotedStringBody_messages (quote : Char) (p acc : List Char) (e : String)
    (h : parseQuotedStringBody quote p acc = .error e) :
    e = "Unexpected end-of-input in string constant" ∨
      e = "Syntax error in unicode escape sequence" := by
  induction p, acc using parseQuotedStringBody.induct quote with
  | case1 acc =>
    rw [parseQuotedStringBody] at h
    cases h
    exact Or.inl rfl
  | case2 a b c d rest acc hv =>
    rw [parseQuotedStringBody, if_pos hv] at h
    cases h
    exact Or.inr rfl
  | case3 a b c d rest acc hv v hz =>
    rw [parseQuotedStringBody, if_neg hv] at h
    simp only [] at h
    rw [if_pos hz] at h
    cases h
    exact Or.inl rfl
  | case4 a b c d rest acc hv v hz ih =>
    rw [parseQuotedStringBody, if_neg hv] at h
    simp only [] at h
    rw [if_neg hz] at h
    exact ih h
  | case5 tail x hn =>
    rw [parseQuotedStringBody] at h
    · cases h
      exact Or.inr rfl
    · exact hn
  | case6 c rest acc hn hu ih =>
    rw [parseQuotedStringBody] at h
    · exact ih h
    · exact hn
    · exact hu
  | case7 x =>
    rw [parseQuotedStringBody] at h
    cases h
    exact Or.inl rfl
  | case8 rest acc h1 h2 h3 h4 =>
    rw [parseQuotedStringBody] at h
    · rw [if_pos rfl] at h
      cases h
    all_goals assumption
  | case9 c rest acc h1 h2 h3 h4 hq ih =>
    rw [parseQuotedStringBody] at h
    · rw [if_neg hq] at h
      exact ih h
    all_goals assumption

theorem parseOctalLiteralLoop_messages : ∀ (p : List Char) (v : Int) (e : String),
    parseOctalLiteralLoop p v = .error e → e = "Decimal digit in octal constant" := by
  intro p
  induction p with
  | nil => intro v e h; rw [parseOctalLiteralLoop] at h; cases h
  | cons c t ih =>
    intro v e h
    rw [parseOctalLiteralLoop] at h
    split_ifs at h with h1 h2
    · exact ih _ _ h
    · cases h; rfl

theorem parseHexLiteral_total (it : TokenIterator) : ∃ b it', parseHexLiteral it = .ok (b, it') := by
  unfold parseHexLiteral
  simp only []
  split_ifs <;> exact ⟨_, _, rfl⟩

theorem parseFloatLiteral_total (it : TokenIterator) :
    ∃ b it', parseFloatLiteral it = .ok (b, it') := by
  rcases parseFloatLiteral_shape it with h | ⟨_, _, h⟩ <;> exact ⟨_, _, h⟩

theorem parseOctalLiteral_cases (it : TokenIterator) :
    (∃ b it', parseOctalLiteral it = .ok (b, it')) ∨
      parseOctalLiteral it = .error "Decimal digit in octal constant" := by
  unfold parseOctalLiteral
  simp only []
  split_ifs
  · exact Or.inl ⟨_, _, rfl⟩
  · cases h : parseOctalLiteralLoop it.p ((peek it.p).toNat - 48) with
    | error e =>
      rw [parseOctalLiteralLoop_messages _ _ _ h]
      exact Or.inr rfl
    | ok r => exact Or.inl ⟨_, _, rfl⟩

/-- `parseDecimalLiteral` always succeeds. -/
theorem parseDecimalLiteral_total (it : TokenIterator) :
    parseDecimalLiteral it = .ok (true, { it with
      currentValue := .int64 (parseDecimalLiteralLoop it.p 0).1,
      p := (parseDecimalLiteralLoop it.p 0).2 }) := rfl

/-- At a digit the lexer yields a literal or fails on a decimal digit in an
octal constant. -/
theorem matchNextToken_digit_cases (H : Host) (it : TokenIterator)
    (hd : isDigit (peek it.p) = true) :
    (∃ it', matchNextToken H it = .ok (.literal, it')) ∨
      matchNextToken H it = .error "Decimal digit in octal constant" := by
  unfold matchNextToken
  simp only [isIdentifierStart_of_isDigit hd, Bool.false_eq_true, if_false, hd, if_true,
    StM.bind_apply]
  obtain ⟨b1, it1, h1⟩ := parseHexLiteral_total it
  rw [h1]
  cases b1
  · simp only [Bool.false_eq_true, if_false, StM.bind_apply]
    obtain ⟨b2, it2, h2⟩ := parseFloatLiteral_total it1
    rw [h2]
    cases b2
    · simp only [Bool.false_eq_true, if_false, StM.bind_apply]
      rcases parseOctalLiteral_cases it2 with ⟨b3, it3, h3⟩ | h3
      · rw [h3]
        cases b3
        · simp only [Bool.false_eq_true, if_false, StM.bind_apply, parseDecimalLiteral_total,
            if_true]
          exact Or.inl ⟨_, rfl⟩
        · exact Or.inl ⟨_, rfl⟩
      · rw [h3]
        exact Or.inr rfl
    · exact Or.inl ⟨_, rfl⟩
  · exact Or.inl ⟨_, rfl⟩

theorem unexpectedCharacter_ne (c : Char) :
    "Unexpected character '" ++ String.mk [c] ++ "' in source" ≠
      "Syntax error in numeric constant" := by
  intro h
  have := congrArg String.data h
  simp at this

theorem matchOperatorOrEof_ne (H : Host) (it : TokenIterator) :
    matchOperatorOrEof H it ≠ .error "Syntax error in numeric constant" := by
  unfold matchOperatorOrEof
  split
  · intro h; cases h
  · split_ifs
    · intro h; cases h
    · intro h
      exact unexpectedCharacter_ne _ (Res.error.inj h)

/-- The lexer never reports a syntax error in a numeric constant. -/
theorem matchNextToken_ne_numeric_error (H : Host) (it : TokenIterator) :
    matchNextToken H it ≠ .error "Syntax error in numeric constant" := by
  by_cases hi : isIdentifierStart (peek it.p) = true
  · unfold matchNextToken
    rw [if_pos hi]
    simp only []
    split <;> intro h <;> cases h
  · by_cases hd : isDigit (peek it.p) = true
    · rcases matchNextToken_digit_cases H it hd with ⟨_, h⟩ | h <;> rw [h] <;> intro e
      · cases e
      · exact absurd (Res.error.inj e) (by decide)
    · unfold matchNextToken
      rw [if_neg hi, if_neg hd]
      simp only [StM.bind_apply]
      have hs : (∃ b it', parseStringLiteral (peek it.p) it = .ok (b, it')) ∨
          ∃ e, parseStringLiteral (peek it.p) it = .error e ∧
            (e = "Unexpected end-of-input in string constant" ∨
              e = "Syntax error in unicode escape sequence") := by
        unfold parseStringLiteral
        split_ifs
        · exact Or.inl ⟨_, _, rfl⟩
        · cases h : parseQuotedStringBody (peek it.p) (it.p.drop 1) [] with
          | error e => exact Or.inr ⟨e, rfl, parseQuotedStringBody_messages _ _ _ _ h⟩
          | ok r => exact Or.inl ⟨_, _, rfl⟩
      rcases hs with ⟨b, it1, h1⟩ | ⟨e, h1, he⟩
      · rw [h1]
        cases b
        · simp only [Bool.false_eq_true, if_false, StM.bind_apply]
          have hf : ∃ b it', (if peek it.p = '.' then parseFloatLiteral else pure false) it1 =
              .ok (b, it') := by
            split_ifs
            · exact parseFloatLiteral_total it1
            · exact ⟨_, _, rfl⟩
          obtain ⟨b2, it2, h2⟩ := hf
          rw [h2]
          cases b2
          · simp only [Bool.false_eq_true, if_false]
            exact matchOperatorOrEof_ne H it2
          · intro e; cases e
        · intro e; cases e
      · rw [h1]
        rcases he with rfl | rfl <;> intro e <;> exact absurd (Res.error.inj e) (by decide)

/-- The lexer at a name that is no keyword. -/
theorem matchNextToken_name (H : Host) (it : TokenIterator) (x : Char) (rest : List Char)
    (hx : isIdentifierStart x = true) (hk : ∀ k ∈ H.keywords, peek k.1 ≠ x)
    (hp : it.p = x :: rest) :
    matchNextToken H it = .ok (.identifier, { it with
      currentValue := .string (String.mk (x :: rest.takeWhile isIdentifierBody)),
      p := rest.dropWhile isIdentifierBody }) := by
  have hf : H.keywords.find? (fun k => k.1 = x :: rest.takeWhile isIdentifierBody) = none := by
    rw [List.find?_eq_none]
    intro k hm e
    apply hk k hm
    rw [of_decide_eq_true e]
    rfl
  unfold matchNextToken
  rw [hp]
  simp only [peek, List.headD_cons, hx, if_true, List.take_succ_cons, List.take_zero,
    List.drop_succ_cons, List.drop_zero, List.singleton_append, hf]

/-- A call of `skip` from its two steps. -/
theorem skip_of_steps {H : Host} {it jt kt : TokenIterator} {t : TokenType}
    (h1 : skipWhitespaceAndComments it = .ok ((), jt))
    (h2 : matchNextToken H { jt with location := { jt.location with location := jt.p } } =
      .ok (t, kt)) :
    TokenIterator.skip H it = .ok ((), { kt with currentType := t }) := by
  unfold TokenIterator.skip
  simp only [StM.bind_apply, h1, StM.modify_apply, h2]

/-- C33: `parseDecimalLiteral` always succeeds, and `matchNextToken` never
fails with "Syntax error in numeric constant"; at `0x` or `0X` followed by a
character that is no hex digit the lexer yields an integer literal of value 0
with the cursor on the `x`, and, no keyword starting with that letter, the next
token is the identifier that starts with the `x`. -/
theorem C33_numeric_fallback (H : Host) (it : TokenIterator) :
    (∃ it', parseDecimalLiteral it = .ok (true, it')) ∧
    matchNextToken H it ≠ .error "Syntax error in numeric constant" ∧
    ∀ (x : Char) (rest : List Char), (x = 'x' ∨ x = 'X') → isHexDigit (peek rest) = false →
      (∀ k ∈ H.keywords, peek k.1 ≠ x) → it.p = '0' :: x :: rest →
      matchNextToken H it =
        .ok (.literal, { it with currentValue := .int64 0, p := x :: rest }) ∧
      TokenIterator.skip H it = .ok ((), { it with
        location := { it.location with location := '0' :: x :: rest },
        currentType := .literal, currentValue := .int64 0, p := x :: rest }) ∧
      TokenIterator.skip H { it with
        location := { it.location with location := '0' :: x :: rest },
        currentType := .literal, currentValue := .int64 0, p := x :: rest } =
        .ok ((), { it with
          location := { it.location with location := x :: rest },
          currentType := .identifier,
          currentValue := .string (String.mk (x :: rest.takeWhile isIdentifierBody)),
          p := rest.dropWhile isIdentifierBody }) := by
  refine ⟨⟨_, parseDecimalLiteral_total it⟩, matchNextToken_ne_numeric_error H it, ?_⟩
  intro x rest hx hr hk hp
  have hxs : isIdentifierStart x = true := by rcases hx with e | e <;> rw [e] <;> rfl
  have hxw : isWhitespace x = false := by rcases hx with e | e <;> rw [e] <;> rfl
  have hxn : x ≠ '/' := by rcases hx with e | e <;> rw [e] <;> decide
  have hv : getHexDigitValue (peek rest) < 0 := by
    simp only [isHexDigit, decide_eq_false_iff_not] at hr
    omega
  have hm : ∀ jt : TokenIterator, jt.p = '0' :: x :: rest →
      matchNextToken H jt = .ok (.literal, { jt with currentValue := .int64 0, p := x :: rest }) := by
    intro jt hq
    have : matchNextToken H jt =
        .ok (.literal, { jt with currentValue := .int64 0, p := jt.p.drop 1 }) :=
      matchNextToken_hex_prefix (by rw [hq]; rfl) (by rw [hq]; exact hx) (by rw [hq]; exact hv)
    rw [this, hq]
    rfl
  refine ⟨hm it hp, ?_, ?_⟩
  · rw [skip_of_steps (skipWhitespaceAndComments_of_start it hp (by rfl) (by decide))
      (hm _ hp), hp]
  · rw [skip_of_steps (skipWhitespaceAndComments_of_start _ rfl hxw hxn)
      (matchNextToken_name H _ x rest hxs hk rfl)]

theorem C33_numeric_fallback_witness :
    matchNextToken specHost (lexerAt "0xg") =
      .ok (.literal, { lexerAt "0xg" with currentValue := .int64 0, p := "xg".toList }) ∧
    TokenIterator.skip specHost (lexerAt "0xg") = .ok ((), { lexerAt "0xg" with
      currentType := .literal, currentValue := .int64 0, p := "xg".toList }) ∧
    TokenIterator.skip specHost { lexerAt "0xg" with
      currentType := .literal, currentValue := .int64 0, p := "xg".toList } =
      .ok ((), { lexerAt "0xg" with
        location := { (lexerAt "0xg").location with location := "xg".toList },
        currentType := .identifier, currentValue := .string "xg", p := [] }) :=
  (C33_numeric_fallback specHost (lexerAt "0xg")).2.2 'x' "g".toList (Or.inl rfl) rfl
    (by decide) rfl

/-! ## The rounds of the comment loop -/

theorem eq_cons_of_peek {p : List Char} {c : Char} (h : peek p = c) (hc : c ≠ Char.ofNat 0) :
    ∃ t, p = c :: t := by
  cases p with
  | nil => exact absurd h.symm hc
  | cons x t => exact ⟨t, by simpa [peek] using h⟩

theorem length_findSubstring_le (sub : List Char) :
    ∀ xs : List Char, (findSubstring sub xs).length ≤ xs.length := by
  intro xs
  induction xs with
  | nil => simp [findSubstring]
  | cons x xs ih =>
    rw [findSubstring]
    split_ifs
    · exact le_refl _
    · exact le_trans ih (Nat.le_succ _)

/-- A round of the comment loop at a line comment. -/
theorem skipWhitespaceAndCommentsLoop_line {n : Nat} {it : TokenIterator}
    (h1 : peek (it.p.dropWhile isWhitespace) = '/')
    (h2 : peek ((it.p.dropWhile isWhitespace).drop 1) = '/') :
    skipWhitespaceAndCommentsLoop (n + 1) it =
      skipWhitespaceAndCommentsLoop n { it with
        p := findChar '\n' (it.p.dropWhile isWhitespace) } := by
  rw [skipWhitespaceAndCommentsLoop]
  simp only [h1, h2, if_true]

/-- A round of the comment loop at a block comment. -/
theorem skipWhitespaceAndCommentsLoop_block {n : Nat} {it : TokenIterator}
    (h1 : peek (it.p.dropWhile isWhitespace) = '/')
    (h2 : peek ((it.p.dropWhile isWhitespace).drop 1) = '*') :
    skipWhitespaceAndCommentsLoop (n + 1) it =
      if (findSubstring "*/".toList ((it.p.dropWhile isWhitespace).drop 2)).isEmpty then
        .error "Unterminated '/*' comment"
      else skipWhitespaceAndCommentsLoop n { it with
        location := { it.location with location := it.p.dropWhile isWhitespace },
        lastComment := String.mk (trim (fromFirstOccurrenceOf "/**".toList
          (upToFirstOccurrenceOf "*/".toList (it.p.dropWhile isWhitespace)))),
        p := (findSubstring "*/".toList ((it.p.dropWhile isWhitespace).drop 2)).drop 2 } := by
  rw [skipWhitespaceAndCommentsLoop]
  simp only [h1, h2, if_true, show ('*' : Char) ≠ '/' by decide, if_false]

/-- A round of the comment loop at text that starts no comment. -/
theorem skipWhitespaceAndCommentsLoop_stop {n : Nat} {it : TokenIterator}
    (h : peek (it.p.dropWhile isWhitespace) ≠ '/' ∨
      (peek ((it.p.dropWhile isWhitespace).drop 1) ≠ '/' ∧
        peek ((it.p.dropWhile isWhitespace).drop 1) ≠ '*')) :
    skipWhitespaceAndCommentsLoop (n + 1) it =
      .ok ((), { it with p := it.p.dropWhile isWhitespace }) := by
  rw [skipWhitespaceAndCommentsLoop]
  rcases h with h | h
  · simp only [h, if_false]
  · simp only [h.1, h.2, if_false, ite_self]

theorem length_findChar_line {p : List Char} (h1 : peek p = '/') (h2 : peek (p.drop 1) = '/') :
    (findChar '\n' p).length + 2 ≤ p.length := by
  obtain ⟨t, rfl⟩ := eq_cons_of_peek h1 (by decide)
  obtain ⟨u, hu⟩ := eq_cons_of_peek (p := t) h2 (by decide)
  subst hu
  simp only [findChar, List.dropWhile_cons, show (decide ('/' ≠ '\n')) = true by decide, if_true,
    List.length_cons]
  have := length_dropWhile_le (fun d => decide (d ≠ '\n')) u
  omega

theorem length_block_le {p : List Char} (h1 : peek p = '/') (h2 : peek (p.drop 1) = '*') :
    ((findSubstring "*/".toList (p.drop 2)).drop 2).length + 2 ≤ p.length := by
  obtain ⟨t, rfl⟩ := eq_cons_of_peek h1 (by decide)
  obtain ⟨u, hu⟩ := eq_cons_of_peek (p := t) h2 (by decide)
  subst hu
  have := length_findSubstring_le "*/".toList u
  simp only [List.drop_succ_cons, List.drop_zero, List.length_drop, List.length_cons]
  omega

/-- The comment loop ends: with more fuel than the text has characters it
fails on an unterminated comment or stops at a text that is not longer, and it
changes neither the current token nor its value. -/
theorem skipWhitespaceAndCommentsLoop_total :
    ∀ (n : Nat) (it : TokenIterator), it.p.length < n →
      skipWhitespaceAndCommentsLoop n it = .error "Unterminated '/*' comment" ∨
      ∃ it', skipWhitespaceAndCommentsLoop n it = .ok ((), it') ∧
        it'.p.length ≤ it.p.length ∧ it'.currentType = it.currentType ∧
        it'.currentValue = it.currentValue := by
  intro n
  induction n with
  | zero => intro it h; omega
  | succ n ih =>
    intro it h
    have hw := length_dropWhile_le isWhitespace it.p
    by_cases h1 : peek (it.p.dropWhile isWhitespace) = '/'
    · by_cases h2 : peek ((it.p.dropWhile isWhitespace).drop 1) = '/'
      · rw [skipWhitespaceAndCommentsLoop_line h1 h2]
        have hl := length_findChar_line h1 h2
        rcases ih { it with p := findChar '\n' (it.p.dropWhile isWhitespace) }
          (by show (findChar '\n' (it.p.dropWhile isWhitespace)).length < n; omega) with e | e
        · exact Or.inl e
        · obtain ⟨it', e1, e2, e3, e4⟩ := e
          refine Or.inr ⟨it', e1, ?_, e3, e4⟩
          have : it'.p.length ≤ (findChar '\n' (it.p.dropWhile isWhitespace)).length := e2
          omega
      · by_cases h3 : peek ((it.p.dropWhile isWhitespace).drop 1) = '*'
        · rw [skipWhitespaceAndCommentsLoop_block h1 h3]
          split_ifs with hq
          · exact Or.inl rfl
          · have hl := length_block_le h1 h3
            rcases ih { it with
              location := { it.location with location := it.p.dropWhile isWhitespace },
              lastComment := String.mk (trim (fromFirstOccurrenceOf "/**".toList
                (upToFirstOccurrenceOf "*/".toList (it.p.dropWhile isWhitespace)))),
              p := (findSubstring "*/".toList ((it.p.dropWhile isWhitespace).drop 2)).drop 2 }
              (by
                show ((findSubstring "*/".toList
                  ((it.p.dropWhile isWhitespace).drop 2)).drop 2).length < n
                omega) with e | e
            · exact Or.inl e
            · obtain ⟨it', e1, e2, e3, e4⟩ := e
              refine Or.inr ⟨it', e1, ?_, e3, e4⟩
              have : it'.p.length ≤ ((findSubstring "*/".toList
                  ((it.p.dropWhile isWhitespace).drop 2)).drop 2).length := e2
              omega
        · rw [skipWhitespaceAndCommentsLoop_stop (Or.inr ⟨h2, h3⟩)]
          exact Or.inr ⟨_, rfl, hw, rfl, rfl⟩
    · rw [skipWhitespaceAndCommentsLoop_stop (Or.inl h1)]
      exact Or.inr ⟨_, rfl, hw, rfl, rfl⟩

/-- `skipWhitespaceAndComments` ends for every text. -/
theorem skipWhitespaceAndComments_total (it : TokenIterator) :
    skipWhitespaceAndComments it = .error "Unterminated '/*' comment" ∨
    ∃ it', skipWhitespaceAndComments it = .ok ((), it') ∧
      it'.p.length ≤ it.p.length ∧ it'.currentType = it.currentType ∧
      it'.currentValue = it.currentValue :=
  skipWhitespaceAndCommentsLoop_total _ it (Nat.lt_succ_self _)


/-- The comment loop over whitespace and line comments changes the cursor
only. -/
theorem skipWhitespaceAndCommentsLoop_lines {p q : List Char} (h : LineComments p q) :
    ∀ (n : Nat) (it : TokenIterator), it.p = p → p.length < n →
      skipWhitespaceAndCommentsLoop n it = .ok ((), { it with p := q }) := by
  induction h with
  | stop p hs =>
    intro n it hp hn
    obtain ⟨m, rfl⟩ : ∃ m, n = m + 1 := ⟨n - 1, by omega⟩
    rw [skipWhitespaceAndCommentsLoop_stop (by rw [hp]; exact hs), hp]
  | line p q h1 h2 _ ih =>
    intro n it hp hn
    obtain ⟨m, rfl⟩ : ∃ m, n = m + 1 := ⟨n - 1, by omega⟩
    rw [skipWhitespaceAndCommentsLoop_line (by rw [hp]; exact h1) (by rw [hp]; exact h2)]
    have hl := length_findChar_line h1 h2
    have hw := length_dropWhile_le isWhitespace p
    rw [ih m _ (by rw [hp]) (by omega)]

theorem skipWhitespaceAndComments_lines {it : TokenIterator} {q : List Char}
    (h : LineComments it.p q) : skipWhitespaceAndComments it = .ok ((), { it with p := q }) :=
  skipWhitespaceAndCommentsLoop_lines h _ it rfl (Nat.lt_succ_self _)

theorem fromFirstOccurrenceOf_of_not_infix (sub : List Char) :
    ∀ xs : List Char, ¬ sub <:+: xs → fromFirstOccurrenceOf sub xs = [] := by
  intro xs
  induction xs with
  | nil => intro _; rfl
  | cons x xs ih =>
    intro h
    rw [fromFirstOccurrenceOf, if_neg]
    · exact ih (fun e => h (List.infix_cons e))
    · intro e
      exact h (List.isPrefixOf_iff_prefix.mp e).isInfix

theorem upToFirstOccurrenceOf_prefix (sub rest : List Char) :
    ∀ xs : List Char, upToFirstOccurrenceOf sub (xs ++ (sub ++ rest)) <+: xs := by
  intro xs
  induction xs with
  | nil =>
    cases hs : sub ++ rest with
    | nil => simp [upToFirstOccurrenceOf]
    | cons y ys =>
      rw [List.nil_append, upToFirstOccurrenceOf, if_pos]
      rw [← hs]
      exact List.isPrefixOf_iff_prefix.mpr (List.prefix_append _ _)
  | cons x xs ih =>
    rw [List.cons_append, upToFirstOccurrenceOf]
    split_ifs
    · exact List.nil_prefix
    · exact (List.prefix_cons_inj x).mpr ih

/-- The lexer at a block comment `/* c */` that is followed by whitespace and
line comments only. -/
theorem skipWhitespaceAndComments_blockComment {it : TokenIterator} {c rest q : List Char}
    (hp : it.p.dropWhile isWhitespace = '/' :: '*' :: (c ++ ("*/".toList ++ rest)))
    (hc : ¬ "*/".toList <:+: c) (hr : LineComments rest q) :
    skipWhitespaceAndComments it = .ok ((), { it with
      location := { it.location with location := it.p.dropWhile isWhitespace }
      lastComment := String.mk (trim (fromFirstOccurrenceOf "/**".toList
        (upToFirstOccurrenceOf "*/".toList (it.p.dropWhile isWhitespace))))
      p := q }) := by
  have hw := length_dropWhile_le isWhitespace it.p
  have hlen : rest.length + 4 ≤ it.p.length := by
    have := congrArg List.length hp
    simp only [List.length_cons, List.length_append, String.toList] at this
    simp only [List.length_cons, List.length_nil] at this
    omega
  obtain ⟨m, hm⟩ : ∃ m, it.p.length + 1 = m + 1 := ⟨_, rfl⟩
  unfold skipWhitespaceAndComments
  rw [hm, skipWhitespaceAndCommentsLoop_block (by rw [hp]; rfl) (by rw [hp]; rfl)]
  have h2 : findSubstring "*/".toList ((it.p.dropWhile isWhitespace).drop 2) =
      "*/".toList ++ rest := by
    rw [hp]
    exact (firstOccurrence_closing rest c hc).2
  rw [h2, if_neg (by simp [String.toList])]
  rw [skipWhitespaceAndCommentsLoop_lines hr m _ (by simp [String.toList]) (by omega)]

/-- The lexer at a block comment that holds no `/**`: the last comment is
emptied. -/
theorem skipWhitespaceAndComments_plainComment {it : TokenIterator} {c rest q : List Char}
    (hp : it.p.dropWhile isWhitespace = '/' :: '*' :: (c ++ ("*/".toList ++ rest)))
    (hc : ¬ "*/".toList <:+: c) (hd : ¬ "/**".toList <:+: '/' :: '*' :: c)
    (hr : LineComments rest q) :
    skipWhitespaceAndComments it = .ok ((), { it with
      location := { it.location with location := it.p.dropWhile isWhitespace }
      lastComment := ""
      p := q }) := by
  rw [skipWhitespaceAndComments_blockComment hp hc hr]
  have h1 : fromFirstOccurrenceOf "/**".toList
      (upToFirstOccurrenceOf "*/".toList (it.p.dropWhile isWhitespace)) = [] := by
    apply fromFirstOccurrenceOf_of_not_infix
    intro e
    apply hd
    have hpre := upToFirstOccurrenceOf_prefix "*/".toList rest ('/' :: '*' :: c)
    rw [hp]  at e
    exact e.trans hpre.isInfix
  rw [h1]
  rfl


/-- Counterexample to C34: the comment `/* a /** b */` opens with `/*` and not
with `/**` and is terminated, and the lexer that skips it sets the last comment
to `b`, not to the empty string. -/
theorem C34_inner_doc_start_counterexample :
    skipWhitespaceAndComments (lexerAt "/* a /** b */ x") = .ok ((), { lexerAt "/* a /** b */ x" with
      lastComment := "b", p := "x".toList }) ∧
    ("b" : String) ≠ "" :=
  ⟨rfl, by decide⟩

/-- C34, amended: when the lexer skips a terminated block comment, followed by
whitespace and line comments only, the last comment becomes the trimmed text
between the first `/**` and the first `*/` of the text that starts at the
comment; for a comment that holds no `/**` (so one that opens with `/*` and not
with `/**`) that is the empty string; whitespace and line comments leave the
last comment, and all but the cursor, unchanged; and in `docThenNote` the
declaration of `f` is reached with an empty last comment, which the main parse
stores as the comment of `f`. -/
theorem C34_block_comment_resets :
    (∀ (it : TokenIterator) (c rest q : List Char),
      it.p.dropWhile isWhitespace = '/' :: '*' :: (c ++ ("*/".toList ++ rest)) →
      ¬ "*/".toList <:+: c → LineComments rest q →
      skipWhitespaceAndComments it = .ok ((), { it with
        location := { it.location with location := it.p.dropWhile isWhitespace }
        lastComment := String.mk (trim (fromFirstOccurrenceOf "/**".toList
          (upToFirstOccurrenceOf "*/".toList (it.p.dropWhile isWhitespace))))
        p := q })) ∧
    (∀ (it : TokenIterator) (c rest q : List Char),
      it.p.dropWhile isWhitespace = '/' :: '*' :: (c ++ ("*/".toList ++ rest)) →
      ¬ "*/".toList <:+: c → ¬ "/**".toList <:+: '/' :: '*' :: c → LineComments rest q →
      skipWhitespaceAndComments it = .ok ((), { it with
        location := { it.location with location := it.p.dropWhile isWhitespace }
        lastComment := ""
        p := q })) ∧
    (∀ (it : TokenIterator) (q : List Char), LineComments it.p q →
      skipWhitespaceAndComments it = .ok ((), { it with p := q })) ∧
    ((∀ n, preprocessCode specHost (n + 6) docThenNote.toList "" HiseSpecialData.empty =
      .ok (declTables { id := Identifier.null, inlineFunctions := [{ name := "f", parameterNames := [], location := ⟨"", 29⟩ }] } [])) ∧
    TokenIterator.new specHost docThenNote.toList "" =
      .ok (commentIterator "" docThenNote 22 28 .inline_ .void_) ∧
    Parses (parseStatementList specHost)
      (commentParser "" (declTables { id := Identifier.null, inlineFunctions := [{ name := "f", parameterNames := [], location := ⟨"", 29⟩ }] } []) false docThenNote 22 28 .inline_ .void_)
      (.BlockStatement [.empty] [])
      (commentParser "" (declTables { id := Identifier.null, inlineFunctions := [{ name := "f", parameterNames := [], body := some (.BlockStatement [] []), commentDoc := "", location := ⟨"", 29⟩ }] } []) false docThenNote 44 44 .eof (.string "f"))) := by
  refine ⟨fun _ _ _ _ hp hc hr => skipWhitespaceAndComments_blockComment hp hc hr,
    fun _ _ _ _ hp hc hd hr => skipWhitespaceAndComments_plainComment hp hc hd hr,
    fun _ _ h => skipWhitespaceAndComments_lines h, docThenNote_prepass, rfl, ?_⟩
  have hbody : Parses (parseBlock specHost)
      (commentParser "" (declTables { id := Identifier.null, inlineFunctions := [{ name := "f", parameterNames := [], commentDoc := "", location := ⟨"", 29⟩ }] } []) true docThenNote 42 43 .openBrace (.string "f"))
      (.BlockStatement [] [])
      (commentParser "" (declTables { id := Identifier.null, inlineFunctions := [{ name := "f", parameterNames := [], commentDoc := "", location := ⟨"", 29⟩ }] } []) true docThenNote 44 44 .eof (.string "f")) :=
    parses_parseBlock
      (t := (commentParser "" (declTables { id := Identifier.null, inlineFunctions := [{ name := "f", parameterNames := [], commentDoc := "", location := ⟨"", 29⟩ }] } []) true docThenNote 43 44 .closeBrace (.string "f")))
      rfl rfl
      (parses_parseStatementList (parses_parseStatementListLoop_stop (Or.inl rfl)))
      rfl rfl
  have hF : Parses (parseStatement specHost)
      (commentParser "" (declTables { id := Identifier.null, inlineFunctions := [{ name := "f", parameterNames := [], location := ⟨"", 29⟩ }] } []) false docThenNote 22 28 .inline_ .void_)
      .empty
      (commentParser "" (declTables { id := Identifier.null, inlineFunctions := [{ name := "f", parameterNames := [], body := some (.BlockStatement [] []), commentDoc := "", location := ⟨"", 29⟩ }] } []) false docThenNote 44 44 .eof (.string "f")) :=
    parses_parseStatement_inline
      (t := (commentParser "" (declTables { id := Identifier.null, inlineFunctions := [{ name := "f", parameterNames := [], location := ⟨"", 29⟩ }] } []) false docThenNote 29 37 .function .void_))
      rfl rfl
      (parses_parseInlineFunction
        (a := (commentParser "" (declTables { id := Identifier.null, inlineFunctions := [{ name := "f", parameterNames := [], location := ⟨"", 29⟩ }] } []) false docThenNote 38 39 .identifier (.string "f")))
        (b := (commentParser "" (declTables { id := Identifier.null, inlineFunctions := [{ name := "f", parameterNames := [], location := ⟨"", 29⟩ }] } []) false docThenNote 39 40 .openParen (.string "f")))
        (c := (commentParser "" (declTables { id := Identifier.null, inlineFunctions := [{ name := "f", parameterNames := [], location := ⟨"", 29⟩ }] } []) false docThenNote 40 41 .closeParen (.string "f")))
        (d := (commentParser "" (declTables { id := Identifier.null, inlineFunctions := [{ name := "f", parameterNames := [], location := ⟨"", 29⟩ }] } []) false docThenNote 40 41 .closeParen (.string "f")))
        (e := (commentParser "" (declTables { id := Identifier.null, inlineFunctions := [{ name := "f", parameterNames := [], location := ⟨"", 29⟩ }] } []) false docThenNote 42 43 .openBrace (.string "f")))
        (i := 0)
        rfl rfl rfl rfl rfl rfl rfl
        (parses_parseInlineFunctionSkipLoop_stop rfl)
        rfl rfl rfl hbody rfl)
  exact parses_parseStatementList
    (parses_parseStatementListLoop_step (by decide) (by decide) hF (fun x y e => by cases e)
      (parses_parseStatementListLoop_stop (Or.inr rfl)))

/-- Witness for the amended C34: the comment `/* a /** b */` sets the last
comment to `b`; behind the doc comment of `docThenNote` the
lexer holds `doc`, and skipping the plain comment `/* note */` empties it; a
line comment, even one that holds `/*`, is skipped without a change. -/
theorem C34_block_comment_resets_witness :
    skipWhitespaceAndComments (lexerAt "/* a /** b */ x") =
      .ok ((), { lexerAt "/* a /** b */ x" with lastComment := "b", p := "x".toList }) ∧
    skipWhitespaceAndComments (commentIterator "doc" docThenNote 0 10 .eof .void_) =
      .ok ((), { commentIterator "doc" docThenNote 0 10 .eof .void_ with
        location := { (commentIterator "doc" docThenNote 0 10 .eof .void_).location with
          location := docThenNote.toList.drop 11 }
        lastComment := ""
        p := docThenNote.toList.drop 22 }) ∧
    skipWhitespaceAndComments (commentIterator "doc" "// a /* b\n x" 0 0 .eof .void_) =
      .ok ((), commentIterator "doc" "// a /* b\n x" 0 11 .eof .void_) :=
  ⟨C34_block_comment_resets.1 (lexerAt "/* a /** b */ x") " a /** b ".toList " x".toList
      "x".toList rfl (by decide) (LineComments.stop _ (Or.inl (by decide))),
   C34_block_comment_resets.2.1 (commentIterator "doc" docThenNote 0 10 .eof .void_)
      " note ".toList (docThenNote.toList.drop 21) (docThenNote.toList.drop 22) rfl
      (by decide) (by decide) (LineComments.stop _ (Or.inl (by decide))),
   C34_block_comment_resets.2.2.1 (commentIterator "doc" "// a /* b\n x" 0 0 .eof .void_)
      ("// a /* b\n x".toList.drop 11)
      (LineComments.line _ _ (by decide) (by decide) (LineComments.stop _ (Or.inl (by decide))))⟩

/-! ## Progress of the lexer -/

theorem length_takeWhile_add_dropWhile (f : Char → Bool) (p : List Char) :
    (p.takeWhile f).length + (p.dropWhile f).length = p.length := by
  rw [← List.length_append, List.takeWhile_append_dropWhile]

/-- The float reader leaves the iterator alone or moves the cursor forward. -/
theorem parseFloatLiteral_progress (it : TokenIterator) :
    parseFloatLiteral it = .ok (false, it) ∨
    ∃ v q, parseFloatLiteral it = .ok (true, { it with currentValue := v, p := q }) ∧
      q.length < it.p.length := by
  by_cases hnum : (it.p.takeWhile isDigit).length +
      (if decide (peek (it.p.dropWhile isDigit) = '.') = true then
        ((it.p.dropWhile isDigit).drop 1).takeWhile isDigit else []).length = 0
  · left
    unfold parseFloatLiteral
    simp only [hnum, if_true]
  · rw [parseFloatLiteral_cases it _ _ _ _ _ _ _ _ rfl rfl rfl rfl rfl rfl rfl rfl hnum]
    have key : ∀ (c : Bool) (v : Var) (q : List Char), q.length < it.p.length →
        ((if c = true then Res.ok (true, { it with currentValue := v, p := q })
          else Res.ok (false, it)) = Res.ok (false, it) ∨
        ∃ v' q', (if c = true then Res.ok (true, { it with currentValue := v, p := q })
          else Res.ok (false, it)) = Res.ok (true, { it with currentValue := v', p := q' }) ∧
          q'.length < it.p.length) := by
      intro c v q hq
      cases c
      · exact Or.inl rfl
      · exact Or.inr ⟨v, q, rfl, hq⟩
    refine key _ _ _ ?_
    have a1 := length_takeWhile_add_dropWhile isDigit it.p
    have a2 := length_takeWhile_add_dropWhile isDigit ((it.p.dropWhile isDigit).drop 1)
    have a3 : ((it.p.dropWhile isDigit).drop 1).length ≤ (it.p.dropWhile isDigit).length := by
      rw [List.length_drop]; omega
    generalize hA : it.p.dropWhile isDigit = A at *
    generalize hB : (A.drop 1).dropWhile isDigit = B at *
    have b1 : (if decide (peek A = '.') = true then B else A).length < it.p.length := by
      split_ifs at hnum ⊢
      · omega
      · simp only [List.length_nil] at hnum; omega
    generalize hT1 : (if decide (peek A = '.') = true then B else A) = t1 at *
    have b2 : ((if peek (t1.drop 1) = '+' ∨ peek (t1.drop 1) = '-' then (t1.drop 1).drop 1
        else t1.drop 1).dropWhile isDigit).length ≤ t1.length := by
      refine le_trans (length_dropWhile_le _ _) ?_
      split_ifs <;> simp only [List.length_drop] <;> omega
    generalize hT2 : ((if peek (t1.drop 1) = '+' ∨ peek (t1.drop 1) = '-' then (t1.drop 1).drop 1
        else t1.drop 1).dropWhile isDigit) = t2 at *
    split_ifs <;> omega

theorem length_parseHexLiteralLoop_le : ∀ (t : List Char) (v : Int),
    (parseHexLiteralLoop t v).2.length ≤ t.length := by
  intro t
  induction t with
  | nil => intro v; simp [parseHexLiteralLoop]
  | cons c t ih =>
    intro v
    rw [parseHexLiteralLoop]
    split_ifs
    · simp
    · exact le_trans (ih _) (Nat.le_succ _)

theorem length_ge_two_of_peek {p : List Char} {c d : Char} (h1 : peek p = c)
    (hc : c ≠ Char.ofNat 0) (h2 : peek (p.drop 1) = d) (hd : d ≠ Char.ofNat 0) :
    2 ≤ p.length := by
  obtain ⟨t, rfl⟩ := eq_cons_of_peek h1 hc
  obtain ⟨u, hu⟩ := eq_cons_of_peek (p := t) h2 hd
  subst hu
  simp

/-- The hex reader leaves the iterator alone or moves the cursor forward. -/
theorem parseHexLiteral_progress (it : TokenIterator) :
    parseHexLiteral it = .ok (false, it) ∨
    ∃ b v q, parseHexLiteral it = .ok (b, { it with currentValue := v, p := q }) ∧
      q.length < it.p.length := by
  unfold parseHexLiteral
  simp only []
  split_ifs with h1 h2
  · exact Or.inl rfl
  · right
    have h0 : peek it.p = '0' := by
      by_contra e
      exact h1 (Or.inl e)
    obtain ⟨t, ht⟩ := eq_cons_of_peek h0 (by decide)
    refine ⟨false, it.currentValue, _, rfl, ?_⟩
    rw [ht]
    simp
  · right
    have h0 : peek it.p = '0' := by
      by_contra e
      exact h1 (Or.inl e)
    have hx : peek (it.p.drop 1) = 'x' ∨ peek (it.p.drop 1) = 'X' := by
      by_contra e
      rw [not_or] at e
      exact h1 (Or.inr e)
    have hl : 2 ≤ it.p.length := by
      rcases hx with e | e
      · exact length_ge_two_of_peek h0 (by decide) e (by decide)
      · exact length_ge_two_of_peek h0 (by decide) e (by decide)
    refine ⟨true, _, _, rfl, ?_⟩
    have := length_parseHexLiteralLoop_le ((it.p.drop 1).drop 1)
      (getHexDigitValue (peek ((it.p.drop 1).drop 1)))
    simp only [List.length_drop] at this
    omega

theorem length_parseOctalLiteralLoop_lt : ∀ (p : List Char) (v w : Int) (t : List Char),
    p ≠ [] → parseOctalLiteralLoop p v = .ok (w, t) → t.length < p.length := by
  intro p
  induction p with
  | nil => intro v w t h; exact absurd rfl h
  | cons c u ih =>
    intro v w t _ h
    rw [parseOctalLiteralLoop] at h
    split_ifs at h with h1 h2
    · have hu : u ≠ [] := by
        intro e
        rw [e] at h1
        simp [peek, isPositiveAndBelow] at h1
      exact lt_trans (ih _ _ _ hu h) (Nat.lt_succ_self _)
    · cases h
      simp

/-- The octal reader fails, leaves the iterator alone or moves the cursor
forward. -/
theorem parseOctalLiteral_progress (it : TokenIterator) :
    parseOctalLiteral it = .error "Decimal digit in octal constant" ∨
    parseOctalLiteral it = .ok (false, it) ∨
    ∃ v q, parseOctalLiteral it = .ok (true, { it with currentValue := v, p := q }) ∧
      q.length < it.p.length := by
  unfold parseOctalLiteral
  simp only []
  split_ifs with h0
  · exact Or.inr (Or.inl rfl)
  · cases h : parseOctalLiteralLoop it.p ((peek it.p).toNat - 48) with
    | error e =>
      rw [parseOctalLiteralLoop_messages _ _ _ h]
      exact Or.inl rfl
    | ok r =>
      obtain ⟨w, t⟩ := r
      refine Or.inr (Or.inr ⟨_, _, rfl, ?_⟩)
      refine length_parseOctalLiteralLoop_lt _ _ _ _ ?_ h
      intro e
      rw [e] at h0
      simp [peek] at h0

theorem length_dropWhile_isDigit_lt {p : List Char} (h : isDigit (peek p) = true) :
    (p.dropWhile isDigit).length < p.length := by
  cases p with
  | nil => simp [peek, isDigit] at h
  | cons c t =>
    simp only [peek, List.headD_cons] at h
    rw [List.dropWhile_cons, if_pos h]
    exact lt_of_le_of_lt (length_dropWhile_le _ _) (Nat.lt_succ_self _)

/-- At a digit the lexer yields a literal behind which the text is shorter, or
it fails. -/
theorem matchNextToken_digit_progress (H : Host) (it : TokenIterator)
    (hd : isDigit (peek it.p) = true) :
    matchNextToken H it = .error "Decimal digit in octal constant" ∨
    ∃ it', matchNextToken H it = .ok (.literal, it') ∧ it'.p.length < it.p.length := by
  have hdec : ∀ jt : TokenIterator, jt.p.length < it.p.length ∨ jt = it →
      ∃ it', parseDecimalLiteral jt = .ok (true, it') ∧ it'.p.length < it.p.length := by
    intro jt hj
    refine ⟨_, parseDecimalLiteral_total jt, ?_⟩
    show (parseDecimalLiteralLoop jt.p 0).2.length < it.p.length
    rw [parseDecimalLiteralLoop_snd]
    rcases hj with hj | hj
    · exact lt_of_le_of_lt (length_dropWhile_le _ _) hj
    · rw [hj]
      exact length_dropWhile_isDigit_lt hd
  have hrest : ∀ jt : TokenIterator, jt.p.length < it.p.length ∨ jt = it →
      (do
        if (← parseFloatLiteral) then pure TokenType.literal
        else if (← parseOctalLiteral) then pure TokenType.literal
        else if (← parseDecimalLiteral) then pure TokenType.literal
        else StM.throw "Syntax error in numeric constant" : StM TokenIterator TokenType) jt =
          .error "Decimal digit in octal constant" ∨
      ∃ it', (do
        if (← parseFloatLiteral) then pure TokenType.literal
        else if (← parseOctalLiteral) then pure TokenType.literal
        else if (← parseDecimalLiteral) then pure TokenType.literal
        else StM.throw "Syntax error in numeric constant" : StM TokenIterator TokenType) jt =
          .ok (.literal, it') ∧ it'.p.length < it.p.length := by
    intro jt hj
    have hle : jt.p.length ≤ it.p.length := by
      rcases hj with hj | hj
      · omega
      · rw [hj]
    simp only [StM.bind_apply]
    rcases parseFloatLiteral_progress jt with e | ⟨v, q, e, hq⟩
    · rw [e]
      simp only [Bool.false_eq_true, if_false, StM.bind_apply]
      rcases parseOctalLiteral_progress jt with e2 | e2 | ⟨v, q, e2, hq⟩
      · rw [e2]; exact Or.inl rfl
      · rw [e2]
        simp only [Bool.false_eq_true, if_false, StM.bind_apply]
        obtain ⟨it', e3, h3⟩ := hdec jt hj
        rw [e3]
        exact Or.inr ⟨it', rfl, h3⟩
      · rw [e2]
        exact Or.inr ⟨_, rfl, by show q.length < _; omega⟩
    · rw [e]
      exact Or.inr ⟨_, rfl, by show q.length < _; omega⟩
  unfold matchNextToken
  simp only [isIdentifierStart_of_isDigit hd, Bool.false_eq_true, if_false, hd, if_true]
  rw [StM.bind_apply]
  rcases parseHexLiteral_progress it with e | ⟨b, v, q, e, hq⟩
  · rw [e]
    simp only [Bool.false_eq_true, if_false]
    exact hrest it (Or.inr rfl)
  · rw [e]
    cases b
    · simp only [Bool.false_eq_true, if_false]
      exact hrest _ (Or.inl hq)
    · exact Or.inr ⟨_, rfl, hq⟩


/-- The string reader stops behind the closing quote. -/
theorem length_parseQuotedStringBody_lt (quote : Char) (p acc text rest : List Char)
    (h : parseQuotedStringBody quote p acc = .ok (text, rest)) : rest.length < p.length := by
  induction p, acc using parseQuotedStringBody.induct quote with
  | case1 acc =>
    rw [parseQuotedStringBody] at h
    cases h
  | case2 a b c d rest' acc hv =>
    rw [parseQuotedStringBody, if_pos hv] at h
    cases h
  | case3 a b c d rest' acc hv v hz =>
    rw [parseQuotedStringBody, if_neg hv] at h
    simp only [] at h
    rw [if_pos hz] at h
    cases h
  | case4 a b c d rest' acc hv v hz ih =>
    rw [parseQuotedStringBody, if_neg hv] at h
    simp only [] at h
    rw [if_neg hz] at h
    have := ih h
    simp only [List.length_cons]
    omega
  | case5 tail x hn =>
    rw [parseQuotedStringBody] at h
    · cases h
    · exact hn
  | case6 c rest' acc hn hu ih =>
    rw [parseQuotedStringBody] at h
    · have := ih h
      simp only [List.length_cons]
      omega
    · exact hn
    · exact hu
  | case7 x =>
    rw [parseQuotedStringBody] at h
    cases h
  | case8 rest' acc h1 h2 h3 h4 =>
    rw [parseQuotedStringBody] at h
    · rw [if_pos rfl] at h
      cases h
      simp
    all_goals assumption
  | case9 c rest' acc h1 h2 h3 h4 hq ih =>
    rw [parseQuotedStringBody] at h
    · rw [if_neg hq] at h
      have := ih h
      simp only [List.length_cons]
      omega
    all_goals assumption

theorem matchOperator_some {ops : List (List Char × TokenType)} {p q : List Char}
    {name : TokenType} (h : matchOperator ops p = some (name, q)) :
    ∃ o ∈ ops, o.2 = name ∧ o.1 <+: p ∧ q = p.drop o.1.length := by
  induction ops with
  | nil => rw [matchOperator] at h; cases h
  | cons o ops ih =>
    obtain ⟨str, nm⟩ := o
    rw [matchOperator] at h
    split_ifs at h with hp
    · cases h
      exact ⟨(str, name), List.mem_cons_self _ _, rfl, List.isPrefixOf_iff_prefix.mp hp, rfl⟩
    · obtain ⟨o, ho, e⟩ := ih h
      exact ⟨o, List.mem_cons_of_mem _ ho, e⟩

theorem matchOperator_nil {ops : List (List Char × TokenType)} (ho : ∀ o ∈ ops, o.1 ≠ []) :
    matchOperator ops [] = none := by
  induction ops with
  | nil => rfl
  | cons o ops ih =>
    obtain ⟨str, nm⟩ := o
    rw [matchOperator, if_neg]
    · exact ih (fun x hx => ho x (List.mem_cons_of_mem _ hx))
    · intro e
      have := List.isPrefixOf_iff_prefix.mp e
      exact ho (str, nm) (List.mem_cons_self _ _) (List.prefix_nil.mp this)

/-- The end of `matchNextToken`: an operator behind which the text is shorter,
end-of-file at the end of the text, or an error. -/
theorem matchOperatorOrEof_progress (H : Host) (ho : ∀ o ∈ H.operators, o.1 ≠ [] ∧ o.2 ≠ .eof)
    (it : TokenIterator) :
    (∃ e, matchOperatorOrEof H it = .error e) ∨
    (it.p = [] ∧ matchOperatorOrEof H it = .ok (.eof, it)) ∨
    (∃ t q, matchOperatorOrEof H it = .ok (t, { it with p := q }) ∧ t ≠ .eof ∧
      q.length < it.p.length) := by
  unfold matchOperatorOrEof
  cases h : matchOperator H.operators it.p with
  | some r =>
    obtain ⟨name, q⟩ := r
    obtain ⟨o, hm, e1, e2, e3⟩ := matchOperator_some h
    refine Or.inr (Or.inr ⟨name, q, rfl, ?_, ?_⟩)
    · rw [← e1]
      exact (ho o hm).2
    · have h1 : o.1.length ≤ it.p.length := e2.length_le
      have h2 : 0 < o.1.length := List.length_pos.mpr (ho o hm).1
      rw [e3, List.length_drop]
      omega
  | none =>
    simp only []
    split_ifs with he
    · exact Or.inr (Or.inl ⟨List.isEmpty_iff.mp he, rfl⟩)
    · exact Or.inl ⟨_, rfl⟩

/-- `matchNextToken` fails, yields end-of-file at the end of the text, or
yields a token behind which the text is shorter. -/
theorem matchNextToken_progress (H : Host) (hk : ∀ k ∈ H.keywords, k.2 ≠ .eof)
    (ho : ∀ o ∈ H.operators, o.1 ≠ [] ∧ o.2 ≠ .eof) (it : TokenIterator) :
    (∃ e, matchNextToken H it = .error e) ∨
    (it.p = [] ∧ matchNextToken H it = .ok (.eof, it)) ∨
    (it.p ≠ [] ∧ ∃ t it', matchNextToken H it = .ok (t, it') ∧ t ≠ .eof ∧
      it'.p.length < it.p.length) := by
  by_cases hi : isIdentifierStart (peek it.p) = true
  · -- a name or a keyword
    obtain ⟨c, rest, hp⟩ : ∃ c rest, it.p = c :: rest := by
      cases hq : it.p with
      | nil => rw [hq] at hi; simp [peek, isIdentifierStart, isLetter] at hi
      | cons c rest => exact ⟨c, rest, rfl⟩
    have hne : it.p ≠ [] := by rw [hp]; simp
    have hlen : ((it.p.drop 1).dropWhile isIdentifierBody).length < it.p.length := by
      refine lt_of_le_of_lt (length_dropWhile_le _ _) ?_
      rw [hp]
      simp
    refine Or.inr (Or.inr ⟨hne, ?_⟩)
    unfold matchNextToken
    rw [if_pos hi]
    simp only []
    cases hf : H.keywords.find? (fun k =>
        decide (k.1 = it.p.take 1 ++ (it.p.drop 1).takeWhile isIdentifierBody)) with
    | some k => exact ⟨_, _, rfl, hk k (List.mem_of_find?_eq_some hf), hlen⟩
    | none => exact ⟨_, _, rfl, by decide, hlen⟩
  · by_cases hd : isDigit (peek it.p) = true
    · have hne : it.p ≠ [] := by
        intro e
        rw [e] at hd
        simp [peek, isDigit] at hd
      rcases matchNextToken_digit_progress H it hd with h | ⟨it', h, hl⟩
      · exact Or.inl ⟨_, h⟩
      · exact Or.inr (Or.inr ⟨hne, _, _, h, by decide, hl⟩)
    · have hop : ∀ jt : TokenIterator, jt = it →
          (∃ e, matchOperatorOrEof H jt = .error e) ∨
          (it.p = [] ∧ matchOperatorOrEof H jt = .ok (.eof, it)) ∨
          (it.p ≠ [] ∧ ∃ t it', matchOperatorOrEof H jt = .ok (t, it') ∧ t ≠ .eof ∧
            it'.p.length < it.p.length) := by
        intro jt hj
        subst hj
        rcases matchOperatorOrEof_progress H ho jt with h | h | ⟨t, q, h, ht, hq⟩
        · exact Or.inl h
        · exact Or.inr (Or.inl h)
        · refine Or.inr (Or.inr ⟨?_, t, _, h, ht, hq⟩)
          intro e
          rw [e] at hq
          simp at hq
      unfold matchNextToken
      rw [if_neg hi, if_neg hd]
      simp only [StM.bind_apply]
      by_cases hq : peek it.p ≠ '"' ∧ peek it.p ≠ '\''
      · have hs : parseStringLiteral (peek it.p) it = .ok (false, it) := by
          unfold parseStringLiteral
          rw [if_pos hq]
        rw [hs]
        simp only [Bool.false_eq_true, if_false, StM.bind_apply]
        by_cases hpt : peek it.p = '.'
        · rw [if_pos hpt]
          rcases parseFloatLiteral_progress it with e | ⟨v, q, e, hl⟩
          · rw [e]
            simp only [Bool.false_eq_true, if_false]
            exact hop it rfl
          · rw [e]
            refine Or.inr (Or.inr ⟨?_, _, _, rfl, by decide, hl⟩)
            intro e0
            rw [e0] at hl
            simp at hl
        · rw [if_neg hpt]
          simp only [StM.pure_apply, Bool.false_eq_true, if_false]
          exact hop it rfl
      · -- a quoted string
        have hne : it.p ≠ [] := by
          intro e
          rw [e] at hq
          simp [peek] at hq
        unfold parseStringLiteral
        rw [if_neg hq]
        cases hb : parseQuotedStringBody (peek it.p) (it.p.drop 1) [] with
        | error e => exact Or.inl ⟨e, rfl⟩
        | ok r =>
          obtain ⟨text, rest⟩ := r
          refine Or.inr (Or.inr ⟨hne, _, _, rfl, by decide, ?_⟩)
          have := length_parseQuotedStringBody_lt _ _ _ _ _ hb
          rw [List.length_drop] at this
          show rest.length < it.p.length
          omega


/-- A call of `skip` fails, or yields end-of-file when whitespace and comments
are all that is left, or yields a token behind which the text is shorter. -/
theorem skip_progress (H : Host) (hk : ∀ k ∈ H.keywords, k.2 ≠ .eof)
    (ho : ∀ o ∈ H.operators, o.1 ≠ [] ∧ o.2 ≠ .eof) (it : TokenIterator) :
    (∃ e, TokenIterator.skip H it = .error e) ∨
    (∃ jt, skipWhitespaceAndComments it = .ok ((), jt) ∧ jt.p = [] ∧
      ∃ it', TokenIterator.skip H it = .ok ((), it') ∧ it'.currentType = .eof ∧ it'.p = []) ∨
    (∃ jt, skipWhitespaceAndComments it = .ok ((), jt) ∧ jt.p ≠ [] ∧
      ∃ it', TokenIterator.skip H it = .ok ((), it') ∧ it'.currentType ≠ .eof ∧
        it'.p.length < it.p.length) := by
  rcases skipWhitespaceAndComments_total it with h | ⟨jt, h, hl, _, _⟩
  · left
    refine ⟨"Unterminated '/*' comment", ?_⟩
    unfold TokenIterator.skip
    simp only [StM.bind_apply, h]
  · rcases matchNextToken_progress H hk ho
      { jt with location := { jt.location with location := jt.p } } with
      ⟨e, he⟩ | ⟨hp, he⟩ | ⟨hp, t, it', he, ht, hlt⟩
    · left
      refine ⟨e, ?_⟩
      unfold TokenIterator.skip
      simp only [StM.bind_apply, h, StM.modify_apply, he]
    · right; left
      exact ⟨jt, h, hp, _, skip_of_steps h he, rfl, hp⟩
    · right; right
      refine ⟨jt, h, hp, _, skip_of_steps h he, ht, ?_⟩
      have : it'.p.length < jt.p.length := hlt
      show it'.p.length < it.p.length
      omega

/-! ## Whitespace and comments, as text -/

theorem findSubstring_closing_of_not_infix {body : List Char} (rest : List Char)
    (h : ¬ "*/".toList <:+: body) :
    findSubstring "*/".toList (body ++ '*' :: '/' :: rest) = '*' :: '/' :: rest := by
  induction body with
  | nil =>
    rw [List.nil_append, findSubstring, if_pos]
    exact List.isPrefixOf_iff_prefix.mpr ⟨rest, rfl⟩
  | cons c b ih =>
    rw [List.cons_append, findSubstring, if_neg]
    · exact ih (fun e => h (List.infix_cons e))
    · intro e
      obtain ⟨t, ht⟩ := List.isPrefixOf_iff_prefix.mp e
      have e2 : "*/".toList = ['*', '/'] := rfl
      rw [e2] at ht h
      simp only [List.cons_append, List.nil_append, List.cons.injEq] at ht
      cases b with
      | nil =>
        simp only [List.nil_append, List.cons.injEq] at ht
        exact absurd ht.2.1 (by decide)
      | cons d b =>
        simp only [List.cons_append, List.cons.injEq] at ht
        apply h
        rw [← ht.1, ← ht.2.1]
        exact ⟨[], b, rfl⟩

/-- Where `findSubstring` stops: at the end of the text, or at the first `*/`. -/
theorem findSubstring_closing_cases (t : List Char) :
    findSubstring "*/".toList t = [] ∨
    ∃ body r, t = body ++ '*' :: '/' :: r ∧ findSubstring "*/".toList t = '*' :: '/' :: r ∧
      ¬ "*/".toList <:+: body := by
  induction t with
  | nil => exact Or.inl rfl
  | cons c t ih =>
    rw [findSubstring]
    split_ifs with hp
    · obtain ⟨r, hr⟩ := List.isPrefixOf_iff_prefix.mp hp
      refine Or.inr ⟨[], r, hr.symm, hr.symm, ?_⟩
      intro e
      have := e.length_le
      simp at this
    · rcases ih with e | ⟨body, r, e1, e2, e3⟩
      · exact Or.inl e
      · refine Or.inr ⟨c :: body, r, by rw [e1]; rfl, e2, ?_⟩
        intro e
        rcases List.infix_cons_iff.mp e with e | e
        · apply hp
          rw [e1]
          exact List.isPrefixOf_iff_prefix.mpr
            (e.trans (List.prefix_append (c :: body) _))
        · exact e3 e

theorem dropWhile_isWhitespace_idem (p : List Char) :
    (p.dropWhile isWhitespace).dropWhile isWhitespace = p.dropWhile isWhitespace := by
  induction p with
  | nil => rfl
  | cons c p ih =>
    by_cases h : isWhitespace c = true
    · rw [List.dropWhile_cons_of_pos h]; exact ih
    · rw [List.dropWhile_cons_of_neg h, List.dropWhile_cons_of_neg h]

theorem whitespaceAndComments_of_dropWhile (p : List Char)
    (h : WhitespaceAndComments (p.dropWhile isWhitespace)) : WhitespaceAndComments p := by
  induction p with
  | nil => exact h
  | cons c p ih =>
    by_cases hc : isWhitespace c = true
    · rw [List.dropWhile_cons_of_pos hc] at h
      exact .space hc (ih h)
    · rw [List.dropWhile_cons_of_neg hc] at h
      exact h

theorem dropWhile_ne_cases (c : Char) (t : List Char) :
    ∃ body, c ∉ body ∧ (t = body ∧ t.dropWhile (fun d => decide (d ≠ c)) = [] ∨
      ∃ r, t = body ++ c :: r ∧ t.dropWhile (fun d => decide (d ≠ c)) = c :: r) := by
  induction t with
  | nil => exact ⟨[], by simp, Or.inl ⟨rfl, rfl⟩⟩
  | cons x t ih =>
    by_cases hx : x = c
    · subst hx
      exact ⟨[], by simp, Or.inr ⟨t, rfl, by simp⟩⟩
    · obtain ⟨body, hb, h⟩ := ih
      refine ⟨x :: body, ?_, ?_⟩
      · simp only [List.mem_cons, not_or]
        exact ⟨fun e => hx e.symm, hb⟩
      · rw [List.dropWhile_cons_of_pos (by simpa using hx)]
        rcases h with ⟨e1, e2⟩ | ⟨r, e1, e2⟩
        · exact Or.inl ⟨by rw [← e1], e2⟩
        · exact Or.inr ⟨r, by rw [e1]; rfl, e2⟩

theorem findChar_line (u : List Char) :
    findChar '\n' ('/' :: '/' :: u) = u.dropWhile (fun d => decide (d ≠ '\n')) := rfl

/-- A text of whitespace and comments is skipped to its end. -/
theorem skipWhitespaceAndCommentsLoop_of_text {p : List Char} (h : WhitespaceAndComments p) :
    ∀ (n : Nat) (it : TokenIterator), it.p.dropWhile isWhitespace = p.dropWhile isWhitespace →
      p.length < n → ∃ jt, skipWhitespaceAndCommentsLoop n it = .ok ((), jt) ∧ jt.p = [] := by
  induction h with
  | nil =>
    intro n it hp hn
    obtain ⟨m, rfl⟩ : ∃ m, n = m + 1 := ⟨n - 1, by omega⟩
    rw [skipWhitespaceAndCommentsLoop_stop (Or.inl (by rw [hp]; decide))]
    exact ⟨_, rfl, hp⟩
  | @space c p hc _ ih =>
    intro n it hp hn
    rw [List.dropWhile_cons_of_pos hc] at hp
    exact ih n it hp (by simp only [List.length_cons] at hn; omega)
  | @lineEnd body hb =>
    intro n it hp hn
    obtain ⟨m, rfl⟩ : ∃ m, n = m + 1 := ⟨n - 1, by omega⟩
    rw [List.dropWhile_cons_of_neg (by decide)] at hp
    rw [skipWhitespaceAndCommentsLoop_line (by rw [hp]; rfl) (by rw [hp]; rfl), hp]
    have e : findChar '\n' ('/' :: '/' :: body) = [] := by
      rw [findChar_line, List.dropWhile_eq_nil_iff]
      intro x hx
      simp only [ne_eq, decide_eq_true_eq]
      exact fun e => hb (e ▸ hx)
    rw [e]
    obtain ⟨k, rfl⟩ : ∃ k, m = k + 1 := ⟨m - 1, by simp only [List.length_cons] at hn; omega⟩
    rw [skipWhitespaceAndCommentsLoop_stop
      (show peek (([] : List Char).dropWhile isWhitespace) ≠ '/' ∨ _ from Or.inl (by decide))]
    exact ⟨_, rfl, rfl⟩
  | @line body rest hb _ ih =>
    intro n it hp hn
    obtain ⟨m, rfl⟩ : ∃ m, n = m + 1 := ⟨n - 1, by omega⟩
    rw [List.dropWhile_cons_of_neg (by decide)] at hp
    rw [skipWhitespaceAndCommentsLoop_line (by rw [hp]; rfl) (by rw [hp]; rfl), hp]
    have e : findChar '\n' ('/' :: '/' :: (body ++ '\n' :: rest)) = '\n' :: rest := by
      rw [findChar_line, List.dropWhile_append_of_pos (fun x hx => by
        simp only [ne_eq, decide_eq_true_eq]
        exact fun e => hb (e ▸ hx))]
      rw [List.dropWhile_cons_of_neg (by simp)]
    rw [e]
    refine ih m _ ?_ ?_
    · show ('\n' :: rest).dropWhile isWhitespace = _
      rw [List.dropWhile_cons_of_pos (by decide)]
    · simp only [List.length_cons, List.length_append] at hn
      omega
  | @block body rest hb _ ih =>
    intro n it hp hn
    obtain ⟨m, rfl⟩ : ∃ m, n = m + 1 := ⟨n - 1, by omega⟩
    rw [List.dropWhile_cons_of_neg (by decide)] at hp
    rw [skipWhitespaceAndCommentsLoop_block (by rw [hp]; rfl) (by rw [hp]; rfl), hp]
    have e : findSubstring "*/".toList (('/' :: '*' :: (body ++ '*' :: '/' :: rest)).drop 2) =
        '*' :: '/' :: rest := findSubstring_closing_of_not_infix rest hb
    rw [e, if_neg (by simp)]
    refine ih m _ ?_ ?_
    · rfl
    · simp only [List.length_cons, List.length_append] at hn
      omega

/-- A text that the comment loop skips to its end holds whitespace and
comments only. -/
theorem text_of_skipWhitespaceAndCommentsLoop :
    ∀ (n : Nat) (it jt : TokenIterator), skipWhitespaceAndCommentsLoop n it = .ok ((), jt) →
      jt.p = [] → WhitespaceAndComments it.p := by
  intro n
  induction n with
  | zero => intro it jt h; simp [skipWhitespaceAndCommentsLoop, StM.outOfFuel] at h
  | succ n ih =>
    intro it jt h hj
    apply whitespaceAndComments_of_dropWhile
    by_cases h1 : peek (it.p.dropWhile isWhitespace) = '/'
    · obtain ⟨t, ht⟩ := eq_cons_of_peek h1 (by decide)
      by_cases h2 : peek ((it.p.dropWhile isWhitespace).drop 1) = '/'
      · rw [skipWhitespaceAndCommentsLoop_line h1 h2] at h
        have hr := ih _ _ h hj
        obtain ⟨u, hu⟩ := eq_cons_of_peek h2 (by decide)
        rw [ht] at hu hr ⊢
        simp only [List.drop_succ_cons, List.drop_zero] at hu
        subst hu
        change WhitespaceAndComments (findChar '\n' ('/' :: '/' :: u)) at hr
        rw [findChar_line] at hr
        obtain ⟨body, hb, ⟨e1, e2⟩ | ⟨r, e1, e2⟩⟩ := dropWhile_ne_cases '\n' u
        · rw [e1]
          exact .lineEnd hb
        · rw [e2] at hr
          rw [e1]
          cases hr with
          | space _ hr => exact .line hb hr
      · by_cases h3 : peek ((it.p.dropWhile isWhitespace).drop 1) = '*'
        · rw [skipWhitespaceAndCommentsLoop_block h1 h3] at h
          split_ifs at h with hq
          have hr := ih _ _ h hj
          obtain ⟨u, hu⟩ := eq_cons_of_peek h3 (by decide)
          rw [ht] at hu hr hq ⊢
          simp only [List.drop_succ_cons, List.drop_zero] at hu
          subst hu
          change WhitespaceAndComments ((findSubstring "*/".toList u).drop 2) at hr
          rcases findSubstring_closing_cases u with e | ⟨body, r, e1, e2, e3⟩
          · exact absurd (by rw [show (('/' :: '*' :: u).drop 2) = u from rfl, e]; rfl) hq
          · rw [e2] at hr
            rw [e1]
            exact .block e3 hr
        · rw [skipWhitespaceAndCommentsLoop_stop (Or.inr ⟨h2, h3⟩)] at h
          cases h
          rw [show it.p.dropWhile isWhitespace = [] from hj]
          exact .nil
    · rw [skipWhitespaceAndCommentsLoop_stop (Or.inl h1)] at h
      cases h
      rw [show it.p.dropWhile isWhitespace = [] from hj]
      exact .nil

/-- The comment skipper reaches the end of the text exactly on a text of
whitespace and comments. -/
theorem skipWhitespaceAndComments_end_iff (it : TokenIterator) :
    (∃ jt, skipWhitespaceAndComments it = .ok ((), jt) ∧ jt.p = []) ↔
      WhitespaceAndComments it.p :=
  ⟨fun ⟨jt, h, hj⟩ => text_of_skipWhitespaceAndCommentsLoop _ it jt h hj,
    fun h => skipWhitespaceAndCommentsLoop_of_text h _ it rfl (Nat.lt_succ_self _)⟩

/-- At the end of the text `matchNextToken` yields end-of-file. -/
theorem matchNextToken_nil (H : Host) (ho : ∀ o ∈ H.operators, o.1 ≠ []) {it : TokenIterator}
    (hp : it.p = []) : matchNextToken H it = .ok (.eof, it) := by
  have h1 : isIdentifierStart (peek it.p) = false := by rw [hp]; decide
  have h2 : isDigit (peek it.p) = false := by rw [hp]; decide
  have h3 : parseStringLiteral (peek it.p) it = .ok (false, it) := by
    unfold parseStringLiteral
    rw [hp, if_pos (by decide)]
  have h4 : peek it.p ≠ '.' := by rw [hp]; decide
  have h5 : matchOperatorOrEof H it = .ok (.eof, it) := by
    unfold matchOperatorOrEof
    rw [hp, matchOperator_nil ho]
    simp
  unfold matchNextToken
  simp only [h1, h2, Bool.false_eq_true, if_false, StM.bind_apply, h3, h4, StM.pure_apply, h5]

/-- C35: with a keyword and an operator table that name no end-of-file token
and no empty operator, every call of `skip` returns: it raises an error, or
yields end-of-file with the cursor at the end of the text, or yields another
token with the cursor moved forward by at least one character; on a text that
holds whitespace and comments only the call succeeds and yields end-of-file,
and a call that yields end-of-file was made on such a text; and a run of `k`
calls that each yield a token other than end-of-file moves the cursor forward
by at least `k` characters, so that a text of `n` characters yields at most `n`
tokens before end-of-file or an error. -/
theorem C35_lexer_progress (H : Host) (hk : ∀ k ∈ H.keywords, k.2 ≠ .eof)
    (ho : ∀ o ∈ H.operators, o.1 ≠ [] ∧ o.2 ≠ .eof) (it : TokenIterator) :
    ((∃ e, TokenIterator.skip H it = .error e) ∨
      (∃ it', TokenIterator.skip H it = .ok ((), it') ∧ it'.currentType = .eof ∧ it'.p = []) ∨
      (∃ it', TokenIterator.skip H it = .ok ((), it') ∧ it'.currentType ≠ .eof ∧
        it'.p.length < it.p.length)) ∧
    (WhitespaceAndComments it.p →
      ∃ it', TokenIterator.skip H it = .ok ((), it') ∧ it'.currentType = .eof ∧ it'.p = []) ∧
    (∀ it', TokenIterator.skip H it = .ok ((), it') → it'.currentType = .eof →
      WhitespaceAndComments it.p) ∧
    (∀ (f : Nat → TokenIterator) (k : Nat), f 0 = it →
      (∀ i < k, TokenIterator.skip H (f i) = .ok ((), f (i + 1)) ∧
        (f (i + 1)).currentType ≠ .eof) →
      k + (f k).p.length ≤ it.p.length) := by
  refine ⟨?_, ?_, ?_, ?_⟩
  · rcases skip_progress H hk ho it with h | ⟨_, _, _, h⟩ | ⟨_, _, _, h⟩
    · exact Or.inl h
    · exact Or.inr (Or.inl h)
    · exact Or.inr (Or.inr h)
  · intro hb
    obtain ⟨jt, h1, h2⟩ := (skipWhitespaceAndComments_end_iff it).mpr hb
    exact ⟨_, skip_of_steps h1 (matchNextToken_nil H (fun o h => (ho o h).1) h2), rfl, h2⟩
  · intro it' hs he
    rcases skip_progress H hk ho it with ⟨e, h⟩ | ⟨jt, h1, h2, _⟩ |
      ⟨jt, h1, h2, it2, h3, h4, _⟩
    · rw [h] at hs; cases hs
    · exact (skipWhitespaceAndComments_end_iff it).mp ⟨jt, h1, h2⟩
    · rw [h3] at hs
      cases hs
      exact absurd he h4
  · intro f k h0 hf
    induction k with
    | zero => rw [h0]; omega
    | succ k ih =>
      have hk' := ih (fun i hi => hf i (Nat.lt_succ_of_lt hi))
      obtain ⟨hs, hne⟩ := hf k (Nat.lt_succ_self k)
      rcases skip_progress H hk ho (f k) with ⟨e, h⟩ | ⟨_, _, _, it2, h3, h4, _⟩ |
        ⟨_, _, _, it2, h3, _, h5⟩
      · rw [h] at hs; cases hs
      · rw [h3] at hs
        cases hs
        exact absurd h4 hne
      · rw [h3] at hs
        cases hs
        omega

/-- Witness for C35: the first call of `skip` on `x = 1`, and the call on a text
of a line comment and a block comment, which yields end-of-file. -/
theorem C35_lexer_progress_witness :
    (∀ k ∈ specHost.keywords, k.2 ≠ .eof) ∧
    (∀ o ∈ specHost.operators, o.1 ≠ [] ∧ o.2 ≠ .eof) ∧
    ((∃ e, TokenIterator.skip specHost (lexerAt "x = 1") = .error e) ∨
      (∃ it', TokenIterator.skip specHost (lexerAt "x = 1") = .ok ((), it') ∧
        it'.currentType = .eof ∧ it'.p = []) ∨
      (∃ it', TokenIterator.skip specHost (lexerAt "x = 1") = .ok ((), it') ∧
        it'.currentType ≠ .eof ∧ it'.p.length < (lexerAt "x = 1").p.length)) ∧
    WhitespaceAndComments (lexerAt " // a\n/* b */ ").p ∧
    (∃ it', TokenIterator.skip specHost (lexerAt " // a\n/* b */ ") = .ok ((), it') ∧
      it'.currentType = .eof ∧ it'.p = []) :=
  ⟨by decide, by decide,
    (C35_lexer_progress specHost (by decide) (by decide) (lexerAt "x = 1")).1,
    .space (by decide) (@WhitespaceAndComments.line [' ', 'a'] "/* b */ ".toList (by decide)
      (@WhitespaceAndComments.block [' ', 'b', ' '] [' '] (by decide) (.space (by decide) .nil))),
    (C35_lexer_progress specHost (by decide) (by decide) (lexerAt " // a\n/* b */ ")).2.1
      (.space (by decide) (@WhitespaceAndComments.line [' ', 'a'] "/* b */ ".toList (by decide)
        (@WhitespaceAndComments.block [' ', 'b', ' '] [' '] (by decide)
          (.space (by decide) .nil))))⟩

/-! ## Declarator lists -/

theorem StM.ite_bind {σ α β : Type} (x : Bool) (A B : StM σ α) (k : α → StM σ β) :
    (if x = true then A >>= k else B >>= k) = ((if x = true then A else B) >>= k) := by
  cases x <;> rfl

/-- The initialiser of a declarator, with enough fuel. -/
theorem ParsesInitialiser.run {H : Host} {b c : ExpressionTreeBuilder} {init : Expression}
    (h : ParsesInitialiser H b init c) :
    ∃ n, ∀ m, n ≤ m →
      (matchIf H .assign >>= fun x =>
        if x = true then parseExpression H m else pure .empty) b = .ok (init, c) := by
  cases h with
  | assign hasg hb he =>
    obtain ⟨n, he⟩ := he
    refine ⟨n, fun m hm => ?_⟩
    rw [StM.bind_ok (matchIf_of_eq hasg hb), if_pos rfl]
    exact fuel_mono (fun k => (monoAt H k).parseExpression) he hm
  | absent hne =>
    refine ⟨0, fun m _ => ?_⟩
    rw [StM.bind_ok (matchIf_of_ne hne)]
    rfl

/-- What a run of the initialiser of a declarator read. -/
theorem ParsesInitialiser.of_run {H : Host} {n : Nat} {b c : ExpressionTreeBuilder}
    {init : Expression}
    (h : (matchIf H .assign >>= fun x =>
      if x = true then parseExpression H n else pure .empty) b = .ok (init, c)) :
    ParsesInitialiser H b init c := by
  obtain ⟨x, b1, h1, h2⟩ := StM.bind_eq_ok.mp h
  obtain ⟨e1, e2, e3⟩ := matchIf_eq_ok h1
  cases x
  · rw [e2 rfl] at h2
    cases h2
    exact .absent (fun e => by simpa using e1.mpr e)
  · exact .assign (e1.mp rfl) (e3 rfl) ⟨n, h2⟩

theorem parseIdentifier_ok_inv {H : Host} {s s1 : ExpressionTreeBuilder} {i : Identifier}
    (h : parseIdentifier H s = .ok (i, s1)) :
    s.currentType = .identifier ∧ i = s.currentValue.toString ∧ skip H s = .ok ((), s1) := by
  by_cases hid : s.currentType = .identifier
  · exact ⟨hid, parseIdentifier_eq_ok h hid⟩
  · rw [parseIdentifier_of_ne hid] at h
    cases h

/-- The runs of `parseVar` are the lists of plain declarators. -/
theorem parses_parseVar_iff {H : Host} {s t : ExpressionTreeBuilder} {r : Statement} :
    Parses (parseVar H) s r t ↔ VarDeclarators H s r t := by
  constructor
  · rintro ⟨n, h⟩
    induction n generalizing s r t with
    | zero => cases h
    | succ n ih =>
      rw [parseVar] at h
      obtain ⟨name, a, h1, h⟩ := StM.bind_eq_ok.mp h
      obtain ⟨hid, rfl, hs⟩ := parseIdentifier_ok_inv h1
      obtain ⟨s0, a0, h2, h⟩ := StM.bind_eq_ok.mp h
      cases h2
      obtain ⟨u, b, h3, h⟩ := StM.bind_eq_ok.mp h
      obtain ⟨x, b1, h4, h⟩ := StM.bind_eq_ok.mp h
      rw [StM.ite_bind] at h
      obtain ⟨init, c, h5, h⟩ := StM.bind_eq_ok.mp h
      have hinit : ParsesInitialiser H b init c :=
        ParsesInitialiser.of_run (n := n) (by rw [StM.bind_ok h4]; exact h5)
      obtain ⟨y, c1, h6, h⟩ := StM.bind_eq_ok.mp h
      obtain ⟨e1, e2, e3⟩ := matchIf_eq_ok h6
      cases y
      · rw [e2 rfl] at h
        simp only [Bool.false_eq_true, if_false] at h
        obtain ⟨u2, t2, h7, h⟩ := StM.bind_eq_ok.mp h
        cases h
        obtain ⟨hsemi, hc⟩ := match_eq_ok h7
        exact .last hid hs h3 hinit hsemi hc
      · simp only [if_true] at h
        obtain ⟨rest, t2, h7, h⟩ := StM.bind_eq_ok.mp h
        cases h
        exact .more hid hs h3 hinit (e1.mp rfl) (e3 rfl) (ih h7)
  · intro h
    induction h with
    | last hid hs hchk hinit hsemi hc =>
      obtain ⟨n, hn⟩ := hinit.run
      refine ⟨n + 1, ?_⟩
      rw [parseVar, StM.bind_ok (parseIdentifier_of_identifier hid hs), StM.bind_ok (StM.get_apply _),
        StM.bind_ok hchk]
      have hi := hn n (le_refl _)
      obtain ⟨x, b1, h1, h2⟩ := StM.bind_eq_ok.mp hi
      rw [StM.bind_ok h1, StM.ite_bind, StM.bind_ok h2]
      beta_reduce
      rw [StM.bind_ok (matchIf_of_ne (show _ ≠ TokenType.comma by rw [hsemi]; decide))]
      simp only [Bool.false_eq_true, if_false]
      rw [StM.bind_ok ((match_of_eq hsemi).trans hc)]
      rfl
    | more hid hs hchk hinit hcomma hc _ ih =>
      obtain ⟨n1, hn⟩ := hinit.run
      obtain ⟨n2, hv⟩ := ih
      refine ⟨max n1 n2 + 1, ?_⟩
      rw [parseVar, StM.bind_ok (parseIdentifier_of_identifier hid hs), StM.bind_ok (StM.get_apply _),
        StM.bind_ok hchk]
      have hi := hn (max n1 n2) (Nat.le_max_left _ _)
      obtain ⟨x, b1, h1, h2⟩ := StM.bind_eq_ok.mp hi
      rw [StM.bind_ok h1, StM.ite_bind, StM.bind_ok h2]
      beta_reduce
      rw [StM.bind_ok (matchIf_of_eq hcomma hc)]
      simp only [if_true]
      rw [StM.bind_ok (fuel_mono (fun k => (monoAt H k).parseVar) hv (Nat.le_max_right _ _))]
      rfl

/-- The end of a declaration whose first declarator is followed by a comma:
the remaining declarators are read by `parseVar`. -/
theorem declarator_comma {H : Host} {k : Expression → Statement}
    {f : Expression → Parser Statement} {b c d t : ExpressionTreeBuilder}
    {init : Expression} {rest : Statement}
    (hinit : ParsesInitialiser H b init c) (hcomma : c.currentType = .comma)
    (hc : skip H c = .ok ((), d)) (hv : Parses (parseVar H) d rest t) :
    ∃ n, ∀ m, n ≤ m →
      (matchIf H .assign >>= fun x =>
        if x = true then
          parseExpression H m >>= fun initialiser =>
            matchIf H .comma >>= fun y =>
              if y = true then
                parseVar H m >>= fun rest => pure (.BlockStatement [k initialiser, rest] [])
              else f initialiser
        else
          pure .empty >>= fun initialiser =>
            matchIf H .comma >>= fun y =>
              if y = true then
                parseVar H m >>= fun rest => pure (.BlockStatement [k initialiser, rest] [])
              else f initialiser) b =
        .ok (.BlockStatement [k init, rest] [], t) := by
  obtain ⟨n1, hn⟩ := hinit.run
  obtain ⟨n2, hv⟩ := hv
  refine ⟨max n1 n2, fun m hm => ?_⟩
  have hi := hn m (le_trans (Nat.le_max_left _ _) hm)
  obtain ⟨x, b1, h1, h2⟩ := StM.bind_eq_ok.mp hi
  rw [StM.bind_ok h1, StM.ite_bind, StM.bind_ok h2]
  beta_reduce
  rw [StM.bind_ok (matchIf_of_eq hcomma hc)]
  simp only [if_true]
  rw [StM.bind_ok (fuel_mono (fun k => (monoAt H k).parseVar) hv
    (le_trans (Nat.le_max_right _ _) hm))]
  rfl

/-- The declaration `const [var] name [= e], rest;`: a block of the constant,
with no namespace attached, and what `parseVar` made of the rest; the tables
are those `parseVar` left. -/
theorem parses_parseConstVar_comma {H : Host} {ns : NsPtr} {s a b b' c d t : ExpressionTreeBuilder}
    {m : Bool} {init : Expression} {rest : Statement}
    (hvar : matchIf H .var s = .ok (m, a))
    (hid : a.currentType = .identifier) (ha : skip H a = .ok ((), b))
    (hchk : b.hiseSpecialData.checkIfExistsInOtherStorage .ConstVariables
      a.currentValue.toString b = .ok ((), b'))
    (hinit : ParsesInitialiser H b' init c) (hcomma : c.currentType = .comma)
    (hc : skip H c = .ok ((), d)) (hv : Parses (parseVar H) d rest t) :
    Parses (fun n => parseConstVar H n ns) s
      (.BlockStatement [.ConstVarStatement a.currentValue.toString init none, rest] []) t := by
  obtain ⟨n, hn⟩ := declarator_comma
    (k := fun i => .ConstVarStatement a.currentValue.toString i none)
    (f := fun i => do
      modifyData (fun d => d.modifyNs ns (fun x =>
        { x with constObjects :=
            x.constObjects.set a.currentValue.toString (.string "uninitialised") }))
      pure (.ConstVarStatement a.currentValue.toString i (some ns)))
    hinit hcomma hc hv
  refine ⟨n + 1, ?_⟩
  show parseConstVar H (n + 1) ns s = _
  rw [parseConstVar, StM.bind_ok hvar, StM.bind_ok (parseIdentifier_of_identifier hid ha),
    StM.bind_ok (StM.get_apply _), StM.bind_ok hchk]
  exact hn n (le_refl _)

/-- The declaration `register_var name [= e], rest;`. -/
theorem parses_parseRegisterVar_comma {H : Host} {ns : NsPtr}
    {s a a' c d t : ExpressionTreeBuilder} {init : Expression} {rest : Statement}
    (hid : s.currentType = .identifier) (hs : skip H s = .ok ((), a))
    (hchk : a.hiseSpecialData.checkIfExistsInOtherStorage .Register
      s.currentValue.toString a = .ok ((), a'))
    (hinit : ParsesInitialiser H a' init c) (hcomma : c.currentType = .comma)
    (hc : skip H c = .ok ((), d)) (hv : Parses (parseVar H) d rest t) :
    Parses (fun n => parseRegisterVar H n ns) s
      (.BlockStatement [.RegisterVarStatement s.currentValue.toString ns init, rest] []) t := by
  obtain ⟨n, hn⟩ := declarator_comma
    (k := fun i => .RegisterVarStatement s.currentValue.toString ns i)
    (f := fun i => do
      match_ H .semicolon
      pure (.RegisterVarStatement s.currentValue.toString ns i))
    hinit hcomma hc hv
  refine ⟨n + 1, ?_⟩
  show parseRegisterVar H (n + 1) ns s = _
  rw [parseRegisterVar, StM.bind_ok (parseIdentifier_of_identifier hid hs),
    StM.bind_ok (StM.get_apply _), StM.bind_ok hchk]
  exact hn n (le_refl _)

/-- The declaration `global name [= e], rest;`. -/
theorem parses_parseGlobalAssignment_comma {H : Host}
    {s a c d t : ExpressionTreeBuilder} {init : Expression} {rest : Statement}
    (hid : s.currentType = .identifier) (hs : skip H s = .ok ((), a))
    (hinit : ParsesInitialiser H
      { a with
        hiseSpecialData := (if a.hiseSpecialData.globals.contains s.currentValue.toString then
                              a.hiseSpecialData
                            else { a.hiseSpecialData with
                              globals :=
                                a.hiseSpecialData.globals.set s.currentValue.toString
                                  .undefined }) }
      init c)
    (hcomma : c.currentType = .comma)
    (hc : skip H c = .ok ((), d)) (hv : Parses (parseVar H) d rest t) :
    Parses (parseGlobalAssignment H) s
      (.BlockStatement [.GlobalVarStatement s.currentValue.toString init, rest] []) t := by
  obtain ⟨n, hn⟩ := declarator_comma
    (k := fun i => .GlobalVarStatement s.currentValue.toString i)
    (f := fun i => do
      match_ H .semicolon
      pure (.GlobalVarStatement s.currentValue.toString i))
    hinit hcomma hc hv
  refine ⟨n + 1, ?_⟩
  rw [parseGlobalAssignment, StM.bind_ok (parseIdentifier_of_identifier hid hs)]
  exact hn n (le_refl _)

/-- The declaration `local name [= e], rest;` in the body of an inline
function. -/
theorem parses_parseLocalAssignment_comma {H : Host}
    {s a a' c d t : ExpressionTreeBuilder} {init : Expression} {rest : Statement}
    (hf : s.currentlyParsingInlineFunction = true)
    (hne : (s.hiseSpecialData.ns s.currentNamespace).inlineFunctions ≠ [])
    (hid : s.currentType = .identifier) (hs : skip H s = .ok ((), a))
    (hchk : a.hiseSpecialData.checkIfExistsInOtherStorage .LocalScope
      s.currentValue.toString a = .ok ((), a'))
    (hinit : ParsesInitialiser H
      { a' with
        hiseSpecialData := (a'.hiseSpecialData.modifyInlineFunction
                             ⟨s.currentNamespace,
                               (s.hiseSpecialData.ns s.currentNamespace).inlineFunctions.length - 1⟩
                             (fun o => { o with
                               localProperties :=
                                 o.localProperties.set s.currentValue.toString .undefined })) }
      init c)
    (hcomma : c.currentType = .comma)
    (hc : skip H c = .ok ((), d)) (hv : Parses (parseVar H) d rest t) :
    Parses (parseLocalAssignment H) s
      (.BlockStatement [.LocalVarStatement
        (some ⟨s.currentNamespace,
          (s.hiseSpecialData.ns s.currentNamespace).inlineFunctions.length - 1⟩)
        s.currentValue.toString init, rest] []) t := by
  have he : (s.hiseSpecialData.ns s.currentNamespace).inlineFunctions.isEmpty = false := by
    cases hq : (s.hiseSpecialData.ns s.currentNamespace).inlineFunctions with
    | nil => exact absurd hq hne
    | cons x xs => rfl
  obtain ⟨n, hn⟩ := declarator_comma
    (k := fun i => .LocalVarStatement
        (some ⟨s.currentNamespace,
          (s.hiseSpecialData.ns s.currentNamespace).inlineFunctions.length - 1⟩)
        s.currentValue.toString i)
    (f := fun i => do
      match_ H .semicolon
      pure (.LocalVarStatement
        (some ⟨s.currentNamespace,
          (s.hiseSpecialData.ns s.currentNamespace).inlineFunctions.length - 1⟩)
        s.currentValue.toString i))
    hinit hcomma hc hv
  refine ⟨n + 1, ?_⟩
  rw [parseLocalAssignment, StM.bind_ok (StM.get_apply _)]
  simp only [hf, if_true, he, Bool.false_eq_true, if_false]
  rw [StM.bind_ok (parseIdentifier_of_identifier hid hs), StM.bind_ok (StM.get_apply _),
    StM.bind_ok hchk]
  exact hn n (le_refl _)

/-- The declaration `local name [= e], rest;` in the body of a callback. -/
theorem parses_parseLocalAssignment_callback_comma {H : Host}
    {s a a' c d t : ExpressionTreeBuilder} {init : Expression} {rest : Statement}
    {cb : Callback}
    (hf : s.currentlyParsingInlineFunction = false)
    (hcn : s.currentlyParsedCallback ≠ Identifier.null)
    (hcb : s.hiseSpecialData.getCallback s.currentlyParsedCallback = some cb)
    (hid : s.currentType = .identifier) (hs : skip H s = .ok ((), a))
    (hchk : a.hiseSpecialData.checkIfExistsInOtherStorage .LocalScope
      s.currentValue.toString a = .ok ((), a'))
    (hinit : ParsesInitialiser H
      { a' with
        hiseSpecialData := (a'.hiseSpecialData.modifyCallback s.currentlyParsedCallback
                             (fun o => { o with
                               localProperties :=
                                 o.localProperties.set s.currentValue.toString .void_ })) }
      init c)
    (hcomma : c.currentType = .comma)
    (hc : skip H c = .ok ((), d)) (hv : Parses (parseVar H) d rest t) :
    Parses (parseLocalAssignment H) s
      (.BlockStatement [.CallbackLocalStatement s.currentlyParsedCallback
        s.currentValue.toString init, rest] []) t := by
  obtain ⟨n, hn⟩ := declarator_comma
    (k := fun i => .CallbackLocalStatement s.currentlyParsedCallback s.currentValue.toString i)
    (f := fun i => do
      match_ H .semicolon
      pure (.CallbackLocalStatement s.currentlyParsedCallback s.currentValue.toString i))
    hinit hcomma hc hv
  refine ⟨n + 1, ?_⟩
  rw [parseLocalAssignment, StM.bind_ok (StM.get_apply _)]
  simp only [hf, Bool.false_eq_true, if_false, ne_eq, hcn, not_false_eq_true, if_true]
  rw [StM.bind_ok (parseIdentifier_of_identifier hid hs), StM.bind_ok (StM.get_apply _),
    StM.bind_ok hchk]
  simp only [hcb]
  exact hn n (le_refl _)


/-- The end of a declaration with one declarator. -/
theorem declarator_single {H : Host} {k : Expression → Statement}
    {f : Expression → Parser Statement} {b c t : ExpressionTreeBuilder}
    {init : Expression} {r : Statement}
    (hinit : ParsesInitialiser H b init c) (hcomma : c.currentType ≠ .comma)
    (hfin : f init c = .ok (r, t)) :
    ∃ n, ∀ m, n ≤ m →
      (matchIf H .assign >>= fun x =>
        if x = true then
          parseExpression H m >>= fun initialiser =>
            matchIf H .comma >>= fun y =>
              if y = true then
                parseVar H m >>= fun rest => pure (.BlockStatement [k initialiser, rest] [])
              else f initialiser
        else
          pure .empty >>= fun initialiser =>
            matchIf H .comma >>= fun y =>
              if y = true then
                parseVar H m >>= fun rest => pure (.BlockStatement [k initialiser, rest] [])
              else f initialiser) b =
        .ok (r, t) := by
  obtain ⟨n1, hn⟩ := hinit.run
  refine ⟨n1, fun m hm => ?_⟩
  have hi := hn m hm
  obtain ⟨x, b1, h1, h2⟩ := StM.bind_eq_ok.mp hi
  rw [StM.bind_ok h1, StM.ite_bind, StM.bind_ok h2]
  beta_reduce
  rw [StM.bind_ok (matchIf_of_ne hcomma)]
  simp only [Bool.false_eq_true, if_false]
  exact hfin

/-- The declaration `const [var] name [= e]` with one declarator: the slot of
the constant is reset and the namespace attached. -/
theorem parses_parseConstVar_single {H : Host} {ns : NsPtr} {s a b c : ExpressionTreeBuilder}
    {e : ExpressionTreeBuilder} {m : Bool} {init : Expression}
    (hvar : matchIf H .var s = .ok (m, a))
    (hid : a.currentType = .identifier) (ha : skip H a = .ok ((), b))
    (hchk : b.hiseSpecialData.checkIfExistsInOtherStorage .ConstVariables
      a.currentValue.toString b = .ok ((), e))
    (hinit : ParsesInitialiser H e init c) (hcomma : c.currentType ≠ .comma) :
    Parses (fun n => parseConstVar H n ns) s
      (.ConstVarStatement a.currentValue.toString init (some ns))
      { c with
        hiseSpecialData := (c.hiseSpecialData.modifyNs ns (fun x =>
                             { x with
                               constObjects :=
                                 x.constObjects.set a.currentValue.toString
                                   (.string "uninitialised") })) } := by
  obtain ⟨n, hn⟩ := declarator_single
    (k := fun i => .ConstVarStatement a.currentValue.toString i none)
    (f := fun i => do
      modifyData (fun d => d.modifyNs ns (fun x =>
        { x with constObjects :=
            x.constObjects.set a.currentValue.toString (.string "uninitialised") }))
      pure (.ConstVarStatement a.currentValue.toString i (some ns)))
    hinit hcomma rfl
  refine ⟨n + 1, ?_⟩
  show parseConstVar H (n + 1) ns s = _
  rw [parseConstVar, StM.bind_ok hvar, StM.bind_ok (parseIdentifier_of_identifier hid ha),
    StM.bind_ok (StM.get_apply _), StM.bind_ok hchk]
  exact hn n (le_refl _)

/-- C37: in a declaration whose first declarator is followed by a comma, the
remaining declarators are read by `parseVar`: each of them gives a
`VarStatement` whose name is checked against the storage kind `RootScope`, and
the declaration is a block of the first declaration and what `parseVar`
returned. That holds for `const`, `register_var`, `global` and `local` (in an
inline function or in a callback). For `const` the block holds the
`ConstVarStatement` without a namespace, and the parser state is the one
`parseVar` left, with no slot of the constant pool reset; with one declarator
the slot is reset and the namespace attached. -/
theorem C37_declarator_lists (H : Host) :
    (∀ (s t : ExpressionTreeBuilder) (r : Statement),
      Parses (parseVar H) s r t ↔ VarDeclarators H s r t) ∧
    (∀ (ns : NsPtr) (s a b e c d t : ExpressionTreeBuilder) (m : Bool) (init : Expression)
      (rest : Statement),
      matchIf H .var s = .ok (m, a) → a.currentType = .identifier → skip H a = .ok ((), b) →
      b.hiseSpecialData.checkIfExistsInOtherStorage .ConstVariables
        a.currentValue.toString b = .ok ((), e) →
      ParsesInitialiser H e init c → c.currentType = .comma → skip H c = .ok ((), d) →
      Parses (parseVar H) d rest t →
      VarDeclarators H d rest t ∧
      Parses (fun n => parseConstVar H n ns) s
        (.BlockStatement [.ConstVarStatement a.currentValue.toString init none, rest] []) t) ∧
    (∀ (ns : NsPtr) (s a b e c : ExpressionTreeBuilder) (m : Bool) (init : Expression),
      matchIf H .var s = .ok (m, a) → a.currentType = .identifier → skip H a = .ok ((), b) →
      b.hiseSpecialData.checkIfExistsInOtherStorage .ConstVariables
        a.currentValue.toString b = .ok ((), e) →
      ParsesInitialiser H e init c → c.currentType ≠ .comma →
      Parses (fun n => parseConstVar H n ns) s
        (.ConstVarStatement a.currentValue.toString init (some ns))
        { c with
          hiseSpecialData := (c.hiseSpecialData.modifyNs ns (fun x =>
                               { x with
                                 constObjects :=
                                   x.constObjects.set a.currentValue.toString
                                     (.string "uninitialised") })) }) ∧
    (∀ (ns : NsPtr) (s a e c d t : ExpressionTreeBuilder) (init : Expression) (rest : Statement),
      s.currentType = .identifier → skip H s = .ok ((), a) →
      a.hiseSpecialData.checkIfExistsInOtherStorage .Register
        s.currentValue.toString a = .ok ((), e) →
      ParsesInitialiser H e init c → c.currentType = .comma → skip H c = .ok ((), d) →
      Parses (parseVar H) d rest t →
      VarDeclarators H d rest t ∧
      Parses (fun n => parseRegisterVar H n ns) s
        (.BlockStatement [.RegisterVarStatement s.currentValue.toString ns init, rest] []) t) ∧
    (∀ (s a c d t : ExpressionTreeBuilder) (init : Expression) (rest : Statement),
      s.currentType = .identifier → skip H s = .ok ((), a) →
      ParsesInitialiser H
        { a with
          hiseSpecialData := (if a.hiseSpecialData.globals.contains s.currentValue.toString then
                                a.hiseSpecialData
                              else { a.hiseSpecialData with
                                globals :=
                                  a.hiseSpecialData.globals.set s.currentValue.toString
                                    .undefined }) }
        init c →
      c.currentType = .comma → skip H c = .ok ((), d) →
      Parses (parseVar H) d rest t →
      VarDeclarators H d rest t ∧
      Parses (parseGlobalAssignment H) s
        (.BlockStatement [.GlobalVarStatement s.currentValue.toString init, rest] []) t) ∧
    (∀ (s a e c d t : ExpressionTreeBuilder) (init : Expression) (rest : Statement),
      s.currentlyParsingInlineFunction = true →
      (s.hiseSpecialData.ns s.currentNamespace).inlineFunctions ≠ [] →
      s.currentType = .identifier → skip H s = .ok ((), a) →
      a.hiseSpecialData.checkIfExistsInOtherStorage .LocalScope
        s.currentValue.toString a = .ok ((), e) →
      ParsesInitialiser H
        { e with
          hiseSpecialData := (e.hiseSpecialData.modifyInlineFunction
                               ⟨s.currentNamespace,
                                 (s.hiseSpecialData.ns s.currentNamespace).inlineFunctions.length - 1⟩
                               (fun o => { o with
                                 localProperties :=
                                   o.localProperties.set s.currentValue.toString .undefined })) }
        init c →
      c.currentType = .comma → skip H c = .ok ((), d) →
      Parses (parseVar H) d rest t →
      VarDeclarators H d rest t ∧
      Parses (parseLocalAssignment H) s
        (.BlockStatement [.LocalVarStatement
          (some ⟨s.currentNamespace,
            (s.hiseSpecialData.ns s.currentNamespace).inlineFunctions.length - 1⟩)
          s.currentValue.toString init, rest] []) t) ∧
    (∀ (s a e c d t : ExpressionTreeBuilder) (init : Expression) (rest : Statement)
      (cb : Callback),
      s.currentlyParsingInlineFunction = false →
      s.currentlyParsedCallback ≠ Identifier.null →
      s.hiseSpecialData.getCallback s.currentlyParsedCallback = some cb →
      s.currentType = .identifier → skip H s = .ok ((), a) →
      a.hiseSpecialData.checkIfExistsInOtherStorage .LocalScope
        s.currentValue.toString a = .ok ((), e) →
      ParsesInitialiser H
        { e with
          hiseSpecialData := (e.hiseSpecialData.modifyCallback s.currentlyParsedCallback
                               (fun o => { o with
                                 localProperties :=
                                   o.localProperties.set s.currentValue.toString .void_ })) }
        init c →
      c.currentType = .comma → skip H c = .ok ((), d) →
      Parses (parseVar H) d rest t →
      VarDeclarators H d rest t ∧
      Parses (parseLocalAssignment H) s
        (.BlockStatement [.CallbackLocalStatement s.currentlyParsedCallback
          s.currentValue.toString init, rest] []) t) :=
  ⟨fun _ _ _ => parses_parseVar_iff,
   fun _ _ _ _ _ _ _ _ _ _ _ hvar hid ha hchk hinit hcomma hc hv =>
    ⟨parses_parseVar_iff.mp hv, parses_parseConstVar_comma hvar hid ha hchk hinit hcomma hc hv⟩,
   fun _ _ _ _ _ _ _ _ hvar hid ha hchk hinit hcomma =>
    parses_parseConstVar_single hvar hid ha hchk hinit hcomma,
   fun _ _ _ _ _ _ _ _ _ hid hs hchk hinit hcomma hc hv =>
    ⟨parses_parseVar_iff.mp hv, parses_parseRegisterVar_comma hid hs hchk hinit hcomma hc hv⟩,
   fun _ _ _ _ _ _ _ hid hs hinit hcomma hc hv =>
    ⟨parses_parseVar_iff.mp hv, parses_parseGlobalAssignment_comma hid hs hinit hcomma hc hv⟩,
   fun _ _ _ _ _ _ _ _ hf hne hid hs hchk hinit hcomma hc hv =>
    ⟨parses_parseVar_iff.mp hv,
      parses_parseLocalAssignment_comma hf hne hid hs hchk hinit hcomma hc hv⟩,
   fun _ _ _ _ _ _ _ _ _ hf hcn hcb hid hs hchk hinit hcomma hc hv =>
    ⟨parses_parseVar_iff.mp hv,
      parses_parseLocalAssignment_callback_comma hf hcn hcb hid hs hchk hinit hcomma hc hv⟩⟩


/-- Witness for C37: `const var a = 1, b = 2;` gives a block of the constant
`a`, without a namespace, and the plain variable `b`, and leaves the slot of `a`
as the pre-pass set it; `local a, b;` in an inline function gives a block of the
local variable `a` and the plain variable `b`; and so do `register_var a, b;`
and `global a, b;`. -/
theorem C37_declarator_lists_witness :
    Parses (fun n => parseConstVar specHost n .root)
      (mkParser (declTables { id := Identifier.null, constObjects := [("a", .string "undeclared")], constLocations := [⟨"", 10⟩] } []) false constList 6 9 .var .void_)
      (.BlockStatement [.ConstVarStatement "a" (.LiteralValue (.int64 1)) none,
        .VarStatement "b" (.LiteralValue (.int64 2))] [])
      (mkParser (declTables { id := Identifier.null, constObjects := [("a", .string "undeclared")], constLocations := [⟨"", 10⟩] } []) false constList 23 23 .eof (.int64 2)) ∧
    Parses (fun n => parseRegisterVar specHost n .root)
      (mkParser (declTables { id := Identifier.null } []) false registerList 13 14 .identifier (.string "a"))
      (.BlockStatement [.RegisterVarStatement "a" .root .empty, .VarStatement "b" .empty] [])
      (mkParser (declTables { id := Identifier.null } []) false registerList 18 18 .eof (.string "b")) ∧
    Parses (parseGlobalAssignment specHost)
      (mkParser (declTables { id := Identifier.null } []) false globalList 7 8 .identifier (.string "a"))
      (.BlockStatement [.GlobalVarStatement "a" .empty, .VarStatement "b" .empty] [])
      (mkParser { declTables { id := Identifier.null } [] with globals := [("a", .undefined)] } false globalList 12 12 .eof (.string "b")) ∧
    Parses (parseLocalAssignment specHost)
      (mkParser (declTables { id := Identifier.null, inlineFunctions := [{ name := "f", parameterNames := [], location := ⟨"", 0⟩ }] } []) true localList 6 7 .identifier (.string "a"))
      (.BlockStatement [.LocalVarStatement (some ⟨.root, 0⟩) "a" .empty, .VarStatement "b" .empty] [])
      (mkParser (declTables { id := Identifier.null, inlineFunctions := [{ name := "f", parameterNames := [], location := ⟨"", 0⟩, localProperties := [("a", .undefined)] }] } []) true localList 11 11 .eof (.string "b")) := by
  refine ⟨?_, ?_, ?_, ?_⟩
  · have hv : Parses (parseVar specHost)
        (mkParser (declTables { id := Identifier.null, constObjects := [("a", .string "undeclared")], constLocations := [⟨"", 10⟩] } []) false constList 17 18 .identifier (.string "b"))
        (.VarStatement "b" (.LiteralValue (.int64 2)))
        (mkParser (declTables { id := Identifier.null, constObjects := [("a", .string "undeclared")], constLocations := [⟨"", 10⟩] } []) false constList 23 23 .eof (.int64 2)) :=
      ((C37_declarator_lists specHost).1 _ _ _).mpr
        (VarDeclarators.last
          (a := (mkParser (declTables { id := Identifier.null, constObjects := [("a", .string "undeclared")], constLocations := [⟨"", 10⟩] } []) false constList 19 20 .assign (.string "b")))
          (b := (mkParser (declTables { id := Identifier.null, constObjects := [("a", .string "undeclared")], constLocations := [⟨"", 10⟩] } []) false constList 19 20 .assign (.string "b")))
          (c := (mkParser (declTables { id := Identifier.null, constObjects := [("a", .string "undeclared")], constLocations := [⟨"", 10⟩] } []) false constList 22 23 .semicolon (.int64 2)))
          rfl rfl (checkIfExistsInOtherStorage_free (Or.inl (by decide)))
          (ParsesInitialiser.assign
            (c := (mkParser (declTables { id := Identifier.null, constObjects := [("a", .string "undeclared")], constLocations := [⟨"", 10⟩] } []) false constList 21 22 .literal (.int64 2)))
            rfl rfl
            (parses_parseExpression_of_unary
              (parseUnary_literal rfl rfl (by decide) (by decide) (by decide) (by decide)
                (by decide))
              (by decide)))
          rfl rfl)
    exact ((C37_declarator_lists specHost).2.1 .root
      (mkParser (declTables { id := Identifier.null, constObjects := [("a", .string "undeclared")], constLocations := [⟨"", 10⟩] } []) false constList 6 9 .var .void_)
      (mkParser (declTables { id := Identifier.null, constObjects := [("a", .string "undeclared")], constLocations := [⟨"", 10⟩] } []) false constList 10 11 .identifier (.string "a"))
      (mkParser (declTables { id := Identifier.null, constObjects := [("a", .string "undeclared")], constLocations := [⟨"", 10⟩] } []) false constList 12 13 .assign (.string "a"))
      (mkParser (declTables { id := Identifier.null, constObjects := [("a", .string "undeclared")], constLocations := [⟨"", 10⟩] } []) false constList 12 13 .assign (.string "a"))
      (mkParser (declTables { id := Identifier.null, constObjects := [("a", .string "undeclared")], constLocations := [⟨"", 10⟩] } []) false constList 15 16 .comma (.int64 1))
      (mkParser (declTables { id := Identifier.null, constObjects := [("a", .string "undeclared")], constLocations := [⟨"", 10⟩] } []) false constList 17 18 .identifier (.string "b"))
      _ true (.LiteralValue (.int64 1)) _
      (matchIf_of_eq rfl rfl) rfl rfl (checkIfExistsInOtherStorage_free (Or.inr (by decide)))
      (ParsesInitialiser.assign
        (c := (mkParser (declTables { id := Identifier.null, constObjects := [("a", .string "undeclared")], constLocations := [⟨"", 10⟩] } []) false constList 14 15 .literal (.int64 1)))
        rfl rfl
        (parses_parseExpression_of_unary
          (parseUnary_literal rfl rfl (by decide) (by decide) (by decide) (by decide)
            (by decide))
          (by decide)))
      rfl rfl hv).2
  · have hv : Parses (parseVar specHost)
        (mkParser (declTables { id := Identifier.null } []) false registerList 16 17 .identifier (.string "b"))
        (.VarStatement "b" .empty)
        (mkParser (declTables { id := Identifier.null } []) false registerList 18 18 .eof (.string "b")) :=
      ((C37_declarator_lists specHost).1 _ _ _).mpr
        (VarDeclarators.last
          (a := (mkParser (declTables { id := Identifier.null } []) false registerList 17 18 .semicolon (.string "b")))
          (b := (mkParser (declTables { id := Identifier.null } []) false registerList 17 18 .semicolon (.string "b")))
          (c := (mkParser (declTables { id := Identifier.null } []) false registerList 17 18 .semicolon (.string "b")))
          rfl rfl (checkIfExistsInOtherStorage_free (Or.inl (by decide)))
          (ParsesInitialiser.absent (by decide)) rfl rfl)
    exact ((C37_declarator_lists specHost).2.2.2.1 .root
      (mkParser (declTables { id := Identifier.null } []) false registerList 13 14 .identifier (.string "a"))
      (mkParser (declTables { id := Identifier.null } []) false registerList 14 15 .comma (.string "a"))
      (mkParser (declTables { id := Identifier.null } []) false registerList 14 15 .comma (.string "a"))
      (mkParser (declTables { id := Identifier.null } []) false registerList 14 15 .comma (.string "a"))
      (mkParser (declTables { id := Identifier.null } []) false registerList 16 17 .identifier (.string "b"))
      _ .empty _
      rfl rfl (checkIfExistsInOtherStorage_free (Or.inl (by decide)))
      (ParsesInitialiser.absent (by decide)) rfl rfl hv).2
  · have hv : Parses (parseVar specHost)
        (mkParser { declTables { id := Identifier.null } [] with globals := [("a", .undefined)] } false globalList 10 11 .identifier (.string "b"))
        (.VarStatement "b" .empty)
        (mkParser { declTables { id := Identifier.null } [] with globals := [("a", .undefined)] } false globalList 12 12 .eof (.string "b")) :=
      ((C37_declarator_lists specHost).1 _ _ _).mpr
        (VarDeclarators.last
          (a := (mkParser { declTables { id := Identifier.null } [] with globals := [("a", .undefined)] } false globalList 11 12 .semicolon (.string "b")))
          (b := (mkParser { declTables { id := Identifier.null } [] with globals := [("a", .undefined)] } false globalList 11 12 .semicolon (.string "b")))
          (c := (mkParser { declTables { id := Identifier.null } [] with globals := [("a", .undefined)] } false globalList 11 12 .semicolon (.string "b")))
          rfl rfl (checkIfExistsInOtherStorage_free (Or.inl (by decide)))
          (ParsesInitialiser.absent (by decide)) rfl rfl)
    exact ((C37_declarator_lists specHost).2.2.2.2.1
      (mkParser (declTables { id := Identifier.null } []) false globalList 7 8 .identifier (.string "a"))
      (mkParser (declTables { id := Identifier.null } []) false globalList 8 9 .comma (.string "a"))
      (mkParser { declTables { id := Identifier.null } [] with globals := [("a", .undefined)] } false globalList 8 9 .comma (.string "a"))
      (mkParser { declTables { id := Identifier.null } [] with globals := [("a", .undefined)] } false globalList 10 11 .identifier (.string "b"))
      _ .empty _
      rfl rfl (ParsesInitialiser.absent (by decide)) rfl rfl hv).2
  · have hv : Parses (parseVar specHost)
        (mkParser (declTables { id := Identifier.null, inlineFunctions := [{ name := "f", parameterNames := [], location := ⟨"", 0⟩, localProperties := [("a", .undefined)] }] } []) true localList 9 10 .identifier (.string "b"))
        (.VarStatement "b" .empty)
        (mkParser (declTables { id := Identifier.null, inlineFunctions := [{ name := "f", parameterNames := [], location := ⟨"", 0⟩, localProperties := [("a", .undefined)] }] } []) true localList 11 11 .eof (.string "b")) :=
      ((C37_declarator_lists specHost).1 _ _ _).mpr
        (VarDeclarators.last
          (a := (mkParser (declTables { id := Identifier.null, inlineFunctions := [{ name := "f", parameterNames := [], location := ⟨"", 0⟩, localProperties := [("a", .undefined)] }] } []) true localList 10 11 .semicolon (.string "b")))
          (b := (mkParser (declTables { id := Identifier.null, inlineFunctions := [{ name := "f", parameterNames := [], location := ⟨"", 0⟩, localProperties := [("a", .undefined)] }] } []) true localList 10 11 .semicolon (.string "b")))
          (c := (mkParser (declTables { id := Identifier.null, inlineFunctions := [{ name := "f", parameterNames := [], location := ⟨"", 0⟩, localProperties := [("a", .undefined)] }] } []) true localList 10 11 .semicolon (.string "b")))
          rfl rfl (checkIfExistsInOtherStorage_free (Or.inl (by decide)))
          (ParsesInitialiser.absent (by decide)) rfl rfl)
    exact ((C37_declarator_lists specHost).2.2.2.2.2.1
      (mkParser (declTables { id := Identifier.null, inlineFunctions := [{ name := "f", parameterNames := [], location := ⟨"", 0⟩ }] } []) true localList 6 7 .identifier (.string "a"))
      (mkParser (declTables { id := Identifier.null, inlineFunctions := [{ name := "f", parameterNames := [], location := ⟨"", 0⟩ }] } []) true localList 7 8 .comma (.string "a"))
      (mkParser (declTables { id := Identifier.null, inlineFunctions := [{ name := "f", parameterNames := [], location := ⟨"", 0⟩ }] } []) true localList 7 8 .comma (.string "a"))
      (mkParser (declTables { id := Identifier.null, inlineFunctions := [{ name := "f", parameterNames := [], location := ⟨"", 0⟩, localProperties := [("a", .undefined)] }] } []) true localList 7 8 .comma (.string "a"))
      (mkParser (declTables { id := Identifier.null, inlineFunctions := [{ name := "f", parameterNames := [], location := ⟨"", 0⟩, localProperties := [("a", .undefined)] }] } []) true localList 9 10 .identifier (.string "b"))
      _ .empty _
      rfl (fun e => by cases e) rfl rfl (checkIfExistsInOtherStorage_free (Or.inl (by decide)))
      (ParsesInitialiser.absent (by decide)) rfl rfl hv).2

/-! ## `TemplateParameter::ListOps::merge` -/

theorem mergeLoop_length {κ ι ρ : Type} [DecidableEq κ] (K : TemplateParameter.Header κ ι ρ)
    (parameters : List (TemplateParameter κ ι ρ)) :
    ∀ (arguments : List (TemplateParameter κ ι ρ)) (i : Nat)
      (acc : List (TemplateParameter κ ι ρ)),
      (TemplateParameter.ListOps.mergeLoop K parameters i arguments acc).length = acc.length + arguments.length := by
  intro arguments
  induction arguments with
  | nil => intro i acc; simp [TemplateParameter.ListOps.mergeLoop]
  | cons a rest ih =>
    intro i acc
    rw [TemplateParameter.ListOps.mergeLoop]
    by_cases hi : i < parameters.length
    · rw [dif_pos hi, ih]
      simp only [List.length_append, List.length_cons, List.length_nil]
      omega
    · rw [dif_neg hi, ih]
      simp only [List.length_append, List.length_cons, List.length_nil]
      omega

/-- The entries the loop of `merge` has stored stay as they are. -/
theorem mergeLoop_getElem_acc {κ ι ρ : Type} [DecidableEq κ] (K : TemplateParameter.Header κ ι ρ)
    (parameters : List (TemplateParameter κ ι ρ)) :
    ∀ (arguments : List (TemplateParameter κ ι ρ)) (i : Nat)
      (acc : List (TemplateParameter κ ι ρ)) (j : Nat), j < acc.length →
      (TemplateParameter.ListOps.mergeLoop K parameters i arguments acc)[j]? = acc[j]? := by
  intro arguments
  induction arguments with
  | nil => intro i acc j _; simp [TemplateParameter.ListOps.mergeLoop]
  | cons a rest ih =>
    intro i acc j hj
    rw [TemplateParameter.ListOps.mergeLoop]
    by_cases hi : i < parameters.length
    · rw [dif_pos hi, ih _ _ _ (by simp; omega)]
      exact List.getElem?_append_left hj
    · rw [dif_neg hi, ih _ _ _ (by simp; omega)]
      exact List.getElem?_append_left hj

/-- The entry the loop of `merge` stores for an argument that has a defined
parameter. -/
theorem mergeLoop_getElem_parameter {κ ι ρ : Type} [DecidableEq κ]
    (K : TemplateParameter.Header κ ι ρ) (parameters : List (TemplateParameter κ ι ρ)) :
    ∀ (arguments : List (TemplateParameter κ ι ρ)) (i : Nat)
      (acc : List (TemplateParameter κ ι ρ)) (j : Nat) (a p : TemplateParameter κ ι ρ),
      arguments[j]? = some a → parameters[i + j]? = some p →
      (TemplateParameter.ListOps.mergeLoop K parameters i arguments acc)[acc.length + j]? =
        some { p with argumentId := a.argumentId } := by
  intro arguments
  induction arguments with
  | nil => intro i acc j a p ha; simp at ha
  | cons x rest ih =>
    intro i acc j a p ha hp
    rw [TemplateParameter.ListOps.mergeLoop]
    cases j with
    | zero =>
      simp only [List.getElem?_cons_zero, Option.some.injEq] at ha
      subst ha
      have hi : i < parameters.length := by
        rw [Nat.add_zero] at hp
        exact (List.getElem?_eq_some_iff.mp hp).1
      have hpi : parameters[i] = p := by
        rw [Nat.add_zero] at hp
        exact (List.getElem?_eq_some_iff.mp hp).2
      rw [dif_pos hi, Nat.add_zero, mergeLoop_getElem_acc K parameters rest _ _ _ (by simp), hpi]
      simp
    | succ j =>
      simp only [List.getElem?_cons_succ] at ha
      have e : acc.length + (j + 1) = (acc.length + 1) + j := by omega
      by_cases hi : i < parameters.length
      · have := ih (i + 1) (acc ++ [{ parameters[i] with argumentId := x.argumentId }]) j a p ha
          (by rw [← hp]; congr 1; omega)
        rw [dif_pos hi, e]
        simpa using this
      · have := ih (i + 1) (acc ++ [{ x with t := if x.t = K.TypeTemplateArgument then K.Type_
          else K.ConstantInteger }]) j a p ha (by rw [← hp]; congr 1; omega)
        rw [dif_neg hi, e]
        simpa using this

/-- The entry the loop of `merge` stores for an argument behind the defined
parameters. -/
theorem mergeLoop_getElem_argument {κ ι ρ : Type} [DecidableEq κ]
    (K : TemplateParameter.Header κ ι ρ) (parameters : List (TemplateParameter κ ι ρ)) :
    ∀ (arguments : List (TemplateParameter κ ι ρ)) (i : Nat)
      (acc : List (TemplateParameter κ ι ρ)) (j : Nat) (a : TemplateParameter κ ι ρ),
      arguments[j]? = some a → parameters.length ≤ i + j →
      (TemplateParameter.ListOps.mergeLoop K parameters i arguments acc)[acc.length + j]? =
        some { a with t := if a.t = K.TypeTemplateArgument then K.Type_
          else K.ConstantInteger } := by
  intro arguments
  induction arguments with
  | nil => intro i acc j a ha; simp at ha
  | cons x rest ih =>
    intro i acc j a ha hp
    rw [TemplateParameter.ListOps.mergeLoop]
    cases j with
    | zero =>
      simp only [List.getElem?_cons_zero, Option.some.injEq] at ha
      subst ha
      rw [dif_neg (by omega), Nat.add_zero, mergeLoop_getElem_acc K parameters rest _ _ _ (by simp)]
      simp
    | succ j =>
      simp only [List.getElem?_cons_succ] at ha
      have e : acc.length + (j + 1) = (acc.length + 1) + j := by omega
      by_cases hi : i < parameters.length
      · have := ih (i + 1) (acc ++ [{ parameters[i] with argumentId := x.argumentId }]) j a ha
          (by omega)
        rw [dif_pos hi, e]
        simpa using this
      · have := ih (i + 1) (acc ++ [{ x with t := if x.t = K.TypeTemplateArgument then K.Type_
          else K.ConstantInteger }]) j a ha (by omega)
        rw [dif_neg hi, e]
        simpa using this

/-- The last loop of `merge`: the result is left as it is when every entry is
resolved, and names an unresolved entry otherwise. -/
theorem foldl_isResolved {κ ι ρ : Type} (K : TemplateParameter.Header κ ι ρ) :
    ∀ (l : List (TemplateParameter κ ι ρ)) (r : Result),
      ((∀ p ∈ l, K.isResolved p = true) →
        l.foldl (fun r p =>
          if ¬ K.isResolved p then
            .fail ("Missing template specialisation for " ++ K.toString p.argumentId)
          else r) r = r) ∧
      ((∃ p ∈ l, K.isResolved p = false) →
        ∃ p ∈ l, K.isResolved p = false ∧
          l.foldl (fun r p =>
            if ¬ K.isResolved p then
              .fail ("Missing template specialisation for " ++ K.toString p.argumentId)
            else r) r =
            .fail ("Missing template specialisation for " ++ K.toString p.argumentId)) := by
  intro l
  induction l with
  | nil =>
    intro r
    exact ⟨fun _ => rfl, fun ⟨p, hp, _⟩ => absurd hp (List.not_mem_nil p)⟩
  | cons x xs ih =>
    intro r
    constructor
    · intro h
      rw [List.foldl_cons, if_neg (by simp [h x (List.mem_cons_self _ _)])]
      exact (ih r).1 (fun p hp => h p (List.mem_cons_of_mem _ hp))
    · intro h
      rw [List.foldl_cons]
      by_cases hxs : ∃ p ∈ xs, K.isResolved p = false
      · obtain ⟨p, hp, hr, e⟩ := (ih _).2 hxs
        exact ⟨p, List.mem_cons_of_mem _ hp, hr, e⟩
      · have hall : ∀ p ∈ xs, K.isResolved p = true := by
          intro p hp
          by_contra hc
          exact hxs ⟨p, hp, by simpa using hc⟩
        obtain ⟨p, hp, hr⟩ := h
        have hx : K.isResolved x = false := by
          rcases List.mem_cons.mp hp with e | e
          · rw [← e]; exact hr
          · exact absurd ⟨p, e, hr⟩ hxs
        refine ⟨x, List.mem_cons_self _ _, hx, ?_⟩
        rw [(ih _).1 hall, if_pos (by simp [hx])]


/-- `merge` with at most as many parameters as arguments: the loop and the
check of the entries. -/
theorem merge_of_le {κ ι ρ : Type} [DecidableEq κ] (K : TemplateParameter.Header κ ι ρ)
    (arguments parameters : List (TemplateParameter κ ι ρ)) (r : Result)
    (h : parameters.length ≤ arguments.length) :
    TemplateParameter.ListOps.merge K arguments parameters r =
      (TemplateParameter.ListOps.mergeLoop K parameters 0 arguments [],
        (TemplateParameter.ListOps.mergeLoop K parameters 0 arguments []).foldl (fun r p =>
          if ¬ K.isResolved p then
            .fail ("Missing template specialisation for " ++ K.toString p.argumentId)
          else r) r) := by
  unfold TemplateParameter.ListOps.merge
  by_cases h1 : arguments.isEmpty = true ∧ parameters.isEmpty = true
  · obtain ⟨e1, e2⟩ := h1
    rw [List.isEmpty_iff.mp e1, List.isEmpty_iff.mp e2]
    rfl
  · rw [if_neg h1]
    simp only []
    rw [if_neg (by omega)]

/-- C40: `merge` returns the empty list and the failure "Too many template
parameters" when there are more parameters than arguments. Otherwise it returns
as many entries as there are arguments; the entry at an index below the number
of parameters is the parameter at that index with the `argumentId` of the
argument at that index; the entry at another index is the argument at that
index with its kind turned into `Type`, for a `TypeTemplateArgument`, or into
`ConstantInteger`; and the result `r` is left as it was when every entry is
resolved, and is the failure "Missing template specialisation for" with the id
of an unresolved entry when there is one. -/
theorem C40_template_merge {κ ι ρ : Type} [DecidableEq κ] (K : TemplateParameter.Header κ ι ρ)
    (arguments parameters : List (TemplateParameter κ ι ρ)) (r : Result) :
    (arguments.length < parameters.length →
      TemplateParameter.ListOps.merge K arguments parameters r = ([], .fail "Too many template parameters")) ∧
    (parameters.length ≤ arguments.length →
      (TemplateParameter.ListOps.merge K arguments parameters r).1.length = arguments.length ∧
      (∀ (i : Nat) (a p : TemplateParameter κ ι ρ),
        arguments[i]? = some a → parameters[i]? = some p →
        (TemplateParameter.ListOps.merge K arguments parameters r).1[i]? = some { p with argumentId := a.argumentId }) ∧
      (∀ (i : Nat) (a : TemplateParameter κ ι ρ),
        arguments[i]? = some a → parameters.length ≤ i →
        (TemplateParameter.ListOps.merge K arguments parameters r).1[i]? =
          some { a with t := if a.t = K.TypeTemplateArgument then K.Type_
            else K.ConstantInteger }) ∧
      ((∀ p ∈ (TemplateParameter.ListOps.merge K arguments parameters r).1, K.isResolved p = true) →
        (TemplateParameter.ListOps.merge K arguments parameters r).2 = r) ∧
      ((∃ p ∈ (TemplateParameter.ListOps.merge K arguments parameters r).1, K.isResolved p = false) →
        ∃ p ∈ (TemplateParameter.ListOps.merge K arguments parameters r).1, K.isResolved p = false ∧
          (TemplateParameter.ListOps.merge K arguments parameters r).2 =
            .fail ("Missing template specialisation for " ++ K.toString p.argumentId))) := by
  constructor
  · intro h
    unfold TemplateParameter.ListOps.merge
    rw [if_neg, if_pos h]
    rintro ⟨e1, e2⟩
    rw [List.isEmpty_iff.mp e1, List.isEmpty_iff.mp e2] at h
    exact absurd h (by simp)
  · intro h
    rw [merge_of_le K arguments parameters r h]
    refine ⟨?_, ?_, ?_, ?_, ?_⟩
    · simpa using mergeLoop_length K parameters arguments 0 []
    · intro i a p ha hp
      simpa using mergeLoop_getElem_parameter K parameters arguments 0 [] i a p ha
        (by simpa using hp)
    · intro i a ha hp
      simpa using mergeLoop_getElem_argument K parameters arguments 0 [] i a ha (by omega)
    · exact (foldl_isResolved K _ r).1
    · exact (foldl_isResolved K _ r).2

/-- Witness for C40, with `exampleHeader`: two parameters for one argument are
too many; one parameter for the arguments `T` (a type) and `N` (an integer)
gives the parameter under the id `T` and the argument `N` as a
`ConstantInteger`, which is unresolved, so that the result names `N`. -/
theorem C40_template_merge_witness :
    TemplateParameter.ListOps.merge exampleHeader [⟨0, "T", 0⟩] [⟨1, "", 7⟩, ⟨2, "", 8⟩] .ok =
      ([], .fail "Too many template parameters") ∧
    (TemplateParameter.ListOps.merge exampleHeader [⟨0, "T", 0⟩, ⟨3, "N", 0⟩] [⟨1, "", 7⟩] .ok).1.length = 2 ∧
    (TemplateParameter.ListOps.merge exampleHeader [⟨0, "T", 0⟩, ⟨3, "N", 0⟩] [⟨1, "", 7⟩] .ok).1[0]? =
      some ⟨1, "T", 7⟩ ∧
    (TemplateParameter.ListOps.merge exampleHeader [⟨0, "T", 0⟩, ⟨3, "N", 0⟩] [⟨1, "", 7⟩] .ok).1[1]? =
      some ⟨2, "N", 0⟩ ∧
    (∃ p ∈ (TemplateParameter.ListOps.merge exampleHeader [⟨0, "T", 0⟩, ⟨3, "N", 0⟩] [⟨1, "", 7⟩] .ok).1,
      exampleHeader.isResolved p = false ∧
      (TemplateParameter.ListOps.merge exampleHeader [⟨0, "T", 0⟩, ⟨3, "N", 0⟩] [⟨1, "", 7⟩] .ok).2 =
        .fail ("Missing template specialisation for " ++ exampleHeader.toString p.argumentId)) ∧
    (TemplateParameter.ListOps.merge exampleHeader [⟨0, "T", 5⟩] [] .ok).2 = .ok :=
  ⟨(C40_template_merge exampleHeader [⟨0, "T", 0⟩] [⟨1, "", 7⟩, ⟨2, "", 8⟩] .ok).1 (by decide),
   ((C40_template_merge exampleHeader [⟨0, "T", 0⟩, ⟨3, "N", 0⟩] [⟨1, "", 7⟩] .ok).2
      (by decide)).1,
   ((C40_template_merge exampleHeader [⟨0, "T", 0⟩, ⟨3, "N", 0⟩] [⟨1, "", 7⟩] .ok).2
      (by decide)).2.1 0 ⟨0, "T", 0⟩ ⟨1, "", 7⟩ rfl rfl,
   ((C40_template_merge exampleHeader [⟨0, "T", 0⟩, ⟨3, "N", 0⟩] [⟨1, "", 7⟩] .ok).2
      (by decide)).2.2.1 1 ⟨3, "N", 0⟩ rfl (by decide),
   ((C40_template_merge exampleHeader [⟨0, "T", 0⟩, ⟨3, "N", 0⟩] [⟨1, "", 7⟩] .ok).2
      (by decide)).2.2.2.2
      ⟨⟨2, "N", 0⟩, List.mem_cons_of_mem _ (List.mem_cons_self _ _), rfl⟩,
   ((C40_template_merge exampleHeader [⟨0, "T", 5⟩] [] .ok).2 (by decide)).2.2.2.1
      (by decide)⟩

/-! ## Empty cases at the end of a switch body -/

/-- A `default:` directly followed by the next label or by the end of the
switch body has no body and no condition. -/
theorem parses_parseCaseStatement_default_empty {H : Host} {s a c : ExpressionTreeBuilder}
    (h : s.currentType = .default_) (hs : skip H s = .ok ((), a))
    (hcolon : a.currentType = .colon) (ha : skip H a = .ok ((), c))
    (hc : c.currentType = .case_ ∨ c.currentType = .default_ ∨ c.currentType = .closeBrace) :
    Parses (parseCaseStatement H) s (.CaseStatement false [] none) c := by
  refine ⟨1, ?_⟩
  have hc1 : c.currentType ≠ .openBrace := by rcases hc with hc | hc | hc <;> rw [hc] <;> decide
  rw [parseCaseStatement]
  simp only [StM.bind_apply, StM.get_apply, h, reduceCtorEq, decide_False, hs,
    Bool.false_eq_true, if_false, StM.pure_apply, match_of_eq hcolon, ha, hc1, hc, if_true]

/-- A `default:` followed by statements up to the next label or the end of
the switch body. -/
theorem parses_parseCaseStatement_default_statements {H : Host}
    {s a c d : ExpressionTreeBuilder} {sts : List Statement}
    (h : s.currentType = .default_) (hs : skip H s = .ok ((), a))
    (hcolon : a.currentType = .colon) (ha : skip H a = .ok ((), c))
    (hc : c.currentType ∉ [TokenType.openBrace, .case_, .default_, .closeBrace])
    (hsts : Parses (fun n => parseCaseStatementLoop H n []) c sts d) :
    Parses (parseCaseStatement H) s
      (.CaseStatement false [] (some (.BlockStatement sts []))) d := by
  obtain ⟨n, hsts⟩ := hsts
  refine ⟨n + 1, ?_⟩
  have hc1 : c.currentType ≠ .openBrace := fun e => hc (by simp [e])
  have hc2 : c.currentType ≠ .case_ := fun e => hc (by simp [e])
  have hc3 : c.currentType ≠ .default_ := fun e => hc (by simp [e])
  have hc4 : c.currentType ≠ .closeBrace := fun e => hc (by simp [e])
  rw [parseCaseStatement]
  simp only [StM.bind_apply, StM.get_apply, h, reduceCtorEq, decide_False, hs,
    Bool.false_eq_true, if_false, StM.pure_apply, match_of_eq hcolon, ha, hc1, hc2, hc3, hc4,
    or_self, hsts]

/-- An empty default without conditions changes nothing in the loop of
`parseSwitchBlock`. -/
theorem stackCase_empty_default (acc : SwitchAcc) :
    stackCase acc (.CaseStatement false [] none) = acc := by
  rw [stackCase_none, List.append_nil]

/-- C39: let `cs` be the case statements that `parseCaseStatement` reads in a
switch body. Empty cases at the end of the body are dropped: when `cs` ends with
a run of cases without a body, `parseSwitchBlock` returns the cases and the
default case it returns for `cs` without the run, and every condition of the
switch returned is a condition read before the run. A `default:` with an empty
body leaves the default case as it is: the switch returned is the one returned
without it, and without a default that has a body there is no default case. Of
several defaults with a body only the last one is kept: it is the default case,
with the pending conditions of the empty cases before it, and the case list
holds non-default cases only. -/
theorem C39_trailing_empty_cases (H : Host)
    (s a b c d e f : ExpressionTreeBuilder) (cond : Expression) (cs : List Statement)
    (hopen : s.currentType = .openParen) (hs : skip H s = .ok ((), a))
    (hcond : Parses (parseExpression H) a cond b) (hclose : b.currentType = .closeParen)
    (hb : skip H b = .ok ((), c)) (hbrace : c.currentType = .openBrace)
    (hc : skip H c = .ok ((), d)) (hcs : ParsesCases H d cs e)
    (hend : e.currentType = .closeBrace) (he : skip H e = .ok ((), f)) :
    ∃ cases dflt, Parses (parseSwitchBlock H) s (.SwitchStatement cond cases dflt) f ∧
      (∀ pre run : List Statement, cs = pre ++ run → (∀ r ∈ run, r.caseBody = none) →
        cases = (pre.foldl stackCase ([], [], none)).2.1 ∧
        dflt = (pre.foldl stackCase ([], [], none)).2.2 ∧
        ((cases ++ dflt.toList).flatMap Statement.caseConditions).Subperm
          (pre.flatMap Statement.caseConditions)) ∧
      (∀ pre post : List Statement, cs = pre ++ [.CaseStatement false [] none] ++ post →
        cases = ((pre ++ post).foldl stackCase ([], [], none)).2.1 ∧
        dflt = ((pre ++ post).foldl stackCase ([], [], none)).2.2) ∧
      ((∀ x ∈ cs, x.isNotDefaultCase = true ∨ x.caseBody = none) → dflt = none) ∧
      (∀ (pre post : List Statement) (conds : List Expression) (body : Statement),
        cs = pre ++ [.CaseStatement false conds (some body)] ++ post →
        (∀ p ∈ post, p.isNotDefaultCase = true ∨ p.caseBody = none) →
        dflt = some (.CaseStatement false
          (conds ++ (pre.foldl stackCase ([], [], none)).1) (some body))) ∧
      (∀ x ∈ cases, x.isNotDefaultCase = true) := by
  refine ⟨(cs.foldl stackCase ([], [], none)).2.1, (cs.foldl stackCase ([], [], none)).2.2,
    parses_parseSwitchBlock hopen hs hcond hclose hb hbrace hc
      (parses_parseSwitchBlockLoop hcs ([], [], none)) hend he, ?_, ?_, ?_, ?_, ?_⟩
  · intro pre run hcs' hrun
    have e : cs.foldl stackCase ([], [], none) =
        ((pre.foldl stackCase ([], [], none)).1 ++ run.flatMap Statement.caseConditions,
          (pre.foldl stackCase ([], [], none)).2.1, (pre.foldl stackCase ([], [], none)).2.2) := by
      rw [hcs', List.foldl_append, foldl_stackCase_empty run hrun]
    rw [e]
    refine ⟨rfl, rfl, ?_⟩
    have h := foldl_stackCase_subperm pre ([], [], none)
    simp only [List.nil_append, Option.toList_none, List.flatMap_nil, List.append_nil] at h
    exact (List.Sublist.subperm (List.sublist_append_left _ _)).trans h
  · intro pre post hcs'
    rw [hcs']
    simp only [List.foldl_append, List.foldl_cons, List.foldl_nil, stackCase_empty_default,
      and_self]
  · intro h
    exact foldl_stackCase_default cs h ([], [], none)
  · intro pre post conds body hcs' hpost
    rw [hcs']
    simp only [List.foldl_append, List.foldl_cons, List.foldl_nil, stackCase_default]
    rw [foldl_stackCase_default post hpost]
  · obtain ⟨l, h1, _, h3⟩ := foldl_stackCase_cases cs ([], [], none)
    rw [h1]
    exact h3


/-- Witness for C39: in `switch (x) { default: y; default: z; case 1: default: }`
the switch returned has no case, its default case is the second default, and
the condition `1` of the empty case at the end is in no part of it. -/
theorem C39_trailing_empty_cases_witness :
    Parses (parseSwitchBlock specHost) (trailingState 7 8 .openParen .void_)
      (.SwitchStatement (.UnqualifiedName "x") []
        (some (.CaseStatement false []
          (some (.BlockStatement [.expression (.UnqualifiedName "z")] [])))))
      (trailingState 55 55 .eof (.int64 1)) := by
  have hx : Parses (parseExpression specHost) (trailingState 8 9 .identifier (.string "x"))
      (.UnqualifiedName "x") (trailingState 9 10 .closeParen (.string "x")) :=
    parses_parseExpression_of_unary
      (parses_parseUnary_unqualified rfl rfl rfl (by decide) rfl rfl rfl (by decide))
      (by decide)
  have hy : Parses (parseStatement specHost) (trailingState 22 23 .identifier (.string "y"))
      (.expression (.UnqualifiedName "y")) (trailingState 25 32 .default_ (.string "y")) :=
    parses_parseStatement_expression
      (t := trailingState 23 24 .semicolon (.string "y")) rfl
      (parses_parseExpression_of_unary
        (parses_parseUnary_unqualified rfl rfl rfl (by decide) rfl rfl rfl (by decide))
        (by decide))
      rfl rfl
  have hz : Parses (parseStatement specHost) (trailingState 34 35 .identifier (.string "z"))
      (.expression (.UnqualifiedName "z")) (trailingState 37 41 .case_ (.string "z")) :=
    parses_parseStatement_expression
      (t := trailingState 35 36 .semicolon (.string "z")) rfl
      (parses_parseExpression_of_unary
        (parses_parseUnary_unqualified rfl rfl rfl (by decide) rfl rfl rfl (by decide))
        (by decide))
      rfl rfl
  have h1 : Parses (parseCaseStatement specHost) (trailingState 13 20 .default_ (.string "x"))
      (.CaseStatement false [] (some (.BlockStatement [.expression (.UnqualifiedName "y")] [])))
      (trailingState 25 32 .default_ (.string "y")) :=
    parses_parseCaseStatement_default_statements
      (a := trailingState 20 21 .colon (.string "x"))
      (c := trailingState 22 23 .identifier (.string "y"))
      rfl rfl rfl rfl (by decide)
      (parses_parseCaseStatementLoop_step (by decide) hy
        (parses_parseCaseStatementLoop_stop (Or.inr (Or.inr rfl))))
  have h2 : Parses (parseCaseStatement specHost) (trailingState 25 32 .default_ (.string "y"))
      (.CaseStatement false [] (some (.BlockStatement [.expression (.UnqualifiedName "z")] [])))
      (trailingState 37 41 .case_ (.string "z")) :=
    parses_parseCaseStatement_default_statements
      (a := trailingState 32 33 .colon (.string "y"))
      (c := trailingState 34 35 .identifier (.string "z"))
      rfl rfl rfl rfl (by decide)
      (parses_parseCaseStatementLoop_step (by decide) hz
        (parses_parseCaseStatementLoop_stop (Or.inl rfl)))
  have h3 : Parses (parseCaseStatement specHost) (trailingState 37 41 .case_ (.string "z"))
      (.CaseStatement true [.LiteralValue (.int64 1)] none)
      (trailingState 45 52 .default_ (.int64 1)) :=
    parses_parseCaseStatement_empty
      (a := trailingState 42 43 .literal (.int64 1)) (b := trailingState 43 44 .colon (.int64 1))
      rfl rfl
      (parses_parseExpression_of_unary
        (parseUnary_literal rfl rfl (by decide) (by decide) (by decide) (by decide) (by decide))
        (by decide))
      rfl rfl (Or.inr (Or.inl rfl))
  have h4 : Parses (parseCaseStatement specHost) (trailingState 45 52 .default_ (.int64 1))
      (.CaseStatement false [] none) (trailingState 54 55 .closeBrace (.int64 1)) :=
    parses_parseCaseStatement_default_empty
      (a := trailingState 52 53 .colon (.int64 1)) rfl rfl rfl rfl (Or.inr (Or.inr rfl))
  obtain ⟨cases, dflt, hp, hA, _⟩ :=
    C39_trailing_empty_cases specHost (trailingState 7 8 .openParen .void_)
      (trailingState 8 9 .identifier (.string "x")) (trailingState 9 10 .closeParen (.string "x"))
      (trailingState 11 12 .openBrace (.string "x")) (trailingState 13 20 .default_ (.string "x"))
      (trailingState 54 55 .closeBrace (.int64 1)) (trailingState 55 55 .eof (.int64 1))
      (.UnqualifiedName "x")
      [.CaseStatement false [] (some (.BlockStatement [.expression (.UnqualifiedName "y")] [])),
        .CaseStatement false [] (some (.BlockStatement [.expression (.UnqualifiedName "z")] [])),
        .CaseStatement true [.LiteralValue (.int64 1)] none,
        .CaseStatement false [] none]
      rfl rfl hx rfl rfl rfl rfl
      (ParsesCases.more (Or.inr rfl) h1
        (ParsesCases.more (Or.inr rfl) h2
          (ParsesCases.more (Or.inl rfl) h3
            (ParsesCases.more (Or.inr rfl) h4 (ParsesCases.done (by decide) (by decide))))))
      rfl rfl
  obtain ⟨hcases, hdflt, _⟩ := hA
    [.CaseStatement false [] (some (.BlockStatement [.expression (.UnqualifiedName "y")] [])),
      .CaseStatement false [] (some (.BlockStatement [.expression (.UnqualifiedName "z")] []))]
    [.CaseStatement true [.LiteralValue (.int64 1)] none, .CaseStatement false [] none]
    rfl (fun r hr => by
      simp only [List.mem_cons, List.mem_singleton, List.not_mem_nil, or_false] at hr
      rcases hr with rfl | rfl <;> rfl)
  have e1 : cases = [] := hcases.trans rfl
  have e2 : dflt = some (.CaseStatement false []
      (some (.BlockStatement [.expression (.UnqualifiedName "z")] []))) := hdflt.trans rfl
  rw [e1, e2] at hp
  exact hp

/-! ## Names in the block of a namespace -/

/-- The tests of `parseFactor` for a parameter or a local variable fail at a
name of a namespace block. -/
theorem AtNamespaceName.tests {s : ExpressionTreeBuilder} (h : AtNamespaceName s) :
    ¬ (s.currentlyParsingInlineFunction = true ∧
        (s.hiseSpecialData.ns s.currentNamespace).inlineFunctions.isEmpty = true) ∧
    ¬ (s.currentlyParsingInlineFunction = true ∧
        0 ≤ Hise.indexOf ((s.hiseSpecialData.ns s.currentNamespace).inlineFunctions.getLast?.elim
          [] (·.parameterNames)) s.currentValue.toString) ∧
    ¬ (s.currentlyParsingInlineFunction = true ∧
        0 ≤ NamedValueSet.indexOf
          ((s.hiseSpecialData.ns s.currentNamespace).inlineFunctions.getLast?.elim []
            (·.localProperties)) s.currentValue.toString) := by
  rcases h.notLocal with e | ⟨e1, e2, e3⟩
  · simp [e]
  · refine ⟨fun c => ?_, fun c => ?_, fun c => ?_⟩
    · rw [e1] at c
      exact absurd c.2 (by decide)
    · omega
    · omega

theorem parseFactor_namespace_inline {H : Host} {n : Nat} {p : Option NsPtr}
    {s : ExpressionTreeBuilder} (h : AtNamespaceName s) {o : InlineRef}
    (ho : getInlineFunction s.hiseSpecialData s.currentValue.toString
      (some s.currentNamespace) = some o) :
    parseFactor H (n + 1) p s =
      (parseInlineFunctionCall H n o >>= fun call => parseSuffixes H n call) s := by
  obtain ⟨t1, t2, t3⟩ := h.tests
  rw [parseFactor]
  simp only [StM.bind_apply, StM.get_apply, h.identifier, if_true, ne_eq, h.named,
    not_false_eq_true, h.notIterator, if_false, Option.getD_some, t1, t2, t3, reduceCtorEq, ho]

theorem parseFactor_namespace_api {H : Host} {n : Nat} {p : Option NsPtr}
    {s : ExpressionTreeBuilder} (h : AtNamespaceName s)
    (ho : getInlineFunction s.hiseSpecialData s.currentValue.toString
      (some s.currentNamespace) = none)
    (h1 : Hise.indexOf s.hiseSpecialData.apiIds s.currentValue.toString ≠ -1) :
    parseFactor H (n + 1) p s =
      (parseApiExpression H n >>= fun e => parseSuffixes H n e) s := by
  obtain ⟨t1, t2, t3⟩ := h.tests
  rw [parseFactor]
  simp only [StM.bind_apply, StM.get_apply, h.identifier, if_true, ne_eq, h.named,
    not_false_eq_true, h.notIterator, if_false, Option.getD_some, t1, t2, t3, reduceCtorEq, ho,
    h1]

theorem parseFactor_namespace_const {H : Host} {n : Nat} {p : Option NsPtr}
    {s v : ExpressionTreeBuilder} (h : AtNamespaceName s)
    (ho : getInlineFunction s.hiseSpecialData s.currentValue.toString
      (some s.currentNamespace) = none)
    (h1 : Hise.indexOf s.hiseSpecialData.apiIds s.currentValue.toString = -1)
    (h2 : getConstIndex s.hiseSpecialData s.currentValue.toString
      (some s.currentNamespace) ≠ -1)
    (hs : skip H s = .ok ((), v)) :
    parseFactor H (n + 1) p s = parseSuffixes H n (.ConstReference s.currentNamespace
      (getConstIndex s.hiseSpecialData s.currentValue.toString (some s.currentNamespace))) v := by
  obtain ⟨t1, t2, t3⟩ := h.tests
  rw [parseFactor]
  simp only [StM.bind_apply, StM.get_apply, h.identifier, if_true, ne_eq, h.named,
    not_false_eq_true, h.notIterator, if_false, Option.getD_some, t1, t2, t3, reduceCtorEq, ho,
    h1, h2, not_true_eq_false, parseConstExpression_of_identifier h.identifier hs]

theorem parseFactor_namespace_externalC {H : Host} {n : Nat} {p : Option NsPtr}
    {s : ExpressionTreeBuilder} (h : AtNamespaceName s)
    (ho : getInlineFunction s.hiseSpecialData s.currentValue.toString
      (some s.currentNamespace) = none)
    (h1 : Hise.indexOf s.hiseSpecialData.apiIds s.currentValue.toString = -1)
    (h2 : getConstIndex s.hiseSpecialData s.currentValue.toString
      (some s.currentNamespace) = -1)
    (h3 : s.hiseSpecialData.getExternalCIndex s.currentValue.toString ≠ -1) :
    parseFactor H (n + 1) p s =
      (parseExternalCFunctionCall H n >>= fun e => parseSuffixes H n e) s := by
  obtain ⟨t1, t2, t3⟩ := h.tests
  rw [parseFactor]
  simp only [StM.bind_apply, StM.get_apply, h.identifier, if_true, ne_eq, h.named,
    not_false_eq_true, h.notIterator, if_false, Option.getD_some, t1, t2, t3, reduceCtorEq, ho,
    h1, h2, h3, not_true_eq_false]

theorem parseFactor_namespace_register {H : Host} {n : Nat} {p : Option NsPtr}
    {s v : ExpressionTreeBuilder} (h : AtNamespaceName s)
    (ho : getInlineFunction s.hiseSpecialData s.currentValue.toString
      (some s.currentNamespace) = none)
    (h1 : Hise.indexOf s.hiseSpecialData.apiIds s.currentValue.toString = -1)
    (h2 : getConstIndex s.hiseSpecialData s.currentValue.toString
      (some s.currentNamespace) = -1)
    (h3 : s.hiseSpecialData.getExternalCIndex s.currentValue.toString = -1)
    (h4 : getRegisterIndex s.hiseSpecialData s.currentValue.toString
      (some s.currentNamespace) ≠ -1)
    (hs : skip H s = .ok ((), v)) :
    parseFactor H (n + 1) p s =
      parseSuffixes H n (.RegisterName s.currentValue.toString s.currentNamespace
        (getRegisterIndex s.hiseSpecialData s.currentValue.toString
          (some s.currentNamespace))) v := by
  obtain ⟨t1, t2, t3⟩ := h.tests
  rw [parseFactor]
  simp only [StM.bind_apply, StM.get_apply, h.identifier, if_true, ne_eq, h.named,
    not_false_eq_true, h.notIterator, if_false, Option.getD_some, t1, t2, t3, reduceCtorEq, ho,
    h1, h2, h3, h4, not_true_eq_false, parseIdentifier_of_identifier h.identifier hs]

/-- In the block of a namespace a name that no table holds is read as an
`UnqualifiedName`, whether or not it is the name of a namespace. -/
theorem parseFactor_namespace_unqualified {H : Host} {n : Nat} {p : Option NsPtr}
    {s v : ExpressionTreeBuilder} (h : AtNamespaceName s)
    (ho : getInlineFunction s.hiseSpecialData s.currentValue.toString
      (some s.currentNamespace) = none)
    (h1 : Hise.indexOf s.hiseSpecialData.apiIds s.currentValue.toString = -1)
    (h2 : getConstIndex s.hiseSpecialData s.currentValue.toString
      (some s.currentNamespace) = -1)
    (h3 : s.hiseSpecialData.getExternalCIndex s.currentValue.toString = -1)
    (h4 : getRegisterIndex s.hiseSpecialData s.currentValue.toString
      (some s.currentNamespace) = -1)
    (h5 : NamedValueSet.indexOf s.hiseSpecialData.globals s.currentValue.toString = -1)
    (hcb : s.currentlyParsedCallback = Identifier.null)
    (hs : skip H s = .ok ((), v)) :
    parseFactor H (n + 1) p s =
      parseSuffixes H n (.UnqualifiedName s.currentValue.toString) v := by
  obtain ⟨t1, t2, t3⟩ := h.tests
  rw [parseFactor]
  simp only [StM.bind_apply, StM.get_apply, h.identifier, if_true, ne_eq, h.named,
    not_false_eq_true, h.notIterator, if_false, Option.getD_some, t1, t2, t3, reduceCtorEq, ho,
    h1, h2, h3, h4, h5, hcb, not_true_eq_false, Option.elim_none]
  show (parseIdentifier H >>= fun i => parseSuffixes H n (.UnqualifiedName i)) s = _
  rw [StM.bind_ok (parseIdentifier_of_identifier h.identifier hs)]

theorem parseFactor_namespace_global {H : Host} {n : Nat} {p : Option NsPtr}
    {s v : ExpressionTreeBuilder} (h : AtNamespaceName s)
    (ho : getInlineFunction s.hiseSpecialData s.currentValue.toString
      (some s.currentNamespace) = none)
    (h1 : Hise.indexOf s.hiseSpecialData.apiIds s.currentValue.toString = -1)
    (h2 : getConstIndex s.hiseSpecialData s.currentValue.toString
      (some s.currentNamespace) = -1)
    (h3 : s.hiseSpecialData.getExternalCIndex s.currentValue.toString = -1)
    (h4 : getRegisterIndex s.hiseSpecialData s.currentValue.toString
      (some s.currentNamespace) = -1)
    (h5 : NamedValueSet.indexOf s.hiseSpecialData.globals s.currentValue.toString ≠ -1)
    (hs : skip H s = .ok ((), v)) :
    parseFactor H (n + 1) p s =
      parseSuffixes H n (.GlobalReference s.currentValue.toString) v := by
  obtain ⟨t1, t2, t3⟩ := h.tests
  rw [parseFactor]
  simp only [StM.bind_apply, StM.get_apply, h.identifier, if_true, ne_eq, h.named,
    not_false_eq_true, h.notIterator, if_false, Option.getD_some, t1, t2, t3, reduceCtorEq, ho,
    h1, h2, h3, h4, h5, not_true_eq_false, parseIdentifier_of_identifier h.identifier hs]

/-- In the block of a namespace a name that is in no table is read as a
reference to a callback or as an `UnqualifiedName`. -/
theorem parseFactor_namespace_rest {H : Host} {n : Nat} {p : Option NsPtr}
    {s s' : ExpressionTreeBuilder} {e : Expression} (h : AtNamespaceName s)
    (ho : getInlineFunction s.hiseSpecialData s.currentValue.toString
      (some s.currentNamespace) = none)
    (h1 : Hise.indexOf s.hiseSpecialData.apiIds s.currentValue.toString = -1)
    (h2 : getConstIndex s.hiseSpecialData s.currentValue.toString
      (some s.currentNamespace) = -1)
    (h3 : s.hiseSpecialData.getExternalCIndex s.currentValue.toString = -1)
    (h4 : getRegisterIndex s.hiseSpecialData s.currentValue.toString
      (some s.currentNamespace) = -1)
    (h5 : NamedValueSet.indexOf s.hiseSpecialData.globals s.currentValue.toString = -1)
    (he : parseFactor H (n + 1) p s = .ok (e, s')) :
    e.suffixBase.fromTable = none := by
  obtain ⟨t1, t2, t3⟩ := h.tests
  rw [parseFactor] at he
  simp only [StM.bind_apply, StM.get_apply, h.identifier, if_true, ne_eq, h.named,
    not_false_eq_true, h.notIterator, if_false, Option.getD_some, t1, t2, t3, reduceCtorEq, ho,
    h1, h2, h3, h4, h5, not_true_eq_false] at he
  generalize ((if ¬ s.currentlyParsedCallback = Identifier.null then
      s.hiseSpecialData.getCallback s.currentlyParsedCallback else none).bind
        fun c => c.getVarPointer s.currentValue.toString) = v at he
  cases v with
  | some i =>
    obtain ⟨_, s2, _, hsuf⟩ := StM.bind_eq_ok.mp he
    rw [parseSuffixes_suffixBase _ hsuf]
    rfl
  | none =>
    simp only [] at he
    split_ifs at he
    all_goals
      obtain ⟨_, s2, _, hsuf⟩ := StM.bind_eq_ok.mp he
      rw [parseSuffixes_suffixBase _ hsuf]
      rfl

/-- In the block of a namespace a name that is neither an inline function nor
an API class is read by `skip`. -/
theorem parseFactor_namespace_skip {H : Host} {n : Nat} {p : Option NsPtr}
    {s s' : ExpressionTreeBuilder} {e : Expression} (h : AtNamespaceName s)
    (ho : getInlineFunction s.hiseSpecialData s.currentValue.toString
      (some s.currentNamespace) = none)
    (h1 : Hise.indexOf s.hiseSpecialData.apiIds s.currentValue.toString = -1)
    (hs : ∀ u v, skip H s ≠ .ok (u, v)) :
    parseFactor H (n + 1) p s ≠ .ok (e, s') := by
  have hid : ∀ i v, parseIdentifier H s ≠ .ok (i, v) := fun i v c =>
    hs () v (parseIdentifier_eq_ok c h.identifier).2
  have hbind : ∀ (f : Identifier → Parser Expression), (parseIdentifier H >>= f) s ≠ .ok (e, s') := by
    intro f c
    obtain ⟨i, v, hi, _⟩ := StM.bind_eq_ok.mp c
    exact hid i v hi
  obtain ⟨t1, t2, t3⟩ := h.tests
  intro he
  rw [parseFactor] at he
  simp only [StM.bind_apply, StM.get_apply, h.identifier, if_true, ne_eq, h.named,
    not_false_eq_true, h.notIterator, if_false, Option.getD_some, t1, t2, t3, reduceCtorEq, ho,
    h1, not_true_eq_false] at he
  have hc : ∀ q, (parseConstExpression H q >>= fun c => parseSuffixes H n c) s ≠ .ok (e, s') := by
    intro q c
    obtain ⟨_, _, hc, _⟩ := StM.bind_eq_ok.mp c
    unfold parseConstExpression at hc
    obtain ⟨i, v, hi, _⟩ := StM.bind_eq_ok.mp hc
    exact hid i v hi
  have hx : (parseExternalCFunctionCall H n >>= fun c => parseSuffixes H n c) s ≠
      .ok (e, s') := by
    intro c
    obtain ⟨_, _, hc, _⟩ := StM.bind_eq_ok.mp c
    cases n with
    | zero => simp [parseExternalCFunctionCall, StM.outOfFuel] at hc
    | succ n =>
      rw [parseExternalCFunctionCall] at hc
      obtain ⟨i, v, hi, _⟩ := StM.bind_eq_ok.mp hc
      exact hid i v hi
  generalize ((if ¬ s.currentlyParsedCallback = Identifier.null then
      s.hiseSpecialData.getCallback s.currentlyParsedCallback else none).bind
        fun c => c.getVarPointer s.currentValue.toString) = v at he
  cases v <;> simp only [] at he <;> split_ifs at he
  all_goals first
    | exact hc _ he
    | exact hx he
    | exact hbind _ he

/-- In the block of a namespace `N` a reference to an inline function, a
constant or a register comes from the tables of `N`. -/
theorem parseFactor_namespace_base {H : Host} {n : Nat} {p : Option NsPtr}
    {s s' : ExpressionTreeBuilder} {e : Expression} (h : AtNamespaceName s)
    (he : parseFactor H (n + 1) p s = .ok (e, s')) :
    (e.suffixBase.fromTable = some .inlineFunctionCatalog →
      getInlineFunction s.hiseSpecialData s.currentValue.toString
        (some s.currentNamespace) ≠ none) ∧
    (e.suffixBase.fromTable = some .constPool →
      getConstIndex s.hiseSpecialData s.currentValue.toString (some s.currentNamespace) ≠ -1 ∧
      e.suffixBase = .ConstReference s.currentNamespace
        (getConstIndex s.hiseSpecialData s.currentValue.toString (some s.currentNamespace))) ∧
    (e.suffixBase.fromTable = some .registerFile →
      getRegisterIndex s.hiseSpecialData s.currentValue.toString
        (some s.currentNamespace) ≠ -1 ∧
      e.suffixBase = .RegisterName s.currentValue.toString s.currentNamespace
        (getRegisterIndex s.hiseSpecialData s.currentValue.toString
          (some s.currentNamespace))) := by
  have key : ∀ t : FactorTable, e.suffixBase.fromTable = some t →
      t ≠ .inlineFunctionCatalog → t ≠ .constPool → t ≠ .registerFile →
      (e.suffixBase.fromTable = some .inlineFunctionCatalog →
        getInlineFunction s.hiseSpecialData s.currentValue.toString
          (some s.currentNamespace) ≠ none) ∧
      (e.suffixBase.fromTable = some .constPool →
        getConstIndex s.hiseSpecialData s.currentValue.toString (some s.currentNamespace) ≠ -1 ∧
        e.suffixBase = .ConstReference s.currentNamespace
          (getConstIndex s.hiseSpecialData s.currentValue.toString (some s.currentNamespace))) ∧
      (e.suffixBase.fromTable = some .registerFile →
        getRegisterIndex s.hiseSpecialData s.currentValue.toString
          (some s.currentNamespace) ≠ -1 ∧
        e.suffixBase = .RegisterName s.currentValue.toString s.currentNamespace
          (getRegisterIndex s.hiseSpecialData s.currentValue.toString
            (some s.currentNamespace))) := by
    intro t ht a1 a2 a3
    rw [ht]
    refine ⟨fun c => ?_, fun c => ?_, fun c => ?_⟩
    · exact absurd (Option.some.inj c) a1
    · exact absurd (Option.some.inj c) a2
    · exact absurd (Option.some.inj c) a3
  by_cases ho : getInlineFunction s.hiseSpecialData s.currentValue.toString
      (some s.currentNamespace) = none
  · by_cases h1 : Hise.indexOf s.hiseSpecialData.apiIds s.currentValue.toString = -1
    swap
    · rw [parseFactor_namespace_api h ho h1] at he
      obtain ⟨call, s2, hc, hsuf⟩ := StM.bind_eq_ok.mp he
      refine key .apiClassTable ?_ (by decide) (by decide) (by decide)
      rw [parseSuffixes_suffixBase _ hsuf, suffixBase_of_fromTable (parseApiExpression_eq_ok hc)]
      exact parseApiExpression_eq_ok hc
    -- from here on the token is read by `parseIdentifier` or `parseConstExpression`
    cases hs : skip H s with
    | error m => exact absurd he (parseFactor_namespace_skip h ho h1 (by rw [hs]; exact fun _ _ c => (by cases c)))
    | outOfFuel => exact absurd he (parseFactor_namespace_skip h ho h1 (by rw [hs]; exact fun _ _ c => (by cases c)))
    | ok r =>
      obtain ⟨⟨⟩, v⟩ := r
      by_cases h2 : getConstIndex s.hiseSpecialData s.currentValue.toString
          (some s.currentNamespace) = -1
      swap
      · rw [parseFactor_namespace_const h ho h1 h2 hs] at he
        have hb : e.suffixBase = .ConstReference s.currentNamespace
            (getConstIndex s.hiseSpecialData s.currentValue.toString
              (some s.currentNamespace)) := by
          rw [parseSuffixes_suffixBase _ he]
          rfl
        rw [hb]
        exact ⟨fun c => (by cases c), fun _ => ⟨h2, rfl⟩, fun c => (by cases c)⟩
      by_cases h3 : s.hiseSpecialData.getExternalCIndex s.currentValue.toString = -1
      swap
      · rw [parseFactor_namespace_externalC h ho h1 h2 h3] at he
        obtain ⟨call, s2, hc, hsuf⟩ := StM.bind_eq_ok.mp he
        refine key .externalCTable ?_ (by decide) (by decide) (by decide)
        rw [parseSuffixes_suffixBase _ hsuf,
          suffixBase_of_fromTable (parseExternalCFunctionCall_eq_ok hc)]
        exact parseExternalCFunctionCall_eq_ok hc
      by_cases h4 : getRegisterIndex s.hiseSpecialData s.currentValue.toString
          (some s.currentNamespace) = -1
      swap
      · rw [parseFactor_namespace_register h ho h1 h2 h3 h4 hs] at he
        have hb : e.suffixBase = .RegisterName s.currentValue.toString s.currentNamespace
            (getRegisterIndex s.hiseSpecialData s.currentValue.toString
              (some s.currentNamespace)) := by
          rw [parseSuffixes_suffixBase _ he]
          rfl
        rw [hb]
        exact ⟨fun c => (by cases c), fun c => (by cases c), fun _ => ⟨h4, rfl⟩⟩
      by_cases h5 : NamedValueSet.indexOf s.hiseSpecialData.globals s.currentValue.toString = -1
      swap
      · rw [parseFactor_namespace_global h ho h1 h2 h3 h4 h5 hs] at he
        refine key .globalPropertyBag ?_ (by decide) (by decide) (by decide)
        rw [parseSuffixes_suffixBase _ he]
        rfl
      have hb := parseFactor_namespace_rest h ho h1 h2 h3 h4 h5 he
      rw [hb]
      exact ⟨fun c => (by cases c), fun c => (by cases c), fun c => (by cases c)⟩
  · obtain ⟨o, ho⟩ := Option.ne_none_iff_exists'.mp ho
    rw [parseFactor_namespace_inline h ho] at he
    obtain ⟨call, s2, hc, hsuf⟩ := StM.bind_eq_ok.mp he
    have hb : e.suffixBase.fromTable = some .inlineFunctionCatalog := by
      rw [parseSuffixes_suffixBase _ hsuf,
        suffixBase_of_fromTable (parseInlineFunctionCall_eq_ok hc)]
      exact parseInlineFunctionCall_eq_ok hc
    rw [hb, ho]
    exact ⟨fun _ c => (by cases c), fun c => (by cases c), fun c => (by cases c)⟩

/-! ## C38 -/

/-- C38: in the block of a namespace `N` (the current namespace is not the
root one), at an identifier that is neither the for-in iterator nor a parameter
or local variable of an inline function being parsed, `parseFactor` looks the
name up in the tables of `N`, whatever namespace it was called with: an inline
function of `N` is called; otherwise (and the name not an API class) a constant
of `N` yields `ConstReference (N, index in the constants of N)`; otherwise (and
the name not an external C function) a register of `N` yields a `RegisterName`
of `N`. No namespace is opened by a name: a name that none of these tables
holds is a plain name, whether or not it is the name of a namespace or of a
constant, register or inline function of the root namespace, and a following
`.name` is a dot suffix on it. Whenever the result is built on an inline
function call, a constant reference or a register name, the name is in the
corresponding table of `N`. -/
theorem C38_namespace_body_lookup (H : Host) (p : Option NsPtr) (s v : ExpressionTreeBuilder)
    (h : AtNamespaceName s) (hs : skip H s = .ok ((), v)) :
    (∀ o, getInlineFunction s.hiseSpecialData s.currentValue.toString
        (some s.currentNamespace) = some o →
      o.ns = s.currentNamespace ∧
      ∀ n, parseFactor H (n + 1) p s =
        (parseInlineFunctionCall H n o >>= fun e => parseSuffixes H n e) s) ∧
    (getInlineFunction s.hiseSpecialData s.currentValue.toString
        (some s.currentNamespace) = none →
      Hise.indexOf s.hiseSpecialData.apiIds s.currentValue.toString = -1 →
      (s.hiseSpecialData.ns s.currentNamespace).constObjects.indexOf
        s.currentValue.toString ≠ -1 →
      v.currentType ∉ suffixTokens →
      Parses (fun n => parseFactor H n p) s
        (.ConstReference s.currentNamespace
          ((s.hiseSpecialData.ns s.currentNamespace).constObjects.indexOf
            s.currentValue.toString)) v) ∧
    (getInlineFunction s.hiseSpecialData s.currentValue.toString
        (some s.currentNamespace) = none →
      Hise.indexOf s.hiseSpecialData.apiIds s.currentValue.toString = -1 →
      (s.hiseSpecialData.ns s.currentNamespace).constObjects.indexOf
        s.currentValue.toString = -1 →
      s.hiseSpecialData.getExternalCIndex s.currentValue.toString = -1 →
      (s.hiseSpecialData.ns s.currentNamespace).varRegister.getRegisterIndex
        s.currentValue.toString ≠ -1 →
      v.currentType ∉ suffixTokens →
      Parses (fun n => parseFactor H n p) s
        (.RegisterName s.currentValue.toString s.currentNamespace
          ((s.hiseSpecialData.ns s.currentNamespace).varRegister.getRegisterIndex
            s.currentValue.toString)) v) ∧
    (getInlineFunction s.hiseSpecialData s.currentValue.toString
        (some s.currentNamespace) = none →
      Hise.indexOf s.hiseSpecialData.apiIds s.currentValue.toString = -1 →
      (s.hiseSpecialData.ns s.currentNamespace).constObjects.indexOf
        s.currentValue.toString = -1 →
      s.hiseSpecialData.getExternalCIndex s.currentValue.toString = -1 →
      (s.hiseSpecialData.ns s.currentNamespace).varRegister.getRegisterIndex
        s.currentValue.toString = -1 →
      NamedValueSet.indexOf s.hiseSpecialData.globals s.currentValue.toString = -1 →
      s.currentlyParsedCallback = Identifier.null →
      (v.currentType ∉ suffixTokens →
        Parses (fun n => parseFactor H n p) s (.UnqualifiedName s.currentValue.toString) v) ∧
      ∀ w x : ExpressionTreeBuilder, v.currentType = .dot → skip H v = .ok ((), w) →
        w.currentType = .identifier → skip H w = .ok ((), x) →
        x.currentType ∉ suffixTokens →
        Parses (fun n => parseFactor H n p) s
          (.DotOperator (.UnqualifiedName s.currentValue.toString) w.currentValue.toString) x) ∧
    (∀ n e t, parseFactor H (n + 1) p s = .ok (e, t) →
      (e.suffixBase.fromTable = some .inlineFunctionCatalog →
        Hise.indexOf ((s.hiseSpecialData.ns s.currentNamespace).inlineFunctions.map (·.name))
          s.currentValue.toString ≥ 0) ∧
      (e.suffixBase.fromTable = some .constPool →
        (s.hiseSpecialData.ns s.currentNamespace).constObjects.indexOf
          s.currentValue.toString ≠ -1 ∧
        e.suffixBase = .ConstReference s.currentNamespace
          ((s.hiseSpecialData.ns s.currentNamespace).constObjects.indexOf
            s.currentValue.toString)) ∧
      (e.suffixBase.fromTable = some .registerFile →
        (s.hiseSpecialData.ns s.currentNamespace).varRegister.getRegisterIndex
          s.currentValue.toString ≠ -1 ∧
        e.suffixBase = .RegisterName s.currentValue.toString s.currentNamespace
          ((s.hiseSpecialData.ns s.currentNamespace).varRegister.getRegisterIndex
            s.currentValue.toString))) := by
  refine ⟨fun o ho => ⟨?_, fun n => parseFactor_namespace_inline h ho⟩,
    fun ho h1 h2 hv => ⟨2, ?_⟩, fun ho h1 h2 h3 h4 hv => ⟨2, ?_⟩,
    fun ho h1 h2 h3 h4 h5 hcb => ⟨fun hv => ⟨2, ?_⟩, fun w x hvd hvs hw hws hx => ⟨3, ?_⟩⟩,
    fun n e t he => ?_⟩
  · simp only [getInlineFunction, Option.getD_some] at ho
    split at ho
    · cases ho
    · cases ho; rfl
  · show parseFactor H 2 p s = _
    rw [parseFactor_namespace_const h ho h1 h2 hs, parseSuffixes_stop hv]
    rfl
  · show parseFactor H 2 p s = _
    rw [parseFactor_namespace_register h ho h1 h2 h3 h4 hs, parseSuffixes_stop hv]
    rfl
  · show parseFactor H 2 p s = _
    rw [parseFactor_namespace_unqualified h ho h1 h2 h3 h4 h5 hcb hs, parseSuffixes_stop hv]
  · show parseFactor H 3 p s = _
    rw [parseFactor_namespace_unqualified h ho h1 h2 h3 h4 h5 hcb hs,
      parseSuffixes_dot hvd hvs hw hws, parseSuffixes_stop hx]
  · obtain ⟨b1, b2, b3⟩ := parseFactor_namespace_base h he
    refine ⟨fun c => ?_, b2, b3⟩
    have := b1 c
    simp only [getInlineFunction, Option.getD_some, ne_eq, ite_eq_left_iff, not_lt,
      reduceCtorEq, imp_false, not_le, not_not] at this
    omega

/-- Witness for C38: in the block of the namespace `A`, whose constant is `k`,
the name `k` is a `ConstReference` into `A`; `rc`, a constant of the root
namespace only, is a plain name; `B.m` is the dot suffix `m` on the plain name
`B`, although `B` is a namespace with the constant `m`. -/
theorem C38_namespace_body_lookup_witness :
    Parses (fun n => parseFactor specHost n none)
      (namespaceParser (.named 0) scopedTables "k" 0 1 .identifier (.string "k"))
      (.ConstReference (.named 0) 0)
      (namespaceParser (.named 0) scopedTables "k" 1 1 .eof (.string "k")) ∧
    getConstIndex scopedTables "rc" none = 0 ∧
    Parses (fun n => parseFactor specHost n none)
      (namespaceParser (.named 0) scopedTables "rc" 0 2 .identifier (.string "rc"))
      (.UnqualifiedName "rc")
      (namespaceParser (.named 0) scopedTables "rc" 2 2 .eof (.string "rc")) ∧
    scopedTables.getNamespace "B" = some (.named 1) ∧
    getConstIndex scopedTables "m" (some (.named 1)) = 0 ∧
    Parses (fun n => parseFactor specHost n none)
      (namespaceParser (.named 0) scopedTables "B.m" 0 1 .identifier (.string "B"))
      (.DotOperator (.UnqualifiedName "B") "m")
      (namespaceParser (.named 0) scopedTables "B.m" 3 3 .eof (.string "m")) :=
  ⟨(C38_namespace_body_lookup specHost none
      (namespaceParser (.named 0) scopedTables "k" 0 1 .identifier (.string "k"))
      (namespaceParser (.named 0) scopedTables "k" 1 1 .eof (.string "k"))
      ⟨rfl, by decide, by decide, Or.inl rfl⟩ rfl).2.1 rfl rfl (by decide) (by decide),
    rfl,
    ((C38_namespace_body_lookup specHost none
      (namespaceParser (.named 0) scopedTables "rc" 0 2 .identifier (.string "rc"))
      (namespaceParser (.named 0) scopedTables "rc" 2 2 .eof (.string "rc"))
      ⟨rfl, by decide, by decide, Or.inl rfl⟩ rfl).2.2.2.1
      rfl rfl rfl rfl rfl rfl rfl).1 (by decide),
    rfl, rfl,
    ((C38_namespace_body_lookup specHost none
      (namespaceParser (.named 0) scopedTables "B.m" 0 1 .identifier (.string "B"))
      (namespaceParser (.named 0) scopedTables "B.m" 1 2 .dot (.string "B"))
      ⟨rfl, by decide, by decide, Or.inl rfl⟩ rfl).2.2.2.1
      rfl rfl rfl rfl rfl rfl rfl).2
      (namespaceParser (.named 0) scopedTables "B.m" 2 3 .identifier (.string "m"))
      (namespaceParser (.named 0) scopedTables "B.m" 3 3 .eof (.string "m"))
      rfl rfl rfl rfl (by decide)⟩

/-! ## The frame of `currentIterator` -/

theorem iteratorFrame_refl (H : Host) (s : ExpressionTreeBuilder) : IteratorFrame H s s :=
  .keep rfl rfl rfl

theorem frame_pure {H : Host} {α : Type} (a : α) : Frame H (Pure.pure a : Parser α) := by
  constructor
  intro s b s' h
  simp only [StM.pure_apply, Res.ok.injEq, Prod.mk.injEq] at h
  rw [← h.2]
  exact iteratorFrame_refl H s

theorem frame_get {H : Host} : Frame H (StM.get : Parser ExpressionTreeBuilder) := by
  constructor
  intro s b s' h
  simp only [StM.get_apply, Res.ok.injEq, Prod.mk.injEq] at h
  rw [← h.2]
  exact iteratorFrame_refl H s

theorem frame_throw {H : Host} {α : Type} (e : String) : Frame H (StM.throw e : Parser α) :=
  ⟨fun _ _ _ h => absurd h StM.throw_ne_ok⟩

theorem frame_outOfFuel {H : Host} {α : Type} : Frame H (StM.outOfFuel : Parser α) := by
  constructor
  intro s b s' h
  simp [StM.outOfFuel] at h

theorem frame_modify {H : Host} (f : ExpressionTreeBuilder → ExpressionTreeBuilder)
    (hp : ∀ s, (f s).p = s.p) (ht : ∀ s, (f s).currentType = s.currentType)
    (hc : ∀ s, (f s).currentIterator = s.currentIterator) : Frame H (StM.modify f) := by
  constructor
  intro s b s' h
  simp only [StM.modify_apply, Res.ok.injEq, Prod.mk.injEq] at h
  rw [← h.2]
  exact .keep (hp s) (ht s) (hc s)

theorem frame_modifyData {H : Host} (f : HiseSpecialData → HiseSpecialData) :
    Frame H (modifyData f) :=
  frame_modify _ (fun _ => rfl) (fun _ => rfl) (fun _ => rfl)

theorem frame_bind {H : Host} {α β : Type} {m : Parser α} {k : α → Parser β}
    (hm : Frame H m) (hk : ∀ a, Frame H (k a)) : Frame H (m >>= k) := by
  constructor
  intro s b s' h
  obtain ⟨a, t, h1, h2⟩ := StM.bind_eq_ok.mp h
  exact .trans (hm.h _ _ _ h1) ((hk a).h _ _ _ h2)

theorem frame_ite {H : Host} {α : Type} {c : Prop} [Decidable c] {p q : Parser α}
    (hp : Frame H p) (hq : Frame H q) : Frame H (if c then p else q) := by
  by_cases hc : c
  · simpa [hc] using hp
  · simpa [hc] using hq

theorem frame_skip {H : Host} : Frame H (skip H) :=
  ⟨fun _ _ _ h => .token h⟩

theorem frame_match_ {H : Host} (t : TokenType) : Frame H (match_ H t) :=
  ⟨fun _ _ _ h => .token (match_eq_ok h).2⟩

theorem frame_matchIf {H : Host} (t : TokenType) : Frame H (matchIf H t) := by
  constructor
  intro s b s' h
  obtain ⟨_, h1, h2⟩ := matchIf_eq_ok h
  cases b with
  | false => rw [h1 rfl]; exact iteratorFrame_refl H s
  | true => exact .token (h2 rfl)

theorem frame_liftRes {H : Host} {α : Type} (r : Res α) : Frame H (liftRes r) := by
  constructor
  intro s b s' h
  unfold Hise.liftRes at h
  split at h <;> simp only [Res.ok.injEq, Prod.mk.injEq, reduceCtorEq] at h
  rw [← h.2]
  exact iteratorFrame_refl H s

theorem frame_liftExcept {H : Host} {α : Type} (r : Except String α) :
    Frame H (liftExcept r) := by
  constructor
  intro s b s' h
  unfold Hise.liftExcept at h
  split at h <;> simp only [Res.ok.injEq, Prod.mk.injEq, reduceCtorEq] at h
  rw [← h.2]
  exact iteratorFrame_refl H s

theorem frame_catchInclude {H : Host} {α : Type} {m : Parser α} (hm : Frame H m) :
    Frame H (catchInclude m) := by
  constructor
  intro s b s' h
  unfold catchInclude at h
  split at h
  · next r hr =>
    cases h
    exact hm.h _ _ _ hr
  · split at h <;> cases h
  · cases h

theorem frame_runNested {H : Host} {α : Type} (it : TokenIterator) (m : Parser α) :
    Frame H (runNested it m) := by
  constructor
  intro s b s' h
  unfold Hise.runNested at h
  split at h <;> simp only [Res.ok.injEq, Prod.mk.injEq, reduceCtorEq] at h
  rw [← h.2]
  exact .keep rfl rfl rfl

theorem frame_checkIfExistsInOtherStorage {H : Host} (d : HiseSpecialData)
    (t : VariableStorageType) (name : Identifier) :
    Frame H (d.checkIfExistsInOtherStorage t name) := by
  unfold HiseSpecialData.checkIfExistsInOtherStorage
  repeat' (first
    | (with_reducible exact frame_pure _)
    | (with_reducible exact frame_get)
    | (with_reducible exact frame_throw _)
    | (with_reducible exact frame_outOfFuel)
    | (with_reducible exact frame_modifyData _)
    | (with_reducible exact frame_skip)
    | (with_reducible exact frame_match_ _)
    | (with_reducible exact frame_matchIf _)
    | (with_reducible exact frame_liftRes _)
    | (with_reducible exact frame_liftExcept _)
    | (with_reducible exact frame_runNested _ _)
    | (with_reducible refine frame_catchInclude ?_)
    | (with_reducible refine frame_modify _ (fun _ => rfl) (fun _ => rfl) (fun _ => rfl))
    | (with_reducible refine frame_bind ?_ ?_)
    | (with_reducible refine frame_ite ?_ ?_)
    | intro _
    | split
    | (dsimp only))

theorem frame_parseIdentifier {H : Host} : Frame H (parseIdentifier H) := by
  unfold Hise.parseIdentifier
  repeat' (first
    | (with_reducible exact frame_pure _)
    | (with_reducible exact frame_get)
    | (with_reducible exact frame_throw _)
    | (with_reducible exact frame_outOfFuel)
    | (with_reducible exact frame_modifyData _)
    | (with_reducible exact frame_skip)
    | (with_reducible exact frame_match_ _)
    | (with_reducible exact frame_matchIf _)
    | (with_reducible exact frame_liftRes _)
    | (with_reducible exact frame_liftExcept _)
    | (with_reducible exact frame_runNested _ _)
    | (with_reducible refine frame_catchInclude ?_)
    | (with_reducible refine frame_modify _ (fun _ => rfl) (fun _ => rfl) (fun _ => rfl))
    | (with_reducible refine frame_bind ?_ ?_)
    | (with_reducible refine frame_ite ?_ ?_)
    | intro _
    | split
    | (dsimp only))

theorem frame_matchEndOfStatement {H : Host} (e : Expression) :
    Frame H (matchEndOfStatement H e) := by
  unfold Hise.matchEndOfStatement
  repeat' (first
    | (with_reducible exact frame_pure _)
    | (with_reducible exact frame_get)
    | (with_reducible exact frame_throw _)
    | (with_reducible exact frame_outOfFuel)
    | (with_reducible exact frame_modifyData _)
    | (with_reducible exact frame_skip)
    | (with_reducible exact frame_match_ _)
    | (with_reducible exact frame_matchIf _)
    | (with_reducible exact frame_liftRes _)
    | (with_reducible exact frame_liftExcept _)
    | (with_reducible exact frame_runNested _ _)
    | (with_reducible refine frame_catchInclude ?_)
    | (with_reducible refine frame_modify _ (fun _ => rfl) (fun _ => rfl) (fun _ => rfl))
    | (with_reducible refine frame_bind ?_ ?_)
    | (with_reducible refine frame_ite ?_ ?_)
    | intro _
    | split
    | (dsimp only))

theorem frame_matchCloseParen {H : Host} (e : Expression) : Frame H (matchCloseParen H e) := by
  unfold Hise.matchCloseParen
  repeat' (first
    | (with_reducible exact frame_pure _)
    | (with_reducible exact frame_get)
    | (with_reducible exact frame_throw _)
    | (with_reducible exact frame_outOfFuel)
    | (with_reducible exact frame_modifyData _)
    | (with_reducible exact frame_skip)
    | (with_reducible exact frame_match_ _)
    | (with_reducible exact frame_matchIf _)
    | (with_reducible exact frame_liftRes _)
    | (with_reducible exact frame_liftExcept _)
    | (with_reducible exact frame_runNested _ _)
    | (with_reducible refine frame_catchInclude ?_)
    | (with_reducible refine frame_modify _ (fun _ => rfl) (fun _ => rfl) (fun _ => rfl))
    | (with_reducible refine frame_bind ?_ ?_)
    | (with_reducible refine frame_ite ?_ ?_)
    | intro _
    | split
    | (dsimp only))

theorem frame_parseConstExpression {H : Host} (ns : Option NsPtr) :
    Frame H (parseConstExpression H ns) := by
  unfold Hise.parseConstExpression
  repeat' (first
    | (with_reducible exact frame_pure _)
    | (with_reducible exact frame_get)
    | (with_reducible exact frame_throw _)
    | (with_reducible exact frame_outOfFuel)
    | (with_reducible exact frame_modifyData _)
    | (with_reducible exact frame_skip)
    | (with_reducible exact frame_match_ _)
    | (with_reducible exact frame_matchIf _)
    | (with_reducible exact frame_liftRes _)
    | (with_reducible exact frame_liftExcept _)
    | (with_reducible exact frame_runNested _ _)
    | (with_reducible refine frame_catchInclude ?_)
    | (with_reducible exact frame_parseIdentifier)
    | (with_reducible refine frame_modify _ (fun _ => rfl) (fun _ => rfl) (fun _ => rfl))
    | (with_reducible refine frame_bind ?_ ?_)
    | (with_reducible refine frame_ite ?_ ?_)
    | intro _
    | split
    | (dsimp only))

theorem frame_parseApiConstant {H : Host} (c : ApiClass) (i : Identifier) :
    Frame H (parseApiConstant c i) :=
  frame_pure _

theorem frame_parsePostIncDec {H : Host} (op : Expression → Expression → Expression)
    (lhs : Expression) : Frame H (parsePostIncDec op lhs) :=
  frame_pure _

theorem frame_parseCallbackParameters {H : Host} (name : Identifier) (numArgs k i : Nat) :
    Frame H (parseCallbackParameters H name numArgs k i) := by
  induction k generalizing i with
  | zero => exact frame_pure _
  | succ k ih =>
    rw [Hise.parseCallbackParameters]
    repeat' (first
      | (with_reducible exact frame_pure _)
      | (with_reducible exact frame_get)
      | (with_reducible exact frame_throw _)
      | (with_reducible exact frame_outOfFuel)
      | (with_reducible exact frame_modifyData _)
      | (with_reducible exact frame_skip)
      | (with_reducible exact frame_match_ _)
      | (with_reducible exact frame_matchIf _)
      | (with_reducible exact frame_liftRes _)
      | (with_reducible exact frame_liftExcept _)
      | (with_reducible exact frame_runNested _ _)
      | (with_reducible refine frame_catchInclude ?_)
      | (with_reducible exact frame_parseIdentifier)
      | (with_reducible exact ih _)
      | (with_reducible refine frame_modify _ (fun _ => rfl) (fun _ => rfl) (fun _ => rfl))
      | (with_reducible refine frame_bind ?_ ?_)
      | (with_reducible refine frame_ite ?_ ?_)
      | intro _
      | split
      | (dsimp only))

theorem frameAt_zero (H : Host) : FrameAt H 0 := by
  constructor <;> intros <;> exact frame_outOfFuel

/-- The frame of `parseExpression`: the branch of `in` is the one that writes
`currentIterator`. -/
theorem frame_parseExpression {H : Host} {n : Nat} (ih : FrameAt H n) :
    Frame H (parseExpression H (n + 1)) := by
  rw [parseExpression]
  refine frame_bind frame_get fun s => ?_
  dsimp only
  refine frame_bind ih.parseLogicOperator fun lhs => ?_
  constructor
  intro s0 e s1 h
  obtain ⟨b, t, hb, h⟩ := StM.bind_eq_ok.mp h
  obtain ⟨hin, hfalse, hskip⟩ := matchIf_eq_ok hb
  cases b with
  | true =>
    simp only [if_true] at h
    obtain ⟨rhs, u, hr, h⟩ := StM.bind_eq_ok.mp h
    simp only [StM.bind_apply, StM.modify_apply, StM.pure_apply, Res.ok.injEq,
      Prod.mk.injEq] at h
    rw [← h.2]
    exact .inExpression _ (hin.mp rfl) (hskip rfl) (ih.parseExpression.h _ _ _ hr)
  | false =>
    rw [hfalse rfl] at h
    simp only [Bool.false_eq_true, if_false] at h
    refine (show Frame H _ from ?_).h _ _ _ h
    repeat' (first
      | (with_reducible exact frame_pure _)
      | (with_reducible exact frame_get)
      | (with_reducible exact frame_throw _)
      | (with_reducible exact frame_outOfFuel)
      | (with_reducible exact frame_modifyData _)
      | (with_reducible exact frame_skip)
      | (with_reducible exact frame_match_ _)
      | (with_reducible exact frame_matchIf _)
      | (with_reducible exact frame_liftRes _)
      | (with_reducible exact frame_liftExcept _)
      | (with_reducible exact frame_runNested _ _)
      | (with_reducible refine frame_catchInclude ?_)
      | (with_reducible exact ih.parseTerneryOperator _)
      | (with_reducible exact ih.parseExpression)
      | (with_reducible exact ih.parseInPlaceOpExpression _ _)
      | (with_reducible refine frame_modify _ (fun _ => rfl) (fun _ => rfl) (fun _ => rfl))
      | (with_reducible refine frame_bind ?_ ?_)
      | (with_reducible refine frame_ite ?_ ?_)
      | intro _
      | split
      | (dsimp only))

set_option maxHeartbeats 4000000 in
theorem frameAt_succ (H : Host) (n : Nat) (ih : FrameAt H n) : FrameAt H (n + 1) := by
  constructor <;> intros <;>
  (first
    | exact frame_parseExpression ih
    | rw [parseStatementListLoop]
    | rw [parseStatementList]
    | rw [parseFunctionParamsLoop]
    | rw [parseFunctionParamsAndBody]
    | rw [parseInPlaceOpExpression]
    | rw [parseBlock]
    | rw [parseStatement]
    | rw [parseExternalFile]
    | rw [parseIf]
    | rw [parseReturn]
    | rw [parseVar]
    | rw [parseConstVar]
    | rw [parseRegisterVar]
    | rw [parseLockStatement]
    | rw [parseGlobalAssignment]
    | rw [parseLocalAssignment]
    | rw [parseCallback]
    | rw [parseNamespace]
    | rw [parseFunction]
    | rw [parseArgumentsLoop]
    | rw [parseInlineFunctionCall]
    | rw [parseInlineFunctionSkipLoop]
    | rw [parseInlineFunction]
    | rw [parseExternalCArgumentsLoop]
    | rw [parseExternalCBodyLoop]
    | rw [parseExternalCFunction]
    | rw [parseExternalCFunctionCall]
    | rw [parseCaseStatementLoop]
    | rw [parseCaseStatement]
    | rw [parseSwitchBlockLoop]
    | rw [parseSwitchBlock]
    | rw [parseForLoop]
    | rw [parseDoOrWhileLoop]
    | rw [parseFunctionDefinition]
    | rw [parseFunctionCall]
    | rw [parseApiExpression]
    | rw [parseApiCallLoop]
    | rw [parseApiCall]
    | rw [parseSuffixes]
    | rw [parseObjectDeclarationLoop]
    | rw [parseNewLoop]
    | rw [parseFactor]
    | rw [parsePreIncDec]
    | rw [parseTypeof]
    | rw [parseUnary]
    | rw [parseMultiplyDivideLoop]
    | rw [parseMultiplyDivide]
    | rw [parseAdditionSubtractionLoop]
    | rw [parseAdditionSubtraction]
    | rw [parseShiftOperatorLoop]
    | rw [parseShiftOperator]
    | rw [parseComparatorLoop]
    | rw [parseComparator]
    | rw [parseLogicOperatorLoop]
    | rw [parseLogicOperator]
    | rw [parseTerneryOperator]
  ) <;>
  repeat' (first
    | (with_reducible exact frame_pure _)
    | (with_reducible exact frame_get)
    | (with_reducible exact frame_throw _)
    | (with_reducible exact frame_outOfFuel)
    | (with_reducible exact frame_modifyData _)
    | (with_reducible exact frame_skip)
    | (with_reducible exact frame_match_ _)
    | (with_reducible exact frame_matchIf _)
    | (with_reducible exact frame_liftRes _)
    | (with_reducible exact frame_liftExcept _)
    | (with_reducible exact frame_runNested _ _)
    | (with_reducible refine frame_catchInclude ?_)
    | (with_reducible exact frame_checkIfExistsInOtherStorage _ _ _)
    | (with_reducible exact frame_parseIdentifier)
    | (with_reducible exact frame_matchEndOfStatement _)
    | (with_reducible exact frame_matchCloseParen _)
    | (with_reducible exact frame_parseConstExpression _)
    | (with_reducible exact frame_parseApiConstant _ _)
    | (with_reducible exact frame_parsePostIncDec _ _)
    | (with_reducible exact frame_parseCallbackParameters _ _ _ _)
    | (with_reducible exact ih.parseStatementListLoop _ _)
    | (with_reducible exact ih.parseStatementList)
    | (with_reducible exact ih.parseFunctionParamsLoop _)
    | (with_reducible exact ih.parseFunctionParamsAndBody)
    | (with_reducible exact ih.parseExpression)
    | (with_reducible exact ih.parseInPlaceOpExpression _ _)
    | (with_reducible exact ih.parseBlock)
    | (with_reducible exact ih.parseStatement)
    | (with_reducible exact ih.parseExternalFile)
    | (with_reducible exact ih.parseIf)
    | (with_reducible exact ih.parseReturn)
    | (with_reducible exact ih.parseVar)
    | (with_reducible exact ih.parseConstVar _)
    | (with_reducible exact ih.parseRegisterVar _)
    | (with_reducible exact ih.parseLockStatement _)
    | (with_reducible exact ih.parseGlobalAssignment)
    | (with_reducible exact ih.parseLocalAssignment)
    | (with_reducible exact ih.parseCallback)
    | (with_reducible exact ih.parseNamespace)
    | (with_reducible exact ih.parseFunction)
    | (with_reducible exact ih.parseArgumentsLoop _ _)
    | (with_reducible exact ih.parseInlineFunctionCall _)
    | (with_reducible exact ih.parseInlineFunctionSkipLoop)
    | (with_reducible exact ih.parseInlineFunction _)
    | (with_reducible exact ih.parseExternalCArgumentsLoop _)
    | (with_reducible exact ih.parseExternalCBodyLoop _)
    | (with_reducible exact ih.parseExternalCFunction)
    | (with_reducible exact ih.parseExternalCFunctionCall)
    | (with_reducible exact ih.parseCaseStatementLoop _)
    | (with_reducible exact ih.parseCaseStatement)
    | (with_reducible exact ih.parseSwitchBlockLoop _ _ _)
    | (with_reducible exact ih.parseSwitchBlock)
    | (with_reducible exact ih.parseForLoop)
    | (with_reducible exact ih.parseDoOrWhileLoop _)
    | (with_reducible exact ih.parseFunctionDefinition)
    | (with_reducible exact ih.parseFunctionCall _ _)
    | (with_reducible exact ih.parseApiExpression)
    | (with_reducible exact ih.parseApiCallLoop _ _ _)
    | (with_reducible exact ih.parseApiCall _ _ _)
    | (with_reducible exact ih.parseSuffixes _)
    | (with_reducible exact ih.parseObjectDeclarationLoop _ _)
    | (with_reducible exact ih.parseNewLoop _)
    | (with_reducible exact ih.parseFactor _)
    | (with_reducible exact ih.parsePreIncDec _)
    | (with_reducible exact ih.parseTypeof)
    | (with_reducible exact ih.parseUnary)
    | (with_reducible exact ih.parseMultiplyDivideLoop _)
    | (with_reducible exact ih.parseMultiplyDivide)
    | (with_reducible exact ih.parseAdditionSubtractionLoop _)
    | (with_reducible exact ih.parseAdditionSubtraction)
    | (with_reducible exact ih.parseShiftOperatorLoop _)
    | (with_reducible exact ih.parseShiftOperator)
    | (with_reducible exact ih.parseComparatorLoop _)
    | (with_reducible exact ih.parseComparator)
    | (with_reducible exact ih.parseLogicOperatorLoop _)
    | (with_reducible exact ih.parseLogicOperator)
    | (with_reducible exact ih.parseTerneryOperator _)
    | (with_reducible refine frame_modify _ (fun _ => rfl) (fun _ => rfl) (fun _ => rfl))
    | (with_reducible refine frame_bind ?_ ?_)
    | (with_reducible refine frame_ite ?_ ?_)
    | intro _
    | split
    | (dsimp only))

theorem frameAt (H : Host) (n : Nat) : FrameAt H n := by
  induction n with
  | zero => exact frameAt_zero H
  | succ n ih => exact frameAt_succ H n ih

theorem tokenSkip_of_skip {H : Host} {s s' : ExpressionTreeBuilder}
    (h : skip H s = .ok ((), s')) :
    TokenIterator.skip H s.toTokenIterator = .ok ((), s'.toTokenIterator) := by
  simp only [skip, liftIt] at h
  split at h <;> simp only [Res.ok.injEq, Prod.mk.injEq, reduceCtorEq] at h
  next a it e =>
    rw [e, ← h.2]

/-- What is read from where a token ended is read from where it began. -/
theorem reads_of_skip {H : Host} {p : List Char} {u : TokenIterator} (h : Reads H p u) :
    ∀ t v : TokenIterator, TokenIterator.skip H t = .ok ((), v) → v.p = p → Reads H t.p u := by
  induction h with
  | first hp hs =>
    intro t v ht hv
    exact .next (.first rfl ht) (hp.trans hv.symm) hs
  | next _ hp hs ih =>
    intro t v ht hv
    exact .next (ih t v ht hv) hp hs

theorem noInAhead_skip {H : Host} {s s' : ExpressionTreeBuilder}
    (h : skip H s = .ok ((), s')) (hn : NoInAhead H s) : NoInAhead H s' :=
  ⟨hn.2 _ (.first rfl (tokenSkip_of_skip h)),
    fun u hu => hn.2 u (reads_of_skip hu _ _ (tokenSkip_of_skip h) rfl)⟩

/-- Where no token `in` is read, `currentIterator` is left as it is. -/
theorem iteratorFrame_noIn {H : Host} {s s' : ExpressionTreeBuilder}
    (h : IteratorFrame H s s') :
    NoInAhead H s → s'.currentIterator = s.currentIterator ∧ NoInAhead H s' := by
  induction h with
  | keep hp ht hc =>
    intro hn
    refine ⟨hc, ?_, ?_⟩
    · rw [ht]; exact hn.1
    · rw [hp]; exact hn.2
  | token hs =>
    intro hn
    exact ⟨(skip_fields hs).2.2.2.2, noInAhead_skip hs hn⟩
  | inExpression id hin _ _ _ =>
    intro hn
    exact absurd hin hn.1
  | trans _ _ ih1 ih2 =>
    intro hn
    obtain ⟨e1, n1⟩ := ih1 hn
    obtain ⟨e2, n2⟩ := ih2 n1
    exact ⟨e2.trans e1, n2⟩

/-- The tokens read from `; x;`. -/
theorem reads_forInThenName {u : TokenIterator} (h : Reads specHost "; x;".toList u) :
    (u.p = " x;".toList ∧ u.currentType = .semicolon) ∨
    (u.p = ";".toList ∧ u.currentType = .identifier) ∨
    (u.p = [] ∧ u.currentType = .semicolon) ∨ (u.p = [] ∧ u.currentType = .eof) := by
  have step : ∀ (t v : TokenIterator) (p q : String) (ty : TokenType), t.p = p.toList →
      (∀ l a b c, TokenIterator.skip specHost ⟨l, a, b, c, p.toList⟩ = .ok ((), v) →
        v.p = q.toList ∧ v.currentType = ty) →
      TokenIterator.skip specHost t = .ok ((), v) → v.p = q.toList ∧ v.currentType = ty := by
    intro t v p q ty hp hk hs
    obtain ⟨l, a, b, c, p0⟩ := t
    simp only at hp
    subst hp
    exact hk l a b c hs
  have inj : ∀ {a b : TokenIterator}, (Res.ok ((), a) : Res (Unit × TokenIterator)) = .ok ((), b) →
      a = b := fun e => (Prod.mk.inj (Res.ok.inj e)).2
  have k1 : ∀ t v : TokenIterator, t.p = "; x;".toList →
      TokenIterator.skip specHost t = .ok ((), v) →
      v.p = " x;".toList ∧ v.currentType = .semicolon :=
    fun t v hp => step t v "; x;" " x;" .semicolon hp
      (fun l a b c e => by rw [← inj e]; exact ⟨rfl, rfl⟩)
  have k2 : ∀ t v : TokenIterator, t.p = " x;".toList →
      TokenIterator.skip specHost t = .ok ((), v) →
      v.p = ";".toList ∧ v.currentType = .identifier :=
    fun t v hp => step t v " x;" ";" .identifier hp
      (fun l a b c e => by rw [← inj e]; exact ⟨rfl, rfl⟩)
  have k3 : ∀ t v : TokenIterator, t.p = ";".toList →
      TokenIterator.skip specHost t = .ok ((), v) →
      v.p = "".toList ∧ v.currentType = .semicolon :=
    fun t v hp => step t v ";" "" .semicolon hp
      (fun l a b c e => by rw [← inj e]; exact ⟨rfl, rfl⟩)
  have k4 : ∀ t v : TokenIterator, t.p = "".toList →
      TokenIterator.skip specHost t = .ok ((), v) →
      v.p = "".toList ∧ v.currentType = .eof :=
    fun t v hp => step t v "" "" .eof hp
      (fun l a b c e => by rw [← inj e]; exact ⟨rfl, rfl⟩)
  generalize hq : "; x;".toList = q at h
  induction h with
  | first hp hs =>
    subst hq
    exact .inl (k1 _ _ hp hs)
  | next _ hp hs ih =>
    rcases ih with c | c | c | c
    · exact .inr (.inl (k2 _ _ (hp.trans c.1) hs))
    · exact .inr (.inr (.inl (k3 _ _ (hp.trans c.1) hs)))
    · exact .inr (.inr (.inr (k4 _ _ (hp.trans c.1) hs)))
    · exact .inr (.inr (.inr (k4 _ _ (hp.trans c.1) hs)))

/-- The statements of `forInThenName`: the `x` after the loop is an
`IteratorName`. -/
theorem forInThenName_parses :
    ParsesStatements specHost
      (mkState HiseSpecialData.empty forInThenName forInThenName " (x in xs) y; x;" .for_ .void_)
      [.LoopStatement false true none none (.LiteralValue (.bool true))
        (some (.expression (.UnqualifiedName "y"))) (some (.UnqualifiedName "xs")),
       .expression (.IteratorName "x")]
      (mkStateIn "x" HiseSpecialData.empty forInThenName "" "" .eof (.string "x")) :=
  .more (t := mkStateIn "x" HiseSpecialData.empty forInThenName "x;" ";" .identifier
      (.string "x")) (by decide) (by decide)
    (parses_parseStatement_for
      (t := mkState HiseSpecialData.empty forInThenName "(x in xs) y; x;" "x in xs) y; x;"
        .openParen .void_) rfl rfl
      (parses_parseForLoop_forIn
        (a := mkState HiseSpecialData.empty forInThenName "x in xs) y; x;" " in xs) y; x;"
          .identifier (.string "x"))
        (b := mkStateIn "x" HiseSpecialData.empty forInThenName ") y; x;" " y; x;" .closeParen
          (.string "xs"))
        (c := mkStateIn "x" HiseSpecialData.empty forInThenName "y; x;" "; x;" .identifier
          (.string "y"))
        rfl rfl (by decide)
        (parses_parseExpression_in
          (a := mkState HiseSpecialData.empty forInThenName "in xs) y; x;" " xs) y; x;" .in_
            (.string "x"))
          (b := mkState HiseSpecialData.empty forInThenName "xs) y; x;" ") y; x;" .identifier
            (.string "xs"))
          (c := mkState HiseSpecialData.empty forInThenName ") y; x;" " y; x;" .closeParen
            (.string "xs"))
          (parses_parseLogicOperator_of_unary
            (parses_parseUnary_unqualified rfl rfl rfl (by decide) rfl rfl rfl (by decide))
            (by decide))
          rfl rfl
          (parses_parseExpression_of_unary
            (parses_parseUnary_unqualified rfl rfl rfl (by decide) rfl rfl rfl (by decide))
            (by decide)))
        rfl rfl
        (parses_parseStatement_expression
          (t := mkStateIn "x" HiseSpecialData.empty forInThenName "; x;" " x;" .semicolon
            (.string "y"))
          rfl
          (parses_parseExpression_of_unary
            (parses_parseUnary_unqualified rfl rfl rfl (by decide) rfl rfl rfl (by decide))
            (by decide))
          rfl rfl)))
    (.more (t := mkStateIn "x" HiseSpecialData.empty forInThenName "" "" .eof (.string "x"))
      (by decide) (by decide)
      (parses_parseStatement_expression
        (t := mkStateIn "x" HiseSpecialData.empty forInThenName ";" "" .semicolon (.string "x"))
        rfl
        (parses_parseExpression_of_unary
          (parses_parseUnary_iterator rfl rfl rfl (by decide))
          (by decide))
        rfl rfl)
      (.done (.inr rfl)))

/-! ## C36 -/

/-- C36: the parser field `currentIterator` is written by the branch of `in` in
`parseExpression` and by nothing else. Every finished run of every parsing
function is an `IteratorFrame`: a walk over the tokens in which
`currentIterator` changes only where a token `in` is read, the expression after
it is parsed and the name is written; so a run that starts where no token `in`
is ahead leaves `currentIterator` as it is. The run of `a in e` ends with the
name remembered at `a` as `currentIterator`, and an identifier token equal to
`currentIterator` is read as an `IteratorName` wherever it stands. A for-in
loop ends in the state in which its body ended: nothing restores or clears the
name, and with no further `in` ahead the statements after the loop are parsed
with the loop's iterator. In `for (x in xs) y; x;` the `x` after the loop is an
`IteratorName`; in `for (x in xs) for (y in ys) x;` the `x` in the inner body,
read after the inner `in`, is an `UnqualifiedName`. -/
theorem C36_iterator_never_cleared (H : Host) :
    (∀ n, FrameAt H n) ∧
    (∀ s s', IteratorFrame H s s' → NoInAhead H s →
      s'.currentIterator = s.currentIterator ∧ NoInAhead H s') ∧
    (∀ (s a b c : ExpressionTreeBuilder) (lhs rhs : Expression),
      Parses (parseLogicOperator H) s lhs a → a.currentType = .in_ →
      skip H a = .ok ((), b) → Parses (parseExpression H) b rhs c →
      Parses (parseExpression H) s rhs { c with currentIterator := expressionId s }) ∧
    (∀ (t t1 : ExpressionTreeBuilder) (n : Nat) (ns : Option NsPtr),
      t.currentType = .identifier → t.currentValue.toString = t.currentIterator →
      skip H t = .ok ((), t1) →
      parseFactor H (n + 1) ns t =
        parseSuffixes H n (.IteratorName t.currentValue.toString) t1) ∧
    (∀ (s a b c s4 : ExpressionTreeBuilder) (iter : Expression) (body : Statement),
      s.currentType = .openParen → skip H s = .ok ((), a) → a.currentType ≠ .var →
      Parses (parseExpression H) a iter b → b.currentType = .closeParen →
      skip H b = .ok ((), c) → Parses (parseStatement H) c body s4 →
      Parses (parseForLoop H) s
        (.LoopStatement false true none none (.LiteralValue (.bool true)) (some body)
          (some iter)) s4 ∧
      (NoInAhead H c →
        s4.currentIterator = b.currentIterator ∧
        ∀ n st s5, parseStatement H n s4 = .ok (st, s5) →
          s5.currentIterator = b.currentIterator)) ∧
    NoInAhead specHost
      (mkStateIn "x" HiseSpecialData.empty forInThenName "y; x;" "; x;" .identifier
        (.string "y")) ∧
    ParsesStatements specHost
      (mkState HiseSpecialData.empty forInThenName forInThenName " (x in xs) y; x;" .for_ .void_)
      [.LoopStatement false true none none (.LiteralValue (.bool true))
        (some (.expression (.UnqualifiedName "y"))) (some (.UnqualifiedName "xs")),
       .expression (.IteratorName "x")]
      (mkStateIn "x" HiseSpecialData.empty forInThenName "" "" .eof (.string "x")) ∧
    Parses (parseStatement specHost)
      (mkState HiseSpecialData.empty nestedForIn nestedForIn " (x in xs) for (y in ys) x;" .for_
        .void_)
      (.LoopStatement false true none none (.LiteralValue (.bool true))
        (some (.LoopStatement false true none none (.LiteralValue (.bool true))
          (some (.expression (.UnqualifiedName "x"))) (some (.UnqualifiedName "ys"))))
        (some (.UnqualifiedName "xs")))
      (mkStateIn "y" HiseSpecialData.empty nestedForIn "" "" .eof (.string "x")) := by
  refine ⟨frameAt H, fun s s' h hn => iteratorFrame_noIn h hn,
    fun s a b c lhs rhs hl hin hs hr => parses_parseExpression_in hl hin hs hr,
    fun t t1 n ns ht hit hs => parseFactor_iterator ht hit hs,
    fun s a b c s4 iter body hopen hs hvar hiter hclose hs3 hbody => ⟨?_, fun hn => ?_⟩,
    ⟨by decide, fun u hu => ?_⟩, forInThenName_parses, nestedForIn_parses⟩
  · exact parses_parseForLoop_forIn hopen hs hvar hiter hclose hs3 hbody
  · obtain ⟨n, hb⟩ := hbody
    obtain ⟨e, hn4⟩ := iteratorFrame_noIn ((frameAt H n).parseStatement.h _ _ _ hb) hn
    have ec : s4.currentIterator = b.currentIterator := e.trans (skip_fields hs3).2.2.2.2
    refine ⟨ec, fun m st s5 h5 => ?_⟩
    exact ((iteratorFrame_noIn ((frameAt H m).parseStatement.h _ _ _ h5) hn4).1).trans ec
  · rcases reads_forInThenName hu with c | c | c | c <;> rw [c.2] <;> decide

end Hise
